import Mathlib

/-!
# Grid refinement of dune-uggrid (`gm/refine.c`): a shallow embedding

Pointers are modelled by their addresses: a natural number, `0` standing for `NULL`.
The mesh is a record of field maps (one map per accessor macro of `gm.h`), so that
`MARK(e)` reads `s.MARK e` and `SETMARK(e,m)` is an update of the map at `e`.
Tables and procedures that `refine.c` uses but does not define (element descriptors,
refinement rules, node and element allocation, the C library) are fields of `Env`.
-/

namespace UG

/-! ## Basic types -/

/-! A `NODE *`, an `ELEMENT *` and an `EDGE *` are natural numbers (`0` is `NULL`), an
`INT` is an integer, a counter or an index a natural number. -/

/-- Return code `GM_OK`. -/
def GM_OK : Int := 0
/-- Return code `GM_ERROR`. -/
def GM_ERROR : Int := 1
/-- Return code `GM_FATAL`. -/
def GM_FATAL : Int := 999

/-- The refinement classes stored in `ECLASS`, `MARKCLASS` and `REFINECLASS`. -/
inductive CLASS where
  | NO_CLASS
  | YELLOW_CLASS
  | GREEN_CLASS
  | RED_CLASS
  deriving DecidableEq, Repr

/-- The element shapes stored in `TAG`. -/
inductive TAG where
  | TRIANGLE
  | QUADRILATERAL
  | TETRAHEDRON
  | PYRAMID
  | PRISM
  | HEXAHEDRON
  deriving DecidableEq, Repr

/-- Update of an array or field map at one index. -/
def upd {α : Type} (f : Nat → α) (k : Nat) (v : α) : Nat → α :=
  fun x => if x = k then v else f x

/-- Update of a two-index field map (such as `NBELEM(e,i)`). -/
def upd2 {α : Type} (f : Nat → Nat → α) (k i : Nat) (v : α) : Nat → Nat → α :=
  fun x y => if x = k ∧ y = i then v else f x y

/-- Why a run did not come back to its caller with a value. -/
inductive Stop where
  /-- A failed `assert`, or a step whose behaviour C leaves undefined. -/
  | abort
  /-- The loop budget of the model was used up. -/
  | fuel
  deriving DecidableEq, Repr

/-- The entries of `element_descriptors[tag]` that `refine.c` reads. -/
structure ELEMENT_DESC where
  corners_of_elem : Nat
  edges_of_elem : Nat
  sides_of_elem : Nat
  corner_of_edge : Nat → Nat → Nat
  corners_of_side : Nat → Nat
  corner_of_side : Nat → Nat → Nat
  edges_of_side : Nat → Nat
  edge_of_side : Nat → Nat → Nat
  /-- The two sides `side_with_edge[edge][0..1]` an edge of a 3-D element lies on -/
  side_with_edge : Nat → Nat → Nat

/-- One record of the comparison tables of `Connect_Sons_of_ElementSide`. -/
structure COMPARE_RECORD where
  /-- Element to connect -/
  elem : Nat
  /-- Side of elem to connect -/
  side : Nat
  /-- Number of nodes of side -/
  nodes : Nat
  /-- The four slots `nodeptr[0..3]`, in descending order once filled -/
  nodeptr : Nat → Nat

/-- A call of a procedure of the grid manager, as kept in the history of a run. -/
inductive Event where
  /-- A call `CreateMidNode(theGrid,e,i)`, for the edge with address `edge` -/
  | CreateMidNode (e i edge : Nat)
  /-- A call `UnrefineElement(fineGrid,e)` -/
  | UnrefineElement (e : Nat)
  /-- A call `UpdateContext(fineGrid,e,theContext)` -/
  | UpdateContext (e : Nat)
  /-- A call `RefineElementRed(fineGrid,e,theContext)` -/
  | RefineElementRed (e : Nat)
  /-- A call `RefineElementGreen(fineGrid,e,theContext)` -/
  | RefineElementGreen (e : Nat)
  /-- A call `CreateElement(theGrid,tag,objtype,nodes,father)` and the element it returned,
  `0` for `NULL` -/
  | CreateElement (father son : Nat)
  /-- A call `DisposeConnectionsInNeighborhood(theGrid,e)` -/
  | DisposeConnectionsInNeighborhood (e : Nat)
  /-- A call `DisposeElement(theGrid,e,TRUE)` -/
  | DisposeElement (e : Nat)
  /-- A call `PrintErrorMessage('E',"RefineMultiGrid",...)` -/
  | PrintErrorMessage
  deriving DecidableEq, Repr

/-- The mesh and the file-scope variables: one map per accessor of `gm.h`, the element list
of the level at hand, and the pointers of the FIFO. -/
structure Mesh where
  TAG : Nat → TAG
  /-- Whether `OBJT(e) == BEOBJ` -/
  BEOBJ : Nat → Bool
  SIDE_ON_BND : Nat → Nat → Bool
  CORNER : Nat → Nat → Nat
  NBELEM : Nat → Nat → Nat
  EFATHER : Nat → Nat
  NSONS : Nat → Nat
  SON : Nat → Nat → Nat
  SUCCE : Nat → Nat
  PREDE : Nat → Nat
  ECLASS : Nat → CLASS
  MARKCLASS : Nat → CLASS
  REFINECLASS : Nat → CLASS
  MARK : Nat → Int
  REFINE : Nat → Int
  COARSEN : Nat → Nat
  USED : Nat → Nat
  UPDATE_GREEN : Nat → Nat
  SIDEPATTERN : Nat → Nat
  /-- The edge `GetEdge(n0,n1)` between two nodes, `0` when there is none -/
  GetEdge : Nat → Nat → Nat
  PATTERN : Nat → Nat
  ADDPATTERN : Nat → Nat
  MIDNODE : Nat → Nat
  SONNODE : Nat → Nat
  /-- The head `FIRSTELEMENT(theGrid)` of the element list -/
  FIRSTELEMENT : Nat
  /-- The grid `UPGRID(theGrid)` of the next finer level, `0` when there is none -/
  UPGRID : Nat
  /-- The flag `GRID_CHANGED` in the status of the finer grid -/
  GRID_CHANGED : Bool
  /-- The file-scope counter `No_Green_Update` -/
  No_Green_Update : Int
  /-- The file-scope counter `Green_Marks` -/
  Green_Marks : Int
  /-- The file-scope pointer `fifo_first`: first element in the fifo work list -/
  fifo_first : Nat
  /-- The file-scope pointer `fifo_last`: last element in the fifo work list -/
  fifo_last : Nat
  /-- The file-scope pointer `fifo_insertfirst`: first element in the fifo insert list -/
  fifo_insertfirst : Nat
  /-- The file-scope pointer `fifo_insertlast`: last element in the fifo insert list -/
  fifo_insertlast : Nat
  /-- The addresses the node allocator will hand out next; empty when the pool is exhausted -/
  nodePool : List Nat
  /-- The addresses `CreateElement` will hand out next; empty when the pool is exhausted -/
  elemPool : List Nat
  /-- The macro `UPGRID(g)` for the finer grids `g`, `0` when there is none -/
  UPGRID_of : Nat → Nat
  /-- The history of calls made so far, oldest first -/
  trace : List Event

/-- What `Get_Sons_of_ElementSideProc` hands back through its output parameters. -/
structure SonsOfSide where
  code : Int
  Sons_of_Side : Nat
  SonList : Nat → Nat
  SonSides : Nat → Nat

/-- The build and everything `refine.c` takes from elsewhere. -/
structure Env where
  /-- Dimension of the build: 2 for `__TWODIM__`, 3 for `__THREEDIM__` -/
  DIM : Nat
  /-- The file-scope flag `hFlag`: 1 in closure mode, 0 with hanging nodes -/
  hFlag : Nat
  /-- The file-scope flag `fifoFlag` -/
  fifoFlag : Nat
  element_descriptors : TAG → ELEMENT_DESC
  /-- The rule number `NO_REFINEMENT` of `gm.h` -/
  NO_REFINEMENT : Int
  /-- The rule number `COPY` of `gm.h` -/
  COPY : Int
  /-- The rule number `RED` of `gm.h` -/
  RED : Int
  /-- The rule number `T_RED` -/
  T_RED : Int
  /-- The rule number `Q_RED` -/
  Q_RED : Int
  /-- The rule number `PYR_RED` -/
  PYR_RED : Int
  /-- The rule number `PRI_RED` -/
  PRI_RED : Int
  /-- The rule number `HEXA_RED` -/
  HEXA_RED : Int
  /-- The rule number `FULL_REFRULE_0_5` -/
  FULL_REFRULE_0_5 : Int
  /-- The rule number `FULL_REFRULE_1_3` -/
  FULL_REFRULE_1_3 : Int
  /-- The rule number `FULL_REFRULE_2_4` -/
  FULL_REFRULE_2_4 : Int
  /-- The macro `NODE_OF_RULE(e,m,i)`, which reads `RefRules[TAG(e)][m].pattern[i]` -/
  NODE_OF_RULE : TAG → Int → Nat → Nat
  /-- The macro `MARK2PATTERN(e,m)`, entry `i` -/
  MARK2PATTERN : TAG → Int → Nat → Nat
  /-- The macro `MARK2PAT(e,m)` -/
  MARK2PAT : TAG → Int → Nat
  /-- The macro `PATTERN2MARK(e,p)`, `-1` when no rule fits -/
  PATTERN2MARK : TAG → Nat → Int
  /-- The macro `RULE2PAT(e,r)` -/
  RULE2PAT : TAG → Int → Nat
  /-- The macro `PATTERN2RULE(e,p)` -/
  PATTERN2RULE : TAG → Nat → Int
  /-- The macro `RULE2MARK(e,r)` -/
  RULE2MARK : TAG → Int → Int
  /-- The macro `NSONS_OF_RULE(MARK2RULEADR(e,m))` -/
  NSONS_OF_RULE : TAG → Int → Nat
  /-- The macro `SON_PATH_OF_RULE(MARK2RULEADR(e,m),i)` -/
  SON_PATH_OF_RULE : TAG → Int → Nat → Nat
  /-- The macro `PATHDEPTH(path)` -/
  PATHDEPTH : Nat → Nat
  /-- The macro `NEXTSIDE(path,pos)` -/
  NEXTSIDE : Nat → Nat → Nat
  /-- The macro `NEXTSIDEHEX(path,pos)` -/
  NEXTSIDEHEX : Nat → Nat → Nat
  /-- The test `SWITCHCLASS(CLASS_OF_RULE(MARK2RULEADR(e,m)))` -/
  SWITCHCLASS_OF_MARK : TAG → Int → Bool
  /-- The call `(*theFullRefRule)(e)` -/
  theFullRefRule : Mesh → Nat → Int
  /-- The test `TYPE_DEF_IN_GRID(theGrid,SIDEVECTOR)` -/
  SIDEVECTOR_DEF : Bool
  /-- Result of `DisposeDoubledSideVector(theGrid,e0,s0,e1,s1)` -/
  DisposeDoubledSideVector : Nat → Nat → Nat → Nat → Int
  /-- Result of `CreateSonElementSide(theGrid,e,side,son,sonside)` -/
  CreateSonElementSide : Nat → Nat → Nat → Nat → Int
  /-- The procedure behind the pointer `Get_Sons_of_ElementSideProc`, called with `NeedSons` -/
  Get_Sons_of_ElementSideProc : Mesh → Nat → Nat → Nat → SonsOfSide
  /-- The C library's `qsort` on an array of record pointers -/
  qsort : (COMPARE_RECORD → COMPARE_RECORD → Int) → List COMPARE_RECORD → List COMPARE_RECORD
  /-- Result of `GetSideNode(e,n0,n1,side)`: the side node between two mid nodes, or `0` -/
  GetSideNode : Mesh → Nat → Nat → Nat → Nat → Nat
  /-- The procedure `UnrefineElement(fineGrid,e)` of `refine.c`, taken as given -/
  UnrefineElement : Mesh → Nat → Except Stop (Int × Mesh)
  /-- The procedure `RefineElementRed(fineGrid,e,theContext)` of `refine.c`, taken as given -/
  RefineElementRed : Mesh → Nat → (Nat → Nat) → Except Stop (Int × Mesh)
  /-- The procedure `RefineElementGreen(fineGrid,e,theContext)` of `refine.c`, taken as
  given -/
  RefineElementGreen : Mesh → Nat → (Nat → Nat) → Except Stop (Int × Mesh)
  /-- The macro `SON_TAG_OF_RULE(MARK2RULEADR(e,m),s)` -/
  SON_TAG_OF_RULE : TAG → Int → Nat → TAG
  /-- The macro `SON_NB_OF_RULE(MARK2RULEADR(e,m),s,i)` -/
  SON_NB_OF_RULE : TAG → Int → Nat → Nat → Nat
  /-- The macro `SON_CORNER_OF_RULE(MARK2RULEADR(e,m),s,i)` -/
  SON_CORNER_OF_RULE : TAG → Int → Nat → Nat → Nat
  /-- The constant `FATHER_SIDE_OFFSET` of the rule manager -/
  FATHER_SIDE_OFFSET : Nat
  /-- The constant `MAX_SONS` of `gm.h` -/
  MAX_SONS : Nat
  /-- Result of `DisposeElement(theGrid,e,TRUE)` -/
  DisposeElement_code : Nat → Int
  /-- The case `GREEN_CLASS` of `Get_Sons_of_ElementSide`, which rests on `GetSonSideNodes`
  of `ugm.c`, taken as given: element, side and the array `SonList` -/
  Get_Sons_green : Mesh → Nat → Nat → (Nat → Nat) → SonsOfSide
  /-- What the stack holds where `ElemSonTable` is allocated -/
  stackElemSonTable : Nat → COMPARE_RECORD
  /-- What the stack holds where `NbSonTable` is allocated -/
  stackNbSonTable : Nat → COMPARE_RECORD
  /-- The constant `MAX_SIDES_OF_ELEM` of `gm.h` -/
  MAX_SIDES_OF_ELEM : Nat
  /-- The constant `MAX_CORNERS_OF_ELEM` of `gm.h` -/
  MAX_CORNERS_OF_ELEM : Nat
  /-- The file-scope flag `rFlag`: copy local or all -/
  rFlag : Nat
  /-- The constant `GM_COPY_ALL` of `gm.h` -/
  GM_COPY_ALL : Nat
  /-- The constant `MINVNCLASS` of the algebra -/
  MINVNCLASS : Int
  /-- The procedure `ClearNextVectorClasses(theGrid)` of the algebra, taken as given: the
  classes of the vectors on the next level after the call -/
  ClearNextVectorClasses : Mesh → Nat → Nat
  /-- The procedure `SeedNextVectorClasses(theGrid,e)` of the algebra, taken as given: it
  writes the classes of the vectors on the next level and nothing else -/
  SeedNextVectorClasses : Mesh → (Nat → Nat) → Nat → Nat → Nat
  /-- The procedure `PropagateNextVectorClasses(theGrid)` of the algebra, taken as given: it
  writes the classes of the vectors on the next level and nothing else -/
  PropagateNextVectorClasses : Mesh → (Nat → Nat) → Nat → Nat
  /-- The function `MaxNextVectorClass(theGrid,e)` of the algebra, taken as given -/
  MaxNextVectorClass : Mesh → (Nat → Nat) → Nat → Int
  /-- The function `GridClosure(theGrid)` that `RefineMultiGrid` calls, which `refine.c`
  does not define, taken as given: the value returned and the mesh it leaves -/
  GridClosure : Mesh → Except Stop (Int × Mesh)
  /-- The macro `GRID_ON_LEVEL(theMG,k)`: the mesh with the grid of level `k` at hand, its
  element list under `FIRSTELEMENT` and its finer grid under `UPGRID` -/
  GRID_ON_LEVEL : Mesh → Nat → Mesh

/-! ## Accessor macros of `gm.h` -/

def CORNERS_OF_ELEM (env : Env) (s : Mesh) (e : Nat) : Nat :=
  (env.element_descriptors (s.TAG e)).corners_of_elem

def EDGES_OF_ELEM (env : Env) (s : Mesh) (e : Nat) : Nat :=
  (env.element_descriptors (s.TAG e)).edges_of_elem

def SIDES_OF_ELEM (env : Env) (s : Mesh) (e : Nat) : Nat :=
  (env.element_descriptors (s.TAG e)).sides_of_elem

def CORNER_OF_EDGE (env : Env) (s : Mesh) (e : Nat) (i j : Nat) : Nat :=
  (env.element_descriptors (s.TAG e)).corner_of_edge i j

def CORNERS_OF_SIDE (env : Env) (s : Mesh) (e : Nat) (i : Nat) : Nat :=
  (env.element_descriptors (s.TAG e)).corners_of_side i

def CORNER_OF_SIDE (env : Env) (s : Mesh) (e : Nat) (i j : Nat) : Nat :=
  (env.element_descriptors (s.TAG e)).corner_of_side i j

def EDGE_OF_SIDE (env : Env) (s : Mesh) (e : Nat) (i j : Nat) : Nat :=
  (env.element_descriptors (s.TAG e)).edge_of_side i j

/-- Modelled from the spec: the macro `CENTER_NODE_INDEX` of `gm.h`. The slot array holds
the corners, one slot per edge, one per side in 3-D, and one centre slot, in this order;
the index counts from the first edge slot. -/
def CENTER_NODE_INDEX (env : Env) (s : Mesh) (e : Nat) : Nat :=
  EDGES_OF_ELEM env s e + (if env.DIM = 3 then SIDES_OF_ELEM env s e else 0)

/-- The edge `GetEdge(CORNER(e,CORNER_OF_EDGE(e,j,0)),CORNER(e,CORNER_OF_EDGE(e,j,1)))`. -/
def edgeOf (env : Env) (s : Mesh) (e : Nat) (j : Nat) : Nat :=
  s.GetEdge (s.CORNER e (CORNER_OF_EDGE env s e j 0)) (s.CORNER e (CORNER_OF_EDGE env s e j 1))

/-- The macro `REF_TYPE_CHANGES(e)`. -/
def REF_TYPE_CHANGES (s : Mesh) (e : Nat) : Prop :=
  s.REFINE e ≠ s.MARK e ∨ s.REFINECLASS e ≠ s.MARKCLASS e

instance (s : Mesh) (e : Nat) : Decidable (REF_TYPE_CHANGES s e) :=
  inferInstanceAs (Decidable (s.REFINE e ≠ s.MARK e ∨ s.REFINECLASS e ≠ s.MARKCLASS e))

/-- The macro `NEWGREEN(e)`. -/
def NEWGREEN (s : Mesh) (e : Nat) : Prop :=
  s.TAG e = TAG.HEXAHEDRON ∨ s.TAG e = TAG.PRISM ∨ s.TAG e = TAG.PYRAMID

instance (s : Mesh) (e : Nat) : Decidable (NEWGREEN s e) :=
  inferInstanceAs (Decidable
    (s.TAG e = TAG.HEXAHEDRON ∨ s.TAG e = TAG.PRISM ∨ s.TAG e = TAG.PYRAMID))

/-- The test that `RefineGrid` and `Connect_Sons_of_ElementSide` share: the element is
rebuilt in this pass. -/
def TO_REBUILD (env : Env) (s : Mesh) (e : Nat) : Prop :=
  REF_TYPE_CHANGES s e ∨
    (env.DIM = 3 ∧ NEWGREEN s e ∧ s.MARKCLASS e = CLASS.GREEN_CLASS ∧
      (s.REFINECLASS e ≠ CLASS.GREEN_CLASS ∨
        (s.REFINECLASS e = CLASS.GREEN_CLASS ∧ s.USED e = 1)))

instance (env : Env) (s : Mesh) (e : Nat) : Decidable (TO_REBUILD env s e) :=
  inferInstanceAs (Decidable (REF_TYPE_CHANGES s e ∨
    (env.DIM = 3 ∧ NEWGREEN s e ∧ s.MARKCLASS e = CLASS.GREEN_CLASS ∧
      (s.REFINECLASS e ≠ CLASS.GREEN_CLASS ∨
        (s.REFINECLASS e = CLASS.GREEN_CLASS ∧ s.USED e = 1)))))

/-- How a loop body, or a loop, ends. -/
inductive LoopRes (σ : Type) where
  /-- The body ran through (or hit `continue`): the loop goes on -/
  | next (x : σ)
  /-- A `return` statement was executed -/
  | ret (code : Int) (x : σ)
  /-- The run ended without returning -/
  | stop (r : Stop)

/-- The loop `for (i=i0; i<i0+k; i++) body`. -/
def forLoop {σ : Type} (body : Nat → σ → LoopRes σ) : Nat → Nat → σ → LoopRes σ
  | 0, _, x => .next x
  | k + 1, i, x =>
    match body i x with
    | .next y => forLoop body k (i + 1) y
    | .ret c y => .ret c y
    | .stop r => .stop r

/-- The search `for (j=0; j<n; j++) if (NBELEM(nb,j)==e) break;`: the value of `j`
after the loop. -/
def searchSide (s : Mesh) (nb e : Nat) : Nat → Nat → Nat
  | 0, j => j
  | k + 1, j => if s.NBELEM nb j = e then j else searchSide s nb e k (j + 1)

/-! ## `Sort_Node_Ptr`, `Fill_Comp_Table`, `compare_nodes`, `Connect_Sons_of_ElementSide` -/

/-- The inner loop of `Sort_Node_Ptr`: `for (j=i+1; j<n; j++) if (nodes[max]<nodes[j]) max = j;`
started with `max = i`. -/
def Sort_Node_Ptr_max (nodes : Nat → Nat) (n i : Nat) : Nat :=
  (List.range' (i + 1) (n - (i + 1))).foldl (fun max j => if nodes max < nodes j then j else max) i

/-- One round of the outer loop of `Sort_Node_Ptr`: find the largest remaining pointer and
swap it to position `i`. -/
def Sort_Node_Ptr_round (n : Nat) (nodes : Nat → Nat) (i : Nat) : Nat → Nat :=
  let max := Sort_Node_Ptr_max nodes n i
  if i ≠ max then
    let nd := nodes i
    upd (upd nodes i (nodes max)) max nd
  else nodes

/-- The function `Sort_Node_Ptr`: selection sort of `nodes[0..n)` into descending address
order, for the side sizes of the build; `GM_FATAL` for every other `n`. -/
def Sort_Node_Ptr (DIM : Nat) (n : Nat) (nodes : Nat → Nat) : Int × (Nat → Nat) :=
  if (DIM = 2 ∧ n = 2) ∨ (DIM = 3 ∧ (n = 3 ∨ n = 4)) then
    (GM_OK, (List.range n).foldl (Sort_Node_Ptr_round n) nodes)
  else (GM_FATAL, nodes)

/-- The body of the loop of `Fill_Comp_Table` for one entry: the record written over the
old content `Entry` of the table slot, and the result of `Sort_Node_Ptr`. -/
def Fill_Comp_Table_entry (env : Env) (s : Mesh) (Entry : COMPARE_RECORD)
    (elem : Nat) (side : Nat) : Int × COMPARE_RECORD :=
  let nodes := CORNERS_OF_SIDE env s elem side
  let nodeptr : Nat → Nat := fun j =>
    if j < nodes then s.CORNER elem (CORNER_OF_SIDE env s elem side j) else Entry.nodeptr j
  let r := Sort_Node_Ptr env.DIM nodes nodeptr
  (r.1, { elem := elem, side := side, nodes := nodes, nodeptr := r.2 })

/-- The loop of `Fill_Comp_Table` from index `i` on, with `k` entries left to fill. -/
def Fill_Comp_Table_from (env : Env) (s : Mesh) (Elements : Nat → Nat) (Sides : Nat → Nat) :
    Nat → Nat → (Nat → COMPARE_RECORD) → Int × (Nat → COMPARE_RECORD)
  | 0, _, Table => (GM_OK, Table)
  | k + 1, i, Table =>
    let r := Fill_Comp_Table_entry env s (Table i) (Elements i) (Sides i)
    if r.1 ≠ GM_OK then (GM_FATAL, upd Table i r.2)
    else Fill_Comp_Table_from env s Elements Sides k (i + 1) (upd Table i r.2)

/-- The function `Fill_Comp_Table`: return code and the filled table; `SortTable[i]` points
to `Table[i]`. -/
def Fill_Comp_Table (env : Env) (s : Mesh) (Table : Nat → COMPARE_RECORD) (nelems : Nat)
    (Elements : Nat → Nat) (Sides : Nat → Nat) : Int × (Nat → COMPARE_RECORD) :=
  Fill_Comp_Table_from env s Elements Sides nelems 0 Table

/-- The comparison function `compare_nodes` handed to `qsort`. -/
def compare_nodes (e0 e1 : COMPARE_RECORD) : Int :=
  if e0.nodeptr 0 < e1.nodeptr 0 then 1
  else if e0.nodeptr 0 > e1.nodeptr 0 then -1
  else if e0.nodeptr 1 < e1.nodeptr 1 then 1
  else if e0.nodeptr 1 > e1.nodeptr 1 then -1
  else if e0.nodeptr 2 < e1.nodeptr 2 then 1
  else if e0.nodeptr 2 > e1.nodeptr 2 then -1
  else if e0.nodes = 4 ∧ e1.nodes = 4 then
    if e0.nodeptr 3 < e1.nodeptr 3 then 1
    else if e0.nodeptr 3 > e1.nodeptr 3 then -1
    else 0
  else 0

/-- The array of record pointers `SortTable[0..n)` after `Fill_Comp_Table`, as the list of
the records pointed to. -/
def SortTable (Table : Nat → COMPARE_RECORD) (n : Nat) : List COMPARE_RECORD :=
  (List.range n).map Table

/-- The loop "connect to boundary" of `Connect_Sons_of_ElementSide` from son `i` on. -/
def connectBoundary (env : Env) (s : Mesh) (theElement : Nat) (side : Nat)
    (Sons_of_Side_List : Nat → Nat) (SonSides : Nat → Nat) :
    Nat → Nat → Except Stop Int
  | 0, _ => .ok GM_OK
  | k + 1, i =>
    if s.BEOBJ (Sons_of_Side_List i) = false then .error Stop.abort
    else if env.CreateSonElementSide theElement side (Sons_of_Side_List i) (SonSides i) ≠ GM_OK
    then .ok GM_FATAL
    else connectBoundary env s theElement side Sons_of_Side_List SonSides k (i + 1)

/-- The loop "set neighborship relations" over the two sorted tables: entry `i` of one
table is wired with entry `i` of the other. -/
def wireSons (env : Env) : List (COMPARE_RECORD × COMPARE_RECORD) → Mesh → Int × Mesh
  | [], s => (GM_OK, s)
  | (E, N) :: rest, s =>
    let s1 : Mesh := { s with NBELEM := upd2 s.NBELEM E.elem E.side N.elem }
    let s2 : Mesh := { s1 with NBELEM := upd2 s1.NBELEM N.elem N.side E.elem }
    if env.DIM = 3 ∧ env.SIDEVECTOR_DEF = true ∧
        env.DisposeDoubledSideVector E.elem E.side N.elem N.side ≠ 0
    then (GM_FATAL, s2)
    else wireSons env rest s2

/-- What `Connect_Sons_of_ElementSide` has in hand when it reaches its last loop. -/
structure SortedTables where
  theNeighbor : Nat
  nbside : Nat
  /-- The result of `Get_Sons_of_ElementSideProc` for the neighbour -/
  nb : SonsOfSide
  /-- The table `ElemSonTable` as filled -/
  ElemSonTable : Nat → COMPARE_RECORD
  /-- The table `NbSonTable` as filled -/
  NbSonTable : Nat → COMPARE_RECORD
  /-- The array `ElemSortTable` after `qsort` -/
  ElemSortTable : List COMPARE_RECORD
  /-- The array `NbSortTable` after `qsort` -/
  NbSortTable : List COMPARE_RECORD

/-- The part of `Connect_Sons_of_ElementSide` before the wiring loop: either the function
returns early (left), or the two sorted tables are ready (right). A failed `assert` and the
use of a table that `Fill_Comp_Table` did not fill completely end the run. -/
def Connect_Sons_tables (env : Env) (s : Mesh) (theElement : Nat) (side : Nat)
    (Sons_of_Side : Nat) (Sons_of_Side_List : Nat → Nat) (SonSides : Nat → Nat) :
    Except Stop (Int ⊕ SortedTables) :=
  if Sons_of_Side ≤ 0 then .ok (.inl GM_OK)
  else if s.BEOBJ theElement = true ∧ s.SIDE_ON_BND theElement side = true then
    match connectBoundary env s theElement side Sons_of_Side_List SonSides Sons_of_Side 0 with
    | .ok c => .ok (.inl c)
    | .error x => .error x
  else
    let theNeighbor := s.NBELEM theElement side
    if theNeighbor = 0 then .ok (.inl GM_OK)
    else if s.MARKCLASS theNeighbor = CLASS.NO_CLASS then
      if env.hFlag ≠ 0 ∧ s.MARKCLASS theElement ≠ CLASS.YELLOW_CLASS then .error Stop.abort
      else .ok (.inl GM_OK)
    else if TO_REBUILD env s theNeighbor then .ok (.inl GM_OK)
    else
      let nbside := searchSide s theNeighbor theElement (SIDES_OF_ELEM env s theNeighbor) 0
      if ¬ nbside < SIDES_OF_ELEM env s theNeighbor then .error Stop.abort
      else
        let nb := env.Get_Sons_of_ElementSideProc s theNeighbor nbside 1
        if ¬ (Sons_of_Side = nb.Sons_of_Side ∧ nb.Sons_of_Side > 0 ∧ nb.Sons_of_Side < 6) then
          .error Stop.abort
        else
          let fe := Fill_Comp_Table env s env.stackElemSonTable Sons_of_Side
            Sons_of_Side_List SonSides
          let fn := Fill_Comp_Table env s env.stackNbSonTable nb.Sons_of_Side
            nb.SonList nb.SonSides
          if fe.1 ≠ GM_OK ∨ fn.1 ≠ GM_OK then .error Stop.abort
          else
            .ok (.inr {
              theNeighbor := theNeighbor
              nbside := nbside
              nb := nb
              ElemSonTable := fe.2
              NbSonTable := fn.2
              ElemSortTable := env.qsort compare_nodes (SortTable fe.2 Sons_of_Side)
              NbSortTable := env.qsort compare_nodes (SortTable fn.2 nb.Sons_of_Side) })

/-- The function `Connect_Sons_of_ElementSide` of a serial build: return code and mesh. -/
def Connect_Sons_of_ElementSide (env : Env) (s : Mesh) (theElement : Nat) (side : Nat)
    (Sons_of_Side : Nat) (Sons_of_Side_List : Nat → Nat) (SonSides : Nat → Nat) :
    Except Stop (Int × Mesh) :=
  match Connect_Sons_tables env s theElement side Sons_of_Side Sons_of_Side_List SonSides with
  | .error x => .error x
  | .ok (.inl c) => .ok (c, s)
  | .ok (.inr t) => .ok (wireSons env (t.ElemSortTable.zip t.NbSortTable) s)

/-- The tuple of corner nodes a record holds: `nodeptr[0..nodes)`. -/
def faceTuple (r : COMPARE_RECORD) : List Nat :=
  (List.range r.nodes).map r.nodeptr

/-- What the C standard promises of `qsort`: the array is rearranged and neighbouring
entries are in order for the comparison function. -/
def QsortPost (cmp : COMPARE_RECORD → COMPARE_RECORD → Int) (input output : List COMPARE_RECORD) :
    Prop :=
  output.Perm input ∧ output.Chain' (fun a b => cmp a b ≤ 0)

/-- A stable insertion sort, one admissible behaviour of `qsort`. -/
def insertSorted (cmp : COMPARE_RECORD → COMPARE_RECORD → Int) (a : COMPARE_RECORD) :
    List COMPARE_RECORD → List COMPARE_RECORD
  | [] => [a]
  | b :: l => if cmp a b ≤ 0 then a :: b :: l else b :: insertSorted cmp a l

/-- A stable insertion sort, one admissible behaviour of `qsort`. -/
def stableQsort (cmp : COMPARE_RECORD → COMPARE_RECORD → Int) :
    List COMPARE_RECORD → List COMPARE_RECORD
  | [] => []
  | a :: l => insertSorted cmp a (stableQsort cmp l)

/-! ## `UpdateContext` -/

/-- The array `theElementContext`. -/
abbrev Context := Nat → Nat

/-- Modelled from the spec: the node allocator behind `CreateSonNode`, `CreateMidNode`,
`CreateSideNode` and `CreateCenterNode` of `ugm.c`. A node is taken from the pool; the
result is `NULL` when the pool is exhausted. -/
def allocNode (s : Mesh) : Nat × Mesh :=
  match s.nodePool with
  | [] => (0, s)
  | n :: rest => (n, { s with nodePool := rest })

/-- Modelled from the spec: `CreateSonNode` of `ugm.c`, a node for the next level. -/
def CreateSonNode (s : Mesh) (_theNode : Nat) : Nat × Mesh :=
  allocNode s

/-- Modelled from the spec: `CreateMidNode` of `ugm.c`. The call is noted in the history; the
new node, when there is one, is recorded as the mid node the edge owns. -/
def CreateMidNode (env : Env) (s : Mesh) (e i : Nat) : Nat × Mesh :=
  let edge := edgeOf env s e i
  let r := allocNode { s with trace := s.trace ++ [Event.CreateMidNode e i edge] }
  if r.1 = 0 then r
  else (r.1, { r.2 with MIDNODE := upd r.2.MIDNODE edge r.1 })

/-- Modelled from the spec: `CreateSideNode` of `ugm.c`. -/
def CreateSideNode (s : Mesh) (_e _side : Nat) : Nat × Mesh :=
  allocNode s

/-- Modelled from the spec: `CreateCenterNode` of `ugm.c`. -/
def CreateCenterNode (s : Mesh) (_e : Nat) : Nat × Mesh :=
  allocNode s

/-- The test `DIM==3 && NEWGREEN(e) && MARKCLASS(e)==GREEN_CLASS`. -/
def GREEN_BY_CASES (env : Env) (s : Mesh) (e : Nat) : Prop :=
  env.DIM = 3 ∧ NEWGREEN s e ∧ s.MARKCLASS e = CLASS.GREEN_CLASS

instance (env : Env) (s : Mesh) (e : Nat) : Decidable (GREEN_BY_CASES env s e) :=
  inferInstanceAs (Decidable (env.DIM = 3 ∧ NEWGREEN s e ∧ s.MARKCLASS e = CLASS.GREEN_CLASS))

/-- The body of the loop "allocate corner nodes if necessary" of `UpdateContext`. -/
def UpdateContext_corner (theElement : Nat) (i : Nat) (x : Mesh × Context) :
    LoopRes (Mesh × Context) :=
  let s := x.1
  let theNode := s.CORNER theElement i
  if s.SONNODE theNode = 0 then
    let r := CreateSonNode s theNode
    let s1 : Mesh := { r.2 with SONNODE := upd r.2.SONNODE theNode r.1 }
    if s1.SONNODE theNode = 0 then .ret GM_FATAL (s1, x.2)
    else .next (s1, upd x.2 i (s1.SONNODE theNode))
  else .next (s, upd x.2 i (s.SONNODE theNode))

/-- The first statement of the body of the loop "allocate midpoint nodes": the value of
`toBisect` and the context; `MidNodes[i]` is the slot `CORNERS_OF_ELEM + i`. -/
def UpdateContext_edge_decide (env : Env) (theElement : Nat) (Mark : Int) (i : Nat)
    (x : Mesh × Context) : Except Stop (Bool × Context) :=
  let s := x.1
  let mid := CORNERS_OF_ELEM env s theElement + i
  let theEdge := edgeOf env s theElement i
  if GREEN_BY_CASES env s theElement then
    if theEdge = 0 then .error Stop.abort
    else if s.ADDPATTERN theEdge = 0 then .ok (true, upd x.2 mid (s.MIDNODE theEdge))
    else .ok (false, x.2)
  else if env.NODE_OF_RULE (s.TAG theElement) Mark i ≠ 0 then .ok (true, x.2)
  else .ok (false, x.2)

/-- The statement `if (toBisect) {...}` of that body, for `toBisect` true: "we need a
midpoint node". -/
def UpdateContext_edge_node (env : Env) (theElement : Nat) (i : Nat) (x : Mesh × Context) :
    LoopRes (Mesh × Context) :=
  let s := x.1
  let mid := CORNERS_OF_ELEM env s theElement + i
  let theEdge := edgeOf env s theElement i
  if x.2 mid ≠ 0 then .next x
  else if theEdge = 0 then .ret GM_FATAL x
  else
    let ctx2 := upd x.2 mid (s.MIDNODE theEdge)
    if ctx2 mid = 0 then
      let r := CreateMidNode env s theElement i
      if r.1 = 0 then .ret GM_FATAL (r.2, upd ctx2 mid r.1)
      else .next (r.2, upd ctx2 mid r.1)
    else .next (s, ctx2)

/-- The body of the loop "allocate midpoint nodes" of `UpdateContext`. -/
def UpdateContext_edge (env : Env) (theElement : Nat) (Mark : Int) (i : Nat)
    (x : Mesh × Context) : LoopRes (Mesh × Context) :=
  match UpdateContext_edge_decide env theElement Mark i x with
  | .error r => .stop r
  | .ok (false, ctx1) => .next (x.1, ctx1)
  | .ok (true, ctx1) => UpdateContext_edge_node env theElement i (x.1, ctx1)

/-- The test "is side node needed" in the body of the loop over the sides of
`UpdateContext`: the value of `toCreate`. -/
def UpdateContext_side_decide (env : Env) (theElement : Nat) (Mark : Int) (i : Nat)
    (s : Mesh) : Except Stop Bool :=
  let theNeighbor := s.NBELEM theElement i
  if NEWGREEN s theElement ∧ s.MARKCLASS theElement = CLASS.GREEN_CLASS then
    if theNeighbor ≠ 0 then
      if s.MARKCLASS theNeighbor ≠ CLASS.GREEN_CLASS ∧
          s.MARKCLASS theNeighbor ≠ CLASS.YELLOW_CLASS then
        let j := searchSide s theNeighbor theElement (SIDES_OF_ELEM env s theNeighbor) 0
        if ¬ j < SIDES_OF_ELEM env s theNeighbor then .error Stop.abort
        else .ok (decide (env.NODE_OF_RULE (s.TAG theNeighbor) (s.MARK theNeighbor)
          (EDGES_OF_ELEM env s theNeighbor + j) ≠ 0))
      else .ok false
    else .ok false
  else .ok (decide (env.NODE_OF_RULE (s.TAG theElement) Mark
    (EDGES_OF_ELEM env s theElement + i) ≠ 0))

/-- The statement `if (toCreate) {...}` of that body, for `toCreate` true; `SideNodes[i]`
is the slot `CORNERS_OF_ELEM + EDGES_OF_ELEM + i` of the context. -/
def UpdateContext_side_node (env : Env) (theElement : Nat) (i : Nat) (x : Mesh × Context) :
    LoopRes (Mesh × Context) :=
  let s := x.1
  let ctx := x.2
  let mids := CORNERS_OF_ELEM env s theElement
  let sid := CORNERS_OF_ELEM env s theElement + EDGES_OF_ELEM env s theElement + i
  let theNeighbor := s.NBELEM theElement i
  let ctx1 : Context :=
    if theNeighbor ≠ 0 then
      let theNode0 := ctx (mids + EDGE_OF_SIDE env s theElement i 0)
      let theNode1 := ctx (mids + EDGE_OF_SIDE env s theElement i 2)
      let theNode :=
        if theNode0 ≠ 0 ∧ theNode1 ≠ 0 then env.GetSideNode s theElement theNode0 theNode1 i
        else 0
      upd ctx sid theNode
    else ctx
  if ctx1 sid = 0 then
    let r := CreateSideNode s theElement i
    if r.1 = 0 then .ret GM_FATAL (r.2, upd ctx1 sid r.1)
    else .next (r.2, upd ctx1 sid r.1)
  else .next (s, ctx1)

/-- The body of the loop over the sides of `UpdateContext` (3-D). -/
def UpdateContext_side (env : Env) (theElement : Nat) (Mark : Int) (i : Nat)
    (x : Mesh × Context) : LoopRes (Mesh × Context) :=
  -- no side nodes for triangular sides yet
  if CORNERS_OF_SIDE env x.1 theElement i = 3 then .next x
  else
    match UpdateContext_side_decide env theElement Mark i x.1 with
    | .error r => .stop r
    | .ok false => .next x
    | .ok true => UpdateContext_side_node env theElement i x

/-- The last part of `UpdateContext`: "allocate center node". -/
def UpdateContext_center (env : Env) (theElement : Nat) (Mark : Int) (x : Mesh × Context) :
    Int × Mesh × Context :=
  let s := x.1
  let cen := CORNERS_OF_ELEM env s theElement + CENTER_NODE_INDEX env s theElement
  let ctx1 := upd x.2 cen 0
  if GREEN_BY_CASES env s theElement ∨
      env.NODE_OF_RULE (s.TAG theElement) Mark (CENTER_NODE_INDEX env s theElement) ≠ 0 then
    let r := CreateCenterNode s theElement
    if r.1 = 0 then (GM_FATAL, r.2, upd ctx1 cen r.1)
    else (GM_OK, r.2, upd ctx1 cen r.1)
  else (GM_OK, s, ctx1)

/-- The function `UpdateContext`: return code, mesh, and the context it has filled. -/
def UpdateContext (env : Env) (s : Mesh) (theElement : Nat) :
    Except Stop (Int × Mesh × Context) :=
  -- reset context to NULL
  let ctx0 : Context := fun _ => 0
  -- is element to refine
  if s.MARK theElement = env.NO_REFINEMENT then .ok (GM_OK, s, ctx0)
  else
    let Mark := s.MARK theElement
    match forLoop (UpdateContext_corner theElement) (CORNERS_OF_ELEM env s theElement) 0
        (s, ctx0) with
    | .stop r => .error r
    | .ret c x => .ok (c, x.1, x.2)
    | .next x1 =>
      match forLoop (UpdateContext_edge env theElement Mark) (EDGES_OF_ELEM env s theElement) 0
          x1 with
      | .stop r => .error r
      | .ret c x => .ok (c, x.1, x.2)
      | .next x2 =>
        match (if env.DIM = 3 then
            forLoop (UpdateContext_side env theElement Mark) (SIDES_OF_ELEM env s theElement) 0 x2
          else .next x2) with
        | .stop r => .error r
        | .ret c x => .ok (c, x.1, x.2)
        | .next x3 => .ok (UpdateContext_center env theElement Mark x3)

/-- The test by which `UpdateContext` decides to bisect local edge `i` of an element. -/
def toBisect (env : Env) (s : Mesh) (e i : Nat) : Prop :=
  if GREEN_BY_CASES env s e then s.ADDPATTERN (edgeOf env s e i) = 0
  else env.NODE_OF_RULE (s.TAG e) (s.MARK e) i ≠ 0

instance (env : Env) (s : Mesh) (e i : Nat) : Decidable (toBisect env s e i) :=
  inferInstanceAs (Decidable (if GREEN_BY_CASES env s e then s.ADDPATTERN (edgeOf env s e i) = 0
    else env.NODE_OF_RULE (s.TAG e) (s.MARK e) i ≠ 0))

/-! ## `CloseGrid` -/

/-- The loop `for (e=start; e!=NULL; e=link(e)) body` over a linked list; the link of the
element is read after the body has run. `fuel` bounds the number of rounds. -/
def forElements {σ : Type} (link : σ → Nat → Nat) (body : Nat → σ → LoopRes σ) :
    Nat → Nat → σ → LoopRes σ
  | 0, e, x => if e = 0 then .next x else .stop Stop.fuel
  | k + 1, e, x =>
    if e = 0 then .next x
    else
      match body e x with
      | .next y => forElements link body k (link y e) y
      | .ret c y => .ret c y
      | .stop r => .stop r

/-- The table `TriSectionEdge`. -/
def TriSectionEdge : List (Int × Int) :=
  [(-1, -1), (-1, -1), (-1, -1), (1, 0), (-1, -1), (0, 2), (2, 1), (-1, -1),
   (-1, -1), (3, 0), (-2, -2), (-2, -2), (2, 3), (-2, -2), (-2, -2), (-2, -2),
   (-1, -1), (0, 4), (4, 1), (-2, -2), (-2, -2), (-2, -2), (-2, -2), (-2, -2),
   (4, 3), (-1, -1), (-2, -2), (-2, -2), (-2, -2), (-2, -2), (-2, -2), (-2, -2),
   (-1, -1), (-2, -2), (1, 5), (-2, -2), (5, 2), (-2, -2), (-2, -2), (-2, -2),
   (3, 5), (-2, -2), (-2, -2), (-2, -2), (-1, -1), (-2, -2), (-2, -2), (-2, -2),
   (5, 4), (-2, -2), (-1, -1), (-2, -2), (-2, -2), (-2, -2), (-2, -2), (-2, -2),
   (-2, -2), (-2, -2), (-2, -2), (-2, -2), (-2, -2), (-2, -2), (-2, -2), (-2, -2)]

/-- The table `CondensedEdgeOfSide`. -/
def CondensedEdgeOfSide : List Nat := [0x07, 0x32, 0x2C, 0x19]

/-- The macros `EDGE_IN_PAT(p,i)` and `SIDE_IN_PAT(p,i)`. -/
def EDGE_IN_PAT (p i : Nat) : Nat := (p >>> i) &&& 1

/-- The macro `EDGE_IN_PATTERN(p,i)` for the array `p`; `SIDE_IN_PATTERN(e,p,i)` is
`EDGE_IN_PATTERN(p,EDGES_OF_ELEM(e)+i)`. -/
def EDGE_IN_PATTERN (p : Nat → Nat) (i : Nat) : Nat := p i &&& 1

/-! ### First loop: reset `USED`, `PATTERN` and `ADDPATTERN` -/

/-- The body of the loop over the edges in the first loop of `CloseGrid`. -/
def CloseGrid_reset_edge (env : Env) (theElement : Nat) (j : Nat) (s : Mesh) : LoopRes Mesh :=
  let MyEdge := edgeOf env s theElement j
  if MyEdge = 0 then .stop Stop.abort
  else
    let s1 : Mesh := { s with PATTERN := upd s.PATTERN MyEdge 0 }
    .next { s1 with ADDPATTERN := upd s1.ADDPATTERN MyEdge 1 }

/-- The body of the first loop of `CloseGrid`. -/
def CloseGrid_reset (env : Env) (theElement : Nat) (s : Mesh) : LoopRes Mesh :=
  let s1 : Mesh := { s with USED := upd s.USED theElement 0 }
  forLoop (CloseGrid_reset_edge env theElement) (EDGES_OF_ELEM env s1 theElement) 0 s1

/-! ### Second loop: patterns of the red elements -/

/-- The body of the loop over the edges in the second loop of `CloseGrid`. -/
def CloseGrid_pattern_edge (env : Env) (theElement : Nat) (Mark : Int) (i : Nat) (s : Mesh) :
    LoopRes Mesh :=
  if EDGE_IN_PATTERN (env.MARK2PATTERN (s.TAG theElement) Mark) i ≠ 0 then
    let MyEdge := edgeOf env s theElement i
    if MyEdge ≠ 0 then .next { s with PATTERN := upd s.PATTERN MyEdge 1 }
    else .next s
  else .next s

/-- The body of the loop over the sides in the second loop of `CloseGrid`. -/
def CloseGrid_pattern_side (env : Env) (theElement : Nat) (Mark : Int) (i : Nat) (s : Mesh) :
    LoopRes Mesh :=
  if CORNERS_OF_SIDE env s theElement i = 4 then
    if EDGE_IN_PATTERN (env.MARK2PATTERN (s.TAG theElement) Mark)
        (EDGES_OF_ELEM env s theElement + i) ≠ 0 then
      .next { s with SIDEPATTERN := (
        upd s.SIDEPATTERN theElement (s.SIDEPATTERN theElement ||| (1 <<< i))) }
    else .next s
  else .next s

/-- The body of the second loop of `CloseGrid`. -/
def CloseGrid_pattern (env : Env) (theElement : Nat) (s : Mesh) : LoopRes Mesh :=
  if s.MARKCLASS theElement = CLASS.RED_CLASS then
    let Mark := s.MARK theElement
    match forLoop (CloseGrid_pattern_edge env theElement Mark)
        (EDGES_OF_ELEM env s theElement) 0 s with
    | .next s1 =>
      let s2 : Mesh := { s1 with SIDEPATTERN := upd s1.SIDEPATTERN theElement 0 }
      if env.DIM = 2 then .next s2
      else forLoop (CloseGrid_pattern_side env theElement Mark)
        (SIDES_OF_ELEM env s2 theElement) 0 s2
    | .ret c y => .ret c y
    | .stop r => .stop r
  else
    let s1 : Mesh := { s with SIDEPATTERN := upd s.SIDEPATTERN theElement 0 }
    .next { s1 with MARKCLASS := upd s1.MARKCLASS theElement CLASS.NO_CLASS }

/-! ### Third loop: side patterns -/

/-- The loop `for (i=EDGES_OF_ELEM(e)-1; i>=0; i--) MyEdgePattern = (MyEdgePattern<<1) |
PATTERN(MyEdge)` with `i + 1` rounds to go; nothing when an edge is missing. -/
def MyEdgePattern_loop (env : Env) (s : Mesh) (theElement : Nat) : Nat → Nat → Option Nat
  | 0, p => some p
  | i + 1, p =>
    let MyEdge := edgeOf env s theElement i
    if MyEdge = 0 then none
    else MyEdgePattern_loop env s theElement i ((p <<< 1) ||| s.PATTERN MyEdge)

/-- The loop `for (k=0; k<EDGES_OF_ELEM(Nb); k++) NbEdgePattern |= PATTERN(NbEdge)<<k`
from `k` on; nothing when an edge is missing. -/
def NbEdgePattern_loop (env : Env) (s : Mesh) (NbElement : Nat) : Nat → Nat → Nat → Option Nat
  | 0, _, p => some p
  | n + 1, k, p =>
    let NbEdge := edgeOf env s NbElement k
    if NbEdge = 0 then none
    else NbEdgePattern_loop env s NbElement n (k + 1) (p ||| (s.PATTERN NbEdge <<< k))

/-- The loop that finds `trisectionedge` for a pyramid or prism neighbour, from `k` on;
nothing when an edge is missing. -/
def trisectionedge_loop (env : Env) (s : Mesh) (theElement NbElement : Nat) (j : Nat) :
    Nat → Nat → Int → Option Int
  | 0, _, t => some t
  | n + 1, k, t =>
    let edge := EDGE_OF_SIDE env s theElement j k
    let NbEdge := edgeOf env s NbElement edge
    if NbEdge = 0 then none
    else trisectionedge_loop env s theElement NbElement j n (k + 1)
      (if s.PATTERN NbEdge ≠ 0 ∧ (edge : Int) > t then (edge : Int) else t)

/-- The case `TETRAHEDRON` of the switch on the neighbour's tag. -/
def CloseGrid_side_tetrahedron (env : Env) (theElement : Nat) (MyEdgeNum : Int)
    (NbElement : Nat) (j : Nat) (s : Mesh) : LoopRes Mesh :=
  match NbEdgePattern_loop env s NbElement (EDGES_OF_ELEM env s NbElement) 0 0 with
  | none => .stop Stop.abort
  | some NbEdgePattern =>
    match CondensedEdgeOfSide[j]? with
    | none => .stop Stop.abort
    | some cj =>
      match TriSectionEdge[NbEdgePattern &&& cj]? with
      | none => .stop Stop.abort
      | some NbEdgeNum =>
        if NbEdgeNum.1 = -2 ∨ NbEdgeNum.1 = -1 then .ret (-1) s
        else
          let m0 := s.CORNER theElement (CORNER_OF_EDGE env s theElement MyEdgeNum.toNat 0)
          let m1 := s.CORNER theElement (CORNER_OF_EDGE env s theElement MyEdgeNum.toNat 1)
          let n0 := s.CORNER NbElement (CORNER_OF_EDGE env s NbElement NbEdgeNum.1.toNat 0)
          let n1 := s.CORNER NbElement (CORNER_OF_EDGE env s NbElement NbEdgeNum.1.toNat 1)
          if ¬ (m0 = n0 ∧ m1 = n1) ∧ ¬ (m0 = n1 ∧ m1 = n0) then
            let NbSidePattern := s.SIDEPATTERN NbElement
            let NbSideMask := 1 <<< j
            -- `NbSidePattern &= ~NbSideMask` on a pattern that has the bit set
            if NbSidePattern &&& NbSideMask ≠ 0 then
              .next { s with SIDEPATTERN := (upd s.SIDEPATTERN NbElement
                (NbSidePattern ^^^ NbSideMask)) }
            else
              .next { s with SIDEPATTERN := (upd s.SIDEPATTERN NbElement
                (NbSidePattern ||| NbSideMask)) }
          else .next s

/-- The case `PYRAMID`, `PRISM` of the switch on the neighbour's tag. -/
def CloseGrid_side_prism (env : Env) (theElement : Nat) (MyEdgeNum : Int)
    (NbElement : Nat) (j : Nat) (s : Mesh) : LoopRes Mesh :=
  match trisectionedge_loop env s theElement NbElement j
      (CORNERS_OF_SIDE env s NbElement j) 0 (-1) with
  | none => .stop Stop.abort
  | some trisectionedge =>
    if trisectionedge = -1 then .stop Stop.abort
    else if MyEdgeNum ≠ trisectionedge then
      .next { s with SIDEPATTERN := (
        upd s.SIDEPATTERN NbElement (s.SIDEPATTERN NbElement ||| (1 <<< j))) }
    else .next s

/-- The case 3 of the switch on `CORNERS_OF_SIDE(theElement,i)`. -/
def CloseGrid_side_triangle (env : Env) (theElement : Nat) (MyEdgePattern : Nat) (i : Nat)
    (NbElement : Nat) (j : Nat) (s : Mesh) : LoopRes Mesh :=
  if s.TAG theElement = TAG.PYRAMID ∨ s.TAG theElement = TAG.PRISM then .next s
  else
    match CondensedEdgeOfSide[i]? with
    | none => .stop Stop.abort
    | some ci =>
      match TriSectionEdge[MyEdgePattern &&& ci]? with
      | none => .stop Stop.abort
      | some MyEdgeNum =>
        if MyEdgeNum.1 = -2 then .ret (-1) s
        else if MyEdgeNum.1 = -1 then .next s
        else
          match s.TAG NbElement with
          | TAG.TETRAHEDRON => CloseGrid_side_tetrahedron env theElement MyEdgeNum.1 NbElement j s
          | TAG.PYRAMID => CloseGrid_side_prism env theElement MyEdgeNum.1 NbElement j s
          | TAG.PRISM => CloseGrid_side_prism env theElement MyEdgeNum.1 NbElement j s
          | _ => .stop Stop.abort

/-- The body of the loop over the sides in the third loop of `CloseGrid`. -/
def CloseGrid_side (env : Env) (theElement : Nat) (MyEdgePattern : Nat) (i : Nat) (s : Mesh) :
    LoopRes Mesh :=
  let NbElement := s.NBELEM theElement i
  if NbElement = 0 then .next s
  else if s.USED NbElement = 0 then .next s
  else
    let j := searchSide s NbElement theElement (SIDES_OF_ELEM env s NbElement) 0
    if ¬ j < SIDES_OF_ELEM env s NbElement then .stop Stop.abort
    else if CORNERS_OF_SIDE env s theElement i = 3 then
      CloseGrid_side_triangle env theElement MyEdgePattern i NbElement j s
    else if CORNERS_OF_SIDE env s theElement i = 4 then
      if EDGE_IN_PAT (s.SIDEPATTERN theElement) i ≠ 0 then
        .next { s with SIDEPATTERN := (
        upd s.SIDEPATTERN NbElement (s.SIDEPATTERN NbElement ||| (1 <<< j))) }
      else if EDGE_IN_PAT (s.SIDEPATTERN NbElement) j ≠ 0 then
        .next { s with SIDEPATTERN := (
        upd s.SIDEPATTERN theElement (s.SIDEPATTERN theElement ||| (1 <<< i))) }
      else .next s
    else .ret (-1) s

/-- The body of the third loop of `CloseGrid`. -/
def CloseGrid_sidepattern (env : Env) (theElement : Nat) (s : Mesh) : LoopRes Mesh :=
  let s1 : Mesh := { s with USED := upd s.USED theElement 1 }
  match MyEdgePattern_loop env s1 theElement (EDGES_OF_ELEM env s1 theElement) 0 with
  | none => .stop Stop.abort
  | some MyEdgePattern =>
    if env.DIM = 2 then .next s1
    else if env.DIM = 3 ∧ s1.TAG theElement = TAG.PYRAMID then .next s1
    else forLoop (CloseGrid_side env theElement MyEdgePattern)
      (SIDES_OF_ELEM env s1 theElement) 0 s1

/-! ### Fourth loop: rules from the patterns -/

/-- The mark and the mesh after the tests on `fifoFlag` and `hFlag` in the fourth loop of
`CloseGrid`, for the result `Mark` of `PATTERN2MARK`; nothing when an `ASSERT` fails. -/
def CloseGrid_mark (env : Env) (s : Mesh) (theElement : Nat) (Mark : Int) :
    Option (Int × Mesh) :=
  if env.fifoFlag ≠ 0 then
    if Mark = -1 ∧ s.MARKCLASS theElement = CLASS.RED_CLASS then some (env.RED, s)
    else if Mark = -1 then none
    else some (Mark, s)
  else if env.hFlag = 0 ∧ s.MARKCLASS theElement ≠ CLASS.RED_CLASS then
    some (env.NO_REFINEMENT, s)
  else if Mark = -1 then none
  else if s.MARKCLASS theElement ≠ CLASS.RED_CLASS ∧
      env.SWITCHCLASS_OF_MARK (s.TAG theElement) Mark = true then
    some (Mark, { s with MARKCLASS := upd s.MARKCLASS theElement CLASS.RED_CLASS })
  else some (Mark, s)

/-- The 3-D step of the fourth loop: a red tetrahedron takes the mark of `theFullRefRule`;
nothing when the `assert` fails. -/
def CloseGrid_fullrule (env : Env) (s : Mesh) (theElement : Nat) (Mark : Int) : Option Int :=
  if env.DIM = 3 ∧ s.TAG theElement = TAG.TETRAHEDRON ∧
      s.MARKCLASS theElement = CLASS.RED_CLASS then
    let Mark1 := env.theFullRefRule s theElement
    if Mark1 = env.FULL_REFRULE_0_5 ∨ Mark1 = env.FULL_REFRULE_1_3 ∨
        Mark1 = env.FULL_REFRULE_2_4 then some Mark1
    else none
  else some Mark

/-- The statements "unlink element from element list" and "insert into fifo". -/
def CloseGrid_enqueue (NbElement : Nat) (s : Mesh) : Mesh :=
  let s1 : Mesh :=
    if s.PREDE NbElement ≠ 0 then
      { s with SUCCE := upd s.SUCCE (s.PREDE NbElement) (s.SUCCE NbElement) }
    else s
  let s2 : Mesh :=
    if s1.SUCCE NbElement ≠ 0 then
      { s1 with PREDE := upd s1.PREDE (s1.SUCCE NbElement) (s1.PREDE NbElement) }
    else s1
  let s3 : Mesh :=
    if s2.FIRSTELEMENT = NbElement then { s2 with FIRSTELEMENT := s2.SUCCE NbElement }
    else s2
  let s4 : Mesh := { s3 with PREDE := upd s3.PREDE NbElement 0 }
  let s5 : Mesh := { s4 with SUCCE := upd s4.SUCCE NbElement 0 }
  if s5.fifo_insertfirst = 0 then
    { s5 with fifo_insertfirst := NbElement, fifo_insertlast := NbElement }
  else
    let s6 : Mesh := { s5 with SUCCE := upd s5.SUCCE s5.fifo_insertlast NbElement }
    let s7 : Mesh := { s6 with PREDE := upd s6.PREDE NbElement s6.fifo_insertlast }
    { s7 with fifo_insertlast := NbElement }

/-- The body of the 2-D loop over the edges of a red element whose pattern has changed. -/
def CloseGrid_fifo_edge (env : Env) (theElement : Nat) (MyPattern NewPattern : Nat) (j : Nat)
    (s : Mesh) : LoopRes Mesh :=
  if EDGE_IN_PAT MyPattern j = 0 ∧ EDGE_IN_PAT NewPattern j ≠ 0 then
    let MyEdge := edgeOf env s theElement j
    let s1 : Mesh := if MyEdge ≠ 0 then { s with PATTERN := upd s.PATTERN MyEdge 1 } else s
    if s1.SIDE_ON_BND theElement j = true then .next s1
    else
      let NbElement := s1.NBELEM theElement j
      if NbElement = 0 then .next s1
      else .next (CloseGrid_enqueue NbElement s1)
  else if EDGE_IN_PAT MyPattern j ≠ 0 ∧ EDGE_IN_PAT NewPattern j = 0 then .ret (-1) s
  else .next s

/-- The block `if (fifoFlag)` inside the fourth loop. -/
def CloseGrid_fifo (env : Env) (theElement : Nat) (MyPattern NewPattern : Nat) (s : Mesh) :
    LoopRes Mesh :=
  if env.fifoFlag ≠ 0 ∧ s.MARKCLASS theElement = CLASS.RED_CLASS ∧ MyPattern ≠ NewPattern then
    if env.DIM = 2 then
      forLoop (CloseGrid_fifo_edge env theElement MyPattern NewPattern)
        (EDGES_OF_ELEM env s theElement) 0 s
    else if env.DIM = 3 then .ret (-1) s
    else .next s
  else .next s

/-- The body of the fourth loop of `CloseGrid`; the state is the mesh and `cnt`. -/
def CloseGrid_rule (env : Env) (theElement : Nat) (x : Mesh × Int) : LoopRes (Mesh × Int) :=
  match MyEdgePattern_loop env x.1 theElement (EDGES_OF_ELEM env x.1 theElement) 0 with
  | none => .stop Stop.abort
  | some MyEdgePattern =>
    let MySidePattern := x.1.SIDEPATTERN theElement
    let MyPattern := (MySidePattern <<< EDGES_OF_ELEM env x.1 theElement) ||| MyEdgePattern
    match CloseGrid_mark env x.1 theElement (env.PATTERN2MARK (x.1.TAG theElement) MyPattern) with
    | none => .stop Stop.abort
    | some m =>
      match CloseGrid_fullrule env m.2 theElement m.1 with
      | none => .stop Stop.abort
      | some Mark =>
        let NewPattern := env.MARK2PAT (m.2.TAG theElement) Mark
        match CloseGrid_fifo env theElement MyPattern NewPattern m.2 with
        | .next s2 =>
          .next ({ s2 with MARK := upd s2.MARK theElement Mark },
            if Mark ≠ 0 then x.2 + 1 else x.2)
        | .ret c s2 => .ret c (s2, x.2)
        | .stop r => .stop r

/-- The body of the loop "insert fifo work list into elementlist". -/
def CloseGrid_reinsert (theElement : Nat) (s : Mesh) : LoopRes Mesh :=
  let s1 : Mesh := { s with SUCCE := upd s.SUCCE theElement s.FIRSTELEMENT }
  if s1.FIRSTELEMENT = 0 then .stop Stop.abort
  else
    let s2 : Mesh := { s1 with PREDE := upd s1.PREDE s1.FIRSTELEMENT theElement }
    .next { s2 with FIRSTELEMENT := theElement }

/-- The part of `CloseGrid` from the label `FIFOSTART` to the end of the block
`if (fifoFlag)` that may jump back: at most `k` sweeps, each list loop with `fuel`. -/
def CloseGrid_sweeps (env : Env) (fuel : Nat) : Nat → Nat → Mesh → LoopRes (Mesh × Int)
  | 0, _, _ => .stop Stop.fuel
  | k + 1, firstElement, s =>
    match forElements (fun y => y.SUCCE) (CloseGrid_sidepattern env) fuel firstElement s with
    | .ret c y => .ret c (y, 0)
    | .stop r => .stop r
    | .next s3 =>
      match forElements (fun y => y.1.SUCCE) (CloseGrid_rule env) fuel firstElement (s3, 0) with
      | .ret c y => .ret c y
      | .stop r => .stop r
      | .next x4 =>
        if env.fifoFlag ≠ 0 then
          match forElements (fun y => y.PREDE) CloseGrid_reinsert fuel x4.1.fifo_last x4.1 with
          | .ret c y => .ret c (y, x4.2)
          | .stop r => .stop r
          | .next s5 =>
            if s5.FIRSTELEMENT = 0 then .stop Stop.abort
            else
              let s6 : Mesh := { s5 with PREDE := upd s5.PREDE s5.FIRSTELEMENT 0 }
              if s6.fifo_insertfirst ≠ 0 then
                CloseGrid_sweeps env fuel k s6.fifo_insertfirst
                  { s6 with
                    fifo_first := s6.fifo_insertfirst
                    fifo_last := s6.fifo_insertlast
                    fifo_insertfirst := 0
                    fifo_insertlast := 0 }
              else .next (s6, x4.2)
        else .next x4

/-! ### Fifth loop: additional pattern on the edges -/

/-- The body of the loop over the edges in the fifth loop of `CloseGrid`. -/
def CloseGrid_addpattern_edge (env : Env) (theElement : Nat) (j : Nat) (s : Mesh) :
    LoopRes Mesh :=
  if env.NODE_OF_RULE (s.TAG theElement) (s.MARK theElement) j = 0 then .next s
  else
    let MyEdge := edgeOf env s theElement j
    if MyEdge = 0 then .stop Stop.abort
    else .next { s with ADDPATTERN := upd s.ADDPATTERN MyEdge 0 }

/-- The body of the fifth loop of `CloseGrid`. -/
def CloseGrid_addpattern (env : Env) (theElement : Nat) (s : Mesh) : LoopRes Mesh :=
  if s.MARKCLASS theElement ≠ CLASS.RED_CLASS then .next s
  else forLoop (CloseGrid_addpattern_edge env theElement) (EDGES_OF_ELEM env s theElement) 0 s

/-! ### Sixth loop: the green covering -/

/-- The body of the loop over the edges in the sixth loop of `CloseGrid`. -/
def CloseGrid_green_edge (env : Env) (theElement : Nat) (i : Nat) (s : Mesh) : LoopRes Mesh :=
  let MyEdge := edgeOf env s theElement i
  if MyEdge = 0 then .stop Stop.abort
  else if s.ADDPATTERN MyEdge = 0 then
    let s1 : Mesh :=
      if env.DIM = 3 ∧ s.TAG theElement ≠ TAG.TETRAHEDRON then
        let sa : Mesh := { s with MARK := upd s.MARK theElement env.COPY }
        if sa.MIDNODE MyEdge = 0 then
          { sa with UPDATE_GREEN := upd sa.UPDATE_GREEN theElement 1 }
        else sa
      else s
    .next { s1 with MARKCLASS := upd s1.MARKCLASS theElement CLASS.GREEN_CLASS }
  else if s.MIDNODE MyEdge ≠ 0 then
    .next { s with UPDATE_GREEN := upd s.UPDATE_GREEN theElement 1 }
  else .next s

/-- The body of the 3-D loop over the sides in the sixth loop of `CloseGrid`. -/
def CloseGrid_green_side (env : Env) (theElement : Nat) (i : Nat) (s : Mesh) : LoopRes Mesh :=
  let theNeighbor := s.NBELEM theElement i
  if theNeighbor = 0 then .next s
  else
    let j := searchSide s theNeighbor theElement (SIDES_OF_ELEM env s theNeighbor) 0
    if ¬ j < SIDES_OF_ELEM env s theNeighbor then .stop Stop.abort
    else
      let s1 : Mesh :=
        if env.NODE_OF_RULE (s.TAG theNeighbor) (s.MARK theNeighbor)
            (EDGES_OF_ELEM env s theNeighbor + j) ≠ 0 then
          { s with MARKCLASS := upd s.MARKCLASS theElement CLASS.GREEN_CLASS }
        else s
      let ofRefine := env.NODE_OF_RULE (s1.TAG theNeighbor) (s1.REFINE theNeighbor)
        (EDGES_OF_ELEM env s1 theNeighbor + j)
      let ofMark := env.NODE_OF_RULE (s1.TAG theNeighbor) (s1.MARK theNeighbor)
        (EDGES_OF_ELEM env s1 theNeighbor + j)
      if (ofRefine = 0 ∧ ofMark ≠ 0) ∨ (ofRefine ≠ 0 ∧ ofMark = 0) then
        .next { s1 with UPDATE_GREEN := upd s1.UPDATE_GREEN theElement 1 }
      else .next s1

/-- The 3-D loop over the sides in the sixth loop of `CloseGrid`; nothing to do in 2-D. -/
def CloseGrid_green_sides (env : Env) (theElement : Nat) (s : Mesh) : LoopRes Mesh :=
  if env.DIM = 3 then
    forLoop (CloseGrid_green_side env theElement) (SIDES_OF_ELEM env s theElement) 0 s
  else .next s

/-- The last statement of the body of the sixth loop of `CloseGrid`. -/
def CloseGrid_green_used (theElement : Nat) (s : Mesh) : Mesh :=
  if s.REFINECLASS theElement = CLASS.GREEN_CLASS ∧
      s.MARKCLASS theElement = CLASS.GREEN_CLASS ∧ s.UPDATE_GREEN theElement = 0 then
    { s with USED := upd s.USED theElement 0 }
  else s

/-- The body of the sixth loop of `CloseGrid`. -/
def CloseGrid_green (env : Env) (theElement : Nat) (s : Mesh) : LoopRes Mesh :=
  if s.MARKCLASS theElement = CLASS.RED_CLASS then .next s
  else
    let s1 : Mesh := { s with UPDATE_GREEN := upd s.UPDATE_GREEN theElement 0 }
    match forLoop (CloseGrid_green_edge env theElement) (EDGES_OF_ELEM env s1 theElement) 0 s1 with
    | .next s2 =>
      match CloseGrid_green_sides env theElement s2 with
      | .next s3 => .next (CloseGrid_green_used theElement s3)
      | .ret c y => .ret c y
      | .stop r => .stop r
    | .ret c y => .ret c y
    | .stop r => .stop r

/-! ### The function -/

/-- The statement `if (fifoFlag) fifo_first=fifo_last=fifo_insertfirst=fifo_insertlast=NULL`. -/
def CloseGrid_fifo_init (env : Env) (s : Mesh) : Mesh :=
  if env.fifoFlag ≠ 0 then
    { s with fifo_first := 0, fifo_last := 0, fifo_insertfirst := 0, fifo_insertlast := 0 }
  else s

/-- The function `CloseGrid`: the value returned and the mesh it leaves. `fuel` bounds the
rounds of every loop over an element list and the number of jumps to `FIFOSTART`. -/
def CloseGrid (env : Env) (fuel : Nat) (s : Mesh) : Except Stop (Int × Mesh) :=
  match forElements (fun y => y.SUCCE) (CloseGrid_reset env) fuel s.FIRSTELEMENT s with
  | .ret c y => .ok (c, y)
  | .stop r => .error r
  | .next s1 =>
    match forElements (fun y => y.SUCCE) (CloseGrid_pattern env) fuel s1.FIRSTELEMENT s1 with
    | .ret c y => .ok (c, y)
    | .stop r => .error r
    | .next s2 =>
      match CloseGrid_sweeps env fuel fuel s2.FIRSTELEMENT (CloseGrid_fifo_init env s2) with
      | .ret c y => .ok (c, y.1)
      | .stop r => .error r
      | .next x4 =>
        match forElements (fun y => y.SUCCE) (CloseGrid_addpattern env) fuel
            x4.1.FIRSTELEMENT x4.1 with
        | .ret c y => .ok (c, y)
        | .stop r => .error r
        | .next s5 =>
          match forElements (fun y => y.SUCCE) (CloseGrid_green env) fuel
              s5.FIRSTELEMENT s5 with
          | .ret c y => .ok (c, y)
          | .stop r => .error r
          | .next s6 => .ok (x4.2, s6)

/-- The elements of a linked list: `e` is reached from `first` along `link` before `NULL`. -/
inductive OnList (link : Nat → Nat) : Nat → Nat → Prop where
  | head (e : Nat) (h : e ≠ 0) : OnList link e e
  | tail (first e : Nat) (h : first ≠ 0) (t : OnList link (link first) e) : OnList link first e

/-- The elements of the level: the list from `FIRSTELEMENT` along `SUCCE`. -/
def OnLevel (s : Mesh) (e : Nat) : Prop := OnList s.SUCCE s.FIRSTELEMENT e

/-! ## `GetNeighborSons`, `GetSons`, `RestrictMarks`

The array `SonList` is a map on all indices; the bound `MAX_SONS` of the C array is not
modelled. -/

/-- The search `for (j=0; j<count; j++) if (SonList[j]==NbElement) break;`: the value of
`j` after the loop. -/
def searchSon (SonList : Nat → Nat) (NbElement : Nat) : Nat → Nat → Nat
  | 0, j => j
  | k + 1, j => if SonList j = NbElement then j else searchSon SonList NbElement k (j + 1)

/-- The body of the first loop of `GetNeighborSons`; the state is `SonList` and `count`. -/
def GetNeighborSons_side (s : Mesh) (theElement theSon : Nat) (nsons : Nat) (i : Nat)
    (x : (Nat → Nat) × Nat) : (Nat → Nat) × Nat :=
  let NbElement := s.NBELEM theSon i
  if NbElement = 0 then x
  else if s.EFATHER NbElement = theElement then
    let j := searchSon x.1 NbElement x.2 0
    if j = x.2 ∧ x.2 < nsons then (upd x.1 x.2 NbElement, x.2 + 1) else x
  else x

/-- The second loop of `GetNeighborSons`, `for (i=startson; i<stopson; i++)`, from `i` on
with `k` rounds to go; `call` is the recursive call. -/
def GetNeighborSons_loop (call : Nat → (Nat → Nat) × Nat → Option ((Nat → Nat) × Nat))
    (nsons : Nat) : Nat → Nat → (Nat → Nat) × Nat → Option ((Nat → Nat) × Nat)
  | 0, _, x => some x
  | k + 1, i, x =>
    if x.2 < nsons then
      match call (x.1 i) x with
      | none => none
      | some y => GetNeighborSons_loop call nsons k (i + 1) y
    else some x

/-- The function `GetNeighborSons`: the array `SonList` and the new son count; nothing when
the depth `fuel` of recursive calls is used up. -/
def GetNeighborSons (env : Env) (s : Mesh) (theElement : Nat) (nsons : Nat) :
    Nat → Nat → (Nat → Nat) × Nat → Option ((Nat → Nat) × Nat)
  | 0, _, _ => none
  | fuel + 1, theSon, x =>
    let startson := x.2
    let x1 := (List.range (SIDES_OF_ELEM env s theSon)).foldl
      (fun y i => GetNeighborSons_side s theElement theSon nsons i y) x
    if x1.2 = nsons then some x1
    else
      let stopson := x1.2
      GetNeighborSons_loop (GetNeighborSons env s theElement nsons fuel) nsons
        (stopson - startson) startson x1

/-- The walk `for (PathPos=...) theSon = NBELEM(theSon,next(path,PathPos))` from `PathPos`
on; nothing when the walk steps on from `NULL`. -/
def GetSons_walk (s : Mesh) (next : Nat → Nat → Nat) (path : Nat) : Nat → Nat → Nat → Option Nat
  | 0, _, theSon => some theSon
  | k + 1, PathPos, theSon =>
    if theSon = 0 then none
    else GetSons_walk s next path k (PathPos + 1) (s.NBELEM theSon (next path PathPos))

/-- The loop "get other sons from path info in rules" of `GetSons`, from `SonID` on. -/
def GetSons_paths (env : Env) (s : Mesh) (theElement : Nat) (next : Nat → Nat → Nat) :
    Nat → Nat → (Nat → Nat) → Except Stop (Int × (Nat → Nat))
  | 0, _, SonList => .ok (GM_OK, SonList)
  | k + 1, SonID, SonList =>
    let path := env.SON_PATH_OF_RULE (s.TAG theElement) (s.REFINE theElement) SonID
    match GetSons_walk s next path (env.PATHDEPTH path) 0 (SonList 0) with
    | none => .error Stop.abort
    | some theSon =>
      if theSon = 0 then .ok (GM_ERROR, SonList)
      else GetSons_paths env s theElement next k (SonID + 1) (upd SonList SonID theSon)

/-- The case `PYRAMID`, `PRISM`, `HEXAHEDRON` of `GetSons` for a green element. -/
def GetSons_green (env : Env) (fuel : Nat) (s : Mesh) (theElement : Nat) (SonList : Nat → Nat) :
    Except Stop (Int × (Nat → Nat)) :=
  if s.NSONS theElement = 0 ∨ SonList 0 = 0 then .ok (GM_ERROR, SonList)
  else if s.NSONS theElement > 1 then
    match GetNeighborSons env s theElement (s.NSONS theElement) fuel (SonList 0) (SonList, 1) with
    | none => .error Stop.fuel
    | some x => if x.2 ≠ s.NSONS theElement then .ok (GM_ERROR, x.1) else .ok (GM_OK, x.1)
  else if 1 ≠ s.NSONS theElement then .ok (GM_ERROR, SonList)
  else .ok (GM_OK, SonList)

/-- The function `GetSons` of a serial build: return code and the array `SonList`. -/
def GetSons (env : Env) (fuel : Nat) (s : Mesh) (theElement : Nat) :
    Except Stop (Int × (Nat → Nat)) :=
  if theElement = 0 then .ok (GM_ERROR, fun _ => 0)
  else if s.NSONS theElement = 0 then .ok (GM_OK, fun _ => 0)
  else if env.DIM = 2 ∧ (s.TAG theElement = TAG.TRIANGLE ∨ s.TAG theElement = TAG.QUADRILATERAL)
  then
    .ok (GM_OK, fun SonID => if SonID < s.NSONS theElement then s.SON theElement SonID else 0)
  else if env.DIM = 3 ∧ s.TAG theElement = TAG.TETRAHEDRON then
    GetSons_paths env s theElement env.NEXTSIDE
      (env.NSONS_OF_RULE (s.TAG theElement) (s.REFINE theElement) - 1) 1
      (upd (fun _ => 0) 0 (s.SON theElement 0))
  else if env.DIM = 3 ∧ (s.TAG theElement = TAG.PYRAMID ∨ s.TAG theElement = TAG.PRISM ∨
      s.TAG theElement = TAG.HEXAHEDRON) then
    if s.REFINECLASS theElement = CLASS.GREEN_CLASS then
      GetSons_green env fuel s theElement (upd (fun _ => 0) 0 (s.SON theElement 0))
    else
      GetSons_paths env s theElement env.NEXTSIDEHEX
        (env.NSONS_OF_RULE (s.TAG theElement) (s.REFINE theElement) - 1) 1
        (upd (fun _ => 0) 0 (s.SON theElement 0))
  else .ok (GM_ERROR, fun _ => 0)

/-- The loop `for (i=0; i<NSONS(e); i++) if (MARK(SonList[i])>NO_REFINEMENT) ...` of
`RestrictMarks`, from `i` on: whether a son marked for refinement is found; nothing when a
son is `NULL`. -/
def RestrictMarks_marked (env : Env) (s : Mesh) (SonList : Nat → Nat) : Nat → Nat → Option Bool
  | 0, _ => some false
  | k + 1, i =>
    if SonList i = 0 then none
    else if s.MARK (SonList i) > env.NO_REFINEMENT then some true
    else RestrictMarks_marked env s SonList k (i + 1)

/-- The loop over the edges of a tetrahedron in `RestrictMarks` that adds to `Pattern` the
edges whose son edge has `ADDPATTERN` set, from `j` on; nothing when an `ASSERT` fails. -/
def RestrictMarks_pattern (env : Env) (s : Mesh) (theElement : Nat) : Nat → Nat → Nat → Option Nat
  | 0, _, Pattern => some Pattern
  | k + 1, j, Pattern =>
    let theEdge := edgeOf env s theElement j
    if theEdge = 0 then none
    else if s.MIDNODE theEdge = 0 then
      let sonEdge := s.GetEdge (s.SONNODE (s.CORNER theElement (CORNER_OF_EDGE env s theElement j 0)))
        (s.SONNODE (s.CORNER theElement (CORNER_OF_EDGE env s theElement j 1)))
      if sonEdge = 0 then none
      else if s.ADDPATTERN sonEdge ≠ 0 then
        RestrictMarks_pattern env s theElement k (j + 1) (Pattern ||| (1 <<< j))
      else RestrictMarks_pattern env s theElement k (j + 1) Pattern
    else RestrictMarks_pattern env s theElement k (j + 1) Pattern

/-- The statement `SETMARK(e,m)`. -/
def SETMARK (s : Mesh) (e : Nat) (m : Int) : Mesh := { s with MARK := upd s.MARK e m }

/-- The statement `SETMARKCLASS(e,c)`. -/
def SETMARKCLASS (s : Mesh) (e : Nat) (c : CLASS) : Mesh :=
  { s with MARKCLASS := upd s.MARKCLASS e c }

/-- The statement `SETCOARSEN(e,v)`. -/
def SETCOARSEN (s : Mesh) (e : Nat) (v : Nat) : Mesh := { s with COARSEN := upd s.COARSEN e v }

/-- The switch on `TAG(theElement)` of `RestrictMarks` for an element with
`MARKCLASS == RED_CLASS` that has a son marked for refinement. -/
def RestrictMarks_marked_red (env : Env) (s : Mesh) (theElement : Nat) : LoopRes Mesh :=
  if env.DIM = 2 ∧ s.TAG theElement = TAG.TRIANGLE then .next (SETMARK s theElement env.T_RED)
  else if env.DIM = 2 ∧ s.TAG theElement = TAG.QUADRILATERAL then
    .next (SETMARK s theElement env.Q_RED)
  else if env.DIM = 3 ∧ s.TAG theElement = TAG.TETRAHEDRON then
    if s.MARK theElement ≠ env.RED then .next (SETMARK s theElement (s.REFINE theElement))
    else .next s
  else if env.DIM = 3 ∧ s.TAG theElement = TAG.PYRAMID then
    .next (SETMARK s theElement env.PYR_RED)
  else if env.DIM = 3 ∧ s.TAG theElement = TAG.PRISM then
    .next (SETMARK s theElement env.PRI_RED)
  else if env.DIM = 3 ∧ s.TAG theElement = TAG.HEXAHEDRON then
    .next (SETMARK s theElement env.HEXA_RED)
  else .ret GM_ERROR (SETMARK s theElement (env.PATTERN2MARK (s.TAG theElement) 0))

/-- The switch on `TAG(theElement)` of `RestrictMarks` for an element with
`MARKCLASS != RED_CLASS` that has a son marked for refinement, and the statement
`SETMARKCLASS(theElement,RED_CLASS)` after it. -/
def RestrictMarks_marked_other (env : Env) (s : Mesh) (theElement : Nat) : LoopRes Mesh :=
  if env.DIM = 2 ∧ s.TAG theElement = TAG.TRIANGLE then
    .next (SETMARKCLASS (SETMARK s theElement env.T_RED) theElement CLASS.RED_CLASS)
  else if env.DIM = 2 ∧ s.TAG theElement = TAG.QUADRILATERAL then
    .next (SETMARKCLASS (SETMARK s theElement env.Q_RED) theElement CLASS.RED_CLASS)
  else if env.DIM = 3 ∧ s.TAG theElement = TAG.TETRAHEDRON then
    match RestrictMarks_pattern env s theElement (EDGES_OF_ELEM env s theElement) 0
        (env.RULE2PAT (s.TAG theElement) (s.REFINE theElement)) with
    | none => .stop Stop.abort
    | some Pattern =>
      let Rule := env.PATTERN2RULE (s.TAG theElement) Pattern
      .next (SETMARKCLASS (SETMARK s theElement (env.RULE2MARK (s.TAG theElement) Rule))
        theElement CLASS.RED_CLASS)
  else if env.DIM = 3 ∧ s.TAG theElement = TAG.PYRAMID then
    .next (SETMARKCLASS (SETMARK s theElement env.PYR_RED) theElement CLASS.RED_CLASS)
  else if env.DIM = 3 ∧ s.TAG theElement = TAG.PRISM then
    .next (SETMARKCLASS (SETMARK s theElement env.PRI_RED) theElement CLASS.RED_CLASS)
  else if env.DIM = 3 ∧ s.TAG theElement = TAG.HEXAHEDRON then
    .next (SETMARKCLASS (SETMARK s theElement env.HEXA_RED) theElement CLASS.RED_CLASS)
  else .ret GM_ERROR (SETMARK s theElement (env.PATTERN2MARK (s.TAG theElement) 0))

/-- The block `if (REFINECLASS(theElement)==GREEN_CLASS)` of `RestrictMarks` up to its
`continue`. -/
def RestrictMarks_green (env : Env) (s : Mesh) (theElement : Nat) (SonList : Nat → Nat) :
    LoopRes Mesh :=
  match RestrictMarks_marked env s SonList (s.NSONS theElement) 0 with
  | none => .stop Stop.abort
  | some false => .next s
  | some true =>
    if s.MARKCLASS theElement = CLASS.RED_CLASS then RestrictMarks_marked_red env s theElement
    else RestrictMarks_marked_other env s theElement

/-- The test of `RestrictMarks` in closure mode that skips an element: it is not refined,
or it is a leaf of the estimator. -/
def RestrictMarks_skip (env : Env) (s : Mesh) (theElement : Nat) : Prop :=
  s.REFINE theElement = env.NO_REFINEMENT ∨ s.ECLASS theElement = CLASS.YELLOW_CLASS ∨
    s.ECLASS theElement = CLASS.GREEN_CLASS ∨ s.REFINECLASS theElement = CLASS.YELLOW_CLASS

instance (env : Env) (s : Mesh) (e : Nat) : Decidable (RestrictMarks_skip env s e) :=
  inferInstanceAs (Decidable (s.REFINE e = env.NO_REFINEMENT ∨
    s.ECLASS e = CLASS.YELLOW_CLASS ∨ s.ECLASS e = CLASS.GREEN_CLASS ∨
    s.REFINECLASS e = CLASS.YELLOW_CLASS))

/-- The block `if (hFlag)` of `RestrictMarks`: the mesh, and whether the round goes on to
the son check (`true`) or has hit `continue` (`false`). -/
def RestrictMarks_closure (env : Env) (s : Mesh) (theElement : Nat) (SonList : Nat → Nat) :
    LoopRes (Mesh × Bool) :=
  if env.hFlag ≠ 0 then
    if RestrictMarks_skip env s theElement then .next (s, false)
    else if s.REFINECLASS theElement = CLASS.GREEN_CLASS then
      match RestrictMarks_green env s theElement SonList with
      | .next s1 => .next (s1, false)
      | .ret c s1 => .ret c (s1, false)
      | .stop r => .stop r
    else if s.REFINECLASS theElement = CLASS.RED_CLASS then
      let s1 := SETMARK s theElement (s.REFINE theElement)
      .next (SETMARKCLASS s1 theElement (s1.REFINECLASS theElement), true)
    else .next (s, true)
  else .next (s, true)

/-- The son check of `RestrictMarks`, from son `i` on: the value of `flag`; nothing when a
son is `NULL`. -/
def RestrictMarks_flag (s : Mesh) (SonList : Nat → Nat) : Nat → Nat → Option Bool
  | 0, _ => some false
  | k + 1, i =>
    if SonList i = 0 then none
    else if s.COARSEN (SonList i) = 0 ∨ s.REFINECLASS (SonList i) = CLASS.RED_CLASS then
      some true
    else RestrictMarks_flag s SonList k (i + 1)

/-- The body of the loop of `RestrictMarks`. -/
def RestrictMarks_element (env : Env) (fuel : Nat) (theElement : Nat) (s : Mesh) :
    LoopRes Mesh :=
  match GetSons env fuel s theElement with
  | .error r => .stop r
  | .ok g =>
    if g.1 ≠ GM_OK then .ret GM_ERROR s
    else
      match RestrictMarks_closure env s theElement g.2 with
      | .stop r => .stop r
      | .ret c x => .ret c x.1
      | .next x =>
        if x.2 = false then .next x.1
        else
          match RestrictMarks_flag x.1 g.2 (x.1.NSONS theElement) 0 with
          | none => .stop Stop.abort
          | some true => .next x.1
          | some false =>
            .next (SETCOARSEN (SETMARKCLASS (SETMARK x.1 theElement env.NO_REFINEMENT)
              theElement CLASS.NO_CLASS) theElement 1)

/-- The function `RestrictMarks`: return code and mesh. `fuel` bounds the rounds of the
loop over the element list and the depth of `GetNeighborSons`. -/
def RestrictMarks (env : Env) (fuel : Nat) (s : Mesh) : Except Stop (Int × Mesh) :=
  match forElements (fun y => y.SUCCE) (RestrictMarks_element env fuel) fuel s.FIRSTELEMENT s with
  | .next s1 => .ok (GM_OK, s1)
  | .ret c s1 => .ok (c, s1)
  | .stop r => .error r

/-- From `e` the list reaches `NULL` after exactly `n` links. -/
inductive EndsIn (link : Nat → Nat) : Nat → Nat → Prop where
  | nil : EndsIn link 0 0
  | step (n e : Nat) (h : e ≠ 0) (t : EndsIn link n (link e)) : EndsIn link (n + 1) e

/-! ## `RefineGrid`

The procedures `UnrefineElement`, `RefineElementRed` and `RefineElementGreen` that
`RefineGrid` calls work on the finer grid; they are taken from `Env`. Every call is noted
in the history of the run before it is made. -/

/-- Note a call in the history. -/
def logCall (s : Mesh) (a : Event) : Mesh := { s with trace := s.trace ++ [a] }

/-- The statement `if (RefineElementRed(fineGrid,theElement,theContext)!=GM_OK)
RETURN(GM_FATAL);`. -/
def RefineGrid_red (env : Env) (theElement : Nat) (theContext : Context) (s : Mesh) :
    LoopRes Mesh :=
  match env.RefineElementRed (logCall s (Event.RefineElementRed theElement)) theElement
      theContext with
  | .error r => .stop r
  | .ok p => if p.1 ≠ GM_OK then .ret GM_FATAL p.2 else .next p.2

/-- The statement `if (RefineElementGreen(fineGrid,theElement,theContext) != GM_OK)
RETURN(GM_FATAL);`. -/
def RefineGrid_green (env : Env) (theElement : Nat) (theContext : Context) (s : Mesh) :
    LoopRes Mesh :=
  match env.RefineElementGreen (logCall s (Event.RefineElementGreen theElement)) theElement
      theContext with
  | .error r => .stop r
  | .ok p => if p.1 ≠ GM_OK then .ret GM_FATAL p.2 else .next p.2

/-- The statement `if (IS_TO_REFINE(theElement)) switch (MARKCLASS(theElement)) ...` of
`RefineGrid`. -/
def RefineGrid_refine (env : Env) (theElement : Nat) (theContext : Context) (s : Mesh) :
    LoopRes Mesh :=
  if s.MARK theElement ≠ env.NO_REFINEMENT then
    match s.MARKCLASS theElement with
    | CLASS.RED_CLASS => RefineGrid_red env theElement theContext s
    | CLASS.GREEN_CLASS =>
      if env.DIM = 3 ∧ NEWGREEN s theElement ∧ s.MARKCLASS theElement = CLASS.GREEN_CLASS then
        RefineGrid_green env theElement theContext s
      else RefineGrid_red env theElement theContext s
    | CLASS.YELLOW_CLASS => RefineGrid_red env theElement theContext s
    | CLASS.NO_CLASS => .ret GM_FATAL s
  else .next s

/-- The statements "refine and refineclass flag" of `RefineGrid`. -/
def RefineGrid_flags (theElement : Nat) (s : Mesh) : Mesh :=
  let s1 : Mesh := { s with REFINE := upd s.REFINE theElement (s.MARK theElement) }
  let s2 : Mesh := { s1 with REFINECLASS := upd s1.REFINECLASS theElement (s1.MARKCLASS theElement) }
  let s3 : Mesh := { s2 with GRID_CHANGED := true }
  { s3 with USED := upd s3.USED theElement 0 }

/-- The part of the body of the loop of `RefineGrid` that rebuilds the sons of an element:
from the call of `UnrefineElement` to `SETUSED(theElement,0)`. -/
def RefineGrid_rebuild (env : Env) (theElement : Nat) (s : Mesh) : LoopRes Mesh :=
  match env.UnrefineElement (logCall s (Event.UnrefineElement theElement)) theElement with
  | .error r => .stop r
  | .ok p =>
    if p.1 ≠ 0 then .ret GM_FATAL p.2
    else
      match UpdateContext env (logCall p.2 (Event.UpdateContext theElement)) theElement with
      | .error r => .stop r
      | .ok q =>
        if q.1 ≠ 0 then .ret GM_FATAL q.2.1
        else
          match RefineGrid_refine env theElement q.2.2 q.2.1 with
          | .next s3 => .next (RefineGrid_flags theElement s3)
          | .ret c s3 => .ret c s3
          | .stop r => .stop r

/-- The end of the body of the loop of `RefineGrid`: "count green marks" and
`SETCOARSEN(theElement,0)`. -/
def RefineGrid_count (theElement : Nat) (s : Mesh) : Mesh :=
  let s1 : Mesh :=
    if s.MARKCLASS theElement = CLASS.GREEN_CLASS then
      { s with Green_Marks := s.Green_Marks + 1 }
    else s
  SETCOARSEN s1 theElement 0

/-- The body of the loop of `RefineGrid` of a serial build. -/
def RefineGrid_element (env : Env) (theElement : Nat) (s : Mesh) : LoopRes Mesh :=
  if TO_REBUILD env s theElement then
    if env.hFlag = 0 ∧ s.MARKCLASS theElement ≠ CLASS.RED_CLASS then
      .next (SETMARKCLASS (SETMARK s theElement env.NO_REFINEMENT) theElement CLASS.NO_CLASS)
    else
      match RefineGrid_rebuild env theElement s with
      | .next s1 => .next (RefineGrid_count theElement s1)
      | .ret c s1 => .ret c s1
      | .stop r => .stop r
  else if s.USED theElement = 0 then
    .next (RefineGrid_count theElement { s with No_Green_Update := s.No_Green_Update + 1 })
  else .next (RefineGrid_count theElement s)

/-- The function `RefineGrid` of a serial build: return code and mesh. `fuel` bounds the
rounds of the loop over the element list. -/
def RefineGrid (env : Env) (fuel : Nat) (s : Mesh) : Except Stop (Int × Mesh) :=
  if s.UPGRID = 0 then .ok (GM_FATAL, s)
  else
    let s1 : Mesh := { s with GRID_CHANGED := false }
    match forElements (fun y => y.SUCCE) (RefineGrid_element env) fuel s1.FIRSTELEMENT s1 with
    | .next y => .ok (GM_OK, y)
    | .ret c y => .ok (c, y)
    | .stop r => .error r

/-! ## `UnrefineElement`, `Get_Sons_of_ElementSide` and `RefineElementRed` -/

/-- The loop `for (i=i0; i<bound; i++) body` whose bound is read again before every round.
`fuel` bounds the number of rounds. -/
def forBound {σ : Type} (bound : σ → Nat) (body : Nat → σ → LoopRes σ) :
    Nat → Nat → σ → LoopRes σ
  | 0, i, x => if i < bound x then .stop Stop.fuel else .next x
  | k + 1, i, x =>
    if i < bound x then
      match body i x with
      | .next y => forBound bound body k (i + 1) y
      | .ret c y => .ret c y
      | .stop r => .stop r
    else .next x

/-- The corner nodes `CreateElement` takes from the array `nodes` for an element of the tag
`tag`. -/
def sonCorners (env : Env) (tag : TAG) (nodes : Nat → Nat) : Nat → Nat :=
  fun i => if i < (env.element_descriptors tag).corners_of_elem then nodes i else 0

/-- Modelled from the spec: `CreateElement` of `ugm.c`. An element is taken from the pool,
`NULL` when the pool is exhausted; the call and its result are noted in the history. The
new element has the tag, the object type, the corner nodes and the father handed over; it
has no sons and no neighbours, is not refined and not marked. The element list of the
finer grid is not part of the model. -/
def CreateElement (env : Env) (s : Mesh) (tag : TAG) (objtype : Bool) (nodes : Nat → Nat)
    (theFather : Nat) : Nat × Mesh :=
  match s.elemPool with
  | [] => (0, logCall s (Event.CreateElement theFather 0))
  | e :: rest =>
    (e, { s with
      elemPool := rest
      TAG := upd s.TAG e tag
      BEOBJ := upd s.BEOBJ e objtype
      CORNER := upd s.CORNER e (sonCorners env tag nodes)
      EFATHER := upd s.EFATHER e theFather
      NSONS := upd s.NSONS e 0
      SON := upd s.SON e (fun _ => 0)
      NBELEM := upd s.NBELEM e (fun _ => 0)
      REFINE := upd s.REFINE e env.NO_REFINEMENT
      MARK := upd s.MARK e env.NO_REFINEMENT
      REFINECLASS := upd s.REFINECLASS e CLASS.NO_CLASS
      MARKCLASS := upd s.MARKCLASS e CLASS.NO_CLASS
      COARSEN := upd s.COARSEN e 0
      USED := upd s.USED e 0
      trace := s.trace ++ [Event.CreateElement theFather e] })

/-- Modelled from the spec: `DisposeElement` of `ugm.c`. The call is noted in the history;
its result is the parameter `DisposeElement_code`. What the call does to the lists and the
memory of the finer grid is not part of the model. -/
def DisposeElement (env : Env) (s : Mesh) (theElement : Nat) : Int × Mesh :=
  (env.DisposeElement_code theElement, logCall s (Event.DisposeElement theElement))

/-- Modelled from the spec: `DisposeConnectionsInNeighborhood` of the algebra. The call is
noted in the history; the connections are not part of the model. -/
def DisposeConnectionsInNeighborhood (s : Mesh) (theElement : Nat) : Mesh :=
  logCall s (Event.DisposeConnectionsInNeighborhood theElement)

/-! ### `UnrefineElement` -/

/-- The body of the first loop of `UnrefineElement`; `unrefine` is the recursive call
`UnrefineElement(UPGRID(theGrid),theSon)`. -/
def UnrefineElement_son (env : Env) (unrefine : Mesh → Nat → Except Stop (Int × Mesh))
    (SonList : Nat → Nat) (i : Nat) (x : Mesh) : LoopRes Mesh :=
  let theSon := SonList i
  let s1 := SETMARK x theSon env.NO_REFINEMENT
  if s1.REFINE theSon ≠ env.NO_REFINEMENT then
    match unrefine s1 theSon with
    | .error r => .stop r
    | .ok p => if p.1 ≠ 0 then .ret GM_FATAL p.2 else .next p.2
  else .next s1

/-- The body of the loop "remove connections in neighborhood of sons". -/
def UnrefineElement_connections (SonList : Nat → Nat) (i : Nat) (x : Mesh) : LoopRes Mesh :=
  .next (DisposeConnectionsInNeighborhood x (SonList i))

/-- The body of the loop "remove son elements". -/
def UnrefineElement_dispose (env : Env) (SonList : Nat → Nat) (i : Nat) (x : Mesh) :
    LoopRes Mesh :=
  let r := DisposeElement env x (SonList i)
  if r.1 ≠ 0 then .ret GM_FATAL r.2 else .next r.2

/-- The function `UnrefineElement` of a serial build without debug output: return code and
mesh. `fuel` bounds the depth of the recursion and the rounds of each loop. -/
def UnrefineElement (env : Env) : Nat → Mesh → Nat → Nat → Except Stop (Int × Mesh)
  | 0, _, _, _ => .error Stop.fuel
  | fuel + 1, s, theGrid, theElement =>
    -- something to do ?
    if s.REFINE theElement = env.NO_REFINEMENT ∨ theGrid = 0 then .ok (GM_OK, s)
    else
      match GetSons env (fuel + 1) s theElement with
      | .error r => .error r
      | .ok g =>
        if g.1 ≠ GM_OK then .ok (GM_FATAL, s)
        else
          match forBound (fun y => y.NSONS theElement)
              (UnrefineElement_son env
                (fun y theSon => UnrefineElement env fuel y (y.UPGRID_of theGrid) theSon) g.2)
              (fuel + 1) 0 s with
          | .stop r => .error r
          | .ret c y => .ok (c, y)
          | .next s1 =>
            match forBound (fun y => y.NSONS theElement) (UnrefineElement_connections g.2)
                (fuel + 1) 0 s1 with
            | .stop r => .error r
            | .ret c y => .ok (c, y)
            | .next s2 =>
              match forBound (fun y => y.NSONS theElement) (UnrefineElement_dispose env g.2)
                  (fuel + 1) 0 s2 with
              | .stop r => .error r
              | .ret c y => .ok (c, y)
              | .next s3 =>
                let s4 : Mesh := { s3 with NSONS := upd s3.NSONS theElement 0 }
                .ok (GM_OK, { s4 with SON := upd2 s4.SON theElement 0 0 })

/-! ### `Get_Sons_of_ElementSide` -/

/-- The state of the selection loop of `Get_Sons_of_ElementSide`: the arrays `SonList` and
`SonSides`, written in place, and the counter `nsons`. -/
structure SideSelection where
  SonList : Nat → Nat
  SonSides : Nat → Nat
  nsons : Nat

/-- The body of the loop over the sides of son `i` in the case `RED_CLASS` of
`Get_Sons_of_ElementSide`. -/
def Get_Sons_red_side (env : Env) (s : Mesh) (theElement side i : Nat) (j : Nat)
    (x : SideSelection) : LoopRes SideSelection :=
  if env.SON_NB_OF_RULE (s.TAG theElement) (s.MARK theElement) i j =
      env.FATHER_SIDE_OFFSET + side then
    .next { SonSides := upd x.SonSides x.nsons j
            SonList := upd x.SonList x.nsons (x.SonList i)
            nsons := x.nsons + 1 }
  else .next x

/-- The body of the loop over the sons in the case `RED_CLASS` of
`Get_Sons_of_ElementSide`. -/
def Get_Sons_red_son (env : Env) (s : Mesh) (theElement side : Nat) (i : Nat)
    (x : SideSelection) : LoopRes SideSelection :=
  forLoop (Get_Sons_red_side env s theElement side i)
    (SIDES_OF_ELEM env s (x.SonList i)) 0 x

/-- The loop `for (i=*Sons_of_Side; i<MAX_SONS; i++) SonList[i] = NULL;`. -/
def Get_Sons_clear (env : Env) (Sons_of_Side : Nat) (SonList : Nat → Nat) : Nat → Nat :=
  fun i => if Sons_of_Side ≤ i ∧ i < env.MAX_SONS then 0 else SonList i

/-- The function `Get_Sons_of_ElementSide` of a serial build: the return code and what it
hands back through `Sons_of_Side`, `SonList` and `SonSides`. `SonSides` is the array as
the caller hands it over. -/
def Get_Sons_of_ElementSide (env : Env) (fuel : Nat) (s : Mesh) (theElement side : Nat)
    (SonList SonSides : Nat → Nat) (NeedSons : Nat) : Except Stop SonsOfSide :=
  -- get sons of element
  match (if NeedSons ≠ 0 then GetSons env fuel s theElement
      else .ok (GM_OK, SonList)) with
  | .error r => .error r
  | .ok g =>
    if g.1 ≠ GM_OK then
      .ok { code := GM_FATAL, Sons_of_Side := 0, SonList := g.2, SonSides := SonSides }
    else
      let markclass := if env.DIM = 2 then CLASS.RED_CLASS else s.MARKCLASS theElement
      -- select sons to connect
      match markclass with
      | CLASS.YELLOW_CLASS =>
        .ok { code := GM_OK, Sons_of_Side := 1, SonList := Get_Sons_clear env 1 g.2,
              SonSides := upd SonSides 0 side }
      | CLASS.GREEN_CLASS =>
        let r := env.Get_Sons_green s theElement side g.2
        if r.code ≠ GM_OK then .ok r
        else .ok { r with SonList := Get_Sons_clear env r.Sons_of_Side r.SonList }
      | CLASS.RED_CLASS =>
        match forLoop (Get_Sons_red_son env s theElement side) (s.NSONS theElement) 0
            { SonList := g.2, SonSides := SonSides, nsons := 0 } with
        | .stop r => .error r
        | .ret c x =>
          .ok { code := c, Sons_of_Side := x.nsons, SonList := x.SonList,
                SonSides := x.SonSides }
        | .next x =>
          .ok { code := GM_OK, Sons_of_Side := x.nsons,
                SonList := Get_Sons_clear env x.nsons x.SonList, SonSides := x.SonSides }
      | CLASS.NO_CLASS =>
        .ok { code := GM_FATAL, Sons_of_Side := 0, SonList := g.2, SonSides := SonSides }

/-! ### `RefineElementRed` -/

/-- The state of `RefineElementRed`: the mesh and the array `SonList`. -/
abbrev RedState := Mesh × (Nat → Nat)

/-- The test "exterior side at the boundary" for son `sn` of the rule `rule` of the tag
`tag`: the value of `boundaryelement`. -/
def RefineElementRed_boundary (env : Env) (s : Mesh) (theElement : Nat) (tag : TAG)
    (rule : Int) (sn : Nat) : Bool :=
  s.BEOBJ theElement &&
    (List.range (env.element_descriptors (env.SON_TAG_OF_RULE tag rule sn)).sides_of_elem).any
      (fun i =>
        decide (env.SON_NB_OF_RULE tag rule sn i ≥ env.FATHER_SIDE_OFFSET) &&
        s.SIDE_ON_BND theElement (env.SON_NB_OF_RULE tag rule sn i - env.FATHER_SIDE_OFFSET))

/-- The body of the loop "create elements" of `RefineElementRed`. -/
def RefineElementRed_create (env : Env) (theElement : Nat) (tag : TAG) (rule : Int)
    (theElementContext : Nat → Nat) (sn : Nat) (x : RedState) : LoopRes RedState :=
  let s := x.1
  let sontag := env.SON_TAG_OF_RULE tag rule sn
  let boundaryelement := RefineElementRed_boundary env s theElement tag rule sn
  if (List.range (env.element_descriptors sontag).corners_of_elem).any (fun i =>
      decide (theElementContext (env.SON_CORNER_OF_RULE tag rule sn i) = 0)) then
    .stop Stop.abort
  else
    let ElementNodes : Nat → Nat := fun i =>
      theElementContext (env.SON_CORNER_OF_RULE tag rule sn i)
    let r := CreateElement env s sontag boundaryelement ElementNodes theElement
    if r.1 = 0 then .ret GM_ERROR (r.2, x.2)
    else
      -- fill in son data
      .next ({ r.2 with ECLASS := upd r.2.ECLASS r.1 (r.2.MARKCLASS theElement) },
        upd x.2 sn r.1)

/-- The statements `SETNSONS(theElement,NSONS_OF_RULE(rule))` and `SET_SON` of
`RefineElementRed`: in 2-D every son is entered, in 3-D the first. -/
def RefineElementRed_sons (env : Env) (theElement : Nat) (n : Nat) (x : RedState) : Mesh :=
  let s := x.1
  let s1 : Mesh := { s with NSONS := upd s.NSONS theElement n }
  if env.DIM = 2 then
    let sons : Nat → Nat := fun i => if i < s1.NSONS theElement then x.2 i else s1.SON theElement i
    { s1 with SON := upd s1.SON theElement sons }
  else { s1 with SON := upd2 s1.SON theElement 0 (x.2 0) }

/-- The block "dispose doubled side vectors" for side `i` of son `sn` and its neighbour
`side` among the sons. -/
def RefineElementRed_sidevector (env : Env) (tag : TAG) (rule : Int) (SonList : Nat → Nat)
    (sn i side : Nat) (s : Mesh) : LoopRes Mesh :=
  if env.DIM = 3 ∧ env.SIDEVECTOR_DEF = true then
    let l := searchSide s (SonList side) (SonList sn) (SIDES_OF_ELEM env s (SonList side)) 0
    if l < SIDES_OF_ELEM env s (SonList side) then
      -- assert consistency of rule set
      if env.SON_NB_OF_RULE tag rule side l ≠ sn then .stop Stop.abort
      else if env.DisposeDoubledSideVector (SonList sn) i (SonList side) l ≠ 0 then
        .ret GM_FATAL s
      else .next s
    else .next s
  else .next s

/-- The body of the loop over the sides of son `sn` in the loop "connect elements" of
`RefineElementRed`. -/
def RefineElementRed_connect_side (env : Env) (tag : TAG) (rule : Int) (SonList : Nat → Nat)
    (sn : Nat) (i : Nat) (s : Mesh) : LoopRes Mesh :=
  let s1 : Mesh := { s with NBELEM := upd2 s.NBELEM (SonList sn) i 0 }
  let side := env.SON_NB_OF_RULE tag rule sn i
  -- an interior face
  if side < env.FATHER_SIDE_OFFSET then
    let s2 : Mesh := { s1 with NBELEM := upd2 s1.NBELEM (SonList sn) i (SonList side) }
    if SonList side = 0 then .stop Stop.abort
    else RefineElementRed_sidevector env tag rule SonList sn i side s2
  else .next s1

/-- The body of the loop "connect elements" of `RefineElementRed`. -/
def RefineElementRed_connect (env : Env) (tag : TAG) (rule : Int) (SonList : Nat → Nat)
    (sn : Nat) (s : Mesh) : LoopRes Mesh :=
  forLoop (RefineElementRed_connect_side env tag rule SonList sn)
    (SIDES_OF_ELEM env s (SonList sn)) 0 s

/-- The body of the last loop of `RefineElementRed`, over the sides of the element: the
sons on the side are selected and connected to the sons of the neighbour. -/
def RefineElementRed_side (env : Env) (theElement : Nat) (n : Nat) (SonList : Nat → Nat)
    (i : Nat) (s : Mesh) : LoopRes Mesh :=
  let Sons_of_Side_List : Nat → Nat := fun j => if j < n then SonList j else 0
  match Get_Sons_of_ElementSide env 0 s theElement i Sons_of_Side_List (fun _ => 0) 0 with
  | .error r => .stop r
  | .ok g =>
    if g.code ≠ GM_OK then .ret GM_FATAL s
    else
      match Connect_Sons_of_ElementSide env s theElement i g.Sons_of_Side g.SonList
          g.SonSides with
      | .error r => .stop r
      | .ok p => if p.1 ≠ GM_OK then .ret GM_FATAL p.2 else .next p.2

/-- The function `RefineElementRed` of a serial build without debug output: return code
and mesh. The rule `MARK2RULEADR(theElement,MARK(theElement))` is read once, at the
start. -/
def RefineElementRed (env : Env) (s : Mesh) (theElement : Nat)
    (theElementContext : Nat → Nat) : Except Stop (Int × Mesh) :=
  -- is something to do ?
  if s.MARK theElement = env.NO_REFINEMENT then .ok (GM_OK, s)
  else
    let tag := s.TAG theElement
    let rule := s.MARK theElement
    let n := env.NSONS_OF_RULE tag rule
    -- create elements
    match forLoop (RefineElementRed_create env theElement tag rule theElementContext) n 0
        (s, fun _ => 0) with
    | .stop r => .error r
    | .ret c x => .ok (c, x.1)
    | .next x1 =>
      let s2 := RefineElementRed_sons env theElement n x1
      -- connect elements
      match forLoop (RefineElementRed_connect env tag rule x1.2) n 0 s2 with
      | .stop r => .error r
      | .ret c y => .ok (c, y)
      | .next s3 =>
        match forLoop (RefineElementRed_side env theElement n x1.2)
            (SIDES_OF_ELEM env s3 theElement) 0 s3 with
        | .stop r => .error r
        | .ret c y => .ok (c, y)
        | .next s4 => .ok (GM_OK, s4)

/-- The build `env` with the procedures `UnrefineElement` and `RefineElementRed` of
`refine.c` themselves as the callees of `RefineGrid`; `fuel` is the budget of
`UnrefineElement`. -/
def withCallees (env : Env) (fuel : Nat) : Env :=
  { env with
    UnrefineElement := fun s e => UnrefineElement env fuel s s.UPGRID e
    RefineElementRed := fun s e ctx => RefineElementRed env s e ctx }

/-! ## `ComputeCopies`

The classes of the vectors on the next level belong to the algebra; the procedures that
write and read them are taken from `Env`. -/

/-- The body of the loop "seed dofs of regularly and irregularly refined elements to 3"; the
state is the classes of the vectors and the variable `flag`. -/
def ComputeCopies_seed (env : Env) (s : Mesh) (theElement : Nat) (x : (Nat → Nat) × Int) :
    LoopRes ((Nat → Nat) × Int) :=
  if s.MARK theElement ≠ env.NO_REFINEMENT ∧
      (s.MARKCLASS theElement = CLASS.RED_CLASS ∨
        s.MARKCLASS theElement = CLASS.GREEN_CLASS) then
    -- there is at least one element to be refined
    .next (env.SeedNextVectorClasses s x.1 theElement, 1)
  else .next x

/-- The body of the loop of the branch `rFlag==GM_COPY_ALL`. -/
def ComputeCopies_all (env : Env) (s : Mesh) (theElement : Nat) (vn : Nat → Nat) :
    LoopRes (Nat → Nat) :=
  .next (env.SeedNextVectorClasses s vn theElement)

/-- The body of the last loop of `ComputeCopies`: "an element is copied if it has a dof of
class 2 and higher". -/
def ComputeCopies_copy (env : Env) (vn : Nat → Nat) (theElement : Nat) (s : Mesh) :
    LoopRes Mesh :=
  if s.MARK theElement = env.NO_REFINEMENT ∧
      env.MaxNextVectorClass s vn theElement ≥ env.MINVNCLASS then
    .next (SETMARKCLASS (SETMARK s theElement env.COPY) theElement CLASS.YELLOW_CLASS)
  else .next s

/-- The function `ComputeCopies`: return code and mesh. `fuel` bounds the rounds of every
loop over the element list. -/
def ComputeCopies (env : Env) (fuel : Nat) (s : Mesh) : Except Stop (Int × Mesh) :=
  -- set class of all dofs on next level to 0
  let vn0 := env.ClearNextVectorClasses s
  -- seed dofs of regularly and irregularly refined elements to 3
  match forElements (fun _ => s.SUCCE) (ComputeCopies_seed env s) fuel s.FIRSTELEMENT
      (vn0, 0) with
  | .ret c _ => .ok (c, s)
  | .stop r => .error r
  | .next x1 =>
    -- copy all option or neighborhood
    match (if env.rFlag = env.GM_COPY_ALL then
        if x1.2 ≠ 0 then
          forElements (fun _ => s.SUCCE) (ComputeCopies_all env s) fuel s.FIRSTELEMENT x1.1
        else .next x1.1
      else .next (env.PropagateNextVectorClasses s x1.1)) with
    | .ret c _ => .ok (c, s)
    | .stop r => .error r
    | .next vn =>
      match forElements (fun y => y.SUCCE) (ComputeCopies_copy env vn) fuel s.FIRSTELEMENT
          s with
      | .ret c y => .ok (c, y)
      | .stop r => .error r
      | .next y => .ok (GM_OK, y)

/-! ## `RefineMultiGrid`: the calls of `CloseGrid`

The statements of `RefineMultiGrid` around its two calls of `CloseGrid`, in the order of the
text of `refine.c` and without the debug output. -/

/-- The statement `if ((r = CloseGrid(theGrid))<0) { PrintErrorMessage('E',"RefineMultiGrid",
...); }` of lines 3758 to 3760 and 3817 to 3819: the value stored in `r` and the mesh with
which the function goes on. The message is noted in the history; the block holds no other
statement. -/
def RefineMultiGrid_CloseGrid (env : Env) (fuel : Nat) (s : Mesh) : Except Stop (Int × Mesh) :=
  match CloseGrid env fuel s with
  | .error r => .error r
  | .ok p =>
    if p.1 < 0 then .ok (p.1, logCall p.2 Event.PrintErrorMessage)
    else .ok p

/-- The round for level `k` of the loop `for (k=j; k>0; k--)` of `RefineMultiGrid`, lines
3752 to 3773: in closure mode `CloseGrid` on the grid of level `k`, then
`if (RestrictMarks(GRID_ON_LEVEL(theMG,k-1))!=GM_OK) RETURN(GM_ERROR);`. The state is the
variable `r` and the mesh. -/
def RefineMultiGrid_restrict (env : Env) (fuel : Nat) (k : Nat) (x : Int × Mesh) :
    LoopRes (Int × Mesh) :=
  match (if env.hFlag ≠ 0 then RefineMultiGrid_CloseGrid env fuel (env.GRID_ON_LEVEL x.2 k)
      else .ok x) with
  | .error r => .stop r
  | .ok x1 =>
    match RestrictMarks env fuel (env.GRID_ON_LEVEL x1.2 (k - 1)) with
    | .error r => .stop r
    | .ok q => if q.1 ≠ GM_OK then .ret GM_ERROR (x1.1, q.2) else .next (x1.1, q.2)

/-- The statements of lines 3812 to 3838 of `RefineMultiGrid` for the grid at hand, in
closure mode: `if ((nrefined = GridClosure(theGrid))<0) RETURN(GM_ERROR);`, the call of
`CloseGrid` with its message, and `ComputeCopies(theGrid);`. The state is the variable `r`
and the mesh. -/
def RefineMultiGrid_closure (env : Env) (fuel : Nat) (x : Int × Mesh) : LoopRes (Int × Mesh) :=
  -- determine regular and irregular elements on next level
  match env.GridClosure x.2 with
  | .error r => .stop r
  | .ok g =>
    if g.1 < 0 then .ret GM_ERROR (x.1, g.2)
    else
      match RefineMultiGrid_CloseGrid env fuel g.2 with
      | .error r => .stop r
      | .ok x1 =>
        match ComputeCopies env fuel x1.2 with
        | .error r => .stop r
        | .ok c => .next (x1.1, c.2)

/-! ## `RefineElementGreen`: the table of the sons

The part of `RefineElementGreen` from "init son data array" to the end of "connect elements
over edges": it fills the local array `sons` and changes nothing in the mesh. The arrays
`sides` and `theSideNodes` are filled anew for every side; what they hold from the side
before, in the entries beyond the edges of the side at hand, is not read. -/

/-- The constant `MAX_GREEN_SONS`. -/
def MAX_GREEN_SONS : Nat := 32

/-- The constant `CORNERS_OF_EDGE` of `gm.h`. -/
def CORNERS_OF_EDGE_CONST : Nat := 2

/-- One entry of the array `sons` (`struct greensondata`); `tag` is `none` for `-1`. -/
structure GREENSONDATA where
  tag : Option TAG
  bdy : Int
  corners : Nat → Nat
  nb : Nat → Int
  theSon : Nat

/-- An entry after the loop "init son data array". -/
def GREENSONDATA_init : GREENSONDATA where
  tag := none
  bdy := -1
  corners := fun _ => 0
  nb := fun _ => -1
  theSon := 0

/-- The index variables set under "init indices for son elements". -/
structure GreenIndices where
  tetNode0 : Nat
  tetNode1 : Nat
  tetNode2 : Nat
  tetSideNode0Node1 : Nat
  tetSideNode1Node2 : Nat
  tetSideNode0Node2 : Nat
  pyrSide : Nat
  pyrNode0 : Nat
  pyrNode1 : Nat
  pyrNode2 : Nat
  pyrNode3 : Nat
  pyrSideNode0Node1 : Nat
  pyrSideNode1Node2 : Nat
  pyrSideNode2Node3 : Nat
  pyrSideNode0Node3 : Nat

/-- The search `for (i=i0; i<i0+n; i++) if (p(i)) break;`: the value of `i` after the
loop. -/
def searchBreak (p : Nat → Bool) : Nat → Nat → Nat
  | 0, i => i
  | k + 1, i => if p i then i else searchBreak p k (i + 1)

/-- The statements "init indices for son elements". -/
def RefineElementGreen_indices (env : Env) : GreenIndices :=
  let tet := env.element_descriptors TAG.TETRAHEDRON
  let pyr := env.element_descriptors TAG.PYRAMID
  let tetEdge0 := tet.edge_of_side 0 0
  let tetEdge1 := tet.edge_of_side 0 1
  let tetEdge2 := tet.edge_of_side 0 2
  let i := searchBreak (fun i => decide (pyr.corners_of_side i = 4)) pyr.sides_of_elem 0
  let pyrEdge0 := pyr.edge_of_side i 0
  let pyrEdge1 := pyr.edge_of_side i 1
  let pyrEdge2 := pyr.edge_of_side i 2
  let pyrEdge3 := pyr.edge_of_side i 3
  { tetNode0 := tet.corner_of_side 0 0
    tetNode1 := tet.corner_of_side 0 1
    tetNode2 := tet.corner_of_side 0 2
    tetSideNode0Node1 :=
      if tet.side_with_edge tetEdge0 0 = 0 then tet.side_with_edge tetEdge0 1
      else tet.side_with_edge tetEdge0 0
    tetSideNode1Node2 :=
      if tet.side_with_edge tetEdge1 0 = 0 then tet.side_with_edge tetEdge1 1
      else tet.side_with_edge tetEdge1 0
    tetSideNode0Node2 :=
      if tet.side_with_edge tetEdge2 0 = 0 then tet.side_with_edge tetEdge2 1
      else tet.side_with_edge tetEdge2 0
    pyrSide := i
    pyrNode0 := pyr.corner_of_side i 0
    pyrNode1 := pyr.corner_of_side i 1
    pyrNode2 := pyr.corner_of_side i 2
    pyrNode3 := pyr.corner_of_side i 3
    pyrSideNode0Node1 :=
      if pyr.side_with_edge pyrEdge0 1 = i then pyr.side_with_edge pyrEdge0 0
      else pyr.side_with_edge pyrEdge0 1
    pyrSideNode1Node2 :=
      if pyr.side_with_edge pyrEdge1 1 = i then pyr.side_with_edge pyrEdge1 0
      else pyr.side_with_edge pyrEdge1 1
    pyrSideNode2Node3 :=
      if pyr.side_with_edge pyrEdge2 1 = i then pyr.side_with_edge pyrEdge2 0
      else pyr.side_with_edge pyrEdge2 1
    pyrSideNode0Node3 :=
      if pyr.side_with_edge pyrEdge3 1 = i then pyr.side_with_edge pyrEdge3 0
      else pyr.side_with_edge pyrEdge3 1 }

/-- The seven statements that define a tetrahedron in `sons[nelem]`: the tag, the corners
`tetNode0`, `tetNode1`, `tetNode2` and the neighbours over the sides `tetSideNode0Node1`,
`tetSideNode1Node2`, `tetSideNode0Node2`, in this order. -/
def greenTet (ix : GreenIndices) (sons : Nat → GREENSONDATA) (nelem : Nat)
    (c0 c1 c2 : Nat) (n01 n12 n02 : Int) : Nat → GREENSONDATA :=
  upd sons nelem
    { tag := some TAG.TETRAHEDRON
      bdy := (sons nelem).bdy
      corners := upd (upd (upd (sons nelem).corners ix.tetNode0 c0) ix.tetNode1 c1) ix.tetNode2 c2
      nb := upd (upd (upd (sons nelem).nb ix.tetSideNode0Node1 n01) ix.tetSideNode1Node2 n12)
        ix.tetSideNode0Node2 n02
      theSon := (sons nelem).theSon }

/-- The nine statements that define a pyramid in `sons[nelem]`: the tag, the corners
`pyrNode0` to `pyrNode3` and the neighbours over the sides `pyrSideNode0Node1`,
`pyrSideNode1Node2`, `pyrSideNode2Node3`, `pyrSideNode0Node3`, in this order. -/
def greenPyr (ix : GreenIndices) (sons : Nat → GREENSONDATA) (nelem : Nat)
    (c0 c1 c2 c3 : Nat) (n01 n12 n23 n03 : Int) : Nat → GREENSONDATA :=
  upd sons nelem
    { tag := some TAG.PYRAMID
      bdy := (sons nelem).bdy
      corners := upd (upd (upd (upd (sons nelem).corners ix.pyrNode0 c0) ix.pyrNode1 c1)
        ix.pyrNode2 c2) ix.pyrNode3 c3
      nb := upd (upd (upd (upd (sons nelem).nb ix.pyrSideNode0Node1 n01) ix.pyrSideNode1Node2 n12)
        ix.pyrSideNode2Node3 n23) ix.pyrSideNode0Node3 n03
      theSon := (sons nelem).theSon }

/-- The value of `node0` after a loop `for (j=0; j<nedges; j++) { node0 = 2*j+1; if (..)
break; }` that has left `j`: the last value assigned. -/
def node0After (nedges j : Nat) : Nat :=
  if j < nedges then 2 * j + 1 else 2 * (nedges - 1) + 1

/-- The body of the loop of the case 4 for a quadrilateral side without side node: one
tetrahedron at the corner behind edge `j`; the state is `sons` and `nelem`. -/
def RefineElementGreen_quad_corner (ix : GreenIndices) (theSideNodes : Nat → Nat)
    (sides : Nat → Int) (nedges : Nat) (j : Nat) (x : (Nat → GREENSONDATA) × Nat) :
    (Nat → GREENSONDATA) × Nat :=
  let node0 := 2 * j + 1
  let nelem := x.2
  (greenTet ix x.1 nelem (theSideNodes node0) (theSideNodes ((node0 + 1) % (2 * nedges)))
      (theSideNodes ((node0 + 2) % (2 * nedges)))
      (sides (j % nedges)) (sides ((j + 1) % nedges)) ((nelem : Int) + ((nedges : Int) - (j : Int))),
    nelem + 1)

/-- The switch on `k` for a quadrilateral side without side node (`theNode == NULL`). -/
def RefineElementGreen_quad (ix : GreenIndices) (theSideNodes : Nat → Nat) (sides : Nat → Int)
    (nedges k nelem : Nat) (sons : Nat → GREENSONDATA) : LoopRes (Nat → GREENSONDATA) :=
  if k = 0 then
    .next (greenPyr ix sons nelem (theSideNodes 0) (theSideNodes 2) (theSideNodes 4)
      (theSideNodes 6) (sides 0) (sides 1) (sides 2) (sides 3))
  else if k = 1 then
    let j := searchBreak (fun j => decide (theSideNodes (2 * j + 1) ≠ 0)) nedges 0
    if j < nedges then
      let node0 := 2 * j + 1
      -- define the son corners and inner side relations
      let sons1 := greenTet ix sons nelem (theSideNodes node0)
        (theSideNodes ((node0 + 1) % (2 * nedges))) (theSideNodes ((node0 + 3) % (2 * nedges)))
        (sides j) (sides ((j + 1) % nedges)) ((nelem : Int) + 2)
      let nelem1 := nelem + 1
      let sons2 := greenTet ix sons1 nelem1 (theSideNodes node0)
        (theSideNodes ((node0 + 5) % (2 * nedges))) (theSideNodes ((node0 + 7) % (2 * nedges)))
        ((nelem1 : Int) + 1) (sides ((j + 3) % nedges)) (sides j)
      let nelem2 := nelem1 + 1
      .next (greenTet ix sons2 nelem2 (theSideNodes node0)
        (theSideNodes ((node0 + 3) % (2 * nedges))) (theSideNodes ((node0 + 5) % (2 * nedges)))
        ((nelem2 : Int) - 2) (sides ((j + 2) % nedges)) ((nelem2 : Int) - 1))
    else .next sons
  else if k = 2 then
    -- two cases: sidenodes are not on neighboring edges OR are on neighboring edges
    let j0 := searchBreak (fun j => decide (theSideNodes (2 * j + 1) ≠ 0)) nedges 0
    let node00 := node0After nedges j0
    let shift := theSideNodes ((node00 + 6) % (2 * nedges)) ≠ 0
    let node0 := if shift then (node00 + 6) % (2 * nedges) else node00
    let j := if shift then (j0 + 3) % nedges else j0
    if theSideNodes ((node0 + 4) % (2 * nedges)) = 0 then
      let sons1 := greenTet ix sons nelem (theSideNodes node0)
        (theSideNodes ((node0 + 1) % (2 * nedges))) (theSideNodes ((node0 + 2) % (2 * nedges)))
        (sides (j % nedges)) (sides ((j + 1) % nedges)) ((nelem : Int) + 3)
      let nelem1 := nelem + 1
      let sons2 := greenTet ix sons1 nelem1 (theSideNodes node0)
        (theSideNodes ((node0 + 5) % (2 * nedges))) (theSideNodes ((node0 + 7) % (2 * nedges)))
        ((nelem1 : Int) + 2) (sides ((j + 3) % nedges)) (sides (j % nedges))
      let nelem2 := nelem1 + 1
      let sons3 := greenTet ix sons2 nelem2 (theSideNodes ((node0 + 2) % (2 * nedges)))
        (theSideNodes ((node0 + 3) % (2 * nedges))) (theSideNodes ((node0 + 5) % (2 * nedges)))
        (sides ((j + 1) % nedges)) (sides ((j + 2) % nedges)) ((nelem2 : Int) + 1)
      let nelem3 := nelem2 + 1
      .next (greenTet ix sons3 nelem3 (theSideNodes node0)
        (theSideNodes ((node0 + 2) % (2 * nedges))) (theSideNodes ((node0 + 5) % (2 * nedges)))
        ((nelem3 : Int) - 3) ((nelem3 : Int) - 1) ((nelem3 : Int) - 2))
    else
      let sons1 := greenPyr ix sons nelem (theSideNodes node0)
        (theSideNodes ((node0 + 1) % (2 * nedges))) (theSideNodes ((node0 + 3) % (2 * nedges)))
        (theSideNodes ((node0 + 4) % (2 * nedges)))
        (sides (j % nedges)) (sides ((j + 1) % nedges)) (sides ((j + 2) % nedges))
        ((nelem : Int) + 1)
      let nelem1 := nelem + 1
      .next (greenPyr ix sons1 nelem1 (theSideNodes ((node0 + 4) % (2 * nedges)))
        (theSideNodes ((node0 + 5) % (2 * nedges))) (theSideNodes ((node0 + 7) % (2 * nedges)))
        (theSideNodes ((node0 + 8) % (2 * nedges)))
        (sides ((j + 2) % nedges)) (sides ((j + 3) % nedges)) (sides (j % nedges))
        ((nelem1 : Int) - 1))
  else if k = 3 then
    let j := searchBreak (fun j => decide (theSideNodes (2 * j + 1) = 0)) nedges 0
    let node0 := node0After nedges j
    let sons1 := greenPyr ix sons nelem (theSideNodes ((node0 + 1) % (2 * nedges)))
      (theSideNodes ((node0 + 2) % (2 * nedges))) (theSideNodes ((node0 + 6) % (2 * nedges)))
      (theSideNodes ((node0 + 7) % (2 * nedges)))
      (sides ((j + 1) % nedges)) ((nelem : Int) + 3) (sides ((j + 3) % nedges))
      (sides (j % nedges))
    let nelem1 := nelem + 1
    let sons2 := greenTet ix sons1 nelem1 (theSideNodes ((node0 + 2) % (2 * nedges)))
      (theSideNodes ((node0 + 3) % (2 * nedges))) (theSideNodes ((node0 + 4) % (2 * nedges)))
      (sides ((j + 1) % nedges)) (sides ((j + 2) % nedges)) ((nelem1 : Int) + 2)
    let nelem2 := nelem1 + 1
    let sons3 := greenTet ix sons2 nelem2 (theSideNodes ((node0 + 4) % (2 * nedges)))
      (theSideNodes ((node0 + 5) % (2 * nedges))) (theSideNodes ((node0 + 6) % (2 * nedges)))
      (sides ((j + 2) % nedges)) (sides ((j + 3) % nedges)) ((nelem2 : Int) + 1)
    let nelem3 := nelem2 + 1
    .next (greenTet ix sons3 nelem3 (theSideNodes ((node0 + 2) % (2 * nedges)))
      (theSideNodes ((node0 + 4) % (2 * nedges))) (theSideNodes ((node0 + 6) % (2 * nedges)))
      ((nelem3 : Int) - 2) ((nelem3 : Int) - 1) ((nelem3 : Int) - 3))
  else if k = 4 then
    let x := (List.range nedges).foldl
      (fun x j => RefineElementGreen_quad_corner ix theSideNodes sides nedges j x) (sons, nelem)
    let nelem4 := x.2
    .next (greenPyr ix x.1 nelem4 (theSideNodes 1) (theSideNodes 3) (theSideNodes 5)
      (theSideNodes 7)
      ((nelem4 : Int) - 4) ((nelem4 : Int) - 3) ((nelem4 : Int) - 2) ((nelem4 : Int) - 1))
  else .ret GM_FATAL sons

/-- The loop "create the four side edges" for a quadrilateral side with a side node, from
`j` on with `n` rounds to go: the value of `j` after the loop, `sons` and `nelem`. -/
def RefineElementGreen_sidenode_loop (ix : GreenIndices) (theSideNodes : Nat → Nat)
    (theNode : Nat) (sides : Nat → Int) (nedges : Nat) :
    Nat → Nat → (Nat → GREENSONDATA) × Nat → Nat × ((Nat → GREENSONDATA) × Nat)
  | 0, j, x => (j, x)
  | n + 1, j, x =>
    let node0 := 2 * j + 1
    if theSideNodes node0 = 0 then (j, x)
    else
      let nelem := x.2
      RefineElementGreen_sidenode_loop ix theSideNodes theNode sides nedges n (j + 1)
        (greenPyr ix x.1 nelem (theSideNodes (node0 % (2 * nedges)))
          (theSideNodes ((node0 + 1) % (2 * nedges))) (theSideNodes ((node0 + 2) % (2 * nedges)))
          theNode
          (sides (j % nedges)) (sides ((j + 1) % nedges))
          (if j = 3 then (nelem : Int) - 3 else (nelem : Int) + 1)
          (if j = 0 then (nelem : Int) + 3 else (nelem : Int) - 1),
        nelem + 1)

/-- The case of a quadrilateral side with a side node, and the `ASSERT(j==4)` behind it. -/
def RefineElementGreen_sidenode (ix : GreenIndices) (theSideNodes : Nat → Nat) (theNode : Nat)
    (sides : Nat → Int) (nedges nelem : Nat) (sons : Nat → GREENSONDATA) :
    LoopRes (Nat → GREENSONDATA) :=
  let r := RefineElementGreen_sidenode_loop ix theSideNodes theNode sides nedges nedges 0
    (sons, nelem)
  if r.1 = 4 then .next r.2.1 else .stop Stop.abort

/-- The body of the loop of the case 2 for a triangular side, for the side-local edge `k`;
the state is `node0`, `j` and `maxedge`. `edges k` is `EDGE_OF_SIDE(theElement,i,k)`. -/
def RefineElementGreen_scan (theSideNodes : Nat → Nat) (edges : Nat → Nat) (nedges : Nat)
    (x : Int × Nat × Int) (k : Nat) : Int × Nat × Int :=
  let node := (2 * k + 3) % (2 * nedges)
  let x1 : Int × Nat × Int :=
    if theSideNodes node = 0 then (((2 * k + 1 : Nat) : Int), k, x.2.2) else x
  if (edges k : Int) > x1.2.2 then (x1.1, x1.2.1, ((2 * k + 1 : Nat) : Int)) else x1

/-- The switch on `k` for a triangular side. `pattern` is `SIDEPATTERN(theElement)&(1<<i)`. -/
def RefineElementGreen_triangle (ix : GreenIndices) (theSideNodes : Nat → Nat)
    (sides : Nat → Int) (edges : Nat → Nat) (pattern : Nat) (nedges k nelem : Nat)
    (sons : Nat → GREENSONDATA) : LoopRes (Nat → GREENSONDATA) :=
  if k = 0 then
    .next (greenTet ix sons nelem (theSideNodes 0) (theSideNodes 2) (theSideNodes 4)
      (sides 0) (sides 1) (sides 2))
  else if k = 1 then
    let j := searchBreak (fun j => decide (theSideNodes (2 * j + 1) ≠ 0)) nedges 0
    if j < nedges then
      let node0 := 2 * j + 1
      -- define the son corners and inner side relations
      let sons1 := greenTet ix sons nelem (theSideNodes node0)
        (theSideNodes ((node0 + 1) % (2 * nedges))) (theSideNodes ((node0 + 3) % (2 * nedges)))
        (sides j) (sides ((j + 1) % nedges)) ((nelem : Int) + 1)
      let nelem1 := nelem + 1
      .next (greenTet ix sons1 nelem1 (theSideNodes node0)
        (theSideNodes ((node0 + 3) % (2 * nedges))) (theSideNodes ((node0 + 5) % (2 * nedges)))
        ((nelem1 : Int) - 1) (sides ((j + 2) % nedges)) (sides j))
    else .next sons
  else if k = 2 then
    let x := (List.range nedges).foldl (RefineElementGreen_scan theSideNodes edges nedges)
      (-1, nedges, -1)
    let maxedge := x.2.2
    if maxedge = -1 then .stop Stop.abort
    else if x.1 = -1 then .stop Stop.abort
    else
      let node0 := x.1.toNat
      let j := x.2.1
      if x.1 = maxedge ∧ pattern = 0 then
        let sons1 := greenTet ix sons nelem (theSideNodes node0)
          (theSideNodes ((node0 + 1) % (2 * nedges))) (theSideNodes ((node0 + 3) % (2 * nedges)))
          (sides j) (sides ((j + 1) % nedges)) ((nelem : Int) + 2)
        let nelem1 := nelem + 1
        let sons2 := greenTet ix sons1 nelem1 (theSideNodes node0)
          (theSideNodes ((node0 + 4) % (2 * nedges))) (theSideNodes ((node0 + 5) % (2 * nedges)))
          ((nelem1 : Int) + 1) (sides ((j + 2) % nedges)) (sides j)
        let nelem2 := nelem1 + 1
        .next (greenTet ix sons2 nelem2 (theSideNodes node0)
          (theSideNodes ((node0 + 3) % (2 * nedges))) (theSideNodes ((node0 + 4) % (2 * nedges)))
          ((nelem2 : Int) - 2) (sides ((j + 2) % nedges)) ((nelem2 : Int) - 1))
      else
        let sons1 := greenTet ix sons nelem (theSideNodes node0)
          (theSideNodes ((node0 + 1) % (2 * nedges))) (theSideNodes ((node0 + 4) % (2 * nedges)))
          (sides j) ((nelem : Int) + 1) ((nelem : Int) + 2)
        let nelem1 := nelem + 1
        let sons2 := greenTet ix sons1 nelem1 (theSideNodes ((node0 + 4) % (2 * nedges)))
          (theSideNodes ((node0 + 1) % (2 * nedges))) (theSideNodes ((node0 + 3) % (2 * nedges)))
          ((nelem1 : Int) - 1) (sides ((j + 1) % nedges)) (sides ((j + 2) % nedges))
        let nelem2 := nelem1 + 1
        .next (greenTet ix sons2 nelem2 (theSideNodes node0)
          (theSideNodes ((node0 + 4) % (2 * nedges))) (theSideNodes ((node0 + 5) % (2 * nedges)))
          ((nelem2 : Int) - 2) (sides ((j + 2) % nedges)) (sides j))
  else if k = 3 then
    let j := 0
    let node0 := 1
    let sons1 := greenTet ix sons nelem (theSideNodes node0)
      (theSideNodes ((node0 + 1) % (2 * nedges))) (theSideNodes ((node0 + 2) % (2 * nedges)))
      (sides j) (sides ((j + 1) % nedges)) ((nelem : Int) + 3)
    let nelem1 := nelem + 1
    let sons2 := greenTet ix sons1 nelem1 (theSideNodes node0)
      (theSideNodes ((node0 + 4) % (2 * nedges))) (theSideNodes ((node0 + 5) % (2 * nedges)))
      ((nelem1 : Int) + 2) (sides ((j + 2) % nedges)) (sides j)
    let nelem2 := nelem1 + 1
    let sons3 := greenTet ix sons2 nelem2 (theSideNodes (node0 + 2))
      (theSideNodes ((node0 + 3) % (2 * nedges))) (theSideNodes ((node0 + 4) % (2 * nedges)))
      (sides ((j + 1) % nedges)) (sides ((j + 2) % nedges)) ((nelem2 : Int) + 1)
    let nelem3 := nelem2 + 1
    .next (greenTet ix sons3 nelem3 (theSideNodes node0)
      (theSideNodes ((node0 + 2) % (2 * nedges))) (theSideNodes ((node0 + 4) % (2 * nedges)))
      ((nelem3 : Int) - 3) ((nelem3 : Int) - 1) ((nelem3 : Int) - 2))
  else .stop Stop.abort

/-- The macro `SIDE_WITH_EDGE(e,edge,l)`. -/
def SIDE_WITH_EDGE (env : Env) (s : Mesh) (e : Nat) (edge l : Nat) : Nat :=
  (env.element_descriptors (s.TAG e)).side_with_edge edge l

/-- The macro `EDGES_OF_SIDE(e,i)`. -/
def EDGES_OF_SIDE (env : Env) (s : Mesh) (e : Nat) (i : Nat) : Nat :=
  (env.element_descriptors (s.TAG e)).edges_of_side i

/-- The body of the loop that fills `sides` for side `i`: the entry for the edge `j` of the
side is the other side with that edge, shifted by `MAX_GREEN_SONS`; the run stops at the
`ASSERT(l<2)` when neither of the two sides of the edge differs from `i`. -/
def RefineElementGreen_sides_edge (env : Env) (s : Mesh) (theElement : Nat) (i : Nat) (j : Nat)
    (sides : Nat → Int) : LoopRes (Nat → Int) :=
  let edge := EDGE_OF_SIDE env s theElement i j
  if SIDE_WITH_EDGE env s theElement edge 0 ≠ i then
    .next (upd sides j ((SIDE_WITH_EDGE env s theElement edge 0 + MAX_GREEN_SONS : Nat) : Int))
  else if SIDE_WITH_EDGE env s theElement edge 1 ≠ i then
    .next (upd sides j ((SIDE_WITH_EDGE env s theElement edge 1 + MAX_GREEN_SONS : Nat) : Int))
  else .stop Stop.abort

/-- The array `theSideNodes` for side `i`: the corner nodes of the side at the even, the
mid nodes of its edges at the odd indices. -/
def RefineElementGreen_sidenodes (env : Env) (s : Mesh) (theElement : Nat)
    (theContext : Nat → Nat) (i : Nat) : Nat → Nat :=
  fun x =>
    if x < 2 * EDGES_OF_SIDE env s theElement i then
      if x % 2 = 0 then theContext (CORNER_OF_SIDE env s theElement i (x / 2))
      else theContext (CORNERS_OF_ELEM env s theElement + EDGE_OF_SIDE env s theElement i (x / 2))
    else 0

/-- The loop `for (j=nelem; j<(nelem+5); j++) sons[j].bdy = bdy;`. -/
def RefineElementGreen_bdy (bdy : Int) (nelem : Nat) (sons : Nat → GREENSONDATA) :
    Nat → GREENSONDATA :=
  fun j =>
    if nelem ≤ j ∧ j < nelem + 5 then
      { tag := (sons j).tag, bdy := bdy, corners := (sons j).corners, nb := (sons j).nb,
        theSon := (sons j).theSon }
    else sons j

/-- The body of the loop "create edges on inner of sides, create son elements and connect
them" for side `i`. -/
def RefineElementGreen_side (env : Env) (s : Mesh) (theElement : Nat) (theContext : Nat → Nat)
    (ix : GreenIndices) (i : Nat) (sons : Nat → GREENSONDATA) : LoopRes (Nat → GREENSONDATA) :=
  let theNode := theContext (CORNERS_OF_ELEM env s theElement + EDGES_OF_ELEM env s theElement + i)
  let nedges := EDGES_OF_SIDE env s theElement i
  let bdy : Int := if s.BEOBJ theElement = true ∧ s.SIDE_ON_BND theElement i = true then 1 else 0
  let nelem := 5 * i
  let sons1 := RefineElementGreen_bdy bdy nelem sons
  match forLoop (RefineElementGreen_sides_edge env s theElement i) nedges 0 (fun _ => 0) with
  | .stop r => .stop r
  | .ret _ _ => .stop Stop.abort
  | .next sides =>
    let theSideNodes := RefineElementGreen_sidenodes env s theElement theContext i
    let k := ((List.range nedges).filter (fun j => decide (theSideNodes (2 * j + 1) ≠ 0))).length
    if CORNERS_OF_SIDE env s theElement i = 4 then
      if theNode = 0 then RefineElementGreen_quad ix theSideNodes sides nedges k nelem sons1
      else RefineElementGreen_sidenode ix theSideNodes theNode sides nedges nelem sons1
    else if CORNERS_OF_SIDE env s theElement i = 3 then
      RefineElementGreen_triangle ix theSideNodes sides (EDGE_OF_SIDE env s theElement i)
        (s.SIDEPATTERN theElement &&& (1 <<< i)) nedges k nelem sons1
    else .stop Stop.abort

/-- The search `for (k=0; k<MAX_SIDES_OF_ELEM; k++) if ((sons[j].nb[k]-MAX_GREEN_SONS)==side)
break;`: the value of `k` after the loop. -/
def greenSlot (env : Env) (sons : Nat → GREENSONDATA) (j : Nat) (side : Nat) : Nat :=
  searchBreak (fun k => decide ((sons j).nb k - (MAX_GREEN_SONS : Int) = (side : Int)))
    env.MAX_SIDES_OF_ELEM 0

/-- The loops that collect in `elementsSide0` (or `elementsSide1`) the entries of the block
of the side `side0` with a neighbour entry for the side `side1`: one copy of `j` for every
such entry `sons[j].nb[k]`. -/
def greenElementsOfSide (env : Env) (sons : Nat → GREENSONDATA) (side0 side1 : Nat) : List Nat :=
  (List.range' (side0 * 5) 5).flatMap (fun j =>
    ((List.range env.MAX_SIDES_OF_ELEM).filter
      (fun k => decide ((sons j).nb k - (MAX_GREEN_SONS : Int) = (side1 : Int)))).map (fun _ => j))

/-- The search `for (k=0; k<MAX_CORNERS_OF_ELEM; k++) if (theNode1 == sons[a].corners[k])
break;`: whether it ends with `k < MAX_CORNERS_OF_ELEM`. -/
def greenHasCorner (env : Env) (sons : Nat → GREENSONDATA) (a : Nat) (theNode1 : Nat) : Bool :=
  decide (searchBreak (fun k => decide (theNode1 = (sons a).corners k))
    env.MAX_CORNERS_OF_ELEM 0 < env.MAX_CORNERS_OF_ELEM)

/-- The body of the loop over the two corners of an edge that four elements share. -/
def RefineElementGreen_edge_corner (env : Env) (s : Mesh) (theElement : Nat)
    (theContext : Nat → Nat) (i side0 side1 : Nat) (elementsSide0 elementsSide1 : Nat → Nat)
    (j : Nat) (sons : Nat → GREENSONDATA) : LoopRes (Nat → GREENSONDATA) :=
  let theNode1 := theContext (CORNER_OF_EDGE env s theElement i j)
  let l := searchBreak (fun l => greenHasCorner env sons (elementsSide0 l) theNode1) 2 0
  if ¬ l < 2 then .stop Stop.abort
  else
    let m := searchBreak (fun m => greenHasCorner env sons (elementsSide1 m) theNode1) 2 0
    if ¬ m < 2 then .stop Stop.abort
    else
      -- init neighbor field
      let k := greenSlot env sons (elementsSide0 l) side1
      if ¬ k < env.MAX_SIDES_OF_ELEM then .stop Stop.abort
      else
        let a := elementsSide0 l
        let sons1 := upd sons a
          { tag := (sons a).tag, bdy := (sons a).bdy, corners := (sons a).corners,
            nb := upd (sons a).nb k ((elementsSide1 m : Nat) : Int), theSon := (sons a).theSon }
        let k1 := greenSlot env sons1 (elementsSide1 m) side0
        if ¬ k1 < env.MAX_SIDES_OF_ELEM then .stop Stop.abort
        else
          let b := elementsSide1 m
          .next (upd sons1 b
            { tag := (sons1 b).tag, bdy := (sons1 b).bdy, corners := (sons1 b).corners,
              nb := upd (sons1 b).nb k1 ((elementsSide0 l : Nat) : Int),
              theSon := (sons1 b).theSon })

/-- The body of the loop "connect elements over edges" for the edge `i`. -/
def RefineElementGreen_edge (env : Env) (s : Mesh) (theElement : Nat) (theContext : Nat → Nat)
    (i : Nat) (sons : Nat → GREENSONDATA) : LoopRes (Nat → GREENSONDATA) :=
  let side0 := SIDE_WITH_EDGE env s theElement i 0
  let side1 := SIDE_WITH_EDGE env s theElement i 1
  if theContext (i + CORNERS_OF_ELEM env s theElement) = 0 then
    -- two elements share this edge
    let j := searchBreak (fun j => decide (greenSlot env sons j side1 < env.MAX_SIDES_OF_ELEM))
      5 (side0 * 5)
    if ¬ j < side0 * 5 + 5 then .stop Stop.abort
    else
      let k := greenSlot env sons j side1
      let l := searchBreak (fun l => decide (greenSlot env sons l side0 < env.MAX_SIDES_OF_ELEM))
        5 (side1 * 5)
      if ¬ l < side1 * 5 + 5 then .stop Stop.abort
      else
        let m := greenSlot env sons l side0
        let sons1 := upd sons j
          { tag := (sons j).tag, bdy := (sons j).bdy, corners := (sons j).corners,
            nb := upd (sons j).nb k ((l : Nat) : Int), theSon := (sons j).theSon }
        .next (upd sons1 l
          { tag := (sons1 l).tag, bdy := (sons1 l).bdy, corners := (sons1 l).corners,
            nb := upd (sons1 l).nb m ((j : Nat) : Int), theSon := (sons1 l).theSon })
  else
    -- four elements share this edge
    let elementsSide0 := greenElementsOfSide env sons side0 side1
    if elementsSide0.length ≠ 2 then .stop Stop.abort
    else
      let elementsSide1 := greenElementsOfSide env sons side1 side0
      if elementsSide1.length ≠ 2 then .stop Stop.abort
      else
        -- determine neighboring elements
        forLoop (RefineElementGreen_edge_corner env s theElement theContext i side0 side1
          (fun l => elementsSide0.getD l 0) (fun m => elementsSide1.getD m 0))
          CORNERS_OF_EDGE_CONST 0 sons

/-- The part of `RefineElementGreen` that builds the table: the loop "init son data array",
the loop over the sides and the loop "connect elements over edges". The value is the code of
a `RETURN` inside, or `GM_OK` when the run reaches the label "create son elements", and
the array `sons`. -/
def RefineElementGreen_table (env : Env) (s : Mesh) (theElement : Nat)
    (theContext : Nat → Nat) : Except Stop (Int × (Nat → GREENSONDATA)) :=
  let ix := RefineElementGreen_indices env
  match forLoop (RefineElementGreen_side env s theElement theContext ix)
      (SIDES_OF_ELEM env s theElement) 0 (fun _ => GREENSONDATA_init) with
  | .stop r => .error r
  | .ret c x => .ok (c, x)
  | .next sons1 =>
    match forLoop (RefineElementGreen_edge env s theElement theContext)
        (EDGES_OF_ELEM env s theElement) 0 sons1 with
    | .stop r => .error r
    | .ret c x => .ok (c, x)
    | .next sons2 => .ok (GM_OK, sons2)

/-! ## Predicates used in the statements -/

/-- The first record goes strictly before the second in the order of `compare_nodes`. -/
def recBefore (a b : COMPARE_RECORD) : Prop :=
  a.nodeptr 0 > b.nodeptr 0 ∨ (a.nodeptr 0 = b.nodeptr 0 ∧
    (a.nodeptr 1 > b.nodeptr 1 ∨ (a.nodeptr 1 = b.nodeptr 1 ∧
      (a.nodeptr 2 > b.nodeptr 2 ∨ (a.nodeptr 2 = b.nodeptr 2 ∧
        a.nodes = 4 ∧ b.nodes = 4 ∧ a.nodeptr 3 > b.nodeptr 3)))))

/-- The order on corner tuples that `compare_nodes` realises when the slots it reads have
been filled. -/
def tupleBefore (t u : List Nat) : Prop :=
  t.getD 0 0 > u.getD 0 0 ∨ (t.getD 0 0 = u.getD 0 0 ∧
    (t.getD 1 0 > u.getD 1 0 ∨ (t.getD 1 0 = u.getD 1 0 ∧
      (t.getD 2 0 > u.getD 2 0 ∨ (t.getD 2 0 = u.getD 2 0 ∧
        t.length = 4 ∧ u.length = 4 ∧ t.getD 3 0 > u.getD 3 0)))))

/-- The node counts `Sort_Node_Ptr` accepts in the build. -/
def validNodes (DIM n : Nat) : Prop :=
  (DIM = 2 ∧ n = 2) ∨ (DIM = 3 ∧ (n = 3 ∨ n = 4))

/-- The pair `(elem, side)` a record stands for. -/
def recKey (r : COMPARE_RECORD) : Nat × Nat := (r.elem, r.side)

/-- A record as `Fill_Comp_Table` builds it for some side of some element. -/
def Built (env : Env) (s : Mesh) (r : COMPARE_RECORD) : Prop :=
  ∃ old elem side, r = (Fill_Comp_Table_entry env s old elem side).2 ∧
    (Fill_Comp_Table_entry env s old elem side).1 = GM_OK

/-- Every child handed to `Connect_Sons_of_ElementSide` is linked, in the mesh `s'`, to a
child of the neighbour whose table entry holds the same corner tuple. -/
def LinkedToSameCorners (t : SortedTables) (n : Nat) (SonList SonSides : Nat → Nat)
    (s' : Mesh) : Prop :=
  ∀ i, i < n → ∃ k, k < n ∧ faceTuple (t.NbSonTable k) = faceTuple (t.ElemSonTable i) ∧
    s'.NBELEM (SonList i) (SonSides i) = t.nb.SonList k

/-- The part of the mesh that node allocation leaves alone. -/
def SameStatic (s s' : Mesh) : Prop :=
  s'.TAG = s.TAG ∧ s'.CORNER = s.CORNER ∧ s'.MARK = s.MARK ∧ s'.MARKCLASS = s.MARKCLASS ∧
    s'.ADDPATTERN = s.ADDPATTERN ∧ s'.GetEdge = s.GetEdge ∧ s'.NBELEM = s.NBELEM ∧
    s'.REFINE = s.REFINE ∧ s'.REFINECLASS = s.REFINECLASS ∧ s'.USED = s.USED ∧
    s'.COARSEN = s.COARSEN ∧ s'.NSONS = s.NSONS ∧ s'.SON = s.SON ∧ s'.SUCCE = s.SUCCE ∧
    s'.FIRSTELEMENT = s.FIRSTELEMENT ∧ s'.UPGRID = s.UPGRID ∧
    s'.GRID_CHANGED = s.GRID_CHANGED ∧ s'.No_Green_Update = s.No_Green_Update ∧
    s'.Green_Marks = s.Green_Marks

/-- The edge a `CreateMidNode` call was made for; `0` for any other call. -/
def eventEdge : Event → Nat
  | .CreateMidNode _ _ edge => edge
  | _ => 0

/-- Between `s` and `s'` every call noted in the history is a `CreateMidNode` call for an
edge that had no mid node in `s`, with at most one call per edge; mid nodes present in `s`
are still there in `s'`. -/
def MidHistW (s s' : Mesh) : Prop :=
  SameStatic s s' ∧ (∀ x, s.MIDNODE x ≠ 0 → s'.MIDNODE x = s.MIDNODE x) ∧
    ∃ ev : List Event, s'.trace = s.trace ++ ev ∧
      (∀ a ∈ ev, ∃ e j x, a = Event.CreateMidNode e j x ∧ s.MIDNODE x = 0) ∧
      (ev.map eventEdge).Nodup

/-- As `MidHistW`, and every call has recorded its node on the edge. -/
def MidHist (s s' : Mesh) : Prop :=
  SameStatic s s' ∧ (∀ x, s.MIDNODE x ≠ 0 → s'.MIDNODE x = s.MIDNODE x) ∧
    ∃ ev : List Event, s'.trace = s.trace ++ ev ∧
      (∀ a ∈ ev, ∃ e j x, a = Event.CreateMidNode e j x ∧ s.MIDNODE x = 0 ∧
        s'.MIDNODE x ≠ 0) ∧
      (ev.map eventEdge).Nodup

/-- A step that touches neither the static part of the mesh, nor mid nodes, nor history. -/
def Quiet (s s' : Mesh) : Prop :=
  SameStatic s s' ∧ s'.MIDNODE = s.MIDNODE ∧ s'.trace = s.trace

/-- What the loop "allocate midpoint nodes" has established after `i` rounds. -/
def EdgeInv (env : Env) (s0 : Mesh) (e : Nat) (i : Nat) (x : Mesh × Context) : Prop :=
  MidHist s0 x.1 ∧
    (∀ j, j < i → (x.2 (CORNERS_OF_ELEM env s0 e + j) ≠ 0 ↔ toBisect env s0 e j) ∧
      (toBisect env s0 e j →
        x.2 (CORNERS_OF_ELEM env s0 e + j) = x.1.MIDNODE (edgeOf env s0 e j))) ∧
    ∀ k, CORNERS_OF_ELEM env s0 e + i ≤ k → x.2 k = 0

/-- What the loop over the sides keeps of the state `x2` it started from. -/
def SideInv (env : Env) (s0 : Mesh) (e : Nat) (x2 x : Mesh × Context) : Prop :=
  Quiet x2.1 x.1 ∧ ∀ k, k < CORNERS_OF_ELEM env s0 e + EDGES_OF_ELEM env s0 e → x.2 k = x2.2 k

/-! ### Relations between the meshes before and after a part of `CloseGrid` -/

/-- The shape of the mesh is the same: tags, corners and edges. -/
def SameShape (s s' : Mesh) : Prop :=
  s'.TAG = s.TAG ∧ s'.CORNER = s.CORNER ∧ s'.GetEdge = s.GetEdge

/-- The element list of the level is the same. -/
def SameList (s s' : Mesh) : Prop :=
  s'.SUCCE = s.SUCCE ∧ s'.FIRSTELEMENT = s.FIRSTELEMENT

/-- What the first loop of `CloseGrid` keeps: shape, list, and every `ADDPATTERN` that is
already 1. -/
def ResetRel (s s' : Mesh) : Prop :=
  SameShape s s' ∧ SameList s s' ∧ ∀ ed, s.ADDPATTERN ed = 1 → s'.ADDPATTERN ed = 1

/-- What the second loop of `CloseGrid` keeps: shape, list and `ADDPATTERN`; a `MARKCLASS`
either stays or becomes `NO_CLASS`. -/
def PatternRel (s s' : Mesh) : Prop :=
  SameShape s s' ∧ SameList s s' ∧ s'.ADDPATTERN = s.ADDPATTERN ∧
    ∀ e, s'.MARKCLASS e = s.MARKCLASS e ∨ s'.MARKCLASS e = CLASS.NO_CLASS

/-- What the sweeps from `FIFOSTART` keep: shape and `ADDPATTERN`; a `MARKCLASS` either
stays or becomes `RED_CLASS`; without FIFO the element list stays. -/
def SweepRel (env : Env) (s s' : Mesh) : Prop :=
  SameShape s s' ∧ s'.ADDPATTERN = s.ADDPATTERN ∧
    (∀ e, s'.MARKCLASS e = s.MARKCLASS e ∨ s'.MARKCLASS e = CLASS.RED_CLASS) ∧
    (env.fifoFlag = 0 → SameList s s')

/-- What the fifth loop of `CloseGrid` keeps: shape, list, marks and classes; an
`ADDPATTERN` either stays or becomes 0. -/
def AddRel (s s' : Mesh) : Prop :=
  SameShape s s' ∧ SameList s s' ∧ s'.MARK = s.MARK ∧ s'.MARKCLASS = s.MARKCLASS ∧
    ∀ ed, s'.ADDPATTERN ed = s.ADDPATTERN ed ∨ s'.ADDPATTERN ed = 0

/-- An edge of the element has `ADDPATTERN = 0`. -/
def HasRefinedEdge (env : Env) (s : Mesh) (e : Nat) : Prop :=
  ∃ j, j < EDGES_OF_ELEM env s e ∧ s.ADDPATTERN (edgeOf env s e j) = 0

/-- What the sixth loop of `CloseGrid` keeps: shape, list and `ADDPATTERN`, the red
elements and their marks; a `MARKCLASS` either stays or becomes `GREEN_CLASS`, and in 2-D
it changes only on an element with a refined edge. -/
def GreenRel (env : Env) (s s' : Mesh) : Prop :=
  SameShape s s' ∧ SameList s s' ∧ s'.ADDPATTERN = s.ADDPATTERN ∧
    (∀ e, s.MARKCLASS e = CLASS.RED_CLASS →
      s'.MARKCLASS e = CLASS.RED_CLASS ∧ s'.MARK e = s.MARK e) ∧
    (∀ e, s'.MARKCLASS e = s.MARKCLASS e ∨ s'.MARKCLASS e = CLASS.GREEN_CLASS) ∧
    (env.DIM = 2 → ∀ e, s'.MARKCLASS e ≠ s.MARKCLASS e → HasRefinedEdge env s e)

/-- Some red element of the level holds the edge `ed` as a local edge that its mark
bisects. -/
def RedBisects (env : Env) (s : Mesh) (first : Nat) (ed : Nat) : Prop :=
  ∃ e j, OnList s.SUCCE first e ∧ s.MARKCLASS e = CLASS.RED_CLASS ∧
    j < EDGES_OF_ELEM env s e ∧ env.NODE_OF_RULE (s.TAG e) (s.MARK e) j ≠ 0 ∧
    edgeOf env s e j = ed

/-- What the FIFO statements of `CloseGrid` keep: shape, `ADDPATTERN` and `MARKCLASS`. -/
def FifoRel (s s' : Mesh) : Prop :=
  SameShape s s' ∧ s'.ADDPATTERN = s.ADDPATTERN ∧ s'.MARKCLASS = s.MARKCLASS

/-- What one round of the sixth loop of `CloseGrid` keeps when it handles the element `e`:
shape, list and `ADDPATTERN`, mark and class of every other element; the `MARKCLASS` of `e`
either stays or becomes `GREEN_CLASS`. -/
def GreenLocal (e : Nat) (s s' : Mesh) : Prop :=
  SameShape s s' ∧ SameList s s' ∧ s'.ADDPATTERN = s.ADDPATTERN ∧
    (∀ e', e' ≠ e → s'.MARKCLASS e' = s.MARKCLASS e' ∧ s'.MARK e' = s.MARK e') ∧
    (s'.MARKCLASS e = s.MARKCLASS e ∨ s'.MARKCLASS e = CLASS.GREEN_CLASS)

/-! ### Predicates for `RestrictMarks` -/

/-- The part of the mesh that `RestrictMarks` leaves alone and `GetSons` reads. -/
def SameSons (s s' : Mesh) : Prop :=
  s'.TAG = s.TAG ∧ s'.NSONS = s.NSONS ∧ s'.SON = s.SON ∧ s'.REFINE = s.REFINE ∧
    s'.REFINECLASS = s.REFINECLASS ∧ s'.ECLASS = s.ECLASS ∧ s'.NBELEM = s.NBELEM ∧
    s'.EFATHER = s.EFATHER ∧ s'.SUCCE = s.SUCCE ∧ s'.FIRSTELEMENT = s.FIRSTELEMENT

/-- The element has the same `MARK`, `MARKCLASS` and `COARSEN` in both meshes. -/
def SameMarks (s s' : Mesh) (e : Nat) : Prop :=
  s'.MARK e = s.MARK e ∧ s'.MARKCLASS e = s.MARKCLASS e ∧ s'.COARSEN e = s.COARSEN e

/-- What one round of `RestrictMarks` for the element `e` keeps. -/
def MarksAt (e : Nat) (s s' : Mesh) : Prop :=
  SameSons s s' ∧ ∀ e', e' ≠ e → SameMarks s s' e'

/-- The element gets as far as the son check of `RestrictMarks`: with hanging nodes every
element does, in closure mode the elements that the tests before it do not skip. -/
def ReachesSonCheck (env : Env) (s : Mesh) (e : Nat) : Prop :=
  env.hFlag = 0 ∨ (¬ RestrictMarks_skip env s e ∧ s.REFINECLASS e ≠ CLASS.GREEN_CLASS)

/-- Every one of the first `n` sons has `COARSEN` set and is not refined regularly. -/
def AllSonsCoarsen (s : Mesh) (SonList : Nat → Nat) (n : Nat) : Prop :=
  ∀ i, i < n → s.COARSEN (SonList i) ≠ 0 ∧ s.REFINECLASS (SonList i) ≠ CLASS.RED_CLASS

/-- The mark of the element when it gets to the son check. -/
def markAtSonCheck (env : Env) (s : Mesh) (e : Nat) : Int :=
  if env.hFlag ≠ 0 ∧ s.REFINECLASS e = CLASS.RED_CLASS then s.REFINE e else s.MARK e

/-- The mark class of the element when it gets to the son check. -/
def classAtSonCheck (env : Env) (s : Mesh) (e : Nat) : CLASS :=
  if env.hFlag ≠ 0 ∧ s.REFINECLASS e = CLASS.RED_CLASS then CLASS.RED_CLASS else s.MARKCLASS e

/-- What the son check of `RestrictMarks` does to the element `e` with the sons `SonList`:
with all sons to coarsen, mark and class are cleared and `COARSEN` is set; otherwise
`COARSEN` is not touched and mark and class stay as they got to the son check. -/
def SonCheckSpec (env : Env) (s : Mesh) (e : Nat) (SonList : Nat → Nat) (s' : Mesh) : Prop :=
  (AllSonsCoarsen s SonList (s.NSONS e) →
    s'.MARK e = env.NO_REFINEMENT ∧ s'.MARKCLASS e = CLASS.NO_CLASS ∧ s'.COARSEN e = 1) ∧
  (¬ AllSonsCoarsen s SonList (s.NSONS e) →
    s'.COARSEN e = s.COARSEN e ∧ s'.MARK e = markAtSonCheck env s e ∧
    s'.MARKCLASS e = classAtSonCheck env s e)

/-! ### Predicates for `RefineGrid` -/

/-- The mesh `s'` is the mesh `s` but for the flags `COARSEN`, the flag `GRID_CHANGED` of
the finer grid and the two counters. -/
def NoOpPass (s s' : Mesh) : Prop :=
  s' = { s with
    COARSEN := s'.COARSEN
    GRID_CHANGED := s'.GRID_CHANGED
    No_Green_Update := s'.No_Green_Update
    Green_Marks := s'.Green_Marks }

/-- The element has the same marks, refinement state, flag `USED` and tag in both
meshes. -/
def SameFlags (x y : Mesh) (e : Nat) : Prop :=
  y.MARK e = x.MARK e ∧ y.MARKCLASS e = x.MARKCLASS e ∧ y.REFINE e = x.REFINE e ∧
    y.REFINECLASS e = x.REFINECLASS e ∧ y.USED e = x.USED e ∧ y.TAG e = x.TAG e

/-- A step from `x` to `y` leaves the elements of the level `L` as they are: their list
links, marks, refinement state, flag `USED` and tag. -/
def LevelKept (L : Nat → Prop) (x y : Mesh) : Prop :=
  ∀ e, L e → y.SUCCE e = x.SUCCE e ∧ SameFlags x y e

/-- The procedures that dispose and build sons work on the finer grid: they leave the
elements of the level `L` as they are, and the noting of calls to `RefineGrid`. -/
def FineGridOnly (env : Env) (L : Nat → Prop) : Prop :=
  (∀ x e p, env.UnrefineElement x e = .ok p → LevelKept L x p.2 ∧ p.2.trace = x.trace) ∧
  (∀ x e ctx p, env.RefineElementRed x e ctx = .ok p →
    LevelKept L x p.2 ∧ p.2.trace = x.trace) ∧
  (∀ x e ctx p, env.RefineElementGreen x e ctx = .ok p →
    LevelKept L x p.2 ∧ p.2.trace = x.trace)

/-- The call builds sons of the element `e`. -/
def isRefineOf (e : Nat) (a : Event) : Prop :=
  a = Event.RefineElementRed e ∨ a = Event.RefineElementGreen e

instance (e : Nat) (a : Event) : Decidable (isRefineOf e a) :=
  inferInstanceAs (Decidable (a = Event.RefineElementRed e ∨ a = Event.RefineElementGreen e))

/-- In the call history `ev` there is a call `UnrefineElement` for `e` before which no
call builds sons of `e`. -/
def UnrefinedFirst (e : Nat) (ev : List Event) : Prop :=
  ∃ pre post, ev = pre ++ Event.UnrefineElement e :: post ∧ ∀ a ∈ pre, ¬ isRefineOf e a

/-- A part of a round of `RefineGrid` from `x` to `y` that keeps the level and adds the
calls `m` to the history. -/
def CallStep (L : Nat → Prop) (x y : Mesh) (m : List Event) : Prop :=
  LevelKept L x y ∧ y.trace = x.trace ++ m

/-! ### Predicates for the table `TriSectionEdge` -/

/-- The number of bits set among the six edge bits of a tetrahedron edge pattern. -/
def edgeBits (p : Nat) : Nat :=
  ((List.range 6).filter (fun i => EDGE_IN_PAT p i = 1)).length

/-- Every bit of the pattern `p` lies in one of the side masks `CondensedEdgeOfSide`. -/
def onOneSide (p : Nat) : Prop := ∃ m ∈ CondensedEdgeOfSide, p &&& m = p

instance (p : Nat) : Decidable (onOneSide p) :=
  inferInstanceAs (Decidable (∃ m ∈ CondensedEdgeOfSide, p &&& m = p))

/-- The entry `TriSectionEdge[p]`; `(0, 0)` outside the table. -/
def triSection (p : Nat) : Int × Int := TriSectionEdge.getD p (0, 0)

/-! ### Rounds of a loop over the element list -/

/-- The state `y` is reached from `x` by rounds of the loop body, each for an element that
satisfies `P` and each running through to the next round. -/
inductive Rounds {σ : Type} (body : Nat → σ → LoopRes σ) (P : Nat → Prop) : σ → σ → Prop where
  | done (x : σ) : Rounds body P x x
  | round (e : Nat) (x x1 y : σ) (hP : P e) (hb : body e x = .next x1)
      (t : Rounds body P x1 y) : Rounds body P x y

/-- The mesh `s'` is the mesh `s` but for the marks: `MARK`, `MARKCLASS` and `COARSEN`. -/
def OnlyMarks (s s' : Mesh) : Prop :=
  s' = { s with MARK := s'.MARK, MARKCLASS := s'.MARKCLASS, COARSEN := s'.COARSEN }

/-- The son-level edge of local edge `j` of an element: the edge between the son nodes of
the corners of the edge. -/
def sonEdgeOf (env : Env) (s : Mesh) (e j : Nat) : Nat :=
  s.GetEdge (s.SONNODE (s.CORNER e (CORNER_OF_EDGE env s e j 0)))
    (s.SONNODE (s.CORNER e (CORNER_OF_EDGE env s e j 1)))

/-- Local edge `j` of the element has no mid node and its son-level edge has `ADDPATTERN`
set: the edges whose bit `RestrictMarks` adds to the pattern of a green tetrahedron. -/
def SonEdgeMarked (env : Env) (s : Mesh) (e j : Nat) : Prop :=
  s.MIDNODE (edgeOf env s e j) = 0 ∧ s.ADDPATTERN (sonEdgeOf env s e j) ≠ 0

instance (env : Env) (s : Mesh) (e j : Nat) : Decidable (SonEdgeMarked env s e j) :=
  inferInstanceAs (Decidable
    (s.MIDNODE (edgeOf env s e j) = 0 ∧ s.ADDPATTERN (sonEdgeOf env s e j) ≠ 0))

/-! ### What the loops of `CloseGrid` write -/

/-- The first loop of `CloseGrid` writes `USED`, `PATTERN` and `ADDPATTERN` only. -/
def ResetFrame (s s' : Mesh) : Prop :=
  s' = { s with USED := s'.USED, PATTERN := s'.PATTERN, ADDPATTERN := s'.ADDPATTERN }

/-- The second loop of `CloseGrid` writes `PATTERN`, `SIDEPATTERN` and `MARKCLASS` only. -/
def PatternFrame (s s' : Mesh) : Prop :=
  s' = { s with PATTERN := s'.PATTERN, SIDEPATTERN := s'.SIDEPATTERN,
                MARKCLASS := s'.MARKCLASS }

/-- The third loop of `CloseGrid` writes `USED` and `SIDEPATTERN` only. -/
def SideFrame (s s' : Mesh) : Prop :=
  s' = { s with USED := s'.USED, SIDEPATTERN := s'.SIDEPATTERN }

/-- Without FIFO the fourth loop of `CloseGrid` writes `MARK` and `MARKCLASS` only. -/
def RuleFrame (s s' : Mesh) : Prop :=
  s' = { s with MARK := s'.MARK, MARKCLASS := s'.MARKCLASS }

/-- The fifth loop of `CloseGrid` writes `ADDPATTERN` only. -/
def AddFrame (s s' : Mesh) : Prop :=
  s' = { s with ADDPATTERN := s'.ADDPATTERN }

/-- The sixth loop of `CloseGrid` writes `MARK`, `MARKCLASS`, `UPDATE_GREEN` and `USED`
only. -/
def GreenFrame (s s' : Mesh) : Prop :=
  s' = { s with MARK := s'.MARK, MARKCLASS := s'.MARKCLASS,
                UPDATE_GREEN := s'.UPDATE_GREEN, USED := s'.USED }

/-- The edge/side pattern `MyPattern` as the fourth loop of `CloseGrid` computes it for an
element; nothing when an edge is missing. -/
def MyPattern (env : Env) (s : Mesh) (e : Nat) : Option Nat :=
  match MyEdgePattern_loop env s e (EDGES_OF_ELEM env s e) 0 with
  | none => none
  | some MyEdgePattern => some ((s.SIDEPATTERN e <<< EDGES_OF_ELEM env s e) ||| MyEdgePattern)

/-! ### Predicates for the flag `USED` of a green element -/

/-- Local edge `j` of the element changes mid-node existence: it gets a mid node that is
not there yet (`ADDPATTERN = 0`, `MIDNODE = NULL`), or it loses the one it has
(`ADDPATTERN = 1`, `MIDNODE != NULL`). -/
def EdgeNodeChange (env : Env) (s : Mesh) (e j : Nat) : Prop :=
  (s.ADDPATTERN (edgeOf env s e j) = 0 ∧ s.MIDNODE (edgeOf env s e j) = 0) ∨
    (s.ADDPATTERN (edgeOf env s e j) = 1 ∧ s.MIDNODE (edgeOf env s e j) ≠ 0)

instance (env : Env) (s : Mesh) (e j : Nat) : Decidable (EdgeNodeChange env s e j) :=
  inferInstanceAs (Decidable
    ((s.ADDPATTERN (edgeOf env s e j) = 0 ∧ s.MIDNODE (edgeOf env s e j) = 0) ∨
      (s.ADDPATTERN (edgeOf env s e j) = 1 ∧ s.MIDNODE (edgeOf env s e j) ≠ 0)))

/-- The entry of `NODE_OF_RULE` for the side node of the neighbour `nb` on the side it
shares with the element `e`, for the rule `m` of the neighbour. -/
def nbSideNode (env : Env) (s : Mesh) (e nb : Nat) (m : Int) : Nat :=
  env.NODE_OF_RULE (s.TAG nb) m
    (EDGES_OF_ELEM env s nb + searchSide s nb e (SIDES_OF_ELEM env s nb) 0)

/-- Over side `i` of the element there is a neighbour whose side node on the shared side
appears or disappears between the neighbour's rules `REFINE` and `MARK`. -/
def SideNodeChange (env : Env) (s : Mesh) (e i : Nat) : Prop :=
  s.NBELEM e i ≠ 0 ∧
    ((nbSideNode env s e (s.NBELEM e i) (s.REFINE (s.NBELEM e i)) = 0 ∧
        nbSideNode env s e (s.NBELEM e i) (s.MARK (s.NBELEM e i)) ≠ 0) ∨
      (nbSideNode env s e (s.NBELEM e i) (s.REFINE (s.NBELEM e i)) ≠ 0 ∧
        nbSideNode env s e (s.NBELEM e i) (s.MARK (s.NBELEM e i)) = 0))

instance (env : Env) (s : Mesh) (e i : Nat) : Decidable (SideNodeChange env s e i) :=
  inferInstanceAs (Decidable (s.NBELEM e i ≠ 0 ∧
    ((nbSideNode env s e (s.NBELEM e i) (s.REFINE (s.NBELEM e i)) = 0 ∧
        nbSideNode env s e (s.NBELEM e i) (s.MARK (s.NBELEM e i)) ≠ 0) ∨
      (nbSideNode env s e (s.NBELEM e i) (s.REFINE (s.NBELEM e i)) ≠ 0 ∧
        nbSideNode env s e (s.NBELEM e i) (s.MARK (s.NBELEM e i)) = 0))))

/-- Rules that are not of a class that switches an element to `RED_CLASS`, the rule
`COPY` and the rule `NO_REFINEMENT` have no side node: the entries of their pattern past
the edges are 0. -/
def NoSideNodes (env : Env) : Prop :=
  (∀ tag m k, env.SWITCHCLASS_OF_MARK tag m = false →
    (env.element_descriptors tag).edges_of_elem ≤ k → env.NODE_OF_RULE tag m k = 0) ∧
  (∀ tag k, (env.element_descriptors tag).edges_of_elem ≤ k →
    env.NODE_OF_RULE tag env.COPY k = 0) ∧
  ∀ tag k, (env.element_descriptors tag).edges_of_elem ≤ k →
    env.NODE_OF_RULE tag env.NO_REFINEMENT k = 0

/-- What the rounds of the sixth loop do to the marks: the red elements stay red and the
others stay non-red; a mark stays, or becomes `COPY` on an element of the list that is not
red. -/
def GreenMarks (env : Env) (P : Nat → Prop) (a b : Mesh) : Prop :=
  GreenFrame a b ∧
  (∀ e', b.MARKCLASS e' = CLASS.RED_CLASS ↔ a.MARKCLASS e' = CLASS.RED_CLASS) ∧
  ∀ e', b.MARK e' = a.MARK e' ∨
    (b.MARK e' = env.COPY ∧ a.MARKCLASS e' ≠ CLASS.RED_CLASS ∧ P e')

/-! ### Allocation failures -/

/-- Round `i` of the loop `for (i=0; i<n; i++) body` started in the state `x0` is reached,
in the state `x`: the rounds before it have run through. -/
def ReachesRound {σ : Type} (body : Nat → σ → LoopRes σ) (n : Nat) (x0 : σ) (i : Nat)
    (x : σ) : Prop :=
  i < n ∧ forLoop body i 0 x0 = .next x

/-- In a loop over the list that starts with the element `e0` in the state `x0`, the round
for the element `e` is reached in the state `x`: the rounds before it have run through. -/
inductive ReachesElement {σ : Type} (link : σ → Nat → Nat) (body : Nat → σ → LoopRes σ) :
    Nat → σ → Nat → σ → Prop where
  | here (e : Nat) (x : σ) : ReachesElement link body e x e x
  | step (e0 : Nat) (x0 x1 : σ) (e : Nat) (x : σ) (h0 : e0 ≠ 0) (hb : body e0 x0 = .next x1)
      (t : ReachesElement link body (link x1 e0) x1 e x) : ReachesElement link body e0 x0 e x

/-- The context of `UpdateContext` after the block "check for side node" for side `i`: the
slot of the side holds the node `GetSideNode` has found on a side with a neighbour. -/
def UpdateContext_side_found (env : Env) (theElement : Nat) (i : Nat) (x : Mesh × Context) :
    Context :=
  let s := x.1
  let ctx := x.2
  let mids := CORNERS_OF_ELEM env s theElement
  let sid := CORNERS_OF_ELEM env s theElement + EDGES_OF_ELEM env s theElement + i
  let theNeighbor := s.NBELEM theElement i
  if theNeighbor ≠ 0 then
    let theNode0 := ctx (mids + EDGE_OF_SIDE env s theElement i 0)
    let theNode1 := ctx (mids + EDGE_OF_SIDE env s theElement i 2)
    let theNode :=
      if theNode0 ≠ 0 ∧ theNode1 ≠ 0 then env.GetSideNode s theElement theNode0 theNode1 i
      else 0
    upd ctx sid theNode
  else ctx

/-- While `UpdateContext` builds the context of the element `e` from the mesh `s`, one of
`CreateSonNode`, `CreateMidNode`, `CreateSideNode` and `CreateCenterNode` is called and
returns `NULL`: in a round of the loop over the corners that is reached, for a corner
without son node; in a round of the loop over the edges that is reached, for an edge to
bisect whose slot is empty and that has no mid node; in a round of the 3-D loop over the
sides that is reached, for a side that needs a node and has none; or for the center
node. -/
def NodeAllocFails (env : Env) (s : Mesh) (e : Nat) : Prop :=
  s.MARK e ≠ env.NO_REFINEMENT ∧
  ((∃ i x, ReachesRound (UpdateContext_corner e) (CORNERS_OF_ELEM env s e) (s, fun _ => 0) i x ∧
      x.1.SONNODE (x.1.CORNER e i) = 0 ∧ (CreateSonNode x.1 (x.1.CORNER e i)).1 = 0) ∨
  (∃ x1, forLoop (UpdateContext_corner e) (CORNERS_OF_ELEM env s e) 0 (s, fun _ => 0) =
        .next x1 ∧
    ((∃ i x ctx1, ReachesRound (UpdateContext_edge env e (s.MARK e)) (EDGES_OF_ELEM env s e)
          x1 i x ∧
        UpdateContext_edge_decide env e (s.MARK e) i x = .ok (true, ctx1) ∧
        ctx1 (CORNERS_OF_ELEM env x.1 e + i) = 0 ∧ edgeOf env x.1 e i ≠ 0 ∧
        x.1.MIDNODE (edgeOf env x.1 e i) = 0 ∧ (CreateMidNode env x.1 e i).1 = 0) ∨
    (∃ x2, forLoop (UpdateContext_edge env e (s.MARK e)) (EDGES_OF_ELEM env s e) 0 x1 =
          .next x2 ∧
      ((env.DIM = 3 ∧ ∃ i x, ReachesRound (UpdateContext_side env e (s.MARK e))
            (SIDES_OF_ELEM env s e) x2 i x ∧
          CORNERS_OF_SIDE env x.1 e i ≠ 3 ∧
          UpdateContext_side_decide env e (s.MARK e) i x.1 = .ok true ∧
          UpdateContext_side_found env e i x
            (CORNERS_OF_ELEM env x.1 e + EDGES_OF_ELEM env x.1 e + i) = 0 ∧
          (CreateSideNode x.1 e i).1 = 0) ∨
      (∃ x3, (if env.DIM = 3 then
            forLoop (UpdateContext_side env e (s.MARK e)) (SIDES_OF_ELEM env s e) 0 x2
          else .next x2) = .next x3 ∧
        (GREEN_BY_CASES env x3.1 e ∨
          env.NODE_OF_RULE (x3.1.TAG e) (s.MARK e) (CENTER_NODE_INDEX env x3.1 e) ≠ 0) ∧
        (CreateCenterNode x3.1 e).1 = 0))))))

/-- While `RefineElementRed` creates the sons of the element `e` from the mesh `s` and the
context `ctx`, a round of the loop "create elements" is reached in which the corner nodes
of the son are there and `CreateElement` returns `NULL`. -/
def ElemAllocFails (env : Env) (s : Mesh) (e : Nat) (ctx : Nat → Nat) : Prop :=
  s.MARK e ≠ env.NO_REFINEMENT ∧
  ∃ sn x, ReachesRound (RefineElementRed_create env e (s.TAG e) (s.MARK e) ctx)
      (env.NSONS_OF_RULE (s.TAG e) (s.MARK e)) (s, fun _ => 0) sn x ∧
    (List.range (env.element_descriptors
        (env.SON_TAG_OF_RULE (s.TAG e) (s.MARK e) sn)).corners_of_elem).any (fun i =>
      decide (ctx (env.SON_CORNER_OF_RULE (s.TAG e) (s.MARK e) sn i) = 0)) = false ∧
    (CreateElement env x.1 (env.SON_TAG_OF_RULE (s.TAG e) (s.MARK e) sn)
      (RefineElementRed_boundary env x.1 e (s.TAG e) (s.MARK e) sn)
      (fun i => ctx (env.SON_CORNER_OF_RULE (s.TAG e) (s.MARK e) sn i)) e).1 = 0

/-- The round of `RefineGrid` for the element `e`, started in the mesh `x`, rebuilds the
sons of the element, `UnrefineElement` returns `GM_OK`, and then a node allocator returns
`NULL` in `UpdateContext`, or `UpdateContext` returns `GM_OK`, the element is refined by
`RefineElementRed`, and `CreateElement` returns `NULL` there. `fu` is the budget of
`UnrefineElement`. -/
def RoundAllocFails (env : Env) (fu : Nat) (x : Mesh) (e : Nat) : Prop :=
  TO_REBUILD env x e ∧ ¬ (env.hFlag = 0 ∧ x.MARKCLASS e ≠ CLASS.RED_CLASS) ∧
  ∃ p, UnrefineElement env fu (logCall x (Event.UnrefineElement e)) x.UPGRID e = .ok (0, p) ∧
    (NodeAllocFails env (logCall p (Event.UpdateContext e)) e ∨
    ∃ q ctx, UpdateContext env (logCall p (Event.UpdateContext e)) e = .ok (0, q, ctx) ∧
      q.MARK e ≠ env.NO_REFINEMENT ∧
      (q.MARKCLASS e = CLASS.RED_CLASS ∨ q.MARKCLASS e = CLASS.YELLOW_CLASS ∨
        (q.MARKCLASS e = CLASS.GREEN_CLASS ∧ ¬ (env.DIM = 3 ∧ NEWGREEN q e))) ∧
      e ∉ q.elemPool ∧
      ElemAllocFails env (logCall q (Event.RefineElementRed e)) e ctx)

/-- What `UnrefineElement` writes: `MARK`, `NSONS`, `SON` and the history. -/
def UnrefineFrame (s s' : Mesh) : Prop :=
  s' = { s with MARK := s'.MARK, NSONS := s'.NSONS, SON := s'.SON, trace := s'.trace }

/-! ### Predicates for the sons of an element -/

/-- What `CreateElement` and the statements on the sons in `RefineElementRed` write: the
entries of elements, the pool of elements and the history. -/
def CreateFrame (s s' : Mesh) : Prop :=
  s' = { s with
    elemPool := s'.elemPool, TAG := s'.TAG, BEOBJ := s'.BEOBJ, CORNER := s'.CORNER,
    EFATHER := s'.EFATHER, NSONS := s'.NSONS, SON := s'.SON, NBELEM := s'.NBELEM,
    REFINE := s'.REFINE, MARK := s'.MARK, REFINECLASS := s'.REFINECLASS,
    MARKCLASS := s'.MARKCLASS, COARSEN := s'.COARSEN, USED := s'.USED, ECLASS := s'.ECLASS,
    trace := s'.trace }

/-- The element `a` has the same entries in both meshes, but for its neighbours. -/
def KeepsElement (s s' : Mesh) (a : Nat) : Prop :=
  s'.TAG a = s.TAG a ∧ s'.MARK a = s.MARK a ∧ s'.MARKCLASS a = s.MARKCLASS a ∧
  s'.REFINE a = s.REFINE a ∧ s'.REFINECLASS a = s.REFINECLASS a ∧ s'.USED a = s.USED a ∧
  s'.NSONS a = s.NSONS a ∧ s'.SON a = s.SON a ∧ s'.EFATHER a = s.EFATHER a ∧
  s'.ECLASS a = s.ECLASS a ∧ s'.COARSEN a = s.COARSEN a

/-- The element `son` is a son of `e` as `RefineElementRed` has created it: its father is
`e`, its class is `c`, and it has no sons, is not refined and not marked. -/
def NewSon (env : Env) (s' : Mesh) (e : Nat) (c : CLASS) (son : Nat) : Prop :=
  son ≠ 0 ∧ s'.EFATHER son = e ∧ s'.ECLASS son = c ∧ s'.NSONS son = 0 ∧
  s'.REFINE son = env.NO_REFINEMENT ∧ s'.MARK son = env.NO_REFINEMENT

/-- What the loop "create elements" of `RefineElementRed` for the element `e` has done
after `k` rounds, started in the mesh `s`: the first `k` elements of the pool are the sons
in `SonList`, all other elements are as before. -/
def CreatedSons (env : Env) (s : Mesh) (e : Nat) (k : Nat) (x : Mesh × (Nat → Nat)) : Prop :=
  CreateFrame s x.1 ∧ k ≤ s.elemPool.length ∧ x.1.elemPool = s.elemPool.drop k ∧
  (∀ i, x.2 i = if i < k then s.elemPool.getD i 0 else 0) ∧
  (∀ a, a ∉ s.elemPool.take k → KeepsElement s x.1 a) ∧
  (∀ i, i < k → NewSon env x.1 e (s.MARKCLASS e) (s.elemPool.getD i 0)) ∧
  x.1.trace = s.trace ++ (List.range k).map (fun i => Event.CreateElement e (s.elemPool.getD i 0))

/-- What the loops "connect elements" of `RefineElementRed` write: the neighbours. -/
def NbFrame (s s' : Mesh) : Prop := s' = { s with NBELEM := s'.NBELEM }

/-! ### Predicates for a pass of `RefineGrid` that builds the sons itself -/

/-- What `UpdateContext` writes: the pool of nodes, the mid nodes and son nodes, and the
history. -/
def NodeFrame (s s' : Mesh) : Prop :=
  s' = { s with nodePool := s'.nodePool, trace := s'.trace, MIDNODE := s'.MIDNODE,
                SONNODE := s'.SONNODE }

/-- What a call of `RefineElementRed` that returns `GM_OK` has done for the marked element
`t` with a rule of `n` sons, from the mesh `z` to the mesh `s3`: the first `n` elements of
the pool are the sons of `t`, with the class of `t`; every other element is as before but
for its neighbours. -/
def SonsBuilt (env : Env) (t n : Nat) (z s3 : Mesh) : Prop :=
  CreateFrame z s3 ∧ n ≤ z.elemPool.length ∧ s3.elemPool = z.elemPool.drop n ∧
  (∀ a, a ≠ t → a ∉ z.elemPool.take n → KeepsElement z s3 a) ∧
  (s3.TAG t = z.TAG t ∧ s3.MARK t = z.MARK t ∧ s3.MARKCLASS t = z.MARKCLASS t ∧
    s3.REFINE t = z.REFINE t ∧ s3.REFINECLASS t = z.REFINECLASS t) ∧
  s3.NSONS t = n ∧ (env.DIM = 2 → ∀ i, i < n → s3.SON t i = z.elemPool.getD i 0) ∧
  (∀ i, i < n → NewSon env s3 t (z.MARKCLASS t) (z.elemPool.getD i 0)) ∧
  s3.trace = z.trace ++ (z.elemPool.take n).map (Event.CreateElement t)

/-- A step of a round of `RefineGrid` for the element `t` that builds no sons: the sons,
the pool of elements and the element list are as before, the refinement state changes at
`t` only, and no call of `CreateElement` is noted. -/
def FlagStep (t : Nat) (s y : Mesh) : Prop :=
  y.TAG = s.TAG ∧ y.MARK = s.MARK ∧ y.MARKCLASS = s.MARKCLASS ∧ y.NSONS = s.NSONS ∧
  y.SON = s.SON ∧ y.EFATHER = s.EFATHER ∧ y.ECLASS = s.ECLASS ∧ y.elemPool = s.elemPool ∧
  y.SUCCE = s.SUCCE ∧
  (∀ a, a ≠ t → y.REFINE a = s.REFINE a ∧ y.REFINECLASS a = s.REFINECLASS a ∧
    y.USED a = s.USED a ∧ y.COARSEN a = s.COARSEN a) ∧
  ∃ ev, y.trace = s.trace ++ ev ∧ ∀ f son, Event.CreateElement f son ∉ ev

/-- The state of a pass of `RefineGrid` over a level `L` that was not refined before: the
pool holds distinct elements, none of them of the level, and an element of the level that
is refined is not to be rebuilt. -/
def PassInv (env : Env) (L : Nat → Prop) (x : Mesh) : Prop :=
  x.elemPool.Nodup ∧ (∀ a, L a → a ∉ x.elemPool) ∧
  (∀ a, L a → x.REFINE a ≠ env.NO_REFINEMENT → ¬ REF_TYPE_CHANGES x a)

/-- What the round of `RefineGrid` for the element `t` does, from the mesh `x` to the mesh
`y`: elements are taken from the head of the pool, every element but `t` that is not in
the pool is as before, calls of `CreateElement` are for the father `t` and each has handed
out an element of the pool that is now a son of `t` with the class of `t`, and when `t` is
rebuilt with a mark its sons are the elements taken from the pool. -/
def PassRound (env : Env) (t : Nat) (x y : Mesh) : Prop :=
  y.SUCCE = x.SUCCE ∧
  (∃ k, y.elemPool = x.elemPool.drop k) ∧
  (∀ a, a ≠ t → a ∉ x.elemPool → KeepsElement x y a) ∧
  (y.TAG t = x.TAG t ∧ y.MARK t = x.MARK t ∧ y.MARKCLASS t = x.MARKCLASS t) ∧
  (∃ ev, y.trace = x.trace ++ ev ∧
    (∀ f son, Event.CreateElement f son ∈ ev → f = t ∧ x.MARK t ≠ env.NO_REFINEMENT) ∧
    ∀ son, Event.CreateElement t son ∈ ev →
      son ∈ x.elemPool ∧ son ∉ y.elemPool ∧ NewSon env y t (x.MARKCLASS t) son) ∧
  (REF_TYPE_CHANGES x t → x.MARK t ≠ env.NO_REFINEMENT →
    y.NSONS t = env.NSONS_OF_RULE (x.TAG t) (x.MARK t) ∧
    y.NSONS t ≤ x.elemPool.length ∧
    ∀ i, i < y.NSONS t → y.SON t i = x.elemPool.getD i 0 ∧
      x.elemPool.getD i 0 ∉ y.elemPool ∧
      NewSon env y t (x.MARKCLASS t) (x.elemPool.getD i 0))

/-- What the rounds of `RefineGrid` for the elements of the level `L` other than `e` do,
from the mesh `x` to the mesh `y`: elements are taken from the head of the pool; the
element `e` and every element that is neither in the pool nor of the level are as before;
no call of `CreateElement` is for the father `e`. -/
def PassOthers (L : Nat → Prop) (e : Nat) (x y : Mesh) : Prop :=
  y.SUCCE = x.SUCCE ∧ (∃ k, y.elemPool = x.elemPool.drop k) ∧
  (∀ a, a ∉ x.elemPool → (a = e ∨ ¬ L a) → KeepsElement x y a) ∧
  ∃ ev, y.trace = x.trace ++ ev ∧ ∀ f son, Event.CreateElement f son ∈ ev → f ≠ e

/-- Without FIFO `CloseGrid` writes the flags `USED` and `UPDATE_GREEN`, the patterns, the
marks and the classes only. -/
def CloseFrame (s s' : Mesh) : Prop :=
  s' = { s with USED := s'.USED, PATTERN := s'.PATTERN, ADDPATTERN := s'.ADDPATTERN,
                SIDEPATTERN := s'.SIDEPATTERN, MARKCLASS := s'.MARKCLASS, MARK := s'.MARK,
                UPDATE_GREEN := s'.UPDATE_GREEN }

/-! ### Predicates for a level of triangles with one marked triangle -/

/-- What the pass on a level of triangles takes from the rule tables: a triangle has three
edges; the regular rule `T_RED` bisects the three edges and has four sons, and it is the
rule of the full edge pattern; the empty pattern stands for no refinement; the patterns of
one edge stand for rules with sons that do not switch the class to red. -/
def TriangleRules (env : Env) : Prop :=
  (env.element_descriptors TAG.TRIANGLE).edges_of_elem = 3 ∧
  env.T_RED ≠ env.NO_REFINEMENT ∧
  (∀ k, k < 3 → EDGE_IN_PATTERN (env.MARK2PATTERN TAG.TRIANGLE env.T_RED) k ≠ 0) ∧
  (∀ k, k < 3 → env.NODE_OF_RULE TAG.TRIANGLE env.T_RED k ≠ 0) ∧
  env.PATTERN2MARK TAG.TRIANGLE 7 = env.T_RED ∧
  env.NSONS_OF_RULE TAG.TRIANGLE env.T_RED = 4 ∧
  env.PATTERN2MARK TAG.TRIANGLE 0 = env.NO_REFINEMENT ∧
  (∀ p, p = 1 ∨ p = 2 ∨ p = 4 →
    env.PATTERN2MARK TAG.TRIANGLE p ≠ env.NO_REFINEMENT ∧
    env.SWITCHCLASS_OF_MARK TAG.TRIANGLE (env.PATTERN2MARK TAG.TRIANGLE p) = false ∧
    0 < env.NSONS_OF_RULE TAG.TRIANGLE (env.PATTERN2MARK TAG.TRIANGLE p))

/-- Local edge `j` of the element `t` is an edge of the triangle `e0`. -/
def SharesEdge (env : Env) (s : Mesh) (e0 t j : Nat) : Prop :=
  ∃ k, k < 3 ∧ edgeOf env s e0 k = edgeOf env s t j

instance (env : Env) (s : Mesh) (e0 t j : Nat) : Decidable (SharesEdge env s e0 t j) :=
  inferInstanceAs (Decidable (∃ k, k < 3 ∧ edgeOf env s e0 k = edgeOf env s t j))


/-! ### Predicates for the FIFO in a 3-D build -/

/-- The element list and the pointers of the FIFO are the same. -/
def FifoIdle (s s' : Mesh) : Prop :=
  s'.SUCCE = s.SUCCE ∧ s'.PREDE = s.PREDE ∧ s'.FIRSTELEMENT = s.FIRSTELEMENT ∧
    s'.fifo_first = s.fifo_first ∧ s'.fifo_last = s.fifo_last ∧
    s'.fifo_insertfirst = s.fifo_insertfirst ∧ s'.fifo_insertlast = s.fifo_insertlast

/-- In the round of the fourth loop of `CloseGrid` for the element `e`, started in the mesh
`s`, the element has `MARKCLASS = RED_CLASS` and its pattern `MyPattern` differs from the
pattern `NewPattern` of the mark derived for it. -/
def RedMismatch (env : Env) (s : Mesh) (e : Nat) : Prop :=
  ∃ (p : Nat) (m : Int × Mesh) (Mark : Int), MyPattern env s e = some p ∧
    CloseGrid_mark env s e (env.PATTERN2MARK (s.TAG e) p) = some m ∧
    CloseGrid_fullrule env m.2 e m.1 = some Mark ∧
    m.2.MARKCLASS e = CLASS.RED_CLASS ∧ p ≠ env.MARK2PAT (m.2.TAG e) Mark

/-! ### Predicates for `GetNeighborSons` -/

/-- The entries `SonList[0..c)` are pairwise different. -/
def SonsDistinct (SonList : Nat → Nat) (c : Nat) : Prop :=
  ∀ i j, i < c → j < c → SonList i = SonList j → i = j

/-- The element `b` is a neighbour of the element `a` and a son of `theElement`. -/
def SonLink (env : Env) (s : Mesh) (theElement : Nat) (a b : Nat) : Prop :=
  ∃ i, i < SIDES_OF_ELEM env s a ∧ s.NBELEM a i = b ∧ b ≠ 0 ∧ s.EFATHER b = theElement

/-- What a call of `GetNeighborSons` for `theSon` does to the array and the count: the count
does not go down, the entries below the old count and from the new count on are as before,
entries without duplicates stay so, and every entry added has the father `theElement` and
is reached from `theSon` over neighbour links, each of which leads to a son of
`theElement`. -/
def SonsAdded (env : Env) (s : Mesh) (theElement theSon : Nat) (x y : (Nat → Nat) × Nat) :
    Prop :=
  x.2 ≤ y.2 ∧ (∀ i, i < x.2 → y.1 i = x.1 i) ∧ (∀ i, y.2 ≤ i → y.1 i = x.1 i) ∧
    (SonsDistinct x.1 x.2 → SonsDistinct y.1 y.2) ∧
    ∀ i, x.2 ≤ i → i < y.2 → s.EFATHER (y.1 i) = theElement ∧
      Relation.TransGen (SonLink env s theElement) theSon (y.1 i)

/-! ### Predicates for the case `RED_CLASS` of `Get_Sons_of_ElementSide` -/

/-- Side `j` of son `i` lies on the side `side` of the father, by the rule of the father's
mark: `SON_NB(sondata,j) == FATHER_SIDE_OFFSET+side`. -/
def OnFatherSide (env : Env) (s : Mesh) (theElement side : Nat) (i j : Nat) : Prop :=
  env.SON_NB_OF_RULE (s.TAG theElement) (s.MARK theElement) i j = env.FATHER_SIDE_OFFSET + side

instance (env : Env) (s : Mesh) (theElement side i j : Nat) :
    Decidable (OnFatherSide env s theElement side i j) :=
  inferInstanceAs (Decidable (env.SON_NB_OF_RULE (s.TAG theElement) (s.MARK theElement) i j =
    env.FATHER_SIDE_OFFSET + side))

/-- Son `i` of the array `SonList` has a side on the side `side` of the father. -/
def hasFatherSide (env : Env) (s : Mesh) (theElement side : Nat) (SonList : Nat → Nat)
    (i : Nat) : Bool :=
  (List.range (SIDES_OF_ELEM env s (SonList i))).any
    (fun j => decide (OnFatherSide env s theElement side i j))

/-- The indices of the sons of `SonList[0..n)` that have a side on the side `side` of the
father, in ascending order. -/
def sonsOnSide (env : Env) (s : Mesh) (theElement side : Nat) (SonList : Nat → Nat) (n : Nat) :
    List Nat :=
  (List.range n).filter (hasFatherSide env s theElement side SonList)

/-! ### Predicates for the FIFO in a 2-D build with a complete rule set -/

/-- The list `l` holds the elements of the linked list that starts at `first`, in the order
of the links: no element is `NULL`, each is followed by the next one, the last by `NULL`. -/
def ListFrom (link : Nat → Nat) : Nat → List Nat → Prop
  | first, [] => first = 0
  | first, a :: l => first = a ∧ a ≠ 0 ∧ ListFrom link (link a) l

/-- Whether `l` is the linked list that starts at `first` can be checked. -/
def ListFrom.dec (link : Nat → Nat) : (first : Nat) → (l : List Nat) →
    Decidable (ListFrom link first l)
  | first, [] => inferInstanceAs (Decidable (first = 0))
  | first, a :: l =>
    have : Decidable (ListFrom link (link a) l) := ListFrom.dec link (link a) l
    inferInstanceAs (Decidable (first = a ∧ a ≠ 0 ∧ ListFrom link (link a) l))

instance (link : Nat → Nat) (first : Nat) (l : List Nat) : Decidable (ListFrom link first l) :=
  ListFrom.dec link first l

/-- The element list of the level is a well-formed doubly linked list with the elements
`l`: `FIRSTELEMENT` followed through `SUCCE` runs over the elements of `l`, each exactly
once, and ends with `NULL`; `PREDE` of the first element is `NULL` and `PREDE` is the
inverse of `SUCCE` along the list. -/
def DoublyLinked (s : Mesh) (l : List Nat) : Prop :=
  ListFrom s.SUCCE s.FIRSTELEMENT l ∧ l.Nodup ∧ s.PREDE s.FIRSTELEMENT = 0 ∧
    ∀ a, a ∈ l → s.SUCCE a ≠ 0 → s.PREDE (s.SUCCE a) = a

instance (s : Mesh) (l : List Nat) : Decidable (DoublyLinked s l) :=
  inferInstanceAs (Decidable (ListFrom s.SUCCE s.FIRSTELEMENT l ∧ l.Nodup ∧
    s.PREDE s.FIRSTELEMENT = 0 ∧ ∀ a, a ∈ l → s.SUCCE a ≠ 0 → s.PREDE (s.SUCCE a) = a))

/-- The rule set of the shape `t` is complete: every pattern of the edges of the shape has
a rule, and that rule bisects the edges of the pattern and no other edge. -/
def CompleteRules (env : Env) (t : TAG) : Prop :=
  ∀ p, p < 2 ^ (env.element_descriptors t).edges_of_elem →
    env.PATTERN2MARK t p ≠ -1 ∧
    ∀ j, j < (env.element_descriptors t).edges_of_elem →
      EDGE_IN_PAT (env.MARK2PAT t (env.PATTERN2MARK t p)) j = EDGE_IN_PAT p j

instance (env : Env) (t : TAG) : Decidable (CompleteRules env t) :=
  inferInstanceAs (Decidable (∀ p, p < 2 ^ (env.element_descriptors t).edges_of_elem →
    env.PATTERN2MARK t p ≠ -1 ∧
    ∀ j, j < (env.element_descriptors t).edges_of_elem →
      EDGE_IN_PAT (env.MARK2PAT t (env.PATTERN2MARK t p)) j = EDGE_IN_PAT p j))

/-- Every edge of the element is an edge of the grid: `GetEdge` finds it. -/
def EdgesExist (env : Env) (s : Mesh) (e : Nat) : Prop :=
  ∀ j, j < EDGES_OF_ELEM env s e → edgeOf env s e j ≠ 0

instance (env : Env) (s : Mesh) (e : Nat) : Decidable (EdgesExist env s e) :=
  inferInstanceAs (Decidable (∀ j, j < EDGES_OF_ELEM env s e → edgeOf env s e j ≠ 0))

/-- The mesh after the statement that sets the four pointers of the FIFO to `NULL`. -/
def fifoCleared (s : Mesh) : Mesh :=
  { s with fifo_first := 0, fifo_last := 0, fifo_insertfirst := 0, fifo_insertlast := 0 }

/-- What `CloseGrid` with FIFO writes when nothing is put into the FIFO: the four pointers
of the FIFO are `NULL`, `PREDE` of the first element is `NULL`, and the flags, patterns,
marks and classes are written as without FIFO. -/
def FifoFrame (s s' : Mesh) : Prop :=
  CloseFrame { fifoCleared s with PREDE := upd s.PREDE s.FIRSTELEMENT 0 } s'

/-! ## The table of the sons of a green element, read as rows

The statements of `RefineElementGreen` that fill `sons` for one side write one tetrahedron or
one pyramid after the other. A row names what such a group of statements writes: the corners
by their index in `theSideNodes` (or the side node), the neighbours as an entry of `sides`
or relative to `nelem`. -/

/-- A corner of a son: `theSideNodes[x]`, or the side node `theNode`. -/
inductive GreenCorner where
  | node (x : Nat)
  | face
  deriving DecidableEq

/-- A neighbour entry of a son: `sides[j]`, `nelem+d` or `nelem-d`. -/
inductive GreenNb where
  | side (j : Nat)
  | plus (d : Int)
  | minus (d : Int)
  deriving DecidableEq

/-- One son of the table: a tetrahedron with the corners `c0`, `c1`, `c2` and the neighbours
`n0`, `n1`, `n2`, or a pyramid with four of each. -/
structure GreenRow where
  pyr : Bool
  c0 : GreenCorner
  c1 : GreenCorner
  c2 : GreenCorner
  c3 : GreenCorner
  n0 : GreenNb
  n1 : GreenNb
  n2 : GreenNb
  n3 : GreenNb
  deriving DecidableEq

/-- The row of a tetrahedron. -/
def symTet (c0 c1 c2 : GreenCorner) (n01 n12 n02 : GreenNb) : GreenRow :=
  { pyr := false, c0 := c0, c1 := c1, c2 := c2, c3 := .face,
    n0 := n01, n1 := n12, n2 := n02, n3 := .plus 0 }

/-- The row of a pyramid. -/
def symPyr (c0 c1 c2 c3 : GreenCorner) (n01 n12 n23 n03 : GreenNb) : GreenRow :=
  { pyr := true, c0 := c0, c1 := c1, c2 := c2, c3 := c3,
    n0 := n01, n1 := n12, n2 := n23, n3 := n03 }

/-- The node a corner of a row stands for. -/
def valC (theSideNodes : Nat → Nat) (theNode : Nat) : GreenCorner → Nat
  | .node x => theSideNodes x
  | .face => theNode

/-- The value a neighbour entry of a row stands for in the son `nelem`. -/
def valN (sides : Nat → Int) (nelem : Nat) : GreenNb → Int
  | .side j => sides j
  | .plus d => (nelem : Int) + d
  | .minus d => (nelem : Int) - d

/-- The statements of one row, for the son `nelem`. -/
def applyRow (ix : GreenIndices) (theSideNodes : Nat → Nat) (theNode : Nat) (sides : Nat → Int)
    (sons : Nat → GREENSONDATA) (nelem : Nat) (row : GreenRow) : Nat → GREENSONDATA :=
  if row.pyr = true then
    greenPyr ix sons nelem (valC theSideNodes theNode row.c0) (valC theSideNodes theNode row.c1)
      (valC theSideNodes theNode row.c2) (valC theSideNodes theNode row.c3)
      (valN sides nelem row.n0) (valN sides nelem row.n1) (valN sides nelem row.n2)
      (valN sides nelem row.n3)
  else
    greenTet ix sons nelem (valC theSideNodes theNode row.c0) (valC theSideNodes theNode row.c1)
      (valC theSideNodes theNode row.c2)
      (valN sides nelem row.n0) (valN sides nelem row.n1) (valN sides nelem row.n2)

/-- The statements of a list of rows, for the sons from `nelem` on. -/
def applyRows (ix : GreenIndices) (theSideNodes : Nat → Nat) (theNode : Nat) (sides : Nat → Int) :
    List GreenRow → Nat → (Nat → GREENSONDATA) → Nat → GREENSONDATA
  | [], _, sons => sons
  | row :: rest, nelem, sons =>
    applyRows ix theSideNodes theNode sides rest (nelem + 1)
      (applyRow ix theSideNodes theNode sides sons nelem row)

/-! ### The rows of the cases of a quadrilateral side -/

/-- Case 0: one pyramid. -/
def greenQ0 : List GreenRow :=
  [symPyr (.node 0) (.node 2) (.node 4) (.node 6) (.side 0) (.side 1) (.side 2) (.side 3)]

/-- Case 1: three tetrahedra at the mid node of edge `j`. -/
def greenQ1 (nedges j : Nat) : List GreenRow :=
  let node0 := 2 * j + 1
  [symTet (.node node0) (.node ((node0 + 1) % (2 * nedges))) (.node ((node0 + 3) % (2 * nedges)))
      (.side j) (.side ((j + 1) % nedges)) (.plus 2),
    symTet (.node node0) (.node ((node0 + 5) % (2 * nedges))) (.node ((node0 + 7) % (2 * nedges)))
      (.plus 1) (.side ((j + 3) % nedges)) (.side j),
    symTet (.node node0) (.node ((node0 + 3) % (2 * nedges))) (.node ((node0 + 5) % (2 * nedges)))
      (.minus 2) (.side ((j + 2) % nedges)) (.minus 1)]

/-- Case 2 with the mid nodes on neighbouring edges: four tetrahedra. -/
def greenQ2a (nedges node0 j : Nat) : List GreenRow :=
  [symTet (.node node0) (.node ((node0 + 1) % (2 * nedges))) (.node ((node0 + 2) % (2 * nedges)))
      (.side (j % nedges)) (.side ((j + 1) % nedges)) (.plus 3),
    symTet (.node node0) (.node ((node0 + 5) % (2 * nedges))) (.node ((node0 + 7) % (2 * nedges)))
      (.plus 2) (.side ((j + 3) % nedges)) (.side (j % nedges)),
    symTet (.node ((node0 + 2) % (2 * nedges))) (.node ((node0 + 3) % (2 * nedges)))
      (.node ((node0 + 5) % (2 * nedges)))
      (.side ((j + 1) % nedges)) (.side ((j + 2) % nedges)) (.plus 1),
    symTet (.node node0) (.node ((node0 + 2) % (2 * nedges))) (.node ((node0 + 5) % (2 * nedges)))
      (.minus 3) (.minus 1) (.minus 2)]

/-- Case 2 with the mid nodes on opposite edges: two pyramids. -/
def greenQ2b (nedges node0 j : Nat) : List GreenRow :=
  [symPyr (.node node0) (.node ((node0 + 1) % (2 * nedges))) (.node ((node0 + 3) % (2 * nedges)))
      (.node ((node0 + 4) % (2 * nedges)))
      (.side (j % nedges)) (.side ((j + 1) % nedges)) (.side ((j + 2) % nedges)) (.plus 1),
    symPyr (.node ((node0 + 4) % (2 * nedges))) (.node ((node0 + 5) % (2 * nedges)))
      (.node ((node0 + 7) % (2 * nedges))) (.node ((node0 + 8) % (2 * nedges)))
      (.side ((j + 2) % nedges)) (.side ((j + 3) % nedges)) (.side (j % nedges)) (.minus 1)]

/-- Case 3: one pyramid and three tetrahedra. -/
def greenQ3 (nedges node0 j : Nat) : List GreenRow :=
  [symPyr (.node ((node0 + 1) % (2 * nedges))) (.node ((node0 + 2) % (2 * nedges)))
      (.node ((node0 + 6) % (2 * nedges))) (.node ((node0 + 7) % (2 * nedges)))
      (.side ((j + 1) % nedges)) (.plus 3) (.side ((j + 3) % nedges)) (.side (j % nedges)),
    symTet (.node ((node0 + 2) % (2 * nedges))) (.node ((node0 + 3) % (2 * nedges)))
      (.node ((node0 + 4) % (2 * nedges)))
      (.side ((j + 1) % nedges)) (.side ((j + 2) % nedges)) (.plus 2),
    symTet (.node ((node0 + 4) % (2 * nedges))) (.node ((node0 + 5) % (2 * nedges)))
      (.node ((node0 + 6) % (2 * nedges)))
      (.side ((j + 2) % nedges)) (.side ((j + 3) % nedges)) (.plus 1),
    symTet (.node ((node0 + 2) % (2 * nedges))) (.node ((node0 + 4) % (2 * nedges)))
      (.node ((node0 + 6) % (2 * nedges)))
      (.minus 2) (.minus 1) (.minus 3)]

/-- The tetrahedron at the corner behind edge `j` in the case 4. -/
def greenQ4corner (nedges j : Nat) : GreenRow :=
  let node0 := 2 * j + 1
  symTet (.node node0) (.node ((node0 + 1) % (2 * nedges))) (.node ((node0 + 2) % (2 * nedges)))
    (.side (j % nedges)) (.side ((j + 1) % nedges)) (.plus ((nedges : Int) - (j : Int)))

/-- Case 4: four tetrahedra at the corners and one pyramid on the mid nodes. -/
def greenQ4 (nedges : Nat) : List GreenRow :=
  (List.range nedges).map (greenQ4corner nedges) ++
    [symPyr (.node 1) (.node 3) (.node 5) (.node 7) (.minus 4) (.minus 3) (.minus 2) (.minus 1)]

/-- The pyramid at edge `j` of a quadrilateral side with a side node. -/
def greenFrow (nedges j : Nat) : GreenRow :=
  let node0 := 2 * j + 1
  symPyr (.node (node0 % (2 * nedges))) (.node ((node0 + 1) % (2 * nedges)))
    (.node ((node0 + 2) % (2 * nedges))) .face
    (.side (j % nedges)) (.side ((j + 1) % nedges))
    (if j = 3 then .minus 3 else .plus 1) (if j = 0 then .plus 3 else .minus 1)

/-- The rows of a quadrilateral side without side node; `mid x` tells whether
`theSideNodes[x]` is a node, `k` is the number of mid nodes. Nothing for a `k` beyond 4. -/
def greenQuadRows (mid : Nat → Bool) (k : Nat) : List GreenRow :=
  if k = 0 then greenQ0
  else if k = 1 then
    let j := searchBreak (fun j => mid (2 * j + 1)) 4 0
    if j < 4 then greenQ1 4 j else []
  else if k = 2 then
    let j0 := searchBreak (fun j => mid (2 * j + 1)) 4 0
    let node00 := node0After 4 j0
    let node0 := if mid ((node00 + 6) % (2 * 4)) = true then (node00 + 6) % (2 * 4) else node00
    let j := if mid ((node00 + 6) % (2 * 4)) = true then (j0 + 3) % 4 else j0
    if mid ((node0 + 4) % (2 * 4)) = true then greenQ2b 4 node0 j else greenQ2a 4 node0 j
  else if k = 3 then
    let j := searchBreak (fun j => !mid (2 * j + 1)) 4 0
    greenQ3 4 (node0After 4 j) j
  else if k = 4 then greenQ4 4
  else []

/-- The rows of a quadrilateral side with a side node and four mid nodes. -/
def greenFaceRows : List GreenRow := (List.range 4).map (greenFrow 4)

/-! ### The rows of the cases of a triangular side -/

/-- Case 0: one tetrahedron. -/
def greenT0 : List GreenRow :=
  [symTet (.node 0) (.node 2) (.node 4) (.side 0) (.side 1) (.side 2)]

/-- Case 1: two tetrahedra at the mid node of edge `j`. -/
def greenT1 (nedges j : Nat) : List GreenRow :=
  let node0 := 2 * j + 1
  [symTet (.node node0) (.node ((node0 + 1) % (2 * nedges))) (.node ((node0 + 3) % (2 * nedges)))
      (.side j) (.side ((j + 1) % nedges)) (.plus 1),
    symTet (.node node0) (.node ((node0 + 3) % (2 * nedges))) (.node ((node0 + 5) % (2 * nedges)))
      (.minus 1) (.side ((j + 2) % nedges)) (.side j)]

/-- Case 2, the branch `node0 == maxedge && !pattern`: three tetrahedra at `node0`. -/
def greenT2a (nedges node0 j : Nat) : List GreenRow :=
  [symTet (.node node0) (.node ((node0 + 1) % (2 * nedges))) (.node ((node0 + 3) % (2 * nedges)))
      (.side j) (.side ((j + 1) % nedges)) (.plus 2),
    symTet (.node node0) (.node ((node0 + 4) % (2 * nedges))) (.node ((node0 + 5) % (2 * nedges)))
      (.plus 1) (.side ((j + 2) % nedges)) (.side j),
    symTet (.node node0) (.node ((node0 + 3) % (2 * nedges))) (.node ((node0 + 4) % (2 * nedges)))
      (.minus 2) (.side ((j + 2) % nedges)) (.minus 1)]

/-- Case 2, the other branch: three tetrahedra with the diagonal at `node0+4`. -/
def greenT2b (nedges node0 j : Nat) : List GreenRow :=
  [symTet (.node node0) (.node ((node0 + 1) % (2 * nedges))) (.node ((node0 + 4) % (2 * nedges)))
      (.side j) (.plus 1) (.plus 2),
    symTet (.node ((node0 + 4) % (2 * nedges))) (.node ((node0 + 1) % (2 * nedges)))
      (.node ((node0 + 3) % (2 * nedges)))
      (.minus 1) (.side ((j + 1) % nedges)) (.side ((j + 2) % nedges)),
    symTet (.node node0) (.node ((node0 + 4) % (2 * nedges))) (.node ((node0 + 5) % (2 * nedges)))
      (.minus 2) (.side ((j + 2) % nedges)) (.side j)]

/-- Case 3: four tetrahedra. -/
def greenT3 (nedges : Nat) : List GreenRow :=
  [symTet (.node 1) (.node ((1 + 1) % (2 * nedges))) (.node ((1 + 2) % (2 * nedges)))
      (.side 0) (.side ((0 + 1) % nedges)) (.plus 3),
    symTet (.node 1) (.node ((1 + 4) % (2 * nedges))) (.node ((1 + 5) % (2 * nedges)))
      (.plus 2) (.side ((0 + 2) % nedges)) (.side 0),
    symTet (.node (1 + 2)) (.node ((1 + 3) % (2 * nedges))) (.node ((1 + 4) % (2 * nedges)))
      (.side ((0 + 1) % nedges)) (.side ((0 + 2) % nedges)) (.plus 1),
    symTet (.node 1) (.node ((1 + 2) % (2 * nedges))) (.node ((1 + 4) % (2 * nedges)))
      (.minus 3) (.minus 1) (.minus 2)]

/-- What the scan loop of the case 2 does to `node0` and `j` in round `k`. -/
def greenScan (mid : Nat → Bool) (x : Int × Nat) (k : Nat) : Int × Nat :=
  if mid ((2 * k + 3) % (2 * 3)) = true then x else (((2 * k + 1 : Nat) : Int), k)

/-- The rows of a triangular side; `mid x` tells whether `theSideNodes[x]` is a node, `k` is
the number of mid nodes, `diag` the outcome of `node0 == maxedge && !pattern` in the
case 2. -/
def greenTriRows (mid : Nat → Bool) (diag : Bool) (k : Nat) : List GreenRow :=
  if k = 0 then greenT0
  else if k = 1 then
    let j := searchBreak (fun j => mid (2 * j + 1)) 3 0
    if j < 3 then greenT1 3 j else []
  else if k = 2 then
    let x := (List.range 3).foldl (greenScan mid) (-1, 3)
    if diag = true then greenT2a 3 x.1.toNat x.2 else greenT2b 3 x.1.toNat x.2
  else if k = 3 then greenT3 3
  else []

/-! ### The rows of a side of an element -/

/-- The side next to side `i` over its edge `j`: the first of the two sides with that edge
that is not `i`. -/
def greenOther (env : Env) (s : Mesh) (theElement : Nat) (i j : Nat) : Nat :=
  if SIDE_WITH_EDGE env s theElement (EDGE_OF_SIDE env s theElement i j) 0 ≠ i then
    SIDE_WITH_EDGE env s theElement (EDGE_OF_SIDE env s theElement i j) 0
  else SIDE_WITH_EDGE env s theElement (EDGE_OF_SIDE env s theElement i j) 1

/-- The array `sides` for side `i` after the loop over its edges. -/
def greenSides (env : Env) (s : Mesh) (theElement : Nat) (i : Nat) : Nat → Int :=
  fun j =>
    if 0 ≤ j ∧ j < 0 + EDGES_OF_SIDE env s theElement i then
      ((greenOther env s theElement i j + MAX_GREEN_SONS : Nat) : Int)
    else 0

/-- Whether `theSideNodes[x]` is a node. -/
def greenMid (theSideNodes : Nat → Nat) : Nat → Bool :=
  fun x => decide (theSideNodes x ≠ 0)

/-- The number `k` of mid nodes on the edges of side `i`. -/
def greenMidNodes (env : Env) (s : Mesh) (theElement : Nat) (theContext : Nat → Nat) (i : Nat) :
    Nat :=
  ((List.range (EDGES_OF_SIDE env s theElement i)).filter
    (fun j => decide (RefineElementGreen_sidenodes env s theElement theContext i (2 * j + 1) ≠ 0))).length

/-- The side node of side `i` in the context. -/
def greenSideNode (env : Env) (s : Mesh) (theElement : Nat) (theContext : Nat → Nat) (i : Nat) :
    Nat :=
  theContext (CORNERS_OF_ELEM env s theElement + EDGES_OF_ELEM env s theElement + i)

/-- The outcome of the test `node0 == maxedge && !pattern` in the case 2 of a triangular
side `i`. -/
def greenDiag (env : Env) (s : Mesh) (theElement : Nat) (theContext : Nat → Nat) (i : Nat) :
    Bool :=
  decide (((List.range 3).foldl (RefineElementGreen_scan
      (RefineElementGreen_sidenodes env s theElement theContext i)
      (EDGE_OF_SIDE env s theElement i) 3) (-1, 3, -1)).1 =
    ((List.range 3).foldl (RefineElementGreen_scan
      (RefineElementGreen_sidenodes env s theElement theContext i)
      (EDGE_OF_SIDE env s theElement i) 3) (-1, 3, -1)).2.2 ∧
    s.SIDEPATTERN theElement &&& (1 <<< i) = 0)

/-- The rows `RefineElementGreen` writes for side `i`. -/
def greenSideRows (env : Env) (s : Mesh) (theElement : Nat) (theContext : Nat → Nat) (i : Nat) :
    List GreenRow :=
  if CORNERS_OF_SIDE env s theElement i = 4 then
    if greenSideNode env s theElement theContext i = 0 then
      greenQuadRows (greenMid (RefineElementGreen_sidenodes env s theElement theContext i))
        (greenMidNodes env s theElement theContext i)
    else greenFaceRows
  else
    greenTriRows (greenMid (RefineElementGreen_sidenodes env s theElement theContext i))
      (greenDiag env s theElement theContext i) (greenMidNodes env s theElement theContext i)

/-- The value of `bdy` for side `i`. -/
def greenBdy (s : Mesh) (theElement i : Nat) : Int :=
  if s.BEOBJ theElement = true ∧ s.SIDE_ON_BND theElement i = true then 1 else 0

/-- The number of sons for a side, in the words of the table: for a quadrilateral side
without side node and `k` mid nodes 1, 3, 4 (neighbouring edges) or 2 (opposite edges), 4
and 5 for `k` from 0 to 4, 4 with a side node, and `k+1` for a triangular side. -/
def greenFilled (quad faceNode : Bool) (k : Nat) (opposite : Bool) : Nat :=
  if quad = true then
    if faceNode = true then 4
    else if k = 0 then 1
    else if k = 1 then 3
    else if k = 2 then (if opposite = true then 2 else 4)
    else if k = 3 then 4
    else 5
  else k + 1

/-- The mid nodes of side `i` lie on two opposite edges. -/
def greenOpposite (env : Env) (s : Mesh) (theElement : Nat) (theContext : Nat → Nat) (i : Nat) :
    Bool :=
  (greenMid (RefineElementGreen_sidenodes env s theElement theContext i) 1 &&
    greenMid (RefineElementGreen_sidenodes env s theElement theContext i) 5) ||
  (greenMid (RefineElementGreen_sidenodes env s theElement theContext i) 3 &&
    greenMid (RefineElementGreen_sidenodes env s theElement theContext i) 7)

/-- The number of sons the table of the counts gives for side `i` of an element. -/
def greenSideFilled (env : Env) (s : Mesh) (theElement : Nat) (theContext : Nat → Nat) (i : Nat) :
    Nat :=
  greenFilled (decide (CORNERS_OF_SIDE env s theElement i = 4))
    (decide (greenSideNode env s theElement theContext i ≠ 0))
    (greenMidNodes env s theElement theContext i)
    (greenOpposite env s theElement theContext i)

/-- What the loop over the sides needs of side `i`: it has three or four corners and as many
edges, every edge lies on a second side, and a side node comes with four mid nodes. -/
def GreenSide (env : Env) (s : Mesh) (theElement : Nat) (theContext : Nat → Nat) (i : Nat) :
    Prop :=
  EDGES_OF_SIDE env s theElement i = CORNERS_OF_SIDE env s theElement i ∧
  (CORNERS_OF_SIDE env s theElement i = 3 ∨ CORNERS_OF_SIDE env s theElement i = 4) ∧
  (∀ j, j < EDGES_OF_SIDE env s theElement i →
    SIDE_WITH_EDGE env s theElement (EDGE_OF_SIDE env s theElement i j) 0 ≠ i ∨
    SIDE_WITH_EDGE env s theElement (EDGE_OF_SIDE env s theElement i j) 1 ≠ i) ∧
  (CORNERS_OF_SIDE env s theElement i = 4 → greenSideNode env s theElement theContext i ≠ 0 →
    greenMidNodes env s theElement theContext i = 4)

/-! ### The entries of the table -/

/-- The entry the statements of a tetrahedron leave where the entry `old` was. -/
def tetSon (ix : GreenIndices) (old : GREENSONDATA) (c0 c1 c2 : Nat) (n01 n12 n02 : Int) :
    GREENSONDATA :=
  { tag := some TAG.TETRAHEDRON
    bdy := old.bdy
    corners := upd (upd (upd old.corners ix.tetNode0 c0) ix.tetNode1 c1) ix.tetNode2 c2
    nb := upd (upd (upd old.nb ix.tetSideNode0Node1 n01) ix.tetSideNode1Node2 n12)
      ix.tetSideNode0Node2 n02
    theSon := old.theSon }

/-- The entry the statements of a pyramid leave where the entry `old` was. -/
def pyrSon (ix : GreenIndices) (old : GREENSONDATA) (c0 c1 c2 c3 : Nat) (n01 n12 n23 n03 : Int) :
    GREENSONDATA :=
  { tag := some TAG.PYRAMID
    bdy := old.bdy
    corners := upd (upd (upd (upd old.corners ix.pyrNode0 c0) ix.pyrNode1 c1)
      ix.pyrNode2 c2) ix.pyrNode3 c3
    nb := upd (upd (upd (upd old.nb ix.pyrSideNode0Node1 n01) ix.pyrSideNode1Node2 n12)
      ix.pyrSideNode2Node3 n23) ix.pyrSideNode0Node3 n03
    theSon := old.theSon }

/-- The entry the statements of a row leave in `sons[nelem]` where the entry `old` was. -/
def rowSon (ix : GreenIndices) (theSideNodes : Nat → Nat) (theNode : Nat) (sides : Nat → Int)
    (nelem : Nat) (old : GREENSONDATA) (row : GreenRow) : GREENSONDATA :=
  if row.pyr = true then
    pyrSon ix old (valC theSideNodes theNode row.c0) (valC theSideNodes theNode row.c1)
      (valC theSideNodes theNode row.c2) (valC theSideNodes theNode row.c3)
      (valN sides nelem row.n0) (valN sides nelem row.n1) (valN sides nelem row.n2)
      (valN sides nelem row.n3)
  else
    tetSon ix old (valC theSideNodes theNode row.c0) (valC theSideNodes theNode row.c1)
      (valC theSideNodes theNode row.c2)
      (valN sides nelem row.n0) (valN sides nelem row.n1) (valN sides nelem row.n2)

/-- An entry after the loop "init son data array" and the loop that sets `bdy`. -/
def greenInit (bdy : Int) : GREENSONDATA :=
  { tag := none, bdy := bdy, corners := fun _ => 0, nb := fun _ => -1, theSon := 0 }

/-- The five entries of side `q` in the table `sons` are the rows of the side, followed by
entries without son. -/
def GreenBlock (env : Env) (s : Mesh) (theElement : Nat) (theContext : Nat → Nat)
    (ix : GreenIndices) (sons : Nat → GREENSONDATA) (q : Nat) : Prop :=
  (∀ r row, (greenSideRows env s theElement theContext q)[r]? = some row →
    sons (5 * q + r) = rowSon ix (RefineElementGreen_sidenodes env s theElement theContext q)
      (greenSideNode env s theElement theContext q) (greenSides env s theElement q)
      (5 * q + r) (greenInit (greenBdy s theElement q)) row) ∧
  (∀ r, (greenSideRows env s theElement theContext q).length ≤ r → r < 5 →
    sons (5 * q + r) = greenInit (greenBdy s theElement q))

/-! ### The rows of a side, checked -/

/-- The index variables as "init indices for son elements" sets them for the descriptors of
`elements.c`: a tetrahedron stands on its side 0 with the corners 0, 2, 1, a pyramid on its
side 0 with the corners 0, 3, 2, 1. -/
def greenIndicesStd : GreenIndices where
  tetNode0 := 0
  tetNode1 := 2
  tetNode2 := 1
  tetSideNode0Node1 := 2
  tetSideNode1Node2 := 1
  tetSideNode0Node2 := 3
  pyrSide := 0
  pyrNode0 := 0
  pyrNode1 := 3
  pyrNode2 := 2
  pyrNode3 := 1
  pyrSideNode0Node1 := 4
  pyrSideNode1Node2 := 3
  pyrSideNode2Node3 := 2
  pyrSideNode0Node3 := 1

/-- The neighbour entry a row writes to `nb[x]`, for the indices `greenIndicesStd`. -/
def symNb (row : GreenRow) (x : Nat) : Option GreenNb :=
  if row.pyr = true then
    if x = 1 then some row.n3 else if x = 2 then some row.n2
    else if x = 3 then some row.n1 else if x = 4 then some row.n0 else none
  else
    if x = 3 then some row.n2 else if x = 1 then some row.n1
    else if x = 2 then some row.n0 else none

/-- The corner a row writes to `corners[k]`, for the indices `greenIndicesStd`. -/
def symC (row : GreenRow) (k : Nat) : Option GreenCorner :=
  if row.pyr = true then
    if k = 1 then some row.c3 else if k = 2 then some row.c2
    else if k = 3 then some row.c1 else if k = 0 then some row.c0 else none
  else
    if k = 1 then some row.c2 else if k = 2 then some row.c1
    else if k = 0 then some row.c0 else none

/-- The neighbour entry at `nb[x]` of row `r` of a list of rows. -/
def rowsNb (rows : List GreenRow) (r x : Nat) : Option GreenNb :=
  match rows[r]? with
  | some row => symNb row x
  | none => none

/-- The corner at `corners[k]` of row `r` of a list of rows. -/
def rowsC (rows : List GreenRow) (r k : Nat) : Option GreenCorner :=
  match rows[r]? with
  | some row => symC row k
  | none => none

/-- The row a neighbour entry of row `r` points to, for an entry relative to `nelem`. -/
def rowTarget (r : Nat) : GreenNb → Option Nat
  | .side _ => none
  | .plus d => if 0 ≤ (r : Int) + d then some ((r : Int) + d).toNat else none
  | .minus d => if 0 ≤ (r : Int) - d then some ((r : Int) - d).toNat else none

/-- Row `t` has an entry that points to row `r`. -/
def rowPointsTo (rows : List GreenRow) (t r : Nat) : Bool :=
  (List.range 6).any (fun y =>
    match rowsNb rows t y with
    | some ref => decide (rowTarget t ref = some r)
    | none => false)

/-- A neighbour entry of row `r` is an entry of `sides` for an edge of the side, or points
to a row of the list that points back. -/
def refOk (rows : List GreenRow) (n r : Nat) : Option GreenNb → Bool
  | none => true
  | some (.side j) => decide (j < n)
  | some ref =>
    match rowTarget r ref with
    | some t => decide (t < rows.length) && rowPointsTo rows t r
    | none => false

/-- The places `(r, x)` of a list of rows that hold `sides[j]`, row by row. -/
def slotsOf (rows : List GreenRow) (j : Nat) : List (Nat × Nat) :=
  (List.range 5).flatMap (fun r =>
    ((List.range 6).filter (fun x => decide (rowsNb rows r x = some (.side j)))).map
      (fun x => (r, x)))

/-- Row `r` has the corner `c`. -/
def rowHasC (rows : List GreenRow) (r : Nat) (c : GreenCorner) : Bool :=
  (List.range 8).any (fun k => decide (rowsC rows r k = some c))

/-- Of the rows `r1` and `r2`, the first one with the corner `A` and the first one with the
corner `B` are two rows. -/
def rowsSplit (rows : List GreenRow) (r1 r2 : Nat) (A B : GreenCorner) : Bool :=
  (rowHasC rows r1 A && !rowHasC rows r1 B && rowHasC rows r2 B) ||
  (!rowHasC rows r1 A && rowHasC rows r2 A && rowHasC rows r1 B)

/-- Edge `j` of a side with `n` edges has one place in the rows when it has no mid node, and
two places in two rows, one at either end of the edge, when it has one. -/
def slotOk (rows : List GreenRow) (n : Nat) (bis : List Bool) (j : Nat) : Bool :=
  if bis.getD j false = true then
    decide ((slotsOf rows j).length = 2) &&
    decide (((slotsOf rows j).getD 0 (0, 0)).1 < ((slotsOf rows j).getD 1 (0, 0)).1) &&
    rowsSplit rows ((slotsOf rows j).getD 0 (0, 0)).1 ((slotsOf rows j).getD 1 (0, 0)).1
      (.node (2 * j)) (.node ((2 * j + 2) % (2 * n)))
  else decide ((slotsOf rows j).length = 1)

/-- The rows of a side with `n` edges fit together: there are one to five rows, the entries
relative to `nelem` point to rows that point back, and every edge of the side has its places
as `slotOk` says, `bis` telling which edges have a mid node. -/
def GreenRowsOk (rows : List GreenRow) (n : Nat) (bis : List Bool) : Prop :=
  1 ≤ rows.length ∧ rows.length ≤ 5 ∧
  (∀ r, r < 5 → ∀ x, x < 6 → refOk rows n r (rowsNb rows r x) = true) ∧
  (∀ j, j < n → slotOk rows n bis j = true)

instance (rows : List GreenRow) (n : Nat) (bis : List Bool) : Decidable (GreenRowsOk rows n bis) :=
  inferInstanceAs (Decidable (1 ≤ rows.length ∧ rows.length ≤ 5 ∧
    (∀ r, r < 5 → ∀ x, x < 6 → refOk rows n r (rowsNb rows r x) = true) ∧
    (∀ j, j < n → slotOk rows n bis j = true)))

/-- A function on `theSideNodes` indices that tells the mid nodes of four edges. -/
def midBits (b0 b1 b2 b3 : Bool) : Nat → Bool :=
  fun x => if x = 1 then b0 else if x = 3 then b1 else if x = 5 then b2 else if x = 7 then b3
    else false

/-- Which edges of side `q` have a mid node in the context. -/
def greenBis (env : Env) (s : Mesh) (theElement : Nat) (theContext : Nat → Nat) (q : Nat) :
    List Bool :=
  (List.range (EDGES_OF_SIDE env s theElement q)).map
    (fun j => greenMid (RefineElementGreen_sidenodes env s theElement theContext q) (2 * j + 1))

/-! ### The table before and after "connect elements over edges" -/

/-- The value a neighbour entry of a row stands for; `-1` where the row writes nothing. -/
def nbVal (sides : Nat → Int) (nelem : Nat) : Option GreenNb → Int
  | some ref => valN sides nelem ref
  | none => -1

/-- The node a corner of a row stands for; `NULL` where the row writes nothing. -/
def cVal (theSideNodes : Nat → Nat) (theNode : Nat) : Option GreenCorner → Nat
  | some c => valC theSideNodes theNode c
  | none => 0

/-- The neighbour entry that stands for the side `q` of the father: `q+MAX_GREEN_SONS`. -/
def greenPh (q : Nat) : Int := ((q + MAX_GREEN_SONS : Nat) : Int)

/-- In the block of side `q` exactly the entry `sons[a].nb[x]` stands for the side `q1`. -/
def GreenSlot1 (sons : Nat → GREENSONDATA) (q q1 a x : Nat) : Prop :=
  5 * q ≤ a ∧ a < 5 * q + 5 ∧ x < 6 ∧ (sons a).nb x = greenPh q1 ∧
  ∀ a1 x1, 5 * q ≤ a1 → a1 < 5 * q + 5 → (sons a1).nb x1 = greenPh q1 → a1 = a ∧ x1 = x

/-- In the block of side `q` exactly the entries `sons[a1].nb[x1]` and `sons[a2].nb[x2]`, of
two sons `a1 < a2`, stand for the side `q1`. -/
def GreenSlot2 (sons : Nat → GREENSONDATA) (q q1 a1 x1 a2 x2 : Nat) : Prop :=
  5 * q ≤ a1 ∧ a1 < a2 ∧ a2 < 5 * q + 5 ∧ x1 < 6 ∧ x2 < 6 ∧
  (sons a1).nb x1 = greenPh q1 ∧ (sons a2).nb x2 = greenPh q1 ∧
  ∀ a x, 5 * q ≤ a → a < 5 * q + 5 → (sons a).nb x = greenPh q1 →
    (a = a1 ∧ x = x1) ∨ (a = a2 ∧ x = x2)

/-- The son `a` has the corner node `N`. -/
def greenHas (sons : Nat → GREENSONDATA) (a N : Nat) : Prop :=
  ∃ k, k < 8 ∧ (sons a).corners k = N

/-- Of the sons `a1` and `a2`, the first one with the node `A` and the first one with the
node `B` are two sons. -/
def GreenSplit (sons : Nat → GREENSONDATA) (a1 a2 A B : Nat) : Prop :=
  (greenHas sons a1 A ∧ ¬ greenHas sons a1 B ∧ greenHas sons a2 B) ∨
  (¬ greenHas sons a1 A ∧ greenHas sons a2 A ∧ greenHas sons a1 B)

/-- What the table needs of the descriptor of the element: at most six sides, each with
three or four corners and as many edges; every edge of a side is an edge of the element that
lies on the side; the edges of a side are distinct; every edge lies on two sides, and is an
edge of both; two sides share one edge at most; the corners of an edge of a side are two
consecutive corners of the side; the corners of a side are distinct corners of the
element. -/
def GreenDesc (env : Env) (s : Mesh) (theElement : Nat) : Prop :=
  SIDES_OF_ELEM env s theElement ≤ 6 ∧
  (∀ q, q < SIDES_OF_ELEM env s theElement →
    EDGES_OF_SIDE env s theElement q = CORNERS_OF_SIDE env s theElement q ∧
    (CORNERS_OF_SIDE env s theElement q = 3 ∨ CORNERS_OF_SIDE env s theElement q = 4)) ∧
  (∀ q, q < SIDES_OF_ELEM env s theElement → ∀ j, j < EDGES_OF_SIDE env s theElement q →
    EDGE_OF_SIDE env s theElement q j < EDGES_OF_ELEM env s theElement ∧
    (SIDE_WITH_EDGE env s theElement (EDGE_OF_SIDE env s theElement q j) 0 = q ∨
      SIDE_WITH_EDGE env s theElement (EDGE_OF_SIDE env s theElement q j) 1 = q)) ∧
  (∀ q, q < SIDES_OF_ELEM env s theElement → ∀ j, j < EDGES_OF_SIDE env s theElement q →
    ∀ j1, j1 < EDGES_OF_SIDE env s theElement q →
    EDGE_OF_SIDE env s theElement q j = EDGE_OF_SIDE env s theElement q j1 → j = j1) ∧
  (∀ e, e < EDGES_OF_ELEM env s theElement →
    SIDE_WITH_EDGE env s theElement e 0 < SIDES_OF_ELEM env s theElement ∧
    SIDE_WITH_EDGE env s theElement e 1 < SIDES_OF_ELEM env s theElement ∧
    SIDE_WITH_EDGE env s theElement e 0 ≠ SIDE_WITH_EDGE env s theElement e 1 ∧
    (∃ j, j < EDGES_OF_SIDE env s theElement (SIDE_WITH_EDGE env s theElement e 0) ∧
      EDGE_OF_SIDE env s theElement (SIDE_WITH_EDGE env s theElement e 0) j = e) ∧
    (∃ j, j < EDGES_OF_SIDE env s theElement (SIDE_WITH_EDGE env s theElement e 1) ∧
      EDGE_OF_SIDE env s theElement (SIDE_WITH_EDGE env s theElement e 1) j = e)) ∧
  (∀ e, e < EDGES_OF_ELEM env s theElement → ∀ e1, e1 < EDGES_OF_ELEM env s theElement →
    (SIDE_WITH_EDGE env s theElement e 0 = SIDE_WITH_EDGE env s theElement e1 0 ∧
      SIDE_WITH_EDGE env s theElement e 1 = SIDE_WITH_EDGE env s theElement e1 1) ∨
    (SIDE_WITH_EDGE env s theElement e 0 = SIDE_WITH_EDGE env s theElement e1 1 ∧
      SIDE_WITH_EDGE env s theElement e 1 = SIDE_WITH_EDGE env s theElement e1 0) → e = e1) ∧
  (∀ q, q < SIDES_OF_ELEM env s theElement → ∀ j, j < EDGES_OF_SIDE env s theElement q →
    (CORNER_OF_EDGE env s theElement (EDGE_OF_SIDE env s theElement q j) 0 =
        CORNER_OF_SIDE env s theElement q j ∧
      CORNER_OF_EDGE env s theElement (EDGE_OF_SIDE env s theElement q j) 1 =
        CORNER_OF_SIDE env s theElement q ((j + 1) % EDGES_OF_SIDE env s theElement q)) ∨
    (CORNER_OF_EDGE env s theElement (EDGE_OF_SIDE env s theElement q j) 0 =
        CORNER_OF_SIDE env s theElement q ((j + 1) % EDGES_OF_SIDE env s theElement q) ∧
      CORNER_OF_EDGE env s theElement (EDGE_OF_SIDE env s theElement q j) 1 =
        CORNER_OF_SIDE env s theElement q j)) ∧
  (∀ q, q < SIDES_OF_ELEM env s theElement → ∀ t, t < EDGES_OF_SIDE env s theElement q →
    CORNER_OF_SIDE env s theElement q t < CORNERS_OF_ELEM env s theElement ∧
    ∀ t1, t1 < EDGES_OF_SIDE env s theElement q →
      CORNER_OF_SIDE env s theElement q t = CORNER_OF_SIDE env s theElement q t1 → t = t1)

/-- What the table needs of the context: the corner nodes are there, they are distinct, no
mid node or side node is a corner node, and a quadrilateral side with a side node has four
mid nodes. -/
def GreenContext (env : Env) (s : Mesh) (theElement : Nat) (theContext : Nat → Nat) : Prop :=
  (∀ c, c < CORNERS_OF_ELEM env s theElement → theContext c ≠ 0) ∧
  (∀ c, c < CORNERS_OF_ELEM env s theElement → ∀ c1, c1 < CORNERS_OF_ELEM env s theElement →
    theContext c = theContext c1 → c = c1) ∧
  (∀ c, c < CORNERS_OF_ELEM env s theElement → ∀ p, CORNERS_OF_ELEM env s theElement ≤ p →
    p < CORNERS_OF_ELEM env s theElement + EDGES_OF_ELEM env s theElement +
      SIDES_OF_ELEM env s theElement → theContext p ≠ theContext c) ∧
  (∀ q, q < SIDES_OF_ELEM env s theElement → CORNERS_OF_SIDE env s theElement q = 4 →
    greenSideNode env s theElement theContext q ≠ 0 →
    greenMidNodes env s theElement theContext q = 4)

/-- The number of sides of a son with the tag `t`. -/
def SIDES_OF_TAG (env : Env) (t : TAG) : Nat := (env.element_descriptors t).sides_of_elem

/-- What "connect elements over edges" needs of the table `sons` the loop over the sides
has left: every neighbour entry is `-1`, or the index of a son that points back, or stands
for the second side of an edge of the father; a son has its side 0 free and no other of its
own sides; entries other than `-1` are at sides of sons; and every edge of the father has
its places in the blocks of its two sides, one in each without mid node, two in each with a
mid node, one with either corner node of the edge. -/
structure GreenTableSpec (env : Env) (s : Mesh) (theElement : Nat) (theContext : Nat → Nat)
    (sons : Nat → GREENSONDATA) : Prop where
  nb_kind : ∀ a x, (sons a).nb x = -1 ∨
    (∃ (b : Nat) (tb : TAG) (y : Nat), (sons a).nb x = (b : Int) ∧ b < MAX_GREEN_SONS ∧
      (sons b).tag = some tb ∧
      y < SIDES_OF_TAG env tb ∧ (sons b).nb y = (a : Int)) ∨
    (∃ e, e < EDGES_OF_ELEM env s theElement ∧
      ((5 * SIDE_WITH_EDGE env s theElement e 0 ≤ a ∧
          a < 5 * SIDE_WITH_EDGE env s theElement e 0 + 5 ∧
          (sons a).nb x = greenPh (SIDE_WITH_EDGE env s theElement e 1)) ∨
        (5 * SIDE_WITH_EDGE env s theElement e 1 ≤ a ∧
          a < 5 * SIDE_WITH_EDGE env s theElement e 1 + 5 ∧
          (sons a).nb x = greenPh (SIDE_WITH_EDGE env s theElement e 0))))
  own : ∀ a t, (sons a).tag = some t → a < MAX_GREEN_SONS ∧ 0 < SIDES_OF_TAG env t ∧
    (sons a).nb 0 = -1 ∧ ∀ y, y < SIDES_OF_TAG env t → (sons a).nb y = -1 → y = 0
  used : ∀ a x, (sons a).nb x ≠ -1 → ∃ t, (sons a).tag = some t ∧ x < SIDES_OF_TAG env t
  edge_plain : ∀ e, e < EDGES_OF_ELEM env s theElement →
    theContext (e + CORNERS_OF_ELEM env s theElement) = 0 →
    (∃ a x, GreenSlot1 sons (SIDE_WITH_EDGE env s theElement e 0)
      (SIDE_WITH_EDGE env s theElement e 1) a x) ∧
    (∃ b y, GreenSlot1 sons (SIDE_WITH_EDGE env s theElement e 1)
      (SIDE_WITH_EDGE env s theElement e 0) b y)
  edge_mid : ∀ e, e < EDGES_OF_ELEM env s theElement →
    theContext (e + CORNERS_OF_ELEM env s theElement) ≠ 0 →
    (∃ a1 x1 a2 x2, GreenSlot2 sons (SIDE_WITH_EDGE env s theElement e 0)
        (SIDE_WITH_EDGE env s theElement e 1) a1 x1 a2 x2 ∧
      GreenSplit sons a1 a2 (theContext (CORNER_OF_EDGE env s theElement e 0))
        (theContext (CORNER_OF_EDGE env s theElement e 1))) ∧
    (∃ b1 y1 b2 y2, GreenSlot2 sons (SIDE_WITH_EDGE env s theElement e 1)
        (SIDE_WITH_EDGE env s theElement e 0) b1 y1 b2 y2 ∧
      GreenSplit sons b1 b2 (theContext (CORNER_OF_EDGE env s theElement e 0))
        (theContext (CORNER_OF_EDGE env s theElement e 1)))

/-- The two assignments `sons[a].nb[x] = b; sons[b].nb[y] = a;`. -/
def greenLink (sons : Nat → GREENSONDATA) (a x b y : Nat) : Nat → GREENSONDATA :=
  upd (upd sons a
      { tag := (sons a).tag, bdy := (sons a).bdy, corners := (sons a).corners,
        nb := upd (sons a).nb x ((b : Nat) : Int), theSon := (sons a).theSon }) b
    { tag := ((upd sons a
          { tag := (sons a).tag, bdy := (sons a).bdy, corners := (sons a).corners,
            nb := upd (sons a).nb x ((b : Nat) : Int), theSon := (sons a).theSon }) b).tag
      bdy := ((upd sons a
          { tag := (sons a).tag, bdy := (sons a).bdy, corners := (sons a).corners,
            nb := upd (sons a).nb x ((b : Nat) : Int), theSon := (sons a).theSon }) b).bdy
      corners := ((upd sons a
          { tag := (sons a).tag, bdy := (sons a).bdy, corners := (sons a).corners,
            nb := upd (sons a).nb x ((b : Nat) : Int), theSon := (sons a).theSon }) b).corners
      nb := upd ((upd sons a
          { tag := (sons a).tag, bdy := (sons a).bdy, corners := (sons a).corners,
            nb := upd (sons a).nb x ((b : Nat) : Int), theSon := (sons a).theSon }) b).nb y
        ((a : Nat) : Int)
      theSon := ((upd sons a
          { tag := (sons a).tag, bdy := (sons a).bdy, corners := (sons a).corners,
            nb := upd (sons a).nb x ((b : Nat) : Int), theSon := (sons a).theSon }) b).theSon }

/-- Every entry of the block of side `q` that stood for the side `q1` in the table `sons0`
holds, in the table `sons`, a son of the block of `q1` whose entry for `q` points back. -/
def GreenLinks (sons0 sons : Nat → GREENSONDATA) (q q1 : Nat) : Prop :=
  ∀ a x, 5 * q ≤ a → a < 5 * q + 5 → (sons0 a).nb x = greenPh q1 →
    ∃ b y, 5 * q1 ≤ b ∧ b < 5 * q1 + 5 ∧ (sons0 b).nb y = greenPh q ∧
      (sons a).nb x = ((b : Nat) : Int) ∧ (sons b).nb y = ((a : Nat) : Int)

/-- Every entry of the block of side `q` that stood for the side `q1` in the table `sons0`
still does so in the table `sons`. -/
def GreenPending (sons0 sons : Nat → GREENSONDATA) (q q1 : Nat) : Prop :=
  ∀ a x, 5 * q ≤ a → a < 5 * q + 5 → (sons0 a).nb x = greenPh q1 →
    (sons a).nb x = greenPh q1

/-- The table `sons` when "connect elements over edges" has handled the edges below `m`,
starting from the table `sons0`: tags and corners are as before, so are the neighbour entries
below `MAX_GREEN_SONS`; the entries for the edges below `m` are linked, those of the other
edges still stand for their side. -/
structure GreenInv (env : Env) (s : Mesh) (theElement : Nat) (sons0 sons : Nat → GREENSONDATA)
    (m : Nat) : Prop where
  same : ∀ a, (sons a).tag = (sons0 a).tag ∧ (sons a).corners = (sons0 a).corners
  low : ∀ a x, (sons0 a).nb x < 32 → (sons a).nb x = (sons0 a).nb x
  linked : ∀ e, e < m → e < EDGES_OF_ELEM env s theElement →
    GreenLinks sons0 sons (SIDE_WITH_EDGE env s theElement e 0)
      (SIDE_WITH_EDGE env s theElement e 1) ∧
    GreenLinks sons0 sons (SIDE_WITH_EDGE env s theElement e 1)
      (SIDE_WITH_EDGE env s theElement e 0)
  pending : ∀ e, m ≤ e → e < EDGES_OF_ELEM env s theElement →
    GreenPending sons0 sons (SIDE_WITH_EDGE env s theElement e 0)
      (SIDE_WITH_EDGE env s theElement e 1) ∧
    GreenPending sons0 sons (SIDE_WITH_EDGE env s theElement e 1)
      (SIDE_WITH_EDGE env s theElement e 0)

/-- What the body of "connect elements over edges" does for an edge with the sides `q0` and
`q1`: it changes nothing but the neighbour entries that stood for `q1` in the block of `q0`
and for `q0` in the block of `q1`, and these it links. -/
structure GreenStage (sons0 sons sons1 : Nat → GREENSONDATA) (q0 q1 : Nat) : Prop where
  same : ∀ a, (sons1 a).tag = (sons a).tag ∧ (sons1 a).corners = (sons a).corners
  frame : ∀ c z,
    ¬ ((5 * q0 ≤ c ∧ c < 5 * q0 + 5 ∧ (sons0 c).nb z = greenPh q1) ∨
      (5 * q1 ≤ c ∧ c < 5 * q1 + 5 ∧ (sons0 c).nb z = greenPh q0)) →
    (sons1 c).nb z = (sons c).nb z
  links : GreenLinks sons0 sons1 q0 q1 ∧ GreenLinks sons0 sons1 q1 q0

/-- In the block of side `q` the entries `sons[a1].nb[x1]` and `sons[a2].nb[x2]`, of two
sons, and no others stand for the side `q1`. -/
def GreenPair (sons : Nat → GREENSONDATA) (q q1 a1 x1 a2 x2 : Nat) : Prop :=
  5 * q ≤ a1 ∧ a1 < 5 * q + 5 ∧ 5 * q ≤ a2 ∧ a2 < 5 * q + 5 ∧ a1 ≠ a2 ∧
  (sons a1).nb x1 = greenPh q1 ∧ (sons a2).nb x2 = greenPh q1 ∧
  ∀ a x, 5 * q ≤ a → a < 5 * q + 5 → (sons a).nb x = greenPh q1 →
    (a = a1 ∧ x = x1) ∨ (a = a2 ∧ x = x2)

/-! ## Example meshes -/

/-- The descriptor of a triangle (`elements.c`). -/
def triangle_descriptor : ELEMENT_DESC where
  corners_of_elem := 3
  edges_of_elem := 3
  sides_of_elem := 3
  corner_of_edge := fun i j => if j = 0 then i else (i + 1) % 3
  corners_of_side := fun _ => 2
  corner_of_side := fun i j => if j = 0 then i else (i + 1) % 3
  edges_of_side := fun _ => 1
  edge_of_side := fun i _ => i
  side_with_edge := fun i _ => i

/-- The side table of a pyramid (`elements.c`): side 0 is the quadrilateral base. -/
def pyramid_descriptor : ELEMENT_DESC where
  corners_of_elem := 5
  edges_of_elem := 8
  sides_of_elem := 5
  corner_of_edge := fun i j =>
    (([(0, 1), (1, 2), (2, 3), (3, 0), (0, 4), (1, 4), (2, 4), (3, 4)].getD i (0, 0)) |>
      fun p => if j = 0 then p.1 else p.2)
  corners_of_side := fun i => if i = 0 then 4 else 3
  corner_of_side := fun i j =>
    ([[0, 3, 2, 1], [0, 1, 4], [1, 2, 4], [2, 3, 4], [3, 0, 4]].getD i []).getD j 0
  edges_of_side := fun i => if i = 0 then 4 else 3
  edge_of_side := fun i j =>
    ([[3, 2, 1, 0], [0, 5, 4], [1, 6, 5], [2, 7, 6], [3, 4, 7]].getD i []).getD j 0
  side_with_edge := fun i j =>
    ([[0, 1], [0, 2], [0, 3], [0, 4], [1, 4], [2, 1], [3, 2], [4, 3]].getD i []).getD j 0

/-- A mesh with nothing in it. -/
def emptyMesh : Mesh where
  TAG := fun _ => TAG.TRIANGLE
  BEOBJ := fun _ => false
  SIDE_ON_BND := fun _ _ => false
  CORNER := fun _ _ => 0
  NBELEM := fun _ _ => 0
  EFATHER := fun _ => 0
  NSONS := fun _ => 0
  SON := fun _ _ => 0
  SUCCE := fun _ => 0
  PREDE := fun _ => 0
  ECLASS := fun _ => CLASS.RED_CLASS
  MARKCLASS := fun _ => CLASS.NO_CLASS
  REFINECLASS := fun _ => CLASS.NO_CLASS
  MARK := fun _ => 0
  REFINE := fun _ => 0
  COARSEN := fun _ => 0
  USED := fun _ => 0
  UPDATE_GREEN := fun _ => 0
  SIDEPATTERN := fun _ => 0
  GetEdge := fun _ _ => 0
  PATTERN := fun _ => 0
  ADDPATTERN := fun _ => 0
  MIDNODE := fun _ => 0
  SONNODE := fun _ => 0
  FIRSTELEMENT := 0
  UPGRID := 0
  GRID_CHANGED := false
  No_Green_Update := 0
  Green_Marks := 0
  fifo_first := 0
  fifo_last := 0
  fifo_insertfirst := 0
  fifo_insertlast := 0
  nodePool := []
  elemPool := []
  UPGRID_of := fun _ => 0
  trace := []

/-- A record with nothing in it. -/
def emptyRecord : COMPARE_RECORD where
  elem := 0
  side := 0
  nodes := 0
  nodeptr := fun _ => 0

/-- A serial 2-D build in closure mode without FIFO, with an empty rule set. -/
def emptyEnv : Env where
  DIM := 2
  hFlag := 1
  fifoFlag := 0
  element_descriptors := fun t => if t = TAG.PYRAMID then pyramid_descriptor else triangle_descriptor
  NO_REFINEMENT := 0
  COPY := 1
  RED := 2
  T_RED := 2
  Q_RED := 2
  PYR_RED := 2
  PRI_RED := 2
  HEXA_RED := 2
  FULL_REFRULE_0_5 := 2
  FULL_REFRULE_1_3 := 3
  FULL_REFRULE_2_4 := 4
  NODE_OF_RULE := fun _ _ _ => 0
  MARK2PATTERN := fun _ _ _ => 0
  MARK2PAT := fun _ _ => 0
  PATTERN2MARK := fun _ _ => 0
  RULE2PAT := fun _ _ => 0
  PATTERN2RULE := fun _ _ => 0
  RULE2MARK := fun _ r => r
  NSONS_OF_RULE := fun _ _ => 0
  SON_PATH_OF_RULE := fun _ _ _ => 0
  PATHDEPTH := fun _ => 0
  NEXTSIDE := fun _ _ => 0
  NEXTSIDEHEX := fun _ _ => 0
  SWITCHCLASS_OF_MARK := fun _ _ => false
  theFullRefRule := fun _ _ => 0
  SIDEVECTOR_DEF := false
  DisposeDoubledSideVector := fun _ _ _ _ => 0
  CreateSonElementSide := fun _ _ _ _ => 0
  Get_Sons_of_ElementSideProc := fun _ _ _ _ =>
    { code := 0, Sons_of_Side := 0, SonList := fun _ => 0, SonSides := fun _ => 0 }
  qsort := stableQsort
  GetSideNode := fun _ _ _ _ _ => 0
  UnrefineElement := fun s _ => .ok (0, s)
  RefineElementRed := fun s _ _ => .ok (0, s)
  RefineElementGreen := fun s _ _ => .ok (0, s)
  SON_TAG_OF_RULE := fun t _ _ => t
  SON_NB_OF_RULE := fun _ _ _ _ => 0
  SON_CORNER_OF_RULE := fun _ _ _ _ => 0
  FATHER_SIDE_OFFSET := 20
  MAX_SONS := 30
  DisposeElement_code := fun _ => 0
  Get_Sons_green := fun _ _ _ _ =>
    { code := 0, Sons_of_Side := 0, SonList := fun _ => 0, SonSides := fun _ => 0 }
  stackElemSonTable := fun _ => emptyRecord
  stackNbSonTable := fun _ => emptyRecord
  MAX_SIDES_OF_ELEM := 6
  MAX_CORNERS_OF_ELEM := 8
  rFlag := 0
  GM_COPY_ALL := 1
  MINVNCLASS := 2
  ClearNextVectorClasses := fun _ _ => 0
  SeedNextVectorClasses := fun _ vn _ => vn
  PropagateNextVectorClasses := fun _ vn => vn
  MaxNextVectorClass := fun _ _ _ => 0
  GridClosure := fun s => .ok (0, s)
  GRID_ON_LEVEL := fun s _ => s

/-- Reading a list as an array. -/
def arr (l : List Nat) : Nat → Nat := fun i => l.getD i 0

/-- Reading a list of rows as a two-index array. -/
def arr2 (l : List (Nat × List Nat)) : Nat → Nat → Nat :=
  fun e i => match l.lookup e with
    | some row => row.getD i 0
    | none => 0

/-! ### Two triangles, each with two sons on the common side -/

/-- Elements 1 and 2 are neighbours over side 0 of each; the sons 11, 12 of element 1 and
21, 22 of element 2 lie on that side. -/
def meshConnect2D : Mesh :=
  { emptyMesh with
    NBELEM := arr2 [(1, [2]), (2, [1])]
    MARKCLASS := fun e => if e = 1 ∨ e = 2 then CLASS.RED_CLASS else CLASS.NO_CLASS
    REFINECLASS := fun e => if e = 1 ∨ e = 2 then CLASS.RED_CLASS else CLASS.NO_CLASS
    MARK := fun e => if e = 1 ∨ e = 2 then 2 else 0
    REFINE := fun e => if e = 1 ∨ e = 2 then 2 else 0
    CORNER := arr2 [(11, [104, 105, 300]), (12, [105, 106, 300]),
      (21, [106, 105, 400]), (22, [105, 104, 400])] }

/-- The neighbour's sons come in the order 21, 22. -/
def envConnect2D : Env :=
  { emptyEnv with
    Get_Sons_of_ElementSideProc := fun _ _ _ _ =>
      { code := 0, Sons_of_Side := 2, SonList := arr [21, 22], SonSides := arr [0, 0] } }

/-- The tables of a call of `Connect_Sons_tables`, an empty one when there are none. -/
def tablesOf (r : Except Stop (Int ⊕ SortedTables)) : SortedTables :=
  match r with
  | .ok (.inr t) => t
  | _ =>
    { theNeighbor := 0
      nbside := 0
      nb := { code := 0, Sons_of_Side := 0, SonList := fun _ => 0, SonSides := fun _ => 0 }
      ElemSonTable := fun _ => emptyRecord
      NbSonTable := fun _ => emptyRecord
      ElemSortTable := []
      NbSortTable := [] }

/-- The mesh a run leaves behind, the given one when the run did not return. -/
def meshOf (r : Except Stop (Int × Mesh)) (s : Mesh) : Mesh :=
  match r with
  | .ok p => p.2
  | _ => s

/-! ### A side with a triangular and a quadrilateral son face on the same three nodes -/

/-- Sons 11 and 12 of element 1 and sons 21 and 22 of element 2 are pyramids; side 1 of
11 and of 22 is the triangle on the nodes 9, 8, 7, side 0 of 12 and of 21 the
quadrilateral on 9, 8, 7, 6. -/
def meshMixed3D : Mesh :=
  { emptyMesh with
    TAG := fun _ => TAG.PYRAMID
    NBELEM := arr2 [(1, [2]), (2, [1])]
    MARKCLASS := fun e => if e = 1 ∨ e = 2 then CLASS.RED_CLASS else CLASS.NO_CLASS
    REFINECLASS := fun e => if e = 1 ∨ e = 2 then CLASS.RED_CLASS else CLASS.NO_CLASS
    MARK := fun e => if e = 1 ∨ e = 2 then 2 else 0
    REFINE := fun e => if e = 1 ∨ e = 2 then 2 else 0
    CORNER := arr2 [(11, [9, 8, 500, 501, 7]), (12, [9, 8, 7, 6, 502]),
      (21, [6, 7, 8, 9, 503]), (22, [7, 9, 504, 505, 8])] }

/-- A serial 3-D build; the neighbour's sons come in the order 21, 22. -/
def envMixed3D : Env :=
  { emptyEnv with
    DIM := 3
    Get_Sons_of_ElementSideProc := fun _ _ _ _ =>
      { code := 0, Sons_of_Side := 2, SonList := arr [21, 22], SonSides := arr [0, 1] } }

/-! ### A son that is listed on both sides -/

/-- Element 10 is handed over as a son of element 1 and is also returned as a son of the
neighbour 2. -/
def meshShared2D : Mesh :=
  { emptyMesh with
    NBELEM := arr2 [(1, [2]), (2, [1])]
    MARKCLASS := fun e => if e = 1 ∨ e = 2 then CLASS.RED_CLASS else CLASS.NO_CLASS
    REFINECLASS := fun e => if e = 1 ∨ e = 2 then CLASS.RED_CLASS else CLASS.NO_CLASS
    MARK := fun e => if e = 1 ∨ e = 2 then 2 else 0
    REFINE := fun e => if e = 1 ∨ e = 2 then 2 else 0
    CORNER := arr2 [(10, [5, 4, 300]), (11, [3, 2, 300]), (12, [7, 6, 400])] }

/-- The neighbour's sons are 12 and 10. -/
def envShared2D : Env :=
  { emptyEnv with
    Get_Sons_of_ElementSideProc := fun _ _ _ _ =>
      { code := 0, Sons_of_Side := 2, SonList := arr [12, 10], SonSides := arr [0, 0] } }

/-- The tables of the example call on `meshConnect2D`. -/
def tablesConnect2D : SortedTables :=
  tablesOf (Connect_Sons_tables envConnect2D meshConnect2D 1 0 2 (arr [11, 12]) (arr [0, 0]))

/-- The tables of the example call on `meshMixed3D`. -/
def tablesMixed3D : SortedTables :=
  tablesOf (Connect_Sons_tables envMixed3D meshMixed3D 1 0 2 (arr [11, 12]) (arr [1, 0]))

/-- The tables of the example call on `meshShared2D`. -/
def tablesShared2D : SortedTables :=
  tablesOf (Connect_Sons_tables envShared2D meshShared2D 1 0 2 (arr [10, 11]) (arr [0, 0]))

/-! ### Two triangles with a common edge, both marked for regular refinement -/

/-- Reading a list of edges `(n0, n1, edge)` as the map `GetEdge`. -/
def edgeTable (l : List (Nat × Nat × Nat)) : Nat → Nat → Nat :=
  fun a b =>
    match l.find? (fun t => (t.1 == a && t.2.1 == b) || (t.1 == b && t.2.1 == a)) with
    | some t => t.2.2
    | none => 0

/-- Triangle 1 on the nodes 101, 102, 103 and triangle 2 on 103, 102, 104 share the edge
202 between 102 and 103; both carry the mark 2 of class red. -/
def meshTwoTriangles : Mesh :=
  { emptyMesh with
    CORNER := arr2 [(1, [101, 102, 103]), (2, [103, 102, 104])]
    GetEdge := edgeTable [(101, 102, 201), (102, 103, 202), (103, 101, 203),
      (102, 104, 204), (104, 103, 205)]
    NBELEM := arr2 [(1, [0, 2, 0]), (2, [1, 0, 0])]
    MARK := fun e => if e = 1 ∨ e = 2 then 2 else 0
    MARKCLASS := fun e => if e = 1 ∨ e = 2 then CLASS.RED_CLASS else CLASS.NO_CLASS
    FIRSTELEMENT := 1
    SUCCE := arr [0, 2, 0]
    PREDE := arr [0, 0, 1]
    nodePool := [301, 302, 303, 304, 305, 306, 307, 308, 309, 310, 311, 312] }

/-- A 2-D build whose rule 2 bisects all three edges of a triangle. -/
def envRed2D : Env :=
  { emptyEnv with
    NODE_OF_RULE := fun _ m i => if m = 2 ∧ i < 3 then 1 else 0
    MARK2PATTERN := fun _ m i => if m = 2 ∧ i < 3 then 1 else 0
    MARK2PAT := fun _ m => if m = 2 then 7 else 0
    PATTERN2MARK := fun _ p => if p = 7 then 2 else if p = 0 then 0 else -1 }

/-- The return code of a call of `UpdateContext`, `-1` when the run did not return. -/
def codeOf (r : Except Stop (Int × Mesh × Context)) : Int :=
  match r with
  | .ok p => p.1
  | _ => -1

/-- The mesh a call of `UpdateContext` leaves behind. -/
def meshAfter (r : Except Stop (Int × Mesh × Context)) (s : Mesh) : Mesh :=
  match r with
  | .ok p => p.2.1
  | _ => s

/-- The context a call of `UpdateContext` has filled. -/
def contextOf (r : Except Stop (Int × Mesh × Context)) : Context :=
  match r with
  | .ok p => p.2.2
  | _ => fun _ => 0

/-- The mesh `meshTwoTriangles` after `UpdateContext` for triangle 1. -/
def meshTwoTriangles1 : Mesh :=
  meshAfter (UpdateContext envRed2D meshTwoTriangles 1) meshTwoTriangles

/-! ### Three triangles in a row, the first marked for regular refinement -/

/-- Triangle 1 on the nodes 101, 102, 103, triangle 2 on 103, 102, 104 and triangle 3 on
102, 105, 104; 1 and 2 share the edge 202, 2 and 3 the edge 204. Triangle 1 carries the
mark 2 of class red, triangle 3 a stale class green. -/
def meshThreeTriangles : Mesh :=
  { emptyMesh with
    CORNER := arr2 [(1, [101, 102, 103]), (2, [103, 102, 104]), (3, [102, 105, 104])]
    GetEdge := edgeTable [(101, 102, 201), (102, 103, 202), (103, 101, 203),
      (102, 104, 204), (104, 103, 205), (102, 105, 206), (105, 104, 207)]
    NBELEM := arr2 [(1, [0, 2, 0]), (2, [1, 3, 0]), (3, [0, 0, 2])]
    MARK := fun e => if e = 1 then 2 else 0
    MARKCLASS := fun e =>
      if e = 1 then CLASS.RED_CLASS else if e = 3 then CLASS.GREEN_CLASS else CLASS.NO_CLASS
    FIRSTELEMENT := 1
    SUCCE := arr [0, 2, 3, 0]
    PREDE := arr [0, 0, 1, 2] }

/-- A 2-D build in closure mode without FIFO: rule 2 bisects all three edges of a
triangle, rule 3 its edge 0. -/
def envClose2D : Env :=
  { emptyEnv with
    NODE_OF_RULE := fun _ m i => if m = 2 ∧ i < 3 then 1 else if m = 3 ∧ i = 0 then 1 else 0
    MARK2PATTERN := fun _ m i => if m = 2 ∧ i < 3 then 1 else if m = 3 ∧ i = 0 then 1 else 0
    MARK2PAT := fun _ m => if m = 2 then 7 else if m = 3 then 1 else 0
    PATTERN2MARK := fun _ p => if p = 7 then 2 else if p = 1 then 3 else if p = 0 then 0 else -1 }

/-- The value a call of `CloseGrid` returns, `-2` when the run did not return. -/
def valueOf (r : Except Stop (Int × Mesh)) : Int :=
  match r with
  | .ok p => p.1
  | _ => -2

/-- The mesh `meshThreeTriangles` after `CloseGrid`. -/
def meshThreeClosed : Mesh :=
  meshOf (CloseGrid envClose2D 4 meshThreeTriangles) meshThreeTriangles

/-! ### Two refined triangles on a level, one with a son that is not to coarsen -/

/-- Triangles 1 and 2 are refined regularly into the sons 11 to 14 and 21 to 24; every
son except 22 has `COARSEN` set. Triangle 1 is marked, triangle 2 is not. -/
def meshRestrict : Mesh :=
  { emptyMesh with
    NSONS := fun e => if e = 1 ∨ e = 2 then 4 else 0
    SON := arr2 [(1, [11, 12, 13, 14]), (2, [21, 22, 23, 24])]
    REFINECLASS := fun e => if e = 1 ∨ e = 2 then CLASS.RED_CLASS else CLASS.NO_CLASS
    REFINE := fun e => if e = 1 ∨ e = 2 then 2 else 0
    COARSEN := fun e => if 11 ≤ e ∧ e ≠ 22 then 1 else 0
    MARK := fun e => if e = 1 then 2 else 0
    MARKCLASS := fun e => if e = 1 then CLASS.RED_CLASS else CLASS.NO_CLASS
    FIRSTELEMENT := 1
    SUCCE := arr [0, 2, 0]
    PREDE := arr [0, 0, 1] }

/-- The array `SonList` a call of `GetSons` has filled, an empty one when the call did not
return. -/
def sonsOf (r : Except Stop (Int × (Nat → Nat))) : Nat → Nat :=
  match r with
  | .ok p => p.2
  | _ => fun _ => 0

/-- The mesh `meshRestrict` after `RestrictMarks` in closure mode. -/
def meshRestricted : Mesh :=
  meshOf (RestrictMarks emptyEnv 2 meshRestrict) meshRestrict

/-! ### Levels for `RefineGrid` -/

/-- A 2-D build with hanging nodes. -/
def envHanging2D : Env := { emptyEnv with hFlag := 0 }

/-- A 2-D build in closure mode whose procedures for the finer grid count the sons. -/
def envSons2D : Env :=
  { envRed2D with
    UnrefineElement := fun s e => .ok (0, { s with NSONS := upd s.NSONS e 0 })
    RefineElementRed := fun s e _ => .ok (0, { s with NSONS := upd s.NSONS e 4 }) }

/-- A 3-D build in closure mode. -/
def envGreen3D : Env := { emptyEnv with DIM := 3 }

/-- Triangle 1 is refined regularly and is marked for no refinement; triangle 2 is not
refined and is marked for regular refinement. -/
def meshRefine : Mesh :=
  { meshTwoTriangles with
    UPGRID := 1
    NSONS := fun e => if e = 1 then 4 else 0
    REFINE := fun e => if e = 1 then 2 else 0
    REFINECLASS := fun e => if e = 1 then CLASS.RED_CLASS else CLASS.NO_CLASS
    MARK := fun e => if e = 2 then 2 else 0
    MARKCLASS := fun e => if e = 2 then CLASS.RED_CLASS else CLASS.NO_CLASS }

/-- The mesh `meshRefine` after `RefineGrid` in closure mode. -/
def meshRefined : Mesh := meshOf (RefineGrid envSons2D 2 meshRefine) meshRefine

/-- The mesh `meshRefine` after `RefineGrid` with hanging nodes. -/
def meshRefinedHanging : Mesh := meshOf (RefineGrid envHanging2D 2 meshRefine) meshRefine

/-- Two triangles whose marks are what has been applied: triangle 1 is refined and marked
with rule 2, triangle 2 is neither. -/
def meshSettled : Mesh :=
  { meshTwoTriangles with
    UPGRID := 1
    NSONS := fun e => if e = 1 then 4 else 0
    REFINE := fun e => if e = 1 then 2 else 0
    REFINECLASS := fun e => if e = 1 then CLASS.RED_CLASS else CLASS.NO_CLASS
    MARK := fun e => if e = 1 then 2 else 0
    MARKCLASS := fun e => if e = 1 then CLASS.RED_CLASS else CLASS.NO_CLASS
    COARSEN := fun _ => 1 }

/-- A level with a single pyramid of class green, refined with the rule 1 and marked with
the same rule, whose flag `USED` is set; no edge is to be bisected. -/
def meshGreenPyramid : Mesh :=
  { emptyMesh with
    TAG := fun _ => TAG.PYRAMID
    UPGRID := 1
    CORNER := arr2 [(1, [101, 102, 103, 104, 105])]
    GetEdge := edgeTable [(101, 102, 201), (102, 103, 202), (103, 104, 203), (104, 101, 204),
      (101, 105, 205), (102, 105, 206), (103, 105, 207), (104, 105, 208)]
    ADDPATTERN := fun _ => 1
    REFINE := fun e => if e = 1 then 1 else 0
    REFINECLASS := fun e => if e = 1 then CLASS.GREEN_CLASS else CLASS.NO_CLASS
    MARK := fun e => if e = 1 then 1 else 0
    MARKCLASS := fun e => if e = 1 then CLASS.GREEN_CLASS else CLASS.NO_CLASS
    USED := fun e => if e = 1 then 1 else 0
    FIRSTELEMENT := 1
    nodePool := [301, 302, 303, 304, 305, 306, 307, 308, 309, 310, 311, 312] }

/-- The mesh `meshGreenPyramid` after `RefineGrid`. -/
def meshGreenPyramidRefined : Mesh :=
  meshOf (RefineGrid envGreen3D 1 meshGreenPyramid) meshGreenPyramid

/-- The level of `meshSettled` without a finer grid. -/
def meshSettledTop : Mesh := { meshSettled with UPGRID := 0 }

/-! ### A tetrahedron with a green refinement -/

/-- The descriptor of a tetrahedron (`elements.c`). -/
def tetrahedron_descriptor : ELEMENT_DESC where
  corners_of_elem := 4
  edges_of_elem := 6
  sides_of_elem := 4
  corner_of_edge := fun i j =>
    (([(0, 1), (1, 2), (0, 2), (0, 3), (1, 3), (2, 3)].getD i (0, 0)) |>
      fun p => if j = 0 then p.1 else p.2)
  corners_of_side := fun _ => 3
  corner_of_side := fun i j => ([[0, 2, 1], [1, 2, 3], [0, 3, 2], [0, 1, 3]].getD i []).getD j 0
  edges_of_side := fun _ => 3
  edge_of_side := fun i j => ([[2, 1, 0], [1, 5, 4], [3, 5, 2], [0, 4, 3]].getD i []).getD j 0
  side_with_edge := fun i j =>
    ([[0, 3], [0, 1], [2, 0], [3, 2], [1, 3], [2, 1]].getD i []).getD j 0

/-- A 3-D build in closure mode: rule 5 of a tetrahedron bisects edge 0 and has two sons,
the second reached from the first over side 0; the pattern 35 (edges 0, 1 and 5) belongs
to rule 7. -/
def envTet3D : Env :=
  { emptyEnv with
    DIM := 3
    element_descriptors := fun t =>
      if t = TAG.TETRAHEDRON then tetrahedron_descriptor
      else if t = TAG.PYRAMID then pyramid_descriptor else triangle_descriptor
    RULE2PAT := fun _ r => if r = 5 then 1 else 0
    PATTERN2RULE := fun _ p => if p = 35 then 7 else 0
    NSONS_OF_RULE := fun _ r => if r = 5 then 2 else 0
    SON_PATH_OF_RULE := fun _ _ i => i
    PATHDEPTH := fun p => if p = 0 then 0 else 1 }

/-- The level holds the regular tetrahedron 1 on the nodes 101 to 104, refined green by
rule 5 into the sons 11 and 12; its edge 0 has the mid node 301. On the son level the
edges over edge 1 and over edge 5 have `ADDPATTERN` set, and son 12 carries the mark 3. -/
def meshGreenTet : Mesh :=
  { emptyMesh with
    TAG := fun _ => TAG.TETRAHEDRON
    CORNER := arr2 [(1, [101, 102, 103, 104])]
    GetEdge := edgeTable [(101, 102, 201), (102, 103, 202), (101, 103, 203),
      (101, 104, 204), (102, 104, 205), (103, 104, 206),
      (111, 112, 211), (112, 113, 212), (111, 113, 213),
      (111, 114, 214), (112, 114, 215), (113, 114, 216)]
    SONNODE := fun n => if 101 ≤ n ∧ n ≤ 104 then n + 10 else 0
    MIDNODE := fun ed => if ed = 201 then 301 else 0
    ADDPATTERN := fun ed => if ed = 212 ∨ ed = 216 then 1 else 0
    NSONS := fun e => if e = 1 then 2 else 0
    SON := arr2 [(1, [11])]
    NBELEM := arr2 [(11, [12]), (12, [11])]
    EFATHER := fun e => if e = 11 ∨ e = 12 then 1 else 0
    REFINE := fun e => if e = 1 then 5 else 0
    REFINECLASS := fun e => if e = 1 then CLASS.GREEN_CLASS else CLASS.NO_CLASS
    ECLASS := fun e => if e = 1 then CLASS.RED_CLASS else CLASS.GREEN_CLASS
    MARK := fun e => if e = 12 then 3 else 0
    FIRSTELEMENT := 1 }

/-- The mesh `meshGreenTet` after `RestrictMarks`. -/
def meshGreenTetRestricted : Mesh :=
  meshOf (RestrictMarks envTet3D 2 meshGreenTet) meshGreenTet

/-- As `meshGreenTet`, but the tetrahedron 1 is itself an irregular element of class
green. -/
def meshIrregularTet : Mesh :=
  { meshGreenTet with ECLASS := fun _ => CLASS.GREEN_CLASS }

/-- The mesh `meshIrregularTet` after `RestrictMarks`. -/
def meshIrregularTetRestricted : Mesh :=
  meshOf (RestrictMarks envTet3D 2 meshIrregularTet) meshIrregularTet

/-! ### A rule set without a rule for a single bisected edge -/

/-- As `envRed2D`, in hanging-node mode. -/
def envRedHanging2D : Env := { envRed2D with hFlag := 0 }

/-- The mesh `meshThreeTriangles` after `CloseGrid` in hanging-node mode with the rule set
of `envRed2D`. -/
def meshThreeHanging : Mesh :=
  meshOf (CloseGrid envRedHanging2D 4 meshThreeTriangles) meshThreeTriangles

/-! ### Two pyramids with a common edge -/

/-- A 3-D build in closure mode without FIFO over pyramids: rule 2, of a class that
switches an element to red, bisects edge 0 and belongs to the pattern 1; rule 3 bisects
edge 4 and belongs to the pattern 16. No rule has a side node. -/
def envPyramid3D : Env :=
  { emptyEnv with
    DIM := 3
    element_descriptors := fun _ => pyramid_descriptor
    NODE_OF_RULE := fun _ m i => if (m = 2 ∧ i = 0) ∨ (m = 3 ∧ i = 4) then 1 else 0
    MARK2PATTERN := fun _ m i => if (m = 2 ∧ i = 0) ∨ (m = 3 ∧ i = 4) then 1 else 0
    MARK2PAT := fun _ m => if m = 2 then 1 else if m = 3 then 16 else 0
    PATTERN2MARK := fun _ p =>
      if p = 1 then 2 else if p = 16 then 3 else if p = 0 then 0 else -1
    SWITCHCLASS_OF_MARK := fun _ m => decide (m = 2) }

/-- Pyramid 1 on the nodes 101 to 105 and pyramid 2 on 101, 106, 107, 108, 102 share the
edge 201 between 101 and 102, edge 0 of pyramid 1 and edge 4 of pyramid 2; the edge has
the mid node 301. Pyramid 1 is red, refined and marked with rule 2; pyramid 2 is green,
refined and marked with rule 3. -/
def meshTwoPyramids : Mesh :=
  { emptyMesh with
    TAG := fun _ => TAG.PYRAMID
    CORNER := arr2 [(1, [101, 102, 103, 104, 105]), (2, [101, 106, 107, 108, 102])]
    GetEdge := edgeTable [(101, 102, 201), (102, 103, 202), (103, 104, 203), (104, 101, 204),
      (101, 105, 205), (102, 105, 206), (103, 105, 207), (104, 105, 208),
      (101, 106, 209), (106, 107, 210), (107, 108, 211), (108, 101, 212),
      (106, 102, 213), (107, 102, 214), (108, 102, 215)]
    MIDNODE := fun ed => if ed = 201 then 301 else 0
    MARK := fun e => if e = 1 then 2 else if e = 2 then 3 else 0
    REFINE := fun e => if e = 1 then 2 else if e = 2 then 3 else 0
    MARKCLASS := fun e =>
      if e = 1 then CLASS.RED_CLASS else if e = 2 then CLASS.GREEN_CLASS else CLASS.NO_CLASS
    REFINECLASS := fun e =>
      if e = 1 then CLASS.RED_CLASS else if e = 2 then CLASS.GREEN_CLASS else CLASS.NO_CLASS
    FIRSTELEMENT := 1
    SUCCE := arr [0, 2, 0]
    PREDE := arr [0, 0, 1] }

/-- The mesh `meshTwoPyramids` after `CloseGrid`. -/
def meshTwoPyramidsClosed : Mesh :=
  meshOf (CloseGrid envPyramid3D 3 meshTwoPyramids) meshTwoPyramids

/-! ### Four triangles around a node, with FIFO -/

/-- The rule that `PATTERN2MARK` finds for each of the eight edge patterns of a triangle:
rule 2 bisects the three edges, the rules 3, 4 and 5 bisect the edge 0, 1 and 2, the rules
6, 7 and 8 the edges 0 and 1, 0 and 2, 1 and 2. -/
def trianglePatternRule : List Int := [0, 3, 4, 6, 5, 7, 8, 2]

/-- The edge pattern of each rule of a triangle; rule 0 is no refinement, rule 1 the copy
rule. -/
def triangleRulePattern : List Nat := [0, 0, 7, 1, 2, 4, 3, 5, 6]

/-- A 2-D build in closure mode with FIFO and the complete rule set of a triangle. -/
def envFifoTriangles : Env :=
  { emptyEnv with
    fifoFlag := 1
    PATTERN2MARK := fun _ p => trianglePatternRule.getD p (-1)
    MARK2PAT := fun _ m => triangleRulePattern.getD m.toNat 0
    NODE_OF_RULE := fun _ m i => EDGE_IN_PAT (triangleRulePattern.getD m.toNat 0) i
    MARK2PATTERN := fun _ m i => EDGE_IN_PAT (triangleRulePattern.getD m.toNat 0) i }

/-- The triangles 1, 2, 3, 4 lie around the node 100, in this order on the element list:
1 and 2 share the edge 202, 2 and 3 the edge 205, 3 and 4 the edge 207, 4 and 1 the edge
203; edge 0 of each triangle is on the boundary. Triangles 1 and 3 are red with rule 3,
which bisects their edge 0; triangle 2 is red with rule 4, which bisects its edge 1, the
edge 202; triangle 4 is not marked. -/
def meshRing : Mesh :=
  { emptyMesh with
    CORNER := arr2 [(1, [101, 102, 100]), (2, [103, 102, 100]), (3, [104, 103, 100]),
      (4, [101, 104, 100])]
    GetEdge := edgeTable [(101, 102, 201), (102, 100, 202), (100, 101, 203),
      (103, 102, 204), (100, 103, 205), (104, 103, 206), (100, 104, 207), (101, 104, 208)]
    NBELEM := arr2 [(1, [0, 2, 4]), (2, [0, 1, 3]), (3, [0, 2, 4]), (4, [0, 3, 1])]
    SIDE_ON_BND := fun e j => decide (1 ≤ e ∧ e ≤ 4 ∧ j = 0)
    MARK := fun e => if e = 1 ∨ e = 3 then 3 else if e = 2 then 4 else 0
    MARKCLASS := fun e => if 1 ≤ e ∧ e ≤ 3 then CLASS.RED_CLASS else CLASS.NO_CLASS
    FIRSTELEMENT := 1
    SUCCE := arr [0, 2, 3, 4, 0]
    PREDE := arr [0, 0, 1, 2, 3] }

/-- The mesh `meshRing` after `CloseGrid` with FIFO. -/
def meshRingClosed : Mesh :=
  meshOf (CloseGrid envFifoTriangles 4 meshRing) meshRing

/-- The state a loop ends in when it runs through, the given one otherwise. -/
def stateOf {σ : Type} (r : LoopRes σ) (d : σ) : σ :=
  match r with
  | .next x => x
  | _ => d

/-! ### Two red pyramids with a common edge, with FIFO -/

/-- As `envPyramid3D`, with FIFO. -/
def envPyramidFifo3D : Env := { envPyramid3D with fifoFlag := 1 }

/-- As `meshTwoPyramids`, but pyramid 2 is red and marked with rule 2, which bisects its
edge 0; with the edge 201 that pyramid 1 bisects its pattern is 17. -/
def meshRedPyramids : Mesh :=
  { meshTwoPyramids with
    MARK := fun e => if e = 1 ∨ e = 2 then 2 else 0
    MARKCLASS := fun e => if e = 1 ∨ e = 2 then CLASS.RED_CLASS else CLASS.NO_CLASS }

/-! ### A rule set for triangles -/

/-- The sons of the triangle rules: for every rule the list of its sons, each with its
corners in the context (corners 0 to 2, mid nodes 3 to 5) and its neighbours (a son, or
100 plus a side of the father). -/
def triangleRules : List (Int × List (List Nat × List Nat)) :=
  [(2, [([0, 3, 5], [100, 3, 102]), ([3, 1, 4], [100, 101, 3]),
        ([5, 4, 2], [3, 101, 102]), ([3, 4, 5], [1, 2, 0])]),
   (3, [([0, 3, 2], [100, 1, 102]), ([3, 1, 2], [100, 101, 0])]),
   (4, [([0, 1, 4], [100, 101, 1]), ([0, 4, 2], [0, 101, 102])]),
   (5, [([0, 1, 5], [100, 1, 102]), ([5, 1, 2], [0, 101, 102])])]

/-- The sons of a rule in `triangleRules`. -/
def triangleSons (m : Int) : List (List Nat × List Nat) :=
  match triangleRules.lookup m with
  | some l => l
  | none => []

/-- A 2-D build in closure mode without FIFO with the rules of a triangle: rule 2 is the
regular rule with four sons, the rules 3, 4 and 5 bisect edge 0, 1 and 2 and have two
sons. Only the class of rule 2 switches an element to red. The procedure behind
`Get_Sons_of_ElementSideProc` is still to be set. -/
def envTriangleRules : Env :=
  { emptyEnv with
    NODE_OF_RULE := fun _ m i =>
      if (m = 2 ∧ i < 3) ∨ (m = 3 ∧ i = 0) ∨ (m = 4 ∧ i = 1) ∨ (m = 5 ∧ i = 2) then 1 else 0
    MARK2PATTERN := fun _ m i =>
      if (m = 2 ∧ i < 3) ∨ (m = 3 ∧ i = 0) ∨ (m = 4 ∧ i = 1) ∨ (m = 5 ∧ i = 2) then 1 else 0
    MARK2PAT := fun _ m =>
      if m = 2 then 7 else if m = 3 then 1 else if m = 4 then 2 else if m = 5 then 4 else 0
    PATTERN2MARK := fun _ p =>
      if p = 7 then 2 else if p = 1 then 3 else if p = 2 then 4 else if p = 4 then 5
      else if p = 0 then 0 else -1
    NSONS_OF_RULE := fun _ m => (triangleSons m).length
    SON_TAG_OF_RULE := fun _ _ _ => TAG.TRIANGLE
    SON_CORNER_OF_RULE := fun _ m sn i => (((triangleSons m).getD sn ([], [])).1).getD i 0
    SON_NB_OF_RULE := fun _ m sn i => (((triangleSons m).getD sn ([], [])).2).getD i 0
    FATHER_SIDE_OFFSET := 100
    SWITCHCLASS_OF_MARK := fun _ m => decide (m = 2) }

/-- What a call of `Get_Sons_of_ElementSide` hands back, nothing when the call did not
return. -/
def sonsOfSideOf (r : Except Stop SonsOfSide) : SonsOfSide :=
  match r with
  | .ok x => x
  | _ => { code := GM_FATAL, Sons_of_Side := 0, SonList := fun _ => 0, SonSides := fun _ => 0 }

/-- The build `envTriangleRules` with `Get_Sons_of_ElementSide` behind the pointer
`Get_Sons_of_ElementSideProc`. -/
def envTriangleProc : Env :=
  { envTriangleRules with
    Get_Sons_of_ElementSideProc := fun s e side need =>
      sonsOfSideOf (Get_Sons_of_ElementSide envTriangleRules 1 s e side (fun _ => 0)
        (fun _ => 0) need) }

/-- The build `envTriangleProc` with `UnrefineElement` and `RefineElementRed` as the
callees of `RefineGrid`. -/
def envTriangles : Env := withCallees envTriangleProc 2

/-- Triangle 1 on the nodes 101, 102, 103 and triangle 2 on 103, 102, 104 share the edge
202; triangle 3 on the nodes 101, 105, 106 shares the node 101 with triangle 1 and no
edge. Triangle 1 is marked with the regular rule 2 of class red, the other two are not
marked; no triangle is refined. There are pools of nodes and of elements for the finer
grid. -/
def meshOneMarked : Mesh :=
  { emptyMesh with
    CORNER := arr2 [(1, [101, 102, 103]), (2, [103, 102, 104]), (3, [101, 105, 106])]
    GetEdge := edgeTable [(101, 102, 201), (102, 103, 202), (103, 101, 203),
      (102, 104, 204), (104, 103, 205), (101, 105, 206), (105, 106, 207), (106, 101, 208)]
    NBELEM := arr2 [(1, [0, 2, 0]), (2, [1, 0, 0])]
    MARK := fun e => if e = 1 then 2 else 0
    MARKCLASS := fun e => if e = 1 then CLASS.RED_CLASS else CLASS.NO_CLASS
    FIRSTELEMENT := 1
    SUCCE := arr [0, 2, 3, 0]
    PREDE := arr [0, 0, 1, 2]
    UPGRID := 1
    nodePool := [301, 302, 303, 304, 305, 306, 307, 308, 309, 310]
    elemPool := [11, 12, 13, 14, 15, 16, 17, 18] }

/-- The mesh `meshOneMarked` after `CloseGrid`. -/
def meshOneMarkedClosed : Mesh :=
  meshOf (CloseGrid envTriangles 4 meshOneMarked) meshOneMarked

/-- The mesh `meshOneMarkedClosed` without a node left in the pool. -/
def meshNoNodes : Mesh := { meshOneMarkedClosed with nodePool := [] }

/-- The mesh `meshOneMarkedClosed` without an element left in the pool. -/
def meshNoElements : Mesh := { meshOneMarkedClosed with elemPool := [] }

/-- The mesh with which the first round of `RefineGrid` on `meshNoElements` starts. -/
def meshNoElements0 : Mesh := { meshNoElements with GRID_CHANGED := false }

/-- The mesh `meshNoElements0` when `UpdateContext` is called for triangle 1. -/
def meshNoElements1 : Mesh :=
  logCall (logCall meshNoElements0 (Event.UnrefineElement 1)) (Event.UpdateContext 1)

/-- The mesh `meshNoElements1` after `UpdateContext` for triangle 1. -/
def meshNoElements2 : Mesh :=
  meshAfter (UpdateContext envTriangleProc meshNoElements1 1) meshNoElements1

/-- The context `UpdateContext` has built for triangle 1 of `meshNoElements1`. -/
def contextNoElements : Context :=
  contextOf (UpdateContext envTriangleProc meshNoElements1 1)

/-! ### Triangle 1 of `meshOneMarked` refined and unrefined again -/

/-- The mesh `meshOneMarkedClosed` after `UpdateContext` for triangle 1. -/
def meshRoundTrip0 : Mesh :=
  meshAfter (UpdateContext envTriangleProc meshOneMarkedClosed 1) meshOneMarkedClosed

/-- The context `UpdateContext` has built for triangle 1 of `meshOneMarkedClosed`. -/
def contextRoundTrip : Context :=
  contextOf (UpdateContext envTriangleProc meshOneMarkedClosed 1)

/-- The mesh `meshRoundTrip0` after `RefineElementRed` for triangle 1. -/
def meshRoundTrip1 : Mesh :=
  meshOf (RefineElementRed envTriangleProc meshRoundTrip0 1 contextRoundTrip) meshRoundTrip0

/-- The mesh `meshRoundTrip1` after the statements "refine and refineclass flag" for
triangle 1. -/
def meshRoundTrip2 : Mesh := RefineGrid_flags 1 meshRoundTrip1

/-- The mesh `meshRoundTrip2` after `UnrefineElement` for triangle 1 on grid 1. -/
def meshRoundTrip3 : Mesh :=
  meshOf (UnrefineElement envTriangleProc 4 meshRoundTrip2 1 1) meshRoundTrip2

/-! ### A patch of triangles around one marked triangle -/

/-- The sons of the rules of a triangle that `triangleRules` leaves out: the copy rule 1
with one son on the corners of the father, and the rules 6, 7 and 8, which bisect the edges
0 and 1, 0 and 2, 1 and 2 and have three sons. -/
def trianglePassRules : List (Int × List (List Nat × List Nat)) :=
  [(1, [([0, 1, 2], [100, 101, 102])]),
   (6, [([3, 1, 4], [100, 101, 1]), ([0, 3, 4], [100, 0, 2]), ([0, 4, 2], [1, 101, 102])]),
   (7, [([0, 3, 5], [100, 1, 102]), ([3, 1, 5], [100, 2, 0]), ([1, 2, 5], [101, 102, 1])]),
   (8, [([0, 1, 4], [100, 101, 1]), ([0, 4, 5], [0, 2, 102]), ([5, 4, 2], [1, 101, 102])])]

/-- The sons of a rule of a triangle, from `triangleRules` and `trianglePassRules`. -/
def trianglePassSons (m : Int) : List (List Nat × List Nat) :=
  match (trianglePassRules ++ triangleRules).lookup m with
  | some l => l
  | none => []

/-- The first `n` corners of the element `e`. -/
def cornersOf (s : Mesh) (n : Nat) (e : Nat) : List Nat := (List.range n).map (s.CORNER e)

/-- An example of `PropagateNextVectorClasses` for vectors in the nodes of elements with
`n` corners: every node of class below `c` that lies in an element (one of the elements 1 to
8) with a node of class `c + 1` gets the class `c`. -/
def propagateClass (s : Mesh) (n : Nat) (c : Nat) (vn : Nat → Nat) : Nat → Nat :=
  fun a =>
    if vn a < c ∧ ∃ e ∈ List.range 9, a ∈ cornersOf s n e ∧ ∃ m ∈ cornersOf s n e, vn m = c + 1
    then c else vn a

/-- An example of `MaxNextVectorClass` for vectors in the nodes of elements with `n`
corners: the largest class of a corner of the element. -/
def maxClass (s : Mesh) (n : Nat) (vn : Nat → Nat) (e : Nat) : Int :=
  (((cornersOf s n e).map vn).foldl max 0 : Nat)

/-- A 2-D build in closure mode without FIFO with the complete rule set of a triangle and
with the vectors of the algebra in the nodes: a refined triangle seeds the class 3 in its
corners, the classes 2 and 1 spread over one triangle each, and the class of a triangle is
the largest class of its corners. Only the class of rule 2 switches an element to red. The
procedure behind `Get_Sons_of_ElementSideProc` is still to be set. -/
def envTrianglePass : Env :=
  { emptyEnv with
    PATTERN2MARK := fun _ p => trianglePatternRule.getD p (-1)
    MARK2PAT := fun _ m => triangleRulePattern.getD m.toNat 0
    NODE_OF_RULE := fun _ m i => EDGE_IN_PAT (triangleRulePattern.getD m.toNat 0) i
    MARK2PATTERN := fun _ m i => EDGE_IN_PAT (triangleRulePattern.getD m.toNat 0) i
    NSONS_OF_RULE := fun _ m => (trianglePassSons m).length
    SON_TAG_OF_RULE := fun _ _ _ => TAG.TRIANGLE
    SON_CORNER_OF_RULE := fun _ m sn i => (((trianglePassSons m).getD sn ([], [])).1).getD i 0
    SON_NB_OF_RULE := fun _ m sn i => (((trianglePassSons m).getD sn ([], [])).2).getD i 0
    FATHER_SIDE_OFFSET := 100
    SWITCHCLASS_OF_MARK := fun _ m => decide (m = 2)
    ClearNextVectorClasses := fun _ _ => 0
    SeedNextVectorClasses := fun s vn e a => if a ∈ cornersOf s 3 e then 3 else vn a
    PropagateNextVectorClasses := fun s vn => propagateClass s 3 1 (propagateClass s 3 2 vn)
    MaxNextVectorClass := fun s vn e => maxClass s 3 vn e }

/-- The build `envTrianglePass` with `Get_Sons_of_ElementSide` behind the pointer
`Get_Sons_of_ElementSideProc`. -/
def envTrianglePassProc : Env :=
  { envTrianglePass with
    Get_Sons_of_ElementSideProc := fun s e side need =>
      sonsOfSideOf (Get_Sons_of_ElementSide envTrianglePass 1 s e side (fun _ => 0)
        (fun _ => 0) need) }

/-- Triangle 1 on the nodes 101, 102, 103 is marked with the regular rule 2 of class red;
no other triangle is marked and no triangle is refined. Side 0 of triangle 1 is on the
boundary; triangle 2 on 103, 102, 104 is its neighbour over the edge 202 and triangle 3 on
101, 103, 105 its neighbour over the edge 203. Triangle 4 on 102, 106, 104 is the
neighbour of triangle 2 over the edge 204 and triangle 5 on 103, 107, 105 the neighbour of
triangle 3 over the edge 206; neither has an edge in common with triangle 1. There are
pools of nodes and of elements for the finer grid. -/
def meshPatch : Mesh :=
  { emptyMesh with
    CORNER := arr2 [(1, [101, 102, 103]), (2, [103, 102, 104]), (3, [101, 103, 105]),
      (4, [102, 106, 104]), (5, [103, 107, 105])]
    GetEdge := edgeTable [(101, 102, 201), (102, 103, 202), (103, 101, 203),
      (102, 104, 204), (104, 103, 205), (103, 105, 206), (105, 101, 207),
      (102, 106, 208), (106, 104, 209), (103, 107, 210), (107, 105, 211)]
    NBELEM := arr2 [(1, [0, 2, 3]), (2, [1, 4, 0]), (3, [1, 5, 0]), (4, [0, 0, 2]),
      (5, [0, 0, 3])]
    MARK := fun e => if e = 1 then 2 else 0
    MARKCLASS := fun e => if e = 1 then CLASS.RED_CLASS else CLASS.NO_CLASS
    FIRSTELEMENT := 1
    SUCCE := arr [0, 2, 3, 4, 5, 0]
    PREDE := arr [0, 0, 1, 2, 3, 4]
    UPGRID := 1
    nodePool := [301, 302, 303, 304, 305, 306, 307, 308, 309, 310, 311, 312]
    elemPool := [11, 12, 13, 14, 15, 16, 17, 18, 19, 20, 21, 22] }

/-- The mesh `meshPatch` after `CloseGrid`. -/
def meshPatchClosed : Mesh :=
  meshOf (CloseGrid (withCallees envTrianglePassProc 2) 5 meshPatch) meshPatch

/-- The mesh `meshPatch` after `CloseGrid` and `ComputeCopies`. -/
def meshPatchCopies : Mesh :=
  meshOf (ComputeCopies (withCallees envTrianglePassProc 2) 5 meshPatchClosed) meshPatchClosed

/-- The mesh `meshPatch` after `CloseGrid`, `ComputeCopies` and `RefineGrid`. -/
def meshPatchRefined : Mesh :=
  meshOf (RefineGrid (withCallees envTrianglePassProc 2) 5 meshPatchCopies) meshPatchCopies

/-- The mesh `meshPatch` without an element left in the pool. -/
def meshPatchFull : Mesh := { meshPatch with elemPool := [] }

/-- The mesh `meshPatchFull` after `CloseGrid`. -/
def meshPatchFullClosed : Mesh :=
  meshOf (CloseGrid (withCallees envTrianglePassProc 2) 5 meshPatchFull) meshPatchFull

/-- The mesh `meshPatchFull` after `CloseGrid` and `ComputeCopies`. -/
def meshPatchFullCopies : Mesh :=
  meshOf (ComputeCopies (withCallees envTrianglePassProc 2) 5 meshPatchFullClosed)
    meshPatchFullClosed

/-- The mesh `meshPatchFull` after `CloseGrid`, `ComputeCopies` and `RefineGrid`. -/
def meshPatchFullRefined : Mesh :=
  meshOf (RefineGrid (withCallees envTrianglePassProc 2) 5 meshPatchFullCopies)
    meshPatchFullCopies

/-! ### Two levels of pyramids, with FIFO -/

/-- As `envPyramidFifo3D`, for a multigrid of two levels whose grids start at the elements
9 and 1. Rule 4 of a pyramid has the two sons 0 and 1, son 1 is the neighbour of son 0
over its side 1; the copy rule 1 has one son. The vectors of the algebra are in the nodes,
as in `envTrianglePass`; `GridClosure` finds nothing to do. -/
def envPyramidLevels : Env :=
  { envPyramidFifo3D with
    NSONS_OF_RULE := fun _ m => if m = 4 then 2 else if m = 1 then 1 else 0
    SON_PATH_OF_RULE := fun _ m sn => if m = 4 ∧ sn = 1 then 1 else 0
    PATHDEPTH := fun p => if p = 1 then 1 else 0
    NEXTSIDEHEX := fun p pos => if p = 1 ∧ pos = 0 then 1 else 0
    ClearNextVectorClasses := fun _ _ => 0
    SeedNextVectorClasses := fun s vn e a => if a ∈ cornersOf s 5 e then 3 else vn a
    PropagateNextVectorClasses := fun s vn => propagateClass s 5 1 (propagateClass s 5 2 vn)
    MaxNextVectorClass := fun s vn e => maxClass s 5 vn e
    GridClosure := fun s => .ok (0, s)
    GRID_ON_LEVEL := fun s k => { s with FIRSTELEMENT := [9, 1].getD k 0 } }

/-- As `envPyramidLevels`, with a procedure `GridClosure` that fails. -/
def envPyramidLevelsFail : Env := { envPyramidLevels with GridClosure := fun s => .ok (-1, s) }

/-- Level 0 holds the pyramids 9 and 10. Pyramid 9 is refined with rule 4, of class red;
its sons are the pyramids 1, on the nodes 101 to 105, and 2, on 101, 106, 107, 102, 105,
which share the side with the nodes 101, 102, 105, side 1 of pyramid 1 and side 4 of
pyramid 2. Pyramid 10 is refined with the copy rule; its son is the yellow pyramid 3 on the
nodes 104, 103, 112, 113, 114, which shares the edge 203 with pyramid 1. Level 1 holds the
pyramids 1, 2 and 3. The pyramids 1 and 2 are marked with rule 2 of class red, which
bisects their edge 0: the edge 201 between 101 and 102 for pyramid 1, which is edge 3 of
pyramid 2, and the edge 209 for pyramid 2. -/
def meshTwoLevels : Mesh :=
  { emptyMesh with
    TAG := fun _ => TAG.PYRAMID
    CORNER := arr2 [(1, [101, 102, 103, 104, 105]), (2, [101, 106, 107, 102, 105]),
      (3, [104, 103, 112, 113, 114]), (9, [1, 2, 3, 4, 5]), (10, [1, 4, 8, 9, 10])]
    GetEdge := edgeTable [(101, 102, 201), (102, 103, 202), (103, 104, 203), (104, 101, 204),
      (101, 105, 205), (102, 105, 206), (103, 105, 207), (104, 105, 208),
      (101, 106, 209), (106, 107, 210), (107, 102, 211), (106, 105, 212), (107, 105, 213),
      (103, 112, 214), (112, 113, 215), (113, 104, 216), (104, 114, 217), (103, 114, 218),
      (112, 114, 219), (113, 114, 220)]
    NBELEM := arr2 [(1, [0, 2, 0, 0, 0]), (2, [0, 0, 0, 0, 1])]
    MARK := fun e => if e = 1 ∨ e = 2 then 2 else 0
    MARKCLASS := fun e => if e = 1 ∨ e = 2 then CLASS.RED_CLASS else CLASS.NO_CLASS
    REFINE := fun e => if e = 9 then 4 else if e = 10 then 1 else 0
    REFINECLASS := fun e =>
      if e = 9 then CLASS.RED_CLASS else if e = 10 then CLASS.YELLOW_CLASS else CLASS.NO_CLASS
    ECLASS := fun e => if e = 3 then CLASS.YELLOW_CLASS else CLASS.RED_CLASS
    NSONS := fun e => if e = 9 then 2 else if e = 10 then 1 else 0
    SON := fun e i => if e = 9 ∧ i = 0 then 1 else if e = 10 ∧ i = 0 then 3 else 0
    EFATHER := fun e => if e = 1 ∨ e = 2 then 9 else if e = 3 then 10 else 0
    FIRSTELEMENT := 1
    SUCCE := arr [0, 2, 3, 0, 0, 0, 0, 0, 0, 10, 0]
    PREDE := arr [0, 0, 1, 2, 0, 0, 0, 0, 0, 0, 9] }

/-- The mesh `meshTwoLevels` after `CloseGrid` on level 1. -/
def meshTwoLevelsClosed : Mesh :=
  meshOf (CloseGrid envPyramidLevels 3 (envPyramidLevels.GRID_ON_LEVEL meshTwoLevels 1))
    meshTwoLevels

/-- The mesh `meshTwoLevelsClosed` after the message of `RefineMultiGrid` and
`RestrictMarks` on level 0. -/
def meshTwoLevelsRestricted : Mesh :=
  meshOf (RestrictMarks envPyramidLevels 3
    (envPyramidLevels.GRID_ON_LEVEL (logCall meshTwoLevelsClosed Event.PrintErrorMessage) 0))
    meshTwoLevels

/-- The mesh `meshTwoLevelsClosed` after the message of `RefineMultiGrid` and
`ComputeCopies` on level 1. -/
def meshTwoLevelsCopies : Mesh :=
  meshOf (ComputeCopies envPyramidLevels 3
    (logCall meshTwoLevelsClosed Event.PrintErrorMessage)) meshTwoLevels

/-! ### A marked leaf -/

/-- The level holds one triangle, 1, without sons; the estimator has marked it for regular
refinement. -/
def meshLeafMarked : Mesh :=
  { emptyMesh with
    MARK := fun e => if e = 1 then 2 else 0
    MARKCLASS := fun e => if e = 1 then CLASS.RED_CLASS else CLASS.NO_CLASS
    FIRSTELEMENT := 1 }

/-! ### The loops of `CloseGrid` on `meshRedPyramids`, with FIFO -/

/-- The mesh `meshRedPyramids` after the first loop of `CloseGrid`. -/
def meshRedPyramids1 : Mesh :=
  stateOf (forElements (fun y => y.SUCCE) (CloseGrid_reset envPyramidFifo3D) 2
    meshRedPyramids.FIRSTELEMENT meshRedPyramids) meshRedPyramids

/-- The mesh `meshRedPyramids` after the second loop of `CloseGrid`. -/
def meshRedPyramids2 : Mesh :=
  stateOf (forElements (fun y => y.SUCCE) (CloseGrid_pattern envPyramidFifo3D) 2
    meshRedPyramids1.FIRSTELEMENT meshRedPyramids1) meshRedPyramids1

/-- The mesh `meshRedPyramids` after the third loop of `CloseGrid`. -/
def meshRedPyramids3 : Mesh :=
  stateOf (forElements (fun y => y.SUCCE) (CloseGrid_sidepattern envPyramidFifo3D) 2
    meshRedPyramids2.FIRSTELEMENT (CloseGrid_fifo_init envPyramidFifo3D meshRedPyramids2))
    meshRedPyramids2

/-- The mesh `meshRedPyramids` and the count after the round of the fourth loop for
pyramid 1. -/
def meshRedPyramids4 : Mesh × Int :=
  stateOf (CloseGrid_rule envPyramidFifo3D 1 (meshRedPyramids3, 0)) (meshRedPyramids3, 0)

/-! ### A green pyramid with four sons -/

/-- Pyramid 1 has the sons 11, 12, 13, 14: son 11 has the neighbours 12 and 13 and, over
its side 4, the element 50, a son of another element; son 13 has the neighbours 11
and 14. -/
def meshGreenSons : Mesh :=
  { emptyMesh with
    TAG := fun _ => TAG.PYRAMID
    NSONS := fun e => if e = 1 then 4 else 0
    SON := arr2 [(1, [11])]
    EFATHER := fun e => if 11 ≤ e ∧ e ≤ 14 then 1 else if e = 50 then 2 else 0
    NBELEM := arr2 [(11, [0, 12, 13, 0, 50]), (12, [0, 11]), (13, [0, 11, 14]), (14, [0, 13]),
      (50, [11])]
    REFINECLASS := fun e => if e = 1 then CLASS.GREEN_CLASS else CLASS.NO_CLASS }

/-- The first `n` entries of the array a call of `GetNeighborSons` hands back, and its
count; nothing when the call did not return. -/
def sonsFound (r : Option ((Nat → Nat) × Nat)) (n : Nat) : List Nat × Nat :=
  match r with
  | some y => ((List.range n).map y.1, y.2)
  | none => ([], 0)

/-! ### A red triangle with its four sons -/

/-- Triangle 1 is refined with the regular rule 2 of `triangleRules` and has the four sons
31, 32, 33, 34, in the order of the rule. -/
def meshRedSons : Mesh :=
  { emptyMesh with
    MARK := fun e => if e = 1 then 2 else 0
    MARKCLASS := fun e => if e = 1 then CLASS.RED_CLASS else CLASS.NO_CLASS
    NSONS := fun e => if e = 1 then 4 else 0
    SON := arr2 [(1, [31])]
    EFATHER := fun e => if 31 ≤ e ∧ e ≤ 34 then 1 else 0 }

/-- What a call of `Get_Sons_of_ElementSide` hands back: the code, `Sons_of_Side`, and the
first `n` entries of `SonList` and of `SonSides`. -/
def sonsOfSideList (r : Except Stop SonsOfSide) (n : Nat) : Int × Nat × List Nat × List Nat :=
  ((sonsOfSideOf r).code, (sonsOfSideOf r).Sons_of_Side,
    (List.range n).map (sonsOfSideOf r).SonList, (List.range n).map (sonsOfSideOf r).SonSides)

/-! ### Green elements in 3-D -/

/-- The descriptor of a prism (`elements.c`): the sides 0 and 4 are triangles. -/
def prism_descriptor : ELEMENT_DESC where
  corners_of_elem := 6
  edges_of_elem := 9
  sides_of_elem := 5
  corner_of_edge := fun i j =>
    (([(0, 1), (1, 2), (2, 0), (0, 3), (1, 4), (2, 5), (3, 4), (4, 5), (5, 3)].getD i (0, 0)) |>
      fun p => if j = 0 then p.1 else p.2)
  corners_of_side := fun i => if i = 0 ∨ i = 4 then 3 else 4
  corner_of_side := fun i j =>
    ([[0, 2, 1], [0, 1, 4, 3], [1, 2, 5, 4], [2, 0, 3, 5], [3, 4, 5]].getD i []).getD j 0
  edges_of_side := fun i => if i = 0 ∨ i = 4 then 3 else 4
  edge_of_side := fun i j =>
    ([[2, 1, 0], [0, 4, 6, 3], [1, 5, 7, 4], [2, 3, 8, 5], [6, 7, 8]].getD i []).getD j 0
  side_with_edge := fun i j =>
    ([[0, 1], [0, 2], [0, 3], [1, 3], [2, 1], [3, 2], [1, 4], [2, 4], [3, 4]].getD i []).getD j 0

/-- The descriptor of a hexahedron (`elements.c`). -/
def hexahedron_descriptor : ELEMENT_DESC where
  corners_of_elem := 8
  edges_of_elem := 12
  sides_of_elem := 6
  corner_of_edge := fun i j =>
    (([(0, 1), (1, 2), (2, 3), (3, 0), (0, 4), (1, 5), (2, 6), (3, 7), (4, 5), (5, 6), (6, 7),
        (7, 4)].getD i (0, 0)) |>
      fun p => if j = 0 then p.1 else p.2)
  corners_of_side := fun _ => 4
  corner_of_side := fun i j =>
    ([[0, 3, 2, 1], [0, 1, 5, 4], [1, 2, 6, 5], [2, 3, 7, 6], [3, 0, 4, 7],
      [4, 5, 6, 7]].getD i []).getD j 0
  edges_of_side := fun _ => 4
  edge_of_side := fun i j =>
    ([[3, 2, 1, 0], [0, 5, 8, 4], [1, 6, 9, 5], [2, 7, 10, 6], [3, 4, 11, 7],
      [8, 9, 10, 11]].getD i []).getD j 0
  side_with_edge := fun i j =>
    ([[0, 1], [0, 2], [0, 3], [0, 4], [1, 4], [2, 1], [3, 2], [4, 3], [1, 5], [2, 5], [3, 5],
      [4, 5]].getD i []).getD j 0

/-- A 3-D build with the descriptors of the four kinds of 3-D elements. -/
def envGreenTable : Env :=
  { emptyEnv with
    DIM := 3
    element_descriptors := fun t =>
      if t = TAG.TETRAHEDRON then tetrahedron_descriptor
      else if t = TAG.PYRAMID then pyramid_descriptor
      else if t = TAG.PRISM then prism_descriptor
      else if t = TAG.HEXAHEDRON then hexahedron_descriptor
      else triangle_descriptor }

/-- A mesh whose elements are pyramids. -/
def meshPyramidTable : Mesh := { emptyMesh with TAG := fun _ => TAG.PYRAMID }

/-- The context of a pyramid on the nodes 101 to 105 with the mid nodes 201 and 202 on the
edges 0 and 1 of its base; no side node. -/
def contextTwoMid : Nat → Nat := arr [101, 102, 103, 104, 105, 201, 202]

/-- The context of a pyramid on the nodes 101 to 105 with the mid nodes 202, 203, 204 on the
edges 1, 2, 3 of its base, none on edge 0, and the side node 401 on the base. -/
def contextFaceThree : Nat → Nat :=
  arr [101, 102, 103, 104, 105, 0, 202, 203, 204, 0, 0, 0, 0, 401]

/-- The tags of the first `n` entries of a table `sons`. -/
def greenTags (sons : Nat → GREENSONDATA) (n : Nat) : List (Option TAG) :=
  (List.range n).map (fun j => (sons j).tag)

/-- The neighbour entries `nb[0..5)` of the first `n` entries of the table a run of
`RefineElementGreen_table` leaves; nothing when the run does not come to its end. -/
def greenNbTable (r : Except Stop (Int × (Nat → GREENSONDATA))) (n : Nat) : List (List Int) :=
  match r with
  | .ok x => (List.range n).map (fun a => (List.range 5).map (fun k => (x.2 a).nb k))
  | .error _ => []


/-! ## Lemmas on the comparison of records -/

theorem upd_same {α : Type} (f : Nat → α) (k : Nat) (v : α) : upd f k v k = v := by
  simp [upd]

theorem upd_other {α : Type} (f : Nat → α) (k : Nat) (v : α) (x : Nat) (h : x ≠ k) :
    upd f k v x = f x := by
  simp [upd, h]

theorem compare_nodes_neg_iff (a b : COMPARE_RECORD) :
    compare_nodes a b < 0 ↔ recBefore a b := by
  unfold compare_nodes recBefore
  split_ifs <;> constructor <;> intro h <;> omega

theorem compare_nodes_pos_iff (a b : COMPARE_RECORD) :
    0 < compare_nodes a b ↔ recBefore b a := by
  unfold compare_nodes recBefore
  split_ifs <;> constructor <;> intro h <;> omega

theorem compare_nodes_trans (a b c : COMPARE_RECORD)
    (h1 : compare_nodes a b < 0) (h2 : compare_nodes b c < 0) : compare_nodes a c < 0 := by
  rw [compare_nodes_neg_iff] at *
  unfold recBefore at *
  omega

theorem compare_nodes_symm (a b : COMPARE_RECORD) (h : compare_nodes a b ≠ 0) :
    compare_nodes b a ≠ 0 := by
  rcases lt_trichotomy (compare_nodes a b) 0 with h1 | h1 | h1
  · have := (compare_nodes_pos_iff b a).mpr ((compare_nodes_neg_iff a b).mp h1)
    omega
  · exact absurd h1 h
  · have := (compare_nodes_neg_iff b a).mpr ((compare_nodes_pos_iff a b).mp h1)
    omega

theorem tupleBefore_asymm (t u : List Nat) (h1 : tupleBefore t u) (h2 : tupleBefore u t) :
    False := by
  unfold tupleBefore at *
  omega

theorem faceTuple_length (r : COMPARE_RECORD) : (faceTuple r).length = r.nodes := by
  simp [faceTuple]

theorem faceTuple_getD (r : COMPARE_RECORD) (j : Nat) (h : j < r.nodes) :
    (faceTuple r).getD j 0 = r.nodeptr j := by
  simp [faceTuple, List.getD_eq_getElem?_getD, List.getElem?_map, List.getElem?_range h]

/-! ## `Sort_Node_Ptr` works inside `nodes[0..n)` -/

theorem Sort_Node_Ptr_max_fold_agree (f g : Nat → Nat) (n : Nat) (h : ∀ j, j < n → f j = g j) :
    ∀ (l : List Nat) (m : Nat), m < n → (∀ j ∈ l, j < n) →
      l.foldl (fun max j => if f max < f j then j else max) m =
        l.foldl (fun max j => if g max < g j then j else max) m ∧
      l.foldl (fun max j => if f max < f j then j else max) m < n := by
  intro l
  induction l with
  | nil => intro m hm _; exact ⟨rfl, hm⟩
  | cons a l ih =>
    intro m hm hl
    have ha : a < n := hl a (List.mem_cons_self a l)
    have hl2 : ∀ j ∈ l, j < n := fun j hj => hl j (List.mem_cons_of_mem a hj)
    simp only [List.foldl_cons]
    rw [h m hm, h a ha]
    by_cases hc : g m < g a
    · simp only [hc, if_true]
      exact ih a ha hl2
    · simp only [hc, if_false]
      exact ih m hm hl2

theorem Sort_Node_Ptr_max_agree (f g : Nat → Nat) (n i : Nat) (hi : i < n)
    (h : ∀ j, j < n → f j = g j) :
    Sort_Node_Ptr_max f n i = Sort_Node_Ptr_max g n i ∧ Sort_Node_Ptr_max f n i < n := by
  unfold Sort_Node_Ptr_max
  apply Sort_Node_Ptr_max_fold_agree f g n h _ i hi
  intro j hj
  rw [List.mem_range'_1] at hj
  omega

theorem Sort_Node_Ptr_round_agree (f g : Nat → Nat) (n i : Nat) (hi : i < n)
    (h : ∀ j, j < n → f j = g j) :
    ∀ j, j < n → Sort_Node_Ptr_round n f i j = Sort_Node_Ptr_round n g i j := by
  intro j hj
  obtain ⟨hm, hlt⟩ := Sort_Node_Ptr_max_agree f g n i hi h
  unfold Sort_Node_Ptr_round
  dsimp only
  rw [← hm]
  by_cases hc : i ≠ Sort_Node_Ptr_max f n i
  · rw [if_pos hc, if_pos hc]
    unfold upd
    split_ifs
    · exact h i hi
    · exact h _ hlt
    · exact h j hj
  · rw [if_neg hc, if_neg hc]
    exact h j hj

theorem Sort_Node_Ptr_rounds_agree (n : Nat) :
    ∀ (l : List Nat) (f g : Nat → Nat), (∀ i ∈ l, i < n) → (∀ j, j < n → f j = g j) →
      ∀ j, j < n → l.foldl (Sort_Node_Ptr_round n) f j = l.foldl (Sort_Node_Ptr_round n) g j := by
  intro l
  induction l with
  | nil => intro f g _ h j hj; exact h j hj
  | cons a l ih =>
    intro f g hl h j hj
    simp only [List.foldl_cons]
    apply ih _ _ (fun i hi => hl i (List.mem_cons_of_mem a hi)) _ j hj
    exact Sort_Node_Ptr_round_agree f g n a (hl a (List.mem_cons_self a l)) h

/-- The tuple that `Fill_Comp_Table` builds for a side does not depend on what the table
slot held before. -/
theorem Fill_Comp_Table_entry_tuple (env : Env) (s : Mesh) (E1 E2 : COMPARE_RECORD)
    (elem side : Nat) :
    faceTuple (Fill_Comp_Table_entry env s E1 elem side).2 =
      faceTuple (Fill_Comp_Table_entry env s E2 elem side).2 := by
  unfold faceTuple Fill_Comp_Table_entry Sort_Node_Ptr
  dsimp only
  apply List.map_congr_left
  intro j hj
  rw [List.mem_range] at hj
  split_ifs with hv
  · dsimp only
    apply Sort_Node_Ptr_rounds_agree _ _ _ _ (fun i hi => List.mem_range.mp hi) _ j hj
    intro k hk
    simp [hk]
  · simp [hj]

theorem Fill_Comp_Table_entry_ok (env : Env) (s : Mesh) (E : COMPARE_RECORD) (elem side : Nat)
    (h : (Fill_Comp_Table_entry env s E elem side).1 = GM_OK) :
    validNodes env.DIM (Fill_Comp_Table_entry env s E elem side).2.nodes := by
  unfold Fill_Comp_Table_entry Sort_Node_Ptr at h
  unfold validNodes Fill_Comp_Table_entry
  dsimp only at h ⊢
  by_cases hv : (env.DIM = 2 ∧ CORNERS_OF_SIDE env s elem side = 2) ∨
      (env.DIM = 3 ∧ (CORNERS_OF_SIDE env s elem side = 3 ∨ CORNERS_OF_SIDE env s elem side = 4))
  · exact hv
  · rw [if_neg hv] at h
    simp [GM_OK, GM_FATAL] at h

/-- The entries of a table that `Fill_Comp_Table` has filled with success. -/
theorem Fill_Comp_Table_from_spec (env : Env) (s : Mesh) (Elements Sides : Nat → Nat) :
    ∀ (k i : Nat) (T : Nat → COMPARE_RECORD),
      (Fill_Comp_Table_from env s Elements Sides k i T).1 = GM_OK →
      ∀ j, i ≤ j → j < i + k →
        ∃ old, (Fill_Comp_Table_from env s Elements Sides k i T).2 j =
            (Fill_Comp_Table_entry env s old (Elements j) (Sides j)).2 ∧
          (Fill_Comp_Table_entry env s old (Elements j) (Sides j)).1 = GM_OK := by
  intro k
  induction k with
  | zero => intro i T _ j h1 h2; omega
  | succ k ih =>
    intro i T h j h1 h2
    unfold Fill_Comp_Table_from at h ⊢
    by_cases hc : (Fill_Comp_Table_entry env s (T i) (Elements i) (Sides i)).1 ≠ GM_OK
    · rw [if_pos hc] at h
      simp [GM_OK, GM_FATAL] at h
    · rw [if_neg hc] at h ⊢
      by_cases hj : j = i
      · subst hj
        refine ⟨T j, ?_, not_not.mp hc⟩
        have hfr : ∀ (k : Nat) (i : Nat) (T : Nat → COMPARE_RECORD), j < i →
            (Fill_Comp_Table_from env s Elements Sides k i T).2 j = T j := by
          intro k
          induction k with
          | zero => intro i T _; rfl
          | succ k ih2 =>
            intro i T hlt
            unfold Fill_Comp_Table_from
            simp only
            split_ifs
            · simp [upd]; omega
            · rw [ih2 (i + 1) _ (by omega)]
              simp [upd]; omega
        rw [hfr k (j + 1) _ (by omega)]
        simp [upd]
      · exact ih (i + 1) _ h j (by omega) (by omega)

/-! ## Two sorted tables with the same tuples are aligned -/

theorem chain_le_ne_pairwise_lt :
    ∀ (l : List COMPARE_RECORD), l.Chain' (fun a b => compare_nodes a b ≤ 0) →
      l.Pairwise (fun a b => compare_nodes a b ≠ 0) →
      l.Pairwise (fun a b => compare_nodes a b < 0) := by
  intro l
  induction l with
  | nil => intro _ _; exact List.Pairwise.nil
  | cons a l ih =>
    intro hc hp
    have hp' := List.pairwise_cons.mp hp
    have ihl := ih (List.Chain'.tail hc) hp'.2
    refine List.pairwise_cons.mpr ⟨?_, ihl⟩
    cases l with
    | nil => intro b hb; simp at hb
    | cons c l' =>
      have hac : compare_nodes a c < 0 := by
        have h1 : compare_nodes a c ≤ 0 := (List.chain'_cons.mp hc).1
        have h2 : compare_nodes a c ≠ 0 := hp'.1 c (List.mem_cons_self c l')
        omega
      intro b hb
      rcases List.mem_cons.mp hb with rfl | hb'
      · exact hac
      · exact compare_nodes_trans a c b hac ((List.pairwise_cons.mp ihl).1 b hb')

theorem faceTuple_two (r : COMPARE_RECORD) (h : r.nodes = 2) :
    faceTuple r = [r.nodeptr 0, r.nodeptr 1] := by
  unfold faceTuple
  rw [h]
  rfl

theorem recBefore_tupleBefore (DIM : Nat) (a b : COMPARE_RECORD)
    (ha : validNodes DIM a.nodes) (hb : validNodes DIM b.nodes)
    (hne : faceTuple a ≠ faceTuple b) (h : recBefore a b) :
    tupleBefore (faceTuple a) (faceTuple b) := by
  unfold validNodes at ha hb
  unfold recBefore at h
  unfold tupleBefore
  rw [faceTuple_length, faceTuple_length]
  rcases ha with ⟨hD, ha2⟩ | ⟨hD, ha34⟩
  · have hb2 : b.nodes = 2 := by omega
    rw [faceTuple_getD a 0 (by omega), faceTuple_getD b 0 (by omega),
      faceTuple_getD a 1 (by omega), faceTuple_getD b 1 (by omega)]
    by_cases h0 : a.nodeptr 0 = b.nodeptr 0
    · by_cases h1 : a.nodeptr 1 = b.nodeptr 1
      · exfalso
        apply hne
        rw [faceTuple_two a ha2, faceTuple_two b hb2, h0, h1]
      · omega
    · omega
  · have hb34 : b.nodes = 3 ∨ b.nodes = 4 := by omega
    rw [faceTuple_getD a 0 (by omega), faceTuple_getD b 0 (by omega),
      faceTuple_getD a 1 (by omega), faceTuple_getD b 1 (by omega),
      faceTuple_getD a 2 (by omega), faceTuple_getD b 2 (by omega)]
    by_cases h4 : a.nodes = 4 ∧ b.nodes = 4
    · rw [faceTuple_getD a 3 (by omega), faceTuple_getD b 3 (by omega)]
      omega
    · omega

instance : IsAntisymm (List Nat) tupleBefore :=
  ⟨fun a b h1 h2 => (tupleBefore_asymm a b h1 h2).elim⟩

theorem sorted_tuples (DIM : Nat) (E E' : List COMPARE_RECORD)
    (hv : ∀ r ∈ E, validNodes DIM r.nodes)
    (hq : QsortPost compare_nodes E E')
    (hd : (E.map faceTuple).Nodup)
    (hc : E.Pairwise (fun a b => compare_nodes a b ≠ 0)) :
    (E'.map faceTuple).Sorted tupleBefore := by
  obtain ⟨hperm, hchain⟩ := hq
  have hc' : E'.Pairwise (fun a b => compare_nodes a b ≠ 0) :=
    (List.Perm.pairwise_iff (fun {a b} h => compare_nodes_symm a b h) hperm).mpr hc
  have hlt := chain_le_ne_pairwise_lt E' hchain hc'
  have hd' : (E'.map faceTuple).Nodup := (List.Perm.nodup_iff (hperm.map faceTuple)).mpr hd
  have hne : E'.Pairwise (fun a b => faceTuple a ≠ faceTuple b) :=
    List.pairwise_map.mp hd'
  unfold List.Sorted
  rw [List.pairwise_map]
  refine List.Pairwise.imp_of_mem ?_ (hlt.and hne)
  intro a b hma hmb hab
  exact recBefore_tupleBefore DIM a b (hv a (hperm.subset hma)) (hv b (hperm.subset hmb)) hab.2
    ((compare_nodes_neg_iff a b).mp hab.1)

theorem sorted_tables_aligned (DIM : Nat) (E N E' N' : List COMPARE_RECORD)
    (hvE : ∀ r ∈ E, validNodes DIM r.nodes) (hvN : ∀ r ∈ N, validNodes DIM r.nodes)
    (hqE : QsortPost compare_nodes E E') (hqN : QsortPost compare_nodes N N')
    (hdE : (E.map faceTuple).Nodup) (hdN : (N.map faceTuple).Nodup)
    (hcE : E.Pairwise (fun a b => compare_nodes a b ≠ 0))
    (hcN : N.Pairwise (fun a b => compare_nodes a b ≠ 0))
    (hset : ∀ T, T ∈ E.map faceTuple ↔ T ∈ N.map faceTuple) :
    E'.map faceTuple = N'.map faceTuple := by
  have hsE := sorted_tuples DIM E E' hvE hqE hdE hcE
  have hsN := sorted_tuples DIM N N' hvN hqN hdN hcN
  have hdE' : (E'.map faceTuple).Nodup := (List.Perm.nodup_iff (hqE.1.map faceTuple)).mpr hdE
  have hdN' : (N'.map faceTuple).Nodup := (List.Perm.nodup_iff (hqN.1.map faceTuple)).mpr hdN
  have hperm : (E'.map faceTuple).Perm (N'.map faceTuple) := by
    rw [List.perm_ext_iff_of_nodup hdE' hdN']
    intro T
    rw [(hqE.1.map faceTuple).mem_iff, (hqN.1.map faceTuple).mem_iff]
    exact hset T
  exact List.eq_of_perm_of_sorted hperm hsE hsN

/-! ## The wiring loop -/

theorem wireSons_frame (env : Env) :
    ∀ (ps : List (COMPARE_RECORD × COMPARE_RECORD)) (s : Mesh) (e sd : Nat),
      (∀ p ∈ ps, recKey p.1 ≠ (e, sd) ∧ recKey p.2 ≠ (e, sd)) →
      (wireSons env ps s).2.NBELEM e sd = s.NBELEM e sd := by
  intro ps
  induction ps with
  | nil => intro s e sd _; rfl
  | cons p ps ih =>
    intro s e sd h
    obtain ⟨E, N⟩ := p
    have hp := h (E, N) (List.mem_cons_self _ _)
    have h1 : ¬ (e = E.elem ∧ sd = E.side) := by
      intro hh; apply hp.1; simp [recKey, hh.1, hh.2]
    have h2 : ¬ (e = N.elem ∧ sd = N.side) := by
      intro hh; apply hp.2; simp [recKey, hh.1, hh.2]
    unfold wireSons
    dsimp only
    split_ifs
    · simp [upd2, h1, h2]
    · rw [ih _ e sd (fun q hq => h q (List.mem_cons_of_mem _ hq))]
      simp [upd2, h1, h2]

theorem wireSons_ok_tail (env : Env) (E N : COMPARE_RECORD)
    (ps : List (COMPARE_RECORD × COMPARE_RECORD)) (s : Mesh)
    (h : (wireSons env ((E, N) :: ps) s).1 = GM_OK) :
    wireSons env ((E, N) :: ps) s =
      wireSons env ps
        { s with NBELEM := (upd2 (upd2 s.NBELEM E.elem E.side N.elem) N.elem N.side E.elem) } := by
  have e : wireSons env ((E, N) :: ps) s =
      if env.DIM = 3 ∧ env.SIDEVECTOR_DEF = true ∧
          env.DisposeDoubledSideVector E.elem E.side N.elem N.side ≠ 0
      then (GM_FATAL,
        { s with NBELEM := (upd2 (upd2 s.NBELEM E.elem E.side N.elem) N.elem N.side E.elem) })
      else wireSons env ps
        { s with NBELEM := (upd2 (upd2 s.NBELEM E.elem E.side N.elem) N.elem N.side E.elem) } :=
    rfl
  rw [e] at h ⊢
  split_ifs at h ⊢ with hc
  · simp [GM_OK, GM_FATAL] at h
  · rfl

/-- When the wiring loop runs to its end and no later entry writes the slot of an earlier
one, every pair of entries is linked in both directions. -/
theorem wireSons_links (env : Env) :
    ∀ (ps : List (COMPARE_RECORD × COMPARE_RECORD)) (s : Mesh),
      (wireSons env ps s).1 = GM_OK →
      ps.Pairwise (fun p q => recKey q.1 ≠ recKey p.1 ∧ recKey q.2 ≠ recKey p.1 ∧
        recKey q.1 ≠ recKey p.2 ∧ recKey q.2 ≠ recKey p.2) →
      ∀ p ∈ ps, (wireSons env ps s).2.NBELEM p.1.elem p.1.side = p.2.elem ∧
        (wireSons env ps s).2.NBELEM p.2.elem p.2.side = p.1.elem := by
  intro ps
  induction ps with
  | nil => intro s _ _ p hp; simp at hp
  | cons q ps ih =>
    intro s hok hpw p hp
    obtain ⟨E, N⟩ := q
    have hpw' := List.pairwise_cons.mp hpw
    have htail := wireSons_ok_tail env E N ps s hok
    rw [htail] at hok ⊢
    rcases List.mem_cons.mp hp with rfl | hp'
    · constructor
      · rw [wireSons_frame env ps _ E.elem E.side
          (fun r hr => ⟨(hpw'.1 r hr).1, (hpw'.1 r hr).2.1⟩)]
        simp only [upd2]
        by_cases hk : E.elem = N.elem ∧ E.side = N.side
        · simp [hk.1]
        · simp [hk]
      · rw [wireSons_frame env ps _ N.elem N.side
          (fun r hr => ⟨(hpw'.1 r hr).2.2.1, (hpw'.1 r hr).2.2.2⟩)]
        simp [upd2]
    · exact ih _ hok hpw'.2 p hp'

/-! ## From the tables to the links -/

theorem Built_valid (env : Env) (s : Mesh) (r : COMPARE_RECORD) (h : Built env s r) :
    validNodes env.DIM r.nodes := by
  obtain ⟨old, elem, side, rfl, hok⟩ := h
  exact Fill_Comp_Table_entry_ok env s old elem side hok

theorem Built_key_tuple (env : Env) (s : Mesh) (a b : COMPARE_RECORD)
    (ha : Built env s a) (hb : Built env s b) (hk : recKey a = recKey b) :
    faceTuple a = faceTuple b := by
  obtain ⟨o1, e1, s1, rfl, _⟩ := ha
  obtain ⟨o2, e2, s2, rfl, _⟩ := hb
  have h1 : e1 = e2 := congrArg Prod.fst hk
  have h2 : s1 = s2 := congrArg Prod.snd hk
  subst h1 h2
  exact Fill_Comp_Table_entry_tuple env s o1 o2 e1 s1

theorem Fill_Comp_Table_built (env : Env) (s : Mesh) (T : Nat → COMPARE_RECORD) (n : Nat)
    (Elements Sides : Nat → Nat)
    (h : (Fill_Comp_Table env s T n Elements Sides).1 = GM_OK) (j : Nat) (hj : j < n) :
    Built env s ((Fill_Comp_Table env s T n Elements Sides).2 j) ∧
      ((Fill_Comp_Table env s T n Elements Sides).2 j).elem = Elements j ∧
      ((Fill_Comp_Table env s T n Elements Sides).2 j).side = Sides j := by
  obtain ⟨old, h1, h2⟩ := Fill_Comp_Table_from_spec env s Elements Sides n 0 T h j (by omega)
    (by omega)
  unfold Fill_Comp_Table
  rw [h1]
  exact ⟨⟨old, Elements j, Sides j, rfl, h2⟩, rfl, rfl⟩

theorem SortTable_mem (T : Nat → COMPARE_RECORD) (n : Nat) (r : COMPARE_RECORD) :
    r ∈ SortTable T n ↔ ∃ j, j < n ∧ T j = r := by
  simp [SortTable]

theorem zip_pairwise_keys {α β γ : Type} (f : α → β) (key : α → γ) (P : α → Prop)
    (hfun : ∀ a b, P a → P b → key a = key b → f a = f b) :
    ∀ (l1 l2 : List α), (∀ a ∈ l1, P a) → (∀ a ∈ l2, P a) → l1.map f = l2.map f →
      (l1.map f).Nodup →
      (l1.zip l2).Pairwise (fun p q => key q.1 ≠ key p.1 ∧ key q.2 ≠ key p.1 ∧
        key q.1 ≠ key p.2 ∧ key q.2 ≠ key p.2) ∧
      ∀ p ∈ l1.zip l2, f p.1 = f p.2 := by
  intro l1
  induction l1 with
  | nil => intro l2 _ _ _ _; simp
  | cons a l1 ih =>
    intro l2 h1 h2 hmap hnd
    cases l2 with
    | nil => simp
    | cons b l2 =>
      simp only [List.map_cons, List.cons.injEq] at hmap
      obtain ⟨hab, hmap'⟩ := hmap
      rw [List.map_cons, List.nodup_cons] at hnd
      obtain ⟨hna, hnd'⟩ := hnd
      have hPa := h1 a (List.mem_cons_self a l1)
      have hPb := h2 b (List.mem_cons_self b l2)
      have h1' : ∀ x ∈ l1, P x := fun x hx => h1 x (List.mem_cons_of_mem a hx)
      have h2' : ∀ x ∈ l2, P x := fun x hx => h2 x (List.mem_cons_of_mem b hx)
      obtain ⟨ihp, ihe⟩ := ih l2 h1' h2' hmap' hnd'
      rw [List.zip_cons_cons]
      constructor
      · refine List.pairwise_cons.mpr ⟨?_, ihp⟩
        intro q hq
        have hq1 : q.1 ∈ l1 := (List.of_mem_zip hq).1
        have hq2 : q.2 ∈ l2 := (List.of_mem_zip hq).2
        have hf1 : f q.1 ∈ l1.map f := List.mem_map_of_mem f hq1
        have hf2 : f q.2 ∈ l1.map f := by rw [hmap']; exact List.mem_map_of_mem f hq2
        have n1 : f q.1 ≠ f a := fun h => hna (h ▸ hf1)
        have n2 : f q.2 ≠ f a := fun h => hna (h ▸ hf2)
        refine ⟨?_, ?_, ?_, ?_⟩
        · intro hk; exact n1 (hfun _ _ (h1' _ hq1) hPa hk)
        · intro hk; exact n2 (hfun _ _ (h2' _ hq2) hPa hk)
        · intro hk; exact n1 ((hfun _ _ (h1' _ hq1) hPb hk).trans hab.symm)
        · intro hk; exact n2 ((hfun _ _ (h2' _ hq2) hPb hk).trans hab.symm)
      · intro p hp
        rcases List.mem_cons.mp hp with rfl | hp'
        · exact hab
        · exact ihe p hp'

theorem mem_zip_of_mem_left {α : Type} :
    ∀ (l1 l2 : List α), l1.length = l2.length → ∀ a ∈ l1, ∃ b, (a, b) ∈ l1.zip l2 := by
  intro l1
  induction l1 with
  | nil => intro l2 _ a ha; simp at ha
  | cons x l1 ih =>
    intro l2 hl a ha
    cases l2 with
    | nil => simp at hl
    | cons y l2 =>
      rcases List.mem_cons.mp ha with rfl | ha'
      · exact ⟨y, by simp⟩
      · obtain ⟨b, hb⟩ := ih l2 (by simpa using hl) a ha'
        exact ⟨b, by simp [hb]⟩

/-- What is known when `Connect_Sons_tables` hands over the sorted tables. -/
theorem Connect_Sons_tables_inr (env : Env) (s : Mesh) (theElement side n : Nat)
    (SonList SonSides : Nat → Nat) (t : SortedTables)
    (h : Connect_Sons_tables env s theElement side n SonList SonSides = .ok (.inr t)) :
    t.nb = env.Get_Sons_of_ElementSideProc s t.theNeighbor t.nbside 1 ∧
      n = t.nb.Sons_of_Side ∧ 0 < n ∧ n < 6 ∧
      t.ElemSonTable = (Fill_Comp_Table env s env.stackElemSonTable n SonList SonSides).2 ∧
      (Fill_Comp_Table env s env.stackElemSonTable n SonList SonSides).1 = GM_OK ∧
      t.NbSonTable =
        (Fill_Comp_Table env s env.stackNbSonTable n t.nb.SonList t.nb.SonSides).2 ∧
      (Fill_Comp_Table env s env.stackNbSonTable n t.nb.SonList t.nb.SonSides).1 = GM_OK ∧
      t.ElemSortTable = env.qsort compare_nodes (SortTable t.ElemSonTable n) ∧
      t.NbSortTable = env.qsort compare_nodes (SortTable t.NbSonTable n) := by
  unfold Connect_Sons_tables at h
  dsimp only at h
  by_cases h1 : n ≤ 0
  · rw [if_pos h1] at h; simp at h
  rw [if_neg h1] at h
  by_cases h2 : s.BEOBJ theElement = true ∧ s.SIDE_ON_BND theElement side = true
  · rw [if_pos h2] at h
    split at h <;> simp at h
  rw [if_neg h2] at h
  by_cases h3 : s.NBELEM theElement side = 0
  · rw [if_pos h3] at h; simp at h
  rw [if_neg h3] at h
  by_cases h4 : s.MARKCLASS (s.NBELEM theElement side) = CLASS.NO_CLASS
  · rw [if_pos h4] at h
    split_ifs at h
    simp at h
  rw [if_neg h4] at h
  by_cases h5 : TO_REBUILD env s (s.NBELEM theElement side)
  · rw [if_pos h5] at h; simp at h
  rw [if_neg h5] at h
  split at h
  · simp at h
  rename_i h6
  split at h
  · simp at h
  rename_i h7
  split at h
  · simp at h
  rename_i h8
  simp only [Except.ok.injEq, Sum.inr.injEq] at h
  subst h
  dsimp only
  have hn := (not_not.mp h7).1
  rw [← hn]
  rw [← hn] at h8
  refine ⟨rfl, rfl, ?_, ?_, rfl, ?_, rfl, ?_, rfl, rfl⟩
  · omega
  · have := (not_not.mp h7).2.2; omega
  · by_contra hc; exact h8 (Or.inl hc)
  · by_contra hc; exact h8 (Or.inr hc)

/-! ## Claims C1 and C2: `Connect_Sons_of_ElementSide` -/

theorem Connect_ret_wire (env : Env) (s : Mesh) (theElement side n : Nat)
    (SonList SonSides : Nat → Nat) (t : SortedTables) (c : Int) (s' : Mesh)
    (hreach : Connect_Sons_tables env s theElement side n SonList SonSides = .ok (.inr t))
    (hret : Connect_Sons_of_ElementSide env s theElement side n SonList SonSides = .ok (c, s')) :
    wireSons env (t.ElemSortTable.zip t.NbSortTable) s = (c, s') := by
  unfold Connect_Sons_of_ElementSide at hret
  rw [hreach] at hret
  simpa using hret

/-- Claim C1, amended. In a call of `Connect_Sons_of_ElementSide` that reaches the wiring
loop (so both sides have the same number `n` of children, `1 ≤ n ≤ 5`) and returns
`GM_OK`: if `qsort` delivers each table rearranged and in order for `compare_nodes`, the
corner tuples built by `Fill_Comp_Table` are pairwise distinct on each side, no two entries
of a side compare equal under `compare_nodes`, and the tuples form the same set on both
sides, then every child is linked to a child of the neighbour whose face has exactly the
same corner tuple. -/
theorem Connect_Sons_pairs_same_corners (env : Env) (s : Mesh) (theElement side n : Nat)
    (SonList SonSides : Nat → Nat) (t : SortedTables) (s' : Mesh)
    (hreach : Connect_Sons_tables env s theElement side n SonList SonSides = .ok (.inr t))
    (hret : Connect_Sons_of_ElementSide env s theElement side n SonList SonSides =
      .ok (GM_OK, s'))
    (hqE : QsortPost compare_nodes (SortTable t.ElemSonTable n) t.ElemSortTable)
    (hqN : QsortPost compare_nodes (SortTable t.NbSonTable n) t.NbSortTable)
    (hdE : ((SortTable t.ElemSonTable n).map faceTuple).Nodup)
    (hdN : ((SortTable t.NbSonTable n).map faceTuple).Nodup)
    (hcE : (SortTable t.ElemSonTable n).Pairwise (fun a b => compare_nodes a b ≠ 0))
    (hcN : (SortTable t.NbSonTable n).Pairwise (fun a b => compare_nodes a b ≠ 0))
    (hset : ∀ T, T ∈ (SortTable t.ElemSonTable n).map faceTuple ↔
      T ∈ (SortTable t.NbSonTable n).map faceTuple) :
    LinkedToSameCorners t n SonList SonSides s' := by
  obtain ⟨_, _, _, _, hET, hEok, hNT, hNok, _, _⟩ :=
    Connect_Sons_tables_inr env s theElement side n SonList SonSides t hreach
  have hwire := Connect_ret_wire env s theElement side n SonList SonSides t GM_OK s' hreach hret
  -- every table entry is a record built by `Fill_Comp_Table`
  have hbE : ∀ j, j < n → Built env s (t.ElemSonTable j) ∧
      (t.ElemSonTable j).elem = SonList j ∧ (t.ElemSonTable j).side = SonSides j := by
    intro j hj; rw [hET]; exact Fill_Comp_Table_built env s _ n SonList SonSides hEok j hj
  have hbN : ∀ j, j < n → Built env s (t.NbSonTable j) ∧
      (t.NbSonTable j).elem = t.nb.SonList j ∧ (t.NbSonTable j).side = t.nb.SonSides j := by
    intro j hj; rw [hNT]; exact Fill_Comp_Table_built env s _ n _ _ hNok j hj
  have hBE : ∀ r ∈ SortTable t.ElemSonTable n, Built env s r := by
    intro r hr
    obtain ⟨j, hj, rfl⟩ := (SortTable_mem _ _ _).mp hr
    exact (hbE j hj).1
  have hBN : ∀ r ∈ SortTable t.NbSonTable n, Built env s r := by
    intro r hr
    obtain ⟨j, hj, rfl⟩ := (SortTable_mem _ _ _).mp hr
    exact (hbN j hj).1
  -- the sorted tables carry the same tuples position by position
  have halign := sorted_tables_aligned env.DIM _ _ _ _
    (fun r hr => Built_valid env s r (hBE r hr)) (fun r hr => Built_valid env s r (hBN r hr))
    hqE hqN hdE hdN hcE hcN hset
  have hndE' : (t.ElemSortTable.map faceTuple).Nodup :=
    (List.Perm.nodup_iff (hqE.1.map faceTuple)).mpr hdE
  obtain ⟨hpw, hsame⟩ := zip_pairwise_keys faceTuple recKey (Built env s)
    (fun a b ha hb hk => Built_key_tuple env s a b ha hb hk)
    t.ElemSortTable t.NbSortTable
    (fun a ha => hBE a (hqE.1.subset ha)) (fun a ha => hBN a (hqN.1.subset ha))
    halign hndE'
  have hlinks := wireSons_links env _ s (by rw [hwire]) hpw
  rw [hwire] at hlinks
  -- back to the arrays the caller handed over
  intro i hi
  have hmem : t.ElemSonTable i ∈ t.ElemSortTable :=
    hqE.1.symm.subset ((SortTable_mem _ _ _).mpr ⟨i, hi, rfl⟩)
  have hlen : t.ElemSortTable.length = t.NbSortTable.length := by
    rw [hqE.1.length_eq, hqN.1.length_eq]; simp [SortTable]
  obtain ⟨d, hd⟩ := mem_zip_of_mem_left _ _ hlen _ hmem
  have hdN' : d ∈ SortTable t.NbSonTable n := hqN.1.subset (List.of_mem_zip hd).2
  obtain ⟨k, hk, rfl⟩ := (SortTable_mem _ _ _).mp hdN'
  refine ⟨k, hk, (hsame _ hd).symm, ?_⟩
  have h1 := (hlinks _ hd).1
  simp only at h1
  rw [(hbE i hi).2.1, (hbE i hi).2.2, (hbN k hk).2.1] at h1
  exact h1


/-- Witness of `Connect_Sons_pairs_same_corners`: two triangles with two sons each on the
common side. -/
theorem Connect_Sons_pairs_same_corners_witness :
    LinkedToSameCorners tablesConnect2D 2 (arr [11, 12]) (arr [0, 0])
      (meshOf (Connect_Sons_of_ElementSide envConnect2D meshConnect2D 1 0 2
        (arr [11, 12]) (arr [0, 0])) meshConnect2D) := by
  have hE : tablesConnect2D.ElemSortTable =
      [tablesConnect2D.ElemSonTable 1, tablesConnect2D.ElemSonTable 0] := rfl
  have hN : tablesConnect2D.NbSortTable =
      [tablesConnect2D.NbSonTable 0, tablesConnect2D.NbSonTable 1] := rfl
  have hTE : (SortTable tablesConnect2D.ElemSonTable 2).map faceTuple =
      [[105, 104], [106, 105]] := by decide
  have hTN : (SortTable tablesConnect2D.NbSonTable 2).map faceTuple =
      [[106, 105], [105, 104]] := by decide
  have hcE : (SortTable tablesConnect2D.ElemSonTable 2).Pairwise
      (fun a b => compare_nodes a b ≠ 0) := by
    simp only [SortTable, List.range, List.range.loop, List.map, List.pairwise_cons]
    simp; decide
  have hcN : (SortTable tablesConnect2D.NbSonTable 2).Pairwise
      (fun a b => compare_nodes a b ≠ 0) := by
    simp only [SortTable, List.range, List.range.loop, List.map, List.pairwise_cons]
    simp; decide
  refine Connect_Sons_pairs_same_corners envConnect2D meshConnect2D 1 0 2 (arr [11, 12])
    (arr [0, 0]) tablesConnect2D _ rfl rfl ⟨?_, ?_⟩ ⟨?_, ?_⟩ ?_ ?_ hcE hcN ?_
  · rw [hE]; exact List.Perm.swap _ _ _
  · rw [hE]; simp only [List.chain'_cons, List.chain'_singleton, and_true]; decide
  · rw [hN]; exact List.Perm.refl _
  · rw [hN]; simp only [List.chain'_cons, List.chain'_singleton, and_true]; decide
  · rw [hTE]; decide
  · rw [hTN]; decide
  · intro T; rw [hTE, hTN]; simp; tauto

/-- Claim C1 as stated fails: on a side with a triangular son face on the nodes 9, 8, 7
and a quadrilateral son face on 9, 8, 7, 6 the call reaches the wiring loop with two
children on each side, `qsort` returns each table rearranged and in order for
`compare_nodes`, the tuples are pairwise distinct on each side and form the same set on
both, the call returns `GM_OK`, and yet the triangle of son 11 is linked to the
quadrilateral of son 21. -/
theorem Connect_Sons_mixed_faces_mispaired :
    Connect_Sons_tables envMixed3D meshMixed3D 1 0 2 (arr [11, 12]) (arr [1, 0]) =
        .ok (.inr tablesMixed3D) ∧
      Connect_Sons_of_ElementSide envMixed3D meshMixed3D 1 0 2 (arr [11, 12]) (arr [1, 0]) =
        .ok (GM_OK, meshOf (Connect_Sons_of_ElementSide envMixed3D meshMixed3D 1 0 2
          (arr [11, 12]) (arr [1, 0])) meshMixed3D) ∧
      QsortPost compare_nodes (SortTable tablesMixed3D.ElemSonTable 2)
        tablesMixed3D.ElemSortTable ∧
      QsortPost compare_nodes (SortTable tablesMixed3D.NbSonTable 2)
        tablesMixed3D.NbSortTable ∧
      ((SortTable tablesMixed3D.ElemSonTable 2).map faceTuple).Nodup ∧
      ((SortTable tablesMixed3D.NbSonTable 2).map faceTuple).Nodup ∧
      (∀ T, T ∈ (SortTable tablesMixed3D.ElemSonTable 2).map faceTuple ↔
        T ∈ (SortTable tablesMixed3D.NbSonTable 2).map faceTuple) ∧
      ¬ LinkedToSameCorners tablesMixed3D 2 (arr [11, 12]) (arr [1, 0])
        (meshOf (Connect_Sons_of_ElementSide envMixed3D meshMixed3D 1 0 2
          (arr [11, 12]) (arr [1, 0])) meshMixed3D) := by
  have hE : tablesMixed3D.ElemSortTable =
      [tablesMixed3D.ElemSonTable 0, tablesMixed3D.ElemSonTable 1] := rfl
  have hN : tablesMixed3D.NbSortTable =
      [tablesMixed3D.NbSonTable 0, tablesMixed3D.NbSonTable 1] := rfl
  have hTE : (SortTable tablesMixed3D.ElemSonTable 2).map faceTuple =
      [[9, 8, 7], [9, 8, 7, 6]] := by decide
  have hTN : (SortTable tablesMixed3D.NbSonTable 2).map faceTuple =
      [[9, 8, 7, 6], [9, 8, 7]] := by decide
  refine ⟨rfl, rfl, ⟨?_, ?_⟩, ⟨?_, ?_⟩, ?_, ?_, ?_, ?_⟩
  · rw [hE]; exact List.Perm.refl _
  · rw [hE]; simp only [List.chain'_cons, List.chain'_singleton, and_true]; decide
  · rw [hN]; exact List.Perm.refl _
  · rw [hN]; simp only [List.chain'_cons, List.chain'_singleton, and_true]; decide
  · rw [hTE]; decide
  · rw [hTN]; decide
  · intro T; rw [hTE, hTN]; simp; tauto
  · intro h
    obtain ⟨k, hk, htup, hnb⟩ := h 0 (by decide)
    have h0 : faceTuple (tablesMixed3D.ElemSonTable 0) = [9, 8, 7] := by decide
    have hk0 : faceTuple (tablesMixed3D.NbSonTable 0) = [9, 8, 7, 6] := by decide
    have hlink : (meshOf (Connect_Sons_of_ElementSide envMixed3D meshMixed3D 1 0 2
        (arr [11, 12]) (arr [1, 0])) meshMixed3D).NBELEM (arr [11, 12] 0) (arr [1, 0] 0) = 21 := by
      decide
    have hl0 : tablesMixed3D.nb.SonList 0 = 21 := by decide
    have hl1 : tablesMixed3D.nb.SonList 1 = 22 := by decide
    interval_cases k
    · rw [h0, hk0] at htup; simp at htup
    · rw [hlink, hl1] at hnb; simp at hnb

theorem zip_getElem?_some {α : Type} (l1 l2 : List α) (i : Nat) (p : α × α)
    (h : (l1.zip l2)[i]? = some p) : l1[i]? = some p.1 ∧ l2[i]? = some p.2 := by
  rw [List.getElem?_eq_some] at h
  obtain ⟨hi, hp⟩ := h
  rw [List.getElem_zip] at hp
  have h1 : i < l1.length := by
    have := hi; simp only [List.length_zip] at this; omega
  have h2 : i < l2.length := by
    have := hi; simp only [List.length_zip] at this; omega
  subst hp
  exact ⟨List.getElem?_eq_getElem h1, List.getElem?_eq_getElem h2⟩

/-- Claim C2, amended. When `Connect_Sons_of_ElementSide` reaches the wiring loop and
returns `GM_OK`, the `(child, side)` entries of each sorted table are pairwise distinct, and
no entry of the element's table stands at a different position of the neighbour's table,
then for every `i` the `i`-th sorted child `c` and the `i`-th sorted neighbour child `d`
are linked in both directions on return. -/
theorem Connect_Sons_links_mutual (env : Env) (s : Mesh) (theElement side n : Nat)
    (SonList SonSides : Nat → Nat) (t : SortedTables) (s' : Mesh)
    (hreach : Connect_Sons_tables env s theElement side n SonList SonSides = .ok (.inr t))
    (hret : Connect_Sons_of_ElementSide env s theElement side n SonList SonSides =
      .ok (GM_OK, s'))
    (hE : ∀ (i j : Nat) (a b : COMPARE_RECORD), i ≠ j → t.ElemSortTable[i]? = some a → t.ElemSortTable[j]? = some b →
      recKey a ≠ recKey b)
    (hN : ∀ (i j : Nat) (a b : COMPARE_RECORD), i ≠ j → t.NbSortTable[i]? = some a → t.NbSortTable[j]? = some b →
      recKey a ≠ recKey b)
    (hX : ∀ (i j : Nat) (a b : COMPARE_RECORD), i ≠ j → t.ElemSortTable[i]? = some a → t.NbSortTable[j]? = some b →
      recKey a ≠ recKey b) :
    ∀ (i : Nat) (c d : COMPARE_RECORD), t.ElemSortTable[i]? = some c → t.NbSortTable[i]? = some d →
      s'.NBELEM c.elem c.side = d.elem ∧ s'.NBELEM d.elem d.side = c.elem := by
  have hwire := Connect_ret_wire env s theElement side n SonList SonSides t GM_OK s' hreach hret
  have hpw : (t.ElemSortTable.zip t.NbSortTable).Pairwise
      (fun p q => recKey q.1 ≠ recKey p.1 ∧ recKey q.2 ≠ recKey p.1 ∧
        recKey q.1 ≠ recKey p.2 ∧ recKey q.2 ≠ recKey p.2) := by
    rw [List.pairwise_iff_getElem]
    intro i j hi hj hij
    have hp := zip_getElem?_some _ _ i _ (List.getElem?_eq_getElem hi)
    have hq := zip_getElem?_some _ _ j _ (List.getElem?_eq_getElem hj)
    have hne : i ≠ j := by omega
    refine ⟨?_, ?_, ?_, ?_⟩
    · exact hE j i _ _ hne.symm hq.1 hp.1
    · exact fun h => hX i j _ _ hne hp.1 hq.2 h.symm
    · exact hX j i _ _ hne.symm hq.1 hp.2
    · exact hN j i _ _ hne.symm hq.2 hp.2
  have hlinks := wireSons_links env _ s (by rw [hwire]) hpw
  rw [hwire] at hlinks
  intro i c d hc hd
  have hmem : (c, d) ∈ t.ElemSortTable.zip t.NbSortTable := by
    rw [List.mem_iff_getElem?]
    refine ⟨i, ?_⟩
    rw [List.getElem?_eq_some] at hc hd ⊢
    obtain ⟨hi1, hc⟩ := hc
    obtain ⟨hi2, hd⟩ := hd
    refine ⟨by simp only [List.length_zip]; omega, ?_⟩
    rw [List.getElem_zip, hc, hd]
  exact hlinks _ hmem

/-- Witness of `Connect_Sons_links_mutual`: the first sorted entries, sons 12 and 21, of
two triangles with two sons each on the common side. -/
theorem Connect_Sons_links_mutual_witness :
    (meshOf (Connect_Sons_of_ElementSide envConnect2D meshConnect2D 1 0 2
        (arr [11, 12]) (arr [0, 0])) meshConnect2D).NBELEM 12 0 = 21 ∧
      (meshOf (Connect_Sons_of_ElementSide envConnect2D meshConnect2D 1 0 2
        (arr [11, 12]) (arr [0, 0])) meshConnect2D).NBELEM 21 0 = 12 := by
  have hE : tablesConnect2D.ElemSortTable =
      [tablesConnect2D.ElemSonTable 1, tablesConnect2D.ElemSonTable 0] := rfl
  have hN : tablesConnect2D.NbSortTable =
      [tablesConnect2D.NbSonTable 0, tablesConnect2D.NbSonTable 1] := rfl
  have key : ∀ (l1 l2 : List (Nat × Nat)) (L1 L2 : List COMPARE_RECORD),
      L1.map recKey = l1 → L2.map recKey = l2 → (∀ x ∈ l1, ∀ y ∈ l2, x ≠ y) →
      ∀ (i j : Nat) (a b : COMPARE_RECORD), L1[i]? = some a → L2[j]? = some b →
        recKey a ≠ recKey b := by
    intro l1 l2 L1 L2 h1 h2 hd i j a b ha hb
    apply hd
    · rw [← h1]; exact List.mem_map_of_mem _ (List.getElem?_mem ha)
    · rw [← h2]; exact List.mem_map_of_mem _ (List.getElem?_mem hb)
  have hkE : tablesConnect2D.ElemSortTable.map recKey = [(12, 0), (11, 0)] := by decide
  have hkN : tablesConnect2D.NbSortTable.map recKey = [(21, 0), (22, 0)] := by decide
  have hnodup : ∀ (l : List (Nat × Nat)) (L : List COMPARE_RECORD), L.map recKey = l →
      l.Nodup → ∀ (i j : Nat) (a b : COMPARE_RECORD), i ≠ j → L[i]? = some a →
        L[j]? = some b → recKey a ≠ recKey b := by
    intro l L hl hnd i j a b hij ha hb hk
    rw [List.getElem?_eq_some] at ha hb
    obtain ⟨hi, ha⟩ := ha
    obtain ⟨hj, hb⟩ := hb
    have hnd' : (L.map recKey).Nodup := hl ▸ hnd
    have hp := List.pairwise_iff_getElem.mp hnd'
    have hi' : i < (L.map recKey).length := by simpa using hi
    have hj' : j < (L.map recKey).length := by simpa using hj
    rcases Nat.lt_or_gt_of_ne hij with h | h
    · apply hp i j hi' hj' h
      simp only [List.getElem_map, ha, hb, hk]
    · apply hp j i hj' hi' h
      simp only [List.getElem_map, ha, hb, hk]
  have h := Connect_Sons_links_mutual envConnect2D meshConnect2D 1 0 2 (arr [11, 12])
    (arr [0, 0]) tablesConnect2D _ rfl rfl
    (hnodup _ _ hkE (by decide)) (hnodup _ _ hkN (by decide))
    (fun i j a b _ => key _ _ _ _ hkE hkN (by decide) i j a b)
    0 (tablesConnect2D.ElemSonTable 1) (tablesConnect2D.NbSonTable 0)
    (by rw [hE]; rfl) (by rw [hN]; rfl)
  exact h

/-- Claim C2 as stated fails: son 10 is handed over for the element and is also returned
among the neighbour's sons. The call reaches the wiring loop and returns `GM_OK`, the
`(child, side)` entries of each sorted table are pairwise distinct, the first sorted
entries are `(10, 0)` and `(12, 0)`, and on return `NBELEM(10,0)` is 11, not 12. -/
theorem Connect_Sons_shared_son_overwritten :
    Connect_Sons_tables envShared2D meshShared2D 1 0 2 (arr [10, 11]) (arr [0, 0]) =
        .ok (.inr tablesShared2D) ∧
      Connect_Sons_of_ElementSide envShared2D meshShared2D 1 0 2 (arr [10, 11]) (arr [0, 0]) =
        .ok (GM_OK, meshOf (Connect_Sons_of_ElementSide envShared2D meshShared2D 1 0 2
          (arr [10, 11]) (arr [0, 0])) meshShared2D) ∧
      tablesShared2D.ElemSortTable.map recKey = [(10, 0), (11, 0)] ∧
      tablesShared2D.NbSortTable.map recKey = [(12, 0), (10, 0)] ∧
      (meshOf (Connect_Sons_of_ElementSide envShared2D meshShared2D 1 0 2
          (arr [10, 11]) (arr [0, 0])) meshShared2D).NBELEM 10 0 = 11 := by
  refine ⟨rfl, rfl, by decide, by decide, by decide⟩

/-! ## Loops -/

theorem forLoop_next_inv {σ : Type} (body : Nat → σ → LoopRes σ) (I : Nat → σ → Prop)
    (h : ∀ i x y, I i x → body i x = .next y → I (i + 1) y) :
    ∀ (k i : Nat) (x y : σ), I i x → forLoop body k i x = .next y → I (i + k) y := by
  intro k
  induction k with
  | zero =>
    intro i x y hI hf
    simp only [forLoop, LoopRes.next.injEq] at hf
    subst hf; simpa using hI
  | succ k ih =>
    intro i x y hI hf
    unfold forLoop at hf
    cases hb : body i x with
    | next z =>
      rw [hb] at hf
      have := ih (i + 1) z y (h i x z hI hb) hf
      rw [show i + (k + 1) = i + 1 + k by omega]; exact this
    | ret c z => rw [hb] at hf; exact absurd hf (by simp)
    | stop r => rw [hb] at hf; exact absurd hf (by simp)

theorem forLoop_ret_inv {σ : Type} (body : Nat → σ → LoopRes σ) (I : Nat → σ → Prop)
    (R : Int → σ → Prop)
    (h : ∀ i x y, I i x → body i x = .next y → I (i + 1) y)
    (hr : ∀ i x c y, I i x → body i x = .ret c y → R c y) :
    ∀ (k i : Nat) (x : σ) (c : Int) (y : σ), I i x → forLoop body k i x = .ret c y → R c y := by
  intro k
  induction k with
  | zero => intro i x c y _ hf; simp [forLoop] at hf
  | succ k ih =>
    intro i x c y hI hf
    unfold forLoop at hf
    cases hb : body i x with
    | next z => rw [hb] at hf; exact ih (i + 1) z c y (h i x z hI hb) hf
    | ret c' z =>
      rw [hb] at hf
      simp only [LoopRes.ret.injEq] at hf
      obtain ⟨rfl, rfl⟩ := hf
      exact hr i x _ _ hI hb
    | stop r => rw [hb] at hf; exact absurd hf (by simp)

/-! ## The history of mid nodes -/

theorem SameStatic.srefl (s : Mesh) : SameStatic s s :=
  ⟨rfl, rfl, rfl, rfl, rfl, rfl, rfl, rfl, rfl, rfl, rfl, rfl, rfl, rfl, rfl, rfl, rfl, rfl,
    rfl⟩

theorem SameStatic.strans {s s' s'' : Mesh} (h1 : SameStatic s s') (h2 : SameStatic s' s'') :
    SameStatic s s'' := by
  obtain ⟨a1, a2, a3, a4, a5, a6, a7, a8, a9, a10, a11, a12, a13, a14, a15, a16, a17, a18,
    a19⟩ := h1
  obtain ⟨b1, b2, b3, b4, b5, b6, b7, b8, b9, b10, b11, b12, b13, b14, b15, b16, b17, b18,
    b19⟩ := h2
  exact ⟨b1.trans a1, b2.trans a2, b3.trans a3, b4.trans a4, b5.trans a5, b6.trans a6,
    b7.trans a7, b8.trans a8, b9.trans a9, b10.trans a10, b11.trans a11, b12.trans a12,
    b13.trans a13, b14.trans a14, b15.trans a15, b16.trans a16, b17.trans a17,
    b18.trans a18, b19.trans a19⟩

theorem MidHist.hrefl (s : Mesh) : MidHist s s :=
  ⟨SameStatic.srefl s, fun _ _ => rfl, [], by simp, by simp, by simp⟩

theorem MidHist.weak {s s' : Mesh} (h : MidHist s s') : MidHistW s s' := by
  obtain ⟨h1, h2, ev, h3, h4, h5⟩ := h
  refine ⟨h1, h2, ev, h3, ?_, h5⟩
  intro a ha
  obtain ⟨e, j, x, hx, h0, _⟩ := h4 a ha
  exact ⟨e, j, x, hx, h0⟩

theorem mid_zero_back {s s' : Mesh} (hm : ∀ x, s.MIDNODE x ≠ 0 → s'.MIDNODE x = s.MIDNODE x)
    (x : Nat) (h : s'.MIDNODE x = 0) : s.MIDNODE x = 0 := by
  by_contra hne
  exact hne ((hm x hne) ▸ h)

theorem MidHist.trans_weak {s s' s'' : Mesh} (h1 : MidHist s s') (h2 : MidHistW s' s'') :
    MidHistW s s'' := by
  obtain ⟨a1, a2, ev1, a3, a4, a5⟩ := h1
  obtain ⟨b1, b2, ev2, b3, b4, b5⟩ := h2
  refine ⟨a1.strans b1, ?_, ev1 ++ ev2, ?_, ?_, ?_⟩
  · intro x hx
    rw [b2 x (by rw [a2 x hx]; exact hx), a2 x hx]
  · rw [b3, a3, List.append_assoc]
  · intro a ha
    rcases List.mem_append.mp ha with ha | ha
    · obtain ⟨e, j, x, hx, h0, _⟩ := a4 a ha
      exact ⟨e, j, x, hx, h0⟩
    · obtain ⟨e, j, x, hx, h0⟩ := b4 a ha
      exact ⟨e, j, x, hx, mid_zero_back a2 x h0⟩
  · rw [List.map_append, List.nodup_append]
    refine ⟨a5, b5, ?_⟩
    intro y hy1 hy2
    obtain ⟨a, ha, rfl⟩ := List.mem_map.mp hy1
    obtain ⟨b, hb, hab⟩ := List.mem_map.mp hy2
    obtain ⟨e, j, x, hx, _, hne⟩ := a4 a ha
    obtain ⟨e', j', x', hx', h0⟩ := b4 b hb
    subst hx hx'
    simp only [eventEdge] at hab
    subst hab
    exact hne h0

theorem MidHist.htrans {s s' s'' : Mesh} (h1 : MidHist s s') (h2 : MidHist s' s'') :
    MidHist s s'' := by
  have hw := MidHist.trans_weak h1 (MidHist.weak h2)
  obtain ⟨a1, a2, ev1, a3, a4, a5⟩ := h1
  obtain ⟨b1, b2, ev2, b3, b4, b5⟩ := h2
  obtain ⟨w1, w2, ev, w3, w4, w5⟩ := hw
  have hev : ev = ev1 ++ ev2 := by
    have : s.trace ++ ev = s.trace ++ (ev1 ++ ev2) := by
      rw [← w3, b3, a3, List.append_assoc]
    exact List.append_cancel_left this
  refine ⟨w1, w2, ev, w3, ?_, w5⟩
  intro a ha
  rw [hev] at ha
  rcases List.mem_append.mp ha with ha | ha
  · obtain ⟨e, j, x, hx, h0, hne⟩ := a4 a ha
    exact ⟨e, j, x, hx, h0, by rw [b2 x hne]; exact hne⟩
  · obtain ⟨e, j, x, hx, h0, hne⟩ := b4 a ha
    exact ⟨e, j, x, hx, mid_zero_back a2 x h0, hne⟩

/-- A step that leaves mid nodes and history alone. -/
theorem MidHist.of_same {s s' : Mesh} (h1 : SameStatic s s') (h2 : s'.MIDNODE = s.MIDNODE)
    (h3 : s'.trace = s.trace) : MidHist s s' :=
  ⟨h1, fun x _ => by rw [h2], [], by simp [h3], by simp, by simp⟩

theorem allocNode_same (s : Mesh) :
    SameStatic s (allocNode s).2 ∧ (allocNode s).2.MIDNODE = s.MIDNODE ∧
      (allocNode s).2.trace = s.trace ∧ (allocNode s).2.SONNODE = s.SONNODE := by
  unfold allocNode
  cases s.nodePool with
  | nil => exact ⟨SameStatic.srefl s, rfl, rfl, rfl⟩
  | cons n rest => exact ⟨SameStatic.srefl s, rfl, rfl, rfl⟩

theorem CreateMidNode_fail (env : Env) (s : Mesh) (e i : Nat)
    (h0 : s.MIDNODE (edgeOf env s e i) = 0) (hr : (CreateMidNode env s e i).1 = 0) :
    MidHistW s (CreateMidNode env s e i).2 := by
  unfold CreateMidNode at hr ⊢
  dsimp only at hr ⊢
  have ha := allocNode_same { s with trace := s.trace ++ [Event.CreateMidNode e i (edgeOf env s e i)] }
  split_ifs at hr ⊢ with hz
  · refine ⟨ha.1, fun x _ => by rw [ha.2.1], [Event.CreateMidNode e i (edgeOf env s e i)],
      by rw [ha.2.2.1], ?_, by simp⟩
    intro a hmem
    simp only [List.mem_singleton] at hmem
    exact ⟨e, i, _, hmem, h0⟩
  · exact absurd hr hz

theorem CreateMidNode_ok (env : Env) (s : Mesh) (e i : Nat)
    (h0 : s.MIDNODE (edgeOf env s e i) = 0) (hr : (CreateMidNode env s e i).1 ≠ 0) :
    MidHist s (CreateMidNode env s e i).2 ∧
      (CreateMidNode env s e i).2.MIDNODE (edgeOf env s e i) = (CreateMidNode env s e i).1 := by
  unfold CreateMidNode at hr ⊢
  dsimp only at hr ⊢
  have ha := allocNode_same { s with trace := s.trace ++ [Event.CreateMidNode e i (edgeOf env s e i)] }
  split_ifs at hr ⊢ with hz
  · exact absurd hz hr
  · dsimp only
    refine ⟨⟨ha.1, ?_, [Event.CreateMidNode e i (edgeOf env s e i)], by rw [ha.2.2.1], ?_,
      by simp⟩, by simp [upd]⟩
    · intro x hx
      have hxe : x ≠ edgeOf env s e i := fun h => hx (h ▸ h0)
      simp only [upd, hxe, if_false, ha.2.1]
    · intro a hmem
      simp only [List.mem_singleton] at hmem
      exact ⟨e, i, _, hmem, h0, by simp [upd, hz]⟩

theorem forLoop_snoc {σ : Type} (body : Nat → σ → LoopRes σ) :
    ∀ (k i : Nat) (x y : σ), forLoop body k i x = .next y →
      forLoop body (k + 1) i x = body (i + k) y := by
  intro k
  induction k with
  | zero =>
    intro i x y h
    simp only [forLoop, LoopRes.next.injEq] at h
    subst h
    unfold forLoop
    cases hb : body i x <;> simp [forLoop, hb]
  | succ k ih =>
    intro i x y h
    unfold forLoop at h ⊢
    cases hb : body i x with
    | next z =>
      rw [hb] at h
      simp only
      rw [ih (i + 1) z y h, show i + 1 + k = i + (k + 1) by omega]
    | ret c z => rw [hb] at h; exact absurd h (by simp)
    | stop r => rw [hb] at h; exact absurd h (by simp)


theorem Quiet.qrefl (s : Mesh) : Quiet s s := ⟨SameStatic.srefl s, rfl, rfl⟩

theorem Quiet.qtrans {s s' s'' : Mesh} (h1 : Quiet s s') (h2 : Quiet s' s'') : Quiet s s'' :=
  ⟨h1.1.strans h2.1, h2.2.1.trans h1.2.1, h2.2.2.trans h1.2.2⟩

theorem Quiet.hist {s s' : Mesh} (h : Quiet s s') : MidHist s s' :=
  MidHist.of_same h.1 h.2.1 h.2.2

theorem allocNode_quiet (s : Mesh) : Quiet s (allocNode s).2 :=
  ⟨(allocNode_same s).1, (allocNode_same s).2.1, (allocNode_same s).2.2.1⟩

/-! ## The loop bodies of `UpdateContext` -/

theorem UpdateContext_corner_next (e i : Nat) (x y : Mesh × Context)
    (h : UpdateContext_corner e i x = .next y) :
    Quiet x.1 y.1 ∧ ∀ k, k ≠ i → y.2 k = x.2 k := by
  unfold UpdateContext_corner at h
  dsimp only at h
  have hq := allocNode_quiet x.1
  split_ifs at h with h1 h2
  · simp only [LoopRes.next.injEq] at h
    subst h
    refine ⟨⟨?_, ?_, ?_⟩, fun k hk => by simp [upd, hk]⟩
    · exact hq.1
    · exact hq.2.1
    · exact hq.2.2
  · simp only [LoopRes.next.injEq] at h
    subst h
    exact ⟨Quiet.qrefl _, fun k hk => by simp [upd, hk]⟩

theorem UpdateContext_corner_ret (e i : Nat) (x y : Mesh × Context) (c : Int)
    (h : UpdateContext_corner e i x = .ret c y) :
    c = GM_FATAL ∧ Quiet x.1 y.1 := by
  unfold UpdateContext_corner at h
  dsimp only at h
  have hq := allocNode_quiet x.1
  split_ifs at h with h1 h2
  simp only [LoopRes.ret.injEq] at h
  obtain ⟨rfl, rfl⟩ := h
  exact ⟨rfl, hq.1, hq.2.1, hq.2.2⟩

theorem UpdateContext_center_spec (env : Env) (e : Nat) (Mark : Int) (x : Mesh × Context) :
    Quiet x.1 (UpdateContext_center env e Mark x).2.1 ∧
      ∀ k, k ≠ CORNERS_OF_ELEM env x.1 e + CENTER_NODE_INDEX env x.1 e →
        (UpdateContext_center env e Mark x).2.2 k = x.2 k := by
  unfold UpdateContext_center
  dsimp only
  have hq := allocNode_quiet x.1
  split_ifs
  · exact ⟨hq, fun k hk => by simp [upd, hk]⟩
  · exact ⟨hq, fun k hk => by simp [upd, hk]⟩
  · exact ⟨Quiet.qrefl _, fun k hk => by simp [upd, hk]⟩

theorem UpdateContext_side_node_next (env : Env) (e i : Nat) (x y : Mesh × Context)
    (h : UpdateContext_side_node env e i x = .next y) :
    Quiet x.1 y.1 ∧
      ∀ k, k ≠ CORNERS_OF_ELEM env x.1 e + EDGES_OF_ELEM env x.1 e + i → y.2 k = x.2 k := by
  unfold UpdateContext_side_node at h
  dsimp only at h
  have hq := allocNode_quiet x.1
  split_ifs at h
  all_goals
    simp only [LoopRes.next.injEq] at h
    subst h
    first
      | exact ⟨hq, fun k hk => by simp [upd, hk]⟩
      | exact ⟨Quiet.qrefl _, fun k hk => by simp [upd, hk]⟩

theorem UpdateContext_side_node_ret (env : Env) (e i : Nat) (x y : Mesh × Context) (c : Int)
    (h : UpdateContext_side_node env e i x = .ret c y) :
    c = GM_FATAL ∧ Quiet x.1 y.1 := by
  unfold UpdateContext_side_node at h
  dsimp only at h
  have hq := allocNode_quiet x.1
  split_ifs at h
  all_goals
    simp only [LoopRes.ret.injEq] at h
    obtain ⟨rfl, rfl⟩ := h
    exact ⟨rfl, hq⟩

theorem UpdateContext_side_next (env : Env) (e : Nat) (Mark : Int) (i : Nat)
    (x y : Mesh × Context) (h : UpdateContext_side env e Mark i x = .next y) :
    Quiet x.1 y.1 ∧
      ∀ k, k ≠ CORNERS_OF_ELEM env x.1 e + EDGES_OF_ELEM env x.1 e + i → y.2 k = x.2 k := by
  unfold UpdateContext_side at h
  split_ifs at h with h1
  · simp only [LoopRes.next.injEq] at h
    subst h
    exact ⟨Quiet.qrefl _, fun _ _ => rfl⟩
  · split at h
    · exact absurd h (by simp)
    · simp only [LoopRes.next.injEq] at h
      subst h
      exact ⟨Quiet.qrefl _, fun _ _ => rfl⟩
    · exact UpdateContext_side_node_next env e i x y h

theorem UpdateContext_side_ret (env : Env) (e : Nat) (Mark : Int) (i : Nat)
    (x y : Mesh × Context) (c : Int) (h : UpdateContext_side env e Mark i x = .ret c y) :
    c = GM_FATAL ∧ Quiet x.1 y.1 := by
  unfold UpdateContext_side at h
  split_ifs at h with h1
  split at h
  · exact absurd h (by simp)
  · exact absurd h (by simp)
  · exact UpdateContext_side_node_ret env e i x y c h

theorem SameStatic.corners (env : Env) {s s' : Mesh} (h : SameStatic s s') (e : Nat) :
    CORNERS_OF_ELEM env s' e = CORNERS_OF_ELEM env s e := by
  unfold CORNERS_OF_ELEM; rw [h.1]

theorem SameStatic.edges (env : Env) {s s' : Mesh} (h : SameStatic s s') (e : Nat) :
    EDGES_OF_ELEM env s' e = EDGES_OF_ELEM env s e := by
  unfold EDGES_OF_ELEM; rw [h.1]

theorem SameStatic.sides (env : Env) {s s' : Mesh} (h : SameStatic s s') (e : Nat) :
    SIDES_OF_ELEM env s' e = SIDES_OF_ELEM env s e := by
  unfold SIDES_OF_ELEM; rw [h.1]

theorem SameStatic.center (env : Env) {s s' : Mesh} (h : SameStatic s s') (e : Nat) :
    CENTER_NODE_INDEX env s' e = CENTER_NODE_INDEX env s e := by
  unfold CENTER_NODE_INDEX; rw [h.edges, h.sides]

theorem SameStatic.edgeOf (env : Env) {s s' : Mesh} (h : SameStatic s s') (e j : Nat) :
    edgeOf env s' e j = edgeOf env s e j := by
  unfold UG.edgeOf CORNER_OF_EDGE; rw [h.1, h.2.1, h.2.2.2.2.2.1]

theorem SameStatic.green (env : Env) {s s' : Mesh} (h : SameStatic s s') (e : Nat) :
    GREEN_BY_CASES env s' e ↔ GREEN_BY_CASES env s e := by
  unfold GREEN_BY_CASES NEWGREEN; rw [h.1, h.2.2.2.1]

theorem SameStatic.toBisect (env : Env) {s s' : Mesh} (h : SameStatic s s') (e j : Nat) :
    toBisect env s' e j ↔ toBisect env s e j := by
  unfold UG.toBisect
  rw [h.edgeOf, h.1, h.2.2.1, h.2.2.2.2.1]
  by_cases hg : GREEN_BY_CASES env s e
  · rw [if_pos hg, if_pos ((h.green env e).mpr hg)]
  · rw [if_neg hg, if_neg (fun hh => hg ((h.green env e).mp hh))]

theorem UpdateContext_edge_node_next (env : Env) (e i : Nat) (x y : Mesh × Context)
    (h : UpdateContext_edge_node env e i x = .next y)
    (hx : x.2 (CORNERS_OF_ELEM env x.1 e + i) = 0 ∨
      x.2 (CORNERS_OF_ELEM env x.1 e + i) = x.1.MIDNODE (edgeOf env x.1 e i)) :
    MidHist x.1 y.1 ∧ y.2 (CORNERS_OF_ELEM env x.1 e + i) ≠ 0 ∧
      y.2 (CORNERS_OF_ELEM env x.1 e + i) = y.1.MIDNODE (edgeOf env x.1 e i) ∧
      ∀ k, k ≠ CORNERS_OF_ELEM env x.1 e + i → y.2 k = x.2 k := by
  unfold UpdateContext_edge_node at h
  dsimp only at h
  by_cases h1 : x.2 (CORNERS_OF_ELEM env x.1 e + i) ≠ 0
  · rw [if_pos h1] at h
    simp only [LoopRes.next.injEq] at h
    subst h
    refine ⟨MidHist.hrefl _, h1, ?_, fun _ _ => rfl⟩
    rcases hx with hx | hx
    · exact absurd hx h1
    · exact hx
  · rw [if_neg h1] at h
    by_cases h2 : edgeOf env x.1 e i = 0
    · rw [if_pos h2] at h; exact absurd h (by simp)
    · rw [if_neg h2] at h
      by_cases h3 : upd x.2 (CORNERS_OF_ELEM env x.1 e + i) (x.1.MIDNODE (edgeOf env x.1 e i))
          (CORNERS_OF_ELEM env x.1 e + i) = 0
      · rw [if_pos h3] at h
        have hm0 : x.1.MIDNODE (edgeOf env x.1 e i) = 0 := by simpa [upd] using h3
        by_cases h4 : (CreateMidNode env x.1 e i).1 = 0
        · rw [if_pos h4] at h; exact absurd h (by simp)
        · rw [if_neg h4] at h
          simp only [LoopRes.next.injEq] at h
          subst h
          obtain ⟨hh, hrec⟩ := CreateMidNode_ok env x.1 e i hm0 h4
          refine ⟨hh, by simpa [upd] using h4, by simp [upd, hrec], ?_⟩
          intro k hk
          simp [upd, hk]
      · rw [if_neg h3] at h
        simp only [LoopRes.next.injEq] at h
        subst h
        exact ⟨MidHist.hrefl _, h3, by simp [upd], fun k hk => by simp [upd, hk]⟩

theorem UpdateContext_edge_node_ret (env : Env) (e i : Nat) (x y : Mesh × Context) (c : Int)
    (h : UpdateContext_edge_node env e i x = .ret c y) :
    c = GM_FATAL ∧ MidHistW x.1 y.1 := by
  unfold UpdateContext_edge_node at h
  dsimp only at h
  by_cases h1 : x.2 (CORNERS_OF_ELEM env x.1 e + i) ≠ 0
  · rw [if_pos h1] at h; exact absurd h (by simp)
  · rw [if_neg h1] at h
    by_cases h2 : edgeOf env x.1 e i = 0
    · rw [if_pos h2] at h
      simp only [LoopRes.ret.injEq] at h
      obtain ⟨rfl, rfl⟩ := h
      exact ⟨rfl, (MidHist.hrefl _).weak⟩
    · rw [if_neg h2] at h
      by_cases h3 : upd x.2 (CORNERS_OF_ELEM env x.1 e + i) (x.1.MIDNODE (edgeOf env x.1 e i))
          (CORNERS_OF_ELEM env x.1 e + i) = 0
      · rw [if_pos h3] at h
        have hm0 : x.1.MIDNODE (edgeOf env x.1 e i) = 0 := by simpa [upd] using h3
        by_cases h4 : (CreateMidNode env x.1 e i).1 = 0
        · rw [if_pos h4] at h
          simp only [LoopRes.ret.injEq] at h
          obtain ⟨rfl, rfl⟩ := h
          exact ⟨rfl, CreateMidNode_fail env x.1 e i hm0 h4⟩
        · rw [if_neg h4] at h; exact absurd h (by simp)
      · rw [if_neg h3] at h; exact absurd h (by simp)

theorem UpdateContext_edge_decide_spec (env : Env) (e : Nat) (Mark : Int) (i : Nat)
    (x : Mesh × Context) (b : Bool) (ctx1 : Context)
    (hM : Mark = x.1.MARK e)
    (h : UpdateContext_edge_decide env e Mark i x = .ok (b, ctx1)) :
    (b = true ↔ toBisect env x.1 e i) ∧
      (∀ k, k ≠ CORNERS_OF_ELEM env x.1 e + i → ctx1 k = x.2 k) ∧
      (b = false → ctx1 = x.2) ∧
      (ctx1 (CORNERS_OF_ELEM env x.1 e + i) = x.2 (CORNERS_OF_ELEM env x.1 e + i) ∨
        ctx1 (CORNERS_OF_ELEM env x.1 e + i) = x.1.MIDNODE (edgeOf env x.1 e i)) := by
  unfold UpdateContext_edge_decide at h
  unfold toBisect
  dsimp only at h
  subst hM
  by_cases hg : GREEN_BY_CASES env x.1 e
  · rw [if_pos hg] at h ⊢
    by_cases h2 : edgeOf env x.1 e i = 0
    · rw [if_pos h2] at h; exact absurd h (by simp)
    · rw [if_neg h2] at h
      by_cases h3 : x.1.ADDPATTERN (edgeOf env x.1 e i) = 0
      · rw [if_pos h3] at h
        simp only [Except.ok.injEq, Prod.mk.injEq] at h
        obtain ⟨rfl, rfl⟩ := h
        exact ⟨by simp [h3], fun k hk => by simp [upd, hk], by simp, Or.inr (by simp [upd])⟩
      · rw [if_neg h3] at h
        simp only [Except.ok.injEq, Prod.mk.injEq] at h
        obtain ⟨rfl, rfl⟩ := h
        exact ⟨by simp [h3], fun _ _ => rfl, fun _ => rfl, Or.inl rfl⟩
  · rw [if_neg hg] at h ⊢
    by_cases h3 : env.NODE_OF_RULE (x.1.TAG e) (x.1.MARK e) i ≠ 0
    · rw [if_pos h3] at h
      simp only [Except.ok.injEq, Prod.mk.injEq] at h
      obtain ⟨rfl, rfl⟩ := h
      exact ⟨by simp [h3], fun _ _ => rfl, by simp, Or.inl rfl⟩
    · rw [if_neg h3] at h
      simp only [Except.ok.injEq, Prod.mk.injEq] at h
      obtain ⟨rfl, rfl⟩ := h
      exact ⟨by simp [h3], fun _ _ => rfl, fun _ => rfl, Or.inl rfl⟩

theorem UpdateContext_edge_next (env : Env) (e : Nat) (Mark : Int) (i : Nat)
    (x y : Mesh × Context) (hM : Mark = x.1.MARK e)
    (h0 : x.2 (CORNERS_OF_ELEM env x.1 e + i) = 0)
    (h : UpdateContext_edge env e Mark i x = .next y) :
    MidHist x.1 y.1 ∧ (y.2 (CORNERS_OF_ELEM env x.1 e + i) ≠ 0 ↔ toBisect env x.1 e i) ∧
      (toBisect env x.1 e i →
        y.2 (CORNERS_OF_ELEM env x.1 e + i) = y.1.MIDNODE (edgeOf env x.1 e i)) ∧
      ∀ k, k ≠ CORNERS_OF_ELEM env x.1 e + i → y.2 k = x.2 k := by
  unfold UpdateContext_edge at h
  cases hd : UpdateContext_edge_decide env e Mark i x with
  | error r => rw [hd] at h; exact absurd h (by simp)
  | ok p =>
    obtain ⟨b, ctx1⟩ := p
    obtain ⟨hb, hk, hf, hmid⟩ := UpdateContext_edge_decide_spec env e Mark i x b ctx1 hM hd
    rw [hd] at h
    cases b with
    | false =>
      simp only [LoopRes.next.injEq] at h
      subst h
      have hn : ¬ toBisect env x.1 e i := fun ht => by simpa using hb.mpr ht
      rw [hf rfl]
      exact ⟨MidHist.hrefl _, by simp [h0, hn], fun ht => absurd ht hn, fun _ _ => rfl⟩
    | true =>
      have ht : toBisect env x.1 e i := hb.mp rfl
      have hpre : (x.1, ctx1).2 (CORNERS_OF_ELEM env (x.1, ctx1).1 e + i) = 0 ∨
          (x.1, ctx1).2 (CORNERS_OF_ELEM env (x.1, ctx1).1 e + i) =
            (x.1, ctx1).1.MIDNODE (edgeOf env (x.1, ctx1).1 e i) := by
        dsimp only
        rcases hmid with hm | hm
        · left; rw [hm]; exact h0
        · right; exact hm
      obtain ⟨a1, a2, a3, a4⟩ := UpdateContext_edge_node_next env e i (x.1, ctx1) y h hpre
      dsimp only at a1 a2 a3 a4
      exact ⟨a1, by simp [a2, ht], fun _ => a3,
        fun k hne => by rw [a4 k hne]; exact hk k hne⟩

theorem UpdateContext_edge_ret (env : Env) (e : Nat) (Mark : Int) (i : Nat)
    (x y : Mesh × Context) (c : Int)
    (h : UpdateContext_edge env e Mark i x = .ret c y) :
    c = GM_FATAL ∧ MidHistW x.1 y.1 := by
  unfold UpdateContext_edge at h
  cases hd : UpdateContext_edge_decide env e Mark i x with
  | error r => rw [hd] at h; exact absurd h (by simp)
  | ok p =>
    obtain ⟨b, ctx1⟩ := p
    rw [hd] at h
    cases b with
    | false => exact absurd h (by simp)
    | true => exact UpdateContext_edge_node_ret env e i (x.1, ctx1) y c h

/-! ## The loops of `UpdateContext` -/

theorem UpdateContext_corners_next (e n : Nat) (s0 : Mesh) (y : Mesh × Context)
    (h : forLoop (UpdateContext_corner e) n 0 (s0, fun _ => 0) = .next y) :
    Quiet s0 y.1 ∧ ∀ k, n ≤ k → y.2 k = 0 := by
  have := forLoop_next_inv (UpdateContext_corner e)
    (fun i x => Quiet s0 x.1 ∧ ∀ k, i ≤ k → x.2 k = 0)
    (by
      intro i x z hI hb
      obtain ⟨hq, hk⟩ := UpdateContext_corner_next e i x z hb
      exact ⟨hI.1.qtrans hq, fun k hle => by rw [hk k (by omega)]; exact hI.2 k (by omega)⟩)
    n 0 (s0, fun _ => 0) y ⟨Quiet.qrefl s0, fun _ _ => rfl⟩ h
  simpa using this

theorem UpdateContext_corners_ret (e n : Nat) (s0 : Mesh) (y : Mesh × Context) (c : Int)
    (h : forLoop (UpdateContext_corner e) n 0 (s0, fun _ => 0) = .ret c y) :
    c = GM_FATAL ∧ Quiet s0 y.1 := by
  exact forLoop_ret_inv (UpdateContext_corner e)
    (fun _ x => Quiet s0 x.1) (fun c y => c = GM_FATAL ∧ Quiet s0 y.1)
    (by
      intro i x z hI hb
      exact hI.qtrans (UpdateContext_corner_next e i x z hb).1)
    (by
      intro i x c z hI hb
      obtain ⟨hc, hq⟩ := UpdateContext_corner_ret e i x z c hb
      exact ⟨hc, hI.qtrans hq⟩)
    n 0 (s0, fun _ => 0) c y (Quiet.qrefl s0) h

theorem EdgeInv_step (env : Env) (s0 : Mesh) (e : Nat) (i : Nat) (x y : Mesh × Context)
    (hI : EdgeInv env s0 e i x) (hb : UpdateContext_edge env e (s0.MARK e) i x = .next y) :
    EdgeInv env s0 e (i + 1) y := by
  obtain ⟨hh, hslots, hzero⟩ := hI
  have hst := hh.1
  have hC := hst.corners env e
  have hM : s0.MARK e = x.1.MARK e := by rw [hst.2.2.1]
  obtain ⟨b1, b2, b3, b4⟩ := UpdateContext_edge_next env e (s0.MARK e) i x y hM
    (by rw [hC]; exact hzero _ (by omega)) hb
  rw [hC] at b2 b3 b4
  rw [hst.toBisect env e i] at b2 b3
  rw [hst.edgeOf env e i] at b3
  refine ⟨hh.htrans b1, ?_, ?_⟩
  · intro j hj
    by_cases hji : j = i
    · subst hji; exact ⟨b2, b3⟩
    · have hjlt : j < i := by omega
      have hne : CORNERS_OF_ELEM env s0 e + j ≠ CORNERS_OF_ELEM env s0 e + i := by omega
      rw [b4 _ hne]
      refine ⟨(hslots j hjlt).1, ?_⟩
      intro ht
      have heq := (hslots j hjlt).2 ht
      have hnz : x.1.MIDNODE (edgeOf env s0 e j) ≠ 0 := by
        rw [← heq]; exact (hslots j hjlt).1.mpr ht
      rw [heq, b1.2.1 _ hnz]
  · intro k hk
    rw [b4 k (by omega)]
    exact hzero k (by omega)

theorem UpdateContext_edges_next (env : Env) (s0 : Mesh) (e n : Nat) (x y : Mesh × Context)
    (hx : EdgeInv env s0 e 0 x)
    (h : forLoop (UpdateContext_edge env e (s0.MARK e)) n 0 x = .next y) :
    EdgeInv env s0 e n y := by
  have := forLoop_next_inv (UpdateContext_edge env e (s0.MARK e)) (EdgeInv env s0 e)
    (fun i x z hI hb => EdgeInv_step env s0 e i x z hI hb) n 0 x y hx h
  simpa using this

theorem UpdateContext_edges_ret (env : Env) (s0 : Mesh) (e n : Nat) (x y : Mesh × Context)
    (c : Int) (hx : EdgeInv env s0 e 0 x)
    (h : forLoop (UpdateContext_edge env e (s0.MARK e)) n 0 x = .ret c y) :
    c = GM_FATAL ∧ MidHistW s0 y.1 := by
  exact forLoop_ret_inv (UpdateContext_edge env e (s0.MARK e)) (EdgeInv env s0 e)
    (fun c y => c = GM_FATAL ∧ MidHistW s0 y.1)
    (fun i x z hI hb => EdgeInv_step env s0 e i x z hI hb)
    (by
      intro i x c z hI hb
      obtain ⟨hc, hw⟩ := UpdateContext_edge_ret env e (s0.MARK e) i x z c hb
      exact ⟨hc, hI.1.trans_weak hw⟩)
    n 0 x c y hx h

theorem SideInv_step (env : Env) (s0 : Mesh) (e : Nat) (Mark : Int) (x2 : Mesh × Context)
    (h0 : SameStatic s0 x2.1) (i : Nat) (x y : Mesh × Context)
    (hI : SideInv env s0 e x2 x) (hb : UpdateContext_side env e Mark i x = .next y) :
    SideInv env s0 e x2 y := by
  obtain ⟨hq, hk⟩ := UpdateContext_side_next env e Mark i x y hb
  have hst : SameStatic s0 x.1 := h0.strans hI.1.1
  rw [hst.corners env e, hst.edges env e] at hk
  exact ⟨hI.1.qtrans hq, fun k hlt => by rw [hk k (by omega)]; exact hI.2 k hlt⟩

theorem UpdateContext_sides_next (env : Env) (s0 : Mesh) (e : Nat) (Mark : Int) (n : Nat)
    (x2 y : Mesh × Context) (h0 : SameStatic s0 x2.1)
    (h : forLoop (UpdateContext_side env e Mark) n 0 x2 = .next y) :
    SideInv env s0 e x2 y :=
  forLoop_next_inv (UpdateContext_side env e Mark) (fun _ x => SideInv env s0 e x2 x)
    (fun i x z hI hb => SideInv_step env s0 e Mark x2 h0 i x z hI hb) n 0 x2 y
    ⟨Quiet.qrefl _, fun _ _ => rfl⟩ h

theorem UpdateContext_sides_ret (env : Env) (s0 : Mesh) (e : Nat) (Mark : Int) (n : Nat)
    (x2 y : Mesh × Context) (c : Int) (h0 : SameStatic s0 x2.1)
    (h : forLoop (UpdateContext_side env e Mark) n 0 x2 = .ret c y) :
    c = GM_FATAL ∧ Quiet x2.1 y.1 :=
  forLoop_ret_inv (UpdateContext_side env e Mark) (fun _ x => SideInv env s0 e x2 x)
    (fun c y => c = GM_FATAL ∧ Quiet x2.1 y.1)
    (fun i x z hI hb => SideInv_step env s0 e Mark x2 h0 i x z hI hb)
    (by
      intro i x c z hI hb
      obtain ⟨hc, hq⟩ := UpdateContext_side_ret env e Mark i x z c hb
      exact ⟨hc, hI.1.qtrans hq⟩)
    n 0 x2 c y ⟨Quiet.qrefl _, fun _ _ => rfl⟩ h

theorem MidHistW.quiet_right {s s' s'' : Mesh} (h1 : MidHistW s s') (h2 : Quiet s' s'') :
    MidHistW s s'' := by
  obtain ⟨a1, a2, ev, a3, a4, a5⟩ := h1
  exact ⟨a1.strans h2.1, fun x hx => by rw [h2.2.1]; exact a2 x hx, ev,
    by rw [h2.2.2]; exact a3, a4, a5⟩

/-- What a returning call of `UpdateContext` for an element with a mark has done. -/
theorem UpdateContext_spec (env : Env) (s : Mesh) (e : Nat) (c : Int) (s' : Mesh)
    (ctx : Context) (hmark : s.MARK e ≠ env.NO_REFINEMENT)
    (h : UpdateContext env s e = .ok (c, s', ctx)) :
    MidHistW s s' ∧ (c = GM_OK ∨ c = GM_FATAL) ∧
      (c = GM_OK → MidHist s s' ∧ ∀ i, i < EDGES_OF_ELEM env s e →
        (ctx (CORNERS_OF_ELEM env s e + i) ≠ 0 ↔ toBisect env s e i) ∧
        (toBisect env s e i →
          ctx (CORNERS_OF_ELEM env s e + i) = s'.MIDNODE (edgeOf env s e i))) := by
  have hne : GM_FATAL ≠ GM_OK := by decide
  unfold UpdateContext at h
  dsimp only at h
  rw [if_neg hmark] at h
  cases h1 : forLoop (UpdateContext_corner e) (CORNERS_OF_ELEM env s e) 0 (s, fun _ => 0) with
  | stop r => rw [h1] at h; exact absurd h (by simp)
  | ret c1 y1 =>
    rw [h1] at h
    simp only [Except.ok.injEq, Prod.mk.injEq] at h
    obtain ⟨rfl, rfl, rfl⟩ := h
    obtain ⟨hc, hq⟩ := UpdateContext_corners_ret e _ s y1 c1 h1
    subst hc
    exact ⟨hq.hist.weak, Or.inr rfl, fun hh => absurd hh hne⟩
  | next x1 =>
    rw [h1] at h
    dsimp only at h
    obtain ⟨hq1, hz1⟩ := UpdateContext_corners_next e _ s x1 h1
    have hI0 : EdgeInv env s e 0 x1 :=
      ⟨hq1.hist, fun j hj => absurd hj (by omega), fun k hk => hz1 k (by omega)⟩
    cases h2 : forLoop (UpdateContext_edge env e (s.MARK e)) (EDGES_OF_ELEM env s e) 0 x1 with
    | stop r => rw [h2] at h; exact absurd h (by simp)
    | ret c2 y2 =>
      rw [h2] at h
      simp only [Except.ok.injEq, Prod.mk.injEq] at h
      obtain ⟨rfl, rfl, rfl⟩ := h
      obtain ⟨hc, hw⟩ := UpdateContext_edges_ret env s e _ x1 y2 c2 hI0 h2
      subst hc
      exact ⟨hw, Or.inr rfl, fun hh => absurd hh hne⟩
    | next x2 =>
      rw [h2] at h
      dsimp only at h
      obtain ⟨hh2, hs2, _⟩ := UpdateContext_edges_next env s e _ x1 x2 hI0 h2
      -- the loop over the sides, in a 3-D build
      have hside : ∀ (r : LoopRes (Mesh × Context)),
          r = (if env.DIM = 3 then
            forLoop (UpdateContext_side env e (s.MARK e)) (SIDES_OF_ELEM env s e) 0 x2
            else .next x2) →
          (∀ y, r = .next y → SideInv env s e x2 y) ∧
          (∀ c y, r = .ret c y → c = GM_FATAL ∧ Quiet x2.1 y.1) := by
        intro r hr
        by_cases hD : env.DIM = 3
        · rw [if_pos hD] at hr
          subst hr
          exact ⟨fun y hy => UpdateContext_sides_next env s e _ _ x2 y hh2.1 hy,
            fun c y hy => UpdateContext_sides_ret env s e _ _ x2 y c hh2.1 hy⟩
        · rw [if_neg hD] at hr
          subst hr
          refine ⟨fun y hy => ?_, fun c y hy => absurd hy (by simp)⟩
          simp only [LoopRes.next.injEq] at hy
          subst hy
          exact ⟨Quiet.qrefl _, fun _ _ => rfl⟩
      cases h3 : (if env.DIM = 3 then
            forLoop (UpdateContext_side env e (s.MARK e)) (SIDES_OF_ELEM env s e) 0 x2
            else .next x2) with
      | stop r => rw [h3] at h; exact absurd h (by simp)
      | ret c3 y3 =>
        rw [h3] at h
        simp only [Except.ok.injEq, Prod.mk.injEq] at h
        obtain ⟨rfl, rfl, rfl⟩ := h
        obtain ⟨hc, hq⟩ := (hside _ h3.symm).2 c3 y3 rfl
        subst hc
        exact ⟨hh2.weak.quiet_right hq, Or.inr rfl, fun hh => absurd hh hne⟩
      | next x3 =>
        rw [h3] at h
        simp only [Except.ok.injEq] at h
        obtain ⟨hq3, hk3⟩ := (hside _ h3.symm).1 x3 rfl
        obtain ⟨hq4, hk4⟩ := UpdateContext_center_spec env e (s.MARK e) x3
        have hst3 : SameStatic s x3.1 := hh2.1.strans hq3.1
        rw [hst3.corners env e, hst3.center env e] at hk4
        rw [h] at hq4 hk4
        dsimp only at hq4 hk4
        have hq : Quiet x2.1 s' := hq3.qtrans hq4
        have hH : MidHist s s' := hh2.htrans hq.hist
        refine ⟨hH.weak, ?_, fun _ => ⟨hH, ?_⟩⟩
        · have hcc : c = (UpdateContext_center env e (s.MARK e) x3).1 := by rw [h]
          rw [hcc]
          unfold UpdateContext_center
          dsimp only
          split_ifs <;> simp
        · intro i hi
          have hctx : ctx (CORNERS_OF_ELEM env s e + i) = x2.2 (CORNERS_OF_ELEM env s e + i) := by
            rw [hk4 _ (by unfold CENTER_NODE_INDEX; omega)]
            exact hk3 _ (by omega)
          rw [hctx, hq.2.1]
          exact hs2 i hi

/-! ## Claims C3 and C4: `UpdateContext` -/

/-- Claim C3. A call of `UpdateContext` that returns, for an element with a mark, calls
`CreateMidNode` only for edges that had no mid node and at most once per edge, and leaves
the mid nodes that were there in place. If it returns `GM_OK`, then for every edge it
decides to bisect the context slot holds the mid node of the edge, which is the node the
edge had before when it had one; and a later call for an element with the same edge, made
while that mid node is still recorded on the edge, puts the same node in its slot. -/
theorem UpdateContext_one_midnode_per_edge (env : Env) (s : Mesh) (e : Nat) (c : Int)
    (s' : Mesh) (ctx : Context) (hmark : s.MARK e ≠ env.NO_REFINEMENT)
    (h : UpdateContext env s e = .ok (c, s', ctx)) :
    (∀ x, s.MIDNODE x ≠ 0 → s'.MIDNODE x = s.MIDNODE x) ∧
    (∃ ev : List Event, s'.trace = s.trace ++ ev ∧
      (∀ a ∈ ev, ∃ e1 j x, a = Event.CreateMidNode e1 j x ∧ s.MIDNODE x = 0) ∧
      (ev.map eventEdge).Nodup) ∧
    (c = GM_OK → ∀ i, i < EDGES_OF_ELEM env s e → toBisect env s e i →
      (s.MIDNODE (edgeOf env s e i) ≠ 0 →
        ctx (CORNERS_OF_ELEM env s e + i) = s.MIDNODE (edgeOf env s e i)) ∧
      ctx (CORNERS_OF_ELEM env s e + i) = s'.MIDNODE (edgeOf env s e i) ∧
      ctx (CORNERS_OF_ELEM env s e + i) ≠ 0 ∧
      ∀ (s1 : Mesh) (e2 : Nat) (s2 : Mesh) (ctx2 : Context) (j : Nat),
        s1.MIDNODE (edgeOf env s e i) = s'.MIDNODE (edgeOf env s e i) →
        s1.MARK e2 ≠ env.NO_REFINEMENT →
        UpdateContext env s1 e2 = .ok (GM_OK, s2, ctx2) →
        j < EDGES_OF_ELEM env s1 e2 → edgeOf env s1 e2 j = edgeOf env s e i →
        toBisect env s1 e2 j →
        ctx2 (CORNERS_OF_ELEM env s1 e2 + j) = ctx (CORNERS_OF_ELEM env s e + i)) := by
  obtain ⟨hw, _, hok⟩ := UpdateContext_spec env s e c s' ctx hmark h
  refine ⟨hw.2.1, hw.2.2, ?_⟩
  intro hc i hi ht
  obtain ⟨hH, hslots⟩ := hok hc
  obtain ⟨hiff, heq⟩ := hslots i hi
  have hnz : ctx (CORNERS_OF_ELEM env s e + i) ≠ 0 := hiff.mpr ht
  refine ⟨fun hm => by rw [heq ht, hH.2.1 _ hm], heq ht, hnz, ?_⟩
  intro s1 e2 s2 ctx2 j hsame hmark2 h2 hj hedge ht2
  obtain ⟨_, _, hok2⟩ := UpdateContext_spec env s1 e2 GM_OK s2 ctx2 hmark2 h2
  obtain ⟨hH2, hslots2⟩ := hok2 rfl
  rw [(hslots2 j hj).2 ht2, hedge, heq ht]
  have hnz1 : s1.MIDNODE (edgeOf env s e i) ≠ 0 := by
    rw [hsame, ← heq ht]; exact hnz
  rw [hH2.2.1 _ hnz1, hsame]

/-- Witness of `UpdateContext_one_midnode_per_edge`: triangle 1 gets a new mid node on the
edge it shares with triangle 2 (its local edge 1), and the context of triangle 2, built
next, holds the same node for that edge (local edge 0 of triangle 2). -/
theorem UpdateContext_one_midnode_per_edge_witness :
    contextOf (UpdateContext envRed2D meshTwoTriangles1 2) (3 + 0) =
      contextOf (UpdateContext envRed2D meshTwoTriangles 1) (3 + 1) :=
  ((UpdateContext_one_midnode_per_edge envRed2D meshTwoTriangles 1 GM_OK meshTwoTriangles1
    (contextOf (UpdateContext envRed2D meshTwoTriangles 1)) (by decide) rfl).2.2 rfl 1
    (by decide) (by decide)).2.2.2 meshTwoTriangles1 2
    (meshAfter (UpdateContext envRed2D meshTwoTriangles1 2) meshTwoTriangles1)
    (contextOf (UpdateContext envRed2D meshTwoTriangles1 2)) 0 rfl (by decide) rfl
    (by decide) (by decide) (by decide)

/-- Claim C4. After `UpdateContext` has returned `GM_OK` for an element with
`MARK != NO_REFINEMENT`, the context slot of local edge `i` is non-NULL exactly when the
edge is to be bisected: when `ADDPATTERN(edge) = 0` for a `GREEN_CLASS` hexahedron, prism or
pyramid of a 3-D build, when `NODE_OF_RULE(element, MARK, i)` holds for every other element.
For an element with `MARK = NO_REFINEMENT` every slot is NULL and the mesh, the node pool
included, is as before. -/
theorem UpdateContext_edge_slots (env : Env) (s : Mesh) (e : Nat) (s' : Mesh) (ctx : Context)
    (h : UpdateContext env s e = .ok (GM_OK, s', ctx)) :
    (s.MARK e ≠ env.NO_REFINEMENT → ∀ i, i < EDGES_OF_ELEM env s e →
      (GREEN_BY_CASES env s e →
        (ctx (CORNERS_OF_ELEM env s e + i) ≠ 0 ↔ s.ADDPATTERN (edgeOf env s e i) = 0)) ∧
      (¬ GREEN_BY_CASES env s e →
        (ctx (CORNERS_OF_ELEM env s e + i) ≠ 0 ↔
          env.NODE_OF_RULE (s.TAG e) (s.MARK e) i ≠ 0))) ∧
    (s.MARK e = env.NO_REFINEMENT → (∀ k, ctx k = 0) ∧ s' = s) := by
  constructor
  · intro hmark i hi
    obtain ⟨_, _, hok⟩ := UpdateContext_spec env s e GM_OK s' ctx hmark h
    have hiff := ((hok rfl).2 i hi).1
    unfold toBisect at hiff
    constructor
    · intro hg; rw [if_pos hg] at hiff; exact hiff
    · intro hg; rw [if_neg hg] at hiff; exact hiff
  · intro hmark
    unfold UpdateContext at h
    dsimp only at h
    rw [if_pos hmark] at h
    simp only [Except.ok.injEq, Prod.mk.injEq, true_and] at h
    obtain ⟨rfl, rfl⟩ := h
    exact ⟨fun _ => rfl, rfl⟩

/-- Witness of `UpdateContext_edge_slots`: triangle 1 of `meshTwoTriangles`, whose rule
bisects all three edges, gets its three edge slots filled. -/
theorem UpdateContext_edge_slots_witness :
    contextOf (UpdateContext envRed2D meshTwoTriangles 1) (3 + 0) ≠ 0 ∧
      contextOf (UpdateContext envRed2D meshTwoTriangles 1) (3 + 2) ≠ 0 :=
  ⟨((((UpdateContext_edge_slots envRed2D meshTwoTriangles 1 meshTwoTriangles1
      (contextOf (UpdateContext envRed2D meshTwoTriangles 1)) rfl).1 (by decide) 0
      (by decide)).2 (by decide)).mpr (by decide)),
    ((((UpdateContext_edge_slots envRed2D meshTwoTriangles 1 meshTwoTriangles1
      (contextOf (UpdateContext envRed2D meshTwoTriangles 1)) rfl).1 (by decide) 2
      (by decide)).2 (by decide)).mpr (by decide))⟩
/-! ## Loops over element lists -/

theorem forElements_next_inv {σ : Type} (link : σ → Nat → Nat) (body : Nat → σ → LoopRes σ)
    (I : σ → Prop) (h : ∀ e x y, I x → body e x = .next y → I y) :
    ∀ (fuel e : Nat) (x y : σ), I x → forElements link body fuel e x = .next y → I y := by
  intro fuel
  induction fuel with
  | zero =>
    intro e x y hI hf
    unfold forElements at hf
    split at hf
    · simp only [LoopRes.next.injEq] at hf; subst hf; exact hI
    · exact absurd hf (by simp)
  | succ k ih =>
    intro e x y hI hf
    unfold forElements at hf
    split at hf
    · simp only [LoopRes.next.injEq] at hf; subst hf; exact hI
    · cases hb : body e x with
      | next z => rw [hb] at hf; exact ih _ z y (h e x z hI hb) hf
      | ret c z => rw [hb] at hf; exact absurd hf (by simp)
      | stop r => rw [hb] at hf; exact absurd hf (by simp)

theorem forElements_ret_code {σ : Type} (link : σ → Nat → Nat) (body : Nat → σ → LoopRes σ)
    (R : Int → Prop) (h : ∀ e x c y, body e x = .ret c y → R c) :
    ∀ (fuel e : Nat) (x : σ) (c : Int) (y : σ),
      forElements link body fuel e x = .ret c y → R c := by
  intro fuel
  induction fuel with
  | zero =>
    intro e x c y hf
    unfold forElements at hf
    split at hf <;> exact absurd hf (by simp)
  | succ k ih =>
    intro e x c y hf
    unfold forElements at hf
    split at hf
    · exact absurd hf (by simp)
    · cases hb : body e x with
      | next z => rw [hb] at hf; exact ih _ z c y hf
      | ret c' z =>
        rw [hb] at hf
        simp only [LoopRes.ret.injEq] at hf
        obtain ⟨rfl, rfl⟩ := hf
        exact h e x _ _ hb
      | stop r => rw [hb] at hf; exact absurd hf (by simp)

theorem forElements_spec {σ : Type} (link : σ → Nat → Nat) (body : Nat → σ → LoopRes σ)
    (Post : Nat → σ → σ → Prop) (hnil : ∀ x, Post 0 x x)
    (hstep : ∀ e x x1 y, e ≠ 0 → body e x = .next x1 → Post (link x1 e) x1 y → Post e x y) :
    ∀ (fuel e : Nat) (x y : σ), forElements link body fuel e x = .next y → Post e x y := by
  intro fuel
  induction fuel with
  | zero =>
    intro e x y hf
    unfold forElements at hf
    split at hf
    · rename_i he
      simp only [LoopRes.next.injEq] at hf; subst hf; subst he; exact hnil x
    · exact absurd hf (by simp)
  | succ k ih =>
    intro e x y hf
    unfold forElements at hf
    split at hf
    · rename_i he
      simp only [LoopRes.next.injEq] at hf; subst hf; subst he; exact hnil x
    · rename_i he
      cases hb : body e x with
      | next z => rw [hb] at hf; exact hstep e x z y he hb (ih _ z y hf)
      | ret c z => rw [hb] at hf; exact absurd hf (by simp)
      | stop r => rw [hb] at hf; exact absurd hf (by simp)

theorem forLoop_next_rel {σ : Type} (body : Nat → σ → LoopRes σ) (I : σ → Prop)
    (h : ∀ i x y, I x → body i x = .next y → I y) (k i : Nat) (x y : σ) (hI : I x)
    (hf : forLoop body k i x = .next y) : I y :=
  forLoop_next_inv body (fun _ z => I z) (fun i x y hx hb => h i x y hx hb) k i x y hI hf

theorem forLoop_ret_code {σ : Type} (body : Nat → σ → LoopRes σ) (R : Int → Prop)
    (h : ∀ i x c y, body i x = .ret c y → R c) (k i : Nat) (x : σ) (c : Int) (y : σ)
    (hf : forLoop body k i x = .ret c y) : R c :=
  forLoop_ret_inv body (fun _ _ => True) (fun c _ => R c) (fun _ _ _ _ _ => trivial)
    (fun i x c y _ hb => h i x c y hb) k i x c y trivial hf

theorem OnList.ne_zero {link : Nat → Nat} {first e : Nat} (h : OnList link first e) :
    first ≠ 0 := by
  cases h with
  | head _ h => exact h
  | tail _ _ h _ => exact h

theorem OnList.cases_on_first {link : Nat → Nat} {first e : Nat} (h : OnList link first e) :
    e = first ∨ OnList link (link first) e := by
  cases h with
  | head _ _ => exact Or.inl rfl
  | tail _ _ _ t => exact Or.inr t

/-! ## The relations between meshes -/

theorem SameShape.shrefl (s : Mesh) : SameShape s s := ⟨rfl, rfl, rfl⟩

theorem SameShape.shtrans {s s' s'' : Mesh} (h1 : SameShape s s') (h2 : SameShape s' s'') :
    SameShape s s'' :=
  ⟨h2.1.trans h1.1, h2.2.1.trans h1.2.1, h2.2.2.trans h1.2.2⟩

theorem SameShape.edges_eq {s s' : Mesh} (h : SameShape s s') (env : Env) (e : Nat) :
    EDGES_OF_ELEM env s' e = EDGES_OF_ELEM env s e := by
  unfold EDGES_OF_ELEM; rw [h.1]

theorem SameShape.edgeOf_eq {s s' : Mesh} (h : SameShape s s') (env : Env) (e j : Nat) :
    edgeOf env s' e j = edgeOf env s e j := by
  unfold edgeOf CORNER_OF_EDGE; rw [h.1, h.2.1, h.2.2]

theorem SameList.lrefl (s : Mesh) : SameList s s := ⟨rfl, rfl⟩

theorem SameList.ltrans {s s' s'' : Mesh} (h1 : SameList s s') (h2 : SameList s' s'') :
    SameList s s'' :=
  ⟨h2.1.trans h1.1, h2.2.trans h1.2⟩

theorem ResetRel.rrefl (s : Mesh) : ResetRel s s :=
  ⟨SameShape.shrefl s, SameList.lrefl s, fun _ h => h⟩

theorem ResetRel.rtrans {s s' s'' : Mesh} (h1 : ResetRel s s') (h2 : ResetRel s' s'') :
    ResetRel s s'' :=
  ⟨h1.1.shtrans h2.1, h1.2.1.ltrans h2.2.1, fun ed h => h2.2.2 ed (h1.2.2 ed h)⟩

theorem PatternRel.prefl (s : Mesh) : PatternRel s s :=
  ⟨SameShape.shrefl s, SameList.lrefl s, rfl, fun _ => Or.inl rfl⟩

theorem PatternRel.ptrans {s s' s'' : Mesh} (h1 : PatternRel s s') (h2 : PatternRel s' s'') :
    PatternRel s s'' := by
  refine ⟨h1.1.shtrans h2.1, h1.2.1.ltrans h2.2.1, h2.2.2.1.trans h1.2.2.1, fun e => ?_⟩
  rcases h2.2.2.2 e with h | h
  · rw [h]; exact h1.2.2.2 e
  · exact Or.inr h

theorem SweepRel.wrefl (env : Env) (s : Mesh) : SweepRel env s s :=
  ⟨SameShape.shrefl s, rfl, fun _ => Or.inl rfl, fun _ => SameList.lrefl s⟩

theorem SweepRel.wtrans {env : Env} {s s' s'' : Mesh} (h1 : SweepRel env s s')
    (h2 : SweepRel env s' s'') : SweepRel env s s'' := by
  refine ⟨h1.1.shtrans h2.1, h2.2.1.trans h1.2.1, fun e => ?_,
    fun hf => (h1.2.2.2 hf).ltrans (h2.2.2.2 hf)⟩
  rcases h2.2.2.1 e with h | h
  · rw [h]; exact h1.2.2.1 e
  · exact Or.inr h

theorem AddRel.arefl (s : Mesh) : AddRel s s :=
  ⟨SameShape.shrefl s, SameList.lrefl s, rfl, rfl, fun _ => Or.inl rfl⟩

theorem AddRel.atrans {s s' s'' : Mesh} (h1 : AddRel s s') (h2 : AddRel s' s'') :
    AddRel s s'' := by
  refine ⟨h1.1.shtrans h2.1, h1.2.1.ltrans h2.2.1, h2.2.2.1.trans h1.2.2.1,
    h2.2.2.2.1.trans h1.2.2.2.1, fun ed => ?_⟩
  rcases h2.2.2.2.2 ed with h | h
  · rw [h]; exact h1.2.2.2.2 ed
  · exact Or.inr h

theorem HasRefinedEdge.same_iff {env : Env} {s s' : Mesh} (h : SameShape s s')
    (ha : s'.ADDPATTERN = s.ADDPATTERN) (e : Nat) :
    HasRefinedEdge env s' e ↔ HasRefinedEdge env s e := by
  unfold HasRefinedEdge
  simp only [h.edges_eq env e, h.edgeOf_eq env e, ha]

theorem GreenRel.grefl (env : Env) (s : Mesh) : GreenRel env s s :=
  ⟨SameShape.shrefl s, SameList.lrefl s, rfl, fun _ h => ⟨h, rfl⟩, fun _ => Or.inl rfl,
    fun _ _ h => absurd rfl h⟩

theorem GreenRel.gtrans {env : Env} {s s' s'' : Mesh} (h1 : GreenRel env s s')
    (h2 : GreenRel env s' s'') : GreenRel env s s'' := by
  obtain ⟨a1, a2, a3, a4, a5, a6⟩ := h1
  obtain ⟨b1, b2, b3, b4, b5, b6⟩ := h2
  refine ⟨a1.shtrans b1, a2.ltrans b2, b3.trans a3, fun e he => ?_, fun e => ?_,
    fun hd e hne => ?_⟩
  · obtain ⟨r1, m1⟩ := a4 e he
    obtain ⟨r2, m2⟩ := b4 e r1
    exact ⟨r2, m2.trans m1⟩
  · rcases b5 e with h | h
    · rw [h]; exact a5 e
    · exact Or.inr h
  · by_cases hc : s'.MARKCLASS e = s.MARKCLASS e
    · have : s''.MARKCLASS e ≠ s'.MARKCLASS e := by rw [hc]; exact hne
      exact (HasRefinedEdge.same_iff a1 a3 e).1 (b6 hd e this)
    · exact a6 hd e hc
/-! ## `CloseGrid`: the first loop -/

theorem CloseGrid_reset_edge_next (env : Env) (e j : Nat) (s y : Mesh)
    (h : CloseGrid_reset_edge env e j s = .next y) :
    ResetRel s y ∧ y.ADDPATTERN (edgeOf env s e j) = 1 := by
  unfold CloseGrid_reset_edge at h
  dsimp only at h
  split at h
  · exact absurd h (by simp)
  · simp only [LoopRes.next.injEq] at h
    subst h
    refine ⟨⟨⟨rfl, rfl, rfl⟩, ⟨rfl, rfl⟩, fun ed hed => ?_⟩, ?_⟩
    · show upd s.ADDPATTERN (edgeOf env s e j) 1 ed = 1
      by_cases hc : ed = edgeOf env s e j
      · rw [hc, upd_same]
      · rw [upd_other _ _ _ _ hc]; exact hed
    · show upd s.ADDPATTERN (edgeOf env s e j) 1 (edgeOf env s e j) = 1
      rw [upd_same]

theorem CloseGrid_reset_edge_ret (env : Env) (e j : Nat) (s : Mesh) (c : Int) (y : Mesh)
    (h : CloseGrid_reset_edge env e j s = .ret c y) : c = -1 := by
  unfold CloseGrid_reset_edge at h
  dsimp only at h
  split at h <;> exact absurd h (by simp)

theorem CloseGrid_reset_next (env : Env) (e : Nat) (s y : Mesh)
    (h : CloseGrid_reset env e s = .next y) :
    ResetRel s y ∧ ∀ j, j < EDGES_OF_ELEM env s e → y.ADDPATTERN (edgeOf env s e j) = 1 := by
  unfold CloseGrid_reset at h
  dsimp only at h
  have h0 : ResetRel s { s with USED := upd s.USED e 0 } :=
    ⟨⟨rfl, rfl, rfl⟩, ⟨rfl, rfl⟩, fun _ hh => hh⟩
  have key := forLoop_next_inv (CloseGrid_reset_edge env e)
    (fun i x => ResetRel s x ∧ ∀ j, j < i → x.ADDPATTERN (edgeOf env s e j) = 1)
    (fun i x z hx hb => by
      obtain ⟨hr, hj⟩ := hx
      obtain ⟨r1, a1⟩ := CloseGrid_reset_edge_next env e i x z hb
      refine ⟨hr.rtrans r1, fun j hlt => ?_⟩
      by_cases hji : j = i
      · subst hji; rw [← hr.1.edgeOf_eq env e j]; exact a1
      · exact r1.2.2 _ (hj j (by omega)))
    _ 0 _ y ⟨h0, fun j hj => absurd hj (by omega)⟩ h
  refine ⟨key.1, fun j hj => key.2 j ?_⟩
  have : EDGES_OF_ELEM env { s with USED := upd s.USED e 0 } e = EDGES_OF_ELEM env s e := rfl
  omega

theorem CloseGrid_reset_ret (env : Env) (e : Nat) (s : Mesh) (c : Int) (y : Mesh)
    (h : CloseGrid_reset env e s = .ret c y) : c = -1 := by
  unfold CloseGrid_reset at h
  exact forLoop_ret_code _ (fun c => c = -1) (CloseGrid_reset_edge_ret env e) _ _ _ _ _ h

theorem CloseGrid_reset_loop (env : Env) (fuel e0 : Nat) (x y : Mesh)
    (h : forElements (fun y => y.SUCCE) (CloseGrid_reset env) fuel e0 x = .next y) :
    ResetRel x y ∧ ∀ e, OnList x.SUCCE e0 e → ∀ j, j < EDGES_OF_ELEM env x e →
      y.ADDPATTERN (edgeOf env x e j) = 1 := by
  refine forElements_spec (fun y => y.SUCCE) (CloseGrid_reset env)
    (fun e0 x y => ResetRel x y ∧ ∀ e, OnList x.SUCCE e0 e → ∀ j, j < EDGES_OF_ELEM env x e →
      y.ADDPATTERN (edgeOf env x e j) = 1) ?_ ?_ fuel e0 x y h
  · intro x
    exact ⟨ResetRel.rrefl x, fun e he => absurd rfl he.ne_zero⟩
  · intro e x x1 y _ hb hpost
    obtain ⟨r1, a1⟩ := CloseGrid_reset_next env e x x1 hb
    obtain ⟨r2, a2⟩ := hpost
    refine ⟨r1.rtrans r2, fun e' he' j hj => ?_⟩
    rcases he'.cases_on_first with hh | hh
    · subst hh; exact r2.2.2 _ (a1 j hj)
    · have := a2 e' (by show OnList x1.SUCCE (x1.SUCCE e) e'; rw [r1.2.1.1]; exact hh) j (by rw [r1.1.edges_eq]; exact hj)
      rw [r1.1.edgeOf_eq] at this
      exact this

/-! ## `CloseGrid`: the second loop -/

theorem CloseGrid_pattern_edge_next (env : Env) (e : Nat) (Mark : Int) (i : Nat) (s y : Mesh)
    (h : CloseGrid_pattern_edge env e Mark i s = .next y) :
    PatternRel s y ∧ y.MARKCLASS = s.MARKCLASS := by
  unfold CloseGrid_pattern_edge at h
  dsimp only at h
  split at h
  · split at h <;>
    · simp only [LoopRes.next.injEq] at h
      subst h
      exact ⟨⟨⟨rfl, rfl, rfl⟩, ⟨rfl, rfl⟩, rfl, fun _ => Or.inl rfl⟩, rfl⟩
  · simp only [LoopRes.next.injEq] at h
    subst h
    exact ⟨PatternRel.prefl _, rfl⟩

theorem CloseGrid_pattern_edge_ret (env : Env) (e : Nat) (Mark : Int) (i : Nat) (s : Mesh)
    (c : Int) (y : Mesh) (h : CloseGrid_pattern_edge env e Mark i s = .ret c y) : c = -1 := by
  unfold CloseGrid_pattern_edge at h
  dsimp only at h
  split at h
  · split at h <;> exact absurd h (by simp)
  · exact absurd h (by simp)

theorem CloseGrid_pattern_side_next (env : Env) (e : Nat) (Mark : Int) (i : Nat) (s y : Mesh)
    (h : CloseGrid_pattern_side env e Mark i s = .next y) :
    PatternRel s y ∧ y.MARKCLASS = s.MARKCLASS := by
  unfold CloseGrid_pattern_side at h
  split at h
  · split at h <;>
    · simp only [LoopRes.next.injEq] at h
      subst h
      exact ⟨⟨⟨rfl, rfl, rfl⟩, ⟨rfl, rfl⟩, rfl, fun _ => Or.inl rfl⟩, rfl⟩
  · simp only [LoopRes.next.injEq] at h
    subst h
    exact ⟨PatternRel.prefl _, rfl⟩

theorem CloseGrid_pattern_side_ret (env : Env) (e : Nat) (Mark : Int) (i : Nat) (s : Mesh)
    (c : Int) (y : Mesh) (h : CloseGrid_pattern_side env e Mark i s = .ret c y) : c = -1 := by
  unfold CloseGrid_pattern_side at h
  split at h
  · split at h <;> exact absurd h (by simp)
  · exact absurd h (by simp)

theorem CloseGrid_pattern_next (env : Env) (e : Nat) (s y : Mesh)
    (h : CloseGrid_pattern env e s = .next y) :
    PatternRel s y ∧
      (y.MARKCLASS e = CLASS.RED_CLASS ∨ y.MARKCLASS e = CLASS.NO_CLASS) := by
  unfold CloseGrid_pattern at h
  split at h
  · rename_i hred
    dsimp only at h
    split at h
    · rename_i s1 h1
      have k1 := forLoop_next_rel (CloseGrid_pattern_edge env e (s.MARK e))
        (fun x => PatternRel s x ∧ x.MARKCLASS = s.MARKCLASS)
        (fun i x z hx hb => by
          obtain ⟨p, m⟩ := CloseGrid_pattern_edge_next env e _ i x z hb
          exact ⟨hx.1.ptrans p, m.trans hx.2⟩)
        _ 0 s s1 ⟨PatternRel.prefl s, rfl⟩ h1
      have k2 : PatternRel s { s1 with SIDEPATTERN := upd s1.SIDEPATTERN e 0 } ∧
          ({ s1 with SIDEPATTERN := upd s1.SIDEPATTERN e 0 } : Mesh).MARKCLASS = s.MARKCLASS :=
        ⟨k1.1.ptrans ⟨⟨rfl, rfl, rfl⟩, ⟨rfl, rfl⟩, rfl, fun _ => Or.inl rfl⟩, k1.2⟩
      split at h
      · simp only [LoopRes.next.injEq] at h
        subst h
        exact ⟨k2.1, Or.inl (by rw [k2.2]; exact hred)⟩
      · have k3 := forLoop_next_rel (CloseGrid_pattern_side env e (s.MARK e))
          (fun x => PatternRel s x ∧ x.MARKCLASS = s.MARKCLASS)
          (fun i x z hx hb => by
            obtain ⟨p, m⟩ := CloseGrid_pattern_side_next env e _ i x z hb
            exact ⟨hx.1.ptrans p, m.trans hx.2⟩)
          _ 0 _ y k2 h
        exact ⟨k3.1, Or.inl (by rw [k3.2]; exact hred)⟩
    · exact absurd h (by simp)
    · exact absurd h (by simp)
  · dsimp only at h
    simp only [LoopRes.next.injEq] at h
    subst h
    refine ⟨⟨⟨rfl, rfl, rfl⟩, ⟨rfl, rfl⟩, rfl, fun e' => ?_⟩, Or.inr ?_⟩
    · show upd s.MARKCLASS e CLASS.NO_CLASS e' = s.MARKCLASS e' ∨
        upd s.MARKCLASS e CLASS.NO_CLASS e' = CLASS.NO_CLASS
      by_cases hc : e' = e
      · rw [hc, upd_same]; exact Or.inr rfl
      · rw [upd_other _ _ _ _ hc]; exact Or.inl rfl
    · show upd s.MARKCLASS e CLASS.NO_CLASS e = CLASS.NO_CLASS
      rw [upd_same]

theorem CloseGrid_pattern_ret (env : Env) (e : Nat) (s : Mesh) (c : Int) (y : Mesh)
    (h : CloseGrid_pattern env e s = .ret c y) : c = -1 := by
  unfold CloseGrid_pattern at h
  split at h
  · dsimp only at h
    split at h
    · split at h
      · exact absurd h (by simp)
      · exact forLoop_ret_code _ (fun c => c = -1) (CloseGrid_pattern_side_ret env e _)
          _ _ _ _ _ h
    · rename_i c' y' h1
      simp only [LoopRes.ret.injEq] at h
      obtain ⟨rfl, rfl⟩ := h
      exact forLoop_ret_code _ (fun c => c = -1) (CloseGrid_pattern_edge_ret env e _)
        _ _ _ _ _ h1
    · exact absurd h (by simp)
  · exact absurd h (by simp)

theorem CloseGrid_pattern_loop (env : Env) (fuel e0 : Nat) (x y : Mesh)
    (h : forElements (fun y => y.SUCCE) (CloseGrid_pattern env) fuel e0 x = .next y) :
    PatternRel x y ∧ ∀ e, OnList x.SUCCE e0 e →
      (y.MARKCLASS e = CLASS.RED_CLASS ∨ y.MARKCLASS e = CLASS.NO_CLASS) := by
  refine forElements_spec (fun y => y.SUCCE) (CloseGrid_pattern env)
    (fun e0 x y => PatternRel x y ∧ ∀ e, OnList x.SUCCE e0 e →
      (y.MARKCLASS e = CLASS.RED_CLASS ∨ y.MARKCLASS e = CLASS.NO_CLASS)) ?_ ?_ fuel e0 x y h
  · intro x
    exact ⟨PatternRel.prefl x, fun e he => absurd rfl he.ne_zero⟩
  · intro e x x1 y _ hb hpost
    obtain ⟨r1, a1⟩ := CloseGrid_pattern_next env e x x1 hb
    obtain ⟨r2, a2⟩ := hpost
    refine ⟨r1.ptrans r2, fun e' he' => ?_⟩
    rcases he'.cases_on_first with hh | hh
    · subst hh
      rcases r2.2.2.2 e' with hk | hk
      · rw [hk]; exact a1
      · exact Or.inr hk
    · exact a2 e' (by show OnList x1.SUCCE (x1.SUCCE e) e'; rw [r1.2.1.1]; exact hh)
/-! ## `CloseGrid`: the third loop -/

theorem SweepRel.of_sidepattern (env : Env) (s : Mesh) (v : Nat → Nat) :
    SweepRel env s { s with SIDEPATTERN := v } :=
  ⟨⟨rfl, rfl, rfl⟩, rfl, fun _ => Or.inl rfl, fun _ => ⟨rfl, rfl⟩⟩

theorem SweepRel.of_used (env : Env) (s : Mesh) (v : Nat → Nat) :
    SweepRel env s { s with USED := v } :=
  ⟨⟨rfl, rfl, rfl⟩, rfl, fun _ => Or.inl rfl, fun _ => ⟨rfl, rfl⟩⟩

theorem CloseGrid_side_tetrahedron_next (env : Env) (e : Nat) (MyEdgeNum : Int)
    (Nb j : Nat) (s y : Mesh)
    (h : CloseGrid_side_tetrahedron env e MyEdgeNum Nb j s = .next y) : SweepRel env s y := by
  unfold CloseGrid_side_tetrahedron at h
  dsimp only at h
  repeat' split at h
  all_goals first
    | contradiction
    | (simp only [LoopRes.next.injEq] at h; subst h
       first | exact SweepRel.wrefl _ _ | exact SweepRel.of_sidepattern _ _ _)

theorem CloseGrid_side_tetrahedron_ret (env : Env) (e : Nat) (MyEdgeNum : Int)
    (Nb j : Nat) (s : Mesh) (c : Int) (y : Mesh)
    (h : CloseGrid_side_tetrahedron env e MyEdgeNum Nb j s = .ret c y) : c = -1 := by
  unfold CloseGrid_side_tetrahedron at h
  dsimp only at h
  repeat' split at h
  all_goals first
    | contradiction
    | (simp only [LoopRes.ret.injEq] at h; exact h.1.symm)

theorem CloseGrid_side_prism_next (env : Env) (e : Nat) (MyEdgeNum : Int)
    (Nb j : Nat) (s y : Mesh)
    (h : CloseGrid_side_prism env e MyEdgeNum Nb j s = .next y) : SweepRel env s y := by
  unfold CloseGrid_side_prism at h
  repeat' split at h
  all_goals first
    | contradiction
    | (simp only [LoopRes.next.injEq] at h; subst h
       first | exact SweepRel.wrefl _ _ | exact SweepRel.of_sidepattern _ _ _)

theorem CloseGrid_side_prism_ret (env : Env) (e : Nat) (MyEdgeNum : Int)
    (Nb j : Nat) (s : Mesh) (c : Int) (y : Mesh)
    (h : CloseGrid_side_prism env e MyEdgeNum Nb j s = .ret c y) : c = -1 := by
  unfold CloseGrid_side_prism at h
  repeat' split at h
  all_goals first
    | contradiction
    | (simp only [LoopRes.ret.injEq] at h; exact h.1.symm)

theorem CloseGrid_side_triangle_next (env : Env) (e MyEdgePattern i Nb j : Nat) (s y : Mesh)
    (h : CloseGrid_side_triangle env e MyEdgePattern i Nb j s = .next y) :
    SweepRel env s y := by
  unfold CloseGrid_side_triangle at h
  repeat' split at h
  all_goals first
    | contradiction
    | exact CloseGrid_side_tetrahedron_next _ _ _ _ _ _ _ h
    | exact CloseGrid_side_prism_next _ _ _ _ _ _ _ h
    | (simp only [LoopRes.next.injEq] at h; subst h; exact SweepRel.wrefl _ _)

theorem CloseGrid_side_triangle_ret (env : Env) (e MyEdgePattern i Nb j : Nat) (s : Mesh)
    (c : Int) (y : Mesh)
    (h : CloseGrid_side_triangle env e MyEdgePattern i Nb j s = .ret c y) : c = -1 := by
  unfold CloseGrid_side_triangle at h
  repeat' split at h
  all_goals first
    | contradiction
    | exact CloseGrid_side_tetrahedron_ret _ _ _ _ _ _ _ _ h
    | exact CloseGrid_side_prism_ret _ _ _ _ _ _ _ _ h
    | (simp only [LoopRes.ret.injEq] at h; exact h.1.symm)

theorem CloseGrid_side_next (env : Env) (e MyEdgePattern i : Nat) (s y : Mesh)
    (h : CloseGrid_side env e MyEdgePattern i s = .next y) : SweepRel env s y := by
  unfold CloseGrid_side at h
  dsimp only at h
  repeat' split at h
  all_goals first
    | contradiction
    | exact CloseGrid_side_triangle_next _ _ _ _ _ _ _ _ h
    | (simp only [LoopRes.next.injEq] at h; subst h
       first | exact SweepRel.wrefl _ _ | exact SweepRel.of_sidepattern _ _ _)

theorem CloseGrid_side_ret (env : Env) (e MyEdgePattern i : Nat) (s : Mesh)
    (c : Int) (y : Mesh) (h : CloseGrid_side env e MyEdgePattern i s = .ret c y) :
    c = -1 := by
  unfold CloseGrid_side at h
  dsimp only at h
  repeat' split at h
  all_goals first
    | contradiction
    | exact CloseGrid_side_triangle_ret _ _ _ _ _ _ _ _ _ h
    | (simp only [LoopRes.ret.injEq] at h; exact h.1.symm)

theorem CloseGrid_sidepattern_next (env : Env) (e : Nat) (s y : Mesh)
    (h : CloseGrid_sidepattern env e s = .next y) : SweepRel env s y := by
  unfold CloseGrid_sidepattern at h
  dsimp only at h
  split at h
  · exact absurd h (by simp)
  · split at h
    · simp only [LoopRes.next.injEq] at h; subst h; exact SweepRel.of_used _ _ _
    · split at h
      · simp only [LoopRes.next.injEq] at h; subst h; exact SweepRel.of_used _ _ _
      · exact forLoop_next_rel _ (fun x => SweepRel env s x)
          (fun i x z hx hb => hx.wtrans (CloseGrid_side_next env e _ i x z hb))
          _ 0 _ y (SweepRel.of_used _ _ _) h

theorem CloseGrid_sidepattern_ret (env : Env) (e : Nat) (s : Mesh) (c : Int) (y : Mesh)
    (h : CloseGrid_sidepattern env e s = .ret c y) : c = -1 := by
  unfold CloseGrid_sidepattern at h
  dsimp only at h
  split at h
  · exact absurd h (by simp)
  · split at h
    · exact absurd h (by simp)
    · split at h
      · exact absurd h (by simp)
      · exact forLoop_ret_code _ (fun c => c = -1) (CloseGrid_side_ret env e _) _ _ _ _ _ h
/-! ## `CloseGrid`: the fourth loop and the FIFO -/

theorem FifoRel.frefl (s : Mesh) : FifoRel s s := ⟨SameShape.shrefl s, rfl, rfl⟩

theorem FifoRel.ftrans {s s' s'' : Mesh} (h1 : FifoRel s s') (h2 : FifoRel s' s'') :
    FifoRel s s'' :=
  ⟨h1.1.shtrans h2.1, h2.2.1.trans h1.2.1, h2.2.2.trans h1.2.2⟩

theorem FifoRel.sweep {s s' : Mesh} (h : FifoRel s s') (env : Env) (hf : env.fifoFlag ≠ 0) :
    SweepRel env s s' :=
  ⟨h.1, h.2.1, fun e => Or.inl (by rw [h.2.2]), fun h0 => absurd h0 hf⟩

theorem CloseGrid_mark_some (env : Env) (s : Mesh) (e : Nat) (Mark : Int) (m : Int × Mesh)
    (h : CloseGrid_mark env s e Mark = some m) : SweepRel env s m.2 := by
  unfold CloseGrid_mark at h
  repeat' split at h
  all_goals first
    | contradiction
    | (simp only [Option.some.injEq] at h; subst h
       first
         | exact SweepRel.wrefl _ _
         | (refine ⟨⟨rfl, rfl, rfl⟩, rfl, fun e' => ?_, fun _ => ⟨rfl, rfl⟩⟩
            show upd s.MARKCLASS e CLASS.RED_CLASS e' = s.MARKCLASS e' ∨
              upd s.MARKCLASS e CLASS.RED_CLASS e' = CLASS.RED_CLASS
            by_cases hc : e' = e
            · rw [hc, upd_same]; exact Or.inr rfl
            · rw [upd_other _ _ _ _ hc]; exact Or.inl rfl))

theorem FifoRel.ite {s a b : Mesh} (c : Prop) [Decidable c] (ha : FifoRel s a)
    (hb : FifoRel s b) : FifoRel s (if c then a else b) := by
  split_ifs <;> assumption

theorem CloseGrid_enqueue_rel (Nb : Nat) (s : Mesh) : FifoRel s (CloseGrid_enqueue Nb s) := by
  unfold CloseGrid_enqueue
  lift_lets
  intro s1 s2 s3 s4 s5 s6 s7
  have h1 : FifoRel s s1 := FifoRel.ite _ ⟨⟨rfl, rfl, rfl⟩, rfl, rfl⟩ (FifoRel.frefl s)
  have h2 : FifoRel s1 s2 := FifoRel.ite _ ⟨⟨rfl, rfl, rfl⟩, rfl, rfl⟩ (FifoRel.frefl s1)
  have h3 : FifoRel s2 s3 := FifoRel.ite _ ⟨⟨rfl, rfl, rfl⟩, rfl, rfl⟩ (FifoRel.frefl s2)
  have h4 : FifoRel s3 s4 := ⟨⟨rfl, rfl, rfl⟩, rfl, rfl⟩
  have h5 : FifoRel s4 s5 := ⟨⟨rfl, rfl, rfl⟩, rfl, rfl⟩
  have h6 : FifoRel s5 s6 := ⟨⟨rfl, rfl, rfl⟩, rfl, rfl⟩
  have h7 : FifoRel s6 s7 := ⟨⟨rfl, rfl, rfl⟩, rfl, rfl⟩
  have h05 : FifoRel s s5 := h1.ftrans (h2.ftrans (h3.ftrans (h4.ftrans h5)))
  refine h05.ftrans (FifoRel.ite _ ⟨⟨rfl, rfl, rfl⟩, rfl, rfl⟩ ?_)
  exact h6.ftrans (h7.ftrans ⟨⟨rfl, rfl, rfl⟩, rfl, rfl⟩)

theorem CloseGrid_fifo_edge_next (env : Env) (e MyPattern NewPattern j : Nat) (s y : Mesh)
    (h : CloseGrid_fifo_edge env e MyPattern NewPattern j s = .next y) : FifoRel s y := by
  unfold CloseGrid_fifo_edge at h
  split at h
  · lift_lets at h
    extract_lets MyEdge s1 NbElement at h
    have h1 : FifoRel s s1 := FifoRel.ite _ ⟨⟨rfl, rfl, rfl⟩, rfl, rfl⟩ (FifoRel.frefl s)
    split at h
    · simp only [LoopRes.next.injEq] at h; subst h; exact h1
    · split at h
      · simp only [LoopRes.next.injEq] at h; subst h; exact h1
      · simp only [LoopRes.next.injEq] at h; subst h
        exact h1.ftrans (CloseGrid_enqueue_rel _ _)
  · split at h
    · contradiction
    · simp only [LoopRes.next.injEq] at h; subst h; exact FifoRel.frefl _

theorem CloseGrid_fifo_edge_ret (env : Env) (e MyPattern NewPattern j : Nat) (s : Mesh)
    (c : Int) (y : Mesh)
    (h : CloseGrid_fifo_edge env e MyPattern NewPattern j s = .ret c y) : c = -1 := by
  unfold CloseGrid_fifo_edge at h
  split at h
  · lift_lets at h
    extract_lets MyEdge s1 NbElement at h
    split at h
    · contradiction
    · split at h <;> contradiction
  · split at h
    · simp only [LoopRes.ret.injEq] at h; exact h.1.symm
    · contradiction

theorem CloseGrid_fifo_next (env : Env) (e MyPattern NewPattern : Nat) (s y : Mesh)
    (h : CloseGrid_fifo env e MyPattern NewPattern s = .next y) : SweepRel env s y := by
  unfold CloseGrid_fifo at h
  split at h
  · rename_i hc
    split at h
    · exact (forLoop_next_rel _ (fun x => FifoRel s x)
        (fun i x z hx hb => hx.ftrans (CloseGrid_fifo_edge_next env e _ _ i x z hb))
        _ 0 _ y (FifoRel.frefl s) h).sweep env hc.1
    · split at h
      · contradiction
      · simp only [LoopRes.next.injEq] at h; subst h; exact SweepRel.wrefl _ _
  · simp only [LoopRes.next.injEq] at h; subst h; exact SweepRel.wrefl _ _

theorem CloseGrid_fifo_ret (env : Env) (e MyPattern NewPattern : Nat) (s : Mesh)
    (c : Int) (y : Mesh)
    (h : CloseGrid_fifo env e MyPattern NewPattern s = .ret c y) : c = -1 := by
  unfold CloseGrid_fifo at h
  split at h
  · split at h
    · exact forLoop_ret_code _ (fun c => c = -1) (CloseGrid_fifo_edge_ret env e _ _)
        _ _ _ _ _ h
    · split at h
      · simp only [LoopRes.ret.injEq] at h; exact h.1.symm
      · contradiction
  · contradiction

theorem CloseGrid_rule_next (env : Env) (e : Nat) (x y : Mesh × Int)
    (h : CloseGrid_rule env e x = .next y) : SweepRel env x.1 y.1 := by
  unfold CloseGrid_rule at h
  dsimp only at h
  split at h
  · contradiction
  · split at h
    · contradiction
    · rename_i m hm
      split at h
      · contradiction
      · rename_i Mark hMark
        split at h
        · rename_i s2 h2
          simp only [LoopRes.next.injEq] at h
          subst h
          have r1 := CloseGrid_mark_some env x.1 e _ m hm
          have r2 := CloseGrid_fifo_next env e _ _ m.2 s2 h2
          exact (r1.wtrans r2).wtrans
            ⟨⟨rfl, rfl, rfl⟩, rfl, fun _ => Or.inl rfl, fun _ => ⟨rfl, rfl⟩⟩
        · contradiction
        · contradiction

theorem CloseGrid_rule_ret (env : Env) (e : Nat) (x : Mesh × Int) (c : Int) (y : Mesh × Int)
    (h : CloseGrid_rule env e x = .ret c y) : c = -1 := by
  unfold CloseGrid_rule at h
  dsimp only at h
  split at h
  · contradiction
  · split at h
    · contradiction
    · split at h
      · contradiction
      · split at h
        · contradiction
        · rename_i c' s2 h2
          simp only [LoopRes.ret.injEq] at h
          obtain ⟨rfl, _⟩ := h
          exact CloseGrid_fifo_ret env e _ _ _ _ _ h2
        · contradiction

theorem CloseGrid_reinsert_next (e : Nat) (s y : Mesh)
    (h : CloseGrid_reinsert e s = .next y) : FifoRel s y := by
  unfold CloseGrid_reinsert at h
  dsimp only at h
  split at h
  · contradiction
  · simp only [LoopRes.next.injEq] at h; subst h; exact ⟨⟨rfl, rfl, rfl⟩, rfl, rfl⟩

theorem CloseGrid_reinsert_ret (e : Nat) (s : Mesh) (c : Int) (y : Mesh)
    (h : CloseGrid_reinsert e s = .ret c y) : c = -1 := by
  unfold CloseGrid_reinsert at h
  dsimp only at h
  split at h <;> contradiction

theorem CloseGrid_sweeps_next (env : Env) (fuel : Nat) :
    ∀ (k first : Nat) (s : Mesh) (y : Mesh × Int),
      CloseGrid_sweeps env fuel k first s = .next y → SweepRel env s y.1 := by
  intro k
  induction k with
  | zero => intro first s y h; unfold CloseGrid_sweeps at h; contradiction
  | succ k ih =>
    intro first s y h
    unfold CloseGrid_sweeps at h
    split at h
    · contradiction
    · contradiction
    · rename_i s3 h3
      have r3 : SweepRel env s s3 :=
        forElements_next_inv _ _ (fun x => SweepRel env s x)
          (fun e x z hx hb => hx.wtrans (CloseGrid_sidepattern_next env e x z hb))
          fuel first s s3 (SweepRel.wrefl env s) h3
      split at h
      · contradiction
      · contradiction
      · rename_i x4 h4
        have r4 : SweepRel env s x4.1 :=
          forElements_next_inv _ _ (fun x : Mesh × Int => SweepRel env s x.1)
            (fun e x z hx hb => hx.wtrans (CloseGrid_rule_next env e x z hb))
            fuel first (s3, 0) x4 r3 h4
        split at h
        · rename_i hf
          split at h
          · contradiction
          · contradiction
          · rename_i s5 h5
            have r5 : FifoRel x4.1 s5 :=
              forElements_next_inv _ _ (fun x => FifoRel x4.1 x)
                (fun e x z hx hb => hx.ftrans (CloseGrid_reinsert_next e x z hb))
                fuel _ x4.1 s5 (FifoRel.frefl _) h5
            have r6 : SweepRel env s { s5 with PREDE := upd s5.PREDE s5.FIRSTELEMENT 0 } :=
              r4.wtrans ((r5.ftrans ⟨⟨rfl, rfl, rfl⟩, rfl, rfl⟩).sweep env hf)
            split at h
            · contradiction
            · dsimp only at h
              split at h
              · have r7 := ih _ _ _ h
                exact r6.wtrans
                  ((FifoRel.sweep ⟨⟨rfl, rfl, rfl⟩, rfl, rfl⟩ env hf).wtrans r7)
              · simp only [LoopRes.next.injEq] at h; subst h; exact r6
        · simp only [LoopRes.next.injEq] at h; subst h; exact r4

theorem CloseGrid_sweeps_ret (env : Env) (fuel : Nat) :
    ∀ (k first : Nat) (s : Mesh) (c : Int) (y : Mesh × Int),
      CloseGrid_sweeps env fuel k first s = .ret c y → c = -1 := by
  intro k
  induction k with
  | zero => intro first s c y h; unfold CloseGrid_sweeps at h; contradiction
  | succ k ih =>
    intro first s c y h
    unfold CloseGrid_sweeps at h
    split at h
    · rename_i c' y' h3
      simp only [LoopRes.ret.injEq] at h
      obtain ⟨rfl, _⟩ := h
      exact forElements_ret_code _ _ (fun c => c = -1)
        (fun e x c y hb => CloseGrid_sidepattern_ret env e x c y hb) _ _ _ _ _ h3
    · contradiction
    · split at h
      · rename_i c' y' h4
        simp only [LoopRes.ret.injEq] at h
        obtain ⟨rfl, _⟩ := h
        exact forElements_ret_code _ _ (fun c => c = -1)
          (fun e x c y hb => CloseGrid_rule_ret env e x c y hb) _ _ _ _ _ h4
      · contradiction
      · split at h
        · split at h
          · rename_i c' y' h5
            simp only [LoopRes.ret.injEq] at h
            obtain ⟨rfl, _⟩ := h
            exact forElements_ret_code _ _ (fun c => c = -1)
              (fun e x c y hb => CloseGrid_reinsert_ret e x c y hb) _ _ _ _ _ h5
          · contradiction
          · split at h
            · contradiction
            · dsimp only at h
              split at h
              · exact ih _ _ _ _ h
              · contradiction
        · contradiction
/-! ## `CloseGrid`: the fifth loop -/

theorem CloseGrid_addpattern_edge_next (env : Env) (e j : Nat) (s y : Mesh)
    (h : CloseGrid_addpattern_edge env e j s = .next y) :
    AddRel s y ∧ ∀ ed, (y.ADDPATTERN ed = 0 ↔ s.ADDPATTERN ed = 0 ∨
      (env.NODE_OF_RULE (s.TAG e) (s.MARK e) j ≠ 0 ∧ edgeOf env s e j = ed)) := by
  unfold CloseGrid_addpattern_edge at h
  split at h
  · rename_i hn
    simp only [LoopRes.next.injEq] at h
    subst h
    exact ⟨AddRel.arefl _, fun ed => ⟨fun hh => Or.inl hh, fun hh => hh.elim id
      (fun hk => absurd hn hk.1)⟩⟩
  · rename_i hn
    dsimp only at h
    split at h
    · contradiction
    · simp only [LoopRes.next.injEq] at h
      subst h
      refine ⟨⟨⟨rfl, rfl, rfl⟩, ⟨rfl, rfl⟩, rfl, rfl, fun ed => ?_⟩, fun ed => ?_⟩
      · show upd s.ADDPATTERN (edgeOf env s e j) 0 ed = s.ADDPATTERN ed ∨
          upd s.ADDPATTERN (edgeOf env s e j) 0 ed = 0
        by_cases hc : ed = edgeOf env s e j
        · rw [hc, upd_same]; exact Or.inr rfl
        · rw [upd_other _ _ _ _ hc]; exact Or.inl rfl
      · show upd s.ADDPATTERN (edgeOf env s e j) 0 ed = 0 ↔ _
        by_cases hc : ed = edgeOf env s e j
        · rw [hc, upd_same]
          exact ⟨fun _ => Or.inr ⟨hn, rfl⟩, fun _ => rfl⟩
        · rw [upd_other _ _ _ _ hc]
          exact ⟨fun hh => Or.inl hh, fun hh => hh.elim id (fun hk => absurd hk.2.symm hc)⟩

theorem CloseGrid_addpattern_edge_ret (env : Env) (e j : Nat) (s : Mesh) (c : Int) (y : Mesh)
    (h : CloseGrid_addpattern_edge env e j s = .ret c y) : c = -1 := by
  unfold CloseGrid_addpattern_edge at h
  split at h
  · contradiction
  · dsimp only at h
    split at h <;> contradiction

theorem AddRel.node_eq {s x : Mesh} (h : AddRel s x) (env : Env) (e j : Nat) :
    env.NODE_OF_RULE (x.TAG e) (x.MARK e) j = env.NODE_OF_RULE (s.TAG e) (s.MARK e) j := by
  rw [h.1.1, h.2.2.1]

theorem CloseGrid_addpattern_next (env : Env) (e : Nat) (s y : Mesh)
    (h : CloseGrid_addpattern env e s = .next y) :
    AddRel s y ∧ ∀ ed, (y.ADDPATTERN ed = 0 ↔ s.ADDPATTERN ed = 0 ∨
      (s.MARKCLASS e = CLASS.RED_CLASS ∧ ∃ j, j < EDGES_OF_ELEM env s e ∧
        env.NODE_OF_RULE (s.TAG e) (s.MARK e) j ≠ 0 ∧ edgeOf env s e j = ed)) := by
  unfold CloseGrid_addpattern at h
  split at h
  · rename_i hr
    simp only [LoopRes.next.injEq] at h
    subst h
    exact ⟨AddRel.arefl _, fun ed => ⟨fun hh => Or.inl hh, fun hh => hh.elim id
      (fun hk => absurd hk.1 hr)⟩⟩
  · rename_i hr
    have hred : s.MARKCLASS e = CLASS.RED_CLASS := not_not.mp hr
    have key := forLoop_next_inv (CloseGrid_addpattern_edge env e)
      (fun i x => AddRel s x ∧ ∀ ed, (x.ADDPATTERN ed = 0 ↔ s.ADDPATTERN ed = 0 ∨
        ∃ j, j < i ∧ env.NODE_OF_RULE (s.TAG e) (s.MARK e) j ≠ 0 ∧ edgeOf env s e j = ed))
      (fun i x z hx hb => by
        obtain ⟨hr1, hj⟩ := hx
        obtain ⟨r1, a1⟩ := CloseGrid_addpattern_edge_next env e i x z hb
        refine ⟨hr1.atrans r1, fun ed => ?_⟩
        rw [a1 ed, hj ed, hr1.node_eq env e i, hr1.1.edgeOf_eq env e i]
        constructor
        · rintro ((hh | ⟨j, hj1, hj2⟩) | hh)
          · exact Or.inl hh
          · exact Or.inr ⟨j, by omega, hj2⟩
          · exact Or.inr ⟨i, by omega, hh⟩
        · rintro (hh | ⟨j, hj1, hj2⟩)
          · exact Or.inl (Or.inl hh)
          · by_cases hji : j = i
            · subst hji; exact Or.inr hj2
            · exact Or.inl (Or.inr ⟨j, by omega, hj2⟩))
      _ 0 s y ⟨AddRel.arefl s, fun ed => ⟨fun hh => Or.inl hh, fun hh => hh.elim id
        (fun ⟨j, hj, _⟩ => absurd hj (by omega))⟩⟩ h
    refine ⟨key.1, fun ed => ?_⟩
    rw [key.2 ed]
    constructor
    · rintro (hh | ⟨j, hj1, hj2⟩)
      · exact Or.inl hh
      · exact Or.inr ⟨hred, j, by omega, hj2⟩
    · rintro (hh | ⟨_, j, hj1, hj2⟩)
      · exact Or.inl hh
      · exact Or.inr ⟨j, by omega, hj2⟩

theorem CloseGrid_addpattern_ret (env : Env) (e : Nat) (s : Mesh) (c : Int) (y : Mesh)
    (h : CloseGrid_addpattern env e s = .ret c y) : c = -1 := by
  unfold CloseGrid_addpattern at h
  split at h
  · contradiction
  · exact forLoop_ret_code _ (fun c => c = -1) (CloseGrid_addpattern_edge_ret env e)
      _ _ _ _ _ h

theorem RedBisects.add_iff {env : Env} {s s' : Mesh} (h : AddRel s s') (first ed : Nat) :
    RedBisects env s' first ed ↔ RedBisects env s first ed := by
  unfold RedBisects
  simp only [h.1.edges_eq env, h.1.edgeOf_eq env, h.2.1.1, h.2.2.1, h.2.2.2.1, h.1.1]

theorem RedBisects.unfold_first (env : Env) (s : Mesh) (e ed : Nat) (he : e ≠ 0) :
    RedBisects env s e ed ↔
      (s.MARKCLASS e = CLASS.RED_CLASS ∧ ∃ j, j < EDGES_OF_ELEM env s e ∧
        env.NODE_OF_RULE (s.TAG e) (s.MARK e) j ≠ 0 ∧ edgeOf env s e j = ed) ∨
      RedBisects env s (s.SUCCE e) ed := by
  constructor
  · rintro ⟨e', j, hl, h1, h2, h3, h4⟩
    rcases hl.cases_on_first with hh | hh
    · subst hh; exact Or.inl ⟨h1, j, h2, h3, h4⟩
    · exact Or.inr ⟨e', j, hh, h1, h2, h3, h4⟩
  · rintro (⟨h1, j, h2, h3, h4⟩ | ⟨e', j, hl, h1, h2, h3, h4⟩)
    · exact ⟨e, j, OnList.head e he, h1, h2, h3, h4⟩
    · exact ⟨e', j, OnList.tail e e' he hl, h1, h2, h3, h4⟩

theorem CloseGrid_addpattern_loop (env : Env) (fuel e0 : Nat) (x y : Mesh)
    (h : forElements (fun y => y.SUCCE) (CloseGrid_addpattern env) fuel e0 x = .next y) :
    AddRel x y ∧
      ∀ ed, (y.ADDPATTERN ed = 0 ↔ x.ADDPATTERN ed = 0 ∨ RedBisects env x e0 ed) := by
  refine forElements_spec (fun y => y.SUCCE) (CloseGrid_addpattern env)
    (fun e0 x y => AddRel x y ∧
      ∀ ed, (y.ADDPATTERN ed = 0 ↔ x.ADDPATTERN ed = 0 ∨ RedBisects env x e0 ed))
    ?_ ?_ fuel e0 x y h
  · intro x
    exact ⟨AddRel.arefl x, fun ed => ⟨fun hh => Or.inl hh, fun hh => hh.elim id
      (fun ⟨_, _, hl, _⟩ => absurd rfl hl.ne_zero)⟩⟩
  · intro e x x1 y he hb hpost
    obtain ⟨r1, a1⟩ := CloseGrid_addpattern_next env e x x1 hb
    obtain ⟨r2, a2⟩ := hpost
    refine ⟨r1.atrans r2, fun ed => ?_⟩
    have e1 : (fun y : Mesh => y.SUCCE) x1 e = x.SUCCE e := by
      show x1.SUCCE e = x.SUCCE e
      rw [r1.2.1.1]
    rw [a2 ed, a1 ed, e1, RedBisects.add_iff r1, RedBisects.unfold_first env x e ed he]
    constructor
    · rintro ((h1 | h2) | h3)
      · exact Or.inl h1
      · exact Or.inr (Or.inl h2)
      · exact Or.inr (Or.inr h3)
    · rintro (h1 | h2 | h3)
      · exact Or.inl (Or.inl h1)
      · exact Or.inl (Or.inr h2)
      · exact Or.inr h3
/-! ## `CloseGrid`: the sixth loop -/

theorem GreenLocal.glrefl (e : Nat) (s : Mesh) : GreenLocal e s s :=
  ⟨SameShape.shrefl s, SameList.lrefl s, rfl, fun _ _ => ⟨rfl, rfl⟩, Or.inl rfl⟩

theorem GreenLocal.gltrans {e : Nat} {s s' s'' : Mesh} (h1 : GreenLocal e s s')
    (h2 : GreenLocal e s' s'') : GreenLocal e s s'' := by
  obtain ⟨a1, a2, a3, a4, a5⟩ := h1
  obtain ⟨b1, b2, b3, b4, b5⟩ := h2
  refine ⟨a1.shtrans b1, a2.ltrans b2, b3.trans a3, fun e' he' => ?_, ?_⟩
  · exact ⟨(b4 e' he').1.trans (a4 e' he').1, (b4 e' he').2.trans (a4 e' he').2⟩
  · rcases b5 with h | h
    · rw [h]; exact a5
    · exact Or.inr h

theorem GreenLocal.gl_ite {e : Nat} {s a b : Mesh} (c : Prop) [Decidable c]
    (ha : GreenLocal e s a ∧ a.MARKCLASS = s.MARKCLASS)
    (hb : GreenLocal e s b ∧ b.MARKCLASS = s.MARKCLASS) :
    GreenLocal e s (if c then a else b) ∧ (if c then a else b).MARKCLASS = s.MARKCLASS := by
  split_ifs <;> assumption

theorem GreenLocal.gl_mark (e : Nat) (s : Mesh) (v : Int) :
    GreenLocal e s { s with MARK := upd s.MARK e v } :=
  ⟨⟨rfl, rfl, rfl⟩, ⟨rfl, rfl⟩, rfl, fun e' he' => ⟨rfl, upd_other _ _ _ _ he'⟩, Or.inl rfl⟩

theorem GreenLocal.gl_update (e : Nat) (s : Mesh) (v : Nat → Nat) :
    GreenLocal e s { s with UPDATE_GREEN := v } :=
  ⟨⟨rfl, rfl, rfl⟩, ⟨rfl, rfl⟩, rfl, fun _ _ => ⟨rfl, rfl⟩, Or.inl rfl⟩

theorem GreenLocal.gl_used (e : Nat) (s : Mesh) (v : Nat → Nat) :
    GreenLocal e s { s with USED := v } :=
  ⟨⟨rfl, rfl, rfl⟩, ⟨rfl, rfl⟩, rfl, fun _ _ => ⟨rfl, rfl⟩, Or.inl rfl⟩

theorem GreenLocal.gl_class (e : Nat) (s : Mesh) :
    GreenLocal e s { s with MARKCLASS := upd s.MARKCLASS e CLASS.GREEN_CLASS } :=
  ⟨⟨rfl, rfl, rfl⟩, ⟨rfl, rfl⟩, rfl, fun e' he' => ⟨upd_other _ _ _ _ he', rfl⟩,
    Or.inr (upd_same _ _ _)⟩

theorem GreenLocal.gl_keeps {e : Nat} {s s' : Mesh} (h : GreenLocal e s s')
    (hg : s.MARKCLASS e = CLASS.GREEN_CLASS) : s'.MARKCLASS e = CLASS.GREEN_CLASS := by
  rcases h.2.2.2.2 with hh | hh
  · rw [hh]; exact hg
  · exact hh

theorem CloseGrid_green_edge_next (env : Env) (e i : Nat) (s y : Mesh)
    (h : CloseGrid_green_edge env e i s = .next y) :
    GreenLocal e s y ∧
      (s.ADDPATTERN (edgeOf env s e i) = 0 → y.MARKCLASS e = CLASS.GREEN_CLASS) ∧
      (y.MARKCLASS e ≠ s.MARKCLASS e → s.ADDPATTERN (edgeOf env s e i) = 0) := by
  unfold CloseGrid_green_edge at h
  lift_lets at h
  extract_lets MyEdge sa s1 at h
  have hsa : GreenLocal e s sa ∧ sa.MARKCLASS = s.MARKCLASS := ⟨GreenLocal.gl_mark e s _, rfl⟩
  have hs1 : GreenLocal e s s1 ∧ s1.MARKCLASS = s.MARKCLASS :=
    GreenLocal.gl_ite _
      (GreenLocal.gl_ite _ ⟨hsa.1.gltrans (GreenLocal.gl_update e sa _), rfl⟩ hsa)
      ⟨GreenLocal.glrefl e s, rfl⟩
  split at h
  · contradiction
  · split at h
    · rename_i hadd
      simp only [LoopRes.next.injEq] at h
      subst h
      refine ⟨hs1.1.gltrans (GreenLocal.gl_class e s1), fun _ => upd_same _ _ _,
        fun _ => hadd⟩
    · rename_i hadd
      split at h
      · simp only [LoopRes.next.injEq] at h
        subst h
        exact ⟨GreenLocal.gl_update e s _, fun hh => absurd hh hadd, fun hh => absurd rfl hh⟩
      · simp only [LoopRes.next.injEq] at h
        subst h
        exact ⟨GreenLocal.glrefl e s, fun hh => absurd hh hadd, fun hh => absurd rfl hh⟩

theorem CloseGrid_green_edge_ret (env : Env) (e i : Nat) (s : Mesh) (c : Int) (y : Mesh)
    (h : CloseGrid_green_edge env e i s = .ret c y) : c = -1 := by
  unfold CloseGrid_green_edge at h
  lift_lets at h
  extract_lets MyEdge sa s1 at h
  split at h
  · contradiction
  · split at h
    · contradiction
    · split at h <;> contradiction

theorem CloseGrid_green_side_next (env : Env) (e i : Nat) (s y : Mesh)
    (h : CloseGrid_green_side env e i s = .next y) : GreenLocal e s y := by
  unfold CloseGrid_green_side at h
  lift_lets at h
  extract_lets theNeighbor j s1 ofRefine ofMark at h
  have hs1 : GreenLocal e s s1 := by
    show GreenLocal e s (if _ then _ else _)
    split_ifs
    · exact GreenLocal.gl_class e s
    · exact GreenLocal.glrefl e s
  split at h
  · simp only [LoopRes.next.injEq] at h; subst h; exact GreenLocal.glrefl e s
  · split at h
    · contradiction
    · split at h
      · simp only [LoopRes.next.injEq] at h; subst h
        exact hs1.gltrans (GreenLocal.gl_update e s1 _)
      · simp only [LoopRes.next.injEq] at h; subst h; exact hs1

theorem CloseGrid_green_side_ret (env : Env) (e i : Nat) (s : Mesh) (c : Int) (y : Mesh)
    (h : CloseGrid_green_side env e i s = .ret c y) : c = -1 := by
  unfold CloseGrid_green_side at h
  lift_lets at h
  extract_lets theNeighbor j s1 ofRefine ofMark at h
  split at h
  · contradiction
  · split at h
    · contradiction
    · split at h <;> contradiction

theorem CloseGrid_green_sides_next (env : Env) (e : Nat) (s y : Mesh)
    (h : CloseGrid_green_sides env e s = .next y) :
    GreenLocal e s y ∧ (env.DIM = 2 → y = s) := by
  unfold CloseGrid_green_sides at h
  split at h
  · rename_i hd
    exact ⟨forLoop_next_rel _ (fun x => GreenLocal e s x)
      (fun i x z hx hb => hx.gltrans (CloseGrid_green_side_next env e i x z hb))
      _ 0 s y (GreenLocal.glrefl e s) h, fun h2 => absurd hd (by omega)⟩
  · simp only [LoopRes.next.injEq] at h; subst h
    exact ⟨GreenLocal.glrefl e s, fun _ => rfl⟩

theorem CloseGrid_green_sides_ret (env : Env) (e : Nat) (s : Mesh) (c : Int) (y : Mesh)
    (h : CloseGrid_green_sides env e s = .ret c y) : c = -1 := by
  unfold CloseGrid_green_sides at h
  split at h
  · exact forLoop_ret_code _ (fun c => c = -1) (CloseGrid_green_side_ret env e) _ _ _ _ _ h
  · contradiction

theorem CloseGrid_green_used_rel (e : Nat) (s : Mesh) :
    GreenLocal e s (CloseGrid_green_used e s) ∧
      (CloseGrid_green_used e s).MARKCLASS = s.MARKCLASS := by
  unfold CloseGrid_green_used
  split_ifs
  · exact ⟨GreenLocal.gl_used e s _, rfl⟩
  · exact ⟨GreenLocal.glrefl e s, rfl⟩

theorem GreenLocal.to_rel {env : Env} {e : Nat} {s y : Mesh} (h : GreenLocal e s y)
    (hred : s.MARKCLASS e ≠ CLASS.RED_CLASS)
    (hdim : env.DIM = 2 → y.MARKCLASS e ≠ s.MARKCLASS e → HasRefinedEdge env s e) :
    GreenRel env s y := by
  obtain ⟨a1, a2, a3, a4, a5⟩ := h
  refine ⟨a1, a2, a3, fun e' he' => ?_, fun e' => ?_, fun hd e' hne => ?_⟩
  · have : e' ≠ e := fun hh => hred (hh ▸ he')
    rw [(a4 e' this).1, (a4 e' this).2]
    exact ⟨he', rfl⟩
  · by_cases hc : e' = e
    · subst hc; exact a5
    · exact Or.inl (a4 e' hc).1
  · by_cases hc : e' = e
    · subst hc; exact hdim hd hne
    · exact absurd (a4 e' hc).1 hne

theorem CloseGrid_green_next (env : Env) (e : Nat) (s y : Mesh)
    (h : CloseGrid_green env e s = .next y) :
    GreenRel env s y ∧ (s.MARKCLASS e ≠ CLASS.RED_CLASS → HasRefinedEdge env s e →
      y.MARKCLASS e = CLASS.GREEN_CLASS) := by
  unfold CloseGrid_green at h
  split at h
  · rename_i hred
    simp only [LoopRes.next.injEq] at h
    subst h
    exact ⟨GreenRel.grefl env _, fun hh => absurd hred hh⟩
  · rename_i hred
    lift_lets at h
    extract_lets s1 at h
    have h01 : GreenLocal e s s1 := GreenLocal.gl_update e s _
    split at h
    · rename_i s2 h2
      have key := forLoop_next_inv (CloseGrid_green_edge env e)
        (fun i x => GreenLocal e s x ∧
          (∀ j, j < i → s.ADDPATTERN (edgeOf env s e j) = 0 →
            x.MARKCLASS e = CLASS.GREEN_CLASS) ∧
          (x.MARKCLASS e ≠ s.MARKCLASS e →
            ∃ j, j < i ∧ s.ADDPATTERN (edgeOf env s e j) = 0))
        (fun i x z hx hb => by
          obtain ⟨g, hv, hc⟩ := hx
          obtain ⟨g1, v1, c1⟩ := CloseGrid_green_edge_next env e i x z hb
          rw [g.2.2.1, g.1.edgeOf_eq env e i] at v1 c1
          refine ⟨g.gltrans g1, fun j hj ha => ?_, fun hne => ?_⟩
          · by_cases hji : j = i
            · subst hji; exact v1 ha
            · exact g1.gl_keeps (hv j (by omega) ha)
          · by_cases hk : z.MARKCLASS e = x.MARKCLASS e
            · obtain ⟨j, hj, ha⟩ := hc (by rw [← hk]; exact hne)
              exact ⟨j, by omega, ha⟩
            · exact ⟨i, by omega, c1 hk⟩)
        _ 0 s1 s2 ⟨h01, fun j hj => absurd hj (by omega), fun hh => absurd rfl hh⟩ h2
      obtain ⟨g2, v2, c2⟩ := key
      have hE : EDGES_OF_ELEM env s1 e = EDGES_OF_ELEM env s e := rfl
      split at h
      · rename_i s3 h3
        simp only [LoopRes.next.injEq] at h
        subst h
        obtain ⟨g3, d3⟩ := CloseGrid_green_sides_next env e s2 s3 h3
        obtain ⟨g4, m4⟩ := CloseGrid_green_used_rel e s3
        have gall : GreenLocal e s (CloseGrid_green_used e s3) := (g2.gltrans g3).gltrans g4
        refine ⟨gall.to_rel hred (fun hd hne => ?_), fun _ ⟨j, hj, ha⟩ => ?_⟩
        · rw [m4, d3 hd] at hne
          obtain ⟨j, hj, ha⟩ := c2 hne
          exact ⟨j, by omega, ha⟩
        · rw [m4]
          exact g3.gl_keeps (v2 j (by omega) ha)
      · contradiction
      · contradiction
    · contradiction
    · contradiction

theorem CloseGrid_green_ret (env : Env) (e : Nat) (s : Mesh) (c : Int) (y : Mesh)
    (h : CloseGrid_green env e s = .ret c y) : c = -1 := by
  unfold CloseGrid_green at h
  split at h
  · contradiction
  · lift_lets at h
    extract_lets s1 at h
    split at h
    · split at h
      · contradiction
      · rename_i c' y' h3
        simp only [LoopRes.ret.injEq] at h
        obtain ⟨rfl, _⟩ := h
        exact CloseGrid_green_sides_ret env e _ _ _ h3
      · contradiction
    · rename_i c' y' h2
      simp only [LoopRes.ret.injEq] at h
      obtain ⟨rfl, _⟩ := h
      exact forLoop_ret_code _ (fun c => c = -1) (CloseGrid_green_edge_ret env e)
        _ _ _ _ _ h2
    · contradiction

theorem GreenRel.not_red {env : Env} {s s' : Mesh} (h : GreenRel env s s') (e : Nat) :
    s'.MARKCLASS e = CLASS.RED_CLASS ↔ s.MARKCLASS e = CLASS.RED_CLASS := by
  constructor
  · intro hh
    rcases h.2.2.2.2.1 e with hk | hk
    · rw [← hk]; exact hh
    · rw [hk] at hh; exact absurd hh (by decide)
  · intro hh; exact (h.2.2.2.1 e hh).1

theorem GreenRel.keeps_green {env : Env} {s s' : Mesh} (h : GreenRel env s s') (e : Nat)
    (hg : s.MARKCLASS e = CLASS.GREEN_CLASS) : s'.MARKCLASS e = CLASS.GREEN_CLASS := by
  rcases h.2.2.2.2.1 e with hh | hh
  · rw [hh]; exact hg
  · exact hh

theorem CloseGrid_green_loop (env : Env) (fuel e0 : Nat) (x y : Mesh)
    (h : forElements (fun y => y.SUCCE) (CloseGrid_green env) fuel e0 x = .next y) :
    GreenRel env x y ∧ ∀ e, OnList x.SUCCE e0 e → x.MARKCLASS e ≠ CLASS.RED_CLASS →
      HasRefinedEdge env x e → y.MARKCLASS e = CLASS.GREEN_CLASS := by
  refine forElements_spec (fun y => y.SUCCE) (CloseGrid_green env)
    (fun e0 x y => GreenRel env x y ∧ ∀ e, OnList x.SUCCE e0 e →
      x.MARKCLASS e ≠ CLASS.RED_CLASS → HasRefinedEdge env x e →
      y.MARKCLASS e = CLASS.GREEN_CLASS) ?_ ?_ fuel e0 x y h
  · intro x
    exact ⟨GreenRel.grefl env x, fun e he => absurd rfl he.ne_zero⟩
  · intro e x x1 y _ hb hpost
    obtain ⟨r1, a1⟩ := CloseGrid_green_next env e x x1 hb
    obtain ⟨r2, a2⟩ := hpost
    refine ⟨r1.gtrans r2, fun e' he' hred hedge => ?_⟩
    rcases he'.cases_on_first with hh | hh
    · subst hh; exact r2.keeps_green e' (a1 hred hedge)
    · refine a2 e' ?_ ?_ ?_
      · show OnList x1.SUCCE (x1.SUCCE e) e'
        rw [r1.2.1.1]; exact hh
      · rw [Ne, r1.not_red e']; exact hred
      · exact (HasRefinedEdge.same_iff r1.1 r1.2.2.1 e').2 hedge
/-! ## `CloseGrid`: the whole function -/

theorem CloseGrid_fifo_init_rel (env : Env) (s : Mesh) :
    SweepRel env s (CloseGrid_fifo_init env s) := by
  unfold CloseGrid_fifo_init
  split_ifs
  · exact ⟨⟨rfl, rfl, rfl⟩, rfl, fun _ => Or.inl rfl, fun _ => ⟨rfl, rfl⟩⟩
  · exact SweepRel.wrefl env s

theorem CloseGrid_phases (env : Env) (fuel : Nat) (s : Mesh) (cnt : Int) (s' : Mesh)
    (h : CloseGrid env fuel s = .ok (cnt, s')) (hcnt : 0 ≤ cnt) :
    ∃ s1 s2 s4 s5 : Mesh,
      (ResetRel s s1 ∧ ∀ e, OnLevel s e → ∀ j, j < EDGES_OF_ELEM env s e →
        s1.ADDPATTERN (edgeOf env s e j) = 1) ∧
      (PatternRel s1 s2 ∧ ∀ e, OnLevel s1 e →
        (s2.MARKCLASS e = CLASS.RED_CLASS ∨ s2.MARKCLASS e = CLASS.NO_CLASS)) ∧
      SweepRel env s2 s4 ∧
      (AddRel s4 s5 ∧ ∀ ed, (s5.ADDPATTERN ed = 0 ↔
        s4.ADDPATTERN ed = 0 ∨ RedBisects env s4 s4.FIRSTELEMENT ed)) ∧
      (GreenRel env s5 s' ∧ ∀ e, OnLevel s5 e → s5.MARKCLASS e ≠ CLASS.RED_CLASS →
        HasRefinedEdge env s5 e → s'.MARKCLASS e = CLASS.GREEN_CLASS) := by
  have neg : ∀ c : Int, c = -1 → ¬ (0 ≤ c) := fun c hc => by omega
  unfold CloseGrid at h
  split at h
  · rename_i c y h1
    simp only [Except.ok.injEq, Prod.mk.injEq] at h
    obtain ⟨rfl, _⟩ := h
    exact absurd hcnt (neg _ (forElements_ret_code _ _ (fun c => c = -1)
      (fun e x c y hb => CloseGrid_reset_ret env e x c y hb) _ _ _ _ _ h1))
  · contradiction
  · rename_i s1 h1
    split at h
    · rename_i c y h2
      simp only [Except.ok.injEq, Prod.mk.injEq] at h
      obtain ⟨rfl, _⟩ := h
      exact absurd hcnt (neg _ (forElements_ret_code _ _ (fun c => c = -1)
        (fun e x c y hb => CloseGrid_pattern_ret env e x c y hb) _ _ _ _ _ h2))
    · contradiction
    · rename_i s2 h2
      split at h
      · rename_i c y h3
        simp only [Except.ok.injEq, Prod.mk.injEq] at h
        obtain ⟨rfl, _⟩ := h
        exact absurd hcnt (neg _ (CloseGrid_sweeps_ret env fuel _ _ _ _ _ h3))
      · contradiction
      · rename_i x4 h3
        split at h
        · rename_i c y h4
          simp only [Except.ok.injEq, Prod.mk.injEq] at h
          obtain ⟨rfl, _⟩ := h
          exact absurd hcnt (neg _ (forElements_ret_code _ _ (fun c => c = -1)
            (fun e x c y hb => CloseGrid_addpattern_ret env e x c y hb) _ _ _ _ _ h4))
        · contradiction
        · rename_i s5 h4
          split at h
          · rename_i c y h5
            simp only [Except.ok.injEq, Prod.mk.injEq] at h
            obtain ⟨rfl, _⟩ := h
            exact absurd hcnt (neg _ (forElements_ret_code _ _ (fun c => c = -1)
              (fun e x c y hb => CloseGrid_green_ret env e x c y hb) _ _ _ _ _ h5))
          · contradiction
          · rename_i s6 h5
            simp only [Except.ok.injEq, Prod.mk.injEq] at h
            obtain ⟨_, rfl⟩ := h
            exact ⟨s1, s2, x4.1, s5, CloseGrid_reset_loop env fuel _ s s1 h1,
              CloseGrid_pattern_loop env fuel _ s1 s2 h2,
              (CloseGrid_fifo_init_rel env s2).wtrans (CloseGrid_sweeps_next env fuel _ _ _ _ h3),
              CloseGrid_addpattern_loop env fuel _ x4.1 s5 h4,
              CloseGrid_green_loop env fuel _ s5 s6 h5⟩

theorem OnLevel.same_list {s s' : Mesh} (h : SameList s s') (e : Nat) :
    OnLevel s' e ↔ OnLevel s e := by
  unfold OnLevel
  rw [h.1, h.2]

theorem RedBisects.green_iff {env : Env} {s s' : Mesh} (h : GreenRel env s s') (ed : Nat) :
    RedBisects env s' s'.FIRSTELEMENT ed ↔ RedBisects env s s.FIRSTELEMENT ed := by
  unfold RedBisects
  simp only [h.1.edges_eq env, h.1.edgeOf_eq env, h.2.1.1, h.2.1.2, h.1.1, h.not_red]
  constructor
  · rintro ⟨e, j, h1, h2, h3, h4, h5⟩
    exact ⟨e, j, h1, h2, h3, by rw [← (h.2.2.2.1 e h2).2]; exact h4, h5⟩
  · rintro ⟨e, j, h1, h2, h3, h4, h5⟩
    exact ⟨e, j, h1, h2, h3, by rw [(h.2.2.2.1 e h2).2]; exact h4, h5⟩

/-- C5. Green covering: when `CloseGrid` returns a non-negative value, every element of
the level list that is not `RED_CLASS` and has an edge with `ADDPATTERN = 0` has
`MARKCLASS = GREEN_CLASS`; in 2-D, an element of the level that is not `RED_CLASS` and all
of whose edges have `ADDPATTERN = 1` has `MARKCLASS = NO_CLASS`. Without FIFO the level
list after the call is the level list before the call. -/
theorem CloseGrid_green_covering (env : Env) (fuel : Nat) (s : Mesh) (cnt : Int) (s' : Mesh)
    (h : CloseGrid env fuel s = .ok (cnt, s')) (hcnt : 0 ≤ cnt) :
    (∀ e, OnLevel s' e → s'.MARKCLASS e ≠ CLASS.RED_CLASS →
      (∃ j, j < EDGES_OF_ELEM env s' e ∧ s'.ADDPATTERN (edgeOf env s' e j) = 0) →
      s'.MARKCLASS e = CLASS.GREEN_CLASS) ∧
    (env.DIM = 2 → ∀ e, OnLevel s e → s'.MARKCLASS e ≠ CLASS.RED_CLASS →
      (∀ j, j < EDGES_OF_ELEM env s' e → s'.ADDPATTERN (edgeOf env s' e j) = 1) →
      s'.MARKCLASS e = CLASS.NO_CLASS) ∧
    (env.fifoFlag = 0 → ∀ e, OnLevel s' e ↔ OnLevel s e) := by
  obtain ⟨s1, s2, s4, s5, ⟨r1, _⟩, ⟨r2, v2⟩, r3, ⟨r4, _⟩, ⟨r5, v5⟩⟩ :=
    CloseGrid_phases env fuel s cnt s' h hcnt
  refine ⟨fun e he hred hedge => ?_, fun hd e he hred hall => ?_, fun hf e => ?_⟩
  · refine v5 e ((OnLevel.same_list r5.2.1 e).1 he) ?_ ?_
    · rw [Ne, ← r5.not_red e]; exact hred
    · exact (HasRefinedEdge.same_iff r5.1 r5.2.2.1 e).1 hedge
  · have h5 : s5.MARKCLASS e ≠ CLASS.RED_CLASS := by rw [Ne, ← r5.not_red e]; exact hred
    have h4 : s4.MARKCLASS e ≠ CLASS.RED_CLASS := by rw [← r4.2.2.2.1]; exact h5
    have h2 : s2.MARKCLASS e = CLASS.NO_CLASS := by
      rcases r3.2.2.1 e with hk | hk
      · rcases v2 e ((OnLevel.same_list r1.2.1 e).2 he) with hr | hn
        · exact absurd (hk.trans hr) h4
        · exact hn
      · exact absurd hk h4
    have h4n : s4.MARKCLASS e = CLASS.NO_CLASS := by
      rcases r3.2.2.1 e with hk | hk
      · rw [hk]; exact h2
      · exact absurd hk h4
    have h5n : s5.MARKCLASS e = CLASS.NO_CLASS := by rw [r4.2.2.2.1]; exact h4n
    by_cases hc : s'.MARKCLASS e = s5.MARKCLASS e
    · rw [hc]; exact h5n
    · obtain ⟨j, hj, ha⟩ := (HasRefinedEdge.same_iff r5.1 r5.2.2.1 e).2 (r5.2.2.2.2.2 hd e hc)
      have := hall j hj
      omega
  · exact ((OnLevel.same_list r5.2.1 e).trans ((OnLevel.same_list r4.2.1 e).trans
      ((OnLevel.same_list (r3.2.2.2 hf) e).trans ((OnLevel.same_list r2.2.1 e).trans
        (OnLevel.same_list r1.2.1 e)))))

/-- C6. When `CloseGrid` returns a non-negative value, an edge of an element of the level
has `ADDPATTERN = 0` if and only if some element of the level list with
`MARKCLASS = RED_CLASS` holds it as a local edge `j'` with `NODE_OF_RULE` set for the
element's final mark; every other edge of the level has `ADDPATTERN = 1`. -/
theorem CloseGrid_addpattern_iff (env : Env) (fuel : Nat) (s : Mesh) (cnt : Int) (s' : Mesh)
    (h : CloseGrid env fuel s = .ok (cnt, s')) (hcnt : 0 ≤ cnt) (e j : Nat)
    (he : OnLevel s e) (hj : j < EDGES_OF_ELEM env s e) :
    (s'.ADDPATTERN (edgeOf env s e j) = 0 ↔
      ∃ e' j', OnLevel s' e' ∧ s'.MARKCLASS e' = CLASS.RED_CLASS ∧
        j' < EDGES_OF_ELEM env s' e' ∧
        env.NODE_OF_RULE (s'.TAG e') (s'.MARK e') j' ≠ 0 ∧
        edgeOf env s' e' j' = edgeOf env s e j) ∧
    (s'.ADDPATTERN (edgeOf env s e j) ≠ 0 → s'.ADDPATTERN (edgeOf env s e j) = 1) ∧
    edgeOf env s' e j = edgeOf env s e j := by
  obtain ⟨s1, s2, s4, s5, ⟨r1, v1⟩, ⟨r2, _⟩, r3, ⟨r4, v4⟩, ⟨r5, _⟩⟩ :=
    CloseGrid_phases env fuel s cnt s' h hcnt
  have a4 : s4.ADDPATTERN (edgeOf env s e j) = 1 := by
    rw [r3.2.1, r2.2.2.1]; exact v1 e he j hj
  have hiff : s'.ADDPATTERN (edgeOf env s e j) = 0 ↔
      RedBisects env s' s'.FIRSTELEMENT (edgeOf env s e j) := by
    rw [RedBisects.green_iff r5, RedBisects.add_iff r4, r4.2.1.2, r5.2.2.1, v4]
    constructor
    · rintro (hh | hh)
      · rw [a4] at hh; exact absurd hh (by decide)
      · exact hh
    · exact fun hh => Or.inr hh
  refine ⟨hiff, fun hne => ?_, ?_⟩
  · rw [r5.2.2.1] at hne ⊢
    rcases r4.2.2.2.2 (edgeOf env s e j) with hk | hk
    · rw [hk]; exact a4
    · exact absurd hk hne
  · have sh : SameShape s s' :=
      r1.1.shtrans (r2.1.shtrans (r3.1.shtrans (r4.1.shtrans r5.1)))
    exact sh.edgeOf_eq env e j
/-! ## `CloseGrid` on three triangles -/

theorem meshThreeTriangles_run :
    CloseGrid envClose2D 4 meshThreeTriangles = .ok (2, meshThreeClosed) := rfl

theorem meshThreeTriangles_level (e : Nat) (he : e = 1 ∨ e = 2 ∨ e = 3) :
    OnLevel meshThreeTriangles e := by
  have h3 : OnList meshThreeTriangles.SUCCE 3 3 := OnList.head 3 (by decide)
  have h2 : OnList meshThreeTriangles.SUCCE 2 2 := OnList.head 2 (by decide)
  have h1 : OnList meshThreeTriangles.SUCCE 1 1 := OnList.head 1 (by decide)
  have h23 : OnList meshThreeTriangles.SUCCE 2 3 := OnList.tail 2 3 (by decide) h3
  rcases he with rfl | rfl | rfl
  · exact h1
  · exact OnList.tail 1 2 (by decide) h2
  · exact OnList.tail 1 3 (by decide) h23

theorem meshThreeClosed_level (e : Nat) (he : e = 1 ∨ e = 2 ∨ e = 3) :
    OnLevel meshThreeClosed e := by
  have h3 : OnList meshThreeClosed.SUCCE 3 3 := OnList.head 3 (by decide)
  have h2 : OnList meshThreeClosed.SUCCE 2 2 := OnList.head 2 (by decide)
  have h1 : OnList meshThreeClosed.SUCCE 1 1 := OnList.head 1 (by decide)
  have h23 : OnList meshThreeClosed.SUCCE 2 3 := OnList.tail 2 3 (by decide) h3
  rcases he with rfl | rfl | rfl
  · exact h1
  · exact OnList.tail 1 2 (by decide) h2
  · exact OnList.tail 1 3 (by decide) h23

/-- On the three triangles `CloseGrid` returns 2; triangle 2, which shares the bisected
edge 202 with the red triangle 1, ends green, and triangle 3, none of whose edges is
bisected, ends with `NO_CLASS`. -/
theorem CloseGrid_green_covering_witness :
    CloseGrid envClose2D 4 meshThreeTriangles = .ok (2, meshThreeClosed) ∧ (0 : Int) ≤ 2 ∧
      meshThreeClosed.MARKCLASS 2 = CLASS.GREEN_CLASS ∧
      meshThreeClosed.MARKCLASS 3 = CLASS.NO_CLASS :=
  ⟨rfl, by decide,
    (CloseGrid_green_covering envClose2D 4 meshThreeTriangles 2 meshThreeClosed rfl
      (by decide)).1 2 (meshThreeClosed_level 2 (Or.inr (Or.inl rfl))) (by decide)
      ⟨0, by decide, by decide⟩,
    (CloseGrid_green_covering envClose2D 4 meshThreeTriangles 2 meshThreeClosed rfl
      (by decide)).2.1 rfl 3 (meshThreeTriangles_level 3 (Or.inr (Or.inr rfl))) (by decide)
      (fun j hj => by
        have hj3 : j < 3 := hj
        interval_cases j <;> decide)⟩

/-- On the three triangles the edge 202, local edge 0 of triangle 2, ends with
`ADDPATTERN = 0`, and the red triangle 1 holds it as its local edge 1; the edge 204, local
edge 1 of triangle 2, ends with `ADDPATTERN = 1`. -/
theorem CloseGrid_addpattern_iff_witness :
    CloseGrid envClose2D 4 meshThreeTriangles = .ok (2, meshThreeClosed) ∧ (0 : Int) ≤ 2 ∧
      OnLevel meshThreeTriangles 2 ∧ 1 < EDGES_OF_ELEM envClose2D meshThreeTriangles 2 ∧
      meshThreeClosed.ADDPATTERN 202 = 0 ∧
      (meshThreeClosed.ADDPATTERN (edgeOf envClose2D meshThreeTriangles 2 1) = 0 ↔
        ∃ e' j', OnLevel meshThreeClosed e' ∧ meshThreeClosed.MARKCLASS e' = CLASS.RED_CLASS ∧
          j' < EDGES_OF_ELEM envClose2D meshThreeClosed e' ∧
          envClose2D.NODE_OF_RULE (meshThreeClosed.TAG e') (meshThreeClosed.MARK e') j' ≠ 0 ∧
          edgeOf envClose2D meshThreeClosed e' j' = edgeOf envClose2D meshThreeTriangles 2 1) ∧
      meshThreeClosed.ADDPATTERN 204 = 1 :=
  ⟨rfl, by decide, meshThreeTriangles_level 2 (Or.inr (Or.inl rfl)), by decide,
    ((CloseGrid_addpattern_iff envClose2D 4 meshThreeTriangles 2 meshThreeClosed rfl
      (by decide) 2 0 (meshThreeTriangles_level 2 (Or.inr (Or.inl rfl))) (by decide)).1).2
      ⟨1, 1, meshThreeClosed_level 1 (Or.inl rfl), by decide, by decide, by decide, by decide⟩,
    (CloseGrid_addpattern_iff envClose2D 4 meshThreeTriangles 2 meshThreeClosed rfl
      (by decide) 2 1 (meshThreeTriangles_level 2 (Or.inr (Or.inl rfl))) (by decide)).1,
    (CloseGrid_addpattern_iff envClose2D 4 meshThreeTriangles 2 meshThreeClosed rfl
      (by decide) 2 1 (meshThreeTriangles_level 2 (Or.inr (Or.inl rfl))) (by decide)).2.1
      (by decide)⟩
/-! ## Lists that end -/

theorem EndsIn.unique {link : Nat → Nat} {n e : Nat} (h : EndsIn link n e) :
    ∀ m, EndsIn link m e → m = n := by
  induction h with
  | nil =>
    intro m hm
    cases hm with
    | nil => rfl
    | step _ _ h0 _ => exact absurd rfl h0
  | step n e h0 _ ih =>
    intro m hm
    cases hm with
    | nil => exact absurd rfl h0
    | step m' _ _ t' => rw [ih m' t']

theorem OnList.ends_le {link : Nat → Nat} {a b : Nat} (h : OnList link a b) :
    ∀ n, EndsIn link n a → ∃ m, m ≤ n ∧ EndsIn link m b := by
  induction h with
  | head e _ => intro n hn; exact ⟨n, le_refl n, hn⟩
  | tail first e h0 _ ih =>
    intro n hn
    cases hn with
    | nil => exact absurd rfl h0
    | step n' _ _ t' =>
      obtain ⟨m, hm, hb⟩ := ih n' t'
      exact ⟨m, by omega, hb⟩

theorem OnList.target_ne_zero {link : Nat → Nat} {a b : Nat} (h : OnList link a b) :
    b ≠ 0 := by
  induction h with
  | head e h0 => exact h0
  | tail _ _ _ _ ih => exact ih

theorem EndsIn.not_again {link : Nat → Nat} {n e : Nat} (h : EndsIn link n e) :
    ¬ OnList link (link e) e := by
  intro hl
  cases h with
  | nil => exact absurd rfl hl.target_ne_zero
  | step n' _ h0 t =>
    obtain ⟨m, hm, hb⟩ := hl.ends_le n' t
    have := (EndsIn.step n' e h0 t).unique m hb
    omega

theorem forElements_ends {σ : Type} (link : σ → Nat → Nat) (body : Nat → σ → LoopRes σ)
    (hlink : ∀ e x y, body e x = .next y → link y = link x) :
    ∀ (fuel e : Nat) (x y : σ), forElements link body fuel e x = .next y →
      ∃ n, EndsIn (link x) n e := by
  refine forElements_spec link body (fun e x _ => ∃ n, EndsIn (link x) n e) ?_ ?_
  · intro x; exact ⟨0, EndsIn.nil⟩
  · intro e x x1 y he hb hpost
    obtain ⟨n, hn⟩ := hpost
    rw [hlink e x x1 hb] at hn
    exact ⟨n + 1, EndsIn.step n e he hn⟩

/-! ## `GetSons` reads neither marks nor the flag `COARSEN` -/

theorem SameSons.ssrefl (s : Mesh) : SameSons s s :=
  ⟨rfl, rfl, rfl, rfl, rfl, rfl, rfl, rfl, rfl, rfl⟩

theorem SameSons.sstrans {s s' s'' : Mesh} (h1 : SameSons s s') (h2 : SameSons s' s'') :
    SameSons s s'' := by
  obtain ⟨a1, a2, a3, a4, a5, a6, a7, a8, a9, a10⟩ := h1
  obtain ⟨b1, b2, b3, b4, b5, b6, b7, b8, b9, b10⟩ := h2
  exact ⟨b1.trans a1, b2.trans a2, b3.trans a3, b4.trans a4, b5.trans a5, b6.trans a6,
    b7.trans a7, b8.trans a8, b9.trans a9, b10.trans a10⟩

theorem GetNeighborSons_side_same {s s' : Mesh} (h : SameSons s s') (theElement theSon : Nat)
    (nsons : Nat) :
    GetNeighborSons_side s' theElement theSon nsons =
      GetNeighborSons_side s theElement theSon nsons := by
  funext i x
  unfold GetNeighborSons_side
  rw [h.2.2.2.2.2.2.1, h.2.2.2.2.2.2.2.1]

theorem GetNeighborSons_same (env : Env) {s s' : Mesh} (h : SameSons s s')
    (theElement nsons : Nat) :
    ∀ fuel, GetNeighborSons env s' theElement nsons fuel =
      GetNeighborSons env s theElement nsons fuel := by
  intro fuel
  induction fuel with
  | zero => funext a b; rfl
  | succ k ih =>
    funext theSon x
    have hs : SIDES_OF_ELEM env s' theSon = SIDES_OF_ELEM env s theSon := by
      unfold SIDES_OF_ELEM; rw [h.1]
    simp only [GetNeighborSons, ih, GetNeighborSons_side_same h, hs]

theorem GetSons_walk_same {s s' : Mesh} (h : SameSons s s') (next : Nat → Nat → Nat)
    (path : Nat) :
    ∀ k PathPos theSon, GetSons_walk s' next path k PathPos theSon =
      GetSons_walk s next path k PathPos theSon := by
  intro k
  induction k with
  | zero => intro _ _; rfl
  | succ k ih =>
    intro PathPos theSon
    simp only [GetSons_walk, ih, h.2.2.2.2.2.2.1]

theorem GetSons_paths_same (env : Env) {s s' : Mesh} (h : SameSons s s') (theElement : Nat)
    (next : Nat → Nat → Nat) :
    ∀ k SonID SonList, GetSons_paths env s' theElement next k SonID SonList =
      GetSons_paths env s theElement next k SonID SonList := by
  intro k
  induction k with
  | zero => intro _ _; rfl
  | succ k ih =>
    intro SonID SonList
    simp only [GetSons_paths, ih, GetSons_walk_same h, h.1, h.2.2.2.1]

theorem GetSons_same (env : Env) (fuel : Nat) {s s' : Mesh} (h : SameSons s s') (e : Nat) :
    GetSons env fuel s' e = GetSons env fuel s e := by
  unfold GetSons GetSons_green
  simp only [GetSons_paths_same env h, GetNeighborSons_same env h, h.1, h.2.1, h.2.2.1,
    h.2.2.2.1, h.2.2.2.2.1]
/-! ## `RestrictMarks`: one round -/

theorem MarksAt.marefl (e : Nat) (s : Mesh) : MarksAt e s s :=
  ⟨SameSons.ssrefl s, fun _ _ => ⟨rfl, rfl, rfl⟩⟩

theorem MarksAt.matrans {e : Nat} {s s' s'' : Mesh} (h1 : MarksAt e s s')
    (h2 : MarksAt e s' s'') : MarksAt e s s'' :=
  ⟨h1.1.sstrans h2.1, fun e' he' =>
    ⟨(h2.2 e' he').1.trans (h1.2 e' he').1, (h2.2 e' he').2.1.trans (h1.2 e' he').2.1,
      (h2.2 e' he').2.2.trans (h1.2 e' he').2.2⟩⟩

theorem MarksAt.of_setmark (e : Nat) (s : Mesh) (m : Int) : MarksAt e s (SETMARK s e m) :=
  ⟨SameSons.ssrefl s, fun e' he' => ⟨upd_other _ _ _ _ he', rfl, rfl⟩⟩

theorem MarksAt.of_setmarkclass (e : Nat) (s : Mesh) (c : CLASS) :
    MarksAt e s (SETMARKCLASS s e c) :=
  ⟨SameSons.ssrefl s, fun e' he' => ⟨rfl, upd_other _ _ _ _ he', rfl⟩⟩

theorem MarksAt.of_setcoarsen (e : Nat) (s : Mesh) (v : Nat) :
    MarksAt e s (SETCOARSEN s e v) :=
  ⟨SameSons.ssrefl s, fun e' he' => ⟨rfl, rfl, upd_other _ _ _ _ he'⟩⟩

theorem RestrictMarks_flag_spec (s : Mesh) (SonList : Nat → Nat) :
    ∀ (k i : Nat) (b : Bool), RestrictMarks_flag s SonList k i = some b →
      (b = false ↔ ∀ j, i ≤ j → j < i + k →
        s.COARSEN (SonList j) ≠ 0 ∧ s.REFINECLASS (SonList j) ≠ CLASS.RED_CLASS) := by
  intro k
  induction k with
  | zero =>
    intro i b h
    simp only [RestrictMarks_flag, Option.some.injEq] at h
    subst h
    exact ⟨fun _ j h1 h2 => absurd h2 (by omega), fun _ => rfl⟩
  | succ k ih =>
    intro i b h
    unfold RestrictMarks_flag at h
    split at h
    · contradiction
    · split at h
      · rename_i hc
        simp only [Option.some.injEq] at h
        subst h
        refine ⟨fun hh => absurd hh (by decide), fun hh => ?_⟩
        have := hh i (le_refl i) (by omega)
        rcases hc with hc | hc
        · exact absurd hc this.1
        · exact absurd hc this.2
      · rename_i hc
        rw [ih (i + 1) b h]
        constructor
        · intro hh j h1 h2
          by_cases hji : j = i
          · subst hji
            exact ⟨fun h0 => hc (Or.inl h0), fun h0 => hc (Or.inr h0)⟩
          · exact hh j (by omega) (by omega)
        · intro hh j h1 h2
          exact hh j (by omega) (by omega)

theorem RestrictMarks_marked_red_next (env : Env) (s : Mesh) (e : Nat) (y : Mesh)
    (h : RestrictMarks_marked_red env s e = .next y) : MarksAt e s y := by
  unfold RestrictMarks_marked_red at h
  repeat' split at h
  all_goals first
    | contradiction
    | (simp only [LoopRes.next.injEq] at h; subst h
       first | exact MarksAt.marefl _ _ | exact MarksAt.of_setmark _ _ _)

theorem RestrictMarks_marked_red_ret (env : Env) (s : Mesh) (e : Nat) (c : Int) (y : Mesh)
    (h : RestrictMarks_marked_red env s e = .ret c y) : c = GM_ERROR := by
  unfold RestrictMarks_marked_red at h
  repeat' split at h
  all_goals first
    | contradiction
    | (simp only [LoopRes.ret.injEq] at h; exact h.1.symm)

theorem RestrictMarks_marked_other_next (env : Env) (s : Mesh) (e : Nat) (y : Mesh)
    (h : RestrictMarks_marked_other env s e = .next y) : MarksAt e s y := by
  unfold RestrictMarks_marked_other at h
  repeat' split at h
  all_goals first
    | contradiction
    | (simp only [LoopRes.next.injEq] at h; subst h
       exact (MarksAt.of_setmark _ _ _).matrans (MarksAt.of_setmarkclass _ _ _))

theorem RestrictMarks_marked_other_ret (env : Env) (s : Mesh) (e : Nat) (c : Int) (y : Mesh)
    (h : RestrictMarks_marked_other env s e = .ret c y) : c = GM_ERROR := by
  unfold RestrictMarks_marked_other at h
  repeat' split at h
  all_goals first
    | contradiction
    | (simp only [LoopRes.ret.injEq] at h; exact h.1.symm)

theorem RestrictMarks_green_next (env : Env) (s : Mesh) (e : Nat) (SonList : Nat → Nat)
    (y : Mesh) (h : RestrictMarks_green env s e SonList = .next y) : MarksAt e s y := by
  unfold RestrictMarks_green at h
  split at h
  · contradiction
  · simp only [LoopRes.next.injEq] at h; subst h; exact MarksAt.marefl _ _
  · split at h
    · exact RestrictMarks_marked_red_next env s e y h
    · exact RestrictMarks_marked_other_next env s e y h

theorem RestrictMarks_green_ret (env : Env) (s : Mesh) (e : Nat) (SonList : Nat → Nat)
    (c : Int) (y : Mesh) (h : RestrictMarks_green env s e SonList = .ret c y) :
    c = GM_ERROR := by
  unfold RestrictMarks_green at h
  split at h
  · contradiction
  · contradiction
  · split at h
    · exact RestrictMarks_marked_red_ret env s e c y h
    · exact RestrictMarks_marked_other_ret env s e c y h

theorem RestrictMarks_closure_next (env : Env) (s : Mesh) (e : Nat) (SonList : Nat → Nat)
    (y : Mesh × Bool) (h : RestrictMarks_closure env s e SonList = .next y) :
    MarksAt e s y.1 ∧ (y.2 = true ↔ ReachesSonCheck env s e) ∧
      (y.2 = true → y.1.MARK e = markAtSonCheck env s e ∧
        y.1.MARKCLASS e = classAtSonCheck env s e ∧ y.1.COARSEN = s.COARSEN) := by
  unfold RestrictMarks_closure at h
  unfold ReachesSonCheck markAtSonCheck classAtSonCheck
  split at h
  · rename_i hf
    split at h
    · rename_i hskip
      simp only [LoopRes.next.injEq] at h
      subst h
      refine ⟨MarksAt.marefl _ _, ⟨fun hh => by simp at hh, fun hh => ?_⟩,
        fun hh => by simp at hh⟩
      rcases hh with hh | hh
      · exact absurd hh hf
      · exact absurd hskip hh.1
    · rename_i hskip
      split at h
      · rename_i hg
        split at h
        · rename_i s1 h1
          simp only [LoopRes.next.injEq] at h
          subst h
          refine ⟨RestrictMarks_green_next env s e SonList s1 h1,
            ⟨fun hh => by simp at hh, fun hh => ?_⟩, fun hh => by simp at hh⟩
          rcases hh with hh | hh
          · exact absurd hh hf
          · exact absurd hg hh.2
        · contradiction
        · contradiction
      · rename_i hg
        split at h
        · rename_i hr
          simp only [LoopRes.next.injEq] at h
          subst h
          refine ⟨(MarksAt.of_setmark _ _ _).matrans (MarksAt.of_setmarkclass _ _ _),
            ⟨fun _ => Or.inr ⟨hskip, hg⟩, fun _ => rfl⟩, fun _ => ?_⟩
          rw [if_pos ⟨hf, hr⟩, if_pos ⟨hf, hr⟩]
          refine ⟨upd_same _ _ _, ?_, rfl⟩
          show upd s.MARKCLASS e (s.REFINECLASS e) e = CLASS.RED_CLASS
          rw [upd_same, hr]
        · rename_i hr
          simp only [LoopRes.next.injEq] at h
          subst h
          refine ⟨MarksAt.marefl _ _, ⟨fun _ => Or.inr ⟨hskip, hg⟩, fun _ => rfl⟩, fun _ => ?_⟩
          rw [if_neg (fun hh => hr hh.2), if_neg (fun hh => hr hh.2)]
          exact ⟨rfl, rfl, rfl⟩
  · rename_i hf
    simp only [LoopRes.next.injEq] at h
    subst h
    have h0 : env.hFlag = 0 := not_not.mp hf
    refine ⟨MarksAt.marefl _ _, ⟨fun _ => Or.inl h0, fun _ => rfl⟩, fun _ => ?_⟩
    rw [if_neg (fun hh => hh.1 h0), if_neg (fun hh => hh.1 h0)]
    exact ⟨rfl, rfl, rfl⟩

theorem RestrictMarks_closure_ret (env : Env) (s : Mesh) (e : Nat) (SonList : Nat → Nat)
    (c : Int) (y : Mesh × Bool) (h : RestrictMarks_closure env s e SonList = .ret c y) :
    c = GM_ERROR := by
  unfold RestrictMarks_closure at h
  split at h
  · split at h
    · contradiction
    · split at h
      · split at h
        · contradiction
        · rename_i c' s1 h1
          simp only [LoopRes.ret.injEq] at h
          obtain ⟨rfl, _⟩ := h
          exact RestrictMarks_green_ret env s e SonList _ _ h1
        · contradiction
      · split at h <;> contradiction
  · contradiction

theorem RestrictMarks_element_next (env : Env) (fuel : Nat) (e : Nat) (s y : Mesh)
    (h : RestrictMarks_element env fuel e s = .next y) :
    MarksAt e s y ∧ ∀ SonList, GetSons env fuel s e = .ok (GM_OK, SonList) →
      ReachesSonCheck env s e → SonCheckSpec env s e SonList y := by
  unfold RestrictMarks_element at h
  split at h
  · contradiction
  · rename_i g hg
    split at h
    · contradiction
    · rename_i hcode
      split at h
      · contradiction
      · contradiction
      · rename_i x hx
        obtain ⟨m1, r1, v1⟩ := RestrictMarks_closure_next env s e g.2 x hx
        split at h
        · rename_i hb
          simp only [LoopRes.next.injEq] at h
          subst h
          refine ⟨m1, fun SonList _ hreach => ?_⟩
          have := r1.2 hreach
          rw [hb] at this
          exact absurd this (by decide)
        · rename_i hb
          have hb1 : x.2 = true := by
            cases hx2 : x.2
            · exact absurd hx2 hb
            · rfl
          obtain ⟨vm, vc, vk⟩ := v1 hb1
          have hN : x.1.NSONS e = s.NSONS e := by rw [m1.1.2.1]
          have hall : ∀ b, RestrictMarks_flag x.1 g.2 (x.1.NSONS e) 0 = some b →
              (b = false ↔ AllSonsCoarsen s g.2 (s.NSONS e)) := by
            intro b hfl
            rw [RestrictMarks_flag_spec x.1 g.2 _ 0 b hfl, hN, vk, m1.1.2.2.2.2.1]
            unfold AllSonsCoarsen
            constructor
            · intro hh i hi; exact hh i (by omega) (by omega)
            · intro hh j _ hj; exact hh j (by omega)
          split at h
          · contradiction
          · rename_i hfl
            simp only [LoopRes.next.injEq] at h
            subst h
            refine ⟨m1, fun SonList hs _ => ?_⟩
            rw [hg] at hs
            simp only [Except.ok.injEq] at hs
            have hS : g.2 = SonList := by rw [hs]
            subst hS
            have hnot : ¬ AllSonsCoarsen s g.2 (s.NSONS e) := fun hh =>
              absurd ((hall true hfl).2 hh) (by decide)
            refine ⟨fun hh => absurd hh hnot, fun _ => ?_⟩
            rw [vk]
            exact ⟨rfl, vm, vc⟩
          · rename_i hfl
            simp only [LoopRes.next.injEq] at h
            subst h
            refine ⟨m1.matrans ((MarksAt.of_setmark _ _ _).matrans
              ((MarksAt.of_setmarkclass _ _ _).matrans (MarksAt.of_setcoarsen _ _ _))),
              fun SonList hs _ => ?_⟩
            rw [hg] at hs
            simp only [Except.ok.injEq] at hs
            have hS : g.2 = SonList := by rw [hs]
            subst hS
            have hyes : AllSonsCoarsen s g.2 (s.NSONS e) := (hall false hfl).1 rfl
            refine ⟨fun _ => ⟨?_, ?_, ?_⟩, fun hh => absurd hyes hh⟩
            · show upd x.1.MARK e env.NO_REFINEMENT e = env.NO_REFINEMENT
              rw [upd_same]
            · show upd _ e CLASS.NO_CLASS e = CLASS.NO_CLASS
              rw [upd_same]
            · show upd _ e 1 e = 1
              rw [upd_same]

theorem RestrictMarks_element_ret (env : Env) (fuel : Nat) (e : Nat) (s : Mesh) (c : Int)
    (y : Mesh) (h : RestrictMarks_element env fuel e s = .ret c y) : c = GM_ERROR := by
  unfold RestrictMarks_element at h
  split at h
  · contradiction
  · split at h
    · simp only [LoopRes.ret.injEq] at h; exact h.1.symm
    · split at h
      · contradiction
      · rename_i c' x hx
        simp only [LoopRes.ret.injEq] at h
        obtain ⟨rfl, _⟩ := h
        exact RestrictMarks_closure_ret env s e _ _ _ hx
      · split at h
        · contradiction
        · split at h <;> contradiction
/-! ## `RestrictMarks`: the loop -/

theorem ReachesSonCheck.same {env : Env} {s s' : Mesh} (h : SameSons s s') (e : Nat) :
    ReachesSonCheck env s' e ↔ ReachesSonCheck env s e := by
  unfold ReachesSonCheck RestrictMarks_skip
  rw [h.2.2.2.1, h.2.2.2.2.1, h.2.2.2.2.2.1]

theorem SonCheckSpec.change_pre {env : Env} {s s1 y : Mesh} {e : Nat} {SonList : Nat → Nat}
    (h : SameSons s s1) (he : SameMarks s s1 e)
    (hsons : ∀ i, i < s.NSONS e → SameMarks s s1 (SonList i))
    (hy : SonCheckSpec env s1 e SonList y) : SonCheckSpec env s e SonList y := by
  have hall : AllSonsCoarsen s1 SonList (s1.NSONS e) ↔ AllSonsCoarsen s SonList (s.NSONS e) := by
    unfold AllSonsCoarsen
    rw [h.2.1, h.2.2.2.2.1]
    constructor
    · intro hh i hi
      have := hh i hi
      rw [(hsons i hi).2.2] at this
      exact this
    · intro hh i hi
      rw [(hsons i hi).2.2]
      exact hh i hi
  have hm : markAtSonCheck env s1 e = markAtSonCheck env s e := by
    unfold markAtSonCheck; rw [h.2.2.2.2.1, h.2.2.2.1, he.1]
  have hc : classAtSonCheck env s1 e = classAtSonCheck env s e := by
    unfold classAtSonCheck; rw [h.2.2.2.2.1, he.2.1]
  unfold SonCheckSpec at hy ⊢
  rw [hall, hm, hc, he.2.2] at hy
  exact hy

theorem SonCheckSpec.change_post {env : Env} {s x1 y : Mesh} {e : Nat} {SonList : Nat → Nat}
    (he : SameMarks x1 y e) (hy : SonCheckSpec env s e SonList x1) :
    SonCheckSpec env s e SonList y := by
  unfold SonCheckSpec at hy ⊢
  rw [he.1, he.2.1, he.2.2]
  exact hy

theorem RestrictMarks_loop (env : Env) (fuel k e0 : Nat) (x y : Mesh)
    (h : forElements (fun y => y.SUCCE) (RestrictMarks_element env fuel) k e0 x = .next y) :
    SameSons x y ∧ (∀ e, ¬ OnList x.SUCCE e0 e → SameMarks x y e) ∧
      (∃ n, EndsIn x.SUCCE n e0) ∧
      ∀ e, OnList x.SUCCE e0 e → ∀ SonList, GetSons env fuel x e = .ok (GM_OK, SonList) →
        (∀ i, i < x.NSONS e → ¬ OnList x.SUCCE e0 (SonList i)) →
        ReachesSonCheck env x e → SonCheckSpec env x e SonList y := by
  refine forElements_spec (fun y => y.SUCCE) (RestrictMarks_element env fuel)
    (fun e0 x y => SameSons x y ∧ (∀ e, ¬ OnList x.SUCCE e0 e → SameMarks x y e) ∧
      (∃ n, EndsIn x.SUCCE n e0) ∧
      ∀ e, OnList x.SUCCE e0 e → ∀ SonList, GetSons env fuel x e = .ok (GM_OK, SonList) →
        (∀ i, i < x.NSONS e → ¬ OnList x.SUCCE e0 (SonList i)) →
        ReachesSonCheck env x e → SonCheckSpec env x e SonList y) ?_ ?_ k e0 x y h
  · intro x
    exact ⟨SameSons.ssrefl x, fun _ _ => ⟨rfl, rfl, rfl⟩, ⟨0, EndsIn.nil⟩,
      fun e he => absurd rfl he.ne_zero⟩
  · intro e x x1 y he hb hpost
    obtain ⟨m1, v1⟩ := RestrictMarks_element_next env fuel e x x1 hb
    obtain ⟨p1, p2, ⟨n, p3⟩, p4⟩ := hpost
    have hS : x1.SUCCE = x.SUCCE := m1.1.2.2.2.2.2.2.2.2.1
    have p3' : EndsIn x.SUCCE n (x.SUCCE e) := by
      have : EndsIn x1.SUCCE n (x1.SUCCE e) := p3
      rw [hS] at this; exact this
    have hends : EndsIn x.SUCCE (n + 1) e := EndsIn.step n e he p3'
    have hnot : ¬ OnList x.SUCCE (x.SUCCE e) e := hends.not_again
    have tail_of : ∀ e', OnList x1.SUCCE (x1.SUCCE e) e' ↔ OnList x.SUCCE (x.SUCCE e) e' := by
      intro e'; rw [hS]
    refine ⟨m1.1.sstrans p1, fun e' hne => ?_, ⟨n + 1, hends⟩, fun e' hl SonList hs hsons hr => ?_⟩
    · have hne' : e' ≠ e := fun hh => hne (by rw [hh]; exact OnList.head e he)
      have h1 := m1.2 e' hne'
      have h2 := p2 e' (fun hh => hne (OnList.tail e e' he ((tail_of e').1 hh)))
      exact ⟨h2.1.trans h1.1, h2.2.1.trans h1.2.1, h2.2.2.trans h1.2.2⟩
    · rcases hl.cases_on_first with hh | hh
      · subst hh
        exact SonCheckSpec.change_post (p2 e' (fun hh => hnot ((tail_of e').1 hh)))
          (v1 SonList hs hr)
      · have hne' : e' ≠ e := fun hk => hnot (hk ▸ hh)
        have hs1 : GetSons env fuel x1 e' = .ok (GM_OK, SonList) := by
          rw [GetSons_same env fuel m1.1 e']; exact hs
        have hN : x1.NSONS e' = x.NSONS e' := by rw [m1.1.2.1]
        have key := p4 e' ((tail_of e').2 hh) SonList hs1
          (fun i hi hk => hsons i (by omega)
            (OnList.tail e _ he ((tail_of _).1 hk)))
          ((ReachesSonCheck.same m1.1 e').2 hr)
        refine SonCheckSpec.change_pre m1.1 (m1.2 e' hne') (fun i hi => ?_) key
        exact m1.2 _ (fun hk => hsons i hi (by rw [hk]; exact OnList.head e he))

theorem RestrictMarks_spec (env : Env) (fuel : Nat) (s s' : Mesh)
    (h : RestrictMarks env fuel s = .ok (GM_OK, s')) (e : Nat) (he : OnLevel s e)
    (SonList : Nat → Nat) (hs : GetSons env fuel s e = .ok (GM_OK, SonList))
    (hsons : ∀ i, i < s.NSONS e → ¬ OnLevel s (SonList i))
    (hreach : ReachesSonCheck env s e) : SonCheckSpec env s e SonList s' := by
  unfold RestrictMarks at h
  split at h
  · rename_i s1 h1
    simp only [Except.ok.injEq, Prod.mk.injEq, true_and] at h
    subst h
    exact (RestrictMarks_loop env fuel fuel _ s s1 h1).2.2.2 e he SonList hs hsons hreach
  · rename_i c s1 h1
    simp only [Except.ok.injEq, Prod.mk.injEq] at h
    have hc := forElements_ret_code _ _ (fun c => c = GM_ERROR)
      (fun e x c y hb => RestrictMarks_element_ret env fuel e x c y hb) _ _ _ _ _ h1
    rw [hc] at h
    exact absurd h.1 (by decide)
  · contradiction

/-- C7. The coarsening rule of `RestrictMarks`: for an element of the level that gets to
the son check (with hanging nodes every element, in closure mode the elements that the
tests before it do not skip) and whose sons, as `GetSons` returns them, are not elements
of the level, a call that returns `GM_OK` leaves `MARK = NO_REFINEMENT`,
`MARKCLASS = NO_CLASS` and `COARSEN = 1` if every son has `COARSEN` set and
`REFINECLASS != RED_CLASS`; if some son has not, the flag `COARSEN` of the element is as
before and its mark is not cleared: mark and class are those it got to the son check
with. -/
theorem RestrictMarks_son_check (env : Env) (fuel : Nat) (s s' : Mesh)
    (h : RestrictMarks env fuel s = .ok (GM_OK, s')) (e : Nat) (he : OnLevel s e)
    (SonList : Nat → Nat) (hs : GetSons env fuel s e = .ok (GM_OK, SonList))
    (hsons : ∀ i, i < s.NSONS e → ¬ OnLevel s (SonList i))
    (hreach : env.hFlag = 0 ∨
      (¬ RestrictMarks_skip env s e ∧ s.REFINECLASS e ≠ CLASS.GREEN_CLASS)) :
    ((∀ i, i < s.NSONS e →
        s.COARSEN (SonList i) ≠ 0 ∧ s.REFINECLASS (SonList i) ≠ CLASS.RED_CLASS) →
      s'.MARK e = env.NO_REFINEMENT ∧ s'.MARKCLASS e = CLASS.NO_CLASS ∧ s'.COARSEN e = 1) ∧
    (¬ (∀ i, i < s.NSONS e →
        s.COARSEN (SonList i) ≠ 0 ∧ s.REFINECLASS (SonList i) ≠ CLASS.RED_CLASS) →
      s'.COARSEN e = s.COARSEN e ∧
      s'.MARK e = (if env.hFlag ≠ 0 ∧ s.REFINECLASS e = CLASS.RED_CLASS then s.REFINE e
        else s.MARK e) ∧
      s'.MARKCLASS e = (if env.hFlag ≠ 0 ∧ s.REFINECLASS e = CLASS.RED_CLASS
        then CLASS.RED_CLASS else s.MARKCLASS e)) :=
  RestrictMarks_spec env fuel s s' h e he SonList hs hsons hreach

/-- C8. Restriction monotonicity for regularly refined elements: in closure mode
(`hFlag = 1`), after a call of `RestrictMarks` that returns `GM_OK`, an element of the
level with `ECLASS = RED_CLASS`, `REFINECLASS = RED_CLASS` and `REFINE != NO_REFINEMENT`
that has a son which is not flagged `COARSEN` or is itself refined regularly has
`MARK = REFINE` and `MARKCLASS = RED_CLASS`, whatever its mark was before; the sons, as
`GetSons` returns them, are not elements of the level. -/
theorem RestrictMarks_keeps_red (env : Env) (fuel : Nat) (s s' : Mesh)
    (h : RestrictMarks env fuel s = .ok (GM_OK, s')) (hflag : env.hFlag = 1)
    (e : Nat) (he : OnLevel s e) (hE : s.ECLASS e = CLASS.RED_CLASS)
    (hR : s.REFINECLASS e = CLASS.RED_CLASS) (hN : s.REFINE e ≠ env.NO_REFINEMENT)
    (SonList : Nat → Nat) (hs : GetSons env fuel s e = .ok (GM_OK, SonList))
    (hsons : ∀ i, i < s.NSONS e → ¬ OnLevel s (SonList i))
    (hson : ∃ i, i < s.NSONS e ∧
      (s.COARSEN (SonList i) = 0 ∨ s.REFINECLASS (SonList i) = CLASS.RED_CLASS)) :
    s'.MARK e = s.REFINE e ∧ s'.MARKCLASS e = CLASS.RED_CLASS := by
  have hreach : ReachesSonCheck env s e := by
    refine Or.inr ⟨?_, by rw [hR]; decide⟩
    unfold RestrictMarks_skip
    rw [hE, hR]
    rintro (h1 | h1 | h1 | h1)
    · exact hN h1
    · exact absurd h1 (by decide)
    · exact absurd h1 (by decide)
    · exact absurd h1 (by decide)
  have key := (RestrictMarks_spec env fuel s s' h e he SonList hs hsons hreach).2 (by
    intro hall
    obtain ⟨i, hi, hc⟩ := hson
    rcases hc with hc | hc
    · exact (hall i hi).1 hc
    · exact (hall i hi).2 hc)
  have hf : env.hFlag ≠ 0 := by omega
  unfold markAtSonCheck classAtSonCheck at key
  rw [if_pos ⟨hf, hR⟩, if_pos ⟨hf, hR⟩] at key
  exact ⟨key.2.1, key.2.2⟩

/-! ## `RestrictMarks` on two refined triangles -/

theorem meshRestrict_level (e : Nat) (he : OnLevel meshRestrict e) : e = 1 ∨ e = 2 := by
  rcases he.cases_on_first with h1 | h1
  · exact Or.inl h1
  · rcases h1.cases_on_first with h2 | h2
    · exact Or.inr h2
    · exact absurd rfl h2.ne_zero

theorem meshRestrict_on_level (e : Nat) (he : e = 1 ∨ e = 2) : OnLevel meshRestrict e := by
  rcases he with rfl | rfl
  · exact OnList.head 1 (by decide)
  · exact OnList.tail 1 2 (by decide) (OnList.head 2 (by decide))

theorem meshRestrict_sons (e : Nat) (he : e = 1 ∨ e = 2) (i : Nat)
    (hi : i < meshRestrict.NSONS e) :
    ¬ OnLevel meshRestrict (sonsOf (GetSons emptyEnv 2 meshRestrict e) i) := by
  intro hl
  have h12 := meshRestrict_level _ hl
  rcases he with rfl | rfl
  · have hi4 : i < 4 := hi
    interval_cases i <;> revert h12 <;> decide
  · have hi4 : i < 4 := hi
    interval_cases i <;> revert h12 <;> decide

/-- On the level of `meshRestrict` in closure mode `RestrictMarks` returns `GM_OK`;
triangle 1, all of whose sons are to coarsen, ends with `MARK = NO_REFINEMENT`,
`MARKCLASS = NO_CLASS` and `COARSEN = 1`. -/
theorem RestrictMarks_son_check_witness :
    RestrictMarks emptyEnv 2 meshRestrict = .ok (GM_OK, meshRestricted) ∧
      OnLevel meshRestrict 1 ∧
      GetSons emptyEnv 2 meshRestrict 1 =
        .ok (GM_OK, sonsOf (GetSons emptyEnv 2 meshRestrict 1)) ∧
      (¬ RestrictMarks_skip emptyEnv meshRestrict 1 ∧
        meshRestrict.REFINECLASS 1 ≠ CLASS.GREEN_CLASS) ∧
      meshRestricted.MARK 1 = emptyEnv.NO_REFINEMENT ∧
      meshRestricted.MARKCLASS 1 = CLASS.NO_CLASS ∧ meshRestricted.COARSEN 1 = 1 :=
  ⟨rfl, meshRestrict_on_level 1 (Or.inl rfl), rfl, by decide,
    (RestrictMarks_son_check emptyEnv 2 meshRestrict meshRestricted rfl 1
      (meshRestrict_on_level 1 (Or.inl rfl)) _ rfl (meshRestrict_sons 1 (Or.inl rfl))
      (Or.inr (by decide))).1 (fun i hi => by
        have hi4 : i < 4 := hi
        interval_cases i <;> decide)⟩

/-- On the level of `meshRestrict` in closure mode triangle 2, whose son 22 is not to
coarsen, ends with `MARK = REFINE` and `MARKCLASS = RED_CLASS`; it had no mark before. -/
theorem RestrictMarks_keeps_red_witness :
    RestrictMarks emptyEnv 2 meshRestrict = .ok (GM_OK, meshRestricted) ∧
      emptyEnv.hFlag = 1 ∧ OnLevel meshRestrict 2 ∧
      meshRestrict.MARK 2 = 0 ∧ meshRestrict.MARKCLASS 2 = CLASS.NO_CLASS ∧
      meshRestrict.COARSEN (sonsOf (GetSons emptyEnv 2 meshRestrict 2) 1) = 0 ∧
      meshRestricted.MARK 2 = meshRestrict.REFINE 2 ∧
      meshRestricted.MARKCLASS 2 = CLASS.RED_CLASS :=
  ⟨rfl, rfl, meshRestrict_on_level 2 (Or.inr rfl), rfl, rfl, rfl,
    RestrictMarks_keeps_red emptyEnv 2 meshRestrict meshRestricted rfl rfl 2
      (meshRestrict_on_level 2 (Or.inr rfl)) rfl rfl (by decide) _ rfl
      (meshRestrict_sons 2 (Or.inr rfl)) ⟨1, by decide, Or.inl rfl⟩⟩
/-! ## `RefineGrid`: a pass that has nothing to do -/

theorem NoOpPass.nrefl (s : Mesh) : NoOpPass s s := rfl

theorem NoOpPass.eq_of {s s' : Mesh} (h : NoOpPass s s') :
    s' = { s with
      COARSEN := s'.COARSEN
      GRID_CHANGED := s'.GRID_CHANGED
      No_Green_Update := s'.No_Green_Update
      Green_Marks := s'.Green_Marks } := h

theorem NoOpPass.proj {α : Type} (f : Mesh → α) {s s' : Mesh} (h : NoOpPass s s') :
    f s' = f { s with
      COARSEN := s'.COARSEN
      GRID_CHANGED := s'.GRID_CHANGED
      No_Green_Update := s'.No_Green_Update
      Green_Marks := s'.Green_Marks } := congrArg f h.eq_of

theorem NoOpPass.ntrans {s s' s'' : Mesh} (h1 : NoOpPass s s') (h2 : NoOpPass s' s'') :
    NoOpPass s s'' := by
  unfold NoOpPass at h1 h2 ⊢
  rw [h2]
  rw [h1]

theorem NoOpPass.via {s s'' : Mesh} (m : Mesh) (h1 : NoOpPass s m) (h2 : NoOpPass m s'') :
    NoOpPass s s'' := h1.ntrans h2

theorem NoOpPass.rebuild_iff {s s' : Mesh} (h : NoOpPass s s') (env : Env) (e : Nat) :
    TO_REBUILD env s' e ↔ TO_REBUILD env s e := by
  have h1 : s'.REFINE = s.REFINE := h.proj Mesh.REFINE
  have h2 : s'.MARK = s.MARK := h.proj Mesh.MARK
  have h3 : s'.REFINECLASS = s.REFINECLASS := h.proj Mesh.REFINECLASS
  have h4 : s'.MARKCLASS = s.MARKCLASS := h.proj Mesh.MARKCLASS
  have h5 : s'.TAG = s.TAG := h.proj Mesh.TAG
  have h6 : s'.USED = s.USED := h.proj Mesh.USED
  unfold TO_REBUILD REF_TYPE_CHANGES NEWGREEN
  rw [h1, h2, h3, h4, h5, h6]

theorem RefineGrid_count_noop (e : Nat) (s : Mesh) : NoOpPass s (RefineGrid_count e s) := by
  unfold RefineGrid_count SETCOARSEN
  dsimp only
  split_ifs <;> rfl

theorem RefineGrid_element_noop (env : Env) (e : Nat) (s : Mesh)
    (h : ¬ TO_REBUILD env s e) :
    ∃ y, RefineGrid_element env e s = .next y ∧ NoOpPass s y := by
  unfold RefineGrid_element
  rw [if_neg h]
  by_cases hu : s.USED e = 0
  · rw [if_pos hu]
    exact ⟨_, rfl, NoOpPass.via { s with No_Green_Update := s.No_Green_Update + 1 }
      rfl (RefineGrid_count_noop e _)⟩
  · rw [if_neg hu]
    exact ⟨_, rfl, RefineGrid_count_noop e s⟩

theorem RefineGrid_noop_loop (env : Env) (f : Nat → Nat) (n e0 : Nat)
    (hlist : EndsIn f n e0) :
    ∀ (fuel : Nat) (x : Mesh), n ≤ fuel → x.SUCCE = f →
      (∀ e, OnList f e0 e → ¬ TO_REBUILD env x e) →
      ∃ y, forElements (fun y => y.SUCCE) (RefineGrid_element env) fuel e0 x = .next y ∧
        NoOpPass x y := by
  induction hlist with
  | nil =>
    intro fuel x _ _ _
    refine ⟨x, ?_, NoOpPass.nrefl x⟩
    cases fuel <;> simp [forElements]
  | step n e h0 _ ih =>
    intro fuel x hfuel hx hno
    obtain ⟨k, rfl⟩ : ∃ k, fuel = k + 1 := ⟨fuel - 1, by omega⟩
    obtain ⟨x1, hb, hn1⟩ := RefineGrid_element_noop env e x (hno e (OnList.head e h0))
    have hS : x1.SUCCE = f := by
      have : x1.SUCCE = x.SUCCE := hn1.proj Mesh.SUCCE
      rw [this, hx]
    obtain ⟨y, hy, hn2⟩ := ih k x1 (by omega) hS (fun e' he' hr =>
      hno e' (OnList.tail e e' h0 he') ((hn1.rebuild_iff env e').1 hr))
    refine ⟨y, ?_, hn1.ntrans hn2⟩
    unfold forElements
    rw [if_neg h0, hb]
    show forElements (fun y => y.SUCCE) (RefineGrid_element env) k (x1.SUCCE e) x1 = _
    rw [hS]
    exact hy

/-- C9. Idempotence of a pass that has nothing to do: if the level has a finer grid, its
element list ends, every element of the level has `MARK = REFINE` and
`MARKCLASS = REFINECLASS`, and in 3-D no hexahedron, prism or pyramid of class green has
`USED = 1` when `RefineGrid` is called, then `RefineGrid` returns `GM_OK` and the history
of calls is as before: no call of `UnrefineElement`, `UpdateContext`, `RefineElementRed`
or `RefineElementGreen` is made. The mesh is the one before the call but for the flags
`COARSEN`, the flag `GRID_CHANGED` and the two counters: no node is taken from the pool,
and `REFINE`, `REFINECLASS`, `NSONS` and the son references are unchanged. -/
theorem RefineGrid_noop (env : Env) (s : Mesh) (n fuel : Nat) (hup : s.UPGRID ≠ 0)
    (hlist : EndsIn s.SUCCE n s.FIRSTELEMENT) (hfuel : n ≤ fuel)
    (hsame : ∀ e, OnLevel s e →
      s.MARK e = s.REFINE e ∧ s.MARKCLASS e = s.REFINECLASS e)
    (hused : ∀ e, OnLevel s e →
      ¬ (env.DIM = 3 ∧ NEWGREEN s e ∧ s.MARKCLASS e = CLASS.GREEN_CLASS ∧ s.USED e = 1)) :
    ∃ s', RefineGrid env fuel s = .ok (GM_OK, s') ∧ s'.trace = s.trace ∧
      s'.nodePool = s.nodePool ∧ s'.REFINE = s.REFINE ∧ s'.REFINECLASS = s.REFINECLASS ∧
      s'.NSONS = s.NSONS ∧ s'.SON = s.SON ∧ NoOpPass s s' := by
  have hno : ∀ e, OnList s.SUCCE s.FIRSTELEMENT e →
      ¬ TO_REBUILD env { s with GRID_CHANGED := false } e := by
    intro e he hr
    obtain ⟨h1, h2⟩ := hsame e he
    rcases hr with hr | ⟨hd, hg, hm, hr⟩
    · rcases hr with hr | hr
      · exact hr h1.symm
      · exact hr h2.symm
    · rcases hr with hr | ⟨_, hr⟩
      · exact hr (h2.symm.trans hm)
      · exact hused e he ⟨hd, hg, hm, hr⟩
  obtain ⟨y, hy, hn⟩ := RefineGrid_noop_loop env s.SUCCE n s.FIRSTELEMENT hlist fuel
    { s with GRID_CHANGED := false } hfuel rfl hno
  have hn' : NoOpPass s y := NoOpPass.via { s with GRID_CHANGED := false } rfl hn
  refine ⟨y, ?_, hn'.proj Mesh.trace, hn'.proj Mesh.nodePool, hn'.proj Mesh.REFINE,
    hn'.proj Mesh.REFINECLASS, hn'.proj Mesh.NSONS, hn'.proj Mesh.SON, hn'⟩
  unfold RefineGrid
  rw [if_neg hup]
  dsimp only
  rw [hy]

/-! ## `RefineGrid` on example levels -/

theorem meshSettled_level (e : Nat) (he : OnLevel meshSettled e) : e = 1 ∨ e = 2 := by
  rcases he.cases_on_first with h1 | h1
  · exact Or.inl h1
  · rcases h1.cases_on_first with h2 | h2
    · exact Or.inr h2
    · exact absurd rfl h2.ne_zero

/-- On the level of `meshSettled`, which has a finer grid and where the marks are what
has been applied, `RefineGrid` returns `GM_OK` and makes no call. -/
theorem RefineGrid_noop_witness :
    meshSettled.UPGRID ≠ 0 ∧ EndsIn meshSettled.SUCCE 2 meshSettled.FIRSTELEMENT ∧
    (∀ e, OnLevel meshSettled e →
      meshSettled.MARK e = meshSettled.REFINE e ∧
      meshSettled.MARKCLASS e = meshSettled.REFINECLASS e) ∧
    ∃ s', RefineGrid emptyEnv 2 meshSettled = .ok (GM_OK, s') ∧ s'.trace = meshSettled.trace ∧
      s'.nodePool = meshSettled.nodePool ∧ s'.REFINE = meshSettled.REFINE ∧
      s'.REFINECLASS = meshSettled.REFINECLASS ∧ s'.NSONS = meshSettled.NSONS ∧
      s'.SON = meshSettled.SON ∧ NoOpPass meshSettled s' :=
  ⟨by decide, EndsIn.step 1 1 (by decide) (EndsIn.step 0 2 (by decide) EndsIn.nil),
    fun e he => by rcases meshSettled_level e he with rfl | rfl <;> decide,
    RefineGrid_noop emptyEnv meshSettled 2 2 (by decide)
      (EndsIn.step 1 1 (by decide) (EndsIn.step 0 2 (by decide) EndsIn.nil)) (le_refl 2)
      (fun e he => by rcases meshSettled_level e he with rfl | rfl <;> decide)
      (fun e he => by rcases meshSettled_level e he with rfl | rfl <;> decide)⟩

theorem meshGreenPyramid_level (e : Nat) (he : OnLevel meshGreenPyramid e) : e = 1 := by
  rcases he.cases_on_first with h1 | h1
  · exact h1
  · exact absurd rfl h1.ne_zero

theorem meshSettledTop_level (e : Nat) (he : OnLevel meshSettledTop e) : e = 1 ∨ e = 2 := by
  rcases he.cases_on_first with h1 | h1
  · exact Or.inl h1
  · rcases h1.cases_on_first with h2 | h2
    · exact Or.inr h2
    · exact absurd rfl h2.ne_zero

/-- A pass over a level whose only element, a pyramid of class green in 3-D with
`USED = 1`, has `MARK = REFINE` and `MARKCLASS = REFINECLASS`: `RefineGrid` returns
`GM_OK` and has called `UnrefineElement`, `UpdateContext` and `RefineElementGreen` for
the pyramid. And on a level without a finer grid, with marks equal to what has been
applied, `RefineGrid` returns `GM_FATAL`. -/
theorem RefineGrid_green_rebuilt :
    (∀ e, OnLevel meshGreenPyramid e →
      meshGreenPyramid.MARK e = meshGreenPyramid.REFINE e ∧
      meshGreenPyramid.MARKCLASS e = meshGreenPyramid.REFINECLASS e) ∧
    RefineGrid envGreen3D 1 meshGreenPyramid = .ok (GM_OK, meshGreenPyramidRefined) ∧
    meshGreenPyramidRefined.trace = [Event.UnrefineElement 1, Event.UpdateContext 1,
      Event.RefineElementGreen 1] ∧
    (∀ e, OnLevel meshSettledTop e →
      meshSettledTop.MARK e = meshSettledTop.REFINE e ∧
      meshSettledTop.MARKCLASS e = meshSettledTop.REFINECLASS e) ∧
    RefineGrid emptyEnv 2 meshSettledTop = .ok (GM_FATAL, meshSettledTop) :=
  ⟨fun e he => by rw [meshGreenPyramid_level e he]; decide, rfl, by decide,
    fun e he => by rcases meshSettledTop_level e he with rfl | rfl <;> decide, rfl⟩
/-! ## `RefineGrid`: a round that rebuilds the sons -/

theorem SameFlags.sfrefl (x : Mesh) (e : Nat) : SameFlags x x e :=
  ⟨rfl, rfl, rfl, rfl, rfl, rfl⟩

theorem SameFlags.sftrans {x y z : Mesh} {e : Nat} (h1 : SameFlags x y e)
    (h2 : SameFlags y z e) : SameFlags x z e :=
  ⟨h2.1.trans h1.1, h2.2.1.trans h1.2.1, h2.2.2.1.trans h1.2.2.1,
    h2.2.2.2.1.trans h1.2.2.2.1, h2.2.2.2.2.1.trans h1.2.2.2.2.1,
    h2.2.2.2.2.2.trans h1.2.2.2.2.2⟩

theorem SameFlags.rebuild_same {x y : Mesh} {e : Nat} (h : SameFlags x y e) (env : Env) :
    TO_REBUILD env y e ↔ TO_REBUILD env x e := by
  unfold TO_REBUILD REF_TYPE_CHANGES NEWGREEN
  rw [h.1, h.2.1, h.2.2.1, h.2.2.2.1, h.2.2.2.2.1, h.2.2.2.2.2]

theorem CallStep.csrefl (L : Nat → Prop) (x : Mesh) : CallStep L x x [] :=
  ⟨fun e _ => ⟨rfl, SameFlags.sfrefl x e⟩, by simp⟩

theorem CallStep.cstrans {L : Nat → Prop} {x y z : Mesh} {m1 m2 : List Event}
    (h1 : CallStep L x y m1) (h2 : CallStep L y z m2) : CallStep L x z (m1 ++ m2) :=
  ⟨fun e he => ⟨((h2.1 e he).1).trans (h1.1 e he).1, (h1.1 e he).2.sftrans (h2.1 e he).2⟩, by
    rw [h2.2, h1.2, List.append_assoc]⟩

theorem CallStep.of_log (L : Nat → Prop) (x : Mesh) (a : Event) :
    CallStep L x (logCall x a) [a] :=
  ⟨fun e _ => ⟨rfl, SameFlags.sfrefl x e⟩, rfl⟩

theorem CallStep.of_kept {L : Nat → Prop} {x y : Mesh}
    (h : LevelKept L x y ∧ y.trace = x.trace) : CallStep L x y [] :=
  ⟨h.1, by rw [h.2]; simp⟩

theorem UpdateContext_frame (env : Env) (L : Nat → Prop) (s : Mesh) (e : Nat)
    (q : Int × Mesh × Context) (h : UpdateContext env s e = .ok q) :
    ∃ mids, CallStep L s q.2.1 mids ∧ ∀ a ∈ mids, ∃ e1 j x, a = Event.CreateMidNode e1 j x := by
  have kept : ∀ y : Mesh, SameStatic s y → LevelKept L s y := by
    intro y hy e' _
    obtain ⟨a1, a2, a3, a4, a5, a6, a7, a8, a9, a10, a11, a12, a13, a14, a15, a16, a17, a18,
      a19⟩ := hy
    refine ⟨by rw [a14], ?_⟩
    exact ⟨by rw [a3], by rw [a4], by rw [a8], by rw [a9], by rw [a10], by rw [a1]⟩
  by_cases hm : s.MARK e = env.NO_REFINEMENT
  · unfold UpdateContext at h
    dsimp only at h
    rw [if_pos hm] at h
    simp only [Except.ok.injEq] at h
    subst h
    exact ⟨[], CallStep.csrefl L s, fun a ha => absurd ha (by simp)⟩
  · obtain ⟨hw, _, _⟩ := UpdateContext_spec env s e q.1 q.2.1 q.2.2 hm h
    obtain ⟨hst, _, ev, htr, hall, _⟩ := hw
    refine ⟨ev, ⟨kept _ hst, htr⟩, fun a ha => ?_⟩
    obtain ⟨e1, j, x, hx, _⟩ := hall a ha
    exact ⟨e1, j, x, hx⟩

theorem RefineGrid_red_next (env : Env) (L : Nat → Prop) (hfine : FineGridOnly env L)
    (e : Nat) (ctx : Context) (s y : Mesh) (h : RefineGrid_red env e ctx s = .next y) :
    CallStep L s y [Event.RefineElementRed e] := by
  unfold RefineGrid_red at h
  split at h
  · contradiction
  · rename_i p hp
    split at h
    · contradiction
    · simp only [LoopRes.next.injEq] at h
      subst h
      exact (CallStep.of_log L s _).cstrans (CallStep.of_kept (hfine.2.1 _ _ _ _ hp))

theorem RefineGrid_red_ret (env : Env) (e : Nat) (ctx : Context) (s : Mesh) (c : Int)
    (y : Mesh) (h : RefineGrid_red env e ctx s = .ret c y) : c = GM_FATAL := by
  unfold RefineGrid_red at h
  split at h
  · contradiction
  · split at h
    · simp only [LoopRes.ret.injEq] at h; exact h.1.symm
    · contradiction

theorem RefineGrid_green_next (env : Env) (L : Nat → Prop) (hfine : FineGridOnly env L)
    (e : Nat) (ctx : Context) (s y : Mesh) (h : RefineGrid_green env e ctx s = .next y) :
    CallStep L s y [Event.RefineElementGreen e] := by
  unfold RefineGrid_green at h
  split at h
  · contradiction
  · rename_i p hp
    split at h
    · contradiction
    · simp only [LoopRes.next.injEq] at h
      subst h
      exact (CallStep.of_log L s _).cstrans (CallStep.of_kept (hfine.2.2 _ _ _ _ hp))

theorem RefineGrid_green_ret (env : Env) (e : Nat) (ctx : Context) (s : Mesh) (c : Int)
    (y : Mesh) (h : RefineGrid_green env e ctx s = .ret c y) : c = GM_FATAL := by
  unfold RefineGrid_green at h
  split at h
  · contradiction
  · split at h
    · simp only [LoopRes.ret.injEq] at h; exact h.1.symm
    · contradiction

theorem RefineGrid_refine_next (env : Env) (L : Nat → Prop) (hfine : FineGridOnly env L)
    (e : Nat) (ctx : Context) (s y : Mesh) (h : RefineGrid_refine env e ctx s = .next y) :
    ∃ m, CallStep L s y m ∧ ∀ a ∈ m, isRefineOf e a := by
  have red : ∀ hh : RefineGrid_red env e ctx s = .next y,
      ∃ m, CallStep L s y m ∧ ∀ a ∈ m, isRefineOf e a := fun hh =>
    ⟨_, RefineGrid_red_next env L hfine e ctx s y hh, fun a ha => by
      simp only [List.mem_singleton] at ha
      exact Or.inl ha⟩
  unfold RefineGrid_refine at h
  split at h
  · split at h
    · exact red h
    · split at h
      · exact ⟨_, RefineGrid_green_next env L hfine e ctx s y h, fun a ha => by
          simp only [List.mem_singleton] at ha
          exact Or.inr ha⟩
      · exact red h
    · exact red h
    · contradiction
  · simp only [LoopRes.next.injEq] at h
    subst h
    exact ⟨[], CallStep.csrefl L s, fun a ha => absurd ha (by simp)⟩

theorem RefineGrid_refine_ret (env : Env) (e : Nat) (ctx : Context) (s : Mesh) (c : Int)
    (y : Mesh) (h : RefineGrid_refine env e ctx s = .ret c y) : c = GM_FATAL := by
  unfold RefineGrid_refine at h
  split at h
  · split at h
    · exact RefineGrid_red_ret env e ctx s c y h
    · split at h
      · exact RefineGrid_green_ret env e ctx s c y h
      · exact RefineGrid_red_ret env e ctx s c y h
    · exact RefineGrid_red_ret env e ctx s c y h
    · simp only [LoopRes.ret.injEq] at h; exact h.1.symm
  · contradiction

theorem RefineGrid_rebuild_next (env : Env) (L : Nat → Prop) (hfine : FineGridOnly env L)
    (e : Nat) (s y : Mesh) (h : RefineGrid_rebuild env e s = .next y) :
    ∃ s3 rest, CallStep L s s3 (Event.UnrefineElement e :: rest) ∧
      (∀ a ∈ rest, ∀ e', e' ≠ e → ¬ isRefineOf e' a) ∧ y = RefineGrid_flags e s3 := by
  unfold RefineGrid_rebuild at h
  split at h
  · contradiction
  · rename_i p hp
    split at h
    · contradiction
    · split at h
      · contradiction
      · rename_i q hq
        split at h
        · contradiction
        · split at h
          · rename_i s3 h3
            simp only [LoopRes.next.injEq] at h
            obtain ⟨mids, hmid, hall⟩ := UpdateContext_frame env L _ e q hq
            obtain ⟨m3, hm3, hall3⟩ := RefineGrid_refine_next env L hfine e q.2.2 q.2.1 s3 h3
            have c1 := (CallStep.of_log L s (Event.UnrefineElement e)).cstrans
              (CallStep.of_kept (hfine.1 _ _ _ hp))
            have c2 := (CallStep.of_log L p.2 (Event.UpdateContext e)).cstrans hmid
            have call := (c1.cstrans c2).cstrans hm3
            refine ⟨s3, [Event.UpdateContext e] ++ mids ++ m3, ?_, ?_, h.symm⟩
            · have e1 : [Event.UnrefineElement e] ++ [] ++ ([Event.UpdateContext e] ++ mids) ++ m3
                  = Event.UnrefineElement e :: ([Event.UpdateContext e] ++ mids ++ m3) := by
                simp
              rw [← e1]; exact call
            · intro a ha e' hne hr
              simp only [List.mem_append, List.mem_singleton] at ha
              rcases ha with (ha | ha) | ha
              · subst ha
                rcases hr with hr | hr <;> exact absurd hr (by simp)
              · obtain ⟨e1, j, x, hx⟩ := hall a ha
                subst hx
                rcases hr with hr | hr <;> exact absurd hr (by simp)
              · rcases hall3 a ha with hk | hk <;> rcases hr with hr | hr
                · rw [hk] at hr; simp only [Event.RefineElementRed.injEq] at hr
                  exact hne hr.symm
                · rw [hk] at hr; exact absurd hr (by simp)
                · rw [hk] at hr; exact absurd hr (by simp)
                · rw [hk] at hr; simp only [Event.RefineElementGreen.injEq] at hr
                  exact hne hr.symm
          · contradiction
          · contradiction

theorem RefineGrid_rebuild_ret (env : Env) (e : Nat) (s : Mesh) (c : Int) (y : Mesh)
    (h : RefineGrid_rebuild env e s = .ret c y) : c = GM_FATAL := by
  unfold RefineGrid_rebuild at h
  split at h
  · contradiction
  · split at h
    · simp only [LoopRes.ret.injEq] at h; exact h.1.symm
    · split at h
      · contradiction
      · split at h
        · simp only [LoopRes.ret.injEq] at h; exact h.1.symm
        · split at h
          · contradiction
          · rename_i c' s3 h3
            simp only [LoopRes.ret.injEq] at h
            obtain ⟨rfl, _⟩ := h
            exact RefineGrid_refine_ret env e _ _ _ _ h3
          · contradiction
/-! ## `RefineGrid`: one round -/

theorem RefineGrid_element_next (env : Env) (L : Nat → Prop) (hfine : FineGridOnly env L)
    (e : Nat) (hL : L e) (x x1 : Mesh) (h : RefineGrid_element env e x = .next x1) :
    (∀ e', L e' → x1.SUCCE e' = x.SUCCE e' ∧ x1.TAG e' = x.TAG e') ∧
    (∀ e', L e' → e' ≠ e → SameFlags x x1 e') ∧
    ∃ m, x1.trace = x.trace ++ m ∧ (∀ a ∈ m, ∀ e', e' ≠ e → ¬ isRefineOf e' a) ∧
      (TO_REBUILD env x e → (env.hFlag ≠ 0 ∨ x.MARKCLASS e = CLASS.RED_CLASS) →
        (∃ rest, m = Event.UnrefineElement e :: rest) ∧ x1.REFINE e = x.MARK e ∧
        x1.MARK e = x.MARK e ∧ x1.REFINECLASS e = x.MARKCLASS e ∧
        x1.MARKCLASS e = x.MARKCLASS e) := by
  have plain : ∀ y : Mesh, NoOpPass x y →
      (∀ e', L e' → y.SUCCE e' = x.SUCCE e' ∧ y.TAG e' = x.TAG e') ∧
      (∀ e', L e' → e' ≠ e → SameFlags x y e') ∧ y.trace = x.trace ++ [] := by
    intro y hy
    have h1 : y.SUCCE = x.SUCCE := hy.proj Mesh.SUCCE
    have h2 : y.TAG = x.TAG := hy.proj Mesh.TAG
    have h3 : y.MARK = x.MARK := hy.proj Mesh.MARK
    have h4 : y.MARKCLASS = x.MARKCLASS := hy.proj Mesh.MARKCLASS
    have h5 : y.REFINE = x.REFINE := hy.proj Mesh.REFINE
    have h6 : y.REFINECLASS = x.REFINECLASS := hy.proj Mesh.REFINECLASS
    have h7 : y.USED = x.USED := hy.proj Mesh.USED
    have h8 : y.trace = x.trace := hy.proj Mesh.trace
    exact ⟨fun e' _ => ⟨by rw [h1], by rw [h2]⟩, fun e' _ _ =>
      ⟨by rw [h3], by rw [h4], by rw [h5], by rw [h6], by rw [h7], by rw [h2]⟩, by
      rw [h8]; simp⟩
  unfold RefineGrid_element at h
  split at h
  · rename_i hre
    split at h
    · rename_i hskip
      simp only [LoopRes.next.injEq] at h
      subst h
      refine ⟨fun e' _ => ⟨rfl, rfl⟩, fun e' _ hne => ?_, [], by simp [SETMARKCLASS, SETMARK],
        fun a ha => absurd ha (by simp), fun _ hmode => ?_⟩
      · exact ⟨upd_other _ _ _ _ hne, upd_other _ _ _ _ hne, rfl, rfl, rfl, rfl⟩
      · rcases hmode with hm | hm
        · exact absurd hskip.1 hm
        · exact absurd hm hskip.2
    · split at h
      · rename_i s1 h1
        simp only [LoopRes.next.injEq] at h
        subst h
        obtain ⟨s3, rest, hc, hrest, rfl⟩ := RefineGrid_rebuild_next env L hfine e x s1 h1
        have hn := RefineGrid_count_noop e (RefineGrid_flags e s3)
        have g1 : (RefineGrid_count e (RefineGrid_flags e s3)).SUCCE = s3.SUCCE :=
          hn.proj Mesh.SUCCE
        have g2 : (RefineGrid_count e (RefineGrid_flags e s3)).TAG = s3.TAG := hn.proj Mesh.TAG
        have g3 : (RefineGrid_count e (RefineGrid_flags e s3)).MARK = s3.MARK :=
          hn.proj Mesh.MARK
        have g4 : (RefineGrid_count e (RefineGrid_flags e s3)).MARKCLASS = s3.MARKCLASS :=
          hn.proj Mesh.MARKCLASS
        have g5 : (RefineGrid_count e (RefineGrid_flags e s3)).REFINE =
            upd s3.REFINE e (s3.MARK e) := hn.proj Mesh.REFINE
        have g6 : (RefineGrid_count e (RefineGrid_flags e s3)).REFINECLASS =
            upd s3.REFINECLASS e (s3.MARKCLASS e) := hn.proj Mesh.REFINECLASS
        have g7 : (RefineGrid_count e (RefineGrid_flags e s3)).USED = upd s3.USED e 0 :=
          hn.proj Mesh.USED
        have g8 : (RefineGrid_count e (RefineGrid_flags e s3)).trace = s3.trace :=
          hn.proj Mesh.trace
        refine ⟨fun e' he' => ?_, fun e' he' hne => ?_, Event.UnrefineElement e :: rest, ?_,
          fun a ha e' hne => ?_, fun _ _ => ?_⟩
        · obtain ⟨k1, k2⟩ := hc.1 e' he'
          exact ⟨by rw [g1, k1], by rw [g2, k2.2.2.2.2.2]⟩
        · obtain ⟨_, k2⟩ := hc.1 e' he'
          exact ⟨by rw [g3, k2.1], by rw [g4, k2.2.1],
            by rw [g5, upd_other _ _ _ _ hne, k2.2.2.1],
            by rw [g6, upd_other _ _ _ _ hne, k2.2.2.2.1],
            by rw [g7, upd_other _ _ _ _ hne, k2.2.2.2.2.1], by rw [g2, k2.2.2.2.2.2]⟩
        · rw [g8, hc.2]
        · simp only [List.mem_cons] at ha
          rcases ha with ha | ha
          · subst ha
            intro hr
            rcases hr with hr | hr <;> exact absurd hr (by simp)
          · exact hrest a ha e' hne
        · obtain ⟨_, k2⟩ := hc.1 e hL
          exact ⟨⟨rest, rfl⟩, by rw [g5, upd_same, k2.1], by rw [g3, k2.1],
            by rw [g6, upd_same, k2.2.1], by rw [g4, k2.2.1]⟩
      · contradiction
      · contradiction
  · rename_i hre
    split at h
    · simp only [LoopRes.next.injEq] at h
      subst h
      obtain ⟨p1, p2, p3⟩ := plain _
        (NoOpPass.via { x with No_Green_Update := x.No_Green_Update + 1 } rfl
          (RefineGrid_count_noop e _))
      exact ⟨p1, p2, [], p3, fun a ha => absurd ha (by simp), fun hh => absurd hh hre⟩
    · simp only [LoopRes.next.injEq] at h
      subst h
      obtain ⟨p1, p2, p3⟩ := plain _ (RefineGrid_count_noop e x)
      exact ⟨p1, p2, [], p3, fun a ha => absurd ha (by simp), fun hh => absurd hh hre⟩

theorem RefineGrid_element_ret (env : Env) (e : Nat) (x : Mesh) (c : Int) (y : Mesh)
    (h : RefineGrid_element env e x = .ret c y) : c = GM_FATAL := by
  unfold RefineGrid_element at h
  split at h
  · split at h
    · contradiction
    · split at h
      · contradiction
      · rename_i c' s1 h1
        simp only [LoopRes.ret.injEq] at h
        obtain ⟨rfl, _⟩ := h
        exact RefineGrid_rebuild_ret env e x _ _ h1
      · contradiction
  · split at h <;> contradiction

/-! ## `RefineGrid`: the loop -/

theorem forElements_link_congr {σ : Type} (link : σ → Nat → Nat) (body : Nat → σ → LoopRes σ)
    (f : Nat → Nat) (L : Nat → Prop) (Inv : σ → Prop)
    (hbody : ∀ e x y, L e → Inv x → body e x = .next y → Inv y)
    (hlink : ∀ e x, L e → Inv x → link x e = f e)
    (hclosed : ∀ e, L e → f e = 0 ∨ L (f e)) :
    ∀ (fuel e0 : Nat) (x : σ), Inv x → (e0 = 0 ∨ L e0) →
      forElements link body fuel e0 x = forElements (fun _ => f) body fuel e0 x := by
  intro fuel
  induction fuel with
  | zero => intro e0 x _ _; rfl
  | succ k ih =>
    intro e0 x hI h0
    unfold forElements
    by_cases hz : e0 = 0
    · rw [if_pos hz, if_pos hz]
    · rw [if_neg hz, if_neg hz]
      have hL : L e0 := h0.resolve_left hz
      cases hb : body e0 x with
      | next y =>
        have hIy := hbody e0 x y hL hI hb
        show forElements link body k (link y e0) y = forElements (fun _ => f) body k (f e0) y
        rw [hlink e0 y hL hIy]
        exact ih (f e0) y hIy (hclosed e0 hL)
      | ret c y => rfl
      | stop r => rfl

theorem OnList.closed {link : Nat → Nat} {first e : Nat} (h : OnList link first e) :
    link e = 0 ∨ OnList link first (link e) := by
  induction h with
  | head e h0 =>
    by_cases hz : link e = 0
    · exact Or.inl hz
    · exact Or.inr (OnList.tail e _ h0 (OnList.head _ hz))
  | tail first e h0 _ ih =>
    rcases ih with ih | ih
    · exact Or.inl ih
    · exact Or.inr (OnList.tail first _ h0 ih)

theorem UnrefinedFirst.later {e : Nat} {pre' ev : List Event} (h : UnrefinedFirst e ev)
    (hpre : ∀ a ∈ pre', ¬ isRefineOf e a) : UnrefinedFirst e (pre' ++ ev) := by
  obtain ⟨pre, post, rfl, hp⟩ := h
  refine ⟨pre' ++ pre, post, by simp, fun a ha => ?_⟩
  rcases List.mem_append.mp ha with ha | ha
  · exact hpre a ha
  · exact hp a ha

theorem RefineGrid_loop (env : Env) (L : Nat → Prop) (hfine : FineGridOnly env L)
    (f : Nat → Nat) (fuel e0 : Nat) (x y : Mesh)
    (h : forElements (fun _ => f) (RefineGrid_element env) fuel e0 x = .next y)
    (hL : ∀ e, OnList f e0 e → L e) :
    (∀ e', L e' → y.TAG e' = x.TAG e') ∧
    (∀ e', L e' → ¬ OnList f e0 e' → SameFlags x y e') ∧
    (∃ m, y.trace = x.trace ++ m ∧ ∀ a ∈ m, ∀ e', ¬ OnList f e0 e' → ¬ isRefineOf e' a) ∧
    (∃ n, EndsIn f n e0) ∧
    ∀ e, OnList f e0 e → TO_REBUILD env x e →
      (env.hFlag ≠ 0 ∨ x.MARKCLASS e = CLASS.RED_CLASS) →
      (∃ ev, y.trace = x.trace ++ ev ∧ UnrefinedFirst e ev) ∧ y.REFINE e = x.MARK e ∧
      y.MARK e = x.MARK e ∧ y.REFINECLASS e = x.MARKCLASS e ∧
      y.MARKCLASS e = x.MARKCLASS e := by
  revert hL
  refine forElements_spec (fun _ => f) (RefineGrid_element env)
    (fun e0 x y => (∀ e, OnList f e0 e → L e) →
      (∀ e', L e' → y.TAG e' = x.TAG e') ∧
      (∀ e', L e' → ¬ OnList f e0 e' → SameFlags x y e') ∧
      (∃ m, y.trace = x.trace ++ m ∧ ∀ a ∈ m, ∀ e', ¬ OnList f e0 e' → ¬ isRefineOf e' a) ∧
      (∃ n, EndsIn f n e0) ∧
      ∀ e, OnList f e0 e → TO_REBUILD env x e →
        (env.hFlag ≠ 0 ∨ x.MARKCLASS e = CLASS.RED_CLASS) →
        (∃ ev, y.trace = x.trace ++ ev ∧ UnrefinedFirst e ev) ∧ y.REFINE e = x.MARK e ∧
        y.MARK e = x.MARK e ∧ y.REFINECLASS e = x.MARKCLASS e ∧
        y.MARKCLASS e = x.MARKCLASS e) ?_ ?_ fuel e0 x y h
  · intro x _
    exact ⟨fun _ _ => rfl, fun e' _ _ => SameFlags.sfrefl x e', ⟨[], by simp, fun a ha =>
      absurd ha (by simp)⟩, ⟨0, EndsIn.nil⟩, fun e he => absurd rfl he.ne_zero⟩
  · intro e x x1 y he hb hpost hL
    have hLe : L e := hL e (OnList.head e he)
    obtain ⟨r1, r2, m1, rt, rclean, rmain⟩ :=
      RefineGrid_element_next env L hfine e hLe x x1 hb
    obtain ⟨p1, p2, ⟨m2, pt, pclean⟩, ⟨n, pends⟩, pmain⟩ :=
      hpost (fun e' he' => hL e' (OnList.tail e e' he he'))
    have hends : EndsIn f (n + 1) e := EndsIn.step n e he pends
    have hnot : ¬ OnList f (f e) e := hends.not_again
    have htr : y.trace = x.trace ++ (m1 ++ m2) := by rw [pt, rt, List.append_assoc]
    refine ⟨fun e' he' => (p1 e' he').trans (r1 e' he').2, fun e' he' hno => ?_,
      ⟨m1 ++ m2, htr, fun a ha e' hno => ?_⟩, ⟨n + 1, hends⟩, fun e' hl hre hmode => ?_⟩
    · have hne : e' ≠ e := fun hh => hno (by rw [hh]; exact OnList.head e he)
      exact (r2 e' he' hne).sftrans
        (p2 e' he' (fun hh => hno (OnList.tail e e' he hh)))
    · have hne : e' ≠ e := fun hh => hno (by rw [hh]; exact OnList.head e he)
      rcases List.mem_append.mp ha with ha | ha
      · exact rclean a ha e' hne
      · exact pclean a ha e' (fun hh => hno (OnList.tail e e' he hh))
    · rcases hl.cases_on_first with hh | hh
      · subst hh
        obtain ⟨⟨rest, hm⟩, q1, q2, q3, q4⟩ := rmain hre hmode
        have hs := p2 e' hLe hnot
        refine ⟨⟨m1 ++ m2, htr, [], rest ++ m2, by rw [hm]; simp, fun a ha =>
          absurd ha (by simp)⟩, ?_, ?_, ?_, ?_⟩
        · rw [hs.2.2.1, q1]
        · rw [hs.1, q2]
        · rw [hs.2.2.2.1, q3]
        · rw [hs.2.1, q4]
      · have hne : e' ≠ e := fun hk => hnot (hk ▸ hh)
        have hLe' : L e' := hL e' hl
        have hsf := r2 e' hLe' hne
        obtain ⟨⟨ev, hev, hun⟩, q1, q2, q3, q4⟩ := pmain e' hh
          ((hsf.rebuild_same env).2 hre) (by rw [hsf.2.1]; exact hmode)
        refine ⟨⟨m1 ++ ev, by rw [hev, rt, List.append_assoc], hun.later (fun a ha =>
          rclean a ha e' hne)⟩, ?_, ?_, ?_, ?_⟩
        · rw [q1, hsf.1]
        · rw [q2, hsf.1]
        · rw [q3, hsf.2.1]
        · rw [q4, hsf.2.1]
/-! ## `RefineGrid`: the whole function -/

theorem RefineGrid_spec (env : Env) (fuel : Nat) (s s' : Mesh)
    (hfine : FineGridOnly env (OnLevel s)) (h : RefineGrid env fuel s = .ok (GM_OK, s'))
    (e : Nat) (he : OnLevel s e) (hch : REF_TYPE_CHANGES s e)
    (hmode : env.hFlag ≠ 0 ∨ s.MARKCLASS e = CLASS.RED_CLASS) :
    (∃ ev, s'.trace = s.trace ++ ev ∧ UnrefinedFirst e ev) ∧ s'.REFINE e = s.MARK e ∧
      s'.MARK e = s.MARK e ∧ s'.REFINECLASS e = s.MARKCLASS e ∧
      s'.MARKCLASS e = s.MARKCLASS e := by
  unfold RefineGrid at h
  split at h
  · simp only [Except.ok.injEq, Prod.mk.injEq] at h
    exact absurd h.1 (by decide)
  · dsimp only at h
    have hcongr := forElements_link_congr (fun y : Mesh => y.SUCCE) (RefineGrid_element env)
      s.SUCCE (OnLevel s) (fun x => ∀ e, OnLevel s e → x.SUCCE e = s.SUCCE e)
      (fun e x y hL hI hb e' he' => by
        rw [((RefineGrid_element_next env (OnLevel s) hfine e hL x y hb).1 e' he').1]
        exact hI e' he')
      (fun e x hL hI => hI e hL)
      (fun e hL => OnList.closed hL) fuel s.FIRSTELEMENT { s with GRID_CHANGED := false }
      (fun _ _ => rfl)
      (by
        by_cases hz : s.FIRSTELEMENT = 0
        · exact Or.inl hz
        · exact Or.inr (OnList.head _ hz))
    rw [hcongr] at h
    split at h
    · rename_i y hy
      simp only [Except.ok.injEq, Prod.mk.injEq, true_and] at h
      subst h
      have key := (RefineGrid_loop env (OnLevel s) hfine s.SUCCE fuel s.FIRSTELEMENT _ y hy
        (fun e he => he)).2.2.2.2 e he (Or.inl hch) hmode
      exact key
    · rename_i c y hy
      simp only [Except.ok.injEq, Prod.mk.injEq] at h
      have hc := forElements_ret_code _ _ (fun c => c = GM_FATAL)
        (fun e x c y hb => RefineGrid_element_ret env e x c y hb) _ _ _ _ _ hy
      rw [hc] at h
      exact absurd h.1 (by decide)
    · contradiction

/-- C10. `RefineGrid` unrefines before it rebuilds: in closure mode, and with hanging
nodes for an element with `MARKCLASS = RED_CLASS`, an element of the level with
`REFINE != MARK` or `REFINECLASS != MARKCLASS` has in the history of a call that returns
`GM_OK` a call of `UnrefineElement` before which no call of `RefineElementRed` or
`RefineElementGreen` is made for it, and on return `REFINE = MARK` and
`REFINECLASS = MARKCLASS`, the mark and its class being those at the call. The procedures
for the finer grid leave the elements of the level as they are. -/
theorem RefineGrid_unrefines_first (env : Env) (fuel : Nat) (s s' : Mesh)
    (hfine : FineGridOnly env (OnLevel s)) (h : RefineGrid env fuel s = .ok (GM_OK, s'))
    (e : Nat) (he : OnLevel s e)
    (hch : s.REFINE e ≠ s.MARK e ∨ s.REFINECLASS e ≠ s.MARKCLASS e)
    (hmode : env.hFlag ≠ 0 ∨ s.MARKCLASS e = CLASS.RED_CLASS) :
    (∃ pre post, s'.trace = s.trace ++ (pre ++ Event.UnrefineElement e :: post) ∧
      ∀ a ∈ pre, a ≠ Event.RefineElementRed e ∧ a ≠ Event.RefineElementGreen e) ∧
    s'.REFINE e = s'.MARK e ∧ s'.REFINECLASS e = s'.MARKCLASS e ∧
    s'.MARK e = s.MARK e ∧ s'.MARKCLASS e = s.MARKCLASS e := by
  obtain ⟨⟨ev, hev, pre, post, rfl, hpre⟩, q1, q2, q3, q4⟩ :=
    RefineGrid_spec env fuel s s' hfine h e he hch hmode
  refine ⟨⟨pre, post, hev, fun a ha => ?_⟩, by rw [q1, q2], by rw [q3, q4], q2, q4⟩
  exact ⟨fun hh => hpre a ha (Or.inl hh), fun hh => hpre a ha (Or.inr hh)⟩

/-! ## `RefineGrid` on two triangles -/

theorem meshRefine_on_level (e : Nat) (he : e = 1 ∨ e = 2) : OnLevel meshRefine e := by
  rcases he with rfl | rfl
  · exact OnList.head 1 (by decide)
  · exact OnList.tail 1 2 (by decide) (OnList.head 2 (by decide))

theorem envSons2D_fine (L : Nat → Prop) : FineGridOnly envSons2D L := by
  refine ⟨fun x e p hp => ?_, fun x e ctx p hp => ?_, fun x e ctx p hp => ?_⟩
  · have : p = (0, { x with NSONS := upd x.NSONS e 0 }) := by
      have h1 : envSons2D.UnrefineElement x e = .ok (0, { x with NSONS := upd x.NSONS e 0 }) :=
        rfl
      rw [h1] at hp
      simp only [Except.ok.injEq] at hp
      exact hp.symm
    subst this
    exact ⟨fun e' _ => ⟨rfl, rfl, rfl, rfl, rfl, rfl, rfl⟩, rfl⟩
  · have : p = (0, { x with NSONS := upd x.NSONS e 4 }) := by
      have h1 : envSons2D.RefineElementRed x e ctx =
          .ok (0, { x with NSONS := upd x.NSONS e 4 }) := rfl
      rw [h1] at hp
      simp only [Except.ok.injEq] at hp
      exact hp.symm
    subst this
    exact ⟨fun e' _ => ⟨rfl, rfl, rfl, rfl, rfl, rfl, rfl⟩, rfl⟩
  · have : p = (0, x) := by
      have h1 : envSons2D.RefineElementGreen x e ctx = .ok (0, x) := rfl
      rw [h1] at hp
      simp only [Except.ok.injEq] at hp
      exact hp.symm
    subst this
    exact ⟨fun e' _ => ⟨rfl, rfl, rfl, rfl, rfl, rfl, rfl⟩, rfl⟩

/-- On the level of `meshRefine` in closure mode `RefineGrid` returns `GM_OK`; triangle 1,
refined with rule 2 and marked for no refinement, is unrefined and ends with
`REFINE = MARK`, and triangle 2, marked with rule 2, is unrefined before
`RefineElementRed` is called for it. -/
theorem RefineGrid_unrefines_first_witness :
    FineGridOnly envSons2D (OnLevel meshRefine) ∧
    RefineGrid envSons2D 2 meshRefine = .ok (GM_OK, meshRefined) ∧ OnLevel meshRefine 1 ∧
    meshRefine.REFINE 1 ≠ meshRefine.MARK 1 ∧ envSons2D.hFlag ≠ 0 ∧
    meshRefined.trace = [Event.UnrefineElement 1, Event.UpdateContext 1,
      Event.UnrefineElement 2, Event.UpdateContext 2, Event.CreateMidNode 2 0 202,
      Event.CreateMidNode 2 1 204, Event.CreateMidNode 2 2 205, Event.RefineElementRed 2] ∧
    meshRefined.REFINE 1 = meshRefined.MARK 1 ∧
    meshRefined.REFINECLASS 1 = meshRefined.MARKCLASS 1 ∧
    meshRefined.REFINE 2 = meshRefined.MARK 2 :=
  ⟨envSons2D_fine _, rfl, meshRefine_on_level 1 (Or.inl rfl), by decide, by decide, by decide,
    (RefineGrid_unrefines_first envSons2D 2 meshRefine meshRefined (envSons2D_fine _) rfl 1
      (meshRefine_on_level 1 (Or.inl rfl)) (Or.inl (by decide)) (Or.inl (by decide))).2.1,
    (RefineGrid_unrefines_first envSons2D 2 meshRefine meshRefined (envSons2D_fine _) rfl 1
      (meshRefine_on_level 1 (Or.inl rfl)) (Or.inl (by decide)) (Or.inl (by decide))).2.2.1,
    (RefineGrid_unrefines_first envSons2D 2 meshRefine meshRefined (envSons2D_fine _) rfl 2
      (meshRefine_on_level 2 (Or.inr rfl)) (Or.inl (by decide)) (Or.inl (by decide))).2.1⟩

/-- With hanging nodes, triangle 1 of `meshRefine`, refined with rule 2 and marked for no
refinement, is left as it is by a call of `RefineGrid` that returns `GM_OK`: no call of
`UnrefineElement` is made for it, and on return `REFINE` is 2 and `MARK` is 0. -/
theorem RefineGrid_hanging_keeps_refined :
    OnLevel meshRefine 1 ∧ meshRefine.REFINE 1 ≠ meshRefine.MARK 1 ∧
    RefineGrid envHanging2D 2 meshRefine = .ok (GM_OK, meshRefinedHanging) ∧
    meshRefinedHanging.trace = [Event.UnrefineElement 2, Event.UpdateContext 2,
      Event.RefineElementRed 2] ∧
    meshRefinedHanging.REFINE 1 = 2 ∧ meshRefinedHanging.MARK 1 = 0 ∧
    meshRefinedHanging.REFINECLASS 1 = CLASS.RED_CLASS ∧
    meshRefinedHanging.MARKCLASS 1 = CLASS.NO_CLASS :=
  ⟨meshRefine_on_level 1 (Or.inl rfl), by decide, rfl, by decide, by decide, by decide,
    by decide, by decide⟩

/-! ## The table `TriSectionEdge` -/

set_option maxRecDepth 100000 in
set_option synthInstance.maxSize 2000 in
set_option synthInstance.maxHeartbeats 200000 in
/-- Claim C18: the table `TriSectionEdge` as a function of the 6-bit edge pattern `p`.
For two set bits on one side the two entries are distinct edge numbers, and they are exactly
the two set bits; for at most one set bit and for the four side masks both entries are `-1`;
for every other pattern both entries are `-2`. -/
theorem TriSectionEdge_table :
    ∀ p, p < 64 →
      (edgeBits p = 2 ∧ onOneSide p →
        (triSection p).1 ≠ (triSection p).2 ∧
        0 ≤ (triSection p).1 ∧ (triSection p).1 < 6 ∧
        0 ≤ (triSection p).2 ∧ (triSection p).2 < 6 ∧
        p = (1 <<< (triSection p).1.toNat) ||| (1 <<< (triSection p).2.toNat)) ∧
      (edgeBits p ≤ 1 ∨ p ∈ CondensedEdgeOfSide → triSection p = (-1, -1)) ∧
      (¬ (edgeBits p = 2 ∧ onOneSide p) → ¬ (edgeBits p ≤ 1 ∨ p ∈ CondensedEdgeOfSide) →
        triSection p = (-2, -2)) := by
  decide

/-- Claim C18 at an example: the pattern 3 has the bits 0 and 1 set, both on side 0; its
entries are the edges 1 and 0. -/
theorem TriSectionEdge_table_witness :
    3 < 64 ∧ triSection 3 = (1, 0) ∧
      ((edgeBits 3 = 2 ∧ onOneSide 3 →
        (triSection 3).1 ≠ (triSection 3).2 ∧
        0 ≤ (triSection 3).1 ∧ (triSection 3).1 < 6 ∧
        0 ≤ (triSection 3).2 ∧ (triSection 3).2 < 6 ∧
        3 = (1 <<< (triSection 3).1.toNat) ||| (1 <<< (triSection 3).2.toNat)) ∧
      (edgeBits 3 ≤ 1 ∨ 3 ∈ CondensedEdgeOfSide → triSection 3 = (-1, -1)) ∧
      (¬ (edgeBits 3 = 2 ∧ onOneSide 3) → ¬ (edgeBits 3 ≤ 1 ∨ 3 ∈ CondensedEdgeOfSide) →
        triSection 3 = (-2, -2))) :=
  ⟨by decide, by decide, TriSectionEdge_table 3 (by decide)⟩

/-! ## `Connect_Sons_of_ElementSide`: the son counts of the two sides -/

/-- Claim C13: in a serial build, when `Connect_Sons_of_ElementSide` has asked for the sons
on the neighbour's side (the element hands over at least one son, the side is not on the
boundary, the neighbour exists, has a mark class, is not rebuilt in this pass and holds the
element on one of its sides) and their number differs from `Sons_of_Side` or is not in
`1..5`, the `assert` fails: the call does not return, so it does not return `GM_OK`, and
no neighbour link is written. -/
theorem Connect_Sons_count_mismatch (env : Env) (s : Mesh) (theElement side : Nat)
    (Sons_of_Side : Nat) (Sons_of_Side_List SonSides : Nat → Nat)
    (hpos : 0 < Sons_of_Side)
    (hbnd : ¬ (s.BEOBJ theElement = true ∧ s.SIDE_ON_BND theElement side = true))
    (hnb : s.NBELEM theElement side ≠ 0)
    (hclass : s.MARKCLASS (s.NBELEM theElement side) ≠ CLASS.NO_CLASS)
    (hkeep : ¬ TO_REBUILD env s (s.NBELEM theElement side))
    (hside : searchSide s (s.NBELEM theElement side) theElement
      (SIDES_OF_ELEM env s (s.NBELEM theElement side)) 0 <
        SIDES_OF_ELEM env s (s.NBELEM theElement side))
    (hmis : Sons_of_Side ≠ (env.Get_Sons_of_ElementSideProc s (s.NBELEM theElement side)
        (searchSide s (s.NBELEM theElement side) theElement
          (SIDES_OF_ELEM env s (s.NBELEM theElement side)) 0) 1).Sons_of_Side ∨
      ¬ (0 < (env.Get_Sons_of_ElementSideProc s (s.NBELEM theElement side)
        (searchSide s (s.NBELEM theElement side) theElement
          (SIDES_OF_ELEM env s (s.NBELEM theElement side)) 0) 1).Sons_of_Side ∧
        (env.Get_Sons_of_ElementSideProc s (s.NBELEM theElement side)
        (searchSide s (s.NBELEM theElement side) theElement
          (SIDES_OF_ELEM env s (s.NBELEM theElement side)) 0) 1).Sons_of_Side < 6)) :
    Connect_Sons_of_ElementSide env s theElement side Sons_of_Side Sons_of_Side_List SonSides
        = .error Stop.abort ∧
      ∀ c s', Connect_Sons_of_ElementSide env s theElement side Sons_of_Side
        Sons_of_Side_List SonSides ≠ .ok (c, s') := by
  have hne : ¬ Sons_of_Side ≤ 0 := by omega
  have hcount : ¬ (Sons_of_Side = (env.Get_Sons_of_ElementSideProc s (s.NBELEM theElement side)
        (searchSide s (s.NBELEM theElement side) theElement
          (SIDES_OF_ELEM env s (s.NBELEM theElement side)) 0) 1).Sons_of_Side ∧
      (env.Get_Sons_of_ElementSideProc s (s.NBELEM theElement side)
        (searchSide s (s.NBELEM theElement side) theElement
          (SIDES_OF_ELEM env s (s.NBELEM theElement side)) 0) 1).Sons_of_Side > 0 ∧
      (env.Get_Sons_of_ElementSideProc s (s.NBELEM theElement side)
        (searchSide s (s.NBELEM theElement side) theElement
          (SIDES_OF_ELEM env s (s.NBELEM theElement side)) 0) 1).Sons_of_Side < 6) := by
    rintro ⟨h1, h2, h3⟩
    rcases hmis with h | h
    · exact h h1
    · exact h ⟨h2, h3⟩
  have htab : Connect_Sons_tables env s theElement side Sons_of_Side Sons_of_Side_List SonSides
      = .error Stop.abort := by
    unfold Connect_Sons_tables
    rw [if_neg hne, if_neg hbnd]
    simp only [if_neg hnb, if_neg hclass, if_neg hkeep, not_not.mpr hside, if_false]
    rw [if_pos hcount]
  have hres : Connect_Sons_of_ElementSide env s theElement side Sons_of_Side
      Sons_of_Side_List SonSides = .error Stop.abort := by
    unfold Connect_Sons_of_ElementSide
    rw [htab]
  refine ⟨hres, ?_⟩
  intro c s' h
  rw [hres] at h
  cases h

/-- Claim C13 at an example: element 1 hands over one son on the side it shares with
element 2, whose side has two sons. -/
theorem Connect_Sons_count_mismatch_witness :
    Connect_Sons_of_ElementSide envConnect2D meshConnect2D 1 0 1 (arr [11]) (arr [0])
        = .error Stop.abort ∧
      ∀ c s', Connect_Sons_of_ElementSide envConnect2D meshConnect2D 1 0 1 (arr [11])
        (arr [0]) ≠ .ok (c, s') :=
  Connect_Sons_count_mismatch envConnect2D meshConnect2D 1 0 1 (arr [11]) (arr [0])
    (by decide) (by decide) (by decide) (by decide) (by decide) (by decide) (by decide)

/-! ## The round of one element in a loop over the element list -/

theorem Rounds.weaken {σ : Type} {body : Nat → σ → LoopRes σ} {P Q : Nat → Prop}
    (hPQ : ∀ e, P e → Q e) {x y : σ} (h : Rounds body P x y) : Rounds body Q x y := by
  induction h with
  | done x => exact Rounds.done x
  | round e x x1 y hP hb _ ih => exact Rounds.round e x x1 y (hPQ e hP) hb ih

theorem Rounds.frame {σ : Type} {body : Nat → σ → LoopRes σ} {P : Nat → Prop}
    (R : σ → σ → Prop) (hrefl : ∀ x, R x x) (htrans : ∀ x y z, R x y → R y z → R x z)
    (hstep : ∀ e x x1, P e → body e x = .next x1 → R x x1) {x y : σ}
    (h : Rounds body P x y) : R x y := by
  induction h with
  | done x => exact hrefl x
  | round e x x1 y hP hb _ ih => exact htrans x x1 y (hstep e x x1 hP hb) ih

theorem forElements_rounds {σ : Type} (link : σ → Nat → Nat) (body : Nat → σ → LoopRes σ)
    (hlink : ∀ e x y, body e x = .next y → link y = link x) :
    ∀ (fuel e0 : Nat) (x y : σ), forElements link body fuel e0 x = .next y →
      (∃ n, EndsIn (link x) n e0) ∧
      Rounds body (fun e' => OnList (link x) e0 e') x y ∧ ∀ e, OnList (link x) e0 e →
      ∃ x0 x1, Rounds body (fun e' => e' ≠ e ∧ OnList (link x) e0 e') x x0 ∧
        body e x0 = .next x1 ∧
        Rounds body (fun e' => e' ≠ e ∧ OnList (link x) e0 e') x1 y := by
  refine forElements_spec link body
    (fun e0 x y => (∃ n, EndsIn (link x) n e0) ∧
      Rounds body (fun e' => OnList (link x) e0 e') x y ∧ ∀ e, OnList (link x) e0 e →
      ∃ x0 x1, Rounds body (fun e' => e' ≠ e ∧ OnList (link x) e0 e') x x0 ∧
        body e x0 = .next x1 ∧
        Rounds body (fun e' => e' ≠ e ∧ OnList (link x) e0 e') x1 y) ?_ ?_
  · intro x
    exact ⟨⟨0, EndsIn.nil⟩, Rounds.done x, fun e he => absurd rfl he.ne_zero⟩
  · intro e x x1 y he hb hpost
    have hL : link x1 = link x := hlink e x x1 hb
    rw [hL] at hpost
    obtain ⟨⟨n, hn⟩, hall, hrec⟩ := hpost
    have hends : EndsIn (link x) (n + 1) e := EndsIn.step n e he hn
    have hnot : ¬ OnList (link x) (link x e) e := hends.not_again
    refine ⟨⟨n + 1, hends⟩, ?_, ?_⟩
    · exact Rounds.round e x x1 y (OnList.head e he) hb
        (hall.weaken (fun e' h => OnList.tail e e' he h))
    · intro e' he'
      rcases he'.cases_on_first with hh | hh
      · subst hh
        refine ⟨x, x1, Rounds.done x, hb, hall.weaken (fun e'' h => ⟨?_, OnList.tail _ e'' he h⟩)⟩
        intro hk
        rw [hk] at h
        exact hnot h
      · have hne : e ≠ e' := fun hk => hnot (by rw [← hk] at hh; exact hh)
        obtain ⟨x0, x1', r1, hb', r2⟩ := hrec e' hh
        exact ⟨x0, x1', Rounds.round e x x1 x0 ⟨hne, OnList.head e he⟩ hb
            (r1.weaken (fun e'' h => ⟨h.1, OnList.tail e e'' he h.2⟩)), hb',
          r2.weaken (fun e'' h => ⟨h.1, OnList.tail e e'' he h.2⟩)⟩

/-! ## `RestrictMarks`: only marks change -/

theorem OnlyMarks.omrefl (s : Mesh) : OnlyMarks s s := rfl

theorem OnlyMarks.om_eq {s s' : Mesh} (h : OnlyMarks s s') :
    s' = { s with MARK := s'.MARK, MARKCLASS := s'.MARKCLASS, COARSEN := s'.COARSEN } := h

theorem OnlyMarks.field {α : Type} (f : Mesh → α) {s s' : Mesh} (h : OnlyMarks s s') :
    f s' = f { s with MARK := s'.MARK, MARKCLASS := s'.MARKCLASS, COARSEN := s'.COARSEN } :=
  congrArg f h.om_eq

theorem OnlyMarks.omtrans {s s' s'' : Mesh} (h1 : OnlyMarks s s') (h2 : OnlyMarks s' s'') :
    OnlyMarks s s'' := by
  unfold OnlyMarks at h1 h2 ⊢
  rw [h2]
  rw [h1]

theorem RestrictMarks_marked_red_only (env : Env) (s : Mesh) (e : Nat) (y : Mesh)
    (h : RestrictMarks_marked_red env s e = .next y) : OnlyMarks s y := by
  unfold RestrictMarks_marked_red at h
  repeat' split at h
  all_goals first
    | contradiction
    | (simp only [LoopRes.next.injEq] at h; subst h; rfl)

theorem RestrictMarks_marked_other_only (env : Env) (s : Mesh) (e : Nat) (y : Mesh)
    (h : RestrictMarks_marked_other env s e = .next y) : OnlyMarks s y := by
  unfold RestrictMarks_marked_other at h
  repeat' split at h
  all_goals first
    | contradiction
    | (simp only [LoopRes.next.injEq] at h; subst h; rfl)

theorem RestrictMarks_green_only (env : Env) (s : Mesh) (e : Nat) (SonList : Nat → Nat)
    (y : Mesh) (h : RestrictMarks_green env s e SonList = .next y) : OnlyMarks s y := by
  unfold RestrictMarks_green at h
  split at h
  · contradiction
  · simp only [LoopRes.next.injEq] at h; subst h; rfl
  · split at h
    · exact RestrictMarks_marked_red_only env s e y h
    · exact RestrictMarks_marked_other_only env s e y h

theorem RestrictMarks_closure_only (env : Env) (s : Mesh) (e : Nat) (SonList : Nat → Nat)
    (y : Mesh × Bool) (h : RestrictMarks_closure env s e SonList = .next y) :
    OnlyMarks s y.1 := by
  unfold RestrictMarks_closure at h
  split at h
  · split at h
    · simp only [LoopRes.next.injEq] at h; subst h; rfl
    · split at h
      · split at h
        · rename_i s1 h1
          simp only [LoopRes.next.injEq] at h
          subst h
          exact RestrictMarks_green_only env s e SonList s1 h1
        · contradiction
        · contradiction
      · split at h
        · simp only [LoopRes.next.injEq] at h; subst h; rfl
        · simp only [LoopRes.next.injEq] at h; subst h; rfl
  · simp only [LoopRes.next.injEq] at h; subst h; rfl

theorem RestrictMarks_element_only (env : Env) (fuel : Nat) (e : Nat) (s y : Mesh)
    (h : RestrictMarks_element env fuel e s = .next y) : OnlyMarks s y := by
  unfold RestrictMarks_element at h
  split at h
  · contradiction
  · rename_i g hg
    split at h
    · contradiction
    · split at h
      · contradiction
      · contradiction
      · rename_i x hx
        have hc := RestrictMarks_closure_only env s e g.2 x hx
        split at h
        · simp only [LoopRes.next.injEq] at h; subst h; exact hc
        · split at h
          · contradiction
          · simp only [LoopRes.next.injEq] at h; subst h; exact hc
          · simp only [LoopRes.next.injEq] at h
            subst h
            exact hc.omtrans rfl

/-! ## `RestrictMarks`: the mark of a green tetrahedron with a marked son -/

theorem RestrictMarks_marked_found (env : Env) (s : Mesh) (SonList : Nat → Nat) :
    ∀ (k i : Nat) (b : Bool), RestrictMarks_marked env s SonList k i = some b →
      (∃ j, i ≤ j ∧ j < i + k ∧ s.MARK (SonList j) > env.NO_REFINEMENT) → b = true := by
  intro k
  induction k with
  | zero =>
    intro i b _ hex
    obtain ⟨j, h1, h2, _⟩ := hex
    omega
  | succ k ih =>
    intro i b h hex
    unfold RestrictMarks_marked at h
    split at h
    · contradiction
    · split at h
      · simp only [Option.some.injEq] at h; exact h.symm
      · rename_i hno
        refine ih (i + 1) b h ?_
        obtain ⟨j, h1, h2, h3⟩ := hex
        by_cases hj : j = i
        · rw [hj] at h3; exact absurd h3 hno
        · exact ⟨j, by omega, by omega, h3⟩

theorem testBit_one_shiftLeft (j b : Nat) : (1 <<< j).testBit b = decide (j = b) := by
  rw [Nat.one_shiftLeft, Nat.testBit_two_pow]

theorem RestrictMarks_pattern_bits (env : Env) (s : Mesh) (e : Nat) :
    ∀ (k j P Q : Nat), RestrictMarks_pattern env s e k j P = some Q →
      ∀ b, Q.testBit b = true ↔
        (P.testBit b = true ∨ (j ≤ b ∧ b < j + k ∧ SonEdgeMarked env s e b)) := by
  intro k
  induction k with
  | zero =>
    intro j P Q h b
    unfold RestrictMarks_pattern at h
    simp only [Option.some.injEq] at h
    subst h
    constructor
    · intro hb; exact Or.inl hb
    · rintro (hb | ⟨h1, h2, _⟩)
      · exact hb
      · omega
  | succ k ih =>
    intro j P Q h b
    unfold RestrictMarks_pattern at h
    dsimp only at h
    split at h
    · contradiction
    · split at h
      · rename_i hmid
        split at h
        · contradiction
        · split at h
          · rename_i hadd
            rw [ih (j + 1) _ Q h b, Nat.testBit_or, testBit_one_shiftLeft]
            simp only [Bool.or_eq_true, decide_eq_true_eq]
            constructor
            · rintro ((hb | hb) | ⟨h1, h2, h3⟩)
              · exact Or.inl hb
              · subst hb
                exact Or.inr ⟨le_refl _, by omega, hmid, hadd⟩
              · exact Or.inr ⟨by omega, by omega, h3⟩
            · rintro (hb | ⟨h1, h2, h3⟩)
              · exact Or.inl (Or.inl hb)
              · by_cases hj : j = b
                · exact Or.inl (Or.inr hj)
                · exact Or.inr ⟨by omega, by omega, h3⟩
          · rename_i hadd
            rw [ih (j + 1) _ Q h b]
            constructor
            · rintro (hb | ⟨h1, h2, h3⟩)
              · exact Or.inl hb
              · exact Or.inr ⟨by omega, by omega, h3⟩
            · rintro (hb | ⟨h1, h2, h3⟩)
              · exact Or.inl hb
              · by_cases hj : j = b
                · subst hj
                  exact absurd h3.2 hadd
                · exact Or.inr ⟨by omega, by omega, h3⟩
      · rename_i hmid
        rw [ih (j + 1) _ Q h b]
        constructor
        · rintro (hb | ⟨h1, h2, h3⟩)
          · exact Or.inl hb
          · exact Or.inr ⟨by omega, by omega, h3⟩
        · rintro (hb | ⟨h1, h2, h3⟩)
          · exact Or.inl hb
          · by_cases hj : j = b
            · subst hj
              exact absurd h3.1 hmid
            · exact Or.inr ⟨by omega, by omega, h3⟩

theorem RestrictMarks_pattern_only (env : Env) {s s' : Mesh} (h : OnlyMarks s s') (e : Nat) :
    ∀ (k j P : Nat), RestrictMarks_pattern env s' e k j P = RestrictMarks_pattern env s e k j P := by
  have h1 : s'.TAG = s.TAG := h.field Mesh.TAG
  have h2 : s'.CORNER = s.CORNER := h.field Mesh.CORNER
  have h3 : s'.GetEdge = s.GetEdge := h.field Mesh.GetEdge
  have h4 : s'.MIDNODE = s.MIDNODE := h.field Mesh.MIDNODE
  have h5 : s'.SONNODE = s.SONNODE := h.field Mesh.SONNODE
  have h6 : s'.ADDPATTERN = s.ADDPATTERN := h.field Mesh.ADDPATTERN
  intro k
  induction k with
  | zero => intro j P; rfl
  | succ k ih =>
    intro j P
    unfold RestrictMarks_pattern edgeOf CORNER_OF_EDGE
    simp only [h1, h2, h3, h4, h5, h6, ih]

theorem RestrictMarks_element_upgrade (env : Env) (fuel : Nat) (e : Nat) (s y : Mesh)
    (SonList : Nat → Nat) (h : RestrictMarks_element env fuel e s = .next y)
    (hs : GetSons env fuel s e = .ok (GM_OK, SonList))
    (hdim : env.DIM = 3) (hflag : env.hFlag ≠ 0) (htag : s.TAG e = TAG.TETRAHEDRON)
    (hskip : ¬ RestrictMarks_skip env s e) (hR : s.REFINECLASS e = CLASS.GREEN_CLASS)
    (hM : s.MARKCLASS e ≠ CLASS.RED_CLASS)
    (hson : ∃ i, i < s.NSONS e ∧ s.MARK (SonList i) > env.NO_REFINEMENT) :
    ∃ Pattern, RestrictMarks_pattern env s e (EDGES_OF_ELEM env s e) 0
        (env.RULE2PAT (s.TAG e) (s.REFINE e)) = some Pattern ∧
      y.MARK e = env.RULE2MARK (s.TAG e) (env.PATTERN2RULE (s.TAG e) Pattern) ∧
      y.MARKCLASS e = CLASS.RED_CLASS := by
  unfold RestrictMarks_element at h
  rw [hs] at h
  simp only [ne_eq, not_true_eq_false, if_false] at h
  unfold RestrictMarks_closure at h
  rw [if_pos hflag, if_neg hskip, if_pos hR] at h
  unfold RestrictMarks_green at h
  cases hm : RestrictMarks_marked env s SonList (s.NSONS e) 0 with
  | none => rw [hm] at h; simp at h
  | some b =>
    have hb : b = true := RestrictMarks_marked_found env s SonList _ 0 b hm (by
      obtain ⟨i, hi, hmk⟩ := hson
      exact ⟨i, by omega, by omega, hmk⟩)
    subst hb
    rw [hm] at h
    simp only [if_neg hM] at h
    unfold RestrictMarks_marked_other at h
    have h2 : ¬ (env.DIM = 2 ∧ s.TAG e = TAG.TRIANGLE) := by rw [hdim]; simp
    have h2q : ¬ (env.DIM = 2 ∧ s.TAG e = TAG.QUADRILATERAL) := by rw [hdim]; simp
    rw [if_neg h2, if_neg h2q, if_pos ⟨hdim, htag⟩] at h
    cases hp : RestrictMarks_pattern env s e (EDGES_OF_ELEM env s e) 0
        (env.RULE2PAT (s.TAG e) (s.REFINE e)) with
    | none => rw [hp] at h; simp at h
    | some Pattern =>
      rw [hp] at h
      simp only [if_true, LoopRes.next.injEq] at h
      subst h
      refine ⟨Pattern, rfl, ?_, ?_⟩
      · show upd s.MARK e _ e = _
        rw [upd_same]
      · show upd _ e CLASS.RED_CLASS e = _
        rw [upd_same]

/-- The round of `RestrictMarks` for an element of the level: it starts from a mesh that
differs from the mesh at the call in marks of other elements of the level only, and the
rounds after it leave the marks of the element alone. -/
theorem RestrictMarks_round (env : Env) (fuel : Nat) (s s' : Mesh)
    (h : RestrictMarks env fuel s = .ok (GM_OK, s')) (e : Nat) (he : OnLevel s e) :
    ∃ x0 x1, OnlyMarks s x0 ∧ SameSons s x0 ∧
      (∀ e', (¬ OnLevel s e' ∨ e' = e) → SameMarks s x0 e') ∧
      RestrictMarks_element env fuel e x0 = .next x1 ∧ SameMarks x1 s' e := by
  have hloop : forElements (fun y => y.SUCCE) (RestrictMarks_element env fuel) fuel
      s.FIRSTELEMENT s = .next s' := by
    unfold RestrictMarks at h
    split at h
    · rename_i s1 h1
      simp only [Except.ok.injEq, Prod.mk.injEq, true_and] at h
      subst h
      exact h1
    · rename_i c s1 h1
      simp only [Except.ok.injEq, Prod.mk.injEq] at h
      have hc := forElements_ret_code _ _ (fun c => c = GM_ERROR)
        (fun e x c y hb => RestrictMarks_element_ret env fuel e x c y hb) _ _ _ _ _ h1
      rw [hc] at h
      exact absurd h.1 (by decide)
    · contradiction
  have hlink : ∀ e' x y, RestrictMarks_element env fuel e' x = .next y →
      (fun y : Mesh => y.SUCCE) y = (fun y : Mesh => y.SUCCE) x := by
    intro e' x y hb
    exact (RestrictMarks_element_next env fuel e' x y hb).1.1.2.2.2.2.2.2.2.2.1
  obtain ⟨_, _, hrec⟩ := forElements_rounds (fun y => y.SUCCE) (RestrictMarks_element env fuel)
    hlink fuel s.FIRSTELEMENT s s' hloop
  obtain ⟨x0, x1, r1, hb, r2⟩ := hrec e he
  have hframe : ∀ a b, Rounds (RestrictMarks_element env fuel)
      (fun e' => e' ≠ e ∧ OnList s.SUCCE s.FIRSTELEMENT e') a b →
      OnlyMarks a b ∧ SameSons a b ∧ ∀ e', (¬ OnLevel s e' ∨ e' = e) → SameMarks a b e' := by
    intro a b hr
    refine Rounds.frame (fun a b => OnlyMarks a b ∧ SameSons a b ∧
      ∀ e', (¬ OnLevel s e' ∨ e' = e) → SameMarks a b e') ?_ ?_ ?_ hr
    · intro x; exact ⟨OnlyMarks.omrefl x, SameSons.ssrefl x, fun _ _ => ⟨rfl, rfl, rfl⟩⟩
    · intro x y z h1 h2
      refine ⟨h1.1.omtrans h2.1, h1.2.1.sstrans h2.2.1, fun e' he' => ?_⟩
      have a1 := h1.2.2 e' he'
      have a2 := h2.2.2 e' he'
      exact ⟨a2.1.trans a1.1, a2.2.1.trans a1.2.1, a2.2.2.trans a1.2.2⟩
    · intro e' x x1 hP hb'
      have hm := (RestrictMarks_element_next env fuel e' x x1 hb').1
      refine ⟨RestrictMarks_element_only env fuel e' x x1 hb', hm.1, fun e'' he'' => ?_⟩
      refine hm.2 e'' ?_
      rcases he'' with hh | hh
      · intro hk; rw [hk] at hh; exact hh hP.2
      · intro hk; rw [hh] at hk; exact hP.1 hk.symm
  obtain ⟨f1, f2, f3⟩ := hframe s x0 r1
  exact ⟨x0, x1, f1, f2, f3, hb, (hframe x1 s' r2).2.2 e (Or.inr rfl)⟩

/-- Claim C19 (as amended): in closure mode of a 3-D build, for a tetrahedron of the level
that `RestrictMarks` does not skip (it is refined and its own class is neither
`YELLOW_CLASS` nor `GREEN_CLASS`), with `REFINECLASS = GREEN_CLASS` and
`MARKCLASS != RED_CLASS`, that has a son with `MARK > NO_REFINEMENT`: a call that returns
`GM_OK` has handed to `PATTERN2RULE` a pattern whose bit `b` is set exactly if it is set in
`RULE2PAT(e,REFINE(e))` or `b` is an edge without `MIDNODE` whose son-level edge has
`ADDPATTERN` set; the mark of the element is the mark of that rule and
`MARKCLASS = RED_CLASS`. The sons, as `GetSons` returns them, are not elements of the
level. -/
theorem RestrictMarks_tetrahedron_upgrade (env : Env) (fuel : Nat) (s s' : Mesh)
    (h : RestrictMarks env fuel s = .ok (GM_OK, s')) (hdim : env.DIM = 3)
    (hflag : env.hFlag ≠ 0) (e : Nat) (he : OnLevel s e)
    (htag : s.TAG e = TAG.TETRAHEDRON) (hN : s.REFINE e ≠ env.NO_REFINEMENT)
    (hE : s.ECLASS e ≠ CLASS.YELLOW_CLASS ∧ s.ECLASS e ≠ CLASS.GREEN_CLASS)
    (hR : s.REFINECLASS e = CLASS.GREEN_CLASS) (hM : s.MARKCLASS e ≠ CLASS.RED_CLASS)
    (SonList : Nat → Nat) (hs : GetSons env fuel s e = .ok (GM_OK, SonList))
    (hsons : ∀ i, i < s.NSONS e → ¬ OnLevel s (SonList i))
    (hson : ∃ i, i < s.NSONS e ∧ s.MARK (SonList i) > env.NO_REFINEMENT) :
    ∃ Pattern,
      (∀ b, Pattern.testBit b = true ↔
        ((env.RULE2PAT (s.TAG e) (s.REFINE e)).testBit b = true ∨
          (b < EDGES_OF_ELEM env s e ∧ s.MIDNODE (edgeOf env s e b) = 0 ∧
            s.ADDPATTERN (sonEdgeOf env s e b) ≠ 0))) ∧
      s'.MARK e = env.RULE2MARK (s.TAG e) (env.PATTERN2RULE (s.TAG e) Pattern) ∧
      s'.MARKCLASS e = CLASS.RED_CLASS := by
  obtain ⟨x0, x1, f1, f2, f3, hb, f4⟩ := RestrictMarks_round env fuel s s' h e he
  have hT : x0.TAG = s.TAG := f2.1
  have hNS : x0.NSONS = s.NSONS := f2.2.1
  have hRf : x0.REFINE = s.REFINE := f2.2.2.2.1
  have hRC : x0.REFINECLASS = s.REFINECLASS := f2.2.2.2.2.1
  have hEC : x0.ECLASS = s.ECLASS := f2.2.2.2.2.2.1
  have hskip : ¬ RestrictMarks_skip env x0 e := by
    unfold RestrictMarks_skip
    rw [hRf, hEC, hRC, hR]
    rintro (h1 | h1 | h1 | h1)
    · exact hN h1
    · exact hE.1 h1
    · exact hE.2 h1
    · exact absurd h1 (by decide)
  have hs0 : GetSons env fuel x0 e = .ok (GM_OK, SonList) := by
    rw [GetSons_same env fuel f2 e]; exact hs
  obtain ⟨Pattern, hp, hm, hc⟩ := RestrictMarks_element_upgrade env fuel e x0 x1 SonList hb hs0
    hdim hflag (by rw [hT]; exact htag) hskip (by rw [hRC]; exact hR)
    (by rw [(f3 e (Or.inr rfl)).2.1]; exact hM)
    (by
      obtain ⟨i, hi, hmk⟩ := hson
      refine ⟨i, by rw [hNS]; exact hi, ?_⟩
      rw [(f3 (SonList i) (Or.inl (hsons i hi))).1]
      exact hmk)
  have hE0 : EDGES_OF_ELEM env x0 e = EDGES_OF_ELEM env s e := by
    unfold EDGES_OF_ELEM; rw [hT]
  rw [RestrictMarks_pattern_only env f1 e, hE0, hT, hRf] at hp
  refine ⟨Pattern, fun b => ?_, ?_, ?_⟩
  · rw [RestrictMarks_pattern_bits env s e _ 0 _ Pattern hp b]
    constructor
    · rintro (hb | ⟨_, h2, h3⟩)
      · exact Or.inl hb
      · exact Or.inr ⟨by omega, h3.1, h3.2⟩
    · rintro (hb | ⟨h2, h3, h4⟩)
      · exact Or.inl hb
      · exact Or.inr ⟨Nat.zero_le b, by omega, h3, h4⟩
  · rw [f4.1, hm, hT]
  · rw [f4.2.1, hc]

/-! ## `RestrictMarks` on a green tetrahedron -/

theorem meshGreenTet_level (e : Nat) (he : OnLevel meshGreenTet e) : e = 1 := by
  rcases he.cases_on_first with h1 | h1
  · exact h1
  · exact absurd rfl h1.ne_zero

theorem meshGreenTet_sons (i : Nat) (hi : i < meshGreenTet.NSONS 1) :
    ¬ OnLevel meshGreenTet (sonsOf (GetSons envTet3D 2 meshGreenTet 1) i) := by
  intro hl
  have h1 := meshGreenTet_level _ hl
  have hi2 : i < 2 := hi
  interval_cases i <;> revert h1 <;> decide

/-- Claim C19 at an example: the regular tetrahedron of `meshGreenTet`, refined by rule 5
with the pattern 1, has the marked son 12; `RestrictMarks` returns `GM_OK` and leaves it
with the mark of the rule for the pattern 35 and `MARKCLASS = RED_CLASS`. -/
theorem RestrictMarks_tetrahedron_upgrade_witness :
    RestrictMarks envTet3D 2 meshGreenTet = .ok (GM_OK, meshGreenTetRestricted) ∧
      OnLevel meshGreenTet 1 ∧ meshGreenTet.REFINECLASS 1 = CLASS.GREEN_CLASS ∧
      meshGreenTet.MARKCLASS 1 ≠ CLASS.RED_CLASS ∧
      meshGreenTet.MARK (sonsOf (GetSons envTet3D 2 meshGreenTet 1) 1) > envTet3D.NO_REFINEMENT ∧
      ∃ Pattern,
        (∀ b, Pattern.testBit b = true ↔
          ((envTet3D.RULE2PAT (meshGreenTet.TAG 1) (meshGreenTet.REFINE 1)).testBit b = true ∨
            (b < EDGES_OF_ELEM envTet3D meshGreenTet 1 ∧
              meshGreenTet.MIDNODE (edgeOf envTet3D meshGreenTet 1 b) = 0 ∧
              meshGreenTet.ADDPATTERN (sonEdgeOf envTet3D meshGreenTet 1 b) ≠ 0))) ∧
        meshGreenTetRestricted.MARK 1 = envTet3D.RULE2MARK (meshGreenTet.TAG 1)
          (envTet3D.PATTERN2RULE (meshGreenTet.TAG 1) Pattern) ∧
        meshGreenTetRestricted.MARKCLASS 1 = CLASS.RED_CLASS :=
  ⟨rfl, OnList.head 1 (by decide), rfl, by decide, by decide,
    RestrictMarks_tetrahedron_upgrade envTet3D 2 meshGreenTet meshGreenTetRestricted rfl rfl
      (by decide) 1 (OnList.head 1 (by decide)) rfl (by decide) (by decide) rfl (by decide)
      (sonsOf (GetSons envTet3D 2 meshGreenTet 1)) rfl meshGreenTet_sons
      ⟨1, by decide, by decide⟩⟩

/-- Claim C19 fails for a tetrahedron that is itself irregular: the tetrahedron of
`meshIrregularTet` has `REFINECLASS = GREEN_CLASS`, `MARKCLASS != RED_CLASS` and the son 12
with `MARK > NO_REFINEMENT`, but its class is `GREEN_CLASS`; in closure mode
`RestrictMarks` returns `GM_OK` and has skipped it: mark and `MARKCLASS` are as before,
and `MARKCLASS` is not `RED_CLASS`. -/
theorem RestrictMarks_skips_irregular_tetrahedron :
    envTet3D.hFlag ≠ 0 ∧ OnLevel meshIrregularTet 1 ∧
      meshIrregularTet.TAG 1 = TAG.TETRAHEDRON ∧
      meshIrregularTet.REFINECLASS 1 = CLASS.GREEN_CLASS ∧
      meshIrregularTet.MARKCLASS 1 ≠ CLASS.RED_CLASS ∧
      GetSons envTet3D 2 meshIrregularTet 1 =
        .ok (GM_OK, sonsOf (GetSons envTet3D 2 meshIrregularTet 1)) ∧
      1 < meshIrregularTet.NSONS 1 ∧
      meshIrregularTet.MARK (sonsOf (GetSons envTet3D 2 meshIrregularTet 1) 1) >
        envTet3D.NO_REFINEMENT ∧
      RestrictMarks envTet3D 2 meshIrregularTet = .ok (GM_OK, meshIrregularTetRestricted) ∧
      meshIrregularTetRestricted.MARK 1 = meshIrregularTet.MARK 1 ∧
      meshIrregularTetRestricted.MARKCLASS 1 ≠ CLASS.RED_CLASS :=
  ⟨by decide, OnList.head 1 (by decide), rfl, rfl, by decide, rfl, by decide, by decide, rfl,
    by decide, by decide⟩

/-! ## `CloseGrid`: what each loop writes -/

theorem ResetFrame.reset_refl (s : Mesh) : ResetFrame s s := rfl

theorem ResetFrame.reset_field {α : Type} (f : Mesh → α) {s s' : Mesh} (h : ResetFrame s s') :
    f s' = f { s with USED := s'.USED, PATTERN := s'.PATTERN, ADDPATTERN := s'.ADDPATTERN } :=
  congrArg f (show s' = _ from h)

theorem ResetFrame.reset_trans {s s' s'' : Mesh} (h1 : ResetFrame s s') (h2 : ResetFrame s' s'') :
    ResetFrame s s'' := by
  unfold ResetFrame at h1 h2 ⊢
  rw [h2]
  rw [h1]

theorem PatternFrame.pattern_refl (s : Mesh) : PatternFrame s s := rfl

theorem PatternFrame.pattern_field {α : Type} (f : Mesh → α) {s s' : Mesh}
    (h : PatternFrame s s') :
    f s' = f { s with PATTERN := s'.PATTERN, SIDEPATTERN := s'.SIDEPATTERN,
                      MARKCLASS := s'.MARKCLASS } :=
  congrArg f (show s' = _ from h)

theorem PatternFrame.pattern_trans {s s' s'' : Mesh} (h1 : PatternFrame s s')
    (h2 : PatternFrame s' s'') : PatternFrame s s'' := by
  unfold PatternFrame at h1 h2 ⊢
  rw [h2]
  rw [h1]

theorem SideFrame.side_refl (s : Mesh) : SideFrame s s := rfl

theorem SideFrame.side_field {α : Type} (f : Mesh → α) {s s' : Mesh} (h : SideFrame s s') :
    f s' = f { s with USED := s'.USED, SIDEPATTERN := s'.SIDEPATTERN } :=
  congrArg f (show s' = _ from h)

theorem SideFrame.side_trans {s s' s'' : Mesh} (h1 : SideFrame s s') (h2 : SideFrame s' s'') :
    SideFrame s s'' := by
  unfold SideFrame at h1 h2 ⊢
  rw [h2]
  rw [h1]

theorem RuleFrame.rule_refl (s : Mesh) : RuleFrame s s := rfl

theorem RuleFrame.rule_field {α : Type} (f : Mesh → α) {s s' : Mesh} (h : RuleFrame s s') :
    f s' = f { s with MARK := s'.MARK, MARKCLASS := s'.MARKCLASS } :=
  congrArg f (show s' = _ from h)

theorem RuleFrame.rule_trans {s s' s'' : Mesh} (h1 : RuleFrame s s') (h2 : RuleFrame s' s'') :
    RuleFrame s s'' := by
  unfold RuleFrame at h1 h2 ⊢
  rw [h2]
  rw [h1]

theorem AddFrame.add_refl (s : Mesh) : AddFrame s s := rfl

theorem AddFrame.add_field {α : Type} (f : Mesh → α) {s s' : Mesh} (h : AddFrame s s') :
    f s' = f { s with ADDPATTERN := s'.ADDPATTERN } :=
  congrArg f (show s' = _ from h)

theorem AddFrame.add_trans {s s' s'' : Mesh} (h1 : AddFrame s s') (h2 : AddFrame s' s'') :
    AddFrame s s'' := by
  unfold AddFrame at h1 h2 ⊢
  rw [h2]
  rw [h1]

theorem GreenFrame.green_refl (s : Mesh) : GreenFrame s s := rfl

theorem GreenFrame.green_field {α : Type} (f : Mesh → α) {s s' : Mesh} (h : GreenFrame s s') :
    f s' = f { s with MARK := s'.MARK, MARKCLASS := s'.MARKCLASS,
                      UPDATE_GREEN := s'.UPDATE_GREEN, USED := s'.USED } :=
  congrArg f (show s' = _ from h)

theorem GreenFrame.green_trans {s s' s'' : Mesh} (h1 : GreenFrame s s') (h2 : GreenFrame s' s'') :
    GreenFrame s s'' := by
  unfold GreenFrame at h1 h2 ⊢
  rw [h2]
  rw [h1]

/-! ### The bodies -/

theorem CloseGrid_reset_frame (env : Env) (e : Nat) (s y : Mesh)
    (h : CloseGrid_reset env e s = .next y) : ResetFrame s y := by
  unfold CloseGrid_reset at h
  dsimp only at h
  have h0 : ResetFrame s { s with USED := upd s.USED e 0 } := rfl
  refine forLoop_next_rel _ (fun x => ResetFrame s x) ?_ _ _ _ _ h0 h
  intro j x z hx hb
  unfold CloseGrid_reset_edge at hb
  dsimp only at hb
  split at hb
  · contradiction
  · simp only [LoopRes.next.injEq] at hb
    subst hb
    exact hx.reset_trans rfl

theorem CloseGrid_pattern_frame (env : Env) (e : Nat) (s y : Mesh)
    (h : CloseGrid_pattern env e s = .next y) : PatternFrame s y := by
  have hedge : ∀ Mark j x z, PatternFrame s x →
      CloseGrid_pattern_edge env e Mark j x = .next z → PatternFrame s z := by
    intro Mark j x z hx hb
    unfold CloseGrid_pattern_edge at hb
    dsimp only at hb
    repeat' split at hb
    all_goals first
      | contradiction
      | (simp only [LoopRes.next.injEq] at hb; subst hb
         first | exact hx | exact hx.pattern_trans rfl)
  have hside : ∀ Mark j x z, PatternFrame s x →
      CloseGrid_pattern_side env e Mark j x = .next z → PatternFrame s z := by
    intro Mark j x z hx hb
    unfold CloseGrid_pattern_side at hb
    repeat' split at hb
    all_goals first
      | contradiction
      | (simp only [LoopRes.next.injEq] at hb; subst hb
         first | exact hx | exact hx.pattern_trans rfl)
  unfold CloseGrid_pattern at h
  dsimp only at h
  split at h
  · split at h
    · rename_i s1 h1
      have f1 : PatternFrame s s1 :=
        forLoop_next_rel _ (fun x => PatternFrame s x) (hedge _) _ _ _ _
          (PatternFrame.pattern_refl s) h1
      split at h
      · simp only [LoopRes.next.injEq] at h; subst h
        exact f1.pattern_trans (show PatternFrame s1 _ from rfl)
      · exact forLoop_next_rel _ (fun x => PatternFrame s x) (hside _) _ _ _ _
          (f1.pattern_trans (show PatternFrame s1
            { s1 with SIDEPATTERN := upd s1.SIDEPATTERN e 0 } from rfl)) h
    · contradiction
    · contradiction
  · simp only [LoopRes.next.injEq] at h; subst h; rfl

theorem CloseGrid_rule_frame (env : Env) (hf : env.fifoFlag = 0) (e : Nat) (x y : Mesh × Int)
    (h : CloseGrid_rule env e x = .next y) : RuleFrame x.1 y.1 := by
  unfold CloseGrid_rule at h
  dsimp only at h
  split at h
  · contradiction
  · split at h
    · contradiction
    · rename_i m hm
      have fm : RuleFrame x.1 m.2 := by
        unfold CloseGrid_mark at hm
        rw [if_neg (not_not.mpr hf)] at hm
        repeat' split at hm
        all_goals first
          | contradiction
          | (simp only [Option.some.injEq] at hm; subst hm; rfl)
      split at h
      · contradiction
      · split at h
        · rename_i s2 h2
          simp only [LoopRes.next.injEq] at h
          subst h
          unfold CloseGrid_fifo at h2
          rw [if_neg (fun hh => hh.1 hf)] at h2
          simp only [LoopRes.next.injEq] at h2
          subst h2
          exact fm.rule_trans rfl
        · contradiction
        · contradiction

theorem CloseGrid_addpattern_frame (env : Env) (e : Nat) (s y : Mesh)
    (h : CloseGrid_addpattern env e s = .next y) : AddFrame s y := by
  unfold CloseGrid_addpattern at h
  split at h
  · simp only [LoopRes.next.injEq] at h; subst h; rfl
  · refine forLoop_next_rel _ (fun x => AddFrame s x) ?_ _ _ _ _ (AddFrame.add_refl s) h
    intro j x z hx hb
    unfold CloseGrid_addpattern_edge at hb
    dsimp only at hb
    repeat' split at hb
    all_goals first
      | contradiction
      | (simp only [LoopRes.next.injEq] at hb; subst hb
         first | exact hx | exact hx.add_trans rfl)

theorem CloseGrid_green_frame (env : Env) (e : Nat) (s y : Mesh)
    (h : CloseGrid_green env e s = .next y) : GreenFrame s y := by
  have hedge : ∀ j x z, GreenFrame s x →
      CloseGrid_green_edge env e j x = .next z → GreenFrame s z := by
    intro j x z hx hb
    unfold CloseGrid_green_edge at hb
    dsimp only at hb
    repeat' split at hb
    all_goals first
      | contradiction
      | (simp only [LoopRes.next.injEq] at hb; subst hb
         first | exact hx | exact hx.green_trans rfl)
  have hside : ∀ j x z, GreenFrame s x →
      CloseGrid_green_side env e j x = .next z → GreenFrame s z := by
    intro j x z hx hb
    unfold CloseGrid_green_side at hb
    dsimp only at hb
    repeat' split at hb
    all_goals first
      | contradiction
      | (simp only [LoopRes.next.injEq] at hb; subst hb
         first | exact hx | exact hx.green_trans rfl)
  unfold CloseGrid_green at h
  dsimp only at h
  split at h
  · simp only [LoopRes.next.injEq] at h; subst h; rfl
  · split at h
    · rename_i s2 h2
      have f2 : GreenFrame s s2 :=
        forLoop_next_rel _ (fun x => GreenFrame s x) hedge _ _ _ _
          (show GreenFrame s { s with UPDATE_GREEN := upd s.UPDATE_GREEN e 0 } from rfl) h2
      split at h
      · rename_i s3 h3
        simp only [LoopRes.next.injEq] at h
        subst h
        have f3 : GreenFrame s s3 := by
          unfold CloseGrid_green_sides at h3
          split at h3
          · exact forLoop_next_rel _ (fun x => GreenFrame s x) hside _ _ _ _ f2 h3
          · simp only [LoopRes.next.injEq] at h3; subst h3; exact f2
        unfold CloseGrid_green_used
        split
        · exact f3.green_trans rfl
        · exact f3
      · contradiction
      · contradiction
    · contradiction
    · contradiction

/-! ## `CloseGrid` without FIFO: the six loops -/

/-- Without FIFO a call of `CloseGrid` that returns a non-negative value has run each of
its six loops once over the element list, to the end. -/
theorem CloseGrid_loops (env : Env) (fuel : Nat) (s : Mesh) (cnt : Int) (s' : Mesh)
    (h : CloseGrid env fuel s = .ok (cnt, s')) (hcnt : 0 ≤ cnt) (hf : env.fifoFlag = 0) :
    ∃ (s1 s2 s3 : Mesh) (x4 : Mesh × Int) (s5 : Mesh),
      forElements (fun y => y.SUCCE) (CloseGrid_reset env) fuel s.FIRSTELEMENT s = .next s1 ∧
      forElements (fun y => y.SUCCE) (CloseGrid_pattern env) fuel s1.FIRSTELEMENT s1
        = .next s2 ∧
      forElements (fun y => y.SUCCE) (CloseGrid_sidepattern env) fuel s2.FIRSTELEMENT s2
        = .next s3 ∧
      forElements (fun y => y.1.SUCCE) (CloseGrid_rule env) fuel s2.FIRSTELEMENT (s3, 0)
        = .next x4 ∧
      forElements (fun y => y.SUCCE) (CloseGrid_addpattern env) fuel x4.1.FIRSTELEMENT x4.1
        = .next s5 ∧
      forElements (fun y => y.SUCCE) (CloseGrid_green env) fuel s5.FIRSTELEMENT s5
        = .next s' ∧ x4.2 = cnt := by
  have neg : ∀ c : Int, c = -1 → ¬ (0 ≤ c) := fun c hc => by omega
  have hinit : ∀ x, CloseGrid_fifo_init env x = x := by
    intro x
    unfold CloseGrid_fifo_init
    rw [if_neg (not_not.mpr hf)]
  unfold CloseGrid at h
  simp only [hinit] at h
  split at h
  · rename_i c y h1
    simp only [Except.ok.injEq, Prod.mk.injEq] at h
    obtain ⟨rfl, _⟩ := h
    exact absurd hcnt (neg _ (forElements_ret_code _ _ (fun c => c = -1)
      (fun e x c y hb => CloseGrid_reset_ret env e x c y hb) _ _ _ _ _ h1))
  · contradiction
  · rename_i s1 h1
    split at h
    · rename_i c y h2
      simp only [Except.ok.injEq, Prod.mk.injEq] at h
      obtain ⟨rfl, _⟩ := h
      exact absurd hcnt (neg _ (forElements_ret_code _ _ (fun c => c = -1)
        (fun e x c y hb => CloseGrid_pattern_ret env e x c y hb) _ _ _ _ _ h2))
    · contradiction
    · rename_i s2 h2
      split at h
      · rename_i c y h3
        simp only [Except.ok.injEq, Prod.mk.injEq] at h
        obtain ⟨rfl, _⟩ := h
        exact absurd hcnt (neg _ (CloseGrid_sweeps_ret env fuel _ _ _ _ _ h3))
      · contradiction
      · rename_i x4 h3
        have hsw : ∃ s3, forElements (fun y => y.SUCCE) (CloseGrid_sidepattern env) fuel
            s2.FIRSTELEMENT s2 = .next s3 ∧
            forElements (fun y => y.1.SUCCE) (CloseGrid_rule env) fuel s2.FIRSTELEMENT (s3, 0)
              = .next x4 := by
          cases fuel with
          | zero => unfold CloseGrid_sweeps at h3; contradiction
          | succ k =>
            unfold CloseGrid_sweeps at h3
            split at h3
            · contradiction
            · contradiction
            · rename_i s3 h31
              split at h3
              · contradiction
              · contradiction
              · rename_i x4' h32
                rw [if_neg (not_not.mpr hf)] at h3
                simp only [LoopRes.next.injEq] at h3
                subst h3
                exact ⟨s3, h31, h32⟩
        obtain ⟨s3, h31, h32⟩ := hsw
        split at h
        · rename_i c y h4
          simp only [Except.ok.injEq, Prod.mk.injEq] at h
          obtain ⟨rfl, _⟩ := h
          exact absurd hcnt (neg _ (forElements_ret_code _ _ (fun c => c = -1)
            (fun e x c y hb => CloseGrid_addpattern_ret env e x c y hb) _ _ _ _ _ h4))
        · contradiction
        · rename_i s5 h4
          split at h
          · rename_i c y h5
            simp only [Except.ok.injEq, Prod.mk.injEq] at h
            obtain ⟨rfl, _⟩ := h
            exact absurd hcnt (neg _ (forElements_ret_code _ _ (fun c => c = -1)
              (fun e x c y hb => CloseGrid_green_ret env e x c y hb) _ _ _ _ _ h5))
          · contradiction
          · rename_i s6 h5
            simp only [Except.ok.injEq, Prod.mk.injEq] at h
            obtain ⟨hc, rfl⟩ := h
            exact ⟨s1, s2, s3, x4, s5, h1, h2, h31, h32, h4, h5, hc⟩

/-! ## `CloseGrid`: a pattern without a rule -/

theorem MyEdgePattern_loop_congr (env : Env) {a b : Mesh} (hT : a.TAG = b.TAG)
    (hC : a.CORNER = b.CORNER) (hG : a.GetEdge = b.GetEdge) (hP : a.PATTERN = b.PATTERN)
    (e : Nat) : ∀ (k p : Nat), MyEdgePattern_loop env a e k p = MyEdgePattern_loop env b e k p := by
  intro k
  induction k with
  | zero => intro p; rfl
  | succ k ih =>
    intro p
    unfold MyEdgePattern_loop edgeOf CORNER_OF_EDGE
    simp only [hT, hC, hG, hP, ih]

theorem MyPattern_congr (env : Env) {a b : Mesh} (hT : a.TAG = b.TAG)
    (hC : a.CORNER = b.CORNER) (hG : a.GetEdge = b.GetEdge) (hP : a.PATTERN = b.PATTERN)
    (hS : a.SIDEPATTERN = b.SIDEPATTERN) (e : Nat) : MyPattern env a e = MyPattern env b e := by
  unfold MyPattern EDGES_OF_ELEM
  rw [MyEdgePattern_loop_congr env hT hC hG hP, hT, hS]

theorem MyPattern.of_rule {env : Env} {a b : Mesh} (h : RuleFrame a b) (e : Nat) :
    MyPattern env b e = MyPattern env a e := by
  have h1 : b.TAG = a.TAG := h.rule_field Mesh.TAG
  have h2 : b.CORNER = a.CORNER := h.rule_field Mesh.CORNER
  have h3 : b.GetEdge = a.GetEdge := h.rule_field Mesh.GetEdge
  have h4 : b.PATTERN = a.PATTERN := h.rule_field Mesh.PATTERN
  have h5 : b.SIDEPATTERN = a.SIDEPATTERN := h.rule_field Mesh.SIDEPATTERN
  exact MyPattern_congr env h1 h2 h3 h4 h5 e

theorem MyPattern.of_add {env : Env} {a b : Mesh} (h : AddFrame a b) (e : Nat) :
    MyPattern env b e = MyPattern env a e := by
  have h1 : b.TAG = a.TAG := h.add_field Mesh.TAG
  have h2 : b.CORNER = a.CORNER := h.add_field Mesh.CORNER
  have h3 : b.GetEdge = a.GetEdge := h.add_field Mesh.GetEdge
  have h4 : b.PATTERN = a.PATTERN := h.add_field Mesh.PATTERN
  have h5 : b.SIDEPATTERN = a.SIDEPATTERN := h.add_field Mesh.SIDEPATTERN
  exact MyPattern_congr env h1 h2 h3 h4 h5 e

theorem MyPattern.of_green {env : Env} {a b : Mesh} (h : GreenFrame a b) (e : Nat) :
    MyPattern env b e = MyPattern env a e := by
  have h1 : b.TAG = a.TAG := h.green_field Mesh.TAG
  have h2 : b.CORNER = a.CORNER := h.green_field Mesh.CORNER
  have h3 : b.GetEdge = a.GetEdge := h.green_field Mesh.GetEdge
  have h4 : b.PATTERN = a.PATTERN := h.green_field Mesh.PATTERN
  have h5 : b.SIDEPATTERN = a.SIDEPATTERN := h.green_field Mesh.SIDEPATTERN
  exact MyPattern_congr env h1 h2 h3 h4 h5 e

/-- One round of the fourth loop without FIFO: what it does to the mark and the class of
its element, and that it leaves the marks of the other elements alone. -/
theorem CloseGrid_rule_round (env : Env) (hf : env.fifoFlag = 0) (e : Nat) (x y : Mesh × Int)
    (h : CloseGrid_rule env e x = .next y) :
    (∀ e', e' ≠ e → y.1.MARK e' = x.1.MARK e' ∧ y.1.MARKCLASS e' = x.1.MARKCLASS e') ∧
    ∃ p, MyPattern env x.1 e = some p ∧
      ((env.hFlag = 0 ∧ x.1.MARKCLASS e ≠ CLASS.RED_CLASS ∧
          y.1.MARK e = env.NO_REFINEMENT ∧ y.1.MARKCLASS e = x.1.MARKCLASS e) ∨
        (¬ (env.hFlag = 0 ∧ x.1.MARKCLASS e ≠ CLASS.RED_CLASS) ∧
          env.PATTERN2MARK (x.1.TAG e) p ≠ -1 ∧
          (y.1.MARKCLASS e = x.1.MARKCLASS e ∨ y.1.MARKCLASS e = CLASS.RED_CLASS) ∧
          (¬ (env.DIM = 3 ∧ x.1.TAG e = TAG.TETRAHEDRON ∧ y.1.MARKCLASS e = CLASS.RED_CLASS) →
            y.1.MARK e = env.PATTERN2MARK (x.1.TAG e) p) ∧
          (y.1.MARKCLASS e = CLASS.RED_CLASS ↔ (x.1.MARKCLASS e = CLASS.RED_CLASS ∨
            env.SWITCHCLASS_OF_MARK (x.1.TAG e) (env.PATTERN2MARK (x.1.TAG e) p) = true)))) := by
  unfold CloseGrid_rule at h
  dsimp only at h
  cases hp : MyEdgePattern_loop env x.1 e (EDGES_OF_ELEM env x.1 e) 0 with
  | none => rw [hp] at h; contradiction
  | some q =>
    rw [hp] at h
    dsimp only at h
    have hfifo : ∀ (a b : Nat) (z : Mesh), CloseGrid_fifo env e a b z = .next z := by
      intro a b z
      unfold CloseGrid_fifo
      rw [if_neg (fun hh => hh.1 hf)]
    have hMy : MyPattern env x.1 e = some ((x.1.SIDEPATTERN e <<< EDGES_OF_ELEM env x.1 e) ||| q) := by
      unfold MyPattern; rw [hp]
    unfold CloseGrid_mark at h
    rw [if_neg (not_not.mpr hf)] at h
    by_cases hh : env.hFlag = 0 ∧ x.1.MARKCLASS e ≠ CLASS.RED_CLASS
    · rw [if_pos hh] at h
      dsimp only at h
      have hfull : CloseGrid_fullrule env x.1 e env.NO_REFINEMENT = some env.NO_REFINEMENT := by
        unfold CloseGrid_fullrule
        rw [if_neg (fun h3 => hh.2 h3.2.2)]
      rw [hfull] at h
      simp only [hfifo, LoopRes.next.injEq] at h
      subst h
      refine ⟨fun e' he' => ⟨upd_other _ _ _ _ he', rfl⟩, _, hMy, Or.inl ⟨hh.1, hh.2, ?_, rfl⟩⟩
      exact upd_same _ _ _
    · rw [if_neg hh] at h
      by_cases hm : env.PATTERN2MARK (x.1.TAG e)
          ((x.1.SIDEPATTERN e <<< EDGES_OF_ELEM env x.1 e) ||| q) = -1
      · rw [if_pos hm] at h; contradiction
      · rw [if_neg hm] at h
        by_cases hsw : x.1.MARKCLASS e ≠ CLASS.RED_CLASS ∧
            env.SWITCHCLASS_OF_MARK (x.1.TAG e) (env.PATTERN2MARK (x.1.TAG e)
              ((x.1.SIDEPATTERN e <<< EDGES_OF_ELEM env x.1 e) ||| q)) = true
        · rw [if_pos hsw] at h
          dsimp only at h
          split at h
          · contradiction
          · rename_i Mark hMark
            simp only [hfifo, LoopRes.next.injEq] at h
            subst h
            refine ⟨fun e' he' => ⟨upd_other _ _ _ _ he', upd_other _ _ _ _ he'⟩, _, hMy,
              Or.inr ⟨hh, hm, Or.inr (upd_same _ _ _), ?_, ?_⟩⟩
            · intro hnot
              show upd _ e Mark e = _
              rw [upd_same]
              unfold CloseGrid_fullrule at hMark
              have hnot' : ¬ (env.DIM = 3 ∧ x.1.TAG e = TAG.TETRAHEDRON ∧
                  upd x.1.MARKCLASS e CLASS.RED_CLASS e = CLASS.RED_CLASS) := hnot
              rw [if_neg hnot'] at hMark
              simp only [Option.some.injEq] at hMark
              exact hMark.symm
            · constructor
              · intro _; exact Or.inr hsw.2
              · intro _; exact upd_same _ _ _
        · rw [if_neg hsw] at h
          dsimp only at h
          split at h
          · contradiction
          · rename_i Mark hMark
            simp only [hfifo, LoopRes.next.injEq] at h
            subst h
            refine ⟨fun e' he' => ⟨upd_other _ _ _ _ he', rfl⟩, _, hMy,
              Or.inr ⟨hh, hm, Or.inl rfl, ?_, ?_⟩⟩
            · intro hnot
              show upd _ e Mark e = _
              rw [upd_same]
              unfold CloseGrid_fullrule at hMark
              have hnot' : ¬ (env.DIM = 3 ∧ x.1.TAG e = TAG.TETRAHEDRON ∧
                  x.1.MARKCLASS e = CLASS.RED_CLASS) := hnot
              rw [if_neg hnot'] at hMark
              simp only [Option.some.injEq] at hMark
              exact hMark.symm
            · constructor
              · intro hr
                by_cases hx : x.1.MARKCLASS e = CLASS.RED_CLASS
                · exact Or.inl hx
                · exact absurd hr hx
              · rintro (hr | hr)
                · exact hr
                · by_cases hx : x.1.MARKCLASS e = CLASS.RED_CLASS
                  · exact hx
                  · exact absurd ⟨hx, hr⟩ hsw

/-- The fourth loop without FIFO, seen from an element `e` of its list: the round of `e`
starts with the mark and class `e` had before the loop, and the rounds after it leave them
alone. -/
theorem CloseGrid_rule_at (env : Env) (hf : env.fifoFlag = 0) (fuel e0 : Nat)
    (x y : Mesh × Int)
    (h : forElements (fun y => y.1.SUCCE) (CloseGrid_rule env) fuel e0 x = .next y)
    (e : Nat) (he : OnList x.1.SUCCE e0 e) :
    ∃ x0 x1, RuleFrame x.1 x0.1 ∧ x0.1.MARK e = x.1.MARK e ∧
      x0.1.MARKCLASS e = x.1.MARKCLASS e ∧ CloseGrid_rule env e x0 = .next x1 ∧
      RuleFrame x1.1 y.1 ∧ y.1.MARK e = x1.1.MARK e ∧ y.1.MARKCLASS e = x1.1.MARKCLASS e := by
  have hlink : ∀ e' (a b : Mesh × Int), CloseGrid_rule env e' a = .next b →
      (fun y : Mesh × Int => y.1.SUCCE) b = (fun y : Mesh × Int => y.1.SUCCE) a := by
    intro e' a b hb
    exact (CloseGrid_rule_frame env hf e' a b hb).rule_field Mesh.SUCCE
  obtain ⟨_, _, hrec⟩ := forElements_rounds (fun y => y.1.SUCCE) (CloseGrid_rule env)
    hlink fuel e0 x y h
  obtain ⟨x0, x1, r1, hb, r2⟩ := hrec e he
  have hframe : ∀ a b : Mesh × Int, Rounds (CloseGrid_rule env)
      (fun e' => e' ≠ e ∧ OnList x.1.SUCCE e0 e') a b →
      RuleFrame a.1 b.1 ∧ b.1.MARK e = a.1.MARK e ∧ b.1.MARKCLASS e = a.1.MARKCLASS e := by
    intro a b hr
    refine Rounds.frame (fun a b : Mesh × Int => RuleFrame a.1 b.1 ∧
      b.1.MARK e = a.1.MARK e ∧ b.1.MARKCLASS e = a.1.MARKCLASS e) ?_ ?_ ?_ hr
    · intro a; exact ⟨RuleFrame.rule_refl a.1, rfl, rfl⟩
    · intro a b c h1 h2
      exact ⟨h1.1.rule_trans h2.1, h2.2.1.trans h1.2.1, h2.2.2.trans h1.2.2⟩
    · intro e' a b hP hb'
      have hl := (CloseGrid_rule_round env hf e' a b hb').1 e (fun hk => hP.1 hk.symm)
      exact ⟨CloseGrid_rule_frame env hf e' a b hb', hl.1, hl.2⟩
  obtain ⟨f1, f2, f3⟩ := hframe x x0 r1
  obtain ⟨g1, g2, g3⟩ := hframe x1 y r2
  exact ⟨x0, x1, f1, f2, f3, hb, g1, g2, g3⟩

theorem CloseGrid_green_mark (env : Env) (e : Nat) (s y : Mesh)
    (h : CloseGrid_green env e s = .next y) :
    ∀ e', y.MARK e' = s.MARK e' ∨ y.MARK e' = env.COPY := by
  have hedge : ∀ j x z, (∀ e', x.MARK e' = s.MARK e' ∨ x.MARK e' = env.COPY) →
      CloseGrid_green_edge env e j x = .next z →
      ∀ e', z.MARK e' = s.MARK e' ∨ z.MARK e' = env.COPY := by
    intro j x z hx hb e'
    unfold CloseGrid_green_edge at hb
    dsimp only at hb
    split at hb
    · contradiction
    · split at hb
      · simp only [LoopRes.next.injEq] at hb
        subst hb
        dsimp only
        split
        · by_cases he' : e' = e
          · subst he'
            right
            split <;> exact upd_same _ _ _
          · have : ∀ m : Mesh, m.MARK = upd x.MARK e env.COPY → m.MARK e' = x.MARK e' := by
              intro m hm; rw [hm]; exact upd_other _ _ _ _ he'
            split
            · rw [this _ rfl]; exact hx e'
            · rw [this _ rfl]; exact hx e'
        · exact hx e'
      · split at hb
        · simp only [LoopRes.next.injEq] at hb; subst hb; exact hx e'
        · simp only [LoopRes.next.injEq] at hb; subst hb; exact hx e'
  intro e'
  unfold CloseGrid_green at h
  dsimp only at h
  split at h
  · simp only [LoopRes.next.injEq] at h; subst h; exact Or.inl rfl
  · split at h
    · rename_i s2 h2
      have f2 : ∀ e', s2.MARK e' = s.MARK e' ∨ s2.MARK e' = env.COPY :=
        forLoop_next_rel _ (fun x => ∀ e', x.MARK e' = s.MARK e' ∨ x.MARK e' = env.COPY)
          hedge _ _ _ _ (fun _ => Or.inl rfl) h2
      split at h
      · rename_i s3 h3
        simp only [LoopRes.next.injEq] at h
        subst h
        have hsides : s3.MARK = s2.MARK := by
          unfold CloseGrid_green_sides at h3
          split at h3
          · have : ∀ j x z, x.MARK = s2.MARK → CloseGrid_green_side env e j x = .next z →
                z.MARK = s2.MARK := by
              intro j x z hx hb
              unfold CloseGrid_green_side at hb
              dsimp only at hb
              repeat' split at hb
              all_goals first
                | contradiction
                | (simp only [LoopRes.next.injEq] at hb; subst hb; exact hx)
            exact forLoop_next_rel _ (fun x => x.MARK = s2.MARK) this _ _ _ _ rfl h3
          · simp only [LoopRes.next.injEq] at h3; subst h3; rfl
        have hused : (CloseGrid_green_used e s3).MARK = s3.MARK := by
          unfold CloseGrid_green_used
          split <;> rfl
        rw [hused, hsides]
        exact f2 e'
      · contradiction
      · contradiction
    · contradiction
    · contradiction

/-! ## `CloseGrid` without FIFO: a final pattern without a rule -/

/-- What a call without FIFO that returns a non-negative value leaves of the mesh after its
third loop: the states after the fourth and fifth loop, the frames between them, and the
list of the level. -/
theorem CloseGrid_tail (env : Env) (fuel : Nat) (s : Mesh) (cnt : Int) (s' : Mesh)
    (h : CloseGrid env fuel s = .ok (cnt, s')) (hcnt : 0 ≤ cnt) (hf : env.fifoFlag = 0) :
    ∃ (s2 s3 : Mesh) (x4 : Mesh × Int) (s5 : Mesh),
      forElements (fun y => y.SUCCE) (CloseGrid_sidepattern env) fuel s2.FIRSTELEMENT s2
        = .next s3 ∧
      forElements (fun y => y.1.SUCCE) (CloseGrid_rule env) fuel s2.FIRSTELEMENT (s3, 0)
        = .next x4 ∧
      forElements (fun y => y.SUCCE) (CloseGrid_green env) fuel s5.FIRSTELEMENT s5
        = .next s' ∧
      (∀ e, OnList s3.SUCCE s2.FIRSTELEMENT e ↔ OnLevel s e) ∧
      (∀ e, OnLevel s5 e ↔ OnLevel s e) ∧
      RuleFrame s3 x4.1 ∧ AddFrame x4.1 s5 ∧ GreenFrame s5 s' ∧ GreenRel env s5 s' := by
  obtain ⟨s1, s2, s3, x4, s5, h1, h2, h3, h4, h5, h6, _⟩ :=
    CloseGrid_loops env fuel s cnt s' h hcnt hf
  have r1 := (CloseGrid_reset_loop env fuel _ s s1 h1).1
  have r2 := (CloseGrid_pattern_loop env fuel _ s1 s2 h2).1
  have r3 : SweepRel env s2 s3 :=
    forElements_next_inv _ _ (fun x => SweepRel env s2 x)
      (fun e x z hx hb => hx.wtrans (CloseGrid_sidepattern_next env e x z hb))
      fuel _ s2 s3 (SweepRel.wrefl env s2) h3
  have f4 : RuleFrame s3 x4.1 :=
    forElements_next_inv _ _ (fun x : Mesh × Int => RuleFrame s3 x.1)
      (fun e x z hx hb => hx.rule_trans (CloseGrid_rule_frame env hf e x z hb))
      fuel _ (s3, 0) x4 (RuleFrame.rule_refl s3) h4
  have f5 : AddFrame x4.1 s5 :=
    forElements_next_inv _ _ (fun x => AddFrame x4.1 x)
      (fun e x z hx hb => hx.add_trans (CloseGrid_addpattern_frame env e x z hb))
      fuel _ x4.1 s5 (AddFrame.add_refl x4.1) h5
  have f6 : GreenFrame s5 s' :=
    forElements_next_inv _ _ (fun x => GreenFrame s5 x)
      (fun e x z hx hb => hx.green_trans (CloseGrid_green_frame env e x z hb))
      fuel _ s5 s' (GreenFrame.green_refl s5) h6
  have g6 := (CloseGrid_green_loop env fuel _ s5 s' h6).1
  have l3 : SameList s2 s3 := r3.2.2.2 hf
  have hS4 : x4.1.SUCCE = s3.SUCCE := f4.rule_field Mesh.SUCCE
  have hF4 : x4.1.FIRSTELEMENT = s3.FIRSTELEMENT := f4.rule_field Mesh.FIRSTELEMENT
  have hS5 : s5.SUCCE = x4.1.SUCCE := f5.add_field Mesh.SUCCE
  have hF5 : s5.FIRSTELEMENT = x4.1.FIRSTELEMENT := f5.add_field Mesh.FIRSTELEMENT
  have hl3 : ∀ e, OnList s3.SUCCE s2.FIRSTELEMENT e ↔ OnLevel s e := by
    intro e
    rw [l3.1]
    exact (OnLevel.same_list r2.2.1 e).trans (OnLevel.same_list r1.2.1 e)
  refine ⟨s2, s3, x4, s5, h3, h4, h6, hl3, fun e => ?_, f4, f5, f6, g6⟩
  unfold OnLevel
  rw [hS5, hF5, hS4, hF4, l3.2]
  exact hl3 e

theorem CloseGrid_green_marks (env : Env) (fuel e0 : Nat) (x y : Mesh)
    (h : forElements (fun y => y.SUCCE) (CloseGrid_green env) fuel e0 x = .next y) :
    ∀ e, y.MARK e = x.MARK e ∨ y.MARK e = env.COPY := by
  refine forElements_next_inv _ _ (fun z => ∀ e, z.MARK e = x.MARK e ∨ z.MARK e = env.COPY)
    ?_ fuel e0 x y (fun _ => Or.inl rfl) h
  intro e' a b ha hb e
  rcases CloseGrid_green_mark env e' a b hb e with hk | hk
  · rw [hk]; exact ha e
  · exact Or.inr hk

/-- Claim C12 (as amended): without FIFO, when `CloseGrid` returns a non-negative value
although `PATTERN2MARK` finds no rule (yields `-1`) for the final edge/side pattern of an
element of the level, the build is in hanging-node mode and the element is not
`RED_CLASS`: its mark is `NO_REFINEMENT`, or `COPY` from the green loop, whatever
`PATTERN2MARK` yields. In closure mode a call with such an element does not return a
non-negative value. -/
theorem CloseGrid_lookup_miss (env : Env) (fuel : Nat) (s : Mesh) (cnt : Int) (s' : Mesh)
    (h : CloseGrid env fuel s = .ok (cnt, s')) (hcnt : 0 ≤ cnt) (hf : env.fifoFlag = 0)
    (e : Nat) (he : OnLevel s e) (p : Nat) (hp : MyPattern env s' e = some p)
    (hmiss : env.PATTERN2MARK (s'.TAG e) p = -1) :
    env.hFlag = 0 ∧ s'.MARKCLASS e ≠ CLASS.RED_CLASS ∧
      (s'.MARK e = env.NO_REFINEMENT ∨ s'.MARK e = env.COPY) := by
  obtain ⟨s2, s3, x4, s5, _, h4, h6, hl3, _, f4, f5, f6, g6⟩ :=
    CloseGrid_tail env fuel s cnt s' h hcnt hf
  obtain ⟨x0, x1, a1, _, _, hb, a3, a4, a5⟩ :=
    CloseGrid_rule_at env hf fuel _ (s3, 0) x4 h4 e ((hl3 e).2 he)
  have hp0 : MyPattern env x0.1 e = some p := by
    rw [MyPattern.of_rule a1, ← MyPattern.of_rule f4, ← MyPattern.of_add f5,
      ← MyPattern.of_green f6]
    exact hp
  have hT : s'.TAG = x0.1.TAG := by
    have t1 : s'.TAG = s5.TAG := f6.green_field Mesh.TAG
    have t2 : s5.TAG = x4.1.TAG := f5.add_field Mesh.TAG
    have t3 : x4.1.TAG = s3.TAG := f4.rule_field Mesh.TAG
    have t4 : x0.1.TAG = s3.TAG := a1.rule_field Mesh.TAG
    rw [t1, t2, t3, t4]
  obtain ⟨_, q, hq, hcase⟩ := CloseGrid_rule_round env hf e x0 x1 hb
  rw [hp0] at hq
  simp only [Option.some.injEq] at hq
  subst hq
  rw [hT] at hmiss
  rcases hcase with ⟨c1, c2, c3, c4⟩ | ⟨_, c2, _⟩
  · have m5 : s5.MARK = x4.1.MARK := f5.add_field Mesh.MARK
    have k5 : s5.MARKCLASS = x4.1.MARKCLASS := f5.add_field Mesh.MARKCLASS
    have hk : s5.MARKCLASS e ≠ CLASS.RED_CLASS := by
      rw [k5, a5, c4]; exact c2
    have hm : s5.MARK e = env.NO_REFINEMENT := by
      rw [m5, a4, c3]
    refine ⟨c1, fun hr => hk ((g6.not_red e).1 hr), ?_⟩
    rcases CloseGrid_green_marks env fuel _ s5 s' h6 e with hh | hh
    · exact Or.inl (hh.trans hm)
    · exact Or.inr hh
  · exact absurd hmiss c2

/-! ## `CloseGrid` on three triangles with an incomplete rule set -/

/-- Claim C12 at an example: in hanging-node mode without FIFO, with a rule set that has no
rule for the pattern 1, `CloseGrid` returns 1 on `meshThreeTriangles`; the final pattern of
triangle 2 is 1, the triangle is not `RED_CLASS` and its mark is `NO_REFINEMENT`. -/
theorem CloseGrid_lookup_miss_witness :
    CloseGrid envRedHanging2D 4 meshThreeTriangles = .ok (1, meshThreeHanging) ∧
      OnLevel meshThreeTriangles 2 ∧
      MyPattern envRedHanging2D meshThreeHanging 2 = some 1 ∧
      envRedHanging2D.PATTERN2MARK (meshThreeHanging.TAG 2) 1 = -1 ∧
      (envRedHanging2D.hFlag = 0 ∧ meshThreeHanging.MARKCLASS 2 ≠ CLASS.RED_CLASS ∧
        (meshThreeHanging.MARK 2 = envRedHanging2D.NO_REFINEMENT ∨
          meshThreeHanging.MARK 2 = envRedHanging2D.COPY)) :=
  ⟨rfl, meshThreeTriangles_level 2 (by decide), rfl, rfl,
    CloseGrid_lookup_miss envRedHanging2D 4 meshThreeTriangles 1 meshThreeHanging rfl
      (by decide) rfl 2 (meshThreeTriangles_level 2 (by decide)) 1 rfl rfl⟩

/-- Claim C12 fails as stated. The rule set of `envRed2D` has no rule for the pattern 1,
the pattern of triangle 2 of `meshThreeTriangles`, which shares one edge with the red
triangle 1. In closure mode `CloseGrid` does not return: the `ASSERT` on the mark fails,
and no negative value is returned. In hanging-node mode `CloseGrid` returns the count 1 and
has stored `NO_REFINEMENT` as the mark of triangle 2. -/
theorem CloseGrid_miss_not_reported :
    envRed2D.PATTERN2MARK TAG.TRIANGLE 1 = -1 ∧
      CloseGrid envRed2D 4 meshThreeTriangles = .error Stop.abort ∧
      CloseGrid envRedHanging2D 4 meshThreeTriangles = .ok (1, meshThreeHanging) ∧
      OnLevel meshThreeTriangles 2 ∧
      MyPattern envRedHanging2D meshThreeHanging 2 = some 1 ∧
      meshThreeHanging.MARK 2 = envRedHanging2D.NO_REFINEMENT :=
  ⟨rfl, rfl, rfl, meshThreeTriangles_level 2 (by decide), rfl, rfl⟩

/-! ## `CloseGrid`: the flag `USED` -/

theorem CloseGrid_side_tetrahedron_only (env : Env) (e : Nat) (MyEdgeNum : Int)
    (Nb j : Nat) (s y : Mesh)
    (h : CloseGrid_side_tetrahedron env e MyEdgeNum Nb j s = .next y) :
    y = { s with SIDEPATTERN := y.SIDEPATTERN } := by
  unfold CloseGrid_side_tetrahedron at h
  dsimp only at h
  repeat' split at h
  all_goals first
    | contradiction
    | (simp only [LoopRes.next.injEq] at h; subst h; rfl)

theorem CloseGrid_side_prism_only (env : Env) (e : Nat) (MyEdgeNum : Int)
    (Nb j : Nat) (s y : Mesh)
    (h : CloseGrid_side_prism env e MyEdgeNum Nb j s = .next y) :
    y = { s with SIDEPATTERN := y.SIDEPATTERN } := by
  unfold CloseGrid_side_prism at h
  repeat' split at h
  all_goals first
    | contradiction
    | (simp only [LoopRes.next.injEq] at h; subst h; rfl)

theorem CloseGrid_side_triangle_only (env : Env) (e MyEdgePattern i Nb j : Nat) (s y : Mesh)
    (h : CloseGrid_side_triangle env e MyEdgePattern i Nb j s = .next y) :
    y = { s with SIDEPATTERN := y.SIDEPATTERN } := by
  unfold CloseGrid_side_triangle at h
  repeat' split at h
  all_goals first
    | contradiction
    | exact CloseGrid_side_tetrahedron_only _ _ _ _ _ _ _ h
    | exact CloseGrid_side_prism_only _ _ _ _ _ _ _ h
    | (simp only [LoopRes.next.injEq] at h; subst h; rfl)

theorem CloseGrid_side_only (env : Env) (e MyEdgePattern i : Nat) (s y : Mesh)
    (h : CloseGrid_side env e MyEdgePattern i s = .next y) :
    y = { s with SIDEPATTERN := y.SIDEPATTERN } := by
  unfold CloseGrid_side at h
  dsimp only at h
  repeat' split at h
  all_goals first
    | contradiction
    | exact CloseGrid_side_triangle_only _ _ _ _ _ _ _ _ h
    | (simp only [LoopRes.next.injEq] at h; subst h; rfl)

/-- One round of the third loop writes `USED` and `SIDEPATTERN` only, and of `USED` only
the flag of its element, which it sets. -/
theorem CloseGrid_sidepattern_used (env : Env) (e : Nat) (s y : Mesh)
    (h : CloseGrid_sidepattern env e s = .next y) :
    SideFrame s y ∧ y.USED = upd s.USED e 1 := by
  have hside : ∀ p i x z, (SideFrame s x ∧ x.USED = upd s.USED e 1) →
      CloseGrid_side env e p i x = .next z → (SideFrame s z ∧ z.USED = upd s.USED e 1) := by
    intro p i x z hx hb
    have hz := CloseGrid_side_only env e p i x z hb
    have hu : z.USED = x.USED :=
      (congrArg Mesh.USED hz : z.USED = ({ x with SIDEPATTERN := z.SIDEPATTERN } : Mesh).USED)
    refine ⟨hx.1.side_trans ?_, hu.trans hx.2⟩
    unfold SideFrame
    rw [hu]
    exact hz
  unfold CloseGrid_sidepattern at h
  dsimp only at h
  have h0 : SideFrame s { s with USED := upd s.USED e 1 } ∧
      ({ s with USED := upd s.USED e 1 } : Mesh).USED = upd s.USED e 1 := ⟨rfl, rfl⟩
  split at h
  · contradiction
  · split at h
    · simp only [LoopRes.next.injEq] at h; subst h; exact h0
    · split at h
      · simp only [LoopRes.next.injEq] at h; subst h; exact h0
      · exact forLoop_next_rel _ (fun x => SideFrame s x ∧ x.USED = upd s.USED e 1)
          (hside _) _ _ _ _ h0 h

theorem CloseGrid_sidepattern_loop (env : Env) (fuel e0 : Nat) (x y : Mesh)
    (h : forElements (fun y => y.SUCCE) (CloseGrid_sidepattern env) fuel e0 x = .next y) :
    SideFrame x y ∧ ∀ e, OnList x.SUCCE e0 e → y.USED e = 1 := by
  refine forElements_spec (fun y => y.SUCCE) (CloseGrid_sidepattern env)
    (fun e0 x y => SideFrame x y ∧ (∀ e, x.USED e = 1 → y.USED e = 1) ∧
      ∀ e, OnList x.SUCCE e0 e → y.USED e = 1) ?_ ?_ fuel e0 x y h |>.imp id And.right
  · intro x
    exact ⟨SideFrame.side_refl x, fun _ hh => hh, fun e he => absurd rfl he.ne_zero⟩
  · intro e x x1 y he hb hpost
    obtain ⟨f1, u1⟩ := CloseGrid_sidepattern_used env e x x1 hb
    obtain ⟨f2, k2, a2⟩ := hpost
    have hS : x1.SUCCE = x.SUCCE := f1.side_field Mesh.SUCCE
    have keep : ∀ e', x.USED e' = 1 → x1.USED e' = 1 := by
      intro e' hh
      rw [u1]
      by_cases hk : e' = e
      · rw [hk]; exact upd_same _ _ _
      · rw [upd_other _ _ _ _ hk]; exact hh
    refine ⟨f1.side_trans f2, fun e' hh => k2 e' (keep e' hh), fun e' he' => ?_⟩
    rcases he'.cases_on_first with hh | hh
    · subst hh
      refine k2 e' ?_
      rw [u1]; exact upd_same _ _ _
    · rw [← hS] at hh
      exact a2 e' hh

/-! ### The sixth loop -/

theorem searchSide_congr {a b : Mesh} (hN : a.NBELEM = b.NBELEM) (nb e : Nat) :
    ∀ (k j : Nat), searchSide a nb e k j = searchSide b nb e k j := by
  intro k
  induction k with
  | zero => intro j; rfl
  | succ k ih =>
    intro j
    unfold searchSide
    rw [hN, ih]

theorem nbSideNode_congr (env : Env) {a b : Mesh} (hN : a.NBELEM = b.NBELEM)
    (hT : a.TAG = b.TAG) (e nb : Nat) (m : Int) :
    nbSideNode env a e nb m = nbSideNode env b e nb m := by
  unfold nbSideNode EDGES_OF_ELEM SIDES_OF_ELEM
  rw [searchSide_congr hN, hT]

theorem SideNodeChange_congr (env : Env) {a b : Mesh} (hN : a.NBELEM = b.NBELEM)
    (hT : a.TAG = b.TAG) (hR : a.REFINE = b.REFINE) (e i : Nat)
    (hM : env.NODE_OF_RULE (b.TAG (b.NBELEM e i)) (a.MARK (b.NBELEM e i))
        (EDGES_OF_ELEM env b (b.NBELEM e i) +
          searchSide b (b.NBELEM e i) e (SIDES_OF_ELEM env b (b.NBELEM e i)) 0) =
      env.NODE_OF_RULE (b.TAG (b.NBELEM e i)) (b.MARK (b.NBELEM e i))
        (EDGES_OF_ELEM env b (b.NBELEM e i) +
          searchSide b (b.NBELEM e i) e (SIDES_OF_ELEM env b (b.NBELEM e i)) 0)) :
    SideNodeChange env a e i ↔ SideNodeChange env b e i := by
  have hM' : nbSideNode env b e (b.NBELEM e i) (a.MARK (b.NBELEM e i)) =
      nbSideNode env b e (b.NBELEM e i) (b.MARK (b.NBELEM e i)) := hM
  unfold SideNodeChange
  rw [hN, hR, nbSideNode_congr env hN hT, nbSideNode_congr env hN hT, hM']

/-- One round of the loop over the edges in the sixth loop of a 3-D build, for an element
that is no tetrahedron: `UPDATE_GREEN` of the element is set exactly if the edge changes
mid-node existence; the flags of the other elements and `USED` stay. -/
theorem CloseGrid_green_edge_flag (env : Env) (hdim : env.DIM = 3) (e i : Nat) (z z' : Mesh)
    (htag : z.TAG e ≠ TAG.TETRAHEDRON) (hb : CloseGrid_green_edge env e i z = .next z') :
    z'.USED = z.USED ∧ (∀ e', e' ≠ e → z'.UPDATE_GREEN e' = z.UPDATE_GREEN e') ∧
    z'.UPDATE_GREEN e =
      (if (z.ADDPATTERN (edgeOf env z e i) = 0 ∧ z.MIDNODE (edgeOf env z e i) = 0) ∨
          (z.ADDPATTERN (edgeOf env z e i) ≠ 0 ∧ z.MIDNODE (edgeOf env z e i) ≠ 0)
        then 1 else z.UPDATE_GREEN e) := by
  unfold CloseGrid_green_edge at hb
  dsimp only at hb
  by_cases h0 : edgeOf env z e i = 0
  · rw [if_pos h0] at hb; contradiction
  · rw [if_neg h0] at hb
    by_cases ha : z.ADDPATTERN (edgeOf env z e i) = 0
    · rw [if_pos ha, if_pos ⟨hdim, htag⟩] at hb
      by_cases hm : z.MIDNODE (edgeOf env z e i) = 0
      · rw [if_pos hm] at hb
        simp only [LoopRes.next.injEq] at hb
        subst hb
        refine ⟨rfl, fun e' he' => upd_other _ _ _ _ he', ?_⟩
        rw [if_pos (Or.inl ⟨ha, hm⟩)]
        exact upd_same _ _ _
      · rw [if_neg hm] at hb
        simp only [LoopRes.next.injEq] at hb
        subst hb
        refine ⟨rfl, fun e' he' => rfl, ?_⟩
        rw [if_neg]
        rintro (⟨_, h2⟩ | ⟨h1, _⟩)
        · exact hm h2
        · exact h1 ha
    · rw [if_neg ha] at hb
      by_cases hm : z.MIDNODE (edgeOf env z e i) = 0
      · rw [if_neg (not_not.mpr hm)] at hb
        simp only [LoopRes.next.injEq] at hb
        subst hb
        refine ⟨rfl, fun e' he' => rfl, ?_⟩
        rw [if_neg]
        rintro (⟨h1, _⟩ | ⟨_, h2⟩)
        · exact ha h1
        · exact h2 hm
      · rw [if_pos hm] at hb
        simp only [LoopRes.next.injEq] at hb
        subst hb
        refine ⟨rfl, fun e' he' => upd_other _ _ _ _ he', ?_⟩
        rw [if_pos (Or.inr ⟨ha, hm⟩)]
        exact upd_same _ _ _

/-- One round of the loop over the sides in the sixth loop: `UPDATE_GREEN` of the element is
set exactly if the side node of the neighbour changes existence; `MARK`, `USED` and the
flags of the other elements stay. -/
theorem CloseGrid_green_side_flag (env : Env) (e i : Nat) (z z' : Mesh)
    (hb : CloseGrid_green_side env e i z = .next z') :
    z'.USED = z.USED ∧ z'.MARK = z.MARK ∧
    (∀ e', e' ≠ e → z'.UPDATE_GREEN e' = z.UPDATE_GREEN e') ∧
    z'.UPDATE_GREEN e = (if SideNodeChange env z e i then 1 else z.UPDATE_GREEN e) := by
  unfold CloseGrid_green_side at hb
  dsimp only at hb
  by_cases h0 : z.NBELEM e i = 0
  · rw [if_pos h0] at hb
    simp only [LoopRes.next.injEq] at hb
    subst hb
    refine ⟨rfl, rfl, fun e' he' => rfl, ?_⟩
    rw [if_neg]
    unfold SideNodeChange
    exact fun hh => hh.1 h0
  · rw [if_neg h0] at hb
    split at hb
    · contradiction
    · by_cases hn : env.NODE_OF_RULE (z.TAG (z.NBELEM e i)) (z.MARK (z.NBELEM e i))
          (EDGES_OF_ELEM env z (z.NBELEM e i) +
            searchSide z (z.NBELEM e i) e (SIDES_OF_ELEM env z (z.NBELEM e i)) 0) ≠ 0
      · rw [if_pos hn] at hb
        split at hb
        · rename_i hC
          have hc : SideNodeChange env z e i := ⟨h0, hC⟩
          simp only [LoopRes.next.injEq] at hb
          subst hb
          refine ⟨rfl, rfl, fun e' he' => upd_other _ _ _ _ he', ?_⟩
          rw [if_pos hc]
          exact upd_same _ _ _
        · rename_i hC
          have hc : ¬ SideNodeChange env z e i := fun hh => hC hh.2
          simp only [LoopRes.next.injEq] at hb
          subst hb
          refine ⟨rfl, rfl, fun e' he' => rfl, ?_⟩
          rw [if_neg hc]
      · rw [if_neg hn] at hb
        split at hb
        · rename_i hC
          have hc : SideNodeChange env z e i := ⟨h0, hC⟩
          simp only [LoopRes.next.injEq] at hb
          subst hb
          refine ⟨rfl, rfl, fun e' he' => upd_other _ _ _ _ he', ?_⟩
          rw [if_pos hc]
          exact upd_same _ _ _
        · rename_i hC
          have hc : ¬ SideNodeChange env z e i := fun hh => hC hh.2
          simp only [LoopRes.next.injEq] at hb
          subst hb
          refine ⟨rfl, rfl, fun e' he' => rfl, ?_⟩
          rw [if_neg hc]

/-! ### One round of the sixth loop -/

theorem CloseGrid_green_edge_frame (env : Env) (e j : Nat) (x z : Mesh)
    (hb : CloseGrid_green_edge env e j x = .next z) : GreenFrame x z := by
  unfold CloseGrid_green_edge at hb
  dsimp only at hb
  repeat' split at hb
  all_goals first
    | contradiction
    | (simp only [LoopRes.next.injEq] at hb; subst hb; rfl)

theorem CloseGrid_green_side_frame (env : Env) (e j : Nat) (x z : Mesh)
    (hb : CloseGrid_green_side env e j x = .next z) : GreenFrame x z := by
  unfold CloseGrid_green_side at hb
  dsimp only at hb
  repeat' split at hb
  all_goals first
    | contradiction
    | (simp only [LoopRes.next.injEq] at hb; subst hb; rfl)

theorem GreenFrame.gr_edgeOf_eq {x z : Mesh} (h : GreenFrame x z) (env : Env) (e j : Nat) :
    edgeOf env z e j = edgeOf env x e j := by
  have hT : z.TAG = x.TAG := h.green_field Mesh.TAG
  have hC : z.CORNER = x.CORNER := h.green_field Mesh.CORNER
  have hG : z.GetEdge = x.GetEdge := h.green_field Mesh.GetEdge
  unfold edgeOf CORNER_OF_EDGE
  rw [hT, hC, hG]

/-- The loop over the edges in the sixth loop of a 3-D build, for an element that is no
tetrahedron, started with `UPDATE_GREEN = 0`: the flag ends 0 exactly if no edge changes
mid-node existence. -/
theorem CloseGrid_green_edges_flag (env : Env) (hdim : env.DIM = 3) (e : Nat) (x s2 : Mesh)
    (htag : x.TAG e ≠ TAG.TETRAHEDRON) (k : Nat)
    (h : forLoop (CloseGrid_green_edge env e) k 0 x = .next s2) :
    GreenFrame x s2 ∧ s2.USED = x.USED ∧
    (∀ e', e' ≠ e → s2.UPDATE_GREEN e' = x.UPDATE_GREEN e') ∧
    (s2.UPDATE_GREEN e = 0 ↔ x.UPDATE_GREEN e = 0 ∧ ∀ j, j < k →
      ¬ ((x.ADDPATTERN (edgeOf env x e j) = 0 ∧ x.MIDNODE (edgeOf env x e j) = 0) ∨
        (x.ADDPATTERN (edgeOf env x e j) ≠ 0 ∧ x.MIDNODE (edgeOf env x e j) ≠ 0))) := by
  have hI := forLoop_next_inv (CloseGrid_green_edge env e)
    (fun i z => GreenFrame x z ∧ z.USED = x.USED ∧
      (∀ e', e' ≠ e → z.UPDATE_GREEN e' = x.UPDATE_GREEN e') ∧
      (z.UPDATE_GREEN e = 0 ↔ x.UPDATE_GREEN e = 0 ∧ ∀ j, j < i →
        ¬ ((x.ADDPATTERN (edgeOf env x e j) = 0 ∧ x.MIDNODE (edgeOf env x e j) = 0) ∨
          (x.ADDPATTERN (edgeOf env x e j) ≠ 0 ∧ x.MIDNODE (edgeOf env x e j) ≠ 0))))
    (by
      intro i z z' ⟨fz, uz, lz, iz⟩ hb
      have hA : z.ADDPATTERN = x.ADDPATTERN := fz.green_field Mesh.ADDPATTERN
      have hMd : z.MIDNODE = x.MIDNODE := fz.green_field Mesh.MIDNODE
      have hT : z.TAG = x.TAG := fz.green_field Mesh.TAG
      have hed := fz.gr_edgeOf_eq env e i
      obtain ⟨u1, l1, g1⟩ := CloseGrid_green_edge_flag env hdim e i z z'
        (by rw [hT]; exact htag) hb
      rw [hed, hA, hMd] at g1
      refine ⟨fz.green_trans (CloseGrid_green_edge_frame env e i z z' hb), u1.trans uz,
        fun e' he' => (l1 e' he').trans (lz e' he'), ?_⟩
      by_cases hc : (x.ADDPATTERN (edgeOf env x e i) = 0 ∧ x.MIDNODE (edgeOf env x e i) = 0) ∨
          (x.ADDPATTERN (edgeOf env x e i) ≠ 0 ∧ x.MIDNODE (edgeOf env x e i) ≠ 0)
      · rw [if_pos hc] at g1
        rw [g1]
        constructor
        · intro hh; exact absurd hh (by decide)
        · intro hh; exact absurd hc (hh.2 i (by omega))
      · rw [if_neg hc] at g1
        rw [g1, iz]
        constructor
        · intro hh
          refine ⟨hh.1, fun j hj => ?_⟩
          by_cases hji : j = i
          · subst hji; exact hc
          · exact hh.2 j (by omega)
        · intro hh
          exact ⟨hh.1, fun j hj => hh.2 j (by omega)⟩)
    k 0 x s2 ⟨GreenFrame.green_refl x, rfl, fun _ _ => rfl,
      ⟨fun hh => ⟨hh, fun j hj => absurd hj (Nat.not_lt_zero j)⟩, fun hh => hh.1⟩⟩ h
  rw [Nat.zero_add] at hI
  exact hI

/-- The loop over the sides in the sixth loop: `UPDATE_GREEN` ends 0 exactly if it was 0 and
no neighbour's side node changes; `MARK` and `USED` stay. -/
theorem CloseGrid_green_sides_flag (env : Env) (e : Nat) (x s3 : Mesh) (k : Nat)
    (h : forLoop (CloseGrid_green_side env e) k 0 x = .next s3) :
    GreenFrame x s3 ∧ s3.USED = x.USED ∧ s3.MARK = x.MARK ∧
    (∀ e', e' ≠ e → s3.UPDATE_GREEN e' = x.UPDATE_GREEN e') ∧
    (s3.UPDATE_GREEN e = 0 ↔ x.UPDATE_GREEN e = 0 ∧ ∀ j, j < k →
      ¬ SideNodeChange env x e j) := by
  have hI := forLoop_next_inv (CloseGrid_green_side env e)
    (fun i z => GreenFrame x z ∧ z.USED = x.USED ∧ z.MARK = x.MARK ∧
      (∀ e', e' ≠ e → z.UPDATE_GREEN e' = x.UPDATE_GREEN e') ∧
      (z.UPDATE_GREEN e = 0 ↔ x.UPDATE_GREEN e = 0 ∧ ∀ j, j < i →
        ¬ SideNodeChange env x e j))
    (by
      intro i z z' ⟨fz, uz, mz, lz, iz⟩ hb
      have hN : z.NBELEM = x.NBELEM := fz.green_field Mesh.NBELEM
      have hT : z.TAG = x.TAG := fz.green_field Mesh.TAG
      have hR : z.REFINE = x.REFINE := fz.green_field Mesh.REFINE
      obtain ⟨u1, m1, l1, g1⟩ := CloseGrid_green_side_flag env e i z z' hb
      have hsc : SideNodeChange env z e i ↔ SideNodeChange env x e i :=
        SideNodeChange_congr env hN hT hR e i (by rw [mz])
      refine ⟨fz.green_trans (CloseGrid_green_side_frame env e i z z' hb), u1.trans uz,
        m1.trans mz, fun e' he' => (l1 e' he').trans (lz e' he'), ?_⟩
      by_cases hc : SideNodeChange env z e i
      · rw [if_pos hc] at g1
        rw [g1]
        constructor
        · intro hh; exact absurd hh (by decide)
        · intro hh; exact absurd (hsc.1 hc) (hh.2 i (by omega))
      · rw [if_neg hc] at g1
        rw [g1, iz]
        constructor
        · intro hh
          refine ⟨hh.1, fun j hj => ?_⟩
          by_cases hji : j = i
          · subst hji; exact fun hk => hc (hsc.2 hk)
          · exact hh.2 j (by omega)
        · intro hh
          exact ⟨hh.1, fun j hj => hh.2 j (by omega)⟩)
    k 0 x s3 ⟨GreenFrame.green_refl x, rfl, rfl, fun _ _ => rfl,
      ⟨fun hh => ⟨hh, fun j hj => absurd hj (Nat.not_lt_zero j)⟩, fun hh => hh.1⟩⟩ h
  rw [Nat.zero_add] at hI
  exact hI

/-- One round of the sixth loop of a 3-D build for an element that is not red and not a
tetrahedron: `UPDATE_GREEN` ends 0 exactly if no edge changes mid-node existence and no
neighbour's side node changes; `USED` is cleared exactly for an element that was green,
is green, and has `UPDATE_GREEN = 0`. -/
theorem CloseGrid_green_round (env : Env) (hdim : env.DIM = 3) (e : Nat) (x y : Mesh)
    (h : CloseGrid_green env e x = .next y) (hred : x.MARKCLASS e ≠ CLASS.RED_CLASS)
    (htag : x.TAG e ≠ TAG.TETRAHEDRON) :
    (y.UPDATE_GREEN e = 0 ↔
      ((∀ j, j < EDGES_OF_ELEM env x e →
          ¬ ((x.ADDPATTERN (edgeOf env x e j) = 0 ∧ x.MIDNODE (edgeOf env x e j) = 0) ∨
            (x.ADDPATTERN (edgeOf env x e j) ≠ 0 ∧ x.MIDNODE (edgeOf env x e j) ≠ 0))) ∧
        ∀ i, i < SIDES_OF_ELEM env x e → ¬ SideNodeChange env y e i)) ∧
    y.USED e = (if x.REFINECLASS e = CLASS.GREEN_CLASS ∧
        y.MARKCLASS e = CLASS.GREEN_CLASS ∧ y.UPDATE_GREEN e = 0 then 0 else x.USED e) := by
  unfold CloseGrid_green at h
  rw [if_neg hred] at h
  dsimp only at h
  cases h2 : forLoop (CloseGrid_green_edge env e)
      (EDGES_OF_ELEM env { x with UPDATE_GREEN := upd x.UPDATE_GREEN e 0 } e) 0
      { x with UPDATE_GREEN := upd x.UPDATE_GREEN e 0 } with
  | ret c z => rw [h2] at h; contradiction
  | stop r => rw [h2] at h; contradiction
  | next s2 =>
    rw [h2] at h
    dsimp only at h
    obtain ⟨f2, u2, _, g2⟩ := CloseGrid_green_edges_flag env hdim e
      { x with UPDATE_GREEN := upd x.UPDATE_GREEN e 0 } s2 htag _ h2
    unfold CloseGrid_green_sides at h
    rw [if_pos hdim] at h
    cases h3 : forLoop (CloseGrid_green_side env e) (SIDES_OF_ELEM env s2 e) 0 s2 with
    | ret c z => rw [h3] at h; contradiction
    | stop r => rw [h3] at h; contradiction
    | next s3 =>
      rw [h3] at h
      simp only [LoopRes.next.injEq] at h
      obtain ⟨f3, u3, m3, _, g3⟩ := CloseGrid_green_sides_flag env e s2 s3 _ h3
      have f02 : GreenFrame x s2 :=
        (show GreenFrame x { x with UPDATE_GREEN := upd x.UPDATE_GREEN e 0 } from rfl).green_trans f2
      have f03 : GreenFrame x s3 := f02.green_trans f3
      have hT2 : s2.TAG = x.TAG := f02.green_field Mesh.TAG
      have hN3 : s3.NBELEM = s2.NBELEM := f3.green_field Mesh.NBELEM
      have hT3 : s3.TAG = s2.TAG := f3.green_field Mesh.TAG
      have hR3 : s3.REFINE = s2.REFINE := f3.green_field Mesh.REFINE
      have hRC : s3.REFINECLASS = x.REFINECLASS := f03.green_field Mesh.REFINECLASS
      have hsides : SIDES_OF_ELEM env s2 e = SIDES_OF_ELEM env x e := by
        unfold SIDES_OF_ELEM; rw [hT2]
      have hy : y.MARK = s3.MARK ∧ y.NBELEM = s3.NBELEM ∧ y.TAG = s3.TAG ∧
          y.REFINE = s3.REFINE ∧ y.UPDATE_GREEN = s3.UPDATE_GREEN ∧
          y.MARKCLASS = s3.MARKCLASS := by
        rw [← h]; unfold CloseGrid_green_used
        split <;> exact ⟨rfl, rfl, rfl, rfl, rfl, rfl⟩
      obtain ⟨y1, y2, y3, y4, y5, y6⟩ := hy
      have hsc : ∀ i, SideNodeChange env y e i ↔ SideNodeChange env s2 e i := fun i =>
        SideNodeChange_congr env (y2.trans hN3) (y3.trans hT3) (y4.trans hR3) e i
          (by rw [y1, m3])
      have g2' : s2.UPDATE_GREEN e = 0 ↔ ∀ j, j < EDGES_OF_ELEM env x e →
          ¬ ((x.ADDPATTERN (edgeOf env x e j) = 0 ∧ x.MIDNODE (edgeOf env x e j) = 0) ∨
            (x.ADDPATTERN (edgeOf env x e j) ≠ 0 ∧ x.MIDNODE (edgeOf env x e j) ≠ 0)) := by
        rw [g2]
        exact ⟨fun hh => hh.2, fun hh => ⟨upd_same _ _ _, hh⟩⟩
      constructor
      · rw [y5, g3, g2', hsides]
        constructor
        · intro hh; exact ⟨hh.1, fun i hi => fun hk => hh.2 i hi ((hsc i).1 hk)⟩
        · intro hh; exact ⟨hh.1, fun i hi => fun hk => hh.2 i hi ((hsc i).2 hk)⟩
      · rw [y5, y6, ← hRC, ← h]
        unfold CloseGrid_green_used
        have hu : s3.USED e = x.USED e := by rw [u3, u2]
        split
        · exact upd_same _ _ _
        · exact hu

/-! ### What a round of the sixth loop does to the other elements -/

theorem CloseGrid_green_edge_local (env : Env) (e j : Nat) (x z : Mesh)
    (hb : CloseGrid_green_edge env e j x = .next z) :
    ∀ e', e' ≠ e → z.USED e' = x.USED e' ∧ z.UPDATE_GREEN e' = x.UPDATE_GREEN e' ∧
      z.MARK e' = x.MARK e' ∧ z.MARKCLASS e' = x.MARKCLASS e' := by
  unfold CloseGrid_green_edge at hb
  dsimp only at hb
  repeat' split at hb
  all_goals first
    | contradiction
    | (simp only [LoopRes.next.injEq] at hb; subst hb; intro e' he'
       refine ⟨?_, ?_, ?_, ?_⟩ <;> first | rfl | exact upd_other _ _ _ _ he')

theorem CloseGrid_green_side_local (env : Env) (e j : Nat) (x z : Mesh)
    (hb : CloseGrid_green_side env e j x = .next z) :
    ∀ e', e' ≠ e → z.USED e' = x.USED e' ∧ z.UPDATE_GREEN e' = x.UPDATE_GREEN e' ∧
      z.MARK e' = x.MARK e' ∧ z.MARKCLASS e' = x.MARKCLASS e' := by
  unfold CloseGrid_green_side at hb
  dsimp only at hb
  repeat' split at hb
  all_goals first
    | contradiction
    | (simp only [LoopRes.next.injEq] at hb; subst hb; intro e' he'
       refine ⟨?_, ?_, ?_, ?_⟩ <;> first | rfl | exact upd_other _ _ _ _ he')

/-- A round of the sixth loop of `CloseGrid` leaves `USED`, `UPDATE_GREEN`, `MARK` and
`MARKCLASS` of every other element alone. -/
theorem CloseGrid_green_local (env : Env) (e : Nat) (x y : Mesh)
    (h : CloseGrid_green env e x = .next y) :
    ∀ e', e' ≠ e → y.USED e' = x.USED e' ∧ y.UPDATE_GREEN e' = x.UPDATE_GREEN e' ∧
      y.MARK e' = x.MARK e' ∧ y.MARKCLASS e' = x.MARKCLASS e' := by
  have htr : ∀ a b c : Mesh,
      (∀ e', e' ≠ e → b.USED e' = a.USED e' ∧ b.UPDATE_GREEN e' = a.UPDATE_GREEN e' ∧
        b.MARK e' = a.MARK e' ∧ b.MARKCLASS e' = a.MARKCLASS e') →
      (∀ e', e' ≠ e → c.USED e' = b.USED e' ∧ c.UPDATE_GREEN e' = b.UPDATE_GREEN e' ∧
        c.MARK e' = b.MARK e' ∧ c.MARKCLASS e' = b.MARKCLASS e') →
      ∀ e', e' ≠ e → c.USED e' = a.USED e' ∧ c.UPDATE_GREEN e' = a.UPDATE_GREEN e' ∧
        c.MARK e' = a.MARK e' ∧ c.MARKCLASS e' = a.MARKCLASS e' := by
    intro a b c h1 h2 e' he'
    obtain ⟨a1, a2, a3, a4⟩ := h1 e' he'
    obtain ⟨b1, b2, b3, b4⟩ := h2 e' he'
    exact ⟨b1.trans a1, b2.trans a2, b3.trans a3, b4.trans a4⟩
  unfold CloseGrid_green at h
  split at h
  · simp only [LoopRes.next.injEq] at h
    subst h
    exact fun _ _ => ⟨rfl, rfl, rfl, rfl⟩
  · dsimp only at h
    split at h
    · rename_i s2 h2
      have k2 := forLoop_next_rel _
        (fun z : Mesh => ∀ e', e' ≠ e → z.USED e' = x.USED e' ∧
          z.UPDATE_GREEN e' = x.UPDATE_GREEN e' ∧
          z.MARK e' = x.MARK e' ∧ z.MARKCLASS e' = x.MARKCLASS e')
        (fun i a b ha hb => htr x a b ha (CloseGrid_green_edge_local env e i a b hb))
        _ 0 _ s2 (by intro e' he'; exact ⟨rfl, upd_other _ _ _ _ he', rfl, rfl⟩) h2
      split at h
      · rename_i s3 h3
        simp only [LoopRes.next.injEq] at h
        have k3 : ∀ e', e' ≠ e → s3.USED e' = s2.USED e' ∧
            s3.UPDATE_GREEN e' = s2.UPDATE_GREEN e' ∧
            s3.MARK e' = s2.MARK e' ∧ s3.MARKCLASS e' = s2.MARKCLASS e' := by
          unfold CloseGrid_green_sides at h3
          split at h3
          · exact forLoop_next_rel _
              (fun z : Mesh => ∀ e', e' ≠ e → z.USED e' = s2.USED e' ∧
                z.UPDATE_GREEN e' = s2.UPDATE_GREEN e' ∧
                z.MARK e' = s2.MARK e' ∧ z.MARKCLASS e' = s2.MARKCLASS e')
              (fun i a b ha hb => htr s2 a b ha (CloseGrid_green_side_local env e i a b hb))
              _ 0 _ s3 (fun e' he' => ⟨rfl, rfl, rfl, rfl⟩) h3
          · simp only [LoopRes.next.injEq] at h3
            subst h3
            exact fun _ _ => ⟨rfl, rfl, rfl, rfl⟩
        have k4 : ∀ e', e' ≠ e → y.USED e' = s3.USED e' ∧
            y.UPDATE_GREEN e' = s3.UPDATE_GREEN e' ∧
            y.MARK e' = s3.MARK e' ∧ y.MARKCLASS e' = s3.MARKCLASS e' := by
          rw [← h]
          unfold CloseGrid_green_used
          intro e' he'
          split
          · exact ⟨upd_other _ _ _ _ he', rfl, rfl, rfl⟩
          · exact ⟨rfl, rfl, rfl, rfl⟩
        exact htr x s3 y (htr x s2 s3 k2 k3) k4
      · contradiction
      · contradiction
    · contradiction
    · contradiction

theorem CloseGrid_green_step (env : Env) (P : Nat → Prop) (e : Nat) (x y : Mesh) (hP : P e)
    (h : CloseGrid_green env e x = .next y) : GreenMarks env P x y := by
  have hrel := (CloseGrid_green_next env e x y h).1
  have hloc := CloseGrid_green_local env e x y h
  have hmk := CloseGrid_green_mark env e x y h
  refine ⟨CloseGrid_green_frame env e x y h, fun e' => ?_, fun e' => ?_⟩
  · constructor
    · intro hh
      rcases hrel.2.2.2.2.1 e' with hk | hk
      · rw [← hk]; exact hh
      · rw [hk] at hh; exact absurd hh (by decide)
    · intro hh; exact (hrel.2.2.2.1 e' hh).1
  · by_cases he : e' = e
    · subst he
      by_cases hr : x.MARKCLASS e' = CLASS.RED_CLASS
      · exact Or.inl (hrel.2.2.2.1 e' hr).2
      · rcases hmk e' with hk | hk
        · exact Or.inl hk
        · exact Or.inr ⟨hk, hr, hP⟩
    · exact Or.inl (hloc e' he).2.2.1

theorem GreenMarks.gm_refl (env : Env) (P : Nat → Prop) (a : Mesh) : GreenMarks env P a a :=
  ⟨GreenFrame.green_refl a, fun _ => Iff.rfl, fun _ => Or.inl rfl⟩

theorem GreenMarks.gm_trans {env : Env} {P : Nat → Prop} {a b c : Mesh}
    (h1 : GreenMarks env P a b) (h2 : GreenMarks env P b c) : GreenMarks env P a c := by
  refine ⟨h1.1.green_trans h2.1, fun e' => (h2.2.1 e').trans (h1.2.1 e'), fun e' => ?_⟩
  rcases h2.2.2 e' with hk | ⟨hk, hr, hp⟩
  · rcases h1.2.2 e' with hj | ⟨hj, hr', hp'⟩
    · exact Or.inl (hk.trans hj)
    · exact Or.inr ⟨hk.trans hj, hr', hp'⟩
  · exact Or.inr ⟨hk, fun hh => hr ((h1.2.1 e').2 hh), hp⟩

theorem GreenMarks.of_rounds {env : Env} {P : Nat → Prop} {a b : Mesh}
    (h : Rounds (CloseGrid_green env) P a b) : GreenMarks env P a b :=
  Rounds.frame (GreenMarks env P) (GreenMarks.gm_refl env P)
    (fun _ _ _ h1 h2 => h1.gm_trans h2)
    (fun e x x1 hP hb => CloseGrid_green_step env P e x x1 hP hb) h

/-! ## `CloseGrid`: the flag `USED` of a green element -/

/-- After the fifth loop of a call without FIFO, the mark of an element of the level that
is not red has no side node. -/
theorem CloseGrid_side_free (env : Env) (hf : env.fifoFlag = 0) (htab : NoSideNodes env)
    (fuel e0 : Nat) (s3 : Mesh) (x4 : Mesh × Int) (s5 : Mesh)
    (h4 : forElements (fun y => y.1.SUCCE) (CloseGrid_rule env) fuel e0 (s3, 0) = .next x4)
    (f5 : AddFrame x4.1 s5) (e : Nat) (he : OnList s3.SUCCE e0 e)
    (hred : s5.MARKCLASS e ≠ CLASS.RED_CLASS) (k : Nat) (hk : EDGES_OF_ELEM env s5 e ≤ k) :
    env.NODE_OF_RULE (s5.TAG e) (s5.MARK e) k = 0 := by
  obtain ⟨x0, x1, r0, _, _, hb, r1, m1, c1⟩ := CloseGrid_rule_at env hf fuel e0 (s3, 0) x4 h4 e he
  have hM5 : s5.MARK = x4.1.MARK := f5.add_field Mesh.MARK
  have hC5 : s5.MARKCLASS = x4.1.MARKCLASS := f5.add_field Mesh.MARKCLASS
  have hT5 : s5.TAG = x4.1.TAG := f5.add_field Mesh.TAG
  have hT4 : x4.1.TAG = x1.1.TAG := r1.rule_field Mesh.TAG
  have hT1 : x1.1.TAG = x0.1.TAG := (CloseGrid_rule_frame env hf e x0 x1 hb).rule_field Mesh.TAG
  have hk' : (env.element_descriptors (x0.1.TAG e)).edges_of_elem ≤ k := by
    unfold EDGES_OF_ELEM at hk
    rw [hT5, hT4, hT1] at hk
    exact hk
  have hred1 : x1.1.MARKCLASS e ≠ CLASS.RED_CLASS := by
    rw [← c1, ← hC5]; exact hred
  rw [hM5, hT5, hT4, hT1, m1]
  obtain ⟨_, p, _, hcase⟩ := CloseGrid_rule_round env hf e x0 x1 hb
  rcases hcase with ⟨_, _, hmk, _⟩ | ⟨_, _, _, hmk, hsw⟩
  · rw [hmk]
    exact htab.2.2 _ k hk'
  · rw [hmk (fun hh => hred1 hh.2.2)]
    refine htab.1 _ _ k ?_ hk'
    cases hs : env.SWITCHCLASS_OF_MARK (x0.1.TAG e) (env.PATTERN2MARK (x0.1.TAG e) p) with
    | false => rfl
    | true => exact absurd (hsw.2 (Or.inr hs)) hred1

/-- After a call of `CloseGrid` that returns a non-negative value, `ADDPATTERN` of an edge
of an element of the level is 0 or 1. -/
theorem CloseGrid_addpattern_bit (env : Env) (fuel : Nat) (s : Mesh) (cnt : Int) (s' : Mesh)
    (h : CloseGrid env fuel s = .ok (cnt, s')) (hcnt : 0 ≤ cnt) (e : Nat) (he : OnLevel s e)
    (j : Nat) (hj : j < EDGES_OF_ELEM env s' e) :
    s'.ADDPATTERN (edgeOf env s' e j) = 0 ∨ s'.ADDPATTERN (edgeOf env s' e j) = 1 := by
  obtain ⟨s1, s2, s4, s5, ⟨r1, a1⟩, ⟨r2, _⟩, r3, ⟨r4, _⟩, ⟨r5, _⟩⟩ :=
    CloseGrid_phases env fuel s cnt s' h hcnt
  have sh : SameShape s s' :=
    (((r1.1.shtrans r2.1).shtrans r3.1).shtrans r4.1).shtrans r5.1
  have hed : edgeOf env s' e j = edgeOf env s e j := sh.edgeOf_eq env e j
  have hj' : j < EDGES_OF_ELEM env s e := by
    rw [← sh.edges_eq env e]; exact hj
  rw [hed, r5.2.2.1]
  rcases r4.2.2.2.2 (edgeOf env s e j) with hk | hk
  · right
    rw [hk, r3.2.1, r2.2.2.1]
    exact a1 e he j hj'
  · left; exact hk

/-- Claim C20: in a 3-D build without FIFO whose rules of a class that does not switch to
`RED_CLASS`, and the rules `COPY` and `NO_REFINEMENT`, have no side node, when `CloseGrid`
returns a non-negative value, a hexahedron, prism or pyramid of the level with
`REFINECLASS = GREEN_CLASS` and `MARKCLASS = GREEN_CLASS` has `USED = 0` if and only if no
edge of it changes mid-node existence and no neighbour's side node on a shared face
appears or disappears between the neighbour's rules `REFINE` and `MARK`; otherwise
`USED = 1`. -/
theorem CloseGrid_green_skip (env : Env) (fuel : Nat) (s : Mesh) (cnt : Int) (s' : Mesh)
    (e : Nat) (h : CloseGrid env fuel s = .ok (cnt, s')) (hcnt : 0 ≤ cnt)
    (hdim : env.DIM = 3) (hf : env.fifoFlag = 0) (htab : NoSideNodes env)
    (he : OnLevel s e) (hng : NEWGREEN s' e)
    (hrc : s'.REFINECLASS e = CLASS.GREEN_CLASS) (hmc : s'.MARKCLASS e = CLASS.GREEN_CLASS) :
    (s'.USED e = 0 ↔
      (∀ j, j < EDGES_OF_ELEM env s' e → ¬ EdgeNodeChange env s' e j) ∧
      (∀ i, i < SIDES_OF_ELEM env s' e → ¬ SideNodeChange env s' e i)) ∧
    (s'.USED e = 0 ∨ s'.USED e = 1) := by
  obtain ⟨s2, s3, x4, s5, h3, h4, h6, hl3, hl5, f4, f5, f6, _⟩ :=
    CloseGrid_tail env fuel s cnt s' h hcnt hf
  -- the third loop sets the flag, the fourth and fifth keep it
  obtain ⟨f3, u3⟩ := CloseGrid_sidepattern_loop env fuel _ s2 s3 h3
  have hS3 : s3.SUCCE = s2.SUCCE := f3.side_field Mesh.SUCCE
  have hU4 : x4.1.USED = s3.USED := f4.rule_field Mesh.USED
  have hU5 : s5.USED = x4.1.USED := f5.add_field Mesh.USED
  have he3 : OnList s3.SUCCE s2.FIRSTELEMENT e := (hl3 e).2 he
  have hu5 : s5.USED e = 1 := by
    rw [hU5, hU4]; exact u3 e (by rw [← hS3]; exact he3)
  -- the round of the element in the sixth loop
  have hlink : ∀ e' (a b : Mesh), CloseGrid_green env e' a = .next b →
      (fun y : Mesh => y.SUCCE) b = (fun y : Mesh => y.SUCCE) a := by
    intro e' a b hb
    exact (CloseGrid_green_frame env e' a b hb).green_field Mesh.SUCCE
  obtain ⟨_, _, hrec⟩ := forElements_rounds (fun y : Mesh => y.SUCCE) (CloseGrid_green env)
    hlink fuel s5.FIRSTELEMENT s5 s' h6
  have he5 : OnList s5.SUCCE s5.FIRSTELEMENT e := (hl5 e).2 he
  obtain ⟨x0, x1, r0, hb, r1⟩ := hrec e he5
  have hloc : ∀ a b : Mesh, Rounds (CloseGrid_green env)
      (fun e' => e' ≠ e ∧ OnList s5.SUCCE s5.FIRSTELEMENT e') a b →
      b.USED e = a.USED e ∧ b.MARKCLASS e = a.MARKCLASS e := by
    intro a b hr
    refine Rounds.frame (fun a b : Mesh => b.USED e = a.USED e ∧
      b.MARKCLASS e = a.MARKCLASS e) ?_ ?_ ?_ hr
    · intro a; exact ⟨rfl, rfl⟩
    · intro a b c h1 h2; exact ⟨h2.1.trans h1.1, h2.2.trans h1.2⟩
    · intro e' a b hP hb'
      have hl := CloseGrid_green_local env e' a b hb' e (fun hk => hP.1 hk.symm)
      exact ⟨hl.1, hl.2.2.2⟩
  have m0 : GreenMarks env (fun e' => OnList s5.SUCCE s5.FIRSTELEMENT e') s5 x0 :=
    GreenMarks.of_rounds (r0.weaken (fun _ hP => hP.2))
  have mb : GreenMarks env (fun e' => OnList s5.SUCCE s5.FIRSTELEMENT e') x0 x1 :=
    CloseGrid_green_step env _ e x0 x1 he5 hb
  have m1 : GreenMarks env (fun e' => OnList s5.SUCCE s5.FIRSTELEMENT e') x1 s' :=
    GreenMarks.of_rounds (r1.weaken (fun _ hP => hP.2))
  have m01 := m0.gm_trans mb
  obtain ⟨l0u, _⟩ := hloc s5 x0 r0
  obtain ⟨l1u, l1c⟩ := hloc x1 s' r1
  have g0 : GreenFrame x0 s' := mb.1.green_trans m1.1
  have hT0 : s'.TAG = x0.TAG := g0.green_field Mesh.TAG
  have hT1 : s'.TAG = x1.TAG := m1.1.green_field Mesh.TAG
  have hN1 : s'.NBELEM = x1.NBELEM := m1.1.green_field Mesh.NBELEM
  have hR1 : s'.REFINE = x1.REFINE := m1.1.green_field Mesh.REFINE
  have hRC0 : s'.REFINECLASS = x0.REFINECLASS := g0.green_field Mesh.REFINECLASS
  have hA0 : s'.ADDPATTERN = x0.ADDPATTERN := g0.green_field Mesh.ADDPATTERN
  have hMd0 : s'.MIDNODE = x0.MIDNODE := g0.green_field Mesh.MIDNODE
  have hT5 : s'.TAG = s5.TAG := f6.green_field Mesh.TAG
  have hc1 : x1.MARKCLASS e = CLASS.GREEN_CLASS := by rw [← l1c]; exact hmc
  have hred0 : x0.MARKCLASS e ≠ CLASS.RED_CLASS := by
    intro hh
    have := (mb.2.1 e).2 hh
    rw [hc1] at this
    exact absurd this (by decide)
  have htag0 : x0.TAG e ≠ TAG.TETRAHEDRON := by
    rw [← hT0]
    rcases hng with hk | hk | hk <;> rw [hk] <;> decide
  obtain ⟨hug, hused⟩ := CloseGrid_green_round env hdim e x0 x1 hb hred0 htag0
  have hrc0 : x0.REFINECLASS e = CLASS.GREEN_CLASS := by rw [← hRC0]; exact hrc
  have hu0 : x0.USED e = 1 := by rw [l0u]; exact hu5
  -- the side nodes of the neighbours at the end are those of the round
  have hnode : ∀ nb k, EDGES_OF_ELEM env s' nb ≤ k →
      env.NODE_OF_RULE (s'.TAG nb) (x1.MARK nb) k =
        env.NODE_OF_RULE (s'.TAG nb) (s'.MARK nb) k := by
    intro nb k hk
    rcases m1.2.2 nb with hsame | ⟨hcopy, hr1, hon⟩
    · rw [hsame]
    · have hk0 : (env.element_descriptors (s'.TAG nb)).edges_of_elem ≤ k := hk
      rw [hcopy, htab.2.1 _ k hk0]
      rcases m01.2.2 nb with hsame | ⟨hcopy1, _, _⟩
      · have hr5 : s5.MARKCLASS nb ≠ CLASS.RED_CLASS := fun hh => hr1 ((m01.2.1 nb).2 hh)
        have hon3 : OnList s3.SUCCE s2.FIRSTELEMENT nb := (hl3 nb).2 ((hl5 nb).1 hon)
        have hk5 : EDGES_OF_ELEM env s5 nb ≤ k := by
          unfold EDGES_OF_ELEM; rw [← hT5]; exact hk0
        rw [hsame, hT5]
        exact CloseGrid_side_free env hf htab fuel _ s3 x4 s5 h4 f5 nb hon3 hr5 k hk5
      · rw [hcopy1, htab.2.1 _ k hk0]
  have hsc : ∀ i, SideNodeChange env x1 e i ↔ SideNodeChange env s' e i := fun i =>
    SideNodeChange_congr env hN1.symm hT1.symm hR1.symm e i
      (hnode _ _ (Nat.le_add_right _ _))
  have hedges : EDGES_OF_ELEM env x0 e = EDGES_OF_ELEM env s' e := by
    unfold EDGES_OF_ELEM; rw [hT0]
  have hsides : SIDES_OF_ELEM env x0 e = SIDES_OF_ELEM env s' e := by
    unfold SIDES_OF_ELEM; rw [hT0]
  have hed : ∀ j, edgeOf env x0 e j = edgeOf env s' e j := fun j =>
    (g0.gr_edgeOf_eq env e j).symm
  have hjoin : x1.UPDATE_GREEN e = 0 ↔
      (∀ j, j < EDGES_OF_ELEM env s' e → ¬ EdgeNodeChange env s' e j) ∧
      (∀ i, i < SIDES_OF_ELEM env s' e → ¬ SideNodeChange env s' e i) := by
    rw [hug, hedges, hsides]
    constructor
    · intro ⟨h1, h2⟩
      refine ⟨fun j hj hc => h1 j hj ?_, fun i hi hc => h2 i hi ((hsc i).2 hc)⟩
      unfold EdgeNodeChange at hc
      rw [hed, ← hA0, ← hMd0]
      rcases hc with hc | hc
      · exact Or.inl hc
      · exact Or.inr ⟨by rw [hc.1]; decide, hc.2⟩
    · intro ⟨h1, h2⟩
      refine ⟨fun j hj hc => h1 j hj ?_, fun i hi hc => h2 i hi ((hsc i).1 hc)⟩
      unfold EdgeNodeChange
      rw [hed, ← hA0, ← hMd0] at hc
      rcases hc with hc | hc
      · exact Or.inl hc
      · rcases CloseGrid_addpattern_bit env fuel s cnt s' h hcnt e he j hj with hb0 | hb1
        · exact absurd hb0 hc.1
        · exact Or.inr ⟨hb1, hc.2⟩
  rw [l1u, hused, ← hjoin]
  by_cases hz : x1.UPDATE_GREEN e = 0
  · rw [if_pos ⟨hrc0, hc1, hz⟩]
    exact ⟨⟨fun _ => hz, fun _ => rfl⟩, Or.inl rfl⟩
  · rw [if_neg (fun hh => hz hh.2.2), hu0]
    exact ⟨⟨fun hh => absurd hh (by decide), fun hh => absurd hh hz⟩, Or.inr rfl⟩

/-! ## `CloseGrid` on two pyramids with a common edge -/

theorem meshTwoPyramids_level (e : Nat) (he : e = 1 ∨ e = 2) : OnLevel meshTwoPyramids e := by
  have h2 : OnList meshTwoPyramids.SUCCE 2 2 := OnList.head 2 (by decide)
  rcases he with rfl | rfl
  · exact OnList.head 1 (by decide)
  · exact OnList.tail 1 2 (by decide) h2

theorem envPyramid3D_tables : NoSideNodes envPyramid3D := by
  have hk : ∀ (m : Int) (k : Nat), 8 ≤ k →
      (if (m = 2 ∧ k = 0) ∨ (m = 3 ∧ k = 4) then 1 else 0) = 0 := by
    intro m k hk
    rw [if_neg]
    rintro (⟨_, h0⟩ | ⟨_, h4⟩) <;> omega
  exact ⟨fun _ m k _ h => hk m k h, fun _ k h => hk 1 k h, fun _ k h => hk 0 k h⟩

/-- Claim C20 at an example: on `meshTwoPyramids` the call of `CloseGrid` returns 2. The
green pyramid 2 ends green with `USED = 0`: its edge 201, which the red pyramid 1 bisects,
has a mid node already, no other edge gets one, and it has no neighbour over a side. -/
theorem CloseGrid_green_skip_witness :
    CloseGrid envPyramid3D 3 meshTwoPyramids = .ok (2, meshTwoPyramidsClosed) ∧
      envPyramid3D.DIM = 3 ∧ envPyramid3D.fifoFlag = 0 ∧ NoSideNodes envPyramid3D ∧
      OnLevel meshTwoPyramids 2 ∧ NEWGREEN meshTwoPyramidsClosed 2 ∧
      meshTwoPyramidsClosed.REFINECLASS 2 = CLASS.GREEN_CLASS ∧
      meshTwoPyramidsClosed.MARKCLASS 2 = CLASS.GREEN_CLASS ∧
      meshTwoPyramidsClosed.USED 2 = 0 ∧
      ((meshTwoPyramidsClosed.USED 2 = 0 ↔
        (∀ j, j < EDGES_OF_ELEM envPyramid3D meshTwoPyramidsClosed 2 →
          ¬ EdgeNodeChange envPyramid3D meshTwoPyramidsClosed 2 j) ∧
        (∀ i, i < SIDES_OF_ELEM envPyramid3D meshTwoPyramidsClosed 2 →
          ¬ SideNodeChange envPyramid3D meshTwoPyramidsClosed 2 i)) ∧
      (meshTwoPyramidsClosed.USED 2 = 0 ∨ meshTwoPyramidsClosed.USED 2 = 1)) :=
  ⟨rfl, rfl, rfl, envPyramid3D_tables, meshTwoPyramids_level 2 (by decide), by decide, rfl,
    rfl, rfl,
    CloseGrid_green_skip envPyramid3D 3 meshTwoPyramids 2 meshTwoPyramidsClosed 2 rfl
      (by decide) rfl rfl envPyramid3D_tables (meshTwoPyramids_level 2 (by decide))
      (by decide) rfl rfl⟩

/-! ## Loops over an element list: more budget, and the empty list -/

theorem forElements_more {σ : Type} (link : σ → Nat → Nat) (body : Nat → σ → LoopRes σ) :
    ∀ (fuel e : Nat) (x y : σ), forElements link body fuel e x = .next y →
      ∀ k, forElements link body (k + fuel) e x = .next y := by
  intro fuel
  induction fuel with
  | zero =>
    intro e x y h k
    unfold forElements at h
    split at h
    · rename_i he
      subst he
      cases k with
      | zero => unfold forElements; exact h
      | succ k => unfold forElements; rw [if_pos rfl]; exact h
    · contradiction
  | succ fuel ih =>
    intro e x y h k
    show forElements link body ((k + fuel) + 1) e x = .next y
    unfold forElements at h ⊢
    split at h
    · rename_i he
      rw [if_pos he]; exact h
    · rename_i he
      rw [if_neg he]
      cases hb : body e x with
      | next z =>
        rw [hb] at h
        exact ih _ _ _ h k
      | ret c z => rw [hb] at h; contradiction
      | stop r => rw [hb] at h; contradiction

theorem forElements_null {σ : Type} (link : σ → Nat → Nat) (body : Nat → σ → LoopRes σ)
    (fuel : Nat) (x : σ) : forElements link body fuel 0 x = .next x := by
  cases fuel with
  | zero => unfold forElements; rfl
  | succ k => unfold forElements; rfl

/-! ## Allocation failures -/

theorem forLoop_ret_at {σ : Type} (body : Nat → σ → LoopRes σ) :
    ∀ (i j : Nat) (x0 x : σ) (k : Nat) (c : Int) (y : σ),
      forLoop body i j x0 = .next x → body (j + i) x = .ret c y →
      forLoop body (i + (k + 1)) j x0 = .ret c y := by
  intro i
  induction i with
  | zero =>
    intro j x0 x k c y h hb
    unfold forLoop at h
    simp only [LoopRes.next.injEq] at h
    subst h
    rw [Nat.zero_add]
    unfold forLoop
    rw [Nat.add_zero] at hb
    rw [hb]
  | succ i ih =>
    intro j x0 x k c y h hb
    unfold forLoop at h
    have e1 : i + 1 + (k + 1) = (i + (k + 1)) + 1 := by omega
    rw [e1]
    unfold forLoop
    cases hb0 : body j x0 with
    | next y1 =>
      rw [hb0] at h
      dsimp only at h ⊢
      exact ih (j + 1) y1 x k c y h (by rw [show j + 1 + i = j + (i + 1) by omega]; exact hb)
    | ret c1 y1 => rw [hb0] at h; contradiction
    | stop r => rw [hb0] at h; contradiction

/-- A round that is reached and returns ends the loop with its return code. -/
theorem ReachesRound.ret_loop {σ : Type} {body : Nat → σ → LoopRes σ} {n : Nat} {x0 : σ}
    {i : Nat} {x : σ} (h : ReachesRound body n x0 i x) {c : Int} {y : σ}
    (hb : body i x = .ret c y) : forLoop body n 0 x0 = .ret c y := by
  obtain ⟨hi, hf⟩ := h
  have hn : n = i + ((n - i - 1) + 1) := by omega
  rw [hn]
  exact forLoop_ret_at body i 0 x0 x _ c y hf (by rw [Nat.zero_add]; exact hb)

/-- A round for an element that is reached and returns ends the loop over the list with
its return code, once the budget of rounds suffices. -/
theorem ReachesElement.ret_list {σ : Type} {link : σ → Nat → Nat}
    {body : Nat → σ → LoopRes σ} {e0 : Nat} {x0 : σ} {e : Nat} {x : σ}
    (h : ReachesElement link body e0 x0 e x) (he : e ≠ 0) {c : Int} {y : σ}
    (hb : body e x = .ret c y) :
    ∃ n, ∀ fuel, n ≤ fuel → forElements link body fuel e0 x0 = .ret c y := by
  induction h with
  | here e x =>
    refine ⟨1, fun fuel hf => ?_⟩
    obtain ⟨k, rfl⟩ : ∃ k, fuel = k + 1 := ⟨fuel - 1, by omega⟩
    unfold forElements
    rw [if_neg he, hb]
  | step e0 x0 x1 e x h0 hb0 _ ih =>
    obtain ⟨n, hn⟩ := ih he hb
    refine ⟨n + 1, fun fuel hf => ?_⟩
    obtain ⟨k, rfl⟩ : ∃ k, fuel = k + 1 := ⟨fuel - 1, by omega⟩
    unfold forElements
    rw [if_neg h0, hb0]
    exact hn k (by omega)

theorem UpdateContext_corner_null (e i : Nat) (x : Mesh × Context)
    (h0 : x.1.SONNODE (x.1.CORNER e i) = 0)
    (hnull : (CreateSonNode x.1 (x.1.CORNER e i)).1 = 0) :
    ∃ y, UpdateContext_corner e i x = .ret GM_FATAL y := by
  unfold UpdateContext_corner
  dsimp only
  rw [if_pos h0, if_pos (by rw [upd_same]; exact hnull)]
  exact ⟨_, rfl⟩

theorem UpdateContext_edge_null (env : Env) (e : Nat) (Mark : Int) (i : Nat)
    (x : Mesh × Context) (ctx1 : Context)
    (hd : UpdateContext_edge_decide env e Mark i x = .ok (true, ctx1))
    (hslot : ctx1 (CORNERS_OF_ELEM env x.1 e + i) = 0) (hedge : edgeOf env x.1 e i ≠ 0)
    (hmid : x.1.MIDNODE (edgeOf env x.1 e i) = 0)
    (hnull : (CreateMidNode env x.1 e i).1 = 0) :
    ∃ y, UpdateContext_edge env e Mark i x = .ret GM_FATAL y := by
  unfold UpdateContext_edge
  rw [hd]
  dsimp only
  unfold UpdateContext_edge_node
  dsimp only
  rw [if_neg (not_not.mpr hslot), if_neg hedge, if_pos (by rw [upd_same]; exact hmid),
    if_pos hnull]
  exact ⟨_, rfl⟩

theorem UpdateContext_side_null (env : Env) (e : Nat) (Mark : Int) (i : Nat)
    (x : Mesh × Context) (h3 : CORNERS_OF_SIDE env x.1 e i ≠ 3)
    (hd : UpdateContext_side_decide env e Mark i x.1 = .ok true)
    (hslot : UpdateContext_side_found env e i x
      (CORNERS_OF_ELEM env x.1 e + EDGES_OF_ELEM env x.1 e + i) = 0)
    (hnull : (CreateSideNode x.1 e i).1 = 0) :
    ∃ y, UpdateContext_side env e Mark i x = .ret GM_FATAL y := by
  unfold UpdateContext_side
  rw [if_neg h3, hd]
  dsimp only
  unfold UpdateContext_side_node
  dsimp only
  have hslot' := hslot
  unfold UpdateContext_side_found at hslot'
  dsimp only at hslot'
  rw [if_pos hslot', if_pos hnull]
  exact ⟨_, rfl⟩

theorem UpdateContext_center_null (env : Env) (e : Nat) (Mark : Int) (x : Mesh × Context)
    (hc : GREEN_BY_CASES env x.1 e ∨
      env.NODE_OF_RULE (x.1.TAG e) Mark (CENTER_NODE_INDEX env x.1 e) ≠ 0)
    (hnull : (CreateCenterNode x.1 e).1 = 0) :
    (UpdateContext_center env e Mark x).1 = GM_FATAL := by
  unfold UpdateContext_center
  dsimp only
  rw [if_pos hc, if_pos hnull]

/-- A node allocator that returns `NULL` while `UpdateContext` builds the context makes
`UpdateContext` return `GM_FATAL`. -/
theorem UpdateContext_alloc_fails (env : Env) (s : Mesh) (e : Nat)
    (h : NodeAllocFails env s e) :
    ∃ s' ctx, UpdateContext env s e = .ok (GM_FATAL, s', ctx) := by
  obtain ⟨hmark, hcase⟩ := h
  unfold UpdateContext
  dsimp only
  rw [if_neg hmark]
  rcases hcase with ⟨i, x, hr, h0, hnull⟩ | ⟨x1, h1, hcase⟩
  · obtain ⟨y, hy⟩ := UpdateContext_corner_null e i x h0 hnull
    rw [hr.ret_loop hy]
    exact ⟨_, _, rfl⟩
  · rw [h1]
    dsimp only
    rcases hcase with ⟨i, x, ctx1, hr, hd, hslot, hedge, hmid, hnull⟩ | ⟨x2, h2, hcase⟩
    · obtain ⟨y, hy⟩ := UpdateContext_edge_null env e _ i x ctx1 hd hslot hedge hmid hnull
      rw [hr.ret_loop hy]
      exact ⟨_, _, rfl⟩
    · rw [h2]
      dsimp only
      rcases hcase with ⟨hdim, i, x, hr, h3, hd, hslot, hnull⟩ | ⟨x3, h3, hc, hnull⟩
      · obtain ⟨y, hy⟩ := UpdateContext_side_null env e _ i x h3 hd hslot hnull
        rw [if_pos hdim, hr.ret_loop hy]
        exact ⟨_, _, rfl⟩
      · rw [h3]
        dsimp only
        have hk := UpdateContext_center_null env e _ x3 hc hnull
        refine ⟨(UpdateContext_center env e (s.MARK e) x3).2.1,
          (UpdateContext_center env e (s.MARK e) x3).2.2, ?_⟩
        rw [← hk]

/-! ### What `UnrefineElement` writes -/

theorem forBound_rel {σ : Type} (bound : σ → Nat) (body : Nat → σ → LoopRes σ) (I : σ → Prop)
    (hn : ∀ i x y, I x → body i x = .next y → I y)
    (hr : ∀ i x c y, I x → body i x = .ret c y → I y) :
    ∀ (fuel i : Nat) (x : σ), I x →
      (∀ y, forBound bound body fuel i x = .next y → I y) ∧
      (∀ c y, forBound bound body fuel i x = .ret c y → I y) := by
  intro fuel
  induction fuel with
  | zero =>
    intro i x hx
    unfold forBound
    constructor
    · intro y h
      split at h
      · contradiction
      · simp only [LoopRes.next.injEq] at h; subst h; exact hx
    · intro c y h
      split at h <;> contradiction
  | succ k ih =>
    intro i x hx
    unfold forBound
    constructor
    · intro y h
      split at h
      · cases hb : body i x with
        | next z => rw [hb] at h; exact (ih (i + 1) z (hn i x z hx hb)).1 y h
        | ret c z => rw [hb] at h; contradiction
        | stop r => rw [hb] at h; contradiction
      · simp only [LoopRes.next.injEq] at h; subst h; exact hx
    · intro c y h
      split at h
      · cases hb : body i x with
        | next z => rw [hb] at h; exact (ih (i + 1) z (hn i x z hx hb)).2 c y h
        | ret c1 z =>
          rw [hb] at h
          simp only [LoopRes.ret.injEq] at h
          obtain ⟨_, rfl⟩ := h
          exact hr i x c1 z hx hb
        | stop r => rw [hb] at h; contradiction
      · contradiction

theorem UnrefineFrame.un_refl (s : Mesh) : UnrefineFrame s s := rfl

theorem UnrefineFrame.un_trans {s s' s'' : Mesh} (h1 : UnrefineFrame s s')
    (h2 : UnrefineFrame s' s'') : UnrefineFrame s s'' := by
  unfold UnrefineFrame at h1 h2 ⊢
  rw [h2]
  rw [h1]

theorem UnrefineFrame.un_field {α : Type} (f : Mesh → α) {s s' : Mesh}
    (h : UnrefineFrame s s') :
    f s' = f { s with MARK := s'.MARK, NSONS := s'.NSONS, SON := s'.SON,
                      trace := s'.trace } :=
  congrArg f (show s' = _ from h)

/-- A call of `UnrefineElement` that comes back has written `MARK`, `NSONS`, `SON` and the
history only. -/
theorem UnrefineElement_frame (env : Env) :
    ∀ (fuel : Nat) (s : Mesh) (g e : Nat) (p : Int × Mesh),
      UnrefineElement env fuel s g e = .ok p → UnrefineFrame s p.2 := by
  intro fuel
  induction fuel with
  | zero => intro s g e p h; unfold UnrefineElement at h; contradiction
  | succ k ih =>
    intro s g e p h
    unfold UnrefineElement at h
    split at h
    · simp only [Except.ok.injEq] at h; subst h; exact UnrefineFrame.un_refl s
    · split at h
      · contradiction
      · rename_i gs hgs
        split at h
        · simp only [Except.ok.injEq] at h; subst h; exact UnrefineFrame.un_refl s
        · have hson : ∀ i x y, UnrefineFrame s x →
              (UnrefineElement_son env
                (fun y theSon => UnrefineElement env k y (y.UPGRID_of g) theSon) gs.2 i x
                = .next y → UnrefineFrame s y) ∧
              (∀ c, UnrefineElement_son env
                (fun y theSon => UnrefineElement env k y (y.UPGRID_of g) theSon) gs.2 i x
                = .ret c y → UnrefineFrame s y) := by
            intro i x y hx
            unfold UnrefineElement_son SETMARK
            dsimp only
            constructor
            · intro hb
              split at hb
              · split at hb
                · contradiction
                · rename_i q hq
                  split at hb
                  · contradiction
                  · simp only [LoopRes.next.injEq] at hb
                    subst hb
                    have f0 : UnrefineFrame x
                        { x with MARK := upd x.MARK (gs.2 i) env.NO_REFINEMENT } := rfl
                    exact (hx.un_trans f0).un_trans (ih _ _ _ q hq)
              · simp only [LoopRes.next.injEq] at hb
                subst hb
                exact hx.un_trans rfl
            · intro c hb
              split at hb
              · split at hb
                · contradiction
                · rename_i q hq
                  split at hb
                  · simp only [LoopRes.ret.injEq] at hb
                    obtain ⟨_, rfl⟩ := hb
                    have f0 : UnrefineFrame x
                        { x with MARK := upd x.MARK (gs.2 i) env.NO_REFINEMENT } := rfl
                    exact (hx.un_trans f0).un_trans (ih _ _ _ q hq)
                  · contradiction
              · contradiction
          have l1 := forBound_rel (fun y : Mesh => y.NSONS e)
            (UnrefineElement_son env
              (fun y theSon => UnrefineElement env k y (y.UPGRID_of g) theSon) gs.2)
            (UnrefineFrame s) (fun i x y hx hb => (hson i x y hx).1 hb)
            (fun i x c y hx hb => (hson i x y hx).2 c hb) (k + 1) 0 s (UnrefineFrame.un_refl s)
          split at h
          · contradiction
          · rename_i c y h1
            simp only [Except.ok.injEq] at h; subst h
            exact l1.2 c y h1
          · rename_i s1 h1
            have f1 := l1.1 s1 h1
            have l2 := forBound_rel (fun y : Mesh => y.NSONS e)
              (UnrefineElement_connections gs.2) (UnrefineFrame s)
              (fun i x y hx hb => by
                unfold UnrefineElement_connections DisposeConnectionsInNeighborhood logCall at hb
                simp only [LoopRes.next.injEq] at hb
                subst hb
                exact hx.un_trans rfl)
              (fun i x c y hx hb => by
                unfold UnrefineElement_connections at hb
                contradiction) (k + 1) 0 s1 f1
            split at h
            · contradiction
            · rename_i c y h2
              simp only [Except.ok.injEq] at h; subst h
              exact l2.2 c y h2
            · rename_i s2 h2
              have f2 := l2.1 s2 h2
              have l3 := forBound_rel (fun y : Mesh => y.NSONS e)
                (UnrefineElement_dispose env gs.2) (UnrefineFrame s)
                (fun i x y hx hb => by
                  unfold UnrefineElement_dispose DisposeElement logCall at hb
                  dsimp only at hb
                  split at hb
                  · contradiction
                  · simp only [LoopRes.next.injEq] at hb
                    subst hb
                    exact hx.un_trans rfl)
                (fun i x c y hx hb => by
                  unfold UnrefineElement_dispose DisposeElement logCall at hb
                  dsimp only at hb
                  split at hb
                  · simp only [LoopRes.ret.injEq] at hb
                    obtain ⟨_, rfl⟩ := hb
                    exact hx.un_trans rfl
                  · contradiction) (k + 1) 0 s2 f2
              split at h
              · contradiction
              · rename_i c y h3
                simp only [Except.ok.injEq] at h; subst h
                exact l3.2 c y h3
              · rename_i s3 h3
                have f3 := l3.1 s3 h3
                simp only [Except.ok.injEq] at h; subst h
                exact f3.un_trans rfl

/-! ### `CreateElement` fails in `RefineElementRed` -/

theorem CreateElement_keeps (env : Env) (s : Mesh) (tag : TAG) (o : Bool) (nodes : Nat → Nat)
    (f e : Nat) (h : e ∉ s.elemPool) :
    (CreateElement env s tag o nodes f).2.REFINE e = s.REFINE e ∧
      e ∉ (CreateElement env s tag o nodes f).2.elemPool := by
  unfold CreateElement
  cases hp : s.elemPool with
  | nil =>
    dsimp only
    exact ⟨rfl, by show e ∉ s.elemPool; exact h⟩
  | cons e' rest =>
    dsimp only
    rw [hp] at h
    have hne : e ≠ e' := fun hk => h (by rw [hk]; exact List.mem_cons_self _ _)
    exact ⟨upd_other _ _ _ _ hne, fun hk => h (List.mem_cons_of_mem _ hk)⟩

theorem RefineElementRed_create_keeps (env : Env) (theElement : Nat) (tag : TAG) (rule : Int)
    (ctx : Nat → Nat) (e : Nat) (sn : Nat) (x y : RedState) (h : e ∉ x.1.elemPool)
    (hb : RefineElementRed_create env theElement tag rule ctx sn x = .next y) :
    y.1.REFINE e = x.1.REFINE e ∧ e ∉ y.1.elemPool := by
  unfold RefineElementRed_create at hb
  dsimp only at hb
  split at hb
  · contradiction
  · split at hb
    · contradiction
    · simp only [LoopRes.next.injEq] at hb
      subst hb
      exact CreateElement_keeps env x.1 _ _ _ theElement e h

/-- When `CreateElement` returns `NULL` in a round of the loop "create elements" that is
reached, `RefineElementRed` returns `GM_ERROR`; the flag `REFINE` of an element that is not
in the pool is as before. -/
theorem RefineElementRed_alloc_fails (env : Env) (s : Mesh) (e : Nat) (ctx : Nat → Nat)
    (h : ElemAllocFails env s e ctx) (hpool : e ∉ s.elemPool) :
    ∃ s', RefineElementRed env s e ctx = .ok (GM_ERROR, s') ∧ s'.REFINE e = s.REFINE e := by
  obtain ⟨hmark, sn, x, hr, hassert, hnull⟩ := h
  have hinv := forLoop_next_rel (RefineElementRed_create env e (s.TAG e) (s.MARK e) ctx)
    (fun z : RedState => z.1.REFINE e = s.REFINE e ∧ e ∉ z.1.elemPool)
    (fun i a b ha hb => by
      obtain ⟨k1, k2⟩ := RefineElementRed_create_keeps env e _ _ ctx e i a b ha.2 hb
      exact ⟨k1.trans ha.1, k2⟩)
    sn 0 (s, fun _ => 0) x ⟨rfl, hpool⟩ hr.2
  have hb : RefineElementRed_create env e (s.TAG e) (s.MARK e) ctx sn x =
      .ret GM_ERROR ((CreateElement env x.1 (env.SON_TAG_OF_RULE (s.TAG e) (s.MARK e) sn)
        (RefineElementRed_boundary env x.1 e (s.TAG e) (s.MARK e) sn)
        (fun i => ctx (env.SON_CORNER_OF_RULE (s.TAG e) (s.MARK e) sn i)) e).2, x.2) := by
    unfold RefineElementRed_create
    dsimp only
    rw [hassert, if_neg (by decide), if_pos hnull]
  refine ⟨(CreateElement env x.1 (env.SON_TAG_OF_RULE (s.TAG e) (s.MARK e) sn)
    (RefineElementRed_boundary env x.1 e (s.TAG e) (s.MARK e) sn)
    (fun i => ctx (env.SON_CORNER_OF_RULE (s.TAG e) (s.MARK e) sn i)) e).2, ?_, ?_⟩
  · unfold RefineElementRed
    rw [if_neg hmark]
    dsimp only
    rw [hr.ret_loop hb]
  · exact ((CreateElement_keeps env x.1 _ _ _ e e hinv.2).1).trans hinv.1

/-! ### `RefineGrid` reports an allocation failure -/

theorem UpdateContext_withCallees (env : Env) (fu : Nat) (s : Mesh) (e : Nat) :
    UpdateContext (withCallees env fu) s e = UpdateContext env s e := rfl

/-- A round of `RefineGrid` in which an allocation fails returns `GM_FATAL`, and the flag
`REFINE` of the element is as at the start of the round. -/
theorem RefineGrid_element_alloc_fails (env : Env) (fu : Nat) (x : Mesh) (e : Nat)
    (h : RoundAllocFails env fu x e) :
    ∃ s', RefineGrid_element (withCallees env fu) e x = .ret GM_FATAL s' ∧
      s'.REFINE e = x.REFINE e := by
  obtain ⟨hre, hh, p, hun, hcase⟩ := h
  have hfr := UnrefineElement_frame env fu _ _ _ _ hun
  have hp : p.REFINE = x.REFINE := hfr.un_field Mesh.REFINE
  have hun' : (withCallees env fu).UnrefineElement (logCall x (Event.UnrefineElement e)) e =
      .ok (0, p) := hun
  unfold RefineGrid_element
  rw [if_pos (show TO_REBUILD (withCallees env fu) x e from hre),
    if_neg (show ¬ ((withCallees env fu).hFlag = 0 ∧ x.MARKCLASS e ≠ CLASS.RED_CLASS) from hh)]
  unfold RefineGrid_rebuild
  rw [hun']
  dsimp only
  rw [if_neg (by decide), UpdateContext_withCallees]
  rcases hcase with hnode | ⟨q, ctx, hq, hmark, hclass, hpool, helem⟩
  · obtain ⟨s', ctx, hs'⟩ := UpdateContext_alloc_fails env _ e hnode
    have hst := (UpdateContext_spec env _ e _ _ _ hnode.1 hs').1.1
    rw [hs']
    dsimp only
    rw [if_pos (by decide)]
    refine ⟨s', rfl, ?_⟩
    have h8 : s'.REFINE = (logCall p (Event.UpdateContext e)).REFINE := hst.2.2.2.2.2.2.2.1
    rw [h8]
    show p.REFINE e = x.REFINE e
    rw [hp]
  · have hst := (UpdateContext_spec env _ e _ _ _
      (show (logCall p (Event.UpdateContext e)).MARK e ≠ env.NO_REFINEMENT from by
        have hm : q.MARK = (logCall p (Event.UpdateContext e)).MARK :=
          by
            by_cases hk : (logCall p (Event.UpdateContext e)).MARK e = env.NO_REFINEMENT
            · unfold UpdateContext at hq
              dsimp only at hq
              rw [if_pos hk] at hq
              simp only [Except.ok.injEq, Prod.mk.injEq] at hq
              rw [← hq.2.1]
            · exact (UpdateContext_spec env _ e _ _ _ hk hq).1.1.2.2.1
        rw [← hm]; exact hmark) hq).1.1
    have hqR : q.REFINE = (logCall p (Event.UpdateContext e)).REFINE := hst.2.2.2.2.2.2.2.1
    obtain ⟨s', hs', hrf⟩ := RefineElementRed_alloc_fails env
      (logCall q (Event.RefineElementRed e)) e ctx helem hpool
    have hred : RefineGrid_red (withCallees env fu) e ctx q = .ret GM_FATAL s' := by
      unfold RefineGrid_red
      have hcall : (withCallees env fu).RefineElementRed
          (logCall q (Event.RefineElementRed e)) e ctx = .ok (GM_ERROR, s') := hs'
      rw [hcall]
      dsimp only
      rw [if_pos (by decide)]
    have hrefine : RefineGrid_refine (withCallees env fu) e ctx q = .ret GM_FATAL s' := by
      unfold RefineGrid_refine
      rw [if_pos (show q.MARK e ≠ (withCallees env fu).NO_REFINEMENT from hmark)]
      rcases hclass with hc | hc | ⟨hc, hng⟩
      · rw [hc]; exact hred
      · rw [hc]; exact hred
      · rw [hc]
        dsimp only
        rw [if_neg (fun hk => hng ⟨hk.1, hk.2.1⟩)]
        exact hred
    rw [hq]
    dsimp only
    rw [if_neg (by decide), hrefine]
    refine ⟨s', rfl, ?_⟩
    rw [hrf]
    show q.REFINE e = x.REFINE e
    rw [hqR]
    show p.REFINE e = x.REFINE e
    rw [hp]

/-- Claim C14: a node allocator (`CreateSonNode`, `CreateMidNode`, `CreateSideNode`,
`CreateCenterNode`) that returns `NULL` while `UpdateContext` builds the context of an
element makes `UpdateContext` return `GM_FATAL`; and when, in a round of `RefineGrid` that
is reached, that happens or `CreateElement` returns `NULL` in `RefineElementRed`, then
`RefineGrid` returns `GM_FATAL`, once its budget of rounds suffices, and the flag `REFINE`
of the element is as at the start of the round: it has not been set to `MARK`. -/
theorem RefineGrid_allocation_failure (env : Env) (fu : Nat) (s : Mesh) (e : Nat) (x : Mesh) :
    (NodeAllocFails env x e → ∃ s' ctx, UpdateContext env x e = .ok (GM_FATAL, s', ctx)) ∧
    (s.UPGRID ≠ 0 → e ≠ 0 →
      ReachesElement (fun y => y.SUCCE) (RefineGrid_element (withCallees env fu))
        s.FIRSTELEMENT { s with GRID_CHANGED := false } e x →
      RoundAllocFails env fu x e →
      ∃ n, ∀ fuel, n ≤ fuel → ∃ s', RefineGrid (withCallees env fu) fuel s =
        .ok (GM_FATAL, s') ∧ s'.REFINE e = x.REFINE e) := by
  refine ⟨UpdateContext_alloc_fails env x e, fun hup he hreach hfail => ?_⟩
  obtain ⟨s', hb, hrf⟩ := RefineGrid_element_alloc_fails env fu x e hfail
  obtain ⟨n, hn⟩ := hreach.ret_list he hb
  refine ⟨n, fun fuel hf => ⟨s', ?_, hrf⟩⟩
  unfold RefineGrid
  rw [if_neg hup]
  dsimp only
  rw [hn fuel hf]

theorem meshNoNodes_fails : NodeAllocFails envTriangleProc meshNoNodes 1 :=
  ⟨by decide, Or.inl ⟨0, (meshNoNodes, fun _ => 0), ⟨by decide, rfl⟩, rfl, rfl⟩⟩

theorem meshNoElements_fails : RoundAllocFails envTriangleProc 2 meshNoElements0 1 :=
  ⟨by decide, by decide, logCall meshNoElements0 (Event.UnrefineElement 1), rfl,
    Or.inr ⟨meshNoElements2, contextNoElements, rfl, by decide, Or.inl rfl, by decide,
      ⟨by decide, 0, (logCall meshNoElements2 (Event.RefineElementRed 1), fun _ => 0),
        ⟨by decide, rfl⟩, rfl, rfl⟩⟩⟩

/-- Claim C14 at an example: without a node in the pool `UpdateContext` returns `GM_FATAL`
for the marked triangle 1, and without an element in the pool `RefineGrid` returns
`GM_FATAL` and leaves `REFINE` of triangle 1 at `NO_REFINEMENT`. -/
theorem RefineGrid_allocation_failure_witness :
    NodeAllocFails envTriangleProc meshNoNodes 1 ∧
    (∃ s' ctx, UpdateContext envTriangleProc meshNoNodes 1 = .ok (GM_FATAL, s', ctx)) ∧
    RoundAllocFails envTriangleProc 2 meshNoElements0 1 ∧
    (∃ n, ∀ fuel, n ≤ fuel → ∃ s', RefineGrid envTriangles fuel meshNoElements =
      .ok (GM_FATAL, s') ∧ s'.REFINE 1 = 0) :=
  ⟨meshNoNodes_fails,
    (RefineGrid_allocation_failure envTriangleProc 2 meshNoNodes 1 meshNoNodes).1
      meshNoNodes_fails,
    meshNoElements_fails,
    (RefineGrid_allocation_failure envTriangleProc 2 meshNoElements 1 meshNoElements0).2
      (by decide) (by decide) (ReachesElement.here 1 meshNoElements0) meshNoElements_fails⟩

/-! ## The sons `RefineElementRed` creates -/

theorem CreateFrame.cr_refl (s : Mesh) : CreateFrame s s := rfl

theorem CreateFrame.cr_trans {s s' s'' : Mesh} (h1 : CreateFrame s s')
    (h2 : CreateFrame s' s'') : CreateFrame s s'' := by
  unfold CreateFrame at h1 h2 ⊢
  rw [h2]
  rw [h1]

theorem CreateFrame.cr_field {α : Type} (f : Mesh → α) {s s' : Mesh} (h : CreateFrame s s') :
    f s' = f { s with
      elemPool := s'.elemPool, TAG := s'.TAG, BEOBJ := s'.BEOBJ, CORNER := s'.CORNER,
      EFATHER := s'.EFATHER, NSONS := s'.NSONS, SON := s'.SON, NBELEM := s'.NBELEM,
      REFINE := s'.REFINE, MARK := s'.MARK, REFINECLASS := s'.REFINECLASS,
      MARKCLASS := s'.MARKCLASS, COARSEN := s'.COARSEN, USED := s'.USED, ECLASS := s'.ECLASS,
      trace := s'.trace } :=
  congrArg f (show s' = _ from h)

theorem KeepsElement.ke_refl (s : Mesh) (a : Nat) : KeepsElement s s a :=
  ⟨rfl, rfl, rfl, rfl, rfl, rfl, rfl, rfl, rfl, rfl, rfl⟩

theorem KeepsElement.ke_trans {s s' s'' : Mesh} {a : Nat} (h1 : KeepsElement s s' a)
    (h2 : KeepsElement s' s'' a) : KeepsElement s s'' a := by
  obtain ⟨a1, a2, a3, a4, a5, a6, a7, a8, a9, a10, a11⟩ := h1
  obtain ⟨b1, b2, b3, b4, b5, b6, b7, b8, b9, b10, b11⟩ := h2
  exact ⟨b1.trans a1, b2.trans a2, b3.trans a3, b4.trans a4, b5.trans a5, b6.trans a6,
    b7.trans a7, b8.trans a8, b9.trans a9, b10.trans a10, b11.trans a11⟩

/-- A call of `CreateElement` that returns an element: the element is the head of the
pool, and every other element is as before. -/
theorem CreateElement_some (env : Env) (s : Mesh) (tag : TAG) (o : Bool) (nodes : Nat → Nat)
    (f : Nat) (r : Nat × Mesh) (hr : CreateElement env s tag o nodes f = r) (h : r.1 ≠ 0) :
    ∃ rest, s.elemPool = r.1 :: rest ∧ r.2.elemPool = rest ∧ CreateFrame s r.2 ∧
      (∀ a, a ≠ r.1 → KeepsElement s r.2 a) ∧ r.2.ECLASS = s.ECLASS ∧
      r.2.EFATHER r.1 = f ∧ r.2.NSONS r.1 = 0 ∧ r.2.REFINE r.1 = env.NO_REFINEMENT ∧
      r.2.MARK r.1 = env.NO_REFINEMENT ∧ r.2.trace = s.trace ++ [Event.CreateElement f r.1] := by
  subst hr
  unfold CreateElement at h ⊢
  cases hp : s.elemPool with
  | nil => rw [hp] at h; exact absurd rfl h
  | cons e' rest =>
    dsimp only
    refine ⟨rest, rfl, rfl, rfl, fun a ha => ⟨?_, ?_, ?_, ?_, ?_, ?_, ?_, ?_, ?_, ?_, ?_⟩, rfl,
      upd_same _ _ _, upd_same _ _ _, upd_same _ _ _, upd_same _ _ _, rfl⟩
    all_goals first
      | exact upd_other _ _ _ _ ha
      | rfl

theorem drop_cons_facts {α : Type} (l : List α) (i : Nat) (a : α) (rest : List α)
    (h : l.drop i = a :: rest) (d : α) :
    i < l.length ∧ l.getD i d = a ∧ l.drop (i + 1) = rest ∧ l.take (i + 1) = l.take i ++ [a] ∧
      (l.Nodup → a ∉ l.take i) := by
  have hi : i < l.length := by
    by_contra hc
    rw [List.drop_of_length_le (by omega)] at h
    contradiction
  rw [List.drop_eq_getElem_cons hi] at h
  simp only [List.cons.injEq] at h
  obtain ⟨h1, h2⟩ := h
  refine ⟨hi, ?_, h2, ?_, ?_⟩
  · rw [List.getD_eq_getElem _ _ hi]; exact h1
  · rw [List.take_succ, List.getElem?_eq_getElem hi, h1]; rfl
  · intro hnd hm
    have h3 : (l.take i ++ l.drop i).Nodup := by rw [List.take_append_drop]; exact hnd
    rw [List.drop_eq_getElem_cons hi, h1] at h3
    have h4 := (List.nodup_append.1 h3).2.2
    exact h4 hm (List.mem_cons_self _ _)

theorem getD_mem_take {α : Type} (l : List α) (i j : Nat) (d : α) (hj : j < i)
    (hi : i ≤ l.length) : l.getD j d ∈ l.take i := by
  rw [List.getD_eq_getElem _ _ (by omega)]
  rw [List.mem_take_iff_getElem]
  exact ⟨j, by omega, rfl⟩

theorem NewSon.of_keeps {env : Env} {s s' : Mesh} {e : Nat} {c : CLASS} {son : Nat}
    (h : NewSon env s e c son) (hk : KeepsElement s s' son) : NewSon env s' e c son := by
  obtain ⟨h0, h1, h2, h3, h4, h5⟩ := h
  obtain ⟨_, k2, _, k4, _, _, k7, _, k9, k10, _⟩ := hk
  exact ⟨h0, k9.trans h1, k10.trans h2, k7.trans h3, k4.trans h4, k2.trans h5⟩

/-- One round of the loop "create elements". -/
theorem RefineElementRed_create_step (env : Env) (e : Nat) (tag : TAG) (rule : Int)
    (ctx : Nat → Nat) (s : Mesh) (hnd : s.elemPool.Nodup) (he : e ∉ s.elemPool)
    (i : Nat) (x y : RedState) (hI : CreatedSons env s e i x)
    (hb : RefineElementRed_create env e tag rule ctx i x = .next y) :
    CreatedSons env s e (i + 1) y := by
  obtain ⟨hF, hlen, hpool, hL, hK, hN, hT⟩ := hI
  unfold RefineElementRed_create at hb
  dsimp only at hb
  split at hb
  · contradiction
  · generalize hr : CreateElement env x.1 (env.SON_TAG_OF_RULE tag rule i)
      (RefineElementRed_boundary env x.1 e tag rule i)
      (fun k => ctx (env.SON_CORNER_OF_RULE tag rule i k)) e = r at hb
    split at hb
    · contradiction
    · rename_i h0
      simp only [LoopRes.next.injEq] at hb
      subst hb
      obtain ⟨rest, hp, hp2, cF, cK, cE, c1, c2, c3, c4, cT⟩ :=
        CreateElement_some env x.1 _ _ _ e r hr h0
      rw [hpool] at hp
      obtain ⟨d1, d2, d3, d4, d5⟩ := drop_cons_facts s.elemPool i r.1 rest hp 0
      have hin : r.1 ∈ s.elemPool := by
        rw [← d2, List.getD_eq_getElem _ _ d1]; exact List.getElem_mem _
      have her : e ≠ r.1 := fun hk => he (hk ▸ hin)
      have hmc : r.2.MARKCLASS e = s.MARKCLASS e :=
        ((cK e her).2.2.1).trans
          (hK e (fun hm => he (List.mem_of_mem_take hm))).2.2.1
      have kY : ∀ a, a ≠ r.1 → KeepsElement r.2
          { r.2 with ECLASS := upd r.2.ECLASS r.1 (r.2.MARKCLASS e) } a := fun a ha =>
        ⟨rfl, rfl, rfl, rfl, rfl, rfl, rfl, rfl, rfl, upd_other _ _ _ _ ha, rfl⟩
      refine ⟨?_, d1, ?_, ?_, ?_, ?_, ?_⟩
      · exact (hF.cr_trans cF).cr_trans rfl
      · show r.2.elemPool = _
        rw [hp2, d3]
      · intro j
        show upd x.2 i r.1 j = _
        by_cases hj : j = i
        · subst hj; rw [upd_same, if_pos (by omega), d2]
        · rw [upd_other _ _ _ _ hj, hL j]
          by_cases hlt : j < i
          · rw [if_pos hlt, if_pos (by omega)]
          · rw [if_neg hlt, if_neg (by omega)]
      · intro a ha
        rw [d4, List.mem_append, not_or] at ha
        have ha2 : a ≠ r.1 := fun hk => ha.2 (by rw [hk]; exact List.mem_singleton_self _)
        exact ((hK a ha.1).ke_trans (cK a ha2)).ke_trans (kY a ha2)
      · intro j hj
        by_cases hji : j = i
        · subst hji
          rw [d2]
          refine ⟨h0, c1, ?_, c2, c3, c4⟩
          show upd r.2.ECLASS r.1 (r.2.MARKCLASS e) r.1 = _
          rw [upd_same, hmc]
        · have hlt : j < i := by omega
          have hne : s.elemPool.getD j 0 ≠ r.1 := fun hk =>
            d5 hnd (hk ▸ getD_mem_take s.elemPool i j 0 hlt hlen)
          exact (hN j hlt).of_keeps ((cK _ hne).ke_trans (kY _ hne))
      · show r.2.trace = _
        rw [cT, hT, List.range_succ, List.map_append, List.append_assoc]
        simp only [List.map_cons, List.map_nil, d2]

/-- The loop "create elements" of `RefineElementRed` when it runs through. -/
theorem RefineElementRed_create_loop (env : Env) (e : Nat) (tag : TAG) (rule : Int)
    (ctx : Nat → Nat) (s : Mesh) (hnd : s.elemPool.Nodup) (he : e ∉ s.elemPool)
    (n : Nat) (x : RedState)
    (h : forLoop (RefineElementRed_create env e tag rule ctx) n 0 (s, fun _ => 0) = .next x) :
    CreatedSons env s e n x := by
  have h0 : CreatedSons env s e 0 (s, fun _ => 0) := by
    refine ⟨rfl, Nat.zero_le _, rfl, fun i => by simp, fun a _ => KeepsElement.ke_refl s a,
      fun i hi => absurd hi (Nat.not_lt_zero _), by simp⟩
  have := forLoop_next_inv (RefineElementRed_create env e tag rule ctx)
    (fun i z => CreatedSons env s e i z)
    (fun i a b ha hb => RefineElementRed_create_step env e tag rule ctx s hnd he i a b ha hb)
    n 0 (s, fun _ => 0) x h0 h
  simpa using this

/-! ## The loops of `RefineElementRed` that connect the sons -/

theorem NbFrame.nb_refl (s : Mesh) : NbFrame s s := rfl

theorem NbFrame.nb_trans {s s' s'' : Mesh} (h1 : NbFrame s s') (h2 : NbFrame s' s'') :
    NbFrame s s'' := by
  unfold NbFrame at h1 h2 ⊢
  rw [h2]
  rw [h1]

theorem NbFrame.nb_field {α : Type} (f : Mesh → α) {s s' : Mesh} (h : NbFrame s s') :
    f s' = f { s with NBELEM := s'.NBELEM } :=
  congrArg f (show s' = _ from h)

theorem wireSons_nbframe (env : Env) :
    ∀ (ps : List (COMPARE_RECORD × COMPARE_RECORD)) (s : Mesh),
      NbFrame s (wireSons env ps s).2 := by
  intro ps
  induction ps with
  | nil => intro s; exact rfl
  | cons p ps ih =>
    intro s
    obtain ⟨E, N⟩ := p
    unfold wireSons
    dsimp only
    split_ifs
    · exact rfl
    · have f1 : NbFrame s
          { s with NBELEM := upd2 (upd2 s.NBELEM E.elem E.side N.elem) N.elem N.side E.elem } :=
        rfl
      exact f1.nb_trans (ih _)

theorem Connect_Sons_nbframe (env : Env) (s : Mesh) (theElement side n : Nat)
    (L S : Nat → Nat) (p : Int × Mesh)
    (h : Connect_Sons_of_ElementSide env s theElement side n L S = .ok p) : NbFrame s p.2 := by
  unfold Connect_Sons_of_ElementSide at h
  split at h
  · contradiction
  · simp only [Except.ok.injEq] at h; subst h; exact rfl
  · simp only [Except.ok.injEq] at h; subst h; exact wireSons_nbframe env _ s

theorem RefineElementRed_sidevector_same (env : Env) (tag : TAG) (rule : Int) (L : Nat → Nat)
    (sn i side : Nat) (s : Mesh) :
    (∀ y, RefineElementRed_sidevector env tag rule L sn i side s = .next y → y = s) ∧
    (∀ c y, RefineElementRed_sidevector env tag rule L sn i side s = .ret c y → y = s) := by
  unfold RefineElementRed_sidevector
  dsimp only
  constructor
  · intro y h
    split_ifs at h <;> first
      | contradiction
      | (simp only [LoopRes.next.injEq] at h; exact h.symm)
  · intro c y h
    split_ifs at h <;> first
      | contradiction
      | (simp only [LoopRes.ret.injEq] at h; exact h.2.symm)

theorem RefineElementRed_connect_side_nbframe (env : Env) (tag : TAG) (rule : Int)
    (L : Nat → Nat) (sn i : Nat) (s : Mesh) :
    (∀ y, RefineElementRed_connect_side env tag rule L sn i s = .next y → NbFrame s y) ∧
    (∀ c y, RefineElementRed_connect_side env tag rule L sn i s = .ret c y → NbFrame s y) := by
  unfold RefineElementRed_connect_side
  dsimp only
  constructor
  · intro y h
    split_ifs at h
    · rw [(RefineElementRed_sidevector_same env tag rule L sn i _ _).1 y h]; exact rfl
    · simp only [LoopRes.next.injEq] at h; subst h; exact rfl
  · intro c y h
    split_ifs at h
    rw [(RefineElementRed_sidevector_same env tag rule L sn i _ _).2 c y h]; exact rfl

theorem RefineElementRed_connect_nbframe (env : Env) (tag : TAG) (rule : Int)
    (L : Nat → Nat) (sn : Nat) (s : Mesh) :
    (∀ y, RefineElementRed_connect env tag rule L sn s = .next y → NbFrame s y) ∧
    (∀ c y, RefineElementRed_connect env tag rule L sn s = .ret c y → NbFrame s y) := by
  unfold RefineElementRed_connect
  constructor
  · intro y h
    exact forLoop_next_rel _ (fun z => NbFrame s z)
      (fun i a b ha hb =>
        ha.nb_trans ((RefineElementRed_connect_side_nbframe env tag rule L sn i a).1 b hb))
      _ 0 s y (NbFrame.nb_refl s) h
  · intro c y h
    exact forLoop_ret_inv _ (fun _ z => NbFrame s z) (fun _ z => NbFrame s z)
      (fun i a b ha hb =>
        ha.nb_trans ((RefineElementRed_connect_side_nbframe env tag rule L sn i a).1 b hb))
      (fun i a c b ha hb =>
        ha.nb_trans ((RefineElementRed_connect_side_nbframe env tag rule L sn i a).2 c b hb))
      _ 0 s c y (NbFrame.nb_refl s) h

theorem RefineElementRed_side_nbframe (env : Env) (e n : Nat) (L : Nat → Nat) (i : Nat)
    (s : Mesh) :
    (∀ y, RefineElementRed_side env e n L i s = .next y → NbFrame s y) ∧
    (∀ c y, RefineElementRed_side env e n L i s = .ret c y → NbFrame s y) := by
  unfold RefineElementRed_side
  dsimp only
  constructor
  · intro y h
    split at h
    · contradiction
    · split at h
      · contradiction
      · split at h
        · contradiction
        · rename_i p hp
          split at h
          · contradiction
          · simp only [LoopRes.next.injEq] at h; subst h
            exact Connect_Sons_nbframe env s _ _ _ _ _ p hp
  · intro c y h
    split at h
    · contradiction
    · split at h
      · simp only [LoopRes.ret.injEq] at h; rw [← h.2]; exact rfl
      · split at h
        · contradiction
        · rename_i p hp
          split at h
          · simp only [LoopRes.ret.injEq] at h; rw [← h.2]
            exact Connect_Sons_nbframe env s _ _ _ _ _ p hp
          · contradiction

/-- A call of `RefineElementRed` for a marked element that returns `GM_OK`: the sons are
created from the pool, entered at the father, and connected. -/
theorem RefineElementRed_ok (env : Env) (s s1 : Mesh) (e : Nat) (ctx : Nat → Nat)
    (hmark : s.MARK e ≠ env.NO_REFINEMENT) (hnd : s.elemPool.Nodup) (he : e ∉ s.elemPool)
    (h : RefineElementRed env s e ctx = .ok (GM_OK, s1)) :
    ∃ x1, CreatedSons env s e (env.NSONS_OF_RULE (s.TAG e) (s.MARK e)) x1 ∧
      NbFrame (RefineElementRed_sons env e (env.NSONS_OF_RULE (s.TAG e) (s.MARK e)) x1) s1 := by
  unfold RefineElementRed at h
  rw [if_neg hmark] at h
  dsimp only at h
  cases hc : forLoop (RefineElementRed_create env e (s.TAG e) (s.MARK e) ctx)
      (env.NSONS_OF_RULE (s.TAG e) (s.MARK e)) 0 (s, fun _ => 0) with
  | stop r => rw [hc] at h; contradiction
  | ret c x =>
    rw [hc] at h
    simp only [Except.ok.injEq, Prod.mk.injEq] at h
    have hcode := forLoop_ret_code _ (fun c => c = GM_ERROR) (fun i a c b hb => by
      unfold RefineElementRed_create at hb
      dsimp only at hb
      split_ifs at hb
      simp only [LoopRes.ret.injEq] at hb
      exact hb.1.symm) _ 0 _ c x hc
    rw [hcode] at h
    exact absurd h.1 (by decide)
  | next x1 =>
    rw [hc] at h
    refine ⟨x1, RefineElementRed_create_loop env e _ _ ctx s hnd he _ x1 hc, ?_⟩
    dsimp only at h
    cases hd : forLoop (RefineElementRed_connect env (s.TAG e) (s.MARK e) x1.2)
        (env.NSONS_OF_RULE (s.TAG e) (s.MARK e)) 0
        (RefineElementRed_sons env e (env.NSONS_OF_RULE (s.TAG e) (s.MARK e)) x1) with
    | stop r => rw [hd] at h; contradiction
    | ret c y =>
      rw [hd] at h
      simp only [Except.ok.injEq, Prod.mk.injEq] at h
      rw [← h.2]
      exact forLoop_ret_inv _ (fun _ z => NbFrame _ z) (fun _ z => NbFrame _ z)
        (fun i a b ha hb =>
          ha.nb_trans ((RefineElementRed_connect_nbframe env _ _ x1.2 i a).1 b hb))
        (fun i a c b ha hb =>
          ha.nb_trans ((RefineElementRed_connect_nbframe env _ _ x1.2 i a).2 c b hb))
        _ 0 _ c y (NbFrame.nb_refl _) hd
    | next s3 =>
      rw [hd] at h
      dsimp only at h
      have f3 : NbFrame (RefineElementRed_sons env e
          (env.NSONS_OF_RULE (s.TAG e) (s.MARK e)) x1) s3 :=
        forLoop_next_rel _ (fun z => NbFrame _ z)
          (fun i a b ha hb =>
            ha.nb_trans ((RefineElementRed_connect_nbframe env _ _ x1.2 i a).1 b hb))
          _ 0 _ s3 (NbFrame.nb_refl _) hd
      cases hs : forLoop (RefineElementRed_side env e
          (env.NSONS_OF_RULE (s.TAG e) (s.MARK e)) x1.2) (SIDES_OF_ELEM env s3 e) 0 s3 with
      | stop r => rw [hs] at h; contradiction
      | ret c y =>
        rw [hs] at h
        simp only [Except.ok.injEq, Prod.mk.injEq] at h
        rw [← h.2]
        exact f3.nb_trans (forLoop_ret_inv _ (fun _ z => NbFrame s3 z) (fun _ z => NbFrame s3 z)
          (fun i a b ha hb =>
            ha.nb_trans ((RefineElementRed_side_nbframe env e _ x1.2 i a).1 b hb))
          (fun i a c b ha hb =>
            ha.nb_trans ((RefineElementRed_side_nbframe env e _ x1.2 i a).2 c b hb))
          _ 0 _ c y (NbFrame.nb_refl _) hs)
      | next s4 =>
        rw [hs] at h
        simp only [Except.ok.injEq, Prod.mk.injEq] at h
        rw [← h.2]
        exact f3.nb_trans (forLoop_next_rel _ (fun z => NbFrame s3 z)
          (fun i a b ha hb =>
            ha.nb_trans ((RefineElementRed_side_nbframe env e _ x1.2 i a).1 b hb))
          _ 0 _ s4 (NbFrame.nb_refl _) hs)

/-! ## `UnrefineElement`: the sons handed to `DisposeElement` -/

theorem forBound_inv {σ : Type} (bound : σ → Nat) (body : Nat → σ → LoopRes σ)
    (I : Nat → σ → Prop)
    (hn : ∀ i x y, I i x → i < bound x → body i x = .next y → I (i + 1) y) :
    ∀ (fuel i : Nat) (x y : σ), I i x → forBound bound body fuel i x = .next y →
      ∃ j, I j y ∧ ¬ j < bound y := by
  intro fuel
  induction fuel with
  | zero =>
    intro i x y hx h
    unfold forBound at h
    split at h
    · contradiction
    · rename_i hb
      simp only [LoopRes.next.injEq] at h; subst h; exact ⟨i, hx, hb⟩
  | succ k ih =>
    intro i x y hx h
    unfold forBound at h
    split at h
    · rename_i hlt
      cases hb : body i x with
      | next z => rw [hb] at h; exact ih (i + 1) z y (hn i x z hx hlt hb) h
      | ret c z => rw [hb] at h; contradiction
      | stop r => rw [hb] at h; contradiction
    · rename_i hb
      simp only [LoopRes.next.injEq] at h; subst h; exact ⟨i, hx, hb⟩

theorem forBound_ret_code {σ : Type} (bound : σ → Nat) (body : Nat → σ → LoopRes σ)
    (R : Int → Prop) (hr : ∀ i x c y, body i x = .ret c y → R c) :
    ∀ (fuel i : Nat) (x : σ) (c : Int) (y : σ),
      forBound bound body fuel i x = .ret c y → R c := by
  intro fuel
  induction fuel with
  | zero =>
    intro i x c y h
    unfold forBound at h
    split at h <;> contradiction
  | succ k ih =>
    intro i x c y h
    unfold forBound at h
    split at h
    · cases hb : body i x with
      | next z => rw [hb] at h; exact ih (i + 1) z c y h
      | ret c1 z =>
        rw [hb] at h
        simp only [LoopRes.ret.injEq] at h
        rw [← h.1]; exact hr i x c1 z hb
      | stop r => rw [hb] at h; contradiction
    · contradiction

/-- The loops "remove connections in neighborhood of sons" and "remove son elements" note
one call for each of the first `NSONS(theElement)` entries of `SonList`, in order. -/
theorem UnrefineElement_connections_loop (e : Nat) (L : Nat → Nat) (fuel : Nat)
    (s y : Mesh)
    (h : forBound (fun z => z.NSONS e) (UnrefineElement_connections L) fuel 0 s = .next y) :
    y.NSONS = s.NSONS ∧ y.SON = s.SON ∧ y.trace = s.trace ++
      (List.range (s.NSONS e)).map (fun i => Event.DisposeConnectionsInNeighborhood (L i)) := by
  obtain ⟨j, ⟨h1, h2, h3, h4⟩, hj⟩ := forBound_inv (fun z : Mesh => z.NSONS e)
    (UnrefineElement_connections L)
    (fun i z => z.NSONS = s.NSONS ∧ z.SON = s.SON ∧ i ≤ s.NSONS e ∧ z.trace = s.trace ++
      (List.range i).map (fun i => Event.DisposeConnectionsInNeighborhood (L i)))
    (fun i a b ha hlt hb => by
      obtain ⟨a1, a2, a3, a4⟩ := ha
      unfold UnrefineElement_connections at hb
      simp only [LoopRes.next.injEq] at hb
      subst hb
      dsimp only at hlt
      rw [a1] at hlt
      refine ⟨a1, a2, hlt, ?_⟩
      show a.trace ++ [_] = _
      rw [a4, List.range_succ, List.map_append, List.append_assoc]
      rfl)
    fuel 0 s y ⟨rfl, rfl, Nat.zero_le _, by simp⟩ h
  have hj2 : ¬ j < s.NSONS e := by rw [← h1]; exact hj
  have : j = s.NSONS e := by omega
  subst this
  exact ⟨h1, h2, h4⟩

theorem UnrefineElement_dispose_loop (env : Env) (e : Nat) (L : Nat → Nat) (fuel : Nat)
    (s y : Mesh)
    (h : forBound (fun z => z.NSONS e) (UnrefineElement_dispose env L) fuel 0 s = .next y) :
    y.NSONS = s.NSONS ∧ y.SON = s.SON ∧ y.trace = s.trace ++
      (List.range (s.NSONS e)).map (fun i => Event.DisposeElement (L i)) := by
  obtain ⟨j, ⟨h1, h2, h3, h4⟩, hj⟩ := forBound_inv (fun z : Mesh => z.NSONS e)
    (UnrefineElement_dispose env L)
    (fun i z => z.NSONS = s.NSONS ∧ z.SON = s.SON ∧ i ≤ s.NSONS e ∧ z.trace = s.trace ++
      (List.range i).map (fun i => Event.DisposeElement (L i)))
    (fun i a b ha hlt hb => by
      obtain ⟨a1, a2, a3, a4⟩ := ha
      unfold UnrefineElement_dispose DisposeElement at hb
      dsimp only at hb
      split_ifs at hb
      simp only [LoopRes.next.injEq] at hb
      subst hb
      dsimp only at hlt
      rw [a1] at hlt
      refine ⟨a1, a2, hlt, ?_⟩
      show a.trace ++ [_] = _
      rw [a4, List.range_succ, List.map_append, List.append_assoc]
      rfl)
    fuel 0 s y ⟨rfl, rfl, Nat.zero_le _, by simp⟩ h
  have hj2 : ¬ j < s.NSONS e := by rw [← h1]; exact hj
  have : j = s.NSONS e := by omega
  subst this
  exact ⟨h1, h2, h4⟩

/-- A call of `UnrefineElement` for a refined element on a son grid that returns `GM_OK`:
the first loop, which unrefines the refined sons, has run through; then every son has been
handed to `DisposeConnectionsInNeighborhood`, then every son to `DisposeElement`, and the
element has no sons left. -/
theorem UnrefineElement_ok (env : Env) (fuel : Nat) (s s3 : Mesh) (g e : Nat)
    (hr : s.REFINE e ≠ env.NO_REFINEMENT) (hg : g ≠ 0)
    (h : UnrefineElement env (fuel + 1) s g e = .ok (GM_OK, s3)) :
    ∃ L s1, GetSons env (fuel + 1) s e = .ok (GM_OK, L) ∧
      forBound (fun y => y.NSONS e)
        (UnrefineElement_son env
          (fun y theSon => UnrefineElement env fuel y (y.UPGRID_of g) theSon) L)
        (fuel + 1) 0 s = .next s1 ∧
      s3.NSONS e = 0 ∧ s3.SON e 0 = 0 ∧
      s3.trace = s1.trace ++
        (List.range (s1.NSONS e)).map (fun i => Event.DisposeConnectionsInNeighborhood (L i)) ++
        (List.range (s1.NSONS e)).map (fun i => Event.DisposeElement (L i)) := by
  unfold UnrefineElement at h
  rw [if_neg (by rw [not_or]; exact ⟨hr, hg⟩)] at h
  cases hG : GetSons env (fuel + 1) s e with
  | error r => rw [hG] at h; contradiction
  | ok gs =>
    rw [hG] at h
    dsimp only at h
    split at h
    · simp only [Except.ok.injEq, Prod.mk.injEq] at h
      exact absurd h.1 (by decide)
    · rename_i hcode
      rw [not_not] at hcode
      cases h1 : forBound (fun y => y.NSONS e)
          (UnrefineElement_son env
            (fun y theSon => UnrefineElement env fuel y (y.UPGRID_of g) theSon) gs.2)
          (fuel + 1) 0 s with
      | stop r => rw [h1] at h; contradiction
      | ret c y =>
        rw [h1] at h
        simp only [Except.ok.injEq, Prod.mk.injEq] at h
        have hc := forBound_ret_code _ _ (fun c => c = GM_FATAL) (fun i a c b hb => by
          unfold UnrefineElement_son at hb
          dsimp only at hb
          split at hb
          · split at hb
            · contradiction
            · split at hb
              · simp only [LoopRes.ret.injEq] at hb; exact hb.1.symm
              · contradiction
          · contradiction) _ _ _ c y h1
        rw [hc] at h
        exact absurd h.1 (by decide)
      | next s1 =>
        rw [h1] at h
        dsimp only at h
        cases h2 : forBound (fun y => y.NSONS e) (UnrefineElement_connections gs.2)
            (fuel + 1) 0 s1 with
        | stop r => rw [h2] at h; contradiction
        | ret c y =>
          rw [h2] at h
          simp only [Except.ok.injEq, Prod.mk.injEq] at h
          have hc := forBound_ret_code _ _ (fun _ => False) (fun i a c b hb => by
            unfold UnrefineElement_connections at hb
            contradiction) _ _ _ c y h2
          exact hc.elim
        | next s2 =>
          rw [h2] at h
          dsimp only at h
          obtain ⟨c1, c2, c3⟩ := UnrefineElement_connections_loop e gs.2 _ s1 s2 h2
          cases h3 : forBound (fun y => y.NSONS e) (UnrefineElement_dispose env gs.2)
              (fuel + 1) 0 s2 with
          | stop r => rw [h3] at h; contradiction
          | ret c y =>
            rw [h3] at h
            simp only [Except.ok.injEq, Prod.mk.injEq] at h
            have hc := forBound_ret_code _ _ (fun c => c = GM_FATAL) (fun i a c b hb => by
              unfold UnrefineElement_dispose at hb
              dsimp only at hb
              split_ifs at hb
              simp only [LoopRes.ret.injEq] at hb; exact hb.1.symm) _ _ _ c y h3
            rw [hc] at h
            exact absurd h.1 (by decide)
          | next s4 =>
            rw [h3] at h
            simp only [Except.ok.injEq, Prod.mk.injEq, true_and] at h
            obtain ⟨d1, d2, d3⟩ := UnrefineElement_dispose_loop env e gs.2 _ s2 s4 h3
            refine ⟨gs.2, s1, ?_, h1, ?_, ?_, ?_⟩
            · rw [← hcode]
            · rw [← h]; exact upd_same _ _ _
            · rw [← h]; show upd2 _ e 0 0 e 0 = 0; simp [upd2]
            · rw [← h]
              show s4.trace = _
              rw [d3, c3, c1]

/-! ## Refining an element and unrefining it again -/

theorem range_map_getD (l : List Nat) (f : Nat → Event) :
    ∀ n, n ≤ l.length → (List.range n).map (fun i => f (l.getD i 0)) = (l.take n).map f := by
  intro n
  induction n with
  | zero => intro _; simp
  | succ k ih =>
    intro hk
    have hk2 : k < l.length := by omega
    rw [List.range_succ, List.map_append, ih (by omega), List.take_succ,
      List.getElem?_eq_getElem hk2, List.map_append]
    simp only [List.map_cons, List.map_nil, Option.toList_some, List.getD_eq_getElem _ _ hk2]

theorem range_map_congr (L M : Nat → Nat) (f : Nat → Event) (n : Nat)
    (h : ∀ i, i < n → L i = M i) :
    (List.range n).map (fun i => f (L i)) = (List.range n).map (fun i => f (M i)) := by
  apply List.map_congr_left
  intro i hi
  rw [h i (List.mem_range.1 hi)]

/-- The mesh with which `UnrefineElement` is called after `RefineElementRed` and the
statements "refine and refineclass flag". -/
theorem RefineElementRed_then_flags (env : Env) (s s1 : Mesh) (e : Nat) (ctx : Nat → Nat)
    (hmark : s.MARK e ≠ env.NO_REFINEMENT) (hnd : s.elemPool.Nodup) (he : e ∉ s.elemPool)
    (h : RefineElementRed env s e ctx = .ok (GM_OK, s1)) :
    env.NSONS_OF_RULE (s.TAG e) (s.MARK e) ≤ s.elemPool.length ∧
    (RefineGrid_flags e s1).NSONS e = env.NSONS_OF_RULE (s.TAG e) (s.MARK e) ∧
    (RefineGrid_flags e s1).REFINE e = s.MARK e ∧
    (RefineGrid_flags e s1).TAG e = s.TAG e ∧
    (∀ i, i < env.NSONS_OF_RULE (s.TAG e) (s.MARK e) →
      s.elemPool.getD i 0 ≠ 0 ∧
      (RefineGrid_flags e s1).REFINE (s.elemPool.getD i 0) = env.NO_REFINEMENT ∧
      (env.DIM = 2 → (RefineGrid_flags e s1).SON e i = s.elemPool.getD i 0)) ∧
    s1.trace = s.trace ++
      (s.elemPool.take (env.NSONS_OF_RULE (s.TAG e) (s.MARK e))).map (Event.CreateElement e) := by
  obtain ⟨x1, ⟨hF, hlen, hpool, hL, hK, hN, hT⟩, hnb⟩ :=
    RefineElementRed_ok env s s1 e ctx hmark hnd he h
  have hKe := hK e (fun hm => he (List.mem_of_mem_take hm))
  have e1 : s1.NSONS = (RefineElementRed_sons env e _ x1).NSONS := hnb.nb_field Mesh.NSONS
  have e2 : s1.MARK = (RefineElementRed_sons env e _ x1).MARK := hnb.nb_field Mesh.MARK
  have e3 : s1.TAG = (RefineElementRed_sons env e _ x1).TAG := hnb.nb_field Mesh.TAG
  have e4 : s1.REFINE = (RefineElementRed_sons env e _ x1).REFINE := hnb.nb_field Mesh.REFINE
  have e5 : s1.SON = (RefineElementRed_sons env e _ x1).SON := hnb.nb_field Mesh.SON
  have e6 : s1.trace = (RefineElementRed_sons env e _ x1).trace := hnb.nb_field Mesh.trace
  have g1 : (RefineElementRed_sons env e (env.NSONS_OF_RULE (s.TAG e) (s.MARK e)) x1).NSONS =
      upd x1.1.NSONS e (env.NSONS_OF_RULE (s.TAG e) (s.MARK e)) := by
    unfold RefineElementRed_sons; dsimp only; split_ifs <;> rfl
  have g2 : (RefineElementRed_sons env e (env.NSONS_OF_RULE (s.TAG e) (s.MARK e)) x1).MARK =
      x1.1.MARK := by
    unfold RefineElementRed_sons; dsimp only; split_ifs <;> rfl
  have g3 : (RefineElementRed_sons env e (env.NSONS_OF_RULE (s.TAG e) (s.MARK e)) x1).TAG =
      x1.1.TAG := by
    unfold RefineElementRed_sons; dsimp only; split_ifs <;> rfl
  have g4 : (RefineElementRed_sons env e (env.NSONS_OF_RULE (s.TAG e) (s.MARK e)) x1).REFINE =
      x1.1.REFINE := by
    unfold RefineElementRed_sons; dsimp only; split_ifs <;> rfl
  have g6 : (RefineElementRed_sons env e (env.NSONS_OF_RULE (s.TAG e) (s.MARK e)) x1).trace =
      x1.1.trace := by
    unfold RefineElementRed_sons; dsimp only; split_ifs <;> rfl
  refine ⟨hlen, ?_, ?_, ?_, ?_, ?_⟩
  · show s1.NSONS e = _
    rw [e1, g1, upd_same]
  · show upd s1.REFINE e (s1.MARK e) e = _
    rw [upd_same, e2, g2]; exact hKe.2.1
  · show s1.TAG e = _
    rw [e3, g3]; exact hKe.1
  · intro i hi
    have hson := hN i hi
    have hne : s.elemPool.getD i 0 ≠ e := fun hk =>
      he (hk ▸ List.mem_of_mem_take (getD_mem_take s.elemPool _ i 0 hi hlen))
    refine ⟨hson.1, ?_, ?_⟩
    · show upd s1.REFINE e (s1.MARK e) _ = _
      rw [upd_other _ _ _ _ hne, e4, g4]; exact hson.2.2.2.2.1
    · intro hdim
      show s1.SON e i = _
      rw [e5]
      unfold RefineElementRed_sons
      dsimp only
      rw [if_pos hdim]
      dsimp only
      rw [upd_same, upd_same, if_pos hi, hL i, if_pos hi]
  · rw [e6, g6, hT, range_map_getD s.elemPool (Event.CreateElement e) _ hlen]

/-- The first loop of `UnrefineElement` when no son is refined: only marks are cleared. -/
theorem UnrefineElement_son_loop (env : Env) (unrefine : Mesh → Nat → Except Stop (Int × Mesh))
    (e n : Nat) (L : Nat → Nat) (fuel : Nat) (s y : Mesh) (hn : s.NSONS e = n)
    (hL : ∀ i, i < n → s.REFINE (L i) = env.NO_REFINEMENT)
    (h : forBound (fun z => z.NSONS e) (UnrefineElement_son env unrefine L) fuel 0 s =
      .next y) :
    y.NSONS = s.NSONS ∧ y.trace = s.trace := by
  obtain ⟨j, ⟨h1, h2, h3⟩, _⟩ := forBound_inv (fun z : Mesh => z.NSONS e)
    (UnrefineElement_son env unrefine L)
    (fun _ z => z.NSONS = s.NSONS ∧ z.REFINE = s.REFINE ∧ z.trace = s.trace)
    (fun i a b ha hlt hb => by
      obtain ⟨a1, a2, a3⟩ := ha
      have hi : i < n := by
        have : a.NSONS e = n := by rw [a1]; exact hn
        rw [← this]; exact hlt
      unfold UnrefineElement_son SETMARK at hb
      dsimp only at hb
      rw [if_neg (by rw [not_not, a2]; exact hL i hi)] at hb
      simp only [LoopRes.next.injEq] at hb
      subst hb
      exact ⟨a1, a2, a3⟩)
    fuel 0 s y ⟨rfl, rfl, rfl⟩ h
  exact ⟨h1, h3⟩

theorem count_dispose (t : List Event) (sons : List Nat) (hnd : sons.Nodup) (son : Nat) :
    (t ++ sons.map Event.DisposeConnectionsInNeighborhood ++
        sons.map Event.DisposeElement).count (Event.DisposeElement son) =
      t.count (Event.DisposeElement son) + (if son ∈ sons then 1 else 0) := by
  have h1 : (sons.map Event.DisposeConnectionsInNeighborhood).count
      (Event.DisposeElement son) = 0 := by
    rw [List.count_eq_zero]
    intro hm
    obtain ⟨a, _, ha⟩ := List.mem_map.1 hm
    contradiction
  have h2 : (sons.map Event.DisposeElement).count (Event.DisposeElement son) =
      sons.count son :=
    List.count_map_of_injective sons Event.DisposeElement
      (fun a b hab => by injection hab) son
  rw [List.count_append, List.count_append, h1, h2, List.count_eq_of_nodup hnd]
  omega

/-- The sons `GetSons` finds in 2-D right after `RefineElementRed`. -/
theorem GetSons_after_refine (env : Env) (fuel : Nat) (s : Mesh) (e n : Nat) (L : Nat → Nat)
    (pool : List Nat) (hn : s.NSONS e = n)
    (hdim : env.DIM = 2 ∧ (s.TAG e = TAG.TRIANGLE ∨ s.TAG e = TAG.QUADRILATERAL))
    (hson : ∀ i, i < n → s.SON e i = pool.getD i 0)
    (h : GetSons env fuel s e = .ok (GM_OK, L)) :
    ∀ i, i < n → L i = pool.getD i 0 := by
  unfold GetSons at h
  split_ifs at h with h1 h2
  · simp only [Except.ok.injEq, Prod.mk.injEq] at h
    exact absurd h.1 (by decide)
  · intro i hi
    rw [hn] at h2
    omega
  · simp only [Except.ok.injEq, Prod.mk.injEq, true_and] at h
    intro i hi
    rw [← h]
    dsimp only
    rw [hn, if_pos hi, hson i hi]

/-- C11: round trip refine/unrefine. First part, for every call of `UnrefineElement` for a
refined element on a son grid that returns `GM_OK`: the loop that unrefines the refined
sons has run through first, then each of the `NSONS` sons found by `GetSons` has been
handed to `DisposeConnectionsInNeighborhood` and then to `DisposeElement`, in order, and
the element is left with `NSONS = 0` and first son `NULL`. Second part, for an element
refined by `RefineElementRed` with a rule of `n` sons followed by the statements
`REFINE := MARK` of `RefineGrid`, the elements taken from a pool of distinct elements, the
sons found as created: the `n` sons are the `n` elements created, and each of them has been
handed to `DisposeElement` exactly once. -/
theorem UnrefineElement_round_trip (env : Env) (fuel : Nat) :
    (∀ (s s3 : Mesh) (g e : Nat), s.REFINE e ≠ env.NO_REFINEMENT → g ≠ 0 →
      UnrefineElement env (fuel + 1) s g e = .ok (GM_OK, s3) →
      ∃ L s1, GetSons env (fuel + 1) s e = .ok (GM_OK, L) ∧
        forBound (fun y => y.NSONS e)
          (UnrefineElement_son env
            (fun y theSon => UnrefineElement env fuel y (y.UPGRID_of g) theSon) L)
          (fuel + 1) 0 s = .next s1 ∧
        s3.NSONS e = 0 ∧ s3.SON e 0 = 0 ∧
        s3.trace = s1.trace ++
          (List.range (s1.NSONS e)).map
            (fun i => Event.DisposeConnectionsInNeighborhood (L i)) ++
          (List.range (s1.NSONS e)).map (fun i => Event.DisposeElement (L i))) ∧
    (∀ (s s1 s3 : Mesh) (g e : Nat) (ctx : Nat → Nat),
      s.MARK e ≠ env.NO_REFINEMENT → s.elemPool.Nodup → e ∉ s.elemPool → g ≠ 0 →
      RefineElementRed env s e ctx = .ok (GM_OK, s1) →
      ((env.DIM = 2 ∧ (s.TAG e = TAG.TRIANGLE ∨ s.TAG e = TAG.QUADRILATERAL)) ∨
        ∃ L, GetSons env (fuel + 1) (RefineGrid_flags e s1) e = .ok (GM_OK, L) ∧
          ∀ i, i < env.NSONS_OF_RULE (s.TAG e) (s.MARK e) → L i = s.elemPool.getD i 0) →
      UnrefineElement env (fuel + 1) (RefineGrid_flags e s1) g e = .ok (GM_OK, s3) →
      s3.NSONS e = 0 ∧ s3.SON e 0 = 0 ∧
      (s.elemPool.take (env.NSONS_OF_RULE (s.TAG e) (s.MARK e))).length =
        env.NSONS_OF_RULE (s.TAG e) (s.MARK e) ∧
      s1.trace = s.trace ++
        (s.elemPool.take (env.NSONS_OF_RULE (s.TAG e) (s.MARK e))).map
          (Event.CreateElement e) ∧
      s3.trace = s1.trace ++
        (s.elemPool.take (env.NSONS_OF_RULE (s.TAG e) (s.MARK e))).map
          Event.DisposeConnectionsInNeighborhood ++
        (s.elemPool.take (env.NSONS_OF_RULE (s.TAG e) (s.MARK e))).map Event.DisposeElement ∧
      ∀ son, s3.trace.count (Event.DisposeElement son) =
        s1.trace.count (Event.DisposeElement son) +
          (if son ∈ s.elemPool.take (env.NSONS_OF_RULE (s.TAG e) (s.MARK e)) then 1 else 0)) := by
  refine ⟨fun s s3 g e hr hg h => UnrefineElement_ok env fuel s s3 g e hr hg h, ?_⟩
  intro s s1 s3 g e ctx hmark hnd he hg hred hsons hun
  obtain ⟨hlen, f1, f2, f3, f4, f5⟩ := RefineElementRed_then_flags env s s1 e ctx hmark hnd he hred
  have hr : (RefineGrid_flags e s1).REFINE e ≠ env.NO_REFINEMENT := by rw [f2]; exact hmark
  obtain ⟨L, y1, hG, hloop, c1, c2, c3⟩ :=
    UnrefineElement_ok env fuel (RefineGrid_flags e s1) s3 g e hr hg hun
  have hL : ∀ i, i < env.NSONS_OF_RULE (s.TAG e) (s.MARK e) → L i = s.elemPool.getD i 0 := by
    rcases hsons with hdim | ⟨L2, hG2, hL2⟩
    · exact GetSons_after_refine env _ _ e _ L s.elemPool f1
        ⟨hdim.1, by rw [f3]; exact hdim.2⟩ (fun i hi => (f4 i hi).2.2 hdim.1) hG
    · rw [hG] at hG2
      simp only [Except.ok.injEq, Prod.mk.injEq, true_and] at hG2
      rw [hG2]; exact hL2
  obtain ⟨k1, k2⟩ := UnrefineElement_son_loop env _ e _ L _ _ y1 f1
    (fun i hi => by rw [hL i hi]; exact (f4 i hi).2.1) hloop
  have hcount : y1.NSONS e = env.NSONS_OF_RULE (s.TAG e) (s.MARK e) := by rw [k1]; exact f1
  have htr : (RefineGrid_flags e s1).trace = s1.trace := rfl
  have c4 : s3.trace = s1.trace ++
      (s.elemPool.take (env.NSONS_OF_RULE (s.TAG e) (s.MARK e))).map
        Event.DisposeConnectionsInNeighborhood ++
      (s.elemPool.take (env.NSONS_OF_RULE (s.TAG e) (s.MARK e))).map Event.DisposeElement := by
    rw [c3, hcount, k2, htr,
      range_map_congr L (fun i => s.elemPool.getD i 0)
        Event.DisposeConnectionsInNeighborhood _ hL,
      range_map_congr L (fun i => s.elemPool.getD i 0) Event.DisposeElement _ hL,
      range_map_getD s.elemPool Event.DisposeConnectionsInNeighborhood _ hlen,
      range_map_getD s.elemPool Event.DisposeElement _ hlen]
  refine ⟨c1, c2, ?_, f5, c4, ?_⟩
  · rw [List.length_take]; omega
  · intro son
    rw [c4]
    exact count_dispose s1.trace _ (List.Nodup.sublist (List.take_sublist _ _) hnd) son

/-- Claim C11 at an example: triangle 1 of `meshOneMarkedClosed`, marked with the regular
rule of 4 sons, is refined by `RefineElementRed` with the elements 11, 12, 13, 14 of the
pool and unrefined again; the call of `UnrefineElement` returns `GM_OK`. -/
theorem UnrefineElement_round_trip_witness :
    meshRoundTrip2.REFINE 1 ≠ envTriangleProc.NO_REFINEMENT ∧
    meshRoundTrip0.MARK 1 ≠ envTriangleProc.NO_REFINEMENT ∧
    meshRoundTrip0.elemPool.Nodup ∧ 1 ∉ meshRoundTrip0.elemPool ∧
    RefineElementRed envTriangleProc meshRoundTrip0 1 contextRoundTrip =
      .ok (GM_OK, meshRoundTrip1) ∧
    envTriangleProc.DIM = 2 ∧ meshRoundTrip0.TAG 1 = TAG.TRIANGLE ∧
    UnrefineElement envTriangleProc (3 + 1) (RefineGrid_flags 1 meshRoundTrip1) 1 1 =
      .ok (GM_OK, meshRoundTrip3) ∧
    envTriangleProc.NSONS_OF_RULE (meshRoundTrip0.TAG 1) (meshRoundTrip0.MARK 1) = 4 ∧
    meshRoundTrip0.elemPool.take 4 = [11, 12, 13, 14] ∧
    (∃ L s1, GetSons envTriangleProc (3 + 1) meshRoundTrip2 1 = .ok (GM_OK, L) ∧
      forBound (fun y => y.NSONS 1)
        (UnrefineElement_son envTriangleProc
          (fun y theSon => UnrefineElement envTriangleProc 3 y (y.UPGRID_of 1) theSon) L)
        (3 + 1) 0 meshRoundTrip2 = .next s1 ∧
      meshRoundTrip3.NSONS 1 = 0 ∧ meshRoundTrip3.SON 1 0 = 0 ∧
      meshRoundTrip3.trace = s1.trace ++
        (List.range (s1.NSONS 1)).map
          (fun i => Event.DisposeConnectionsInNeighborhood (L i)) ++
        (List.range (s1.NSONS 1)).map (fun i => Event.DisposeElement (L i))) ∧
    (meshRoundTrip3.NSONS 1 = 0 ∧ meshRoundTrip3.SON 1 0 = 0 ∧
      (meshRoundTrip0.elemPool.take (envTriangleProc.NSONS_OF_RULE (meshRoundTrip0.TAG 1)
        (meshRoundTrip0.MARK 1))).length =
        envTriangleProc.NSONS_OF_RULE (meshRoundTrip0.TAG 1) (meshRoundTrip0.MARK 1) ∧
      meshRoundTrip1.trace = meshRoundTrip0.trace ++
        (meshRoundTrip0.elemPool.take (envTriangleProc.NSONS_OF_RULE (meshRoundTrip0.TAG 1)
          (meshRoundTrip0.MARK 1))).map (Event.CreateElement 1) ∧
      meshRoundTrip3.trace = meshRoundTrip1.trace ++
        (meshRoundTrip0.elemPool.take (envTriangleProc.NSONS_OF_RULE (meshRoundTrip0.TAG 1)
          (meshRoundTrip0.MARK 1))).map Event.DisposeConnectionsInNeighborhood ++
        (meshRoundTrip0.elemPool.take (envTriangleProc.NSONS_OF_RULE (meshRoundTrip0.TAG 1)
          (meshRoundTrip0.MARK 1))).map Event.DisposeElement ∧
      ∀ son, meshRoundTrip3.trace.count (Event.DisposeElement son) =
        meshRoundTrip1.trace.count (Event.DisposeElement son) +
          (if son ∈ meshRoundTrip0.elemPool.take
            (envTriangleProc.NSONS_OF_RULE (meshRoundTrip0.TAG 1) (meshRoundTrip0.MARK 1))
            then 1 else 0)) :=
  ⟨by decide, by decide, by decide, by decide, rfl, rfl, rfl, rfl, rfl, rfl,
    (UnrefineElement_round_trip envTriangleProc 3).1 meshRoundTrip2 meshRoundTrip3 1 1
      (by decide) (by decide) rfl,
    (UnrefineElement_round_trip envTriangleProc 3).2 meshRoundTrip0 meshRoundTrip1
      meshRoundTrip3 1 1 contextRoundTrip (by decide) (by decide) (by decide) (by decide) rfl
      (Or.inl ⟨rfl, Or.inl rfl⟩) rfl⟩

/-! ## What `UpdateContext` writes -/

theorem NodeFrame.nf_refl (s : Mesh) : NodeFrame s s := rfl

theorem NodeFrame.nf_trans {s s' s'' : Mesh} (h1 : NodeFrame s s') (h2 : NodeFrame s' s'') :
    NodeFrame s s'' := by
  unfold NodeFrame at h1 h2 ⊢
  rw [h2]
  rw [h1]

theorem NodeFrame.nf_field {α : Type} (f : Mesh → α) {s s' : Mesh} (h : NodeFrame s s') :
    f s' = f { s with nodePool := s'.nodePool, trace := s'.trace, MIDNODE := s'.MIDNODE,
                      SONNODE := s'.SONNODE } :=
  congrArg f (show s' = _ from h)

theorem allocNode_nodeframe (s : Mesh) : NodeFrame s (allocNode s).2 := by
  unfold allocNode
  cases s.nodePool with
  | nil => exact rfl
  | cons n rest => exact rfl

theorem CreateMidNode_nodeframe (env : Env) (s : Mesh) (e i : Nat) :
    NodeFrame s (CreateMidNode env s e i).2 := by
  unfold CreateMidNode
  dsimp only
  have f0 : NodeFrame s
      { s with trace := s.trace ++ [Event.CreateMidNode e i (edgeOf env s e i)] } := rfl
  have f1 := f0.nf_trans (allocNode_nodeframe
    { s with trace := s.trace ++ [Event.CreateMidNode e i (edgeOf env s e i)] })
  split_ifs
  · exact f1
  · exact f1.nf_trans rfl

theorem UpdateContext_corner_nodeframe (e i : Nat) (x : Mesh × Context) :
    (∀ y, UpdateContext_corner e i x = .next y → NodeFrame x.1 y.1) ∧
    (∀ c y, UpdateContext_corner e i x = .ret c y → NodeFrame x.1 y.1) := by
  unfold UpdateContext_corner CreateSonNode
  dsimp only
  have f1 := allocNode_nodeframe x.1
  constructor
  · intro y h
    split_ifs at h <;> simp only [LoopRes.next.injEq] at h <;> subst h
    · exact f1.nf_trans rfl
    · exact rfl
  · intro c y h
    split_ifs at h
    simp only [LoopRes.ret.injEq] at h
    rw [← h.2]
    exact f1.nf_trans rfl

theorem UpdateContext_edge_node_nodeframe (env : Env) (e i : Nat) (x : Mesh × Context) :
    (∀ y, UpdateContext_edge_node env e i x = .next y → NodeFrame x.1 y.1) ∧
    (∀ c y, UpdateContext_edge_node env e i x = .ret c y → NodeFrame x.1 y.1) := by
  unfold UpdateContext_edge_node
  dsimp only
  have f1 := CreateMidNode_nodeframe env x.1 e i
  constructor
  · intro y h
    split_ifs at h <;> simp only [LoopRes.next.injEq] at h <;> subst h
    · exact rfl
    · exact f1
    · exact rfl
  · intro c y h
    split_ifs at h <;> simp only [LoopRes.ret.injEq] at h <;> rw [← h.2]
    · exact rfl
    · exact f1

theorem UpdateContext_edge_nodeframe (env : Env) (e : Nat) (Mark : Int) (i : Nat)
    (x : Mesh × Context) :
    (∀ y, UpdateContext_edge env e Mark i x = .next y → NodeFrame x.1 y.1) ∧
    (∀ c y, UpdateContext_edge env e Mark i x = .ret c y → NodeFrame x.1 y.1) := by
  unfold UpdateContext_edge
  constructor
  · intro y h
    split at h
    · contradiction
    · simp only [LoopRes.next.injEq] at h; subst h; exact rfl
    · rename_i ctx1 _
      exact (UpdateContext_edge_node_nodeframe env e i (x.1, ctx1)).1 y h
  · intro c y h
    split at h
    · contradiction
    · contradiction
    · rename_i ctx1 _
      exact (UpdateContext_edge_node_nodeframe env e i (x.1, ctx1)).2 c y h

theorem UpdateContext_side_node_nodeframe (env : Env) (e i : Nat) (x : Mesh × Context) :
    (∀ y, UpdateContext_side_node env e i x = .next y → NodeFrame x.1 y.1) ∧
    (∀ c y, UpdateContext_side_node env e i x = .ret c y → NodeFrame x.1 y.1) := by
  unfold UpdateContext_side_node CreateSideNode
  dsimp only
  have f1 := allocNode_nodeframe x.1
  constructor
  · intro y h
    split_ifs at h <;> simp only [LoopRes.next.injEq] at h <;> subst h <;> first
      | exact f1
      | exact rfl
  · intro c y h
    split_ifs at h <;> simp only [LoopRes.ret.injEq] at h <;> rw [← h.2] <;> exact f1

theorem UpdateContext_side_nodeframe (env : Env) (e : Nat) (Mark : Int) (i : Nat)
    (x : Mesh × Context) :
    (∀ y, UpdateContext_side env e Mark i x = .next y → NodeFrame x.1 y.1) ∧
    (∀ c y, UpdateContext_side env e Mark i x = .ret c y → NodeFrame x.1 y.1) := by
  unfold UpdateContext_side
  constructor
  · intro y h
    split at h
    · simp only [LoopRes.next.injEq] at h; subst h; exact rfl
    · split at h
      · contradiction
      · simp only [LoopRes.next.injEq] at h; subst h; exact rfl
      · exact (UpdateContext_side_node_nodeframe env e i _).1 y h
  · intro c y h
    split at h
    · contradiction
    · split at h
      · contradiction
      · contradiction
      · exact (UpdateContext_side_node_nodeframe env e i _).2 c y h

theorem forLoop_frame {σ : Type} (body : Nat → σ → LoopRes σ) (R : σ → σ → Prop)
    (hrefl : ∀ x, R x x) (htrans : ∀ x y z, R x y → R y z → R x z)
    (hb : ∀ i x, (∀ y, body i x = .next y → R x y) ∧ (∀ c y, body i x = .ret c y → R x y))
    (n i : Nat) (x : σ) :
    (∀ y, forLoop body n i x = .next y → R x y) ∧
    (∀ c y, forLoop body n i x = .ret c y → R x y) := by
  constructor
  · intro y h
    exact forLoop_next_rel body (fun z => R x z)
      (fun j a b ha hab => htrans x a b ha ((hb j a).1 b hab)) n i x y (hrefl x) h
  · intro c y h
    exact forLoop_ret_inv body (fun _ z => R x z) (fun _ z => R x z)
      (fun j a b ha hab => htrans x a b ha ((hb j a).1 b hab))
      (fun j a c b ha hab => htrans x a b ha ((hb j a).2 c b hab)) n i x c y (hrefl x) h

theorem UpdateContext_center_nodeframe (env : Env) (e : Nat) (Mark : Int)
    (x : Mesh × Context) : NodeFrame x.1 (UpdateContext_center env e Mark x).2.1 := by
  unfold UpdateContext_center CreateCenterNode
  dsimp only
  have f1 := allocNode_nodeframe x.1
  split_ifs
  · exact f1
  · exact f1
  · exact rfl

/-- A call of `UpdateContext` that returns writes the node pool, the mid nodes, the son
nodes and the history only. -/
theorem UpdateContext_nodeframe (env : Env) (s : Mesh) (e : Nat) (q : Int × Mesh × Context)
    (h : UpdateContext env s e = .ok q) : NodeFrame s q.2.1 := by
  unfold UpdateContext at h
  dsimp only at h
  by_cases hm : s.MARK e = env.NO_REFINEMENT
  · rw [if_pos hm] at h
    simp only [Except.ok.injEq] at h; subst h; exact rfl
  · rw [if_neg hm] at h
    have hc := forLoop_frame (UpdateContext_corner e) (fun a b => NodeFrame a.1 b.1)
      (fun a => NodeFrame.nf_refl a.1) (fun a b c h1 h2 => h1.nf_trans h2)
      (fun i a => UpdateContext_corner_nodeframe e i a) (CORNERS_OF_ELEM env s e) 0
      (s, fun _ => 0)
    have he := fun a => forLoop_frame (UpdateContext_edge env e (s.MARK e))
      (fun a b => NodeFrame a.1 b.1)
      (fun a => NodeFrame.nf_refl a.1) (fun a b c h1 h2 => h1.nf_trans h2)
      (fun i a => UpdateContext_edge_nodeframe env e (s.MARK e) i a) (EDGES_OF_ELEM env s e) 0 a
    have hs := fun a => forLoop_frame (UpdateContext_side env e (s.MARK e))
      (fun a b => NodeFrame a.1 b.1)
      (fun a => NodeFrame.nf_refl a.1) (fun a b c h1 h2 => h1.nf_trans h2)
      (fun i a => UpdateContext_side_nodeframe env e (s.MARK e) i a) (SIDES_OF_ELEM env s e) 0 a
    have hside : ∀ a : Mesh × Context,
        (∀ y, (if env.DIM = 3 then
            forLoop (UpdateContext_side env e (s.MARK e)) (SIDES_OF_ELEM env s e) 0 a
          else .next a) = .next y → NodeFrame a.1 y.1) ∧
        (∀ c y, (if env.DIM = 3 then
            forLoop (UpdateContext_side env e (s.MARK e)) (SIDES_OF_ELEM env s e) 0 a
          else .next a) = .ret c y → NodeFrame a.1 y.1) := by
      intro a
      by_cases hd : env.DIM = 3
      · rw [if_pos hd]; exact hs a
      · rw [if_neg hd]
        refine ⟨fun y hy => ?_, fun c y hy => ?_⟩
        · simp only [LoopRes.next.injEq] at hy; subst hy; exact rfl
        · contradiction
    split at h
    · contradiction
    · rename_i c x h1
      simp only [Except.ok.injEq] at h; subst h
      exact hc.2 c x h1
    · rename_i x1 h1
      have f1 : NodeFrame s x1.1 := hc.1 x1 h1
      split at h
      · contradiction
      · rename_i c x h2
        simp only [Except.ok.injEq] at h; subst h
        exact f1.nf_trans ((he x1).2 c x h2)
      · rename_i x2 h2
        have f2 : NodeFrame s x2.1 := f1.nf_trans ((he x1).1 x2 h2)
        split at h
        · contradiction
        · rename_i c x h3
          simp only [Except.ok.injEq] at h; subst h
          exact f2.nf_trans ((hside x2).2 c x h3)
        · rename_i x3 h3
          simp only [Except.ok.injEq] at h; subst h
          exact (f2.nf_trans ((hside x2).1 x3 h3)).nf_trans
            (UpdateContext_center_nodeframe env e (s.MARK e) x3)

/-! ## What a call of `RefineElementRed` has built -/

theorem NbFrame.nb_keeps {s s' : Mesh} (h : NbFrame s s') (a : Nat) : KeepsElement s s' a := by
  unfold NbFrame at h
  rw [h]
  exact ⟨rfl, rfl, rfl, rfl, rfl, rfl, rfl, rfl, rfl, rfl, rfl⟩

theorem NbFrame.to_create {s s' : Mesh} (h : NbFrame s s') : CreateFrame s s' := by
  unfold NbFrame at h
  rw [h]
  exact rfl

theorem RefineElementRed_sons_create (env : Env) (t n : Nat) (x : RedState) :
    CreateFrame x.1 (RefineElementRed_sons env t n x) := by
  unfold RefineElementRed_sons
  dsimp only
  split_ifs <;> exact rfl

theorem RefineElementRed_sons_keeps (env : Env) (t n : Nat) (x : RedState) (a : Nat)
    (ha : a ≠ t) : KeepsElement x.1 (RefineElementRed_sons env t n x) a := by
  unfold RefineElementRed_sons
  dsimp only
  split_ifs
  · exact ⟨rfl, rfl, rfl, rfl, rfl, rfl, upd_other _ _ _ _ ha, upd_other _ _ _ _ ha, rfl, rfl,
      rfl⟩
  · refine ⟨rfl, rfl, rfl, rfl, rfl, rfl, upd_other _ _ _ _ ha, ?_, rfl, rfl, rfl⟩
    funext i
    simp [upd2, ha]

theorem RefineElementRed_sons_fields (env : Env) (t n : Nat) (x : RedState) :
    (RefineElementRed_sons env t n x).TAG = x.1.TAG ∧
    (RefineElementRed_sons env t n x).MARK = x.1.MARK ∧
    (RefineElementRed_sons env t n x).MARKCLASS = x.1.MARKCLASS ∧
    (RefineElementRed_sons env t n x).REFINE = x.1.REFINE ∧
    (RefineElementRed_sons env t n x).REFINECLASS = x.1.REFINECLASS ∧
    (RefineElementRed_sons env t n x).elemPool = x.1.elemPool ∧
    (RefineElementRed_sons env t n x).trace = x.1.trace ∧
    (RefineElementRed_sons env t n x).NSONS t = n ∧
    (env.DIM = 2 → ∀ i, i < n → (RefineElementRed_sons env t n x).SON t i = x.2 i) := by
  unfold RefineElementRed_sons
  dsimp only
  split_ifs with hd
  · refine ⟨rfl, rfl, rfl, rfl, rfl, rfl, rfl, upd_same _ _ _, fun _ i hi => ?_⟩
    dsimp only
    rw [upd_same, upd_same, if_pos hi]
  · exact ⟨rfl, rfl, rfl, rfl, rfl, rfl, rfl, upd_same _ _ _, fun h => absurd h hd⟩

/-- A call of `RefineElementRed` for a marked element that returns `GM_OK`, in terms of the
fields of the mesh. -/
theorem RefineElementRed_built (env : Env) (s s1 : Mesh) (e : Nat) (ctx : Nat → Nat)
    (hmark : s.MARK e ≠ env.NO_REFINEMENT) (hnd : s.elemPool.Nodup) (he : e ∉ s.elemPool)
    (h : RefineElementRed env s e ctx = .ok (GM_OK, s1)) :
    SonsBuilt env e (env.NSONS_OF_RULE (s.TAG e) (s.MARK e)) s s1 := by
  obtain ⟨x1, ⟨hF, hlen, hpool, hL, hK, hN, hT⟩, hnb⟩ :=
    RefineElementRed_ok env s s1 e ctx hmark hnd he h
  have hKe := hK e (fun hm => he (List.mem_of_mem_take hm))
  obtain ⟨g1, g2, g3, g4, g5, g6, g7, g8, g9⟩ :=
    RefineElementRed_sons_fields env e (env.NSONS_OF_RULE (s.TAG e) (s.MARK e)) x1
  have k1 := hnb.nb_keeps e
  have hne : ∀ i, i < env.NSONS_OF_RULE (s.TAG e) (s.MARK e) → s.elemPool.getD i 0 ≠ e :=
    fun i hi hk => he (hk ▸ List.mem_of_mem_take (getD_mem_take s.elemPool _ i 0 hi hlen))
  refine ⟨(hF.cr_trans (RefineElementRed_sons_create env e _ x1)).cr_trans hnb.to_create,
    hlen, ?_, ?_, ⟨?_, ?_, ?_, ?_, ?_⟩, ?_, ?_, ?_, ?_⟩
  · have : s1.elemPool = (RefineElementRed_sons env e _ x1).elemPool :=
      hnb.nb_field Mesh.elemPool
    rw [this, g6, hpool]
  · intro a ha hat
    exact ((hK a hat).ke_trans (RefineElementRed_sons_keeps env e _ x1 a ha)).ke_trans
      (hnb.nb_keeps a)
  · rw [k1.1, g1]; exact hKe.1
  · rw [k1.2.1, g2]; exact hKe.2.1
  · rw [k1.2.2.1, g3]; exact hKe.2.2.1
  · rw [k1.2.2.2.1, g4]; exact hKe.2.2.2.1
  · rw [k1.2.2.2.2.1, g5]; exact hKe.2.2.2.2.1
  · rw [k1.2.2.2.2.2.2.1]; exact g8
  · intro hd i hi
    rw [k1.2.2.2.2.2.2.2.1, g9 hd i hi, hL i, if_pos hi]
  · intro i hi
    exact (hN i hi).of_keeps
      ((RefineElementRed_sons_keeps env e _ x1 _ (hne i hi)).ke_trans (hnb.nb_keeps _))
  · have : s1.trace = (RefineElementRed_sons env e _ x1).trace := hnb.nb_field Mesh.trace
    rw [this, g7, hT, range_map_getD s.elemPool (Event.CreateElement e) _ hlen]

/-! ## A round of `RefineGrid` that builds the sons itself -/

theorem FlagStep.fs_refl (t : Nat) (s : Mesh) : FlagStep t s s :=
  ⟨rfl, rfl, rfl, rfl, rfl, rfl, rfl, rfl, rfl, fun _ _ => ⟨rfl, rfl, rfl, rfl⟩,
    [], by simp, fun _ _ h => by simp at h⟩

theorem FlagStep.fs_trans {t : Nat} {s s' s'' : Mesh} (h1 : FlagStep t s s')
    (h2 : FlagStep t s' s'') : FlagStep t s s'' := by
  obtain ⟨a1, a2, a3, a4, a5, a6, a7, a8, a9, a10, ev1, a11, a12⟩ := h1
  obtain ⟨b1, b2, b3, b4, b5, b6, b7, b8, b9, b10, ev2, b11, b12⟩ := h2
  refine ⟨b1.trans a1, b2.trans a2, b3.trans a3, b4.trans a4, b5.trans a5, b6.trans a6,
    b7.trans a7, b8.trans a8, b9.trans a9, fun a ha => ?_, ev1 ++ ev2, ?_, ?_⟩
  · obtain ⟨c1, c2, c3, c4⟩ := a10 a ha
    obtain ⟨d1, d2, d3, d4⟩ := b10 a ha
    exact ⟨d1.trans c1, d2.trans c2, d3.trans c3, d4.trans c4⟩
  · rw [b11, a11, List.append_assoc]
  · intro f son hm
    rcases List.mem_append.1 hm with hk | hk
    · exact a12 f son hk
    · exact b12 f son hk

theorem FlagStep.fs_keeps {t : Nat} {s y : Mesh} (h : FlagStep t s y) (a : Nat) (ha : a ≠ t) :
    KeepsElement s y a := by
  obtain ⟨a1, a2, a3, a4, a5, a6, a7, _, _, a10, _⟩ := h
  obtain ⟨c1, c2, c3, c4⟩ := a10 a ha
  exact ⟨by rw [a1], by rw [a2], by rw [a3], c1, c2, c3, by rw [a4], by rw [a5], by rw [a6],
    by rw [a7], c4⟩

theorem FlagStep.fs_of_log (t : Nat) (s : Mesh) (a : Event)
    (ha : ∀ f son, a ≠ Event.CreateElement f son) : FlagStep t s (logCall s a) :=
  ⟨rfl, rfl, rfl, rfl, rfl, rfl, rfl, rfl, rfl, fun _ _ => ⟨rfl, rfl, rfl, rfl⟩,
    [a], rfl, fun f son h => ha f son (List.mem_singleton.1 h).symm⟩

theorem FlagStep.of_context (env : Env) (t : Nat) (s : Mesh) (e : Nat)
    (q : Int × Mesh × Context) (h : UpdateContext env s e = .ok q) : FlagStep t s q.2.1 := by
  have hf := UpdateContext_nodeframe env s e q h
  obtain ⟨mids, hstep, hmids⟩ := UpdateContext_frame env (fun _ => True) s e q h
  refine ⟨hf.nf_field Mesh.TAG, hf.nf_field Mesh.MARK, hf.nf_field Mesh.MARKCLASS,
    hf.nf_field Mesh.NSONS, hf.nf_field Mesh.SON, hf.nf_field Mesh.EFATHER,
    hf.nf_field Mesh.ECLASS, hf.nf_field Mesh.elemPool, hf.nf_field Mesh.SUCCE,
    fun a _ => ⟨?_, ?_, ?_, ?_⟩, mids, hstep.2, fun f son hm => ?_⟩
  · exact congrFun (hf.nf_field Mesh.REFINE) a
  · exact congrFun (hf.nf_field Mesh.REFINECLASS) a
  · exact congrFun (hf.nf_field Mesh.USED) a
  · exact congrFun (hf.nf_field Mesh.COARSEN) a
  · obtain ⟨e1, j, x, hx⟩ := hmids _ hm
    contradiction

theorem FlagStep.of_flags (t : Nat) (s : Mesh) : FlagStep t s (RefineGrid_flags t s) := by
  unfold RefineGrid_flags
  dsimp only
  exact ⟨rfl, rfl, rfl, rfl, rfl, rfl, rfl, rfl, rfl,
    fun a ha => ⟨upd_other _ _ _ _ ha, upd_other _ _ _ _ ha, upd_other _ _ _ _ ha, rfl⟩,
    [], by simp, fun _ _ h => by simp at h⟩

theorem FlagStep.of_count (t : Nat) (s : Mesh) : FlagStep t s (RefineGrid_count t s) := by
  unfold RefineGrid_count SETCOARSEN
  dsimp only
  split_ifs <;>
  exact ⟨rfl, rfl, rfl, rfl, rfl, rfl, rfl, rfl, rfl,
    fun a ha => ⟨rfl, rfl, rfl, upd_other _ _ _ _ ha⟩,
    [], by simp, fun _ _ h => by simp at h⟩

theorem RefineGrid_count_flags (t : Nat) (s : Mesh) :
    (RefineGrid_count t s).REFINE = s.REFINE ∧
    (RefineGrid_count t s).REFINECLASS = s.REFINECLASS := by
  unfold RefineGrid_count SETCOARSEN
  dsimp only
  split_ifs <;> exact ⟨rfl, rfl⟩

theorem UnrefineElement_noop (env : Env) (fu : Nat) (s : Mesh) (g e : Nat)
    (h : s.REFINE e = env.NO_REFINEMENT) (p : Int × Mesh)
    (hp : UnrefineElement env fu s g e = .ok p) : p = (GM_OK, s) := by
  cases fu with
  | zero => unfold UnrefineElement at hp; contradiction
  | succ k =>
    unfold UnrefineElement at hp
    rw [if_pos (Or.inl h)] at hp
    simp only [Except.ok.injEq] at hp
    exact hp.symm

theorem getD_not_mem_drop (l : List Nat) (i n : Nat) (hnd : l.Nodup) (hi : i < n)
    (hn : n ≤ l.length) : l.getD i 0 ∉ l.drop n := by
  intro hm
  have h3 : (l.take n ++ l.drop n).Nodup := by rw [List.take_append_drop]; exact hnd
  exact (List.nodup_append.1 h3).2.2 (getD_mem_take l n i 0 hi hn) hm

/-- The statement `if (IS_TO_REFINE(theElement)) switch (MARKCLASS(theElement)) ...` of
`RefineGrid` in 2-D with `RefineElementRed` itself as the callee, when it runs through. -/
theorem RefineGrid_refine_built (env : Env) (fu : Nat) (hdim : env.DIM = 2) (t : Nat)
    (ctx : Context) (z s3 : Mesh) (hnd : z.elemPool.Nodup) (ht : t ∉ z.elemPool)
    (h : RefineGrid_refine (withCallees env fu) t ctx z = .next s3) :
    (z.MARK t = env.NO_REFINEMENT ∧ s3 = z) ∨
    (z.MARK t ≠ env.NO_REFINEMENT ∧
      SonsBuilt env t (env.NSONS_OF_RULE (z.TAG t) (z.MARK t))
        (logCall z (Event.RefineElementRed t)) s3) := by
  have hred : ∀ y, z.MARK t ≠ env.NO_REFINEMENT →
      RefineGrid_red (withCallees env fu) t ctx z = .next y →
      SonsBuilt env t (env.NSONS_OF_RULE (z.TAG t) (z.MARK t))
        (logCall z (Event.RefineElementRed t)) y := by
    intro y hm hy
    unfold RefineGrid_red at hy
    split at hy
    · contradiction
    · rename_i p hp
      split at hy
      · contradiction
      · rename_i hc
        rw [not_not] at hc
        simp only [LoopRes.next.injEq] at hy
        subst hy
        have hp2 : RefineElementRed env (logCall z (Event.RefineElementRed t)) t ctx =
            .ok (GM_OK, p.2) := by
          rw [← hc]; exact hp
        exact RefineElementRed_built env (logCall z (Event.RefineElementRed t)) p.2 t ctx hm
          hnd ht hp2
  unfold RefineGrid_refine at h
  have e1 : (withCallees env fu).NO_REFINEMENT = env.NO_REFINEMENT := rfl
  have e2 : (withCallees env fu).DIM = env.DIM := rfl
  rw [e1, e2] at h
  by_cases hm : z.MARK t = env.NO_REFINEMENT
  · left
    rw [if_neg (not_not.mpr hm)] at h
    simp only [LoopRes.next.injEq] at h
    exact ⟨hm, h.symm⟩
  · right
    rw [if_pos hm] at h
    refine ⟨hm, ?_⟩
    split at h
    · exact hred s3 hm h
    · rw [if_neg (fun hk => by have : env.DIM = 3 := hk.1; omega)] at h
      exact hred s3 hm h
    · exact hred s3 hm h
    · contradiction

/-- The part of a round of `RefineGrid` that rebuilds the sons of an element that is not
refined, in 2-D with `UnrefineElement` and `RefineElementRed` themselves as the callees:
steps that build no sons, then possibly one call of `RefineElementRed`, then the
statements "refine and refineclass flag". -/
theorem RefineGrid_rebuild_built (env : Env) (fu : Nat) (hdim : env.DIM = 2) (t : Nat)
    (x s1 : Mesh) (hnd : x.elemPool.Nodup) (ht : t ∉ x.elemPool)
    (href : x.REFINE t = env.NO_REFINEMENT)
    (h : RefineGrid_rebuild (withCallees env fu) t x = .next s1) :
    ∃ z s3, FlagStep t x z ∧ s1 = RefineGrid_flags t s3 ∧
      ((x.MARK t = env.NO_REFINEMENT ∧ s3 = z) ∨
        (x.MARK t ≠ env.NO_REFINEMENT ∧
          SonsBuilt env t (env.NSONS_OF_RULE (x.TAG t) (x.MARK t)) z s3)) := by
  unfold RefineGrid_rebuild at h
  split at h
  · contradiction
  · rename_i p hp
    have hp1 : p = (GM_OK, logCall x (Event.UnrefineElement t)) :=
      UnrefineElement_noop env fu (logCall x (Event.UnrefineElement t)) _ t href p hp
    subst hp1
    rw [if_neg (fun hk => hk rfl)] at h
    dsimp only at h
    split at h
    · contradiction
    · rename_i q hq
      split at h
      · contradiction
      · split at h
        · rename_i s3 hs3
          simp only [LoopRes.next.injEq] at h
          have f1 : FlagStep t x (logCall x (Event.UnrefineElement t)) :=
            FlagStep.fs_of_log t x _ (fun _ _ hk => by contradiction)
          have f2 : FlagStep t (logCall x (Event.UnrefineElement t))
              (logCall (logCall x (Event.UnrefineElement t)) (Event.UpdateContext t)) :=
            FlagStep.fs_of_log t _ _ (fun _ _ hk => by contradiction)
          have f3 : FlagStep t x q.2.1 :=
            (f1.fs_trans f2).fs_trans (FlagStep.of_context _ t _ t q hq)
          have hpool : q.2.1.elemPool = x.elemPool := f3.2.2.2.2.2.2.2.1
          have hM : q.2.1.MARK = x.MARK := f3.2.1
          have hT : q.2.1.TAG = x.TAG := f3.1
          rcases RefineGrid_refine_built env fu hdim t q.2.2 q.2.1 s3
              (by rw [hpool]; exact hnd) (by rw [hpool]; exact ht) hs3 with ⟨hm, hz⟩ | ⟨hm, hz⟩
          · exact ⟨q.2.1, s3, f3, h.symm, Or.inl ⟨by rw [← hM]; exact hm, hz⟩⟩
          · refine ⟨logCall q.2.1 (Event.RefineElementRed t), s3,
              f3.fs_trans (FlagStep.fs_of_log t _ _ (fun _ _ hk => by contradiction)), h.symm,
              Or.inr ⟨by rw [← hM]; exact hm, ?_⟩⟩
            rw [← hM, ← hT]
            exact hz
        · contradiction
        · contradiction

theorem mem_take_getD (l : List Nat) (n a : Nat) (h : a ∈ l.take n) :
    ∃ i, i < n ∧ l.getD i 0 = a := by
  obtain ⟨i, hi, hia⟩ := List.getElem_of_mem h
  have hlen : i < n ∧ i < l.length := by
    rw [List.length_take] at hi
    omega
  refine ⟨i, hlen.1, ?_⟩
  rw [List.getElem_take] at hia
  rw [List.getD_eq_getElem?_getD, List.getElem?_eq_getElem hlen.2]
  exact hia

theorem SonsBuilt.sb_to_round {env : Env} {t : Nat} {x z s3 y : Mesh} (hdim : env.DIM = 2)
    (hnd : x.elemPool.Nodup) (ht : t ∉ x.elemPool)
    (f1 : FlagStep t x z)
    (hb : SonsBuilt env t (env.NSONS_OF_RULE (x.TAG t) (x.MARK t)) z s3)
    (f2 : FlagStep t s3 y) (hm : x.MARK t ≠ env.NO_REFINEMENT) : PassRound env t x y := by
  obtain ⟨a1, a2, a3, a4, a5, a6, a7, a8, a9, a10, ev1, a11, a12⟩ := f1
  obtain ⟨b1, b2, b3, b4, b5, b6, b7, b8, b9, b10, ev2, b11, b12⟩ := f2
  obtain ⟨cF, clen, cpool, cK, ⟨c1, c2, c3, _, _⟩, cn, cson, cnew, ctr⟩ := hb
  rw [a8] at clen cpool cK cson cnew ctr
  have hS : s3.SUCCE = z.SUCCE := cF.cr_field Mesh.SUCCE
  have hne : ∀ i, i < env.NSONS_OF_RULE (x.TAG t) (x.MARK t) → x.elemPool.getD i 0 ≠ t :=
    fun i hi hk => ht (hk ▸ List.mem_of_mem_take (getD_mem_take x.elemPool _ i 0 hi clen))
  have f1 : FlagStep t x z := ⟨a1, a2, a3, a4, a5, a6, a7, a8, a9, a10, ev1, a11, a12⟩
  have f2 : FlagStep t s3 y := ⟨b1, b2, b3, b4, b5, b6, b7, b8, b9, b10, ev2, b11, b12⟩
  refine ⟨by rw [b9, hS, a9], ⟨_, by rw [b8, cpool]⟩, ?_, ⟨?_, ?_, ?_⟩, ?_, ?_⟩
  · intro a ha hap
    exact ((f1.fs_keeps a ha).ke_trans (cK a ha (fun hk => hap (List.mem_of_mem_take hk)))).ke_trans
      (f2.fs_keeps a ha)
  · rw [b1, c1, a1]
  · rw [b2, c2, a2]
  · rw [b3, c3, a3]
  · refine ⟨ev1 ++ (x.elemPool.take (env.NSONS_OF_RULE (x.TAG t) (x.MARK t))).map
      (Event.CreateElement t) ++ ev2, ?_, ?_⟩
    · rw [b11, ctr, a11, List.append_assoc, List.append_assoc, List.append_assoc]
    · refine ⟨fun f son hmem => ?_, fun son hmem => ?_⟩
      · rcases List.mem_append.1 hmem with hk | hk
        · rcases List.mem_append.1 hk with hk1 | hk1
          · exact absurd hk1 (a12 f son)
          · obtain ⟨a, _, ha⟩ := List.mem_map.1 hk1
            injection ha with h1 h2
            exact ⟨h1.symm, hm⟩
        · exact absurd hk (b12 f son)
      · rcases List.mem_append.1 hmem with hk | hk
        · rcases List.mem_append.1 hk with hk1 | hk1
          · exact absurd hk1 (a12 t son)
          · obtain ⟨a, hat, ha⟩ := List.mem_map.1 hk1
            injection ha with _ h2
            subst h2
            obtain ⟨i, hi, hia⟩ := mem_take_getD x.elemPool _ a hat
            subst hia
            refine ⟨List.mem_of_mem_take hat, ?_, ?_⟩
            · rw [b8, cpool]
              exact getD_not_mem_drop x.elemPool i _ hnd hi clen
            · have := (cnew i hi).of_keeps (f2.fs_keeps _ (hne i hi))
              rw [show z.MARKCLASS t = x.MARKCLASS t by rw [a3]] at this
              exact this
        · exact absurd hk (b12 t son)
  · intro _ _
    have hn : y.NSONS t = env.NSONS_OF_RULE (x.TAG t) (x.MARK t) := by rw [b4, cn]
    refine ⟨hn, by rw [hn]; exact clen, fun i hi => ?_⟩
    rw [hn] at hi
    refine ⟨by rw [b5, cson hdim i hi], ?_, ?_⟩
    · rw [b8, cpool]
      exact getD_not_mem_drop x.elemPool i _ hnd hi clen
    · have := (cnew i hi).of_keeps (f2.fs_keeps _ (hne i hi))
      rw [show z.MARKCLASS t = x.MARKCLASS t by rw [a3]] at this
      exact this

theorem FlagStep.fs_to_round {env : Env} {t : Nat} {x y : Mesh} (f : FlagStep t x y)
    (hno : REF_TYPE_CHANGES x t → x.MARK t = env.NO_REFINEMENT) : PassRound env t x y := by
  obtain ⟨a1, a2, a3, a4, a5, a6, a7, a8, a9, a10, ev1, a11, a12⟩ := f
  have f : FlagStep t x y := ⟨a1, a2, a3, a4, a5, a6, a7, a8, a9, a10, ev1, a11, a12⟩
  refine ⟨a9, ⟨0, by rw [a8]; rfl⟩, fun a ha _ => f.fs_keeps a ha,
    ⟨by rw [a1], by rw [a2], by rw [a3]⟩,
    ⟨ev1, a11, fun f son hm => absurd hm (a12 f son), fun son hm => absurd hm (a12 t son)⟩,
    fun h1 h2 => absurd (hno h1) h2⟩

/-- A round of `RefineGrid` in 2-D closure mode, with `UnrefineElement` and
`RefineElementRed` themselves as the callees, for an element of a level that was not
refined before the pass. -/
theorem RefineGrid_element_round (env : Env) (fu : Nat) (L : Nat → Prop) (hdim : env.DIM = 2)
    (hh : env.hFlag ≠ 0) (t : Nat) (x y : Mesh) (hI : PassInv env L x) (ht : L t)
    (hb : RefineGrid_element (withCallees env fu) t x = .next y) :
    PassInv env L y ∧ PassRound env t x y := by
  obtain ⟨hnd, hLp, hset⟩ := hI
  have htp : t ∉ x.elemPool := hLp t ht
  have inv : PassRound env t x y →
      ¬ (y.REFINE t ≠ y.MARK t ∨ y.REFINECLASS t ≠ y.MARKCLASS t) → PassInv env L y := by
    intro hr hset_t
    obtain ⟨_, ⟨k, hk⟩, hK, _, _, _⟩ := hr
    refine ⟨?_, ?_, ?_⟩
    · rw [hk]; exact List.Nodup.sublist (List.drop_sublist _ _) hnd
    · intro a ha hm
      rw [hk] at hm
      exact hLp a ha (List.mem_of_mem_drop hm)
    · intro a ha hra
      by_cases hat : a = t
      · subst hat; exact hset_t
      · obtain ⟨_, k2, k3, k4, k5, _⟩ := hK a hat (hLp a ha)
        unfold REF_TYPE_CHANGES
        rw [k2, k3, k4, k5]
        rw [k4] at hra
        exact hset a ha hra
  unfold RefineGrid_element at hb
  have e1 : (withCallees env fu).hFlag = env.hFlag := rfl
  by_cases hre : TO_REBUILD (withCallees env fu) x t
  · rw [if_pos hre, e1, if_neg (fun hk => hh hk.1)] at hb
    have hch : REF_TYPE_CHANGES x t := by
      rcases hre with h | h
      · exact h
      · have : env.DIM = 3 := h.1
        omega
    have href : x.REFINE t = env.NO_REFINEMENT := by
      by_contra hk
      exact hset t ht hk hch
    split at hb
    · rename_i s1 hs1
      simp only [LoopRes.next.injEq] at hb
      obtain ⟨z, s3, f1, hfl, hcase⟩ :=
        RefineGrid_rebuild_built env fu hdim t x s1 hnd htp href hs1
      have f2 : FlagStep t s3 y := by
        rw [← hb, hfl]
        exact (FlagStep.of_flags t s3).fs_trans (FlagStep.of_count t _)
      have hyR : y.REFINE t = s3.MARK t ∧ y.REFINECLASS t = s3.MARKCLASS t := by
        rw [← hb, hfl, (RefineGrid_count_flags t _).1, (RefineGrid_count_flags t _).2]
        unfold RefineGrid_flags
        exact ⟨upd_same _ _ _, upd_same _ _ _⟩
      have hyM : y.MARK t = s3.MARK t ∧ y.MARKCLASS t = s3.MARKCLASS t := by
        rw [f2.2.1, f2.2.2.1]; exact ⟨rfl, rfl⟩
      have hsett : ¬ (y.REFINE t ≠ y.MARK t ∨ y.REFINECLASS t ≠ y.MARKCLASS t) := by
        rw [hyR.1, hyR.2, hyM.1, hyM.2]
        simp
      have hround : PassRound env t x y := by
        rcases hcase with ⟨hm, hz⟩ | ⟨hm, hz⟩
        · subst hz
          exact (f1.fs_trans f2).fs_to_round (fun _ => hm)
        · exact hz.sb_to_round hdim hnd htp f1 f2 hm
      exact ⟨inv hround hsett, hround⟩
    · contradiction
    · contradiction
  · rw [if_neg hre] at hb
    have hnch : ¬ REF_TYPE_CHANGES x t := fun hk => hre (Or.inl hk)
    have f0 : FlagStep t x { x with No_Green_Update := x.No_Green_Update + 1 } :=
      ⟨rfl, rfl, rfl, rfl, rfl, rfl, rfl, rfl, rfl, fun _ _ => ⟨rfl, rfl, rfl, rfl⟩,
        [], by simp, fun _ _ h => by simp at h⟩
    have f : FlagStep t x y := by
      split_ifs at hb <;> simp only [LoopRes.next.injEq] at hb <;> rw [← hb]
      · exact f0.fs_trans (FlagStep.of_count t _)
      · exact FlagStep.of_count t x
    have hyR : y.REFINE t = x.REFINE t ∧ y.REFINECLASS t = x.REFINECLASS t := by
      split_ifs at hb <;> simp only [LoopRes.next.injEq] at hb <;> rw [← hb] <;>
        rw [(RefineGrid_count_flags t _).1, (RefineGrid_count_flags t _).2] <;>
        exact ⟨rfl, rfl⟩
    have hround : PassRound env t x y := f.fs_to_round (fun hk => absurd hk hnch)
    refine ⟨inv hround ?_, hround⟩
    rw [hyR.1, hyR.2, f.2.1, f.2.2.1]
    exact hnch

/-! ## A pass of `RefineGrid` over a level that was not refined before -/

theorem Rounds.frame_inv {σ : Type} {body : Nat → σ → LoopRes σ} {P : Nat → Prop}
    (I : σ → Prop) (R : σ → σ → Prop) (hrefl : ∀ x, R x x)
    (htrans : ∀ x y z, R x y → R y z → R x z)
    (hstep : ∀ e x x1, I x → P e → body e x = .next x1 → I x1 ∧ R x x1) {x y : σ}
    (h : Rounds body P x y) : I x → I y ∧ R x y := by
  induction h with
  | done x => exact fun hx => ⟨hx, hrefl x⟩
  | round e x x1 y hP hb _ ih =>
    intro hx
    obtain ⟨h1, r1⟩ := hstep e x x1 hx hP hb
    obtain ⟨h2, r2⟩ := ih h1
    exact ⟨h2, htrans x x1 y r1 r2⟩

theorem forElements_rounds_inv {σ : Type} (link : σ → Nat → Nat) (body : Nat → σ → LoopRes σ)
    (I : σ → Prop) (P : Nat → Prop)
    (hstep : ∀ e x y, P e → I x → body e x = .next y → I y ∧ link y = link x) :
    ∀ (fuel e0 : Nat) (x y : σ), (∀ e, OnList (link x) e0 e → P e) → I x →
      forElements link body fuel e0 x = .next y →
      (∃ n, EndsIn (link x) n e0) ∧
      Rounds body (fun e' => OnList (link x) e0 e') x y ∧ ∀ e, OnList (link x) e0 e →
      ∃ x0 x1, Rounds body (fun e' => e' ≠ e ∧ OnList (link x) e0 e') x x0 ∧
        body e x0 = .next x1 ∧
        Rounds body (fun e' => e' ≠ e ∧ OnList (link x) e0 e') x1 y := by
  intro fuel
  induction fuel with
  | zero =>
    intro e0 x y _ _ hf
    unfold forElements at hf
    split at hf
    · rename_i he
      simp only [LoopRes.next.injEq] at hf; subst hf; subst he
      exact ⟨⟨0, EndsIn.nil⟩, Rounds.done x, fun e he => absurd rfl he.ne_zero⟩
    · contradiction
  | succ k ih =>
    intro e x y hP hI hf
    unfold forElements at hf
    split at hf
    · rename_i he
      simp only [LoopRes.next.injEq] at hf; subst hf; subst he
      exact ⟨⟨0, EndsIn.nil⟩, Rounds.done x, fun e he => absurd rfl he.ne_zero⟩
    · rename_i he
      cases hb : body e x with
      | ret c z => rw [hb] at hf; contradiction
      | stop r => rw [hb] at hf; contradiction
      | next x1 =>
        rw [hb] at hf
        obtain ⟨hI1, hL⟩ := hstep e x x1 (hP e (OnList.head e he)) hI hb
        have hpost := ih (link x1 e) x1 y
          (fun e' h' => hP e' (OnList.tail e e' he (by rw [← hL]; exact h'))) hI1 hf
        rw [hL] at hpost
        obtain ⟨⟨n, hn⟩, hall, hrec⟩ := hpost
        have hends : EndsIn (link x) (n + 1) e := EndsIn.step n e he hn
        have hnot : ¬ OnList (link x) (link x e) e := hends.not_again
        refine ⟨⟨n + 1, hends⟩, ?_, ?_⟩
        · exact Rounds.round e x x1 y (OnList.head e he) hb
            (hall.weaken (fun e' h => OnList.tail e e' he h))
        · intro e' he'
          rcases he'.cases_on_first with hh | hh
          · subst hh
            refine ⟨x, x1, Rounds.done x, hb,
              hall.weaken (fun e'' h => ⟨?_, OnList.tail _ e'' he h⟩)⟩
            intro hk
            rw [hk] at h
            exact hnot h
          · have hne : e ≠ e' := fun hk => hnot (by rw [← hk] at hh; exact hh)
            obtain ⟨x0, x1', r1, hb', r2⟩ := hrec e' hh
            exact ⟨x0, x1', Rounds.round e x x1 x0 ⟨hne, OnList.head e he⟩ hb
                (r1.weaken (fun e'' h => ⟨h.1, OnList.tail e e'' he h.2⟩)), hb',
              r2.weaken (fun e'' h => ⟨h.1, OnList.tail e e'' he h.2⟩)⟩

theorem PassOthers.po_refl (L : Nat → Prop) (e : Nat) (x : Mesh) : PassOthers L e x x :=
  ⟨rfl, ⟨0, rfl⟩, fun a _ _ => KeepsElement.ke_refl x a, [], by simp,
    fun _ _ h => by simp at h⟩

theorem PassOthers.po_trans {L : Nat → Prop} {e : Nat} {x y z : Mesh}
    (h1 : PassOthers L e x y) (h2 : PassOthers L e y z) : PassOthers L e x z := by
  obtain ⟨a1, ⟨k1, a2⟩, a3, ev1, a4, a5⟩ := h1
  obtain ⟨b1, ⟨k2, b2⟩, b3, ev2, b4, b5⟩ := h2
  refine ⟨b1.trans a1, ⟨k1 + k2, ?_⟩, ?_, ev1 ++ ev2, ?_, ?_⟩
  · rw [b2, a2, List.drop_drop, Nat.add_comm]
  · intro a ha hae
    have hay : a ∉ y.elemPool := by
      rw [a2]; exact fun hm => ha (List.mem_of_mem_drop hm)
    exact (a3 a ha hae).ke_trans (b3 a hay hae)
  · rw [b4, a4, List.append_assoc]
  · intro f son hm
    rcases List.mem_append.1 hm with hk | hk
    · exact a5 f son hk
    · exact b5 f son hk

theorem PassRound.to_others {env : Env} {L : Nat → Prop} {t e : Nat} {x y : Mesh}
    (h : PassRound env t x y) (ht : L t) (hte : t ≠ e) : PassOthers L e x y := by
  obtain ⟨a1, a2, a3, _, ⟨ev, a5, a6⟩, _⟩ := h
  refine ⟨a1, a2, fun a ha hae => a3 a ?_ ha, ev, a5, fun f son hm => ?_⟩
  · rcases hae with hk | hk
    · rw [hk]; exact fun h2 => hte h2.symm
    · exact fun h2 => hk (h2 ▸ ht)
  · rw [(a6.1 f son hm).1]; exact hte

/-- A pass of `RefineGrid` in 2-D closure mode that returns `GM_OK`, with `UnrefineElement`
and `RefineElementRed` themselves as the callees, seen from an element `e` of the level:
rounds for other elements, the round of `e`, rounds for other elements. -/
theorem RefineGrid_pass_at (env : Env) (fu fuel : Nat) (hdim : env.DIM = 2)
    (hh : env.hFlag ≠ 0) (sc s2 : Mesh) (hI : PassInv env (OnLevel sc) sc)
    (hrun : RefineGrid (withCallees env fu) fuel sc = .ok (GM_OK, s2))
    (e : Nat) (he : OnLevel sc e) :
    ∃ x0 x1, PassInv env (OnLevel sc) x0 ∧ PassOthers (OnLevel sc) e sc x0 ∧
      PassRound env e x0 x1 ∧ PassOthers (OnLevel sc) e x1 s2 := by
  unfold RefineGrid at hrun
  split_ifs at hrun with hup
  · simp only [Except.ok.injEq, Prod.mk.injEq] at hrun
    exact absurd hrun.1 (by decide)
  · dsimp only at hrun
    have hI0 : PassInv env (OnLevel sc) { sc with GRID_CHANGED := false } := hI
    split at hrun
    · rename_i y hy
      simp only [Except.ok.injEq, Prod.mk.injEq, true_and] at hrun
      subst hrun
      obtain ⟨_, _, hrec⟩ := forElements_rounds_inv (fun z : Mesh => z.SUCCE)
        (RefineGrid_element (withCallees env fu)) (PassInv env (OnLevel sc)) (OnLevel sc)
        (fun t a b ht ha hb =>
          ⟨(RefineGrid_element_round env fu _ hdim hh t a b ha ht hb).1,
            (RefineGrid_element_round env fu _ hdim hh t a b ha ht hb).2.1⟩)
        fuel sc.FIRSTELEMENT { sc with GRID_CHANGED := false } y (fun e' h' => h') hI0 hy
      obtain ⟨x0, x1, r1, hb, r2⟩ := hrec e he
      have hothers : ∀ a b : Mesh, Rounds (RefineGrid_element (withCallees env fu))
          (fun e' => e' ≠ e ∧ OnLevel sc e') a b → PassInv env (OnLevel sc) a →
          PassInv env (OnLevel sc) b ∧ PassOthers (OnLevel sc) e a b := by
        intro a b hr
        exact Rounds.frame_inv (PassInv env (OnLevel sc)) (PassOthers (OnLevel sc) e)
          (fun z => PassOthers.po_refl _ e z) (fun _ _ _ h1 h2 => h1.po_trans h2)
          (fun t a b ha hP hb' =>
            ⟨(RefineGrid_element_round env fu _ hdim hh t a b ha hP.2 hb').1,
              (RefineGrid_element_round env fu _ hdim hh t a b ha hP.2 hb').2.to_others
                hP.2 hP.1⟩) hr
      obtain ⟨i0, o1⟩ := hothers _ x0 r1 hI0
      obtain ⟨i1, pr⟩ := RefineGrid_element_round env fu _ hdim hh e x0 x1 i0 he hb
      obtain ⟨_, o2⟩ := hothers x1 y r2 i1
      exact ⟨x0, x1, i0, o1, pr, o2⟩
    · rename_i c y hy
      simp only [Except.ok.injEq, Prod.mk.injEq] at hrun
      have hc := forElements_ret_code _ _ (fun c => c = GM_FATAL)
        (fun e' a c' b hb => RefineGrid_element_ret _ e' a c' b hb) _ _ _ c y hy
      rw [hc] at hrun
      exact absurd hrun.1 (by decide)
    · contradiction

theorem getD_inj_of_nodup (l : List Nat) (hnd : l.Nodup) (i j : Nat) (hi : i < l.length)
    (hj : j < l.length) (h : l.getD i 0 = l.getD j 0) : i = j := by
  rw [List.getD_eq_getElem _ _ hi, List.getD_eq_getElem _ _ hj] at h
  exact (List.Nodup.getElem_inj_iff hnd).1 h

/-- In a pass of `RefineGrid` in 2-D closure mode that returns `GM_OK`, an element of the
level that is to be rebuilt and has a mark ends with the sons of its rule: distinct
elements with the class of the mark of the father. -/
theorem RefineGrid_builds_sons (env : Env) (fu fuel : Nat) (hdim : env.DIM = 2)
    (hh : env.hFlag ≠ 0) (sc s2 : Mesh) (hI : PassInv env (OnLevel sc) sc)
    (hrun : RefineGrid (withCallees env fu) fuel sc = .ok (GM_OK, s2))
    (e : Nat) (he : OnLevel sc e) (hch : REF_TYPE_CHANGES sc e)
    (hm : sc.MARK e ≠ env.NO_REFINEMENT) :
    s2.MARKCLASS e = sc.MARKCLASS e ∧
    s2.NSONS e = env.NSONS_OF_RULE (sc.TAG e) (sc.MARK e) ∧
    (∀ i, i < s2.NSONS e → NewSon env s2 e (sc.MARKCLASS e) (s2.SON e i)) ∧
    (∀ i j, i < s2.NSONS e → j < s2.NSONS e → s2.SON e i = s2.SON e j → i = j) := by
  obtain ⟨x0, x1, i0, o1, pr, o2⟩ := RefineGrid_pass_at env fu fuel hdim hh sc s2 hI hrun e he
  obtain ⟨_, _, k1, _⟩ := o1
  have ke0 := k1 e (hI.2.1 e he) (Or.inl rfl)
  obtain ⟨t1, t2, t3, t4, t5, _⟩ := ke0
  have hch0 : REF_TYPE_CHANGES x0 e := by
    unfold REF_TYPE_CHANGES at hch ⊢
    rw [t4, t2, t5, t3]; exact hch
  have hm0 : x0.MARK e ≠ env.NO_REFINEMENT := by rw [t2]; exact hm
  obtain ⟨_, ⟨k, hk⟩, _, ⟨_, _, p3⟩, _, psons⟩ := pr
  obtain ⟨n1, n2, n3⟩ := psons hch0 hm0
  obtain ⟨_, _, k2, _⟩ := o2
  have hep1 : e ∉ x1.elemPool := by
    rw [hk]; exact fun hmem => i0.2.1 e he (List.mem_of_mem_drop hmem)
  obtain ⟨_, _, u3, _, _, _, u7, u8, _⟩ := k2 e hep1 (Or.inl rfl)
  have hN : s2.NSONS e = x1.NSONS e := u7
  refine ⟨by rw [u3, p3, t3], by rw [hN, n1, t1, t2], fun i hi => ?_, fun i j hi hj hij => ?_⟩
  · rw [hN] at hi
    obtain ⟨q1, q2, q3⟩ := n3 i hi
    have hmem : x0.elemPool.getD i 0 ∈ x0.elemPool := by
      rw [List.getD_eq_getElem _ _ (by omega)]; exact List.getElem_mem _
    have hnl : ¬ OnLevel sc (x0.elemPool.getD i 0) := fun hl => i0.2.1 _ hl hmem
    rw [u8, q1, ← t3]
    exact q3.of_keeps (k2 _ q2 (Or.inr hnl))
  · rw [hN] at hi hj
    rw [u8, (n3 i hi).1, (n3 j hj).1] at hij
    exact getD_inj_of_nodup x0.elemPool i0.1 i j (by omega) (by omega) hij

/-- In a pass of `RefineGrid` in 2-D closure mode that returns `GM_OK`, no call of
`CreateElement` is made for an element of the level without a mark. -/
theorem RefineGrid_no_sons (env : Env) (fu fuel : Nat) (hdim : env.DIM = 2)
    (hh : env.hFlag ≠ 0) (sc s2 : Mesh) (hI : PassInv env (OnLevel sc) sc)
    (hrun : RefineGrid (withCallees env fu) fuel sc = .ok (GM_OK, s2))
    (e : Nat) (he : OnLevel sc e) (hm : sc.MARK e = env.NO_REFINEMENT) :
    ∃ ev, s2.trace = sc.trace ++ ev ∧ ∀ son, Event.CreateElement e son ∉ ev := by
  obtain ⟨x0, x1, i0, o1, pr, o2⟩ := RefineGrid_pass_at env fu fuel hdim hh sc s2 hI hrun e he
  obtain ⟨_, _, k1, ev1, a1, a2⟩ := o1
  obtain ⟨_, t2, _⟩ := k1 e (hI.2.1 e he) (Or.inl rfl)
  obtain ⟨_, _, _, _, ⟨ev, b1, b2⟩, _⟩ := pr
  obtain ⟨_, _, _, ev2, c1, c2⟩ := o2
  refine ⟨ev1 ++ ev ++ ev2, by rw [c1, b1, a1, List.append_assoc, List.append_assoc,
    List.append_assoc], fun son hmem => ?_⟩
  rcases List.mem_append.1 hmem with hk | hk
  · rcases List.mem_append.1 hk with hk1 | hk1
    · exact a2 e son hk1 rfl
    · exact (b2.1 e son hk1).2 (by rw [t2]; exact hm)
  · exact c2 e son hk rfl

/-! ## `ComputeCopies` -/

/-- A call of `ComputeCopies` that returns gives `GM_OK`; it writes `MARK` and `MARKCLASS`
only, and only for elements without a mark: such an element either stays as it is or gets
the rule `COPY` and the class yellow. -/
theorem ComputeCopies_spec (env : Env) (fuel : Nat) (s y : Mesh) (c : Int)
    (h : ComputeCopies env fuel s = .ok (c, y)) :
    c = GM_OK ∧ RuleFrame s y ∧
    ∀ e, (y.MARK e = s.MARK e ∧ y.MARKCLASS e = s.MARKCLASS e) ∨
      (s.MARK e = env.NO_REFINEMENT ∧ y.MARK e = env.COPY ∧
        y.MARKCLASS e = CLASS.YELLOW_CLASS) := by
  have hseed : ∀ e x c' z, ComputeCopies_seed env s e x ≠ .ret c' z := by
    intro e x c' z hk
    unfold ComputeCopies_seed at hk
    split at hk <;> contradiction
  have hall : ∀ e x c' z, ComputeCopies_all env s e x ≠ .ret c' z := by
    intro e x c' z hk
    unfold ComputeCopies_all at hk
    contradiction
  have hcopy : ∀ vn e x c' z, ComputeCopies_copy env vn e x ≠ .ret c' z := by
    intro vn e x c' z hk
    unfold ComputeCopies_copy at hk
    split at hk <;> contradiction
  have hnoret : ∀ {σ : Type} (link : σ → Nat → Nat) (body : Nat → σ → LoopRes σ),
      (∀ e x c' z, body e x ≠ .ret c' z) → ∀ fu e0 x0 c' z,
      forElements link body fu e0 x0 ≠ .ret c' z := by
    intro σ link body hb fu e0 x0 c' z hk
    exact forElements_ret_code link body (fun _ => False)
      (fun e x c'' z' hbk => absurd hbk (hb e x c'' z')) fu e0 x0 c' z hk
  unfold ComputeCopies at h
  dsimp only at h
  split at h
  · rename_i c' z hk
    exact absurd hk (hnoret _ _ hseed _ _ _ _ _)
  · contradiction
  · rename_i x1 _
    split at h
    · rename_i c' z hk
      split_ifs at hk
      · exact absurd hk (hnoret _ _ hall _ _ _ _ _)
    · contradiction
    · rename_i vn _
      split at h
      · rename_i c' z hk
        exact absurd hk (hnoret _ _ (hcopy vn) _ _ _ _ _)
      · contradiction
      · rename_i z hz
        simp only [Except.ok.injEq, Prod.mk.injEq] at h
        obtain ⟨h1, h2⟩ := h
        subst h2
        refine ⟨h1.symm, ?_⟩
        refine forElements_next_inv (fun y : Mesh => y.SUCCE) (ComputeCopies_copy env vn)
          (fun x => RuleFrame s x ∧
            ∀ e, (x.MARK e = s.MARK e ∧ x.MARKCLASS e = s.MARKCLASS e) ∨
              (s.MARK e = env.NO_REFINEMENT ∧ x.MARK e = env.COPY ∧
                x.MARKCLASS e = CLASS.YELLOW_CLASS))
          ?_ fuel s.FIRSTELEMENT s z ⟨RuleFrame.rule_refl s, fun e => Or.inl ⟨rfl, rfl⟩⟩ hz
        intro e x x' hx hb
        unfold ComputeCopies_copy at hb
        split at hb
        · rename_i hc
          simp only [LoopRes.next.injEq] at hb
          subst hb
          refine ⟨hx.1.rule_trans (show RuleFrame x _ from rfl), fun e' => ?_⟩
          by_cases hee : e' = e
          · subst hee
            right
            refine ⟨?_, ?_, ?_⟩
            · rcases hx.2 e' with hk | hk
              · rw [← hk.1]; exact hc.1
              · exact hk.1
            · show upd x.MARK e' env.COPY e' = env.COPY
              unfold upd; rw [if_pos rfl]
            · show upd x.MARKCLASS e' CLASS.YELLOW_CLASS e' = CLASS.YELLOW_CLASS
              unfold upd; rw [if_pos rfl]
          · have e1 : (SETMARKCLASS (SETMARK x e env.COPY) e CLASS.YELLOW_CLASS).MARK e' =
                x.MARK e' := by
              show upd x.MARK e env.COPY e' = x.MARK e'
              unfold upd; rw [if_neg hee]
            have e2 : (SETMARKCLASS (SETMARK x e env.COPY) e CLASS.YELLOW_CLASS).MARKCLASS e' =
                x.MARKCLASS e' := by
              show upd x.MARKCLASS e CLASS.YELLOW_CLASS e' = x.MARKCLASS e'
              unfold upd; rw [if_neg hee]
            rw [e1, e2]
            exact hx.2 e'
        · simp only [LoopRes.next.injEq] at hb
          subst hb
          exact hx

/-- A pass of `RefineGrid` in 2-D closure mode that returns `GM_OK`, with `UnrefineElement`
and `RefineElementRed` themselves as the callees: every element that a call of
`CreateElement` for the father `e` has handed out is a son of `e` with the class that `e`
is marked with, and `e` has a mark. -/
theorem RefineGrid_son_classes (env : Env) (fu fuel : Nat) (hdim : env.DIM = 2)
    (hh : env.hFlag ≠ 0) (sc s2 : Mesh) (hI : PassInv env (OnLevel sc) sc)
    (hrun : RefineGrid (withCallees env fu) fuel sc = .ok (GM_OK, s2))
    (e : Nat) (he : OnLevel sc e) :
    ∃ ev, s2.trace = sc.trace ++ ev ∧ ∀ son, Event.CreateElement e son ∈ ev →
      sc.MARK e ≠ env.NO_REFINEMENT ∧ s2.EFATHER son = e ∧
      s2.ECLASS son = sc.MARKCLASS e := by
  obtain ⟨x0, x1, i0, o1, pr, o2⟩ := RefineGrid_pass_at env fu fuel hdim hh sc s2 hI hrun e he
  obtain ⟨_, _, k1, ev1, a1, a2⟩ := o1
  obtain ⟨_, t2, t3, _⟩ := k1 e (hI.2.1 e he) (Or.inl rfl)
  obtain ⟨_, _, _, _, ⟨ev, b1, b2, b3⟩, _⟩ := pr
  obtain ⟨_, _, k2, ev2, c1, c2⟩ := o2
  refine ⟨ev1 ++ ev ++ ev2, by rw [c1, b1, a1, List.append_assoc, List.append_assoc,
    List.append_assoc], fun son hmem => ?_⟩
  rcases List.mem_append.1 hmem with hk | hk
  · rcases List.mem_append.1 hk with hk1 | hk1
    · exact absurd rfl (a2 e son hk1)
    · obtain ⟨p1, p2, _, n2, n3, _⟩ := b3 son hk1
      have hnl : ¬ OnLevel sc son := fun hl => i0.2.1 son hl p1
      obtain ⟨_, _, _, _, _, _, _, _, u9, u10, _⟩ := k2 son p2 (Or.inr hnl)
      refine ⟨?_, by rw [u9]; exact n2, by rw [u10, n3, t3]⟩
      rw [← t2]
      exact (b2 e son hk1).2
  · exact absurd rfl (c2 e son hk)

/-! ## `CloseGrid` on a 2-D level with one red element -/

theorem forElements_each {σ : Type} (link : σ → Nat → Nat) (body : Nat → σ → LoopRes σ)
    (I : σ → Prop) (P : Nat → Prop) (K : σ → σ → Prop) (Q : Nat → σ → Prop)
    (hrefl : ∀ x, K x x) (htrans : ∀ x y z, K x y → K y z → K x z)
    (hlink : ∀ x y, K x y → link y = link x)
    (hkeep : ∀ e x y, K x y → Q e x → Q e y)
    (hround : ∀ e x y, P e → I x → body e x = .next y → I y ∧ K x y ∧ Q e y) :
    ∀ (fuel e0 : Nat) (x y : σ), (∀ e, OnList (link x) e0 e → P e) → I x →
      forElements link body fuel e0 x = .next y →
      I y ∧ K x y ∧ ∀ e, OnList (link x) e0 e → Q e y := by
  intro fuel
  induction fuel with
  | zero =>
    intro e0 x y _ hI hf
    unfold forElements at hf
    split at hf
    · rename_i he
      simp only [LoopRes.next.injEq] at hf; subst hf; subst he
      exact ⟨hI, hrefl x, fun e he => absurd rfl he.ne_zero⟩
    · contradiction
  | succ k ih =>
    intro e x y hP hI hf
    unfold forElements at hf
    split at hf
    · rename_i he
      simp only [LoopRes.next.injEq] at hf; subst hf; subst he
      exact ⟨hI, hrefl x, fun e he => absurd rfl he.ne_zero⟩
    · rename_i he
      cases hb : body e x with
      | ret c z => rw [hb] at hf; contradiction
      | stop r => rw [hb] at hf; contradiction
      | next x1 =>
        rw [hb] at hf
        obtain ⟨hI1, hK1, hQ1⟩ := hround e x x1 (hP e (OnList.head e he)) hI hb
        have hL := hlink x x1 hK1
        obtain ⟨hIy, hKy, hQy⟩ := ih (link x1 e) x1 y
          (fun e' h' => hP e' (OnList.tail e e' he (by rw [← hL]; exact h'))) hI1 hf
        refine ⟨hIy, htrans x x1 y hK1 hKy, fun e' he' => ?_⟩
        rcases he'.cases_on_first with hh | hh
        · subst hh; exact hkeep e' x1 y hKy hQ1
        · exact hQy e' (by rw [hL]; exact hh)

theorem ResetFrame.rs_edge_eq {s s' : Mesh} (h : ResetFrame s s') (env : Env) (e j : Nat) :
    edgeOf env s' e j = edgeOf env s e j :=
  h.reset_field (fun m => edgeOf env m e j)

theorem ResetFrame.rs_edges_same {s s' : Mesh} (h : ResetFrame s s') (env : Env) (e : Nat) :
    EDGES_OF_ELEM env s' e = EDGES_OF_ELEM env s e :=
  h.reset_field (fun m => EDGES_OF_ELEM env m e)

theorem PatternFrame.pt_edge_eq {s s' : Mesh} (h : PatternFrame s s') (env : Env) (e j : Nat) :
    edgeOf env s' e j = edgeOf env s e j :=
  h.pattern_field (fun m => edgeOf env m e j)

theorem PatternFrame.pt_edges_same {s s' : Mesh} (h : PatternFrame s s') (env : Env) (e : Nat) :
    EDGES_OF_ELEM env s' e = EDGES_OF_ELEM env s e :=
  h.pattern_field (fun m => EDGES_OF_ELEM env m e)

/-- One round of the first loop of `CloseGrid`: the edges of the element are there, and
their `PATTERN` is 0; a `PATTERN` that is 0 stays 0. -/
theorem CloseGrid_reset_pattern (env : Env) (e : Nat) (s y : Mesh)
    (h : CloseGrid_reset env e s = .next y) :
    (ResetFrame s y ∧ ∀ ed, s.PATTERN ed = 0 → y.PATTERN ed = 0) ∧
    ∀ j, j < EDGES_OF_ELEM env y e → y.PATTERN (edgeOf env y e j) = 0 ∧
      edgeOf env y e j ≠ 0 := by
  have hF := CloseGrid_reset_frame env e s y h
  unfold CloseGrid_reset at h
  dsimp only at h
  have key := forLoop_next_inv (CloseGrid_reset_edge env e)
    (fun i x => ResetFrame s x ∧ (∀ ed, s.PATTERN ed = 0 → x.PATTERN ed = 0) ∧
      ∀ j, j < i → x.PATTERN (edgeOf env s e j) = 0 ∧ edgeOf env s e j ≠ 0)
    (fun i x z hx hb => by
      obtain ⟨hr, hz, hj⟩ := hx
      unfold CloseGrid_reset_edge at hb
      dsimp only at hb
      split at hb
      · contradiction
      · rename_i hne
        simp only [LoopRes.next.injEq] at hb
        subst hb
        rw [hr.rs_edge_eq env e i] at hne
        refine ⟨hr.reset_trans rfl, fun ed hed => ?_, fun j hlt => ?_⟩
        · show upd x.PATTERN (edgeOf env x e i) 0 ed = 0
          by_cases hc : ed = edgeOf env x e i
          · rw [hc, upd_same]
          · rw [upd_other _ _ _ _ hc]; exact hz ed hed
        · show upd x.PATTERN (edgeOf env x e i) 0 (edgeOf env s e j) = 0 ∧ _
          rw [hr.rs_edge_eq env e i]
          by_cases hji : j = i
          · subst hji; exact ⟨upd_same _ _ _, hne⟩
          · by_cases hc : edgeOf env s e j = edgeOf env s e i
            · rw [hc, upd_same]; exact ⟨rfl, hne⟩
            · rw [upd_other _ _ _ _ hc]; exact hj j (by omega))
    _ 0 _ y ⟨(show ResetFrame s { s with USED := upd s.USED e 0 } from rfl),
      fun _ hh => hh, fun j hj => absurd hj (by omega)⟩ h
  refine ⟨⟨hF, key.2.1⟩, fun j hj => ?_⟩
  rw [hF.rs_edge_eq env e j]
  rw [hF.rs_edges_same env e] at hj
  exact key.2.2 j (by
    have : EDGES_OF_ELEM env { s with USED := upd s.USED e 0 } e = EDGES_OF_ELEM env s e := rfl
    omega)

/-- After the first loop of `CloseGrid` the edges of the elements of the level are there,
and their `PATTERN` is 0. -/
theorem CloseGrid_reset_patterns (env : Env) (fuel : Nat) (s y : Mesh)
    (h : forElements (fun z => z.SUCCE) (CloseGrid_reset env) fuel s.FIRSTELEMENT s = .next y) :
    ResetFrame s y ∧ ∀ e, OnLevel s e → ∀ j, j < EDGES_OF_ELEM env s e →
      y.PATTERN (edgeOf env s e j) = 0 ∧ edgeOf env s e j ≠ 0 := by
  obtain ⟨_, ⟨hF, _⟩, hQ⟩ := forElements_each (fun z : Mesh => z.SUCCE) (CloseGrid_reset env)
    (fun _ => True) (fun _ => True)
    (fun x z => ResetFrame x z ∧ ∀ ed, x.PATTERN ed = 0 → z.PATTERN ed = 0)
    (fun e z => ∀ j, j < EDGES_OF_ELEM env z e → z.PATTERN (edgeOf env z e j) = 0 ∧
      edgeOf env z e j ≠ 0)
    (fun x => ⟨ResetFrame.reset_refl x, fun _ hh => hh⟩)
    (fun a b c h1 h2 => ⟨h1.1.reset_trans h2.1, fun ed hed => h2.2 ed (h1.2 ed hed)⟩)
    (fun a b hk => hk.1.reset_field Mesh.SUCCE)
    (fun e a b hk hq j hj => by
      rw [hk.1.rs_edge_eq env e j]
      rw [hk.1.rs_edges_same env e] at hj
      exact ⟨hk.2 _ (hq j hj).1, (hq j hj).2⟩)
    (fun e a b _ _ hb => ⟨trivial, (CloseGrid_reset_pattern env e a b hb).1,
      (CloseGrid_reset_pattern env e a b hb).2⟩)
    fuel s.FIRSTELEMENT s y (fun _ _ => trivial) trivial h
  refine ⟨hF, fun e he j hj => ?_⟩
  have := hQ e he j (by rw [hF.rs_edges_same env e]; exact hj)
  rw [hF.rs_edge_eq env e j] at this
  exact this

theorem forLoop_next_lt {σ : Type} (body : Nat → σ → LoopRes σ) (I : Nat → σ → Prop) (n : Nat)
    (h : ∀ i x y, i < n → I i x → body i x = .next y → I (i + 1) y) :
    ∀ (k i : Nat) (x y : σ), i + k = n → I i x → forLoop body k i x = .next y → I n y := by
  intro k
  induction k with
  | zero =>
    intro i x y hik hI hf
    simp only [forLoop, LoopRes.next.injEq] at hf
    subst hf
    have : i = n := by omega
    subst this
    exact hI
  | succ k ih =>
    intro i x y hik hI hf
    unfold forLoop at hf
    cases hb : body i x with
    | next z =>
      rw [hb] at hf
      exact ih (i + 1) z y (by omega) (h i x z (by omega) hI hb) hf
    | ret c z => rw [hb] at hf; contradiction
    | stop r => rw [hb] at hf; contradiction

/-- One round of the second loop of `CloseGrid` in 2-D on a level `L` on which only the
element `e0` is red. -/
theorem CloseGrid_pattern_single (env : Env) (hdim : env.DIM = 2) (L : Nat → Prop)
    (e0 e : Nat) (x y : Mesh) (hL : L e)
    (hI : x.MARKCLASS e0 = CLASS.RED_CLASS ∧
      ∀ t, L t → t ≠ e0 → x.MARKCLASS t ≠ CLASS.RED_CLASS)
    (h : CloseGrid_pattern env e x = .next y) :
    (y.MARKCLASS e0 = CLASS.RED_CLASS ∧
      ∀ t, L t → t ≠ e0 → y.MARKCLASS t ≠ CLASS.RED_CLASS) ∧
    (PatternFrame x y ∧
      (∀ ed, y.PATTERN ed = x.PATTERN ed ∨
        (y.PATTERN ed = 1 ∧ ∃ k, k < EDGES_OF_ELEM env x e0 ∧ edgeOf env x e0 k = ed)) ∧
      (∀ ed, x.PATTERN ed = 1 → y.PATTERN ed = 1) ∧
      (∀ a, x.SIDEPATTERN a = 0 → y.SIDEPATTERN a = 0)) ∧
    (y.SIDEPATTERN e = 0 ∧
      (e = e0 → ∀ k, k < EDGES_OF_ELEM env y e0 →
        EDGE_IN_PATTERN (env.MARK2PATTERN (y.TAG e0) (y.MARK e0)) k ≠ 0 →
        edgeOf env y e0 k ≠ 0 → y.PATTERN (edgeOf env y e0 k) = 1)) := by
  have hF := CloseGrid_pattern_frame env e x y h
  have hside : ∀ z : Mesh, ∀ a, z.SIDEPATTERN a = 0 → upd z.SIDEPATTERN e 0 a = 0 := by
    intro z a ha
    by_cases hc : a = e
    · rw [hc, upd_same]
    · rw [upd_other _ _ _ _ hc]; exact ha
  unfold CloseGrid_pattern at h
  by_cases hred : x.MARKCLASS e = CLASS.RED_CLASS
  · have hee : e = e0 := by
      by_contra hne
      exact hI.2 e hL hne hred
    subst hee
    rw [if_pos hred] at h
    dsimp only at h
    cases h1 : forLoop (CloseGrid_pattern_edge env e (x.MARK e)) (EDGES_OF_ELEM env x e) 0 x with
    | stop r => rw [h1] at h; contradiction
    | ret c z => rw [h1] at h; contradiction
    | next s1 =>
      rw [h1] at h
      dsimp only at h
      rw [if_pos hdim] at h
      simp only [LoopRes.next.injEq] at h
      have key := forLoop_next_lt (CloseGrid_pattern_edge env e (x.MARK e))
        (fun i z => PatternFrame x z ∧ z.MARKCLASS = x.MARKCLASS ∧
          z.SIDEPATTERN = x.SIDEPATTERN ∧
          (∀ ed, z.PATTERN ed = x.PATTERN ed ∨
            (z.PATTERN ed = 1 ∧ ∃ k, k < EDGES_OF_ELEM env x e ∧ edgeOf env x e k = ed)) ∧
          (∀ ed, x.PATTERN ed = 1 → z.PATTERN ed = 1) ∧
          ∀ k, k < i → EDGE_IN_PATTERN (env.MARK2PATTERN (x.TAG e) (x.MARK e)) k ≠ 0 →
            edgeOf env x e k ≠ 0 → z.PATTERN (edgeOf env x e k) = 1)
        (EDGES_OF_ELEM env x e)
        (fun i z w hi hz hb => by
          obtain ⟨z1, z2, z3, z4, z5, z6⟩ := hz
          have hT : z.TAG = x.TAG := z1.pattern_field Mesh.TAG
          have hE : edgeOf env z e i = edgeOf env x e i := z1.pt_edge_eq env e i
          unfold CloseGrid_pattern_edge at hb
          dsimp only at hb
          by_cases hbit : EDGE_IN_PATTERN (env.MARK2PATTERN (z.TAG e) (x.MARK e)) i ≠ 0
          · rw [if_pos hbit] at hb
            by_cases hed : edgeOf env z e i ≠ 0
            · rw [if_pos hed] at hb
              simp only [LoopRes.next.injEq] at hb
              subst hb
              refine ⟨z1.pattern_trans rfl, z2, z3, fun ed => ?_, fun ed h1 => ?_,
                fun k hk hb2 he2 => ?_⟩
              · show upd z.PATTERN (edgeOf env z e i) 1 ed = x.PATTERN ed ∨
                  (upd z.PATTERN (edgeOf env z e i) 1 ed = 1 ∧ _)
                rw [hE]
                by_cases hc : ed = edgeOf env x e i
                · right
                  refine ⟨?_, i, hi, hc.symm⟩
                  rw [hc, upd_same]
                · rcases z4 ed with hk | hk
                  · left; rw [upd_other _ _ _ _ hc]; exact hk
                  · right
                    refine ⟨?_, hk.2⟩
                    rw [upd_other _ _ _ _ hc]; exact hk.1
              · show upd z.PATTERN (edgeOf env z e i) 1 ed = 1
                rw [hE]
                by_cases hc : ed = edgeOf env x e i
                · rw [hc, upd_same]
                · rw [upd_other _ _ _ _ hc]; exact z5 ed h1
              · show upd z.PATTERN (edgeOf env z e i) 1 (edgeOf env x e k) = 1
                rw [hE]
                by_cases hc : edgeOf env x e k = edgeOf env x e i
                · rw [hc, upd_same]
                · rw [upd_other _ _ _ _ hc]
                  exact z6 k (by
                    have : k ≠ i := fun hki => hc (by rw [hki])
                    omega) hb2 he2
            · rw [if_neg hed] at hb
              simp only [LoopRes.next.injEq] at hb
              subst hb
              refine ⟨z1, z2, z3, z4, z5, fun k hk hb2 he2 => ?_⟩
              by_cases hki : k = i
              · subst hki
                rw [← hE] at he2
                exact absurd he2 hed
              · exact z6 k (by omega) hb2 he2
          · rw [if_neg hbit] at hb
            simp only [LoopRes.next.injEq] at hb
            subst hb
            refine ⟨z1, z2, z3, z4, z5, fun k hk hb2 he2 => ?_⟩
            by_cases hki : k = i
            · subst hki
              rw [← hT] at hb2
              exact absurd hb2 hbit
            · exact z6 k (by omega) hb2 he2)
        (EDGES_OF_ELEM env x e) 0 x s1 (by omega)
        ⟨PatternFrame.pattern_refl x, rfl, rfl, fun _ => Or.inl rfl, fun _ hh => hh,
          fun k hk => absurd hk (by omega)⟩ h1
      obtain ⟨z1, z2, z3, z4, z5, z6⟩ := key
      have hyP : y.PATTERN = s1.PATTERN := by rw [← h]
      have hyM : y.MARKCLASS = s1.MARKCLASS := by rw [← h]
      have hyS : y.SIDEPATTERN = upd s1.SIDEPATTERN e 0 := by rw [← h]
      refine ⟨⟨?_, fun t ht hte => ?_⟩, ⟨hF, ?_, ?_, ?_⟩, ?_, fun _ k hk hb2 he2 => ?_⟩
      · rw [hyM, z2]; exact hI.1
      · rw [hyM, z2]; exact hI.2 t ht hte
      · intro ed; rw [hyP]; exact z4 ed
      · intro ed hed; rw [hyP]; exact z5 ed hed
      · intro a ha; rw [hyS]; exact hside s1 a (by rw [z3]; exact ha)
      · rw [hyS, upd_same]
      · rw [hF.pt_edge_eq env e k] at he2 ⊢
        rw [hF.pt_edges_same env e] at hk
        have hT : y.TAG = x.TAG := hF.pattern_field Mesh.TAG
        have hM : y.MARK = x.MARK := hF.pattern_field Mesh.MARK
        rw [hT, hM] at hb2
        rw [hyP]
        exact z6 k hk hb2 he2
  · rw [if_neg hred] at h
    dsimp only at h
    simp only [LoopRes.next.injEq] at h
    have hne : e ≠ e0 := fun hk => hred (hk ▸ hI.1)
    have hyP : y.PATTERN = x.PATTERN := by rw [← h]
    have hyM : y.MARKCLASS = upd x.MARKCLASS e CLASS.NO_CLASS := by rw [← h]
    have hyS : y.SIDEPATTERN = upd x.SIDEPATTERN e 0 := by rw [← h]
    refine ⟨⟨?_, fun t ht hte => ?_⟩, ⟨hF, ?_, ?_, ?_⟩, ?_, fun hk => absurd hk hne⟩
    · rw [hyM, upd_other _ _ _ _ (fun hk => hne hk.symm)]; exact hI.1
    · rw [hyM]
      by_cases hc : t = e
      · rw [hc, upd_same]; exact fun hk => by contradiction
      · rw [upd_other _ _ _ _ hc]; exact hI.2 t ht hte
    · intro ed; rw [hyP]; exact Or.inl rfl
    · intro ed hed; rw [hyP]; exact hed
    · intro a ha; rw [hyS]; exact hside x a ha
    · rw [hyS, upd_same]

/-- The second loop of `CloseGrid` in 2-D on a level on which only the element `e0` is
red: `PATTERN` is set on edges of `e0` only, and on every edge of `e0` that its mark
bisects; the side patterns of the level are 0. -/
theorem CloseGrid_pattern_patterns (env : Env) (hdim : env.DIM = 2) (fuel : Nat)
    (s1 s2 : Mesh) (e0 : Nat)
    (hI : s1.MARKCLASS e0 = CLASS.RED_CLASS ∧
      ∀ t, OnLevel s1 t → t ≠ e0 → s1.MARKCLASS t ≠ CLASS.RED_CLASS)
    (h : forElements (fun z => z.SUCCE) (CloseGrid_pattern env) fuel s1.FIRSTELEMENT s1 =
      .next s2) :
    (s2.MARKCLASS e0 = CLASS.RED_CLASS ∧
      ∀ t, OnLevel s1 t → t ≠ e0 → s2.MARKCLASS t ≠ CLASS.RED_CLASS) ∧
    PatternFrame s1 s2 ∧
    (∀ ed, s2.PATTERN ed = s1.PATTERN ed ∨
      (s2.PATTERN ed = 1 ∧ ∃ k, k < EDGES_OF_ELEM env s1 e0 ∧ edgeOf env s1 e0 k = ed)) ∧
    (∀ t, OnLevel s1 t → s2.SIDEPATTERN t = 0) ∧
    (OnLevel s1 e0 → ∀ k, k < EDGES_OF_ELEM env s1 e0 →
      EDGE_IN_PATTERN (env.MARK2PATTERN (s1.TAG e0) (s1.MARK e0)) k ≠ 0 →
      edgeOf env s1 e0 k ≠ 0 → s2.PATTERN (edgeOf env s1 e0 k) = 1) := by
  obtain ⟨hIy, ⟨hF, hch, _, _⟩, hQ⟩ := forElements_each (fun z : Mesh => z.SUCCE)
    (CloseGrid_pattern env)
    (fun x => x.MARKCLASS e0 = CLASS.RED_CLASS ∧
      ∀ t, OnLevel s1 t → t ≠ e0 → x.MARKCLASS t ≠ CLASS.RED_CLASS)
    (OnLevel s1)
    (fun x y => PatternFrame x y ∧
      (∀ ed, y.PATTERN ed = x.PATTERN ed ∨
        (y.PATTERN ed = 1 ∧ ∃ k, k < EDGES_OF_ELEM env x e0 ∧ edgeOf env x e0 k = ed)) ∧
      (∀ ed, x.PATTERN ed = 1 → y.PATTERN ed = 1) ∧
      (∀ a, x.SIDEPATTERN a = 0 → y.SIDEPATTERN a = 0))
    (fun e y => y.SIDEPATTERN e = 0 ∧
      (e = e0 → ∀ k, k < EDGES_OF_ELEM env y e0 →
        EDGE_IN_PATTERN (env.MARK2PATTERN (y.TAG e0) (y.MARK e0)) k ≠ 0 →
        edgeOf env y e0 k ≠ 0 → y.PATTERN (edgeOf env y e0 k) = 1))
    (fun x => ⟨PatternFrame.pattern_refl x, fun _ => Or.inl rfl, fun _ hh => hh,
      fun _ hh => hh⟩)
    (fun a b c h1 h2 => by
      obtain ⟨f1, c1, m1, z1⟩ := h1
      obtain ⟨f2, c2, m2, z2⟩ := h2
      refine ⟨f1.pattern_trans f2, fun ed => ?_, fun ed hed => m2 ed (m1 ed hed),
        fun x hx => z2 x (z1 x hx)⟩
      rcases c2 ed with hk | ⟨hk, k, hk1, hk2⟩
      · rcases c1 ed with hj | hj
        · exact Or.inl (hk.trans hj)
        · exact Or.inr ⟨hk.trans hj.1, hj.2⟩
      · right
        refine ⟨hk, k, ?_, ?_⟩
        · rw [← f1.pt_edges_same env e0]; exact hk1
        · rw [← f1.pt_edge_eq env e0 k]; exact hk2)
    (fun a b hk => hk.1.pattern_field Mesh.SUCCE)
    (fun e a b hk hq => by
      obtain ⟨f1, _, m1, z1⟩ := hk
      refine ⟨z1 e hq.1, fun he k hk1 hb2 he2 => ?_⟩
      have hT : b.TAG = a.TAG := f1.pattern_field Mesh.TAG
      have hM : b.MARK = a.MARK := f1.pattern_field Mesh.MARK
      rw [f1.pt_edges_same env e0] at hk1
      rw [hT, hM] at hb2
      rw [f1.pt_edge_eq env e0 k] at he2 ⊢
      exact m1 _ (hq.2 he k hk1 hb2 he2))
    (fun e a b hP hIa hb => CloseGrid_pattern_single env hdim (OnLevel s1) e0 e a b hP hIa hb)
    fuel s1.FIRSTELEMENT s1 s2 (fun _ h' => h') hI h
  refine ⟨hIy, hF, hch, fun t ht => (hQ t ht).1, fun he k hk hb2 he2 => ?_⟩
  have hT : s2.TAG = s1.TAG := hF.pattern_field Mesh.TAG
  have hM : s2.MARK = s1.MARK := hF.pattern_field Mesh.MARK
  have := (hQ e0 he).2 rfl k (by rw [hF.pt_edges_same env e0]; exact hk)
    (by rw [hT, hM]; exact hb2) (by rw [hF.pt_edge_eq env e0 k]; exact he2)
  rw [hF.pt_edge_eq env e0 k] at this
  exact this

/-- One round of the third loop of `CloseGrid` in 2-D writes the flag `USED` only. -/
theorem CloseGrid_sidepattern_2d (env : Env) (hdim : env.DIM = 2) (e : Nat) (s y : Mesh)
    (h : CloseGrid_sidepattern env e s = .next y) :
    SideFrame s y ∧ y.SIDEPATTERN = s.SIDEPATTERN := by
  unfold CloseGrid_sidepattern at h
  dsimp only at h
  split at h
  · contradiction
  · rw [if_pos hdim] at h
    simp only [LoopRes.next.injEq] at h
    subst h
    exact ⟨rfl, rfl⟩

/-- The edge pattern of an element with three edges, each with `PATTERN` 0 or 1: bit `j`
is the `PATTERN` of local edge `j`. -/
theorem MyEdgePattern_three (env : Env) (z : Mesh) (t q : Nat)
    (h : MyEdgePattern_loop env z t 3 0 = some q)
    (h01 : ∀ j, j < 3 → z.PATTERN (edgeOf env z t j) = 0 ∨ z.PATTERN (edgeOf env z t j) = 1) :
    q < 8 ∧ ∀ j, j < 3 → ((q >>> j) &&& 1 = 1 ↔ z.PATTERN (edgeOf env z t j) = 1) := by
  simp only [MyEdgePattern_loop] at h
  split_ifs at h
  simp only [Option.some.injEq] at h
  subst h
  have hb : ∀ a b c : Nat, (a = 0 ∨ a = 1) → (b = 0 ∨ b = 1) → (c = 0 ∨ c = 1) →
      ((((0 <<< 1 ||| c) <<< 1 ||| b) <<< 1 ||| a) < 8 ∧
      (((((0 <<< 1 ||| c) <<< 1 ||| b) <<< 1 ||| a) >>> 0) &&& 1 = 1 ↔ a = 1) ∧
      (((((0 <<< 1 ||| c) <<< 1 ||| b) <<< 1 ||| a) >>> 1) &&& 1 = 1 ↔ b = 1) ∧
      (((((0 <<< 1 ||| c) <<< 1 ||| b) <<< 1 ||| a) >>> 2) &&& 1 = 1 ↔ c = 1)) := by
    intro a b c ha hb hc
    rcases ha with rfl | rfl <;> rcases hb with rfl | rfl <;> rcases hc with rfl | rfl <;>
      decide
  obtain ⟨k0, k1, k2, k3⟩ := hb _ _ _ (h01 0 (by omega)) (h01 1 (by omega)) (h01 2 (by omega))
  refine ⟨k0, fun j hj => ?_⟩
  interval_cases j
  · exact k1
  · exact k2
  · exact k3

/-- One round of the sixth loop of `CloseGrid` in 2-D leaves the marks as they are. -/
theorem CloseGrid_green_mark_2d (env : Env) (hdim : env.DIM = 2) (e : Nat) (s y : Mesh)
    (h : CloseGrid_green env e s = .next y) : y.MARK = s.MARK := by
  have hd3 : ¬ env.DIM = 3 := by omega
  have hedge : ∀ j x z, CloseGrid_green_edge env e j x = .next z → z.MARK = x.MARK := by
    intro j x z hb
    unfold CloseGrid_green_edge at hb
    dsimp only at hb
    split at hb
    · contradiction
    · split at hb
      · rw [if_neg (fun hk => hd3 hk.1)] at hb
        simp only [LoopRes.next.injEq] at hb
        subst hb; rfl
      · split at hb <;> (simp only [LoopRes.next.injEq] at hb; subst hb; rfl)
  unfold CloseGrid_green at h
  split at h
  · simp only [LoopRes.next.injEq] at h; subst h; rfl
  · dsimp only at h
    split at h
    · rename_i s2 h2
      have m2 : s2.MARK = s.MARK :=
        forLoop_next_rel _ (fun x => x.MARK = s.MARK)
          (fun j a b ha hb => (hedge j a b hb).trans ha) _ 0 _ s2 rfl h2
      unfold CloseGrid_green_sides at h
      rw [if_neg hd3] at h
      dsimp only at h
      simp only [LoopRes.next.injEq] at h
      subst h
      unfold CloseGrid_green_used
      split_ifs
      · exact m2
      · exact m2
    · contradiction
    · contradiction

theorem CloseGrid_green_marks_2d (env : Env) (hdim : env.DIM = 2) (fuel e0 : Nat) (x y : Mesh)
    (h : forElements (fun y => y.SUCCE) (CloseGrid_green env) fuel e0 x = .next y) :
    y.MARK = x.MARK :=
  forElements_next_inv _ _ (fun z => z.MARK = x.MARK)
    (fun e a b ha hb => (CloseGrid_green_mark_2d env hdim e a b hb).trans ha) fuel e0 x y rfl h

theorem CloseFrame.cl_refl (s : Mesh) : CloseFrame s s := rfl

theorem CloseFrame.cl_trans {s s' s'' : Mesh} (h1 : CloseFrame s s') (h2 : CloseFrame s' s'') :
    CloseFrame s s'' := by
  unfold CloseFrame at h1 h2 ⊢
  rw [h2]
  rw [h1]

theorem CloseFrame.cl_field {α : Type} (f : Mesh → α) {s s' : Mesh} (h : CloseFrame s s') :
    f s' = f { s with USED := s'.USED, PATTERN := s'.PATTERN, ADDPATTERN := s'.ADDPATTERN,
                      SIDEPATTERN := s'.SIDEPATTERN, MARKCLASS := s'.MARKCLASS,
                      MARK := s'.MARK, UPDATE_GREEN := s'.UPDATE_GREEN } :=
  congrArg f (show s' = _ from h)

theorem ResetFrame.rs_to_close {s s' : Mesh} (h : ResetFrame s s') : CloseFrame s s' := by
  unfold ResetFrame at h
  rw [h]
  exact rfl

theorem PatternFrame.pt_to_close {s s' : Mesh} (h : PatternFrame s s') : CloseFrame s s' := by
  unfold PatternFrame at h
  rw [h]
  exact rfl

theorem SideFrame.sd_to_close {s s' : Mesh} (h : SideFrame s s') : CloseFrame s s' := by
  unfold SideFrame at h
  rw [h]
  exact rfl

theorem RuleFrame.rl_to_close {s s' : Mesh} (h : RuleFrame s s') : CloseFrame s s' := by
  unfold RuleFrame at h
  rw [h]
  exact rfl

theorem AddFrame.ad_to_close {s s' : Mesh} (h : AddFrame s s') : CloseFrame s s' := by
  unfold AddFrame at h
  rw [h]
  exact rfl

theorem GreenFrame.gr_to_close {s s' : Mesh} (h : GreenFrame s s') : CloseFrame s s' := by
  unfold GreenFrame at h
  rw [h]
  exact rfl

/-- A successful call of `CloseGrid` in 2-D closure mode without FIFO on a level of elements
with three edges on which only the element `e0` is red, its mark bisecting its three
edges. For every element `t` of the level there is its edge pattern `p`: bit `j` of `p` is
set exactly if local edge `j` of `t` is an edge of `e0`; the mark of `t` is the rule
`PATTERN2MARK` finds for `p`, and `t` ends red exactly if it is `e0` or this rule switches
the class. -/
theorem CloseGrid_single_red (env : Env) (hdim : env.DIM = 2) (hh : env.hFlag ≠ 0)
    (hf : env.fifoFlag = 0) (fuel : Nat) (s sc : Mesh) (cnt : Int) (e0 : Nat)
    (htri : ∀ e, OnLevel s e → EDGES_OF_ELEM env s e = 3)
    (he0 : OnLevel s e0) (hred : s.MARKCLASS e0 = CLASS.RED_CLASS)
    (hone : ∀ t, OnLevel s t → t ≠ e0 → s.MARKCLASS t ≠ CLASS.RED_CLASS)
    (hbits : ∀ k, k < 3 → EDGE_IN_PATTERN (env.MARK2PATTERN (s.TAG e0) (s.MARK e0)) k ≠ 0)
    (h : CloseGrid env fuel s = .ok (cnt, sc)) (hcnt : 0 ≤ cnt) :
    CloseFrame s sc ∧
    ∀ t, OnLevel s t → ∃ p, p < 8 ∧
      (∀ j, j < 3 → ((p >>> j) &&& 1 = 1 ↔
        ∃ k, k < 3 ∧ edgeOf env s e0 k = edgeOf env s t j)) ∧
      env.PATTERN2MARK (s.TAG t) p ≠ -1 ∧ sc.MARK t = env.PATTERN2MARK (s.TAG t) p ∧
      (sc.MARKCLASS t = CLASS.RED_CLASS ↔
        (t = e0 ∨ env.SWITCHCLASS_OF_MARK (s.TAG t) (env.PATTERN2MARK (s.TAG t) p) = true)) := by
  obtain ⟨s1, s2, s3, x4, s5, h1, h2, h3, h4, h5, h6, _⟩ :=
    CloseGrid_loops env fuel s cnt sc h hcnt hf
  obtain ⟨f1, hz1⟩ := CloseGrid_reset_patterns env fuel s s1 h1
  have lev1 : ∀ t, OnLevel s1 t ↔ OnLevel s t := by
    intro t
    unfold OnLevel
    rw [f1.reset_field Mesh.SUCCE, f1.reset_field Mesh.FIRSTELEMENT]
  have hI1 : s1.MARKCLASS e0 = CLASS.RED_CLASS ∧
      ∀ t, OnLevel s1 t → t ≠ e0 → s1.MARKCLASS t ≠ CLASS.RED_CLASS := by
    rw [f1.reset_field Mesh.MARKCLASS]
    exact ⟨hred, fun t ht hte => hone t ((lev1 t).1 ht) hte⟩
  obtain ⟨⟨c0, cN⟩, f2, hch, hsp, hset⟩ := CloseGrid_pattern_patterns env hdim fuel s1 s2 e0 hI1 h2
  obtain ⟨f3, hsp3⟩ := forElements_next_inv _ _
    (fun z => SideFrame s2 z ∧ z.SIDEPATTERN = s2.SIDEPATTERN)
    (fun e a b ha hb => ⟨ha.1.side_trans (CloseGrid_sidepattern_2d env hdim e a b hb).1,
      (CloseGrid_sidepattern_2d env hdim e a b hb).2.trans ha.2⟩)
    fuel _ s2 s3 ⟨SideFrame.side_refl s2, rfl⟩ h3
  have f4 : RuleFrame s3 x4.1 :=
    forElements_next_inv _ _ (fun x : Mesh × Int => RuleFrame s3 x.1)
      (fun e x z hx hb => hx.rule_trans (CloseGrid_rule_frame env hf e x z hb))
      fuel _ (s3, 0) x4 (RuleFrame.rule_refl s3) h4
  have f5 : AddFrame x4.1 s5 :=
    forElements_next_inv _ _ (fun x => AddFrame x4.1 x)
      (fun e x z hx hb => hx.add_trans (CloseGrid_addpattern_frame env e x z hb))
      fuel _ x4.1 s5 (AddFrame.add_refl x4.1) h5
  have f6 : GreenFrame s5 sc :=
    forElements_next_inv _ _ (fun x => GreenFrame s5 x)
      (fun e x z hx hb => hx.green_trans (CloseGrid_green_frame env e x z hb))
      fuel _ s5 sc (GreenFrame.green_refl s5) h6
  have g6 := (CloseGrid_green_loop env fuel _ s5 sc h6).1
  have m6 : sc.MARK = s5.MARK := CloseGrid_green_marks_2d env hdim fuel _ s5 sc h6
  have fc : CloseFrame s sc :=
    ((((f1.rs_to_close.cl_trans f2.pt_to_close).cl_trans f3.sd_to_close).cl_trans
      f4.rl_to_close).cl_trans f5.ad_to_close).cl_trans f6.gr_to_close
  refine ⟨fc, ?_⟩
  intro t ht
  have ht1 : OnLevel s1 t := (lev1 t).2 ht
  have hS3 : s3.SUCCE = s.SUCCE :=
    (((f1.rs_to_close.cl_trans f2.pt_to_close).cl_trans f3.sd_to_close)).cl_field Mesh.SUCCE
  have hF2 : s2.FIRSTELEMENT = s.FIRSTELEMENT :=
    (f1.rs_to_close.cl_trans f2.pt_to_close).cl_field Mesh.FIRSTELEMENT
  have hlist : OnList s3.SUCCE s2.FIRSTELEMENT t := by rw [hS3, hF2]; exact ht
  obtain ⟨x0, x1, a1, a2, a3, hb, a4, a5, a6⟩ :=
    CloseGrid_rule_at env hf fuel _ (s3, 0) x4 h4 t hlist
  have f0 : CloseFrame s x0.1 :=
    ((f1.rs_to_close.cl_trans f2.pt_to_close).cl_trans f3.sd_to_close).cl_trans a1.rl_to_close
  -- the state of the round of `t`
  have hT0 : x0.1.TAG = s.TAG := f0.cl_field Mesh.TAG
  have hE0 : ∀ e j, edgeOf env x0.1 e j = edgeOf env s e j :=
    fun e j => f0.cl_field (fun m => edgeOf env m e j)
  have hN0 : ∀ e, EDGES_OF_ELEM env x0.1 e = EDGES_OF_ELEM env s e :=
    fun e => f0.cl_field (fun m => EDGES_OF_ELEM env m e)
  have hP0 : x0.1.PATTERN = s2.PATTERN := by
    have p1 : x0.1.PATTERN = s3.PATTERN := a1.rule_field Mesh.PATTERN
    have p2 : s3.PATTERN = s2.PATTERN := f3.side_field Mesh.PATTERN
    rw [p1, p2]
  have hSP0 : x0.1.SIDEPATTERN t = 0 := by
    have p1 : x0.1.SIDEPATTERN = s3.SIDEPATTERN := a1.rule_field Mesh.SIDEPATTERN
    rw [p1, hsp3]; exact hsp t ht1
  have hMC0 : x0.1.MARKCLASS t = CLASS.RED_CLASS ↔ t = e0 := by
    have p2 : s3.MARKCLASS = s2.MARKCLASS := f3.side_field Mesh.MARKCLASS
    have hx : x0.1.MARKCLASS t = s2.MARKCLASS t := by
      have := a3
      dsimp only at this
      rw [this, p2]
    rw [hx]
    constructor
    · intro hr
      by_contra hne
      exact cN t ht1 hne hr
    · intro he; rw [he]; exact c0
  have hE1 : ∀ e j, edgeOf env s1 e j = edgeOf env s e j := fun e j => f1.rs_edge_eq env e j
  have hN1 : ∀ e, EDGES_OF_ELEM env s1 e = EDGES_OF_ELEM env s e :=
    fun e => f1.rs_edges_same env e
  -- PATTERN of the edges of `t`
  have hpat : ∀ j, j < 3 → ((s2.PATTERN (edgeOf env s t j) = 0 ∨
      s2.PATTERN (edgeOf env s t j) = 1) ∧
      (s2.PATTERN (edgeOf env s t j) = 1 ↔
        ∃ k, k < 3 ∧ edgeOf env s e0 k = edgeOf env s t j)) := by
    intro j hj
    have hz := hz1 t ht j (by rw [htri t ht]; exact hj)
    constructor
    · rcases hch (edgeOf env s t j) with hk | hk
      · left; rw [hk]; exact hz.1
      · right; exact hk.1
    · constructor
      · intro h1
        rcases hch (edgeOf env s t j) with hk | ⟨_, k, hk1, hk2⟩
        · rw [hk, hz.1] at h1; contradiction
        · rw [hN1, htri e0 he0] at hk1
          rw [hE1] at hk2
          exact ⟨k, hk1, hk2⟩
      · rintro ⟨k, hk1, hk2⟩
        have hzk := hz1 e0 he0 k (by rw [htri e0 he0]; exact hk1)
        have := hset ((lev1 e0).2 he0) k (by rw [hN1, htri e0 he0]; exact hk1)
          (by
            rw [f1.reset_field Mesh.TAG, f1.reset_field Mesh.MARK]
            exact hbits k hk1)
          (by rw [hE1]; exact hzk.2)
        rw [hE1, hk2] at this
        exact this
  obtain ⟨_, p, hp, hcase⟩ := CloseGrid_rule_round env hf t x0 x1 hb
  -- the pattern of `t`
  unfold MyPattern at hp
  rw [hN0, htri t ht] at hp
  cases hq : MyEdgePattern_loop env x0.1 t 3 0 with
  | none => rw [hq] at hp; contradiction
  | some q =>
    rw [hq] at hp
    simp only [Option.some.injEq] at hp
    rw [hSP0] at hp
    have hpq : p = q := by rw [← hp]; simp
    subst hpq
    obtain ⟨q8, qbits⟩ := MyEdgePattern_three env x0.1 t p hq (fun j hj => by
      rw [hP0, hE0]; exact (hpat j hj).1)
    rcases hcase with ⟨c1, _⟩ | ⟨_, c2, _, c4, c5⟩
    · exact absurd c1 hh
    · rw [hT0] at c2 c4 c5
      have hM1 : x1.1.MARK t = env.PATTERN2MARK (s.TAG t) p :=
        c4 (fun hk => by have := hk.1; omega)
      have hMsc : sc.MARK t = x1.1.MARK t := by
        have p5 : s5.MARK = x4.1.MARK := f5.add_field Mesh.MARK
        rw [m6, p5]; exact a5
      have hCsc : sc.MARKCLASS t = CLASS.RED_CLASS ↔ x1.1.MARKCLASS t = CLASS.RED_CLASS := by
        have p5 : s5.MARKCLASS = x4.1.MARKCLASS := f5.add_field Mesh.MARKCLASS
        rw [g6.not_red t, p5, a6]
      refine ⟨p, q8, fun j hj => ?_, c2, hMsc.trans hM1, ?_⟩
      · rw [qbits j hj, hP0, hE0]; exact (hpat j hj).2
      · rw [hCsc, c5, hMC0]

/-! ## One marked triangle: `CloseGrid` followed by `RefineGrid` -/

theorem three_bits (p : Nat) (hp : p < 8) :
    p = ((p >>> 0) &&& 1) + 2 * ((p >>> 1) &&& 1) + 4 * ((p >>> 2) &&& 1) ∧
    ((p >>> 0) &&& 1) ≤ 1 ∧ ((p >>> 1) &&& 1) ≤ 1 ∧ ((p >>> 2) &&& 1) ≤ 1 := by
  interval_cases p <;> decide

theorem all_bits (p : Nat) (S : Nat → Prop) (hp : p < 8)
    (hb : ∀ j, j < 3 → ((p >>> j) &&& 1 = 1 ↔ S j)) (hall : ∀ j, j < 3 → S j) : p = 7 := by
  obtain ⟨h, _, _, _⟩ := three_bits p hp
  have h0 := (hb 0 (by omega)).2 (hall 0 (by omega))
  have h1 := (hb 1 (by omega)).2 (hall 1 (by omega))
  have h2 := (hb 2 (by omega)).2 (hall 2 (by omega))
  omega

theorem no_bits (p : Nat) (S : Nat → Prop) (hp : p < 8)
    (hb : ∀ j, j < 3 → ((p >>> j) &&& 1 = 1 ↔ S j)) (hnone : ∀ j, j < 3 → ¬ S j) : p = 0 := by
  obtain ⟨h, b0, b1, b2⟩ := three_bits p hp
  have h0 : (p >>> 0) &&& 1 ≠ 1 := fun hk => hnone 0 (by omega) ((hb 0 (by omega)).1 hk)
  have h1 : (p >>> 1) &&& 1 ≠ 1 := fun hk => hnone 1 (by omega) ((hb 1 (by omega)).1 hk)
  have h2 : (p >>> 2) &&& 1 ≠ 1 := fun hk => hnone 2 (by omega) ((hb 2 (by omega)).1 hk)
  omega

theorem one_bit (p : Nat) (S : Nat → Prop) (hp : p < 8)
    (hb : ∀ j, j < 3 → ((p >>> j) &&& 1 = 1 ↔ S j)) (hex : ∃ j, j < 3 ∧ S j)
    (huniq : ∀ j j', j < 3 → j' < 3 → S j → S j' → j = j') : p = 1 ∨ p = 2 ∨ p = 4 := by
  obtain ⟨h, b0, b1, b2⟩ := three_bits p hp
  have n01 : ¬ ((p >>> 0) &&& 1 = 1 ∧ (p >>> 1) &&& 1 = 1) := fun hk => by
    have := huniq 0 1 (by omega) (by omega) ((hb 0 (by omega)).1 hk.1)
      ((hb 1 (by omega)).1 hk.2)
    omega
  have n02 : ¬ ((p >>> 0) &&& 1 = 1 ∧ (p >>> 2) &&& 1 = 1) := fun hk => by
    have := huniq 0 2 (by omega) (by omega) ((hb 0 (by omega)).1 hk.1)
      ((hb 2 (by omega)).1 hk.2)
    omega
  have n12 : ¬ ((p >>> 1) &&& 1 = 1 ∧ (p >>> 2) &&& 1 = 1) := fun hk => by
    have := huniq 1 2 (by omega) (by omega) ((hb 1 (by omega)).1 hk.1)
      ((hb 2 (by omega)).1 hk.2)
    omega
  obtain ⟨j, hj, hS⟩ := hex
  have hone := (hb j hj).2 hS
  interval_cases j <;> omega

theorem CloseFrame.level {s sc : Mesh} (h : CloseFrame s sc) (e : Nat) :
    OnLevel sc e ↔ OnLevel s e := by
  unfold OnLevel
  rw [h.cl_field Mesh.SUCCE, h.cl_field Mesh.FIRSTELEMENT]

/-- A successful call of `CloseGrid` in 2-D closure mode without FIFO on a level of
triangles on which only the triangle `e0` is red, with the regular rule: `e0` stays red
with the regular rule, a triangle with one edge in common with `e0` ends green with the
rule of that edge, and a triangle without an edge in common with `e0` ends without
a mark. -/
theorem CloseGrid_one_marked (env : Env) (hdim : env.DIM = 2) (hh : env.hFlag ≠ 0)
    (hf : env.fifoFlag = 0) (htab : TriangleRules env) (fuel : Nat) (s sc : Mesh) (cnt : Int)
    (e0 : Nat) (hlev : ∀ e, OnLevel s e → s.TAG e = TAG.TRIANGLE) (he0 : OnLevel s e0)
    (hred : s.MARKCLASS e0 = CLASS.RED_CLASS ∧ s.MARK e0 = env.T_RED)
    (hone : ∀ t, OnLevel s t → t ≠ e0 → s.MARKCLASS t ≠ CLASS.RED_CLASS)
    (hconf : ∀ t, OnLevel s t → t ≠ e0 → ∀ j j', j < 3 → j' < 3 →
      SharesEdge env s e0 t j → SharesEdge env s e0 t j' → j = j')
    (h : CloseGrid env fuel s = .ok (cnt, sc)) (hcnt : 0 ≤ cnt) :
    CloseFrame s sc ∧
    (sc.MARKCLASS e0 = CLASS.RED_CLASS ∧ sc.MARK e0 = env.T_RED) ∧
    (∀ t, OnLevel s t → t ≠ e0 → (∃ j, j < 3 ∧ SharesEdge env s e0 t j) →
      sc.MARKCLASS t = CLASS.GREEN_CLASS ∧ sc.MARK t ≠ env.NO_REFINEMENT ∧
      0 < env.NSONS_OF_RULE TAG.TRIANGLE (sc.MARK t)) ∧
    (∀ t, OnLevel s t → (∀ j, j < 3 → ¬ SharesEdge env s e0 t j) →
      sc.MARK t = env.NO_REFINEMENT) := by
  obtain ⟨t1, t2, t3, t4, t5, t6, t7, t8⟩ := htab
  have htri : ∀ e, OnLevel s e → EDGES_OF_ELEM env s e = 3 := by
    intro e he
    unfold EDGES_OF_ELEM
    rw [hlev e he]; exact t1
  have hbits : ∀ k, k < 3 →
      EDGE_IN_PATTERN (env.MARK2PATTERN (s.TAG e0) (s.MARK e0)) k ≠ 0 := by
    rw [hlev e0 he0, hred.2]; exact t3
  obtain ⟨fc, hall⟩ := CloseGrid_single_red env hdim hh hf fuel s sc cnt e0 htri he0 hred.1
    hone hbits h hcnt
  have hT : sc.TAG = s.TAG := fc.cl_field Mesh.TAG
  have hE : ∀ e j, edgeOf env sc e j = edgeOf env s e j :=
    fun e j => fc.cl_field (fun m => edgeOf env m e j)
  have hN : ∀ e, EDGES_OF_ELEM env sc e = EDGES_OF_ELEM env s e :=
    fun e => fc.cl_field (fun m => EDGES_OF_ELEM env m e)
  -- the red triangle
  have hred0 : sc.MARKCLASS e0 = CLASS.RED_CLASS ∧ sc.MARK e0 = env.T_RED := by
    obtain ⟨p, hp, hb, _, hm, hc⟩ := hall e0 he0
    have p7 : p = 7 := all_bits p _ hp hb (fun j hj => ⟨j, hj, rfl⟩)
    subst p7
    rw [hlev e0 he0] at hm
    exact ⟨hc.2 (Or.inl rfl), hm.trans t5⟩
  refine ⟨fc, hred0, fun t ht hte hex => ?_, fun t ht hno => ?_⟩
  · obtain ⟨p, hp, hb, _, hm, hc⟩ := hall t ht
    have hp1 := one_bit p (fun j => SharesEdge env s e0 t j) hp hb hex (hconf t ht hte)
    obtain ⟨u1, u2, u3⟩ := t8 p hp1
    rw [hlev t ht] at hm hc
    have hnr : sc.MARKCLASS t ≠ CLASS.RED_CLASS := by
      intro hk
      rcases hc.1 hk with hk1 | hk1
      · exact hte hk1
      · rw [u2] at hk1; contradiction
    refine ⟨?_, by rw [hm]; exact u1, by rw [hm]; exact u3⟩
    obtain ⟨j, hj, k, hk, hkj⟩ := hex
    have hjE : j < EDGES_OF_ELEM env s t := by rw [htri t ht]; exact hj
    have hadd := (CloseGrid_addpattern_iff env fuel s cnt sc h hcnt t j ht hjE).1.2
      ⟨e0, k, (fc.level e0).2 he0, hred0.1, by rw [hN, htri e0 he0]; exact hk,
        by rw [hT, hlev e0 he0, hred0.2]; exact t4 k hk, by rw [hE]; exact hkj⟩
    exact (CloseGrid_green_covering env fuel s cnt sc h hcnt).1 t ((fc.level t).2 ht) hnr
      ⟨j, by rw [hN]; exact hjE, by rw [hE]; exact hadd⟩
  · obtain ⟨p, hp, hb, _, hm, _⟩ := hall t ht
    have p0 : p = 0 := no_bits p (fun j => SharesEdge env s e0 t j) hp hb hno
    subst p0
    rw [hlev t ht] at hm
    exact hm.trans t7

/-! ## The test of `MyEdgeNum` in `CloseGrid` -/

theorem and_low_bits (p c : Nat) (hc : 63 &&& c = c) : p &&& c = (p % 64) &&& c := by
  have h1 : p % 64 = p &&& 63 := (Nat.and_pow_two_sub_one_eq_mod p 6).symm
  rw [h1, Nat.and_assoc, hc]

set_option maxRecDepth 100000 in
theorem TriSectionEdge_side_entry :
    ∀ i, i < 4 → ∀ q, q < 64 → ∃ ci t, CondensedEdgeOfSide[i]? = some ci ∧ 63 &&& ci = ci ∧
      TriSectionEdge[q &&& ci]? = some t ∧ t.1 ≠ -2 := by
  have h : ∀ i, i < 4 → ∀ q, q < 64 →
      CondensedEdgeOfSide[i]? = some (CondensedEdgeOfSide.getD i 0) ∧
      63 &&& CondensedEdgeOfSide.getD i 0 = CondensedEdgeOfSide.getD i 0 ∧
      TriSectionEdge[q &&& CondensedEdgeOfSide.getD i 0]? =
        some (TriSectionEdge.getD (q &&& CondensedEdgeOfSide.getD i 0) (0, 0)) ∧
      (TriSectionEdge.getD (q &&& CondensedEdgeOfSide.getD i 0) (0, 0)).1 ≠ -2 := by
    decide
  intro i hi q hq
  exact ⟨_, _, h i hi q hq⟩

theorem CloseGrid_side_prism_no_return (env : Env) (theElement : Nat) (MyEdgeNum : Int)
    (NbElement j : Nat) (s : Mesh) (c : Int) (s' : Mesh) :
    CloseGrid_side_prism env theElement MyEdgeNum NbElement j s ≠ .ret c s' := by
  unfold CloseGrid_side_prism
  intro h
  split at h
  · exact LoopRes.noConfusion h
  · split_ifs at h

/-- Claim C26: the exit "inconsistent pattern" for the element's own triangular side is never
taken. For every edge pattern `p` and every side `i < 4` of a tetrahedron, the entry
`TriSectionEdge[p & CondensedEdgeOfSide[i]][0]` exists and is not `-2`; and when the case for
a triangular side of `CloseGrid` executes a `return`, it is the `return` of the case
`TETRAHEDRON` of the switch on the neighbour's tag, behind the test of `MyEdgeNum`. -/
theorem CloseGrid_own_side_consistent (env : Env) (p i : Nat) (hi : i < 4) :
    ∃ ci t, CondensedEdgeOfSide[i]? = some ci ∧ TriSectionEdge[p &&& ci]? = some t ∧
      t.1 ≠ -2 ∧
      ∀ (theElement NbElement j : Nat) (s : Mesh) (c : Int) (s' : Mesh),
        CloseGrid_side_triangle env theElement p i NbElement j s = .ret c s' →
        t.1 ≠ -1 ∧ s.TAG NbElement = TAG.TETRAHEDRON ∧
          CloseGrid_side_tetrahedron env theElement t.1 NbElement j s = .ret c s' := by
  obtain ⟨ci, t, h1, h2, h3, h4⟩ :=
    TriSectionEdge_side_entry i hi (p % 64) (Nat.mod_lt p (by decide))
  rw [← and_low_bits p ci h2] at h3
  refine ⟨ci, t, h1, h3, h4, ?_⟩
  intro theElement NbElement j s c s' h
  unfold CloseGrid_side_triangle at h
  rw [h1] at h
  simp only [h3] at h
  split_ifs at h with a1 a2
  refine ⟨a2, ?_⟩
  split at h
  · rename_i ht
    exact ⟨ht, h⟩
  · exact absurd h (CloseGrid_side_prism_no_return env _ _ _ _ _ _ _)
  · exact absurd h (CloseGrid_side_prism_no_return env _ _ _ _ _ _ _)
  · exact LoopRes.noConfusion h

/-- Claim C26 at an example: the pattern 45 (edges 0, 2, 3, 5) and side 2 of a tetrahedron,
whose mask is `0x2C`: the entry 44 of the table is `(-1, -1)`. -/
theorem CloseGrid_own_side_consistent_witness :
    (2 < 4) ∧ TriSectionEdge[45 &&& 0x2C]? = some (-1, -1) ∧
    ∃ ci t, CondensedEdgeOfSide[2]? = some ci ∧ TriSectionEdge[45 &&& ci]? = some t ∧
      t.1 ≠ -2 ∧
      ∀ (theElement NbElement j : Nat) (s : Mesh) (c : Int) (s' : Mesh),
        CloseGrid_side_triangle emptyEnv theElement 45 2 NbElement j s = .ret c s' →
        t.1 ≠ -1 ∧ s.TAG NbElement = TAG.TETRAHEDRON ∧
          CloseGrid_side_tetrahedron emptyEnv theElement t.1 NbElement j s = .ret c s' :=
  ⟨by decide, by decide, CloseGrid_own_side_consistent emptyEnv 45 2 (by decide)⟩

/-! ## `Sort_Node_Ptr` sorts into descending order -/

theorem Sort_Node_Ptr_max_fold (nodes : Nat → Nat) (l : List Nat) :
    ∀ m0, (l.foldl (fun max j => if nodes max < nodes j then j else max) m0 = m0 ∨
        l.foldl (fun max j => if nodes max < nodes j then j else max) m0 ∈ l) ∧
      nodes m0 ≤ nodes (l.foldl (fun max j => if nodes max < nodes j then j else max) m0) ∧
      ∀ j, j ∈ l →
        nodes j ≤ nodes (l.foldl (fun max j => if nodes max < nodes j then j else max) m0) := by
  induction l with
  | nil => intro m0; simp
  | cons a l ih =>
    intro m0
    simp only [List.foldl_cons]
    obtain ⟨h1, h2, h3⟩ := ih (if nodes m0 < nodes a then a else m0)
    refine ⟨?_, ?_, ?_⟩
    · rcases h1 with h1 | h1
      · rw [h1]
        by_cases hc : nodes m0 < nodes a
        · rw [if_pos hc]; exact Or.inr (List.mem_cons_self a l)
        · rw [if_neg hc]; exact Or.inl rfl
      · exact Or.inr (List.mem_cons_of_mem a h1)
    · refine le_trans ?_ h2
      by_cases hc : nodes m0 < nodes a
      · rw [if_pos hc]; exact Nat.le_of_lt hc
      · rw [if_neg hc]
    · intro j hj
      rcases List.mem_cons.mp hj with hj | hj
      · subst hj
        refine le_trans ?_ h2
        by_cases hc : nodes m0 < nodes j
        · rw [if_pos hc]
        · rw [if_neg hc]; exact Nat.le_of_not_lt hc
      · exact h3 j hj

theorem Sort_Node_Ptr_max_spec (nodes : Nat → Nat) (n i : Nat) (hi : i < n) :
    i ≤ Sort_Node_Ptr_max nodes n i ∧ Sort_Node_Ptr_max nodes n i < n ∧
      ∀ j, i ≤ j → j < n → nodes j ≤ nodes (Sort_Node_Ptr_max nodes n i) := by
  unfold Sort_Node_Ptr_max
  obtain ⟨h1, h2, h3⟩ := Sort_Node_Ptr_max_fold nodes (List.range' (i + 1) (n - (i + 1))) i
  have hm : ∀ j, j ∈ List.range' (i + 1) (n - (i + 1)) ↔ i + 1 ≤ j ∧ j < n := by
    intro j
    rw [List.mem_range'_1]
    omega
  refine ⟨?_, ?_, ?_⟩
  · rcases h1 with h1 | h1
    · rw [h1]
    · have := (hm _).1 h1
      omega
  · rcases h1 with h1 | h1
    · rw [h1]; exact hi
    · exact ((hm _).1 h1).2
  · intro j hj hjn
    rcases Nat.eq_or_lt_of_le hj with e | e
    · subst e; exact h2
    · exact h3 j ((hm j).2 ⟨e, hjn⟩)

theorem Sort_Node_Ptr_round_swap (n : Nat) (g : Nat → Nat) (i : Nat) :
    Sort_Node_Ptr_round n g i = g ∘ Equiv.swap i (Sort_Node_Ptr_max g n i) := by
  unfold Sort_Node_Ptr_round
  funext x
  by_cases hc : i ≠ Sort_Node_Ptr_max g n i
  · simp only [if_pos hc, Function.comp_apply]
    by_cases hx : x = Sort_Node_Ptr_max g n i
    · rw [hx, upd_same, Equiv.swap_apply_right]
    · rw [upd_other _ _ _ _ hx]
      by_cases hx2 : x = i
      · rw [hx2, upd_same, Equiv.swap_apply_left]
      · rw [upd_other _ _ _ _ hx2, Equiv.swap_apply_of_ne_of_ne hx2 hx]
  · have he : i = Sort_Node_Ptr_max g n i := not_not.mp hc
    simp only [if_neg hc, Function.comp_apply]
    rw [← he, Equiv.swap_self]
    rfl

theorem Sort_Node_Ptr_rounds (n : Nat) (nodes : Nat → Nat) :
    ∀ k, k ≤ n → ∃ σ : Equiv.Perm Nat, (∀ j, n ≤ j → σ j = j) ∧
      (List.range k).foldl (Sort_Node_Ptr_round n) nodes = nodes ∘ σ ∧
      ∀ a, a < k → ∀ b, a < b → b < n →
        (List.range k).foldl (Sort_Node_Ptr_round n) nodes b ≤
          (List.range k).foldl (Sort_Node_Ptr_round n) nodes a := by
  intro k
  induction k with
  | zero =>
    intro _
    exact ⟨Equiv.refl Nat, fun _ _ => rfl, rfl, fun a ha => absurd ha (Nat.not_lt_zero a)⟩
  | succ k ih =>
    intro hk
    obtain ⟨σ, h1, h2, h3⟩ := ih (Nat.le_of_succ_le hk)
    rw [List.range_succ, List.foldl_append]
    simp only [List.foldl_cons, List.foldl_nil]
    generalize (List.range k).foldl (Sort_Node_Ptr_round n) nodes = g at h2 h3
    obtain ⟨m1, m2, m3⟩ := Sort_Node_Ptr_max_spec g n k hk
    rw [Sort_Node_Ptr_round_swap]
    generalize Sort_Node_Ptr_max g n k = m at m1 m2 m3
    refine ⟨(Equiv.swap k m).trans σ, ?_, ?_, ?_⟩
    · intro j hj
      have e1 : Equiv.swap k m j = j :=
        Equiv.swap_apply_of_ne_of_ne (by omega) (by omega)
      simp only [Equiv.trans_apply, e1]
      exact h1 j hj
    · rw [h2]
      funext x
      simp only [Function.comp_apply, Equiv.trans_apply]
    · intro a ha b hab hb
      simp only [Function.comp_apply]
      have hbk : ∀ x, k ≤ x → x < n → k ≤ Equiv.swap k m x ∧ Equiv.swap k m x < n := by
        intro x hx1 hx2
        by_cases e1 : x = k
        · rw [e1, Equiv.swap_apply_left]; exact ⟨m1, m2⟩
        · by_cases e2 : x = m
          · rw [e2, Equiv.swap_apply_right]; omega
          · rw [Equiv.swap_apply_of_ne_of_ne e1 e2]; exact ⟨hx1, hx2⟩
      rcases Nat.lt_succ_iff_lt_or_eq.mp ha with ha | ha
      · have ea : Equiv.swap k m a = a :=
          Equiv.swap_apply_of_ne_of_ne (by omega) (by omega)
        rw [ea]
        by_cases hbk2 : b < k
        · have eb : Equiv.swap k m b = b :=
            Equiv.swap_apply_of_ne_of_ne (by omega) (by omega)
          rw [eb]
          exact h3 a ha b hab hb
        · obtain ⟨q1, q2⟩ := hbk b (by omega) hb
          exact h3 a ha _ (by omega) q2
      · subst ha
        rw [Equiv.swap_apply_left]
        obtain ⟨q1, q2⟩ := hbk b (by omega) hb
        exact m3 _ q1 q2

theorem range_map_perm (n : Nat) (σ : Equiv.Perm Nat) (h : ∀ j, n ≤ j → σ j = j) :
    ((List.range n).map σ).Perm (List.range n) := by
  have hlt : ∀ j, j < n → σ j < n := by
    intro j hj
    by_contra hc
    have e1 : σ (σ j) = σ j := h _ (Nat.le_of_not_lt hc)
    have e2 : σ j = j := σ.injective e1
    omega
  have hlt2 : ∀ j, σ j < n → j < n := by
    intro j hj
    by_contra hc
    have e1 : σ j = j := h _ (Nat.le_of_not_lt hc)
    omega
  rw [List.perm_ext_iff_of_nodup ((List.nodup_range n).map σ.injective) (List.nodup_range n)]
  intro a
  simp only [List.mem_map, List.mem_range]
  constructor
  · rintro ⟨j, hj, rfl⟩
    exact hlt j hj
  · intro ha
    refine ⟨σ.symm a, hlt2 _ ?_, σ.apply_symm_apply a⟩
    rw [σ.apply_symm_apply]
    exact ha

/-- Claim C24: `Sort_Node_Ptr` sorts in descending address order. For `n = 2` in a 2-D
build and for `n = 3` or `n = 4` in a 3-D build it returns `GM_OK`, the entries
`nodes[0..n)` are a rearrangement of their input values, every entry is at least as large
as the next one, and the entries from `n` on are as before; for every other `n` it returns
`GM_FATAL` and the array is as before. -/
theorem Sort_Node_Ptr_descending (DIM n : Nat) (nodes : Nat → Nat) :
    (validNodes DIM n →
      (Sort_Node_Ptr DIM n nodes).1 = GM_OK ∧
      ((List.range n).map (Sort_Node_Ptr DIM n nodes).2).Perm ((List.range n).map nodes) ∧
      (∀ i, i + 1 < n →
        (Sort_Node_Ptr DIM n nodes).2 (i + 1) ≤ (Sort_Node_Ptr DIM n nodes).2 i) ∧
      ∀ j, n ≤ j → (Sort_Node_Ptr DIM n nodes).2 j = nodes j) ∧
    (¬ validNodes DIM n → Sort_Node_Ptr DIM n nodes = (GM_FATAL, nodes)) := by
  constructor
  · intro hv
    have hv2 : (DIM = 2 ∧ n = 2) ∨ (DIM = 3 ∧ (n = 3 ∨ n = 4)) := hv
    obtain ⟨σ, h1, h2, h3⟩ := Sort_Node_Ptr_rounds n nodes n (Nat.le_refl n)
    unfold Sort_Node_Ptr
    rw [if_pos hv2]
    dsimp only
    refine ⟨rfl, ?_, ?_, ?_⟩
    · rw [h2, ← List.map_map]
      exact (range_map_perm n σ h1).map nodes
    · intro i hi
      exact h3 i (by omega) (i + 1) (Nat.lt_succ_self i) hi
    · intro j hj
      rw [h2]
      simp only [Function.comp_apply, h1 j hj]
  · intro hv
    have hv2 : ¬ ((DIM = 2 ∧ n = 2) ∨ (DIM = 3 ∧ (n = 3 ∨ n = 4))) := hv
    unfold Sort_Node_Ptr
    rw [if_neg hv2]

/-- Claim C24 at an example: the four corners 105, 300, 104, 210 of a side in a 3-D build
come out as 300, 210, 105, 104; five entries, and three entries in a 2-D build, are
refused. -/
theorem Sort_Node_Ptr_descending_witness :
    validNodes 3 4 ∧ ¬ validNodes 3 5 ∧ ¬ validNodes 2 3 ∧
    (List.range 4).map (Sort_Node_Ptr 3 4 (arr [105, 300, 104, 210])).2 = [300, 210, 105, 104] ∧
    ((Sort_Node_Ptr 3 4 (arr [105, 300, 104, 210])).1 = GM_OK ∧
      ((List.range 4).map (Sort_Node_Ptr 3 4 (arr [105, 300, 104, 210])).2).Perm
        ((List.range 4).map (arr [105, 300, 104, 210])) ∧
      (∀ i, i + 1 < 4 → (Sort_Node_Ptr 3 4 (arr [105, 300, 104, 210])).2 (i + 1) ≤
        (Sort_Node_Ptr 3 4 (arr [105, 300, 104, 210])).2 i) ∧
      ∀ j, 4 ≤ j → (Sort_Node_Ptr 3 4 (arr [105, 300, 104, 210])).2 j =
        arr [105, 300, 104, 210] j) ∧
    Sort_Node_Ptr 3 5 (arr [105, 300, 104, 210, 7]) = (GM_FATAL, arr [105, 300, 104, 210, 7]) ∧
    Sort_Node_Ptr 2 3 (arr [105, 300, 104]) = (GM_FATAL, arr [105, 300, 104]) :=
  ⟨by unfold validNodes; decide, by unfold validNodes; decide, by unfold validNodes; decide,
    by decide,
    (Sort_Node_Ptr_descending 3 4 (arr [105, 300, 104, 210])).1 (by unfold validNodes; decide),
    (Sort_Node_Ptr_descending 3 5 (arr [105, 300, 104, 210, 7])).2
      (by unfold validNodes; decide),
    (Sort_Node_Ptr_descending 2 3 (arr [105, 300, 104])).2 (by unfold validNodes; decide)⟩

/-! ## The scan for `maxedge` in `RefineElementGreen` -/

theorem RefineElementGreen_scan_third (theSideNodes : Nat → Nat) (edges : Nat → Nat)
    (nedges : Nat) (x : Int × Nat × Int) (k : Nat) :
    (RefineElementGreen_scan theSideNodes edges nedges x k).2.2 =
      if (edges k : Int) > x.2.2 then ((2 * k + 1 : Nat) : Int) else x.2.2 := by
  unfold RefineElementGreen_scan
  by_cases h0 : theSideNodes ((2 * k + 3) % (2 * nedges)) = 0
  · simp only [h0, if_true]
    split_ifs <;> rfl
  · simp only [h0, if_false]
    split_ifs <;> rfl

theorem RefineElementGreen_scan_three (theSideNodes : Nat → Nat) (edges : Nat → Nat) :
    ((List.range 3).foldl (RefineElementGreen_scan theSideNodes edges 3) (-1, 3, -1)).2.2 =
      (if (edges 2 : Int) > (if (edges 1 : Int) > 1 then 3 else 1) then 5
        else if (edges 1 : Int) > 1 then 3 else 1) := by
  have h3 : List.range 3 = [0, 1, 2] := rfl
  rw [h3]
  simp only [List.foldl_cons, List.foldl_nil]
  rw [RefineElementGreen_scan_third, RefineElementGreen_scan_third,
    RefineElementGreen_scan_third]
  have e0 : ((edges 0 : Nat) : Int) > -1 := by
    have : (0 : Int) ≤ (edges 0 : Nat) := Int.ofNat_nonneg _
    omega
  simp only [e0, if_true]
  norm_num

/-- Claim C30, the code at work: for a triangular side with the element edge numbers `e0`,
`e1`, `e2`, the scan loop of the case 2 compares each edge number with the value of
`maxedge` at that time, which after the first round is `2*k+1` of an earlier edge and not
an edge number. It ends with `5` exactly when `e2` exceeds `3` (for `e1 > 1`) or `1`, and
else with `3` exactly when `e1 > 1`. For the edges 0, 5, 4 of side 1 of a pyramid it ends
with `5 = 2*2+1`, although the largest edge number, 5, belongs to the side-local index 1. -/
theorem RefineElementGreen_scan_maxedge (theSideNodes : Nat → Nat) (e0 e1 e2 : Nat) :
    ((List.range 3).foldl (RefineElementGreen_scan theSideNodes (arr [e0, e1, e2]) 3)
        (-1, 3, -1)).2.2 =
      (if (e2 : Int) > (if (e1 : Int) > 1 then 3 else 1) then 5
        else if (e1 : Int) > 1 then 3 else 1) ∧
    (List.range 3).map (pyramid_descriptor.edge_of_side 1) = [0, 5, 4] ∧
    ((List.range 3).foldl (RefineElementGreen_scan theSideNodes
        (pyramid_descriptor.edge_of_side 1) 3) (-1, 3, -1)).2.2 = 5 ∧
    pyramid_descriptor.edge_of_side 1 2 < pyramid_descriptor.edge_of_side 1 1 := by
  refine ⟨?_, by decide, ?_, by decide⟩
  · rw [RefineElementGreen_scan_three]
    rfl
  · rw [RefineElementGreen_scan_three]
    decide

/-! ## `RestrictMarks` on an element without sons -/

/-- Claim C25, the code at work. With hanging nodes (`hFlag == 0`) the round of
`RestrictMarks` for an element without sons runs on to the son check, finds no son that
forbids coarsening, and ends with `SETMARK(theElement,NO_REFINEMENT)`,
`SETMARKCLASS(theElement,NO_CLASS)` and `SETCOARSEN(theElement,1)`: what the estimator has
set is lost. In closure mode the round of an element with `REFINE == NO_REFINEMENT` and
without sons leaves the mesh as it is. -/
theorem RestrictMarks_leaf (env : Env) (fuel : Nat) (s : Mesh) (e : Nat) (he : e ≠ 0)
    (hs : s.NSONS e = 0) :
    (env.hFlag = 0 →
      RestrictMarks_element env fuel e s =
        .next (SETCOARSEN (SETMARKCLASS (SETMARK s e env.NO_REFINEMENT) e CLASS.NO_CLASS) e 1)) ∧
    (env.hFlag ≠ 0 → s.REFINE e = env.NO_REFINEMENT →
      RestrictMarks_element env fuel e s = .next s) := by
  have hg : GetSons env fuel s e = .ok (GM_OK, fun _ => 0) := by
    unfold GetSons
    rw [if_neg he, if_pos hs]
  constructor
  · intro hh
    unfold RestrictMarks_element
    rw [hg]
    simp only [ne_eq, not_true_eq_false, if_false]
    unfold RestrictMarks_closure
    simp only [hh, ne_eq, not_true_eq_false, if_false]
    rw [hs]
    rfl
  · intro hh hr
    unfold RestrictMarks_element
    rw [hg]
    simp only [ne_eq, not_true_eq_false, if_false]
    unfold RestrictMarks_closure
    have hsk : RestrictMarks_skip env s e := Or.inl hr
    simp only [hh, ne_eq, not_false_eq_true, if_true, hsk]

/-- Claim C25 at an example: on the level of `meshLeafMarked` the triangle 1 has no sons
and carries the mark 2 of class red. With hanging nodes `RestrictMarks` returns `GM_OK` and
leaves the triangle with the mark `NO_REFINEMENT`, the class `NO_CLASS` and `COARSEN` set;
in closure mode it leaves the mesh as it is. -/
theorem RestrictMarks_leaf_witness :
    meshLeafMarked.NSONS 1 = 0 ∧ meshLeafMarked.REFINE 1 = emptyEnv.NO_REFINEMENT ∧
    meshLeafMarked.MARK 1 = 2 ∧ meshLeafMarked.MARKCLASS 1 = CLASS.RED_CLASS ∧
    meshLeafMarked.COARSEN 1 = 0 ∧ envHanging2D.hFlag = 0 ∧ emptyEnv.hFlag = 1 ∧
    RestrictMarks_element envHanging2D 2 1 meshLeafMarked =
      .next (SETCOARSEN (SETMARKCLASS (SETMARK meshLeafMarked 1 envHanging2D.NO_REFINEMENT) 1
        CLASS.NO_CLASS) 1 1) ∧
    RestrictMarks_element emptyEnv 2 1 meshLeafMarked = .next meshLeafMarked ∧
    valueOf (RestrictMarks envHanging2D 2 meshLeafMarked) = GM_OK ∧
    (meshOf (RestrictMarks envHanging2D 2 meshLeafMarked) meshLeafMarked).MARK 1 = 0 ∧
    (meshOf (RestrictMarks envHanging2D 2 meshLeafMarked) meshLeafMarked).MARKCLASS 1 =
      CLASS.NO_CLASS ∧
    (meshOf (RestrictMarks envHanging2D 2 meshLeafMarked) meshLeafMarked).COARSEN 1 = 1 ∧
    valueOf (RestrictMarks emptyEnv 2 meshLeafMarked) = GM_OK ∧
    (meshOf (RestrictMarks emptyEnv 2 meshLeafMarked) meshLeafMarked).MARK 1 = 2 ∧
    (meshOf (RestrictMarks emptyEnv 2 meshLeafMarked) meshLeafMarked).MARKCLASS 1 =
      CLASS.RED_CLASS ∧
    (meshOf (RestrictMarks emptyEnv 2 meshLeafMarked) meshLeafMarked).COARSEN 1 = 0 :=
  ⟨rfl, rfl, rfl, rfl, rfl, rfl, rfl,
    (RestrictMarks_leaf envHanging2D 2 meshLeafMarked 1 (by decide) rfl).1 rfl,
    (RestrictMarks_leaf emptyEnv 2 meshLeafMarked 1 (by decide) rfl).2 (by decide) rfl,
    by decide, by decide, by decide, by decide, by decide, by decide, by decide, by decide⟩

/-! ## `CloseGrid` with FIFO in a 3-D build -/

theorem FifoIdle.idle_refl (s : Mesh) : FifoIdle s s := ⟨rfl, rfl, rfl, rfl, rfl, rfl, rfl⟩

theorem FifoIdle.idle_trans {a b c : Mesh} (h1 : FifoIdle a b) (h2 : FifoIdle b c) :
    FifoIdle a c :=
  ⟨h2.1.trans h1.1, h2.2.1.trans h1.2.1, h2.2.2.1.trans h1.2.2.1,
    h2.2.2.2.1.trans h1.2.2.2.1, h2.2.2.2.2.1.trans h1.2.2.2.2.1,
    h2.2.2.2.2.2.1.trans h1.2.2.2.2.2.1, h2.2.2.2.2.2.2.trans h1.2.2.2.2.2.2⟩

theorem ResetFrame.idle {s s' : Mesh} (h : ResetFrame s s') : FifoIdle s s' :=
  ⟨h.reset_field Mesh.SUCCE, h.reset_field Mesh.PREDE, h.reset_field Mesh.FIRSTELEMENT,
    h.reset_field Mesh.fifo_first, h.reset_field Mesh.fifo_last,
    h.reset_field Mesh.fifo_insertfirst, h.reset_field Mesh.fifo_insertlast⟩

theorem PatternFrame.pt_idle {s s' : Mesh} (h : PatternFrame s s') : FifoIdle s s' :=
  ⟨h.pattern_field Mesh.SUCCE, h.pattern_field Mesh.PREDE, h.pattern_field Mesh.FIRSTELEMENT,
    h.pattern_field Mesh.fifo_first, h.pattern_field Mesh.fifo_last,
    h.pattern_field Mesh.fifo_insertfirst, h.pattern_field Mesh.fifo_insertlast⟩

theorem SideFrame.sd_idle {s s' : Mesh} (h : SideFrame s s') : FifoIdle s s' :=
  ⟨h.side_field Mesh.SUCCE, h.side_field Mesh.PREDE, h.side_field Mesh.FIRSTELEMENT,
    h.side_field Mesh.fifo_first, h.side_field Mesh.fifo_last,
    h.side_field Mesh.fifo_insertfirst, h.side_field Mesh.fifo_insertlast⟩

theorem RuleFrame.rl_idle {s s' : Mesh} (h : RuleFrame s s') : FifoIdle s s' :=
  ⟨h.rule_field Mesh.SUCCE, h.rule_field Mesh.PREDE, h.rule_field Mesh.FIRSTELEMENT,
    h.rule_field Mesh.fifo_first, h.rule_field Mesh.fifo_last,
    h.rule_field Mesh.fifo_insertfirst, h.rule_field Mesh.fifo_insertlast⟩

/-- The rounds that lead to an element keep every relation that each round keeps. -/
theorem ReachesElement.rel {σ : Type} {link : σ → Nat → Nat} {body : Nat → σ → LoopRes σ}
    (R : σ → σ → Prop) (hrefl : ∀ x, R x x) (htrans : ∀ a b c, R a b → R b c → R a c)
    (hstep : ∀ e x y, body e x = .next y → R x y)
    {e0 : Nat} {x0 : σ} {e : Nat} {x : σ} (h : ReachesElement link body e0 x0 e x) :
    R x0 x := by
  induction h with
  | here e x => exact hrefl x
  | step e0 x0 x1 e x _ hb _ ih => exact htrans _ _ _ (hstep e0 x0 x1 hb) ih

/-- A loop over a list whose rounds all run through ends with `NULL`, once the budget of
rounds suffices. -/
theorem ReachesElement.next_list {σ : Type} {link : σ → Nat → Nat}
    {body : Nat → σ → LoopRes σ} {e0 : Nat} {x0 : σ} {e : Nat} {x : σ}
    (h : ReachesElement link body e0 x0 e x) (he : e = 0) :
    ∃ n, ∀ fuel, n ≤ fuel → forElements link body fuel e0 x0 = .next x := by
  induction h with
  | here e x =>
    subst he
    exact ⟨0, fun fuel _ => forElements_null link body fuel x⟩
  | step e0 x0 x1 e x h0 hb0 _ ih =>
    obtain ⟨n, hn⟩ := ih he
    refine ⟨n + 1, fun fuel hf => ?_⟩
    obtain ⟨k, rfl⟩ : ∃ k, fuel = k + 1 := ⟨fuel - 1, by omega⟩
    unfold forElements
    rw [if_neg h0, hb0]
    exact hn k (by omega)

theorem CloseGrid_mark_fifo (env : Env) (hf : env.fifoFlag ≠ 0) (s : Mesh) (e : Nat)
    (Mark : Int) (m : Int × Mesh) (h : CloseGrid_mark env s e Mark = some m) : m.2 = s := by
  unfold CloseGrid_mark at h
  rw [if_pos hf] at h
  split_ifs at h <;> simp only [Option.some.injEq] at h <;> subst h <;> rfl

/-- In a 3-D build with FIFO a round of the fourth loop that runs through writes `MARK`
only. -/
theorem CloseGrid_rule_frame_3d (env : Env) (hd : env.DIM = 3) (hf : env.fifoFlag ≠ 0)
    (e : Nat) (x y : Mesh × Int) (h : CloseGrid_rule env e x = .next y) :
    RuleFrame x.1 y.1 := by
  unfold CloseGrid_rule at h
  dsimp only at h
  split at h
  · contradiction
  · split at h
    · contradiction
    · rename_i m hm
      have fm : m.2 = x.1 := CloseGrid_mark_fifo env hf _ _ _ _ hm
      split at h
      · contradiction
      · split at h
        · rename_i s2 h2
          simp only [LoopRes.next.injEq] at h
          subst h
          unfold CloseGrid_fifo at h2
          split_ifs at h2 with c1 c2
          all_goals first
            | contradiction
            | (exfalso; omega)
            | (simp only [LoopRes.next.injEq] at h2
               subst h2
               rw [fm]
               rfl)
        · contradiction
        · contradiction

/-- In a 3-D build with FIFO the round of the fourth loop for a red element whose pattern
differs from the pattern of its mark executes `RETURN(-1)` and leaves the mesh and the
count as they are. -/
theorem CloseGrid_rule_mismatch (env : Env) (hd : env.DIM = 3) (hf : env.fifoFlag ≠ 0)
    (e : Nat) (x : Mesh × Int) (hm : RedMismatch env x.1 e) :
    CloseGrid_rule env e x = .ret (-1) x := by
  obtain ⟨p, m, Mark, h1, h2, h3, h4, h5⟩ := hm
  have fm : m.2 = x.1 := CloseGrid_mark_fifo env hf _ _ _ _ h2
  unfold MyPattern at h1
  cases hep : MyEdgePattern_loop env x.1 e (EDGES_OF_ELEM env x.1 e) 0 with
  | none => rw [hep] at h1; contradiction
  | some ep =>
    rw [hep] at h1
    simp only [Option.some.injEq] at h1
    unfold CloseGrid_rule
    dsimp only
    rw [hep]
    dsimp only
    rw [h1, h2]
    dsimp only
    rw [h3]
    dsimp only
    have hfifo : CloseGrid_fifo env e p (env.MARK2PAT (m.2.TAG e) Mark) m.2 = .ret (-1) m.2 := by
      unfold CloseGrid_fifo
      rw [if_pos ⟨hf, h4, h5⟩, if_neg (by omega), if_pos hd]
    rw [hfifo]
    dsimp only
    rw [fm]

/-- With FIFO the statement that clears the four pointers leaves the element list alone;
the pointers are compared with a mesh in which they are `NULL` already. -/
theorem CloseGrid_fifo_init_fields (env : Env) (hf : env.fifoFlag ≠ 0) (s : Mesh) :
    FifoIdle
      { s with fifo_first := 0, fifo_last := 0, fifo_insertfirst := 0, fifo_insertlast := 0 }
      (CloseGrid_fifo_init env s) := by
  unfold CloseGrid_fifo_init
  rw [if_pos hf]
  exact FifoIdle.idle_refl _

/-- Claim C23: in a 3-D build with the FIFO enabled, when the fourth loop of `CloseGrid`
reaches an element with `MARKCLASS = RED_CLASS` whose edge/side pattern differs from the
pattern of the mark derived for it, the round executes `RETURN(-1)`; `CloseGrid` returns
`-1`, once its budget of rounds suffices, and nothing has been re-queued: the element list
is as at the call and the four pointers of the FIFO are `NULL`. -/
theorem CloseGrid_fifo_3d (env : Env) (s s1 s2 s3 : Mesh) (e : Nat) (x : Mesh × Int)
    (hd : env.DIM = 3) (hf : env.fifoFlag ≠ 0)
    (h1 : ReachesElement (fun y => y.SUCCE) (CloseGrid_reset env) s.FIRSTELEMENT s 0 s1)
    (h2 : ReachesElement (fun y => y.SUCCE) (CloseGrid_pattern env) s1.FIRSTELEMENT s1 0 s2)
    (h3 : ReachesElement (fun y => y.SUCCE) (CloseGrid_sidepattern env) s2.FIRSTELEMENT
      (CloseGrid_fifo_init env s2) 0 s3)
    (h4 : ReachesElement (fun y => y.1.SUCCE) (CloseGrid_rule env) s2.FIRSTELEMENT (s3, 0) e x)
    (he : e ≠ 0) (hm : RedMismatch env x.1 e) :
    CloseGrid_rule env e x = .ret (-1) x ∧
    (∃ n, ∀ fuel, n ≤ fuel → CloseGrid env fuel s = .ok (-1, x.1)) ∧
    (x.1.fifo_first = 0 ∧ x.1.fifo_last = 0 ∧ x.1.fifo_insertfirst = 0 ∧
      x.1.fifo_insertlast = 0) ∧
    x.1.SUCCE = s.SUCCE ∧ x.1.PREDE = s.PREDE ∧ x.1.FIRSTELEMENT = s.FIRSTELEMENT := by
  have hb := CloseGrid_rule_mismatch env hd hf e x hm
  obtain ⟨n1, q1⟩ := h1.next_list rfl
  obtain ⟨n2, q2⟩ := h2.next_list rfl
  obtain ⟨n3, q3⟩ := h3.next_list rfl
  obtain ⟨n4, q4⟩ := h4.ret_list he hb
  have f1 : FifoIdle s s1 := h1.rel FifoIdle FifoIdle.idle_refl
    (fun _ _ _ a b => a.idle_trans b)
    (fun e x y hh => (CloseGrid_reset_frame env e x y hh).idle)
  have f2 : FifoIdle s1 s2 := h2.rel FifoIdle FifoIdle.idle_refl
    (fun _ _ _ a b => a.idle_trans b)
    (fun e x y hh => (CloseGrid_pattern_frame env e x y hh).pt_idle)
  have f3 : FifoIdle (CloseGrid_fifo_init env s2) s3 := h3.rel FifoIdle FifoIdle.idle_refl
    (fun _ _ _ a b => a.idle_trans b)
    (fun e x y hh => (CloseGrid_sidepattern_used env e x y hh).1.sd_idle)
  have f4 : FifoIdle s3 x.1 :=
    h4.rel (fun a b : Mesh × Int => FifoIdle a.1 b.1) (fun a => FifoIdle.idle_refl a.1)
      (fun _ _ _ a b => a.idle_trans b)
      (fun e x y hh => (CloseGrid_rule_frame_3d env hd hf e x y hh).rl_idle)
  obtain ⟨a1, a2, a3, a4, a5, a6, a7⟩ :=
    (CloseGrid_fifo_init_fields env hf s2).idle_trans (f3.idle_trans f4)
  have f12 := f1.idle_trans f2
  refine ⟨hb, ⟨max (max n1 n2) (max (max n3 n4) 1), fun fuel hfu => ?_⟩,
    ⟨a4, a5, a6, a7⟩, a1.trans f12.1, a2.trans f12.2.1, a3.trans f12.2.2.1⟩
  obtain ⟨k, rfl⟩ : ∃ k, fuel = k + 1 := ⟨fuel - 1, by omega⟩
  unfold CloseGrid
  rw [q1 _ (by omega)]
  dsimp only
  rw [q2 _ (by omega)]
  dsimp only
  unfold CloseGrid_sweeps
  rw [q3 _ (by omega)]
  dsimp only
  rw [q4 _ (by omega)]

/-- A loop over a list that has run through has reached `NULL`. -/
theorem forElements_reaches {σ : Type} (link : σ → Nat → Nat) (body : Nat → σ → LoopRes σ) :
    ∀ (fuel e0 : Nat) (x0 y : σ), forElements link body fuel e0 x0 = .next y →
      ReachesElement link body e0 x0 0 y := by
  intro fuel
  induction fuel with
  | zero =>
    intro e0 x0 y h
    unfold forElements at h
    split at h
    · rename_i he
      subst he
      simp only [LoopRes.next.injEq] at h
      subst h
      exact ReachesElement.here 0 x0
    · contradiction
  | succ k ih =>
    intro e0 x0 y h
    unfold forElements at h
    split at h
    · rename_i he
      subst he
      simp only [LoopRes.next.injEq] at h
      subst h
      exact ReachesElement.here 0 x0
    · rename_i he
      cases hb : body e0 x0 with
      | next z =>
        rw [hb] at h
        exact ReachesElement.step e0 x0 z 0 y he hb (ih _ _ _ h)
      | ret c z => rw [hb] at h; contradiction
      | stop r => rw [hb] at h; contradiction

theorem meshRedPyramids_reaches :
    ReachesElement (fun y : Mesh × Int => y.1.SUCCE) (CloseGrid_rule envPyramidFifo3D)
      meshRedPyramids2.FIRSTELEMENT (meshRedPyramids3, 0) 2 meshRedPyramids4 := by
  have hb : CloseGrid_rule envPyramidFifo3D 1 (meshRedPyramids3, 0) = .next meshRedPyramids4 :=
    rfl
  have hl : (fun y : Mesh × Int => y.1.SUCCE) meshRedPyramids4 1 = 2 := by decide
  have h2 : ReachesElement (fun y : Mesh × Int => y.1.SUCCE) (CloseGrid_rule envPyramidFifo3D)
      ((fun y : Mesh × Int => y.1.SUCCE) meshRedPyramids4 1) meshRedPyramids4 2
      meshRedPyramids4 := by
    rw [hl]
    exact ReachesElement.here 2 meshRedPyramids4
  exact ReachesElement.step 1 (meshRedPyramids3, 0) meshRedPyramids4 2 meshRedPyramids4
    (by decide) hb h2

theorem meshRedPyramids_mismatch : RedMismatch envPyramidFifo3D meshRedPyramids4.1 2 :=
  ⟨17, (2, meshRedPyramids4.1), 2, by decide, rfl, rfl, by decide, by decide⟩

/-- Claim C23 at an example: on `meshRedPyramids` in the 3-D build `envPyramidFifo3D` with
FIFO, the fourth loop reaches pyramid 2, which is red with the pattern 17 while its mark
has the pattern 1; `CloseGrid` returns `-1` for every budget of at least 3 rounds, with the
element list 1, 2 as before and without an entry in the FIFO. -/
theorem CloseGrid_fifo_3d_witness :
    envPyramidFifo3D.DIM = 3 ∧ envPyramidFifo3D.fifoFlag ≠ 0 ∧
    RedMismatch envPyramidFifo3D meshRedPyramids4.1 2 ∧
    MyPattern envPyramidFifo3D meshRedPyramids4.1 2 = some 17 ∧
    CloseGrid envPyramidFifo3D 3 meshRedPyramids = .ok (-1, meshRedPyramids4.1) ∧
    (List.range 3).map meshRedPyramids4.1.SUCCE = [0, 2, 0] ∧
    (CloseGrid_rule envPyramidFifo3D 2 meshRedPyramids4 = .ret (-1) meshRedPyramids4 ∧
      (∃ n, ∀ fuel, n ≤ fuel →
        CloseGrid envPyramidFifo3D fuel meshRedPyramids = .ok (-1, meshRedPyramids4.1)) ∧
      (meshRedPyramids4.1.fifo_first = 0 ∧ meshRedPyramids4.1.fifo_last = 0 ∧
        meshRedPyramids4.1.fifo_insertfirst = 0 ∧ meshRedPyramids4.1.fifo_insertlast = 0) ∧
      meshRedPyramids4.1.SUCCE = meshRedPyramids.SUCCE ∧
      meshRedPyramids4.1.PREDE = meshRedPyramids.PREDE ∧
      meshRedPyramids4.1.FIRSTELEMENT = meshRedPyramids.FIRSTELEMENT) :=
  ⟨rfl, by decide, meshRedPyramids_mismatch, by decide, rfl, by decide,
    CloseGrid_fifo_3d envPyramidFifo3D meshRedPyramids meshRedPyramids1 meshRedPyramids2
      meshRedPyramids3 2 meshRedPyramids4 rfl (by decide)
      (forElements_reaches _ _ 2 _ _ _ rfl) (forElements_reaches _ _ 2 _ _ _ rfl)
      (forElements_reaches _ _ 2 _ _ _ rfl) meshRedPyramids_reaches (by decide)
      meshRedPyramids_mismatch⟩

/-! ## `GetNeighborSons` -/

theorem searchSon_found (SonList : Nat → Nat) (Nb : Nat) :
    ∀ (k j : Nat), searchSon SonList Nb k j = j + k → ∀ i, j ≤ i → i < j + k → SonList i ≠ Nb := by
  intro k
  induction k with
  | zero => intro j _ i h1 h2; omega
  | succ k ih =>
    intro j h i h1 h2
    unfold searchSon at h
    split_ifs at h with hc
    · omega
    · rcases Nat.eq_or_lt_of_le h1 with e | e
      · rw [← e]; exact hc
      · exact ih (j + 1) (by rw [h]; omega) i e (by omega)

theorem SonsAdded.sa_refl (env : Env) (s : Mesh) (theElement theSon : Nat)
    (x : (Nat → Nat) × Nat) : SonsAdded env s theElement theSon x x :=
  ⟨Nat.le_refl _, fun _ _ => rfl, fun _ _ => rfl, fun h => h, fun i h1 h2 => by omega⟩

theorem SonsAdded.sa_trans {env : Env} {s : Mesh} {theElement theSon : Nat}
    {x y z : (Nat → Nat) × Nat} (h1 : SonsAdded env s theElement theSon x y)
    (h2 : SonsAdded env s theElement theSon y z) : SonsAdded env s theElement theSon x z := by
  obtain ⟨a1, a2, a3, a4, a5⟩ := h1
  obtain ⟨b1, b2, b3, b4, b5⟩ := h2
  refine ⟨Nat.le_trans a1 b1, ?_, ?_, fun h => b4 (a4 h), ?_⟩
  · intro i hi
    rw [b2 i (by omega), a2 i hi]
  · intro i hi
    rw [b3 i hi, a3 i (by omega)]
  · intro i hi1 hi2
    by_cases hy : i < y.2
    · rw [b2 i hy]
      exact a5 i hi1 hy
    · exact b5 i (by omega) hi2

theorem SonsAdded.root {env : Env} {s : Mesh} {theElement theSon a : Nat}
    {x y : (Nat → Nat) × Nat} (h : SonsAdded env s theElement a x y)
    (hr : Relation.TransGen (SonLink env s theElement) theSon a) :
    SonsAdded env s theElement theSon x y := by
  obtain ⟨a1, a2, a3, a4, a5⟩ := h
  exact ⟨a1, a2, a3, a4, fun i h1 h2 => ⟨(a5 i h1 h2).1, hr.trans (a5 i h1 h2).2⟩⟩

theorem GetNeighborSons_side_spec (env : Env) (s : Mesh) (theElement theSon nsons i : Nat)
    (hi : i < SIDES_OF_ELEM env s theSon) (x : (Nat → Nat) × Nat) (hx : x.2 ≤ nsons) :
    SonsAdded env s theElement theSon x (GetNeighborSons_side s theElement theSon nsons i x) ∧
      (GetNeighborSons_side s theElement theSon nsons i x).2 ≤ nsons := by
  unfold GetNeighborSons_side
  dsimp only
  split_ifs with h0 hf hj
  · exact ⟨SonsAdded.sa_refl _ _ _ _ _, hx⟩
  · refine ⟨⟨Nat.le_succ _, ?_, ?_, ?_, ?_⟩, hj.2⟩
    · intro k hk
      exact upd_other _ _ _ _ (by omega)
    · intro k hk
      exact upd_other _ _ _ _ (by dsimp only at hk; omega)
    · intro hd a b ha hb hab
      dsimp only at ha hb hab
      have hne := searchSon_found x.1 (s.NBELEM theSon i) x.2 0 (by rw [hj.1]; omega)
      by_cases ea : a = x.2
      · by_cases eb : b = x.2
        · rw [ea, eb]
        · rw [ea, upd_same, upd_other _ _ _ _ eb] at hab
          exact absurd hab.symm (hne b (Nat.zero_le _) (by omega))
      · by_cases eb : b = x.2
        · rw [eb, upd_same, upd_other _ _ _ _ ea] at hab
          exact absurd hab (hne a (Nat.zero_le _) (by omega))
        · rw [upd_other _ _ _ _ ea, upd_other _ _ _ _ eb] at hab
          exact hd a b (by omega) (by omega) hab
    · intro k hk1 hk2
      dsimp only at hk2 ⊢
      have ek : k = x.2 := by omega
      rw [ek, upd_same]
      exact ⟨hf, Relation.TransGen.single ⟨i, hi, rfl, h0, hf⟩⟩
  · exact ⟨SonsAdded.sa_refl _ _ _ _ _, hx⟩
  · exact ⟨SonsAdded.sa_refl _ _ _ _ _, hx⟩

theorem GetNeighborSons_sides_spec (env : Env) (s : Mesh) (theElement theSon nsons : Nat) :
    ∀ (l : List Nat), (∀ i, i ∈ l → i < SIDES_OF_ELEM env s theSon) →
      ∀ (x : (Nat → Nat) × Nat), x.2 ≤ nsons →
      SonsAdded env s theElement theSon x
        (l.foldl (fun y i => GetNeighborSons_side s theElement theSon nsons i y) x) ∧
      (l.foldl (fun y i => GetNeighborSons_side s theElement theSon nsons i y) x).2 ≤ nsons := by
  intro l
  induction l with
  | nil => intro _ x hx; exact ⟨SonsAdded.sa_refl _ _ _ _ _, hx⟩
  | cons a l ih =>
    intro hl x hx
    simp only [List.foldl_cons]
    obtain ⟨p1, p2⟩ := GetNeighborSons_side_spec env s theElement theSon nsons a
      (hl a (List.mem_cons_self a l)) x hx
    obtain ⟨q1, q2⟩ := ih (fun i hi => hl i (List.mem_cons_of_mem a hi)) _ p2
    exact ⟨p1.sa_trans q1, q2⟩

theorem GetNeighborSons_loop_spec (env : Env) (s : Mesh) (theElement theSon nsons c0 : Nat)
    (call : Nat → (Nat → Nat) × Nat → Option ((Nat → Nat) × Nat))
    (hcall : ∀ (a : Nat) (x : (Nat → Nat) × Nat), x.2 < nsons → c0 < x.2 →
      ∃ y, call a x = some y ∧ SonsAdded env s theElement a x y ∧ y.2 ≤ nsons) :
    ∀ (k i : Nat) (x : (Nat → Nat) × Nat), x.2 ≤ nsons → i + k ≤ x.2 → (0 < k → c0 < x.2) →
      (∀ j, i ≤ j → j < i + k →
        Relation.TransGen (SonLink env s theElement) theSon (x.1 j)) →
      ∃ y, GetNeighborSons_loop call nsons k i x = some y ∧
        SonsAdded env s theElement theSon x y ∧ y.2 ≤ nsons := by
  intro k
  induction k with
  | zero =>
    intro i x hx _ _ _
    exact ⟨x, rfl, SonsAdded.sa_refl _ _ _ _ _, hx⟩
  | succ k ih =>
    intro i x hx hik hc hgood
    unfold GetNeighborSons_loop
    by_cases hlt : x.2 < nsons
    · rw [if_pos hlt]
      obtain ⟨y, hy, py, ly⟩ := hcall (x.1 i) x hlt (hc (Nat.succ_pos k))
      rw [hy]
      dsimp only
      have py2 := py.root (hgood i (Nat.le_refl i) (by omega))
      obtain ⟨z, hz, pz, lz⟩ := ih (i + 1) y ly (by have := py.1; omega)
        (fun _ => by have := py.1; have := hc (Nat.succ_pos k); omega)
        (fun j hj1 hj2 => by
          rw [py.2.1 j (by omega)]
          exact hgood j (by omega) (by omega))
      exact ⟨z, hz, py2.sa_trans pz, lz⟩
    · rw [if_neg hlt]
      exact ⟨x, rfl, SonsAdded.sa_refl _ _ _ _ _, hx⟩

/-- Claim C27: `GetNeighborSons` terminates and extends the list of sons. For every mesh,
every `theSon` and every input count `count <= nsons`, a depth of `nsons - count + 1`
nested calls suffices: the call returns an array and a count `c` with
`count <= c <= nsons`; the entries below `count` are as before; if `SonList[0..count)` had
no duplicates then `SonList[0..c)` has none; and every entry added has the father
`theElement` and is reached from `theSon` over neighbour links each of which leads to a
son of `theElement`. -/
theorem GetNeighborSons_terminates (env : Env) (s : Mesh) (theElement nsons : Nat) :
    ∀ (fuel theSon : Nat) (x : (Nat → Nat) × Nat), x.2 ≤ nsons → nsons - x.2 < fuel →
      ∃ y, GetNeighborSons env s theElement nsons fuel theSon x = some y ∧
        x.2 ≤ y.2 ∧ y.2 ≤ nsons ∧ (∀ i, i < x.2 → y.1 i = x.1 i) ∧
        (SonsDistinct x.1 x.2 → SonsDistinct y.1 y.2) ∧
        ∀ i, x.2 ≤ i → i < y.2 → s.EFATHER (y.1 i) = theElement ∧
          Relation.TransGen (SonLink env s theElement) theSon (y.1 i) := by
  have main : ∀ (fuel theSon : Nat) (x : (Nat → Nat) × Nat), x.2 ≤ nsons → nsons - x.2 < fuel →
      ∃ y, GetNeighborSons env s theElement nsons fuel theSon x = some y ∧
        SonsAdded env s theElement theSon x y ∧ y.2 ≤ nsons := by
    intro fuel
    induction fuel with
    | zero => intro _ x _ h; omega
    | succ fuel ih =>
      intro theSon x hx hfu
      unfold GetNeighborSons
      dsimp only
      obtain ⟨p1, p2⟩ := GetNeighborSons_sides_spec env s theElement theSon nsons
        (List.range (SIDES_OF_ELEM env s theSon)) (fun i hi => List.mem_range.mp hi) x hx
      generalize (List.range (SIDES_OF_ELEM env s theSon)).foldl
        (fun y i => GetNeighborSons_side s theElement theSon nsons i y) x = x1 at p1 p2
      by_cases he : x1.2 = nsons
      · rw [if_pos he]
        exact ⟨x1, rfl, p1, p2⟩
      · rw [if_neg he]
        obtain ⟨y, hy, py, ly⟩ := GetNeighborSons_loop_spec env s theElement theSon nsons x.2
          (GetNeighborSons env s theElement nsons fuel)
          (fun a z hz1 hz2 => ih a z (Nat.le_of_lt hz1) (by omega))
          (x1.2 - x.2) x.2 x1 p2 (by have := p1.1; omega) (fun hk => by omega)
          (fun j hj1 hj2 => (p1.2.2.2.2 j hj1 (by have := p1.1; omega)).2)
        exact ⟨y, hy, p1.sa_trans py, ly⟩
  intro fuel theSon x hx hfu
  obtain ⟨y, hy, ⟨a1, a2, _, a4, a5⟩, ly⟩ := main fuel theSon x hx hfu
  exact ⟨y, hy, a1, ly, a2, a4, a5⟩

/-- Claim C27 at an example: for the green pyramid 1 of `meshGreenSons`, the call for the
son 11 with the list `[11]` and `nsons = 4` returns with a depth of 4 calls; it finds the
sons 12 and 13 next to 11 and the son 14 next to 13, and leaves out the neighbour 50, which
has another father. -/
theorem GetNeighborSons_terminates_witness :
    sonsFound (GetNeighborSons envGreen3D meshGreenSons 1 4 4 11 (upd (fun _ => 0) 0 11, 1)) 5 =
      ([11, 12, 13, 14, 0], 4) ∧ meshGreenSons.NBELEM 11 4 = 50 ∧
    ∃ y, GetNeighborSons envGreen3D meshGreenSons 1 4 4 11 (upd (fun _ => 0) 0 11, 1) = some y ∧
      1 ≤ y.2 ∧ y.2 ≤ 4 ∧ (∀ i, i < 1 → y.1 i = upd (fun _ => 0) 0 11 i) ∧
      (SonsDistinct (upd (fun _ => 0) 0 11) 1 → SonsDistinct y.1 y.2) ∧
      ∀ i, 1 ≤ i → i < y.2 → meshGreenSons.EFATHER (y.1 i) = 1 ∧
        Relation.TransGen (SonLink envGreen3D meshGreenSons 1) 11 (y.1 i) :=
  ⟨by decide, by decide,
    GetNeighborSons_terminates envGreen3D meshGreenSons 1 4 4 11 (upd (fun _ => 0) 0 11, 1)
      (by decide) (by decide)⟩

/-! ## The case `RED_CLASS` of `Get_Sons_of_ElementSide` -/

theorem Get_Sons_red_side_none (env : Env) (s : Mesh) (theElement side i : Nat) :
    ∀ (k j0 : Nat) (x : SideSelection),
      (∀ j, j0 ≤ j → j < j0 + k → ¬ OnFatherSide env s theElement side i j) →
      forLoop (Get_Sons_red_side env s theElement side i) k j0 x = .next x := by
  intro k
  induction k with
  | zero => intro j0 x _; rfl
  | succ k ih =>
    intro j0 x h
    unfold forLoop
    have hb : Get_Sons_red_side env s theElement side i j0 x = .next x := by
      unfold Get_Sons_red_side
      exact if_neg (h j0 (Nat.le_refl _) (by omega))
    rw [hb]
    exact ih (j0 + 1) x (fun j h1 h2 => h j (by omega) (by omega))

theorem Get_Sons_red_side_one (env : Env) (s : Mesh) (theElement side i : Nat) :
    ∀ (k j0 : Nat) (x : SideSelection) (j1 : Nat), j0 ≤ j1 → j1 < j0 + k →
      OnFatherSide env s theElement side i j1 →
      (∀ j, j0 ≤ j → j < j0 + k → OnFatherSide env s theElement side i j → j = j1) →
      forLoop (Get_Sons_red_side env s theElement side i) k j0 x =
        .next { SonSides := upd x.SonSides x.nsons j1
                SonList := upd x.SonList x.nsons (x.SonList i)
                nsons := x.nsons + 1 } := by
  intro k
  induction k with
  | zero => intro j0 x j1 h1 h2; omega
  | succ k ih =>
    intro j0 x j1 h1 h2 hp hu
    unfold forLoop
    by_cases e : j0 = j1
    · subst e
      have hb : Get_Sons_red_side env s theElement side i j0 x =
          .next { SonSides := upd x.SonSides x.nsons j0
                  SonList := upd x.SonList x.nsons (x.SonList i)
                  nsons := x.nsons + 1 } := by
        unfold Get_Sons_red_side
        exact if_pos hp
      rw [hb]
      exact Get_Sons_red_side_none env s theElement side i k (j0 + 1) _
        (fun j a b hj => by have := hu j (by omega) (by omega) hj; omega)
    · have hb : Get_Sons_red_side env s theElement side i j0 x = .next x := by
        unfold Get_Sons_red_side
        exact if_neg (fun hj => e (hu j0 (Nat.le_refl _) (by omega) hj))
      rw [hb]
      exact ih (j0 + 1) x j1 (by omega) (by omega) hp
        (fun j a b hj => hu j (by omega) (by omega) hj)

theorem hasFatherSide_iff (env : Env) (s : Mesh) (theElement side : Nat) (SonList : Nat → Nat)
    (i : Nat) : hasFatherSide env s theElement side SonList i = true ↔
      ∃ j, j < SIDES_OF_ELEM env s (SonList i) ∧ OnFatherSide env s theElement side i j := by
  unfold hasFatherSide
  simp only [List.any_eq_true, List.mem_range, decide_eq_true_eq]

/-- The state of the selection after the sons below `i` have been handled. -/
theorem Get_Sons_red_loop (env : Env) (s : Mesh) (theElement side : Nat) (input : Nat → Nat)
    (SonSides : Nat → Nat) (n : Nat)
    (hone : ∀ i, i < n → ∀ j j', j < SIDES_OF_ELEM env s (input i) →
      j' < SIDES_OF_ELEM env s (input i) → OnFatherSide env s theElement side i j →
      OnFatherSide env s theElement side i j' → j = j') :
    ∀ i, i ≤ n → ∃ x, forLoop (Get_Sons_red_son env s theElement side) i 0
        { SonList := input, SonSides := SonSides, nsons := 0 } = .next x ∧
      x.nsons = (sonsOnSide env s theElement side input i).length ∧ x.nsons ≤ i ∧
      (∀ k, k < x.nsons →
        x.SonList k = input ((sonsOnSide env s theElement side input i).getD k 0) ∧
        x.SonSides k <
          SIDES_OF_ELEM env s (input ((sonsOnSide env s theElement side input i).getD k 0)) ∧
        OnFatherSide env s theElement side
          ((sonsOnSide env s theElement side input i).getD k 0) (x.SonSides k)) ∧
      ∀ k, x.nsons ≤ k → x.SonList k = input k := by
  intro i
  induction i with
  | zero =>
    intro _
    exact ⟨_, rfl, rfl, Nat.le_refl 0, fun k hk => absurd hk (Nat.not_lt_zero k),
      fun _ _ => rfl⟩
  | succ i ih =>
    intro hi
    obtain ⟨x, hx, a1, a2, a3, a4⟩ := ih (Nat.le_of_succ_le hi)
    have hsplit : forLoop (Get_Sons_red_son env s theElement side) (i + 1) 0
        { SonList := input, SonSides := SonSides, nsons := 0 } =
        Get_Sons_red_son env s theElement side i x := by
      have := forLoop_snoc (Get_Sons_red_son env s theElement side) i 0 _ x hx
      rw [Nat.zero_add] at this
      exact this
    rw [hsplit]
    have hin : x.SonList i = input i := a4 i a2
    have hsel : sonsOnSide env s theElement side input (i + 1) =
        sonsOnSide env s theElement side input i ++
          (if hasFatherSide env s theElement side input i = true then [i] else []) := by
      unfold sonsOnSide
      rw [List.range_succ, List.filter_append]
      by_cases hc : hasFatherSide env s theElement side input i = true
      · simp [hc]
      · simp [hc]
    unfold Get_Sons_red_son
    rw [hin]
    by_cases hc : hasFatherSide env s theElement side input i = true
    · obtain ⟨j1, hj1, hp⟩ := (hasFatherSide_iff env s theElement side input i).1 hc
      have hl := Get_Sons_red_side_one env s theElement side i
        (SIDES_OF_ELEM env s (input i)) 0 x j1 (Nat.zero_le _) (by omega) hp
        (fun j _ hj hq => hone i (by omega) j j1 (by omega) hj1 hq hp)
      rw [hl, hsel, if_pos hc]
      refine ⟨_, rfl, ?_, ?_, ?_, ?_⟩
      · simp only [List.length_append, List.length_singleton, a1]
      · dsimp only; omega
      · intro k hk
        dsimp only at hk ⊢
        by_cases ek : k = x.nsons
        · have eg : (sonsOnSide env s theElement side input i ++ [i]).getD k 0 = i := by
            rw [ek, a1, List.getD_eq_getElem?_getD, List.getElem?_append_right (Nat.le_refl _)]
            simp
          rw [eg, ek, upd_same, upd_same, hin]
          exact ⟨rfl, hj1, hp⟩
        · have hk2 : k < x.nsons := by omega
          have eg : (sonsOnSide env s theElement side input i ++ [i]).getD k 0 =
              (sonsOnSide env s theElement side input i).getD k 0 := by
            rw [List.getD_eq_getElem?_getD, List.getD_eq_getElem?_getD,
              List.getElem?_append_left (by rw [← a1]; exact hk2)]
          rw [eg, upd_other _ _ _ _ ek, upd_other _ _ _ _ ek]
          exact a3 k hk2
      · intro k hk
        dsimp only at hk ⊢
        rw [upd_other _ _ _ _ (by omega)]
        exact a4 k (by omega)
    · have hl := Get_Sons_red_side_none env s theElement side i
        (SIDES_OF_ELEM env s (input i)) 0 x
        (fun j _ hj hq => hc ((hasFatherSide_iff env s theElement side input i).2
          ⟨j, by omega, hq⟩))
      rw [hl, hsel, if_neg hc, List.append_nil]
      exact ⟨x, rfl, a1, by omega, a3, a4⟩

/-- Claim C28. In the case `RED_CLASS` of `Get_Sons_of_ElementSide` (always taken in 2-D), when
the sons are found and every son has at most one side whose rule entry `SON_NB` equals
`FATHER_SIDE_OFFSET+side`, the function returns `GM_OK`; `Sons_of_Side` is the number of input
sons that have such a side, `SonList[0..Sons_of_Side)` is the subsequence of these sons in
the original order, `SonSides[k]` is that side of `SonList[k]`, and `SonList[k]` is `NULL` for
every `k` from `Sons_of_Side` to `MAX_SONS-1`. -/
theorem Get_Sons_of_ElementSide_red_selection (env : Env) (fuel : Nat) (s : Mesh)
    (theElement side : Nat) (SonList SonSides : Nat → Nat) (NeedSons : Nat)
    (input : Nat → Nat)
    (hg : (if NeedSons ≠ 0 then GetSons env fuel s theElement else .ok (GM_OK, SonList)) =
      .ok (GM_OK, input))
    (hred : (if env.DIM = 2 then CLASS.RED_CLASS else s.MARKCLASS theElement) =
      CLASS.RED_CLASS)
    (hone : ∀ i, i < s.NSONS theElement → ∀ j j', j < SIDES_OF_ELEM env s (input i) →
      j' < SIDES_OF_ELEM env s (input i) → OnFatherSide env s theElement side i j →
      OnFatherSide env s theElement side i j' → j = j') :
    ∃ r, Get_Sons_of_ElementSide env fuel s theElement side SonList SonSides NeedSons = .ok r ∧
      r.code = GM_OK ∧
      r.Sons_of_Side =
        (sonsOnSide env s theElement side input (s.NSONS theElement)).length ∧
      r.Sons_of_Side ≤ s.NSONS theElement ∧
      (List.range r.Sons_of_Side).map r.SonList =
        (sonsOnSide env s theElement side input (s.NSONS theElement)).map input ∧
      (∀ k, k < r.Sons_of_Side →
        r.SonList k =
          input ((sonsOnSide env s theElement side input (s.NSONS theElement)).getD k 0) ∧
        r.SonSides k < SIDES_OF_ELEM env s (r.SonList k) ∧
        OnFatherSide env s theElement side
          ((sonsOnSide env s theElement side input (s.NSONS theElement)).getD k 0)
          (r.SonSides k)) ∧
      ∀ k, r.Sons_of_Side ≤ k → k < env.MAX_SONS → r.SonList k = 0 := by
  obtain ⟨x, hx, a1, a2, a3, a4⟩ := Get_Sons_red_loop env s theElement side input SonSides
    (s.NSONS theElement) hone (s.NSONS theElement) (Nat.le_refl _)
  have hpt : ∀ k, k < x.nsons → Get_Sons_clear env x.nsons x.SonList k =
      input ((sonsOnSide env s theElement side input (s.NSONS theElement)).getD k 0) := by
    intro k hk
    unfold Get_Sons_clear
    rw [if_neg (by omega)]
    exact (a3 k hk).1
  refine ⟨{ code := GM_OK, Sons_of_Side := x.nsons,
            SonList := Get_Sons_clear env x.nsons x.SonList, SonSides := x.SonSides },
    ?_, rfl, a1, a2, ?_, ?_, ?_⟩
  · unfold Get_Sons_of_ElementSide
    rw [hg]
    simp only [ne_eq, not_true_eq_false, if_false]
    rw [hred]
    simp only [hx]
  · apply List.ext_getElem
    · simp only [List.length_map, List.length_range, a1]
    · intro k h1 h2
      simp only [List.length_map, List.length_range] at h1 h2
      simp only [List.getElem_map, List.getElem_range]
      rw [hpt k h1, List.getD_eq_getElem _ _ h2]
  · intro k hk
    dsimp only at hk ⊢
    rw [hpt k hk]
    exact ⟨rfl, (a3 k hk).2.1, (a3 k hk).2.2⟩
  · intro k h1 h2
    dsimp only at h1 ⊢
    unfold Get_Sons_clear
    rw [if_pos ⟨h1, h2⟩]

theorem meshRedSons_one_side : ∀ i, i < meshRedSons.NSONS 1 → ∀ j j',
    j < SIDES_OF_ELEM envTriangleRules meshRedSons (arr [31, 32, 33, 34, 7, 8] i) →
    j' < SIDES_OF_ELEM envTriangleRules meshRedSons (arr [31, 32, 33, 34, 7, 8] i) →
    OnFatherSide envTriangleRules meshRedSons 1 1 i j →
    OnFatherSide envTriangleRules meshRedSons 1 1 i j' → j = j' := by
  intro i hi j j' hj hj' h1 h2
  have hi4 : i < 4 := hi
  have hj3 : j < 3 := hj
  have hj3' : j' < 3 := hj'
  clear hi hj hj'
  interval_cases i <;> interval_cases j <;> interval_cases j' <;>
    first
    | rfl
    | exact absurd h1 (by decide)
    | exact absurd h2 (by decide)

/-- Claim C28 at an example: for side 1 of the red triangle 1 of `meshRedSons` with the sons
31, 32, 33, 34 of the regular rule, the call hands back the two sons 32 and 33, each with
its side 1, and `NULL` behind them; the entries of `SonSides` behind them are as before. -/
theorem Get_Sons_of_ElementSide_red_selection_witness :
    sonsOfSideList (Get_Sons_of_ElementSide envTriangleRules 0 meshRedSons 1 1
      (arr [31, 32, 33, 34, 7, 8]) (fun _ => 9) 0) 7 =
      (0, 2, [32, 33, 0, 0, 0, 0, 0], [1, 1, 9, 9, 9, 9, 9]) ∧
    sonsOnSide envTriangleRules meshRedSons 1 1 (arr [31, 32, 33, 34, 7, 8])
      (meshRedSons.NSONS 1) = [1, 2] ∧
    ∃ r, Get_Sons_of_ElementSide envTriangleRules 0 meshRedSons 1 1
        (arr [31, 32, 33, 34, 7, 8]) (fun _ => 9) 0 = .ok r ∧
      r.code = GM_OK ∧
      r.Sons_of_Side =
        (sonsOnSide envTriangleRules meshRedSons 1 1 (arr [31, 32, 33, 34, 7, 8])
          (meshRedSons.NSONS 1)).length ∧
      r.Sons_of_Side ≤ meshRedSons.NSONS 1 ∧
      (List.range r.Sons_of_Side).map r.SonList =
        (sonsOnSide envTriangleRules meshRedSons 1 1 (arr [31, 32, 33, 34, 7, 8])
          (meshRedSons.NSONS 1)).map (arr [31, 32, 33, 34, 7, 8]) ∧
      (∀ k, k < r.Sons_of_Side →
        r.SonList k = arr [31, 32, 33, 34, 7, 8]
          ((sonsOnSide envTriangleRules meshRedSons 1 1 (arr [31, 32, 33, 34, 7, 8])
            (meshRedSons.NSONS 1)).getD k 0) ∧
        r.SonSides k < SIDES_OF_ELEM envTriangleRules meshRedSons (r.SonList k) ∧
        OnFatherSide envTriangleRules meshRedSons 1 1
          ((sonsOnSide envTriangleRules meshRedSons 1 1 (arr [31, 32, 33, 34, 7, 8])
            (meshRedSons.NSONS 1)).getD k 0) (r.SonSides k)) ∧
      ∀ k, r.Sons_of_Side ≤ k → k < envTriangleRules.MAX_SONS → r.SonList k = 0 :=
  ⟨by decide, by decide,
    Get_Sons_of_ElementSide_red_selection envTriangleRules 0 meshRedSons 1 1
      (arr [31, 32, 33, 34, 7, 8]) (fun _ => 9) 0 (arr [31, 32, 33, 34, 7, 8]) rfl rfl
      meshRedSons_one_side⟩

/-! ## `RefineElementGreen`: the cases of a side, read as rows -/

theorem RefineElementGreen_quad_rows (ix : GreenIndices) (tsn : Nat → Nat) (theNode : Nat)
    (sides : Nat → Int) (k nelem : Nat) (sons : Nat → GREENSONDATA) (hk : k ≤ 4) :
    RefineElementGreen_quad ix tsn sides 4 k nelem sons =
      .next (applyRows ix tsn theNode sides (greenQuadRows (greenMid tsn) k) nelem sons) := by
  interval_cases k
  · rfl
  · unfold RefineElementGreen_quad greenQuadRows greenMid
    simp only [Nat.one_ne_zero, if_false, if_true]
    split_ifs <;> rfl
  · unfold RefineElementGreen_quad greenQuadRows greenMid
    simp only [OfNat.ofNat_ne_zero, OfNat.ofNat_ne_one, if_false, if_true, decide_eq_true_eq]
    by_cases h1 : tsn ((node0After 4 (searchBreak (fun j => decide (tsn (2 * j + 1) ≠ 0)) 4 0) + 6) %
        (2 * 4)) ≠ 0
    · simp only [h1, if_true, ne_eq]
      split_ifs <;> rfl
    · simp only [h1, if_false, ne_eq]
      split_ifs <;> rfl
  · have hp : (fun j => decide (tsn (2 * j + 1) = 0)) =
        (fun j => !(fun x => decide (tsn x ≠ 0)) (2 * j + 1)) := by
      funext j; simp
    unfold RefineElementGreen_quad greenQuadRows greenMid
    simp only [OfNat.ofNat_ne_zero, OfNat.ofNat_ne_one, if_false, if_true, hp]
    rfl
  · rfl

theorem RefineElementGreen_sidenode_rows (ix : GreenIndices) (tsn : Nat → Nat) (theNode : Nat)
    (sides : Nat → Int) (nelem : Nat) (sons : Nat → GREENSONDATA)
    (h0 : tsn (2 * 0 + 1) ≠ 0) (h1 : tsn (2 * (0 + 1) + 1) ≠ 0)
    (h2 : tsn (2 * (0 + 1 + 1) + 1) ≠ 0) (h3 : tsn (2 * (0 + 1 + 1 + 1) + 1) ≠ 0) :
    RefineElementGreen_sidenode ix tsn theNode sides 4 nelem sons =
      .next (applyRows ix tsn theNode sides greenFaceRows nelem sons) := by
  unfold RefineElementGreen_sidenode
  have hl : RefineElementGreen_sidenode_loop ix tsn theNode sides 4 4 0 (sons, nelem) =
      (4, (applyRows ix tsn theNode sides greenFaceRows nelem sons, nelem + 1 + 1 + 1 + 1)) := by
    unfold RefineElementGreen_sidenode_loop
    rw [if_neg h0]
    unfold RefineElementGreen_sidenode_loop
    rw [if_neg h1]
    unfold RefineElementGreen_sidenode_loop
    rw [if_neg h2]
    unfold RefineElementGreen_sidenode_loop
    rw [if_neg h3]
    rfl
  rw [hl]
  rfl

theorem RefineElementGreen_scan_fst (tsn : Nat → Nat) (edges : Nat → Nat) (x : Int × Nat × Int)
    (k : Nat) :
    ((RefineElementGreen_scan tsn edges 3 x k).1, (RefineElementGreen_scan tsn edges 3 x k).2.1) =
      greenScan (greenMid tsn) (x.1, x.2.1) k := by
  unfold RefineElementGreen_scan greenScan greenMid
  by_cases h0 : tsn ((2 * k + 3) % (2 * 3)) = 0
  · simp only [h0, if_true, ne_eq, not_true_eq_false, decide_False, Bool.false_eq_true, if_false]
    split_ifs <;> rfl
  · simp only [h0, if_false, ne_eq, not_false_eq_true, decide_True, if_true]
    split_ifs <;> rfl

theorem RefineElementGreen_scan_fold (tsn : Nat → Nat) (edges : Nat → Nat) :
    ∀ (l : List Nat) (x : Int × Nat × Int),
      ((l.foldl (RefineElementGreen_scan tsn edges 3) x).1,
        (l.foldl (RefineElementGreen_scan tsn edges 3) x).2.1) =
      l.foldl (greenScan (greenMid tsn)) (x.1, x.2.1) := by
  intro l
  induction l with
  | nil => intro x; rfl
  | cons k l ih =>
    intro x
    simp only [List.foldl_cons]
    rw [ih, RefineElementGreen_scan_fst]

theorem greenScan_found (mid : Nat → Bool) (h : ¬ (mid 1 = true ∧ mid 3 = true ∧ mid 5 = true)) :
    ((List.range 3).foldl (greenScan mid) (-1, 3)).1 ≠ -1 := by
  have h3 : List.range 3 = [0, 1, 2] := rfl
  rw [h3]
  simp only [List.foldl_cons, List.foldl_nil, greenScan]
  norm_num
  rcases h1 : mid 1 with _ | _ <;> rcases h3 : mid 3 with _ | _ <;>
    rcases h5 : mid 5 with _ | _ <;> simp_all

theorem RefineElementGreen_triangle_rows (ix : GreenIndices) (tsn : Nat → Nat) (theNode : Nat)
    (sides : Nat → Int) (edges : Nat → Nat) (pattern k nelem : Nat)
    (sons : Nat → GREENSONDATA) (hk : k ≤ 3)
    (hnull : k = 2 → ¬ (greenMid tsn 1 = true ∧ greenMid tsn 3 = true ∧ greenMid tsn 5 = true)) :
    RefineElementGreen_triangle ix tsn sides edges pattern 3 k nelem sons =
      .next (applyRows ix tsn theNode sides
        (greenTriRows (greenMid tsn)
          (decide (((List.range 3).foldl (RefineElementGreen_scan tsn edges 3) (-1, 3, -1)).1 =
              ((List.range 3).foldl (RefineElementGreen_scan tsn edges 3) (-1, 3, -1)).2.2 ∧
            pattern = 0)) k) nelem sons) := by
  interval_cases k
  · rfl
  · unfold RefineElementGreen_triangle greenTriRows greenMid
    simp only [Nat.one_ne_zero, if_false, if_true]
    split_ifs <;> rfl
  · have hf := RefineElementGreen_scan_fold tsn edges (List.range 3) (-1, 3, -1)
    have hm : ((List.range 3).foldl (RefineElementGreen_scan tsn edges 3) (-1, 3, -1)).2.2 ≠ -1 := by
      rw [RefineElementGreen_scan_three]
      split_ifs <;> decide
    have h1 : ((List.range 3).foldl (RefineElementGreen_scan tsn edges 3) (-1, 3, -1)).1 ≠ -1 := by
      have := greenScan_found (greenMid tsn) (hnull rfl)
      rw [← hf] at this
      exact this
    unfold RefineElementGreen_triangle greenTriRows
    simp only [OfNat.ofNat_ne_zero, OfNat.ofNat_ne_one, if_false, if_true]
    rw [if_neg hm, if_neg h1, ← hf]
    by_cases hd : ((List.range 3).foldl (RefineElementGreen_scan tsn edges 3) (-1, 3, -1)).1 =
        ((List.range 3).foldl (RefineElementGreen_scan tsn edges 3) (-1, 3, -1)).2.2 ∧ pattern = 0
    · simp only [hd, and_self, decide_True, if_true]
      rfl
    · simp only [hd, decide_False, Bool.false_eq_true, if_false]
      rfl
  · rfl

theorem RefineElementGreen_sides_loop (env : Env) (s : Mesh) (theElement i : Nat) :
    ∀ (k j0 : Nat) (sides : Nat → Int),
      (∀ j, j0 ≤ j → j < j0 + k →
        SIDE_WITH_EDGE env s theElement (EDGE_OF_SIDE env s theElement i j) 0 ≠ i ∨
        SIDE_WITH_EDGE env s theElement (EDGE_OF_SIDE env s theElement i j) 1 ≠ i) →
      forLoop (RefineElementGreen_sides_edge env s theElement i) k j0 sides =
        .next (fun j => if j0 ≤ j ∧ j < j0 + k then
          ((greenOther env s theElement i j + MAX_GREEN_SONS : Nat) : Int) else sides j) := by
  intro k
  induction k with
  | zero =>
    intro j0 sides _
    unfold forLoop
    congr 1
    funext j
    rw [if_neg (by omega)]
  | succ k ih =>
    intro j0 sides h
    unfold forLoop
    have hb : RefineElementGreen_sides_edge env s theElement i j0 sides =
        .next (upd sides j0 ((greenOther env s theElement i j0 + MAX_GREEN_SONS : Nat) : Int)) := by
      unfold RefineElementGreen_sides_edge greenOther
      by_cases h0 : SIDE_WITH_EDGE env s theElement (EDGE_OF_SIDE env s theElement i j0) 0 ≠ i
      · simp only [h0, if_true, ne_eq, not_false_eq_true]
      · have h1 := (h j0 (Nat.le_refl _) (by omega)).resolve_left h0
        simp only [h0, h1, if_true, if_false, ne_eq, not_false_eq_true]
    rw [hb]
    simp only
    rw [ih (j0 + 1) _ (fun j a b => h j (by omega) (by omega))]
    congr 1
    funext j
    by_cases e : j = j0
    · subst e
      rw [if_neg (by omega), if_pos (by omega), upd_same]
    · rw [upd_other _ _ _ _ e]
      by_cases c : j0 + 1 ≤ j ∧ j < j0 + 1 + k
      · rw [if_pos c, if_pos (by omega)]
      · rw [if_neg c, if_neg (by omega)]

theorem greenMidNodes_le (env : Env) (s : Mesh) (theElement : Nat) (theContext : Nat → Nat)
    (i : Nat) : greenMidNodes env s theElement theContext i ≤ EDGES_OF_SIDE env s theElement i := by
  unfold greenMidNodes
  calc _ ≤ (List.range (EDGES_OF_SIDE env s theElement i)).length := List.length_filter_le _ _
    _ = _ := List.length_range _

theorem greenMidNodes_four (tsn : Nat → Nat)
    (h : ((List.range 4).filter (fun j => decide (tsn (2 * j + 1) ≠ 0))).length = 4) :
    tsn (2 * 0 + 1) ≠ 0 ∧ tsn (2 * (0 + 1) + 1) ≠ 0 ∧ tsn (2 * (0 + 1 + 1) + 1) ≠ 0 ∧
      tsn (2 * (0 + 1 + 1 + 1) + 1) ≠ 0 := by
  have h4 : List.range 4 = [0, 1, 2, 3] := rfl
  rw [h4] at h
  by_cases h0 : tsn 1 = 0 <;> by_cases h1 : tsn 3 = 0 <;> by_cases h2 : tsn 5 = 0 <;>
    by_cases h3 : tsn 7 = 0 <;> simp_all [List.filter]

theorem greenMidNodes_two (tsn : Nat → Nat)
    (h : ((List.range 3).filter (fun j => decide (tsn (2 * j + 1) ≠ 0))).length = 2) :
    ¬ (greenMid tsn 1 = true ∧ greenMid tsn 3 = true ∧ greenMid tsn 5 = true) := by
  have h3 : List.range 3 = [0, 1, 2] := rfl
  rw [h3] at h
  unfold greenMid
  by_cases h0 : tsn 1 = 0 <;> by_cases h1 : tsn 3 = 0 <;> by_cases h2 : tsn 5 = 0 <;>
    simp_all [List.filter]

/-- The body of the loop over the sides writes the rows of the side from `5*i` on. -/
theorem RefineElementGreen_side_rows (env : Env) (s : Mesh) (theElement : Nat)
    (theContext : Nat → Nat) (ix : GreenIndices) (i : Nat) (sons : Nat → GREENSONDATA)
    (h : GreenSide env s theElement theContext i) :
    RefineElementGreen_side env s theElement theContext ix i sons =
      .next (applyRows ix (RefineElementGreen_sidenodes env s theElement theContext i)
        (greenSideNode env s theElement theContext i) (greenSides env s theElement i)
        (greenSideRows env s theElement theContext i) (5 * i)
        (RefineElementGreen_bdy (greenBdy s theElement i) (5 * i) sons)) := by
  obtain ⟨he, hc, hs, hf⟩ := h
  have hl : forLoop (RefineElementGreen_sides_edge env s theElement i)
      (EDGES_OF_SIDE env s theElement i) 0 (fun _ => 0) = .next (greenSides env s theElement i) :=
    RefineElementGreen_sides_loop env s theElement i (EDGES_OF_SIDE env s theElement i) 0
      (fun _ => 0) (fun j _ b => hs j (by omega))
  have hk := greenMidNodes_le env s theElement theContext i
  have hkdef : ((List.range (EDGES_OF_SIDE env s theElement i)).filter
      (fun j => decide (RefineElementGreen_sidenodes env s theElement theContext i (2 * j + 1) ≠ 0))).length =
      greenMidNodes env s theElement theContext i := rfl
  have hndef : theContext (CORNERS_OF_ELEM env s theElement + EDGES_OF_ELEM env s theElement + i) =
      greenSideNode env s theElement theContext i := rfl
  have hbdef : (if s.BEOBJ theElement = true ∧ s.SIDE_ON_BND theElement i = true then (1 : Int)
      else 0) = greenBdy s theElement i := rfl
  unfold RefineElementGreen_side greenSideRows
  simp only [hl, hkdef, hndef, hbdef]
  rcases hc with hc | hc
  · have hn : EDGES_OF_SIDE env s theElement i = 3 := by omega
    have hc4 : ¬ CORNERS_OF_SIDE env s theElement i = 4 := by omega
    simp only [hc4, hc, if_false, if_true, hn]
    rw [hn] at hk
    have hk2 : greenMidNodes env s theElement theContext i = 2 →
        ¬ (greenMid (RefineElementGreen_sidenodes env s theElement theContext i) 1 = true ∧
          greenMid (RefineElementGreen_sidenodes env s theElement theContext i) 3 = true ∧
          greenMid (RefineElementGreen_sidenodes env s theElement theContext i) 5 = true) := by
      intro h2
      unfold greenMidNodes at h2
      rw [hn] at h2
      exact greenMidNodes_two _ h2
    exact RefineElementGreen_triangle_rows ix
      (RefineElementGreen_sidenodes env s theElement theContext i)
      (greenSideNode env s theElement theContext i) (greenSides env s theElement i)
      (EDGE_OF_SIDE env s theElement i) (s.SIDEPATTERN theElement &&& (1 <<< i))
      (greenMidNodes env s theElement theContext i) (5 * i)
      (RefineElementGreen_bdy (greenBdy s theElement i) (5 * i) sons) hk hk2
  · have hn : EDGES_OF_SIDE env s theElement i = 4 := by omega
    simp only [hc, if_true, hn]
    rw [hn] at hk
    by_cases h0 : greenSideNode env s theElement theContext i = 0
    · simp only [h0, if_true]
      have hq := RefineElementGreen_quad_rows ix
        (RefineElementGreen_sidenodes env s theElement theContext i)
        (greenSideNode env s theElement theContext i) (greenSides env s theElement i)
        (greenMidNodes env s theElement theContext i) (5 * i)
        (RefineElementGreen_bdy (greenBdy s theElement i) (5 * i) sons) hk
      rw [h0] at hq
      exact hq
    · simp only [h0, if_false]
      have h4 := hf hc h0
      unfold greenMidNodes at h4
      rw [hn] at h4
      obtain ⟨a0, a1, a2, a3⟩ := greenMidNodes_four _ h4
      exact RefineElementGreen_sidenode_rows ix
        (RefineElementGreen_sidenodes env s theElement theContext i)
        (greenSideNode env s theElement theContext i) (greenSides env s theElement i) (5 * i)
        (RefineElementGreen_bdy (greenBdy s theElement i) (5 * i) sons) a0 a1 a2 a3

theorem greenQuadRows_length (mid : Nat → Bool) :
    (greenQuadRows mid ((List.range 4).filter (fun j => mid (2 * j + 1))).length).length =
      greenFilled true false ((List.range 4).filter (fun j => mid (2 * j + 1))).length
        ((mid 1 && mid 5) || (mid 3 && mid 7)) := by
  have h4 : List.range 4 = [0, 1, 2, 3] := rfl
  rw [h4]
  rcases h1 : mid 1 with _ | _ <;> rcases h3 : mid 3 with _ | _ <;>
    rcases h5 : mid 5 with _ | _ <;> rcases h7 : mid 7 with _ | _ <;>
    simp [List.filter, h1, h3, h5, h7, greenQuadRows, searchBreak, node0After, greenFilled,
      greenQ0, greenQ1, greenQ2a, greenQ2b, greenQ3, greenQ4]

theorem greenTriRows_length (mid : Nat → Bool) (diag : Bool) :
    (greenTriRows mid diag ((List.range 3).filter (fun j => mid (2 * j + 1))).length).length =
      ((List.range 3).filter (fun j => mid (2 * j + 1))).length + 1 := by
  have h3 : List.range 3 = [0, 1, 2] := rfl
  rw [h3]
  rcases h1 : mid 1 with _ | _ <;> rcases h3 : mid 3 with _ | _ <;>
    rcases h5 : mid 5 with _ | _ <;> rcases diag with _ | _ <;>
    simp [List.filter, h1, h3, h5, greenTriRows, searchBreak, greenT0, greenT1, greenT2a,
      greenT2b, greenT3]

theorem greenSideRows_length (env : Env) (s : Mesh) (theElement : Nat) (theContext : Nat → Nat)
    (i : Nat) (h : GreenSide env s theElement theContext i) :
    (greenSideRows env s theElement theContext i).length =
      greenSideFilled env s theElement theContext i := by
  obtain ⟨he, hc, _, hf⟩ := h
  unfold greenSideRows greenSideFilled
  rcases hc with hc | hc
  · have hn : EDGES_OF_SIDE env s theElement i = 3 := by omega
    have hc4 : ¬ CORNERS_OF_SIDE env s theElement i = 4 := by omega
    simp only [hc4, if_false, decide_False, greenFilled, Bool.false_eq_true]
    unfold greenMidNodes
    rw [hn]
    exact greenTriRows_length (greenMid (RefineElementGreen_sidenodes env s theElement theContext i))
      (greenDiag env s theElement theContext i)
  · have hn : EDGES_OF_SIDE env s theElement i = 4 := by omega
    simp only [hc, if_true, decide_True]
    by_cases h0 : greenSideNode env s theElement theContext i = 0
    · simp only [h0, if_true, ne_eq, not_true_eq_false, decide_False]
      unfold greenMidNodes greenOpposite
      rw [hn]
      exact greenQuadRows_length
        (greenMid (RefineElementGreen_sidenodes env s theElement theContext i))
    · simp only [h0, if_false, ne_eq, not_false_eq_true, decide_True, greenFilled, if_true]
      rfl

theorem greenFilled_bounds (quad faceNode : Bool) (k : Nat) (opposite : Bool)
    (hk : quad = false → k ≤ 3) :
    1 ≤ greenFilled quad faceNode k opposite ∧ greenFilled quad faceNode k opposite ≤ 5 := by
  unfold greenFilled
  rcases quad with _ | _
  · have := hk rfl
    simp only [Bool.false_eq_true, if_false]
    omega
  · simp only [if_true]
    split_ifs <;> omega

theorem greenSideFilled_bounds (env : Env) (s : Mesh) (theElement : Nat) (theContext : Nat → Nat)
    (i : Nat) (h : GreenSide env s theElement theContext i) :
    1 ≤ greenSideFilled env s theElement theContext i ∧
      greenSideFilled env s theElement theContext i ≤ 5 := by
  apply greenFilled_bounds
  intro hq
  have hk := greenMidNodes_le env s theElement theContext i
  obtain ⟨he, hc, _, _⟩ := h
  have hc4 : ¬ CORNERS_OF_SIDE env s theElement i = 4 := by
    intro h4
    rw [h4] at hq
    exact absurd hq (by decide)
  omega

theorem applyRow_upd (ix : GreenIndices) (tsn : Nat → Nat) (theNode : Nat) (sides : Nat → Int)
    (sons : Nat → GREENSONDATA) (nelem : Nat) (row : GreenRow) :
    applyRow ix tsn theNode sides sons nelem row =
      upd sons nelem (rowSon ix tsn theNode sides nelem (sons nelem) row) := by
  unfold applyRow rowSon
  split_ifs <;> rfl

theorem applyRows_other (ix : GreenIndices) (tsn : Nat → Nat) (theNode : Nat) (sides : Nat → Int) :
    ∀ (rows : List GreenRow) (nelem : Nat) (sons : Nat → GREENSONDATA) (a : Nat),
      a < nelem ∨ nelem + rows.length ≤ a →
      applyRows ix tsn theNode sides rows nelem sons a = sons a := by
  intro rows
  induction rows with
  | nil => intro nelem sons a _; rfl
  | cons row rest ih =>
    intro nelem sons a h
    unfold applyRows
    rw [ih (nelem + 1) _ a (by simp only [List.length_cons] at h; omega), applyRow_upd,
      upd_other _ _ _ _ (by simp only [List.length_cons] at h; omega)]

theorem applyRows_row (ix : GreenIndices) (tsn : Nat → Nat) (theNode : Nat) (sides : Nat → Int) :
    ∀ (rows : List GreenRow) (nelem : Nat) (sons : Nat → GREENSONDATA) (r : Nat) (row : GreenRow),
      rows[r]? = some row →
      applyRows ix tsn theNode sides rows nelem sons (nelem + r) =
        rowSon ix tsn theNode sides (nelem + r) (sons (nelem + r)) row := by
  intro rows
  induction rows with
  | nil => intro nelem sons r row h; simp at h
  | cons row0 rest ih =>
    intro nelem sons r row h
    unfold applyRows
    cases r with
    | zero =>
      simp only [List.getElem?_cons_zero, Option.some.injEq] at h
      subst h
      rw [applyRows_other _ _ _ _ _ _ _ _ (Or.inl (by omega)), applyRow_upd, Nat.add_zero, upd_same]
    | succ r =>
      simp only [List.getElem?_cons_succ] at h
      have := ih (nelem + 1) (applyRow ix tsn theNode sides sons nelem row0) r row h
      rw [show nelem + (r + 1) = nelem + 1 + r by omega, this, applyRow_upd,
        upd_other _ _ _ _ (by omega)]

theorem rowSon_tag (ix : GreenIndices) (tsn : Nat → Nat) (theNode : Nat) (sides : Nat → Int)
    (nelem : Nat) (old : GREENSONDATA) (row : GreenRow) :
    (rowSon ix tsn theNode sides nelem old row).tag =
      some (if row.pyr = true then TAG.PYRAMID else TAG.TETRAHEDRON) := by
  unfold rowSon
  split_ifs <;> rfl

/-- The table after the loop over the sides: for every side its five entries hold the rows
of the side, and the entries behind the last side are as initialised. -/
theorem RefineElementGreen_sides_table (env : Env) (s : Mesh) (theElement : Nat)
    (theContext : Nat → Nat) (ix : GreenIndices) :
    ∀ n, (∀ i, i < n → GreenSide env s theElement theContext i) →
      ∃ sons, forLoop (RefineElementGreen_side env s theElement theContext ix) n 0
          (fun _ => GREENSONDATA_init) = .next sons ∧
        (∀ q, q < n → GreenBlock env s theElement theContext ix sons q) ∧
        ∀ j, 5 * n ≤ j → sons j = GREENSONDATA_init := by
  intro n
  induction n with
  | zero =>
    intro _
    exact ⟨_, rfl, fun q hq => absurd hq (Nat.not_lt_zero q), fun _ _ => rfl⟩
  | succ n ih =>
    intro h
    obtain ⟨sons, hs, hb, hi⟩ := ih (fun i hi => h i (by omega))
    have hstep := forLoop_snoc (RefineElementGreen_side env s theElement theContext ix) n 0 _ sons hs
    rw [Nat.zero_add, RefineElementGreen_side_rows env s theElement theContext ix n sons
      (h n (by omega))] at hstep
    have hlen := greenSideRows_length env s theElement theContext n (h n (by omega))
    have hbd := greenSideFilled_bounds env s theElement theContext n (h n (by omega))
    have hbdy : ∀ j, 5 * n ≤ j → j < 5 * n + 5 →
        RefineElementGreen_bdy (greenBdy s theElement n) (5 * n) sons j =
          greenInit (greenBdy s theElement n) := by
      intro j h1 h2
      unfold RefineElementGreen_bdy
      rw [if_pos ⟨h1, h2⟩, hi j h1]
      rfl
    have hout : ∀ j, j < 5 * n ∨ 5 * n + 5 ≤ j →
        RefineElementGreen_bdy (greenBdy s theElement n) (5 * n) sons j = sons j := by
      intro j hj
      unfold RefineElementGreen_bdy
      rw [if_neg (by omega)]
    refine ⟨_, hstep, ?_, ?_⟩
    · intro q hq
      by_cases e : q = n
      · subst e
        constructor
        · intro r row hr
          have hrl : r < (greenSideRows env s theElement theContext q).length := by
            rcases Nat.lt_or_ge r (greenSideRows env s theElement theContext q).length with c | c
            · exact c
            · rw [List.getElem?_eq_none c] at hr
              exact absurd hr (by simp)
          rw [applyRows_row _ _ _ _ _ _ _ r row hr, hbdy _ (by omega) (by omega)]
        · intro r h1 h2
          rw [applyRows_other _ _ _ _ _ _ _ _ (Or.inr (by omega)), hbdy _ (by omega) (by omega)]
      · have hq2 : q < n := by omega
        obtain ⟨b1, b2⟩ := hb q hq2
        constructor
        · intro r row hr
          have hrl : r < (greenSideRows env s theElement theContext q).length := by
            rcases Nat.lt_or_ge r (greenSideRows env s theElement theContext q).length with c | c
            · exact c
            · rw [List.getElem?_eq_none c] at hr
              exact absurd hr (by simp)
          have hlq := greenSideRows_length env s theElement theContext q (h q (by omega))
          have hbq := greenSideFilled_bounds env s theElement theContext q (h q (by omega))
          rw [applyRows_other _ _ _ _ _ _ _ _ (Or.inl (by omega)), hout _ (Or.inl (by omega))]
          exact b1 r row hr
        · intro r h1 h2
          rw [applyRows_other _ _ _ _ _ _ _ _ (Or.inl (by omega)), hout _ (Or.inl (by omega))]
          exact b2 r h1 h2
    · intro j hj
      rw [applyRows_other _ _ _ _ _ _ _ _ (Or.inr (by omega)), hout _ (Or.inr (by omega))]
      exact hi j (by omega)

/-- Claim C21, with a side node only on sides that have four mid nodes. For an element with
at most six sides, each with three or four corners and as many edges, the loop over the sides
of `RefineElementGreen` runs through. The body for side `i` leaves every entry outside
`sons[5*i..5*i+5)` as it was. Afterwards the first `greenSideFilled` entries of the block of
side `i` hold a son (a tag), the rest of the block holds none, with `1 ≤ greenSideFilled ≤ 5`
and `5*i+5 ≤ MAX_GREEN_SONS`; the entries behind the last block are as initialised. The
count `greenSideFilled` is the one of the table: 1, 3, 4 or 2, 4, 5 for a quadrilateral side
without side node and 0 to 4 mid nodes (2 for two mid nodes on opposite edges), 4 with a side
node, and `k+1` for a triangular side with `k` mid nodes. -/
theorem RefineElementGreen_side_slots (env : Env) (s : Mesh) (theElement : Nat)
    (theContext : Nat → Nat) (ix : GreenIndices)
    (hn : SIDES_OF_ELEM env s theElement ≤ 6)
    (h : ∀ i, i < SIDES_OF_ELEM env s theElement → GreenSide env s theElement theContext i) :
    (∀ i, i < SIDES_OF_ELEM env s theElement → ∀ sons0, ∃ sons1,
      RefineElementGreen_side env s theElement theContext ix i sons0 = .next sons1 ∧
      ∀ j, j < 5 * i ∨ 5 * i + 5 ≤ j → sons1 j = sons0 j) ∧
    ∃ sons, forLoop (RefineElementGreen_side env s theElement theContext ix)
        (SIDES_OF_ELEM env s theElement) 0 (fun _ => GREENSONDATA_init) = .next sons ∧
      (∀ i, i < SIDES_OF_ELEM env s theElement →
        1 ≤ greenSideFilled env s theElement theContext i ∧
        greenSideFilled env s theElement theContext i ≤ 5 ∧
        5 * i + 5 ≤ MAX_GREEN_SONS ∧
        (∀ j, 5 * i ≤ j → j < 5 * i + greenSideFilled env s theElement theContext i →
          (sons j).tag ≠ none) ∧
        (∀ j, 5 * i + greenSideFilled env s theElement theContext i ≤ j → j < 5 * i + 5 →
          sons j = greenInit (greenBdy s theElement i))) ∧
      ∀ j, 5 * SIDES_OF_ELEM env s theElement ≤ j → sons j = GREENSONDATA_init := by
  constructor
  · intro i hi sons0
    have hlen := greenSideRows_length env s theElement theContext i (h i hi)
    have hbd := greenSideFilled_bounds env s theElement theContext i (h i hi)
    refine ⟨_, RefineElementGreen_side_rows env s theElement theContext ix i sons0 (h i hi), ?_⟩
    intro j hj
    rw [applyRows_other _ _ _ _ _ _ _ _ (by omega)]
    unfold RefineElementGreen_bdy
    rw [if_neg (by omega)]
  · obtain ⟨sons, hs, hb, hi⟩ := RefineElementGreen_sides_table env s theElement theContext ix
      (SIDES_OF_ELEM env s theElement) h
    refine ⟨sons, hs, ?_, hi⟩
    intro i hlt
    have hlen := greenSideRows_length env s theElement theContext i (h i hlt)
    have hbd := greenSideFilled_bounds env s theElement theContext i (h i hlt)
    obtain ⟨b1, b2⟩ := hb i hlt
    refine ⟨hbd.1, hbd.2, by unfold MAX_GREEN_SONS; omega, ?_, ?_⟩
    · intro j h1 h2
      have hr : j - 5 * i < (greenSideRows env s theElement theContext i).length := by omega
      have := b1 (j - 5 * i) _ (List.getElem?_eq_getElem hr)
      rw [show 5 * i + (j - 5 * i) = j by omega] at this
      rw [this, rowSon_tag]
      exact fun c => absurd c (by simp)
    · intro j h1 h2
      have := b2 (j - 5 * i) (by omega) (by omega)
      rw [show 5 * i + (j - 5 * i) = j by omega] at this
      exact this

theorem meshPyramidTable_sides (theContext : Nat → Nat)
    (hf : greenSideNode envGreenTable meshPyramidTable 1 theContext 0 ≠ 0 →
      greenMidNodes envGreenTable meshPyramidTable 1 theContext 0 = 4) :
    ∀ i, i < SIDES_OF_ELEM envGreenTable meshPyramidTable 1 →
      GreenSide envGreenTable meshPyramidTable 1 theContext i := by
  intro i hi
  have hi5 : i < 5 := hi
  clear hi
  interval_cases i
  · exact ⟨by decide, by decide, by decide, fun _ => hf⟩
  · exact ⟨by decide, by decide, by decide, fun c => absurd c (by decide)⟩
  · exact ⟨by decide, by decide, by decide, fun c => absurd c (by decide)⟩
  · exact ⟨by decide, by decide, by decide, fun c => absurd c (by decide)⟩
  · exact ⟨by decide, by decide, by decide, fun c => absurd c (by decide)⟩

/-- The table of the counts fails for a side node without four mid nodes: for the base of
the pyramid with the context `contextFaceThree` (side node 401, mid nodes on three of the four
edges) the table gives 4 sons, but the loop "create the four side edges" breaks at the edge
without mid node with `j = 3` and three pyramids in `sons[0..2]`; `ASSERT(j==4)` fails, the
body of the side does not come to its end. -/
theorem RefineElementGreen_side_node_three :
    greenSideNode envGreenTable meshPyramidTable 1 contextFaceThree 0 = 401 ∧
    CORNERS_OF_SIDE envGreenTable meshPyramidTable 1 0 = 4 ∧
    greenMidNodes envGreenTable meshPyramidTable 1 contextFaceThree 0 = 3 ∧
    greenSideFilled envGreenTable meshPyramidTable 1 contextFaceThree 0 = 4 ∧
    (RefineElementGreen_sidenode_loop (RefineElementGreen_indices envGreenTable)
      (RefineElementGreen_sidenodes envGreenTable meshPyramidTable 1 contextFaceThree 0) 401
      (greenSides envGreenTable meshPyramidTable 1 0) 4 4 0
      (fun _ => GREENSONDATA_init, 0)).1 = 3 ∧
    greenTags (RefineElementGreen_sidenode_loop (RefineElementGreen_indices envGreenTable)
      (RefineElementGreen_sidenodes envGreenTable meshPyramidTable 1 contextFaceThree 0) 401
      (greenSides envGreenTable meshPyramidTable 1 0) 4 4 0
      (fun _ => GREENSONDATA_init, 0)).2.1 5 =
      [some TAG.PYRAMID, some TAG.PYRAMID, some TAG.PYRAMID, none, none] ∧
    RefineElementGreen_side envGreenTable meshPyramidTable 1 contextFaceThree
      (RefineElementGreen_indices envGreenTable) 0 (fun _ => GREENSONDATA_init) =
        .stop Stop.abort ∧
    RefineElementGreen_table envGreenTable meshPyramidTable 1 contextFaceThree =
      .error Stop.abort := by
  refine ⟨by decide, by decide, by decide, by decide, by decide, by decide, ?_, ?_⟩
  · rfl
  · rfl

/-- Claim C21 at an example: the pyramid with the mid nodes 201 and 202 on two neighbouring
edges of its base. The base gets four tetrahedra in `sons[0..3]`, the sides 1 and 2 two
tetrahedra each, the sides 3 and 4 one. -/
theorem RefineElementGreen_side_slots_witness :
    (List.range 5).map (greenSideFilled envGreenTable meshPyramidTable 1 contextTwoMid) =
      [4, 2, 2, 1, 1] ∧
    greenTags (stateOf (forLoop (RefineElementGreen_side envGreenTable meshPyramidTable 1
        contextTwoMid (RefineElementGreen_indices envGreenTable))
      (SIDES_OF_ELEM envGreenTable meshPyramidTable 1) 0 (fun _ => GREENSONDATA_init))
      (fun _ => GREENSONDATA_init)) 25 =
      [some TAG.TETRAHEDRON, some TAG.TETRAHEDRON, some TAG.TETRAHEDRON, some TAG.TETRAHEDRON,
        none,
        some TAG.TETRAHEDRON, some TAG.TETRAHEDRON, none, none, none,
        some TAG.TETRAHEDRON, some TAG.TETRAHEDRON, none, none, none,
        some TAG.TETRAHEDRON, none, none, none, none,
        some TAG.TETRAHEDRON, none, none, none, none] ∧
    (∀ i, i < SIDES_OF_ELEM envGreenTable meshPyramidTable 1 → ∀ sons0, ∃ sons1,
      RefineElementGreen_side envGreenTable meshPyramidTable 1 contextTwoMid
        (RefineElementGreen_indices envGreenTable) i sons0 = .next sons1 ∧
      ∀ j, j < 5 * i ∨ 5 * i + 5 ≤ j → sons1 j = sons0 j) ∧
    ∃ sons, forLoop (RefineElementGreen_side envGreenTable meshPyramidTable 1 contextTwoMid
        (RefineElementGreen_indices envGreenTable))
        (SIDES_OF_ELEM envGreenTable meshPyramidTable 1) 0 (fun _ => GREENSONDATA_init) =
          .next sons ∧
      (∀ i, i < SIDES_OF_ELEM envGreenTable meshPyramidTable 1 →
        1 ≤ greenSideFilled envGreenTable meshPyramidTable 1 contextTwoMid i ∧
        greenSideFilled envGreenTable meshPyramidTable 1 contextTwoMid i ≤ 5 ∧
        5 * i + 5 ≤ MAX_GREEN_SONS ∧
        (∀ j, 5 * i ≤ j →
          j < 5 * i + greenSideFilled envGreenTable meshPyramidTable 1 contextTwoMid i →
          (sons j).tag ≠ none) ∧
        (∀ j, 5 * i + greenSideFilled envGreenTable meshPyramidTable 1 contextTwoMid i ≤ j →
          j < 5 * i + 5 → sons j = greenInit (greenBdy meshPyramidTable 1 i))) ∧
      ∀ j, 5 * SIDES_OF_ELEM envGreenTable meshPyramidTable 1 ≤ j →
        sons j = GREENSONDATA_init :=
  ⟨by decide, by decide,
    RefineElementGreen_side_slots envGreenTable meshPyramidTable 1 contextTwoMid
      (RefineElementGreen_indices envGreenTable) (by decide)
      (meshPyramidTable_sides contextTwoMid (fun c => absurd rfl c))⟩

/-! ## `RefineElementGreen`: the rows of every case fit together -/

theorem RefineElementGreen_indices_std : RefineElementGreen_indices envGreenTable = greenIndicesStd := rfl

theorem greenQuadRows_ok : ∀ b0 b1 b2 b3 : Bool,
    GreenRowsOk (greenQuadRows (midBits b0 b1 b2 b3)
      ((List.range 4).filter (fun j => midBits b0 b1 b2 b3 (2 * j + 1))).length) 4
      [b0, b1, b2, b3] := by
  decide

theorem greenTriRows_ok : ∀ b0 b1 b2 diag : Bool,
    GreenRowsOk (greenTriRows (midBits b0 b1 b2 false) diag
      ((List.range 3).filter (fun j => midBits b0 b1 b2 false (2 * j + 1))).length) 3
      [b0, b1, b2] := by
  decide

theorem greenFaceRows_ok : GreenRowsOk greenFaceRows 4 [true, true, true, true] := by
  decide

theorem greenQuadRows_bits (mid : Nat → Bool) (k : Nat) :
    greenQuadRows mid k = greenQuadRows (midBits (mid 1) (mid 3) (mid 5) (mid 7)) k := by
  rcases h1 : mid 1 with _ | _ <;> rcases h3 : mid 3 with _ | _ <;>
    rcases h5 : mid 5 with _ | _ <;> rcases h7 : mid 7 with _ | _ <;>
    simp [h1, h3, h5, h7, greenQuadRows, searchBreak, node0After, midBits]

theorem greenTriRows_bits (mid : Nat → Bool) (diag : Bool) (k : Nat) :
    greenTriRows mid diag k = greenTriRows (midBits (mid 1) (mid 3) (mid 5) false) diag k := by
  have hr : List.range 3 = [0, 1, 2] := rfl
  rcases h1 : mid 1 with _ | _ <;> rcases h3 : mid 3 with _ | _ <;>
    rcases h5 : mid 5 with _ | _ <;>
    simp [h1, h3, h5, greenTriRows, searchBreak, midBits, greenScan, hr]

theorem midBits_count4 (mid : Nat → Bool) :
    ((List.range 4).filter (fun j => mid (2 * j + 1))).length =
      ((List.range 4).filter
        (fun j => midBits (mid 1) (mid 3) (mid 5) (mid 7) (2 * j + 1))).length := by
  have h4 : List.range 4 = [0, 1, 2, 3] := rfl
  rw [h4]
  simp [List.filter, midBits]

theorem midBits_count3 (mid : Nat → Bool) :
    ((List.range 3).filter (fun j => mid (2 * j + 1))).length =
      ((List.range 3).filter
        (fun j => midBits (mid 1) (mid 3) (mid 5) false (2 * j + 1))).length := by
  have h3 : List.range 3 = [0, 1, 2] := rfl
  rw [h3]
  simp [List.filter, midBits]

theorem greenMid_four (mid : Nat → Bool)
    (h : ((List.range 4).filter (fun j => mid (2 * j + 1))).length = 4) :
    mid 1 = true ∧ mid 3 = true ∧ mid 5 = true ∧ mid 7 = true := by
  have h4 : List.range 4 = [0, 1, 2, 3] := rfl
  rw [h4] at h
  rcases h1 : mid 1 with _ | _ <;> rcases h3 : mid 3 with _ | _ <;>
    rcases h5 : mid 5 with _ | _ <;> rcases h7 : mid 7 with _ | _ <;>
    simp_all [List.filter]

/-- The rows of a side fit together. -/
theorem greenSideRows_ok (env : Env) (s : Mesh) (theElement : Nat) (theContext : Nat → Nat)
    (q : Nat) (h : GreenSide env s theElement theContext q) :
    GreenRowsOk (greenSideRows env s theElement theContext q) (EDGES_OF_SIDE env s theElement q)
      (greenBis env s theElement theContext q) := by
  obtain ⟨he, hc, _, hf⟩ := h
  unfold greenSideRows greenBis
  rcases hc with hc | hc
  · have hn : EDGES_OF_SIDE env s theElement q = 3 := by omega
    have hc4 : ¬ CORNERS_OF_SIDE env s theElement q = 4 := by omega
    rw [if_neg hc4, hn]
    unfold greenMidNodes
    rw [hn, greenTriRows_bits]
    have hcount := midBits_count3 (greenMid (RefineElementGreen_sidenodes env s theElement theContext q))
    unfold greenMid at hcount ⊢
    rw [hcount]
    exact greenTriRows_ok _ _ _ _
  · have hn : EDGES_OF_SIDE env s theElement q = 4 := by omega
    rw [if_pos hc, hn]
    by_cases h0 : greenSideNode env s theElement theContext q = 0
    · rw [if_pos h0]
      unfold greenMidNodes
      rw [hn, greenQuadRows_bits]
      have hcount := midBits_count4 (greenMid (RefineElementGreen_sidenodes env s theElement theContext q))
      unfold greenMid at hcount ⊢
      rw [hcount]
      exact greenQuadRows_ok _ _ _ _
    · rw [if_neg h0]
      have h4 := hf hc h0
      unfold greenMidNodes at h4
      rw [hn] at h4
      obtain ⟨a1, a3, a5, a7⟩ := greenMid_four
        (greenMid (RefineElementGreen_sidenodes env s theElement theContext q)) h4
      have hb : (List.range 4).map (fun j =>
          greenMid (RefineElementGreen_sidenodes env s theElement theContext q) (2 * j + 1)) =
          [true, true, true, true] := by
        have h4 : List.range 4 = [0, 1, 2, 3] := rfl
        rw [h4]
        simp only [List.map_cons, List.map_nil]
        rw [a1, a3, a5, a7]
      rw [hb]
      exact greenFaceRows_ok

/-! ## The descriptors of `elements.c` -/

theorem GreenDesc_pyramid : GreenDesc envGreenTable meshPyramidTable 1 := by
  unfold GreenDesc
  refine ⟨by decide, by decide, by decide, by decide, by decide, by decide, by decide, by decide⟩

theorem GreenDesc_prism :
    GreenDesc envGreenTable { emptyMesh with TAG := fun _ => TAG.PRISM } 1 := by
  unfold GreenDesc
  refine ⟨by decide, by decide, by decide, by decide, by decide, by decide, by decide, by decide⟩

theorem GreenDesc_hexahedron :
    GreenDesc envGreenTable { emptyMesh with TAG := fun _ => TAG.HEXAHEDRON } 1 := by
  unfold GreenDesc
  refine ⟨by decide, by decide, by decide, by decide, by decide, by decide, by decide, by decide⟩

/-! ## The values in the table after the loop over the sides -/

theorem rowSon_nb (tsn : Nat → Nat) (theNode : Nat) (sides : Nat → Int) (nelem : Nat)
    (bdy : Int) (row : GreenRow) (x : Nat) :
    (rowSon greenIndicesStd tsn theNode sides nelem (greenInit bdy) row).nb x =
      nbVal sides nelem (symNb row x) := by
  unfold rowSon symNb
  rcases hp : row.pyr with _ | _
  · simp only [Bool.false_eq_true, if_false, tetSon, greenIndicesStd, greenInit, upd]
    split_ifs <;> rfl
  · simp only [if_true, pyrSon, greenIndicesStd, greenInit, upd]
    split_ifs <;> rfl

theorem rowSon_corners (tsn : Nat → Nat) (theNode : Nat) (sides : Nat → Int) (nelem : Nat)
    (bdy : Int) (row : GreenRow) (k : Nat) :
    (rowSon greenIndicesStd tsn theNode sides nelem (greenInit bdy) row).corners k =
      cVal tsn theNode (symC row k) := by
  unfold rowSon symC
  rcases hp : row.pyr with _ | _
  · simp only [Bool.false_eq_true, if_false, tetSon, greenIndicesStd, greenInit, upd]
    split_ifs <;> rfl
  · simp only [if_true, pyrSon, greenIndicesStd, greenInit, upd]
    split_ifs <;> rfl

theorem GreenBlock.blk_nb {env : Env} {s : Mesh} {theElement : Nat} {theContext : Nat → Nat}
    {sons : Nat → GREENSONDATA} {q : Nat}
    (hb : GreenBlock env s theElement theContext greenIndicesStd sons q) (r : Nat) (hr : r < 5)
    (x : Nat) :
    (sons (5 * q + r)).nb x = nbVal (greenSides env s theElement q) (5 * q + r)
      (rowsNb (greenSideRows env s theElement theContext q) r x) := by
  unfold rowsNb
  cases hrow : (greenSideRows env s theElement theContext q)[r]? with
  | some row => rw [hb.1 r row hrow, rowSon_nb]
  | none =>
    rw [hb.2 r (List.getElem?_eq_none_iff.1 hrow) hr]
    rfl

theorem GreenBlock.blk_corners {env : Env} {s : Mesh} {theElement : Nat} {theContext : Nat → Nat}
    {sons : Nat → GREENSONDATA} {q : Nat}
    (hb : GreenBlock env s theElement theContext greenIndicesStd sons q) (r : Nat) (hr : r < 5)
    (k : Nat) :
    (sons (5 * q + r)).corners k = cVal (RefineElementGreen_sidenodes env s theElement theContext q)
      (greenSideNode env s theElement theContext q)
      (rowsC (greenSideRows env s theElement theContext q) r k) := by
  unfold rowsC
  cases hrow : (greenSideRows env s theElement theContext q)[r]? with
  | some row => rw [hb.1 r row hrow, rowSon_corners]
  | none =>
    rw [hb.2 r (List.getElem?_eq_none_iff.1 hrow) hr]
    rfl

theorem GreenBlock.blk_tag {env : Env} {s : Mesh} {theElement : Nat} {theContext : Nat → Nat}
    {sons : Nat → GREENSONDATA} {q : Nat}
    (hb : GreenBlock env s theElement theContext greenIndicesStd sons q) (r : Nat) (hr : r < 5) :
    (sons (5 * q + r)).tag = ((greenSideRows env s theElement theContext q)[r]?).map
      (fun row => if row.pyr = true then TAG.PYRAMID else TAG.TETRAHEDRON) := by
  cases hrow : (greenSideRows env s theElement theContext q)[r]? with
  | some row => rw [hb.1 r row hrow, rowSon_tag]; rfl
  | none =>
    rw [hb.2 r (List.getElem?_eq_none_iff.1 hrow) hr]
    rfl

theorem greenSides_ph (env : Env) (s : Mesh) (theElement q j : Nat)
    (hj : j < EDGES_OF_SIDE env s theElement q) :
    greenSides env s theElement q j = greenPh (greenOther env s theElement q j) := by
  unfold greenSides greenPh
  rw [if_pos ⟨Nat.zero_le _, by omega⟩]

theorem valN_target (sides : Nat → Int) (lo r t : Nat) (ref : GreenNb)
    (h : rowTarget r ref = some t) : valN sides (lo + r) ref = ((lo + t : Nat) : Int) := by
  cases ref with
  | side j => simp [rowTarget] at h
  | plus d =>
    simp only [rowTarget] at h
    split_ifs at h with c
    simp only [Option.some.injEq] at h
    simp only [valN]
    omega
  | minus d =>
    simp only [rowTarget] at h
    split_ifs at h with c
    simp only [Option.some.injEq] at h
    simp only [valN]
    omega

theorem symNb_some (row : GreenRow) (x : Nat) (ref : GreenNb) (h : symNb row x = some ref) :
    1 ≤ x ∧ x < (if row.pyr = true then 5 else 4) := by
  unfold symNb at h
  rcases hp : row.pyr with _ | _
  · simp only [hp, Bool.false_eq_true, if_false] at h ⊢
    split_ifs at h <;> omega
  · simp only [hp, if_true] at h ⊢
    split_ifs at h <;> omega

theorem symNb_none (row : GreenRow) (x : Nat) (h : symNb row x = none)
    (hx : x < (if row.pyr = true then 5 else 4)) : x = 0 := by
  unfold symNb at h
  rcases hp : row.pyr with _ | _
  · simp only [hp, Bool.false_eq_true, if_false] at h hx
    split_ifs at h
    omega
  · simp only [hp, if_true] at h hx
    split_ifs at h
    omega

theorem symNb_zero (row : GreenRow) : symNb row 0 = none := by
  unfold symNb
  split_ifs <;> first | rfl | contradiction

/-! ## The descriptor of the element -/

theorem GreenDesc.other_sides {env : Env} {s : Mesh} {theElement : Nat}
    (hd : GreenDesc env s theElement) (q j : Nat) (hq : q < SIDES_OF_ELEM env s theElement)
    (hj : j < EDGES_OF_SIDE env s theElement q) :
    EDGE_OF_SIDE env s theElement q j < EDGES_OF_ELEM env s theElement ∧
    greenOther env s theElement q j < SIDES_OF_ELEM env s theElement ∧
    greenOther env s theElement q j ≠ q ∧
    ((SIDE_WITH_EDGE env s theElement (EDGE_OF_SIDE env s theElement q j) 0 = q ∧
      SIDE_WITH_EDGE env s theElement (EDGE_OF_SIDE env s theElement q j) 1 =
        greenOther env s theElement q j) ∨
    (SIDE_WITH_EDGE env s theElement (EDGE_OF_SIDE env s theElement q j) 1 = q ∧
      SIDE_WITH_EDGE env s theElement (EDGE_OF_SIDE env s theElement q j) 0 =
        greenOther env s theElement q j)) := by
  obtain ⟨_, _, d3, _, d4, _, _, _⟩ := hd
  obtain ⟨he, hs⟩ := d3 q hq j hj
  obtain ⟨a0, a1, a2, _, _⟩ := d4 _ he
  unfold greenOther
  by_cases h0 : SIDE_WITH_EDGE env s theElement (EDGE_OF_SIDE env s theElement q j) 0 = q
  · rw [if_neg (not_not.2 h0)]
    exact ⟨he, a1, fun c => a2 (h0.trans c.symm), Or.inl ⟨h0, rfl⟩⟩
  · rw [if_pos h0]
    exact ⟨he, a0, h0, Or.inr ⟨hs.resolve_left h0, rfl⟩⟩

theorem GreenDesc.other_inj {env : Env} {s : Mesh} {theElement : Nat}
    (hd : GreenDesc env s theElement) (q j j0 : Nat) (hq : q < SIDES_OF_ELEM env s theElement)
    (hj : j < EDGES_OF_SIDE env s theElement q) (hj0 : j0 < EDGES_OF_SIDE env s theElement q)
    (h : greenOther env s theElement q j = greenOther env s theElement q j0) : j = j0 := by
  obtain ⟨e1, _, _, o1⟩ := hd.other_sides q j hq hj
  obtain ⟨e2, _, _, o2⟩ := hd.other_sides q j0 hq hj0
  obtain ⟨_, _, _, d5, _, d6, _, _⟩ := hd
  apply d5 q hq j hj j0 hj0
  apply d6 _ e1 _ e2
  rcases o1 with ⟨a, b⟩ | ⟨a, b⟩ <;> rcases o2 with ⟨c, d⟩ | ⟨c, d⟩
  · exact Or.inl ⟨a.trans c.symm, (b.trans h).trans d.symm⟩
  · exact Or.inr ⟨a.trans c.symm, (b.trans h).trans d.symm⟩
  · exact Or.inr ⟨(b.trans h).trans d.symm, a.trans c.symm⟩
  · exact Or.inl ⟨(b.trans h).trans d.symm, a.trans c.symm⟩

theorem GreenDesc.edge_local {env : Env} {s : Mesh} {theElement : Nat}
    (hd : GreenDesc env s theElement) (e : Nat) (he : e < EDGES_OF_ELEM env s theElement) :
    SIDE_WITH_EDGE env s theElement e 0 < SIDES_OF_ELEM env s theElement ∧
    SIDE_WITH_EDGE env s theElement e 1 < SIDES_OF_ELEM env s theElement ∧
    SIDE_WITH_EDGE env s theElement e 0 ≠ SIDE_WITH_EDGE env s theElement e 1 ∧
    (∃ j, j < EDGES_OF_SIDE env s theElement (SIDE_WITH_EDGE env s theElement e 0) ∧
      EDGE_OF_SIDE env s theElement (SIDE_WITH_EDGE env s theElement e 0) j = e ∧
      greenOther env s theElement (SIDE_WITH_EDGE env s theElement e 0) j =
        SIDE_WITH_EDGE env s theElement e 1) ∧
    (∃ j, j < EDGES_OF_SIDE env s theElement (SIDE_WITH_EDGE env s theElement e 1) ∧
      EDGE_OF_SIDE env s theElement (SIDE_WITH_EDGE env s theElement e 1) j = e ∧
      greenOther env s theElement (SIDE_WITH_EDGE env s theElement e 1) j =
        SIDE_WITH_EDGE env s theElement e 0) := by
  obtain ⟨_, _, _, _, d4, _, _, _⟩ := hd
  obtain ⟨a0, a1, a2, ⟨j0, h0, g0⟩, ⟨j1, h1, g1⟩⟩ := d4 e he
  refine ⟨a0, a1, a2, ⟨j0, h0, g0, ?_⟩, ⟨j1, h1, g1, ?_⟩⟩
  · unfold greenOther
    rw [g0, if_neg (not_not.2 rfl)]
  · unfold greenOther
    rw [g1, if_pos a2]

theorem GreenDesc.to_side {env : Env} {s : Mesh} {theElement : Nat} {theContext : Nat → Nat}
    (hd : GreenDesc env s theElement) (hc : GreenContext env s theElement theContext) (q : Nat)
    (hq : q < SIDES_OF_ELEM env s theElement) : GreenSide env s theElement theContext q := by
  obtain ⟨_, d2, d3, _, d4, _, _, _⟩ := hd
  refine ⟨(d2 q hq).1, (d2 q hq).2, ?_, hc.2.2.2 q hq⟩
  intro j hj
  obtain ⟨he, _⟩ := d3 q hq j hj
  obtain ⟨_, _, a2, _, _⟩ := d4 _ he
  by_cases h0 : SIDE_WITH_EDGE env s theElement (EDGE_OF_SIDE env s theElement q j) 0 = q
  · exact Or.inr (fun c => a2 (h0.trans c.symm))
  · exact Or.inl h0

theorem RefineElementGreen_sidenodes_even (env : Env) (s : Mesh) (theElement : Nat)
    (theContext : Nat → Nat) (q t : Nat) (ht : t < EDGES_OF_SIDE env s theElement q) :
    RefineElementGreen_sidenodes env s theElement theContext q (2 * t) =
      theContext (CORNER_OF_SIDE env s theElement q t) := by
  unfold RefineElementGreen_sidenodes
  rw [if_pos (by omega), if_pos (by omega), Nat.mul_div_cancel_left _ (by omega)]

theorem RefineElementGreen_sidenodes_odd (env : Env) (s : Mesh) (theElement : Nat)
    (theContext : Nat → Nat) (q j : Nat) (hj : j < EDGES_OF_SIDE env s theElement q) :
    RefineElementGreen_sidenodes env s theElement theContext q (2 * j + 1) =
      theContext (CORNERS_OF_ELEM env s theElement + EDGE_OF_SIDE env s theElement q j) := by
  unfold RefineElementGreen_sidenodes
  rw [if_pos (by omega), if_neg (by omega), show (2 * j + 1) / 2 = j by omega]

/-- No entry of `theSideNodes` but the one of corner `t` holds the node of corner `t`, and
the side node is another node, too. -/
theorem RefineElementGreen_sidenodes_corner {env : Env} {s : Mesh} {theElement : Nat}
    {theContext : Nat → Nat} (hd : GreenDesc env s theElement)
    (hc : GreenContext env s theElement theContext) (q t : Nat)
    (hq : q < SIDES_OF_ELEM env s theElement) (ht : t < EDGES_OF_SIDE env s theElement q) :
    RefineElementGreen_sidenodes env s theElement theContext q (2 * t) ≠ 0 ∧
    greenSideNode env s theElement theContext q ≠
      RefineElementGreen_sidenodes env s theElement theContext q (2 * t) ∧
    ∀ x, RefineElementGreen_sidenodes env s theElement theContext q x =
      RefineElementGreen_sidenodes env s theElement theContext q (2 * t) → x = 2 * t := by
  obtain ⟨c1, c2, c3, _⟩ := hc
  have hos := hd.other_sides q
  obtain ⟨_, _, _, _, _, _, _, d8⟩ := hd
  obtain ⟨hlt, hinj⟩ := d8 q hq t ht
  rw [RefineElementGreen_sidenodes_even env s theElement theContext q t ht]
  refine ⟨c1 _ hlt, ?_, ?_⟩
  · unfold greenSideNode
    exact c3 _ hlt _ (by omega) (by omega)
  · intro x hx
    by_cases hx2 : x < 2 * EDGES_OF_SIDE env s theElement q
    · rcases Nat.even_or_odd' x with ⟨m, rfl | rfl⟩
      · rw [RefineElementGreen_sidenodes_even env s theElement theContext q m (by omega)] at hx
        have := hinj m (by omega) (c2 _ hlt _ (d8 q hq m (by omega)).1 hx.symm)
        omega
      · rw [RefineElementGreen_sidenodes_odd env s theElement theContext q m (by omega)] at hx
        have he := (hos m hq (by omega)).1
        exact absurd hx (c3 _ hlt _ (by omega) (by omega))
    · unfold RefineElementGreen_sidenodes at hx
      rw [if_neg hx2] at hx
      exact absurd hx.symm (c1 _ hlt)

/-! ## The blocks of the table -/

theorem rowPointsTo_spec (rows : List GreenRow) (t r : Nat) (h : rowPointsTo rows t r = true) :
    ∃ y ref, y < 6 ∧ rowsNb rows t y = some ref ∧ rowTarget t ref = some r := by
  unfold rowPointsTo at h
  rw [List.any_eq_true] at h
  obtain ⟨y, hy, hm⟩ := h
  cases ho : rowsNb rows t y with
  | none => rw [ho] at hm; exact absurd hm (by simp)
  | some ref =>
    rw [ho] at hm
    exact ⟨y, ref, List.mem_range.1 hy, ho, of_decide_eq_true hm⟩

theorem refOk_cases (rows : List GreenRow) (n r : Nat) (o : Option GreenNb)
    (h : refOk rows n r o = true) :
    o = none ∨ (∃ j, o = some (.side j) ∧ j < n) ∨
    (∃ ref t, o = some ref ∧ rowTarget r ref = some t ∧ t < rows.length ∧
      rowPointsTo rows t r = true) := by
  cases o with
  | none => exact Or.inl rfl
  | some ref =>
    cases ref with
    | side j => exact Or.inr (Or.inl ⟨j, rfl, of_decide_eq_true h⟩)
    | plus d =>
      simp only [refOk] at h
      cases ht : rowTarget r (.plus d) with
      | none => rw [ht] at h; exact absurd h (by simp)
      | some t =>
        rw [ht] at h
        simp only [Bool.and_eq_true, decide_eq_true_eq] at h
        exact Or.inr (Or.inr ⟨_, t, rfl, ht, h.1, h.2⟩)
    | minus d =>
      simp only [refOk] at h
      cases ht : rowTarget r (.minus d) with
      | none => rw [ht] at h; exact absurd h (by simp)
      | some t =>
        rw [ht] at h
        simp only [Bool.and_eq_true, decide_eq_true_eq] at h
        exact Or.inr (Or.inr ⟨_, t, rfl, ht, h.1, h.2⟩)

theorem rowsNb_some (rows : List GreenRow) (r x : Nat) (ref : GreenNb)
    (h : rowsNb rows r x = some ref) :
    ∃ row, rows[r]? = some row ∧ symNb row x = some ref := by
  unfold rowsNb at h
  cases hr : rows[r]? with
  | none => rw [hr] at h; exact absurd h (by simp)
  | some row => rw [hr] at h; exact ⟨row, rfl, h⟩

theorem greenPh_bounds (q : Nat) : (32 : Int) ≤ greenPh q := by
  unfold greenPh MAX_GREEN_SONS
  omega

theorem greenPh_inj (q q1 : Nat) (h : greenPh q = greenPh q1) : q = q1 := by
  unfold greenPh at h
  omega

/-- The entries of a block, by kind. -/
theorem GreenBlock.blk_kind {env : Env} {s : Mesh} {theElement : Nat} {theContext : Nat → Nat}
    {sons : Nat → GREENSONDATA} {q : Nat}
    (hb : GreenBlock env s theElement theContext greenIndicesStd sons q)
    (hok : GreenRowsOk (greenSideRows env s theElement theContext q)
      (EDGES_OF_SIDE env s theElement q) (greenBis env s theElement theContext q))
    (r x : Nat) (hr : r < 5) :
    (rowsNb (greenSideRows env s theElement theContext q) r x = none ∧
      (sons (5 * q + r)).nb x = -1) ∨
    (∃ j, rowsNb (greenSideRows env s theElement theContext q) r x = some (.side j) ∧
      j < EDGES_OF_SIDE env s theElement q ∧
      (sons (5 * q + r)).nb x = greenPh (greenOther env s theElement q j)) ∨
    (∃ ref t y, rowsNb (greenSideRows env s theElement theContext q) r x = some ref ∧
      (∀ j, ref ≠ .side j) ∧
      t < (greenSideRows env s theElement theContext q).length ∧
      (sons (5 * q + r)).nb x = ((5 * q + t : Nat) : Int) ∧
      (∃ ref1, rowsNb (greenSideRows env s theElement theContext q) t y = some ref1) ∧
      (sons (5 * q + t)).nb y = ((5 * q + r : Nat) : Int)) := by
  obtain ⟨h1, h5, hrefs, _⟩ := hok
  have hv := hb.blk_nb r hr x
  by_cases hx : x < 6
  · rcases refOk_cases _ _ _ _ (hrefs r hr x hx) with h | ⟨j, h, hj⟩ | ⟨ref, t, h, ht, htl, hp⟩
    · rw [h] at hv
      exact Or.inl ⟨h, hv⟩
    · rw [h] at hv
      refine Or.inr (Or.inl ⟨j, h, hj, ?_⟩)
      rw [hv]
      exact greenSides_ph env s theElement q j hj
    · rw [h] at hv
      obtain ⟨y, ref1, hy, hr1, ht1⟩ := rowPointsTo_spec _ _ _ hp
      have hv1 := hb.blk_nb t (by omega) y
      rw [hr1] at hv1
      refine Or.inr (Or.inr ⟨ref, t, y, h, ?_, htl, ?_, ⟨ref1, hr1⟩, ?_⟩)
      · intro j hj
        rw [hj] at ht
        simp [rowTarget] at ht
      · rw [hv]
        exact valN_target _ _ _ _ _ ht
      · rw [hv1]
        exact valN_target _ _ _ _ _ ht1
  · left
    have hn : rowsNb (greenSideRows env s theElement theContext q) r x = none := by
      cases ho : rowsNb (greenSideRows env s theElement theContext q) r x with
      | none => rfl
      | some ref =>
        obtain ⟨row, _, hs⟩ := rowsNb_some _ _ _ _ ho
        have := symNb_some row x ref hs
        split_ifs at this <;> omega
    rw [hn] at hv
    exact ⟨hn, hv⟩

/-- An entry of the block of side `q` stands for the side over edge `j0` exactly when its
row says so. -/
theorem GreenBlock.blk_match {env : Env} {s : Mesh} {theElement : Nat} {theContext : Nat → Nat}
    {sons : Nat → GREENSONDATA} {q : Nat}
    (hb : GreenBlock env s theElement theContext greenIndicesStd sons q)
    (hok : GreenRowsOk (greenSideRows env s theElement theContext q)
      (EDGES_OF_SIDE env s theElement q) (greenBis env s theElement theContext q))
    (hd : GreenDesc env s theElement) (hq : q < SIDES_OF_ELEM env s theElement)
    (r x j0 : Nat) (hr : r < 5) (hj0 : j0 < EDGES_OF_SIDE env s theElement q) :
    (sons (5 * q + r)).nb x = greenPh (greenOther env s theElement q j0) ↔
      rowsNb (greenSideRows env s theElement theContext q) r x = some (.side j0) := by
  have h5 := hok.2.1
  have hS := hd.1
  rcases hb.blk_kind hok r x hr with ⟨h, hv⟩ | ⟨j, h, hj, hv⟩ | ⟨ref, t, y, h, hns, ht, hv, _, _⟩
  · rw [h, hv]
    have := greenPh_bounds (greenOther env s theElement q j0)
    constructor
    · intro c; omega
    · intro c; exact absurd c (by simp)
  · rw [h, hv]
    constructor
    · intro c
      rw [hd.other_inj q j j0 hq hj hj0 (greenPh_inj _ _ c)]
    · intro c
      simp only [Option.some.injEq, GreenNb.side.injEq] at c
      rw [c]
  · rw [h, hv]
    have := greenPh_bounds (greenOther env s theElement q j0)
    constructor
    · intro c; omega
    · intro c
      simp only [Option.some.injEq] at c
      exact absurd c (hns j0)

/-! ## The places of an edge in a block -/

theorem slotsOf_mem (rows : List GreenRow) (j r x : Nat) :
    (r, x) ∈ slotsOf rows j ↔ r < 5 ∧ x < 6 ∧ rowsNb rows r x = some (.side j) := by
  unfold slotsOf
  simp only [List.mem_flatMap, List.mem_map, List.mem_filter, List.mem_range,
    decide_eq_true_eq, Prod.mk.injEq]
  constructor
  · rintro ⟨r1, hr1, x1, ⟨hx1, hm⟩, rfl, rfl⟩
    exact ⟨hr1, hx1, hm⟩
  · rintro ⟨hr, hx, hm⟩
    exact ⟨r, hr, x, ⟨hx, hm⟩, rfl, rfl⟩

theorem greenBis_getD (env : Env) (s : Mesh) (theElement : Nat) (theContext : Nat → Nat)
    (q j : Nat) (hj : j < EDGES_OF_SIDE env s theElement q) :
    (greenBis env s theElement theContext q).getD j false =
      decide (theContext (CORNERS_OF_ELEM env s theElement + EDGE_OF_SIDE env s theElement q j) ≠
        0) := by
  unfold greenBis greenMid
  rw [List.getD_eq_getElem?_getD, List.getElem?_map, List.getElem?_range hj]
  simp only [Option.map_some', Option.getD_some]
  rw [RefineElementGreen_sidenodes_odd env s theElement theContext q j hj]

theorem GreenBlock.blk_has {env : Env} {s : Mesh} {theElement : Nat} {theContext : Nat → Nat}
    {sons : Nat → GREENSONDATA} {q : Nat}
    (hb : GreenBlock env s theElement theContext greenIndicesStd sons q)
    (hd : GreenDesc env s theElement) (hc : GreenContext env s theElement theContext)
    (hq : q < SIDES_OF_ELEM env s theElement) (r t : Nat) (hr : r < 5)
    (ht : t < EDGES_OF_SIDE env s theElement q) :
    greenHas sons (5 * q + r)
        (RefineElementGreen_sidenodes env s theElement theContext q (2 * t)) ↔
      rowHasC (greenSideRows env s theElement theContext q) r (.node (2 * t)) = true := by
  obtain ⟨n0, nf, ninj⟩ := RefineElementGreen_sidenodes_corner hd hc q t hq ht
  unfold greenHas rowHasC
  rw [List.any_eq_true]
  constructor
  · rintro ⟨k, hk, hv⟩
    refine ⟨k, List.mem_range.2 hk, ?_⟩
    rw [hb.blk_corners r hr k] at hv
    cases ho : rowsC (greenSideRows env s theElement theContext q) r k with
    | none =>
      rw [ho] at hv
      exact absurd hv.symm n0
    | some c =>
      rw [ho] at hv
      cases c with
      | node x =>
        have := ninj x hv
        rw [this]
        exact decide_eq_true rfl
      | face => exact absurd hv nf
  · rintro ⟨k, hk, hv⟩
    refine ⟨k, List.mem_range.1 hk, ?_⟩
    rw [hb.blk_corners r hr k, of_decide_eq_true hv]
    rfl

theorem GreenSplit.swap {sons : Nat → GREENSONDATA} {a1 a2 A B : Nat}
    (h : GreenSplit sons a1 a2 A B) : GreenSplit sons a1 a2 B A := by
  rcases h with ⟨x, y, z⟩ | ⟨x, y, z⟩
  · exact Or.inr ⟨y, z, x⟩
  · exact Or.inl ⟨z, x, y⟩

theorem next_corner (j n : Nat) : (2 * j + 2) % (2 * n) = 2 * ((j + 1) % n) := by
  rw [show 2 * j + 2 = 2 * (j + 1) by ring, Nat.mul_mod_mul_left]

/-- The places of edge `j0` of side `q` in the block of the side. -/
theorem GreenBlock.blk_slots {env : Env} {s : Mesh} {theElement : Nat} {theContext : Nat → Nat}
    {sons : Nat → GREENSONDATA} {q : Nat}
    (hb : GreenBlock env s theElement theContext greenIndicesStd sons q)
    (hd : GreenDesc env s theElement) (hc : GreenContext env s theElement theContext)
    (hq : q < SIDES_OF_ELEM env s theElement) (j0 : Nat)
    (hj0 : j0 < EDGES_OF_SIDE env s theElement q) :
    (theContext (CORNERS_OF_ELEM env s theElement + EDGE_OF_SIDE env s theElement q j0) = 0 →
      ∃ a x, GreenSlot1 sons q (greenOther env s theElement q j0) a x) ∧
    (theContext (CORNERS_OF_ELEM env s theElement + EDGE_OF_SIDE env s theElement q j0) ≠ 0 →
      ∃ a1 x1 a2 x2, GreenSlot2 sons q (greenOther env s theElement q j0) a1 x1 a2 x2 ∧
        GreenSplit sons a1 a2
          (theContext (CORNER_OF_SIDE env s theElement q j0))
          (theContext (CORNER_OF_SIDE env s theElement q
            ((j0 + 1) % EDGES_OF_SIDE env s theElement q)))) := by
  have hok := greenSideRows_ok env s theElement theContext q (hd.to_side hc q hq)
  have hslot := hok.2.2.2 j0 hj0
  have hbis := greenBis_getD env s theElement theContext q j0 hj0
  have hmem := slotsOf_mem (greenSideRows env s theElement theContext q) j0
  have hmatch := fun r x hr => hb.blk_match hok hd hq r x j0 hr hj0
  have huniq : ∀ a x, 5 * q ≤ a → a < 5 * q + 5 →
      (sons a).nb x = greenPh (greenOther env s theElement q j0) →
      (a - 5 * q, x) ∈ slotsOf (greenSideRows env s theElement theContext q) j0 := by
    intro a x h1 h2 hv
    have ha : a = 5 * q + (a - 5 * q) := by omega
    rw [ha] at hv
    have hm := (hmatch (a - 5 * q) x (by omega)).1 hv
    obtain ⟨row, _, hs⟩ := rowsNb_some _ _ _ _ hm
    have hx := symNb_some row x _ hs
    refine (hmem _ _).2 ⟨by omega, ?_, hm⟩
    split_ifs at hx <;> omega
  unfold slotOk at hslot
  constructor
  · intro h0
    rw [hbis, decide_eq_false (not_not.2 h0)] at hslot
    simp only [Bool.false_eq_true, if_false, decide_eq_true_eq] at hslot
    obtain ⟨p, hp⟩ := List.length_eq_one.1 hslot
    have hpm : (p.1, p.2) ∈ slotsOf (greenSideRows env s theElement theContext q) j0 := by
      rw [hp]; exact List.mem_singleton.2 rfl
    obtain ⟨hr, hx, hm⟩ := (hmem _ _).1 hpm
    refine ⟨5 * q + p.1, p.2, by omega, by omega, hx, (hmatch p.1 p.2 hr).2 hm, ?_⟩
    intro a1 x1 h1 h2 hv
    have := huniq a1 x1 h1 h2 hv
    rw [hp, List.mem_singleton] at this
    have e1 : a1 - 5 * q = p.1 := congrArg Prod.fst this
    have e2 : x1 = p.2 := congrArg Prod.snd this
    exact ⟨by omega, e2⟩
  · intro h0
    rw [hbis, decide_eq_true h0] at hslot
    simp only [if_true, Bool.and_eq_true, decide_eq_true_eq] at hslot
    obtain ⟨⟨hlen, hlt⟩, hsplit⟩ := hslot
    obtain ⟨p0, p1, hp⟩ := List.length_eq_two.1 hlen
    rw [hp] at hlt hsplit
    simp only [List.getD_cons_zero, List.getD_cons_succ] at hlt hsplit
    have hpm0 : (p0.1, p0.2) ∈ slotsOf (greenSideRows env s theElement theContext q) j0 := by
      rw [hp]; exact List.mem_cons_self _ _
    have hpm1 : (p1.1, p1.2) ∈ slotsOf (greenSideRows env s theElement theContext q) j0 := by
      rw [hp]; exact List.mem_cons_of_mem _ (List.mem_singleton.2 rfl)
    obtain ⟨hr0, hx0, hm0⟩ := (hmem _ _).1 hpm0
    obtain ⟨hr1, hx1, hm1⟩ := (hmem _ _).1 hpm1
    have hn : 0 < EDGES_OF_SIDE env s theElement q := by omega
    have ht1 : (j0 + 1) % EDGES_OF_SIDE env s theElement q < EDGES_OF_SIDE env s theElement q :=
      Nat.mod_lt _ hn
    refine ⟨5 * q + p0.1, p0.2, 5 * q + p1.1, p1.2,
      ⟨by omega, by omega, by omega, hx0, hx1, (hmatch p0.1 p0.2 hr0).2 hm0,
        (hmatch p1.1 p1.2 hr1).2 hm1, ?_⟩, ?_⟩
    · intro a x h1 h2 hv
      have := huniq a x h1 h2 hv
      rw [hp] at this
      simp only [List.mem_cons, List.mem_singleton, List.not_mem_nil, or_false] at this
      rcases this with c | c
      · have e1 : a - 5 * q = p0.1 := congrArg Prod.fst c
        have e2 : x = p0.2 := congrArg Prod.snd c
        exact Or.inl ⟨by omega, e2⟩
      · have e1 : a - 5 * q = p1.1 := congrArg Prod.fst c
        have e2 : x = p1.2 := congrArg Prod.snd c
        exact Or.inr ⟨by omega, e2⟩
    · rw [← RefineElementGreen_sidenodes_even env s theElement theContext q j0 hj0,
        ← RefineElementGreen_sidenodes_even env s theElement theContext q _ ht1]
      have hA0 := hb.blk_has hd hc hq p0.1 j0 hr0 hj0
      have hA1 := hb.blk_has hd hc hq p1.1 j0 hr1 hj0
      have hB0 := hb.blk_has hd hc hq p0.1 _ hr0 ht1
      have hB1 := hb.blk_has hd hc hq p1.1 _ hr1 ht1
      rw [next_corner j0 _] at hsplit
      unfold rowsSplit at hsplit
      unfold GreenSplit
      rw [hA0, hA1, hB0, hB1]
      simp only [Bool.or_eq_true, Bool.and_eq_true, Bool.not_eq_true', Bool.not_eq_true] at hsplit ⊢
      rcases hsplit with ⟨⟨a, b⟩, c⟩ | ⟨⟨a, b⟩, c⟩
      · exact Or.inl ⟨a, b, c⟩
      · exact Or.inr ⟨a, b, c⟩

/-! ## The table after the loop over the sides -/

theorem rowsNb_row (rows : List GreenRow) (r x : Nat) (row : GreenRow)
    (h : rows[r]? = some row) : rowsNb rows r x = symNb row x := by
  unfold rowsNb
  rw [h]

theorem SIDES_OF_TAG_row (env : Env) (row : GreenRow)
    (hts : SIDES_OF_TAG env TAG.TETRAHEDRON = 4) (hps : SIDES_OF_TAG env TAG.PYRAMID = 5) :
    SIDES_OF_TAG env (if row.pyr = true then TAG.PYRAMID else TAG.TETRAHEDRON) =
      (if row.pyr = true then 5 else 4) := by
  split_ifs
  · exact hps
  · exact hts

theorem GreenTableSpec.of_blocks {env : Env} {s : Mesh} {theElement : Nat}
    {theContext : Nat → Nat} {sons : Nat → GREENSONDATA}
    (hd : GreenDesc env s theElement) (hc : GreenContext env s theElement theContext)
    (hts : SIDES_OF_TAG env TAG.TETRAHEDRON = 4) (hps : SIDES_OF_TAG env TAG.PYRAMID = 5)
    (hb : ∀ q, q < SIDES_OF_ELEM env s theElement →
      GreenBlock env s theElement theContext greenIndicesStd sons q)
    (hi : ∀ j, 5 * SIDES_OF_ELEM env s theElement ≤ j → sons j = GREENSONDATA_init) :
    GreenTableSpec env s theElement theContext sons := by
  have hS := hd.1
  have hok := fun q hq => greenSideRows_ok env s theElement theContext q (hd.to_side hc q hq)
  have hsplit : ∀ a, a < 5 * SIDES_OF_ELEM env s theElement →
      a / 5 < SIDES_OF_ELEM env s theElement ∧ a % 5 < 5 ∧ a = 5 * (a / 5) + a % 5 := by
    intro a ha
    omega
  have hrow : ∀ a t, (sons a).tag = some t → a < 5 * SIDES_OF_ELEM env s theElement ∧
      ∃ row, (greenSideRows env s theElement theContext (a / 5))[a % 5]? = some row ∧
        t = (if row.pyr = true then TAG.PYRAMID else TAG.TETRAHEDRON) := by
    intro a t ht
    have ha : a < 5 * SIDES_OF_ELEM env s theElement := by
      by_contra c
      rw [hi a (by omega)] at ht
      exact absurd ht (by simp [GREENSONDATA_init])
    obtain ⟨hq, hr, he⟩ := hsplit a ha
    refine ⟨ha, ?_⟩
    have := (hb _ hq).blk_tag (a % 5) hr
    rw [← he, ht] at this
    cases hro : (greenSideRows env s theElement theContext (a / 5))[a % 5]? with
    | none => rw [hro] at this; exact absurd this (by simp)
    | some row =>
      rw [hro] at this
      simp only [Option.map_some', Option.some.injEq] at this
      exact ⟨row, rfl, this⟩
  constructor
  · -- nb_kind
    intro a x
    by_cases ha : a < 5 * SIDES_OF_ELEM env s theElement
    · obtain ⟨hq, hr, he⟩ := hsplit a ha
      rcases (hb _ hq).blk_kind (hok _ hq) (a % 5) x hr with
        ⟨_, hv⟩ | ⟨j, _, hj, hv⟩ | ⟨ref, t, y, _, _, ht, hv, ⟨ref1, hr1⟩, hback⟩
      · left
        rw [he]
        exact hv
      · right; right
        obtain ⟨hE, _, _, ho⟩ := hd.other_sides (a / 5) j hq hj
        refine ⟨_, hE, ?_⟩
        rw [← he] at hv
        rcases ho with ⟨o1, o2⟩ | ⟨o1, o2⟩
        · left
          rw [o1, o2]
          exact ⟨by omega, by omega, hv⟩
        · right
          rw [o1, o2]
          exact ⟨by omega, by omega, hv⟩
      · right; left
        have h5 := (hok _ hq).2.1
        obtain ⟨row, hrow1, hs1⟩ := rowsNb_some _ _ _ _ hr1
        have htag := (hb _ hq).blk_tag t (by omega)
        rw [hrow1] at htag
        have hy := symNb_some row y _ hs1
        rw [← he] at hv hback
        refine ⟨5 * (a / 5) + t, _, y, hv, by unfold MAX_GREEN_SONS; omega, htag, ?_, hback⟩
        rw [SIDES_OF_TAG_row env row hts hps]
        exact hy.2
    · left
      rw [hi a (by omega)]
      rfl
  · -- own
    intro a t ht
    obtain ⟨ha, row, hro, hte⟩ := hrow a t ht
    obtain ⟨hq, hr, he⟩ := hsplit a ha
    have hsz : SIDES_OF_TAG env t = (if row.pyr = true then 5 else 4) := by
      rw [hte]; exact SIDES_OF_TAG_row env row hts hps
    refine ⟨by unfold MAX_GREEN_SONS; omega, by rw [hsz]; split_ifs <;> omega, ?_, ?_⟩
    · have := (hb _ hq).blk_nb (a % 5) hr 0
      rw [← he, rowsNb_row _ _ _ _ hro, symNb_zero] at this
      exact this
    · intro y hy hv
      rw [hsz] at hy
      rcases (hb _ hq).blk_kind (hok _ hq) (a % 5) y hr with
        ⟨hn, _⟩ | ⟨j, _, _, hv1⟩ | ⟨ref, t1, y1, _, _, _, hv1, _, _⟩
      · rw [rowsNb_row _ _ _ _ hro] at hn
        exact symNb_none row y hn hy
      · rw [← he, hv] at hv1
        have := greenPh_bounds (greenOther env s theElement (a / 5) j)
        omega
      · rw [← he, hv] at hv1
        omega
  · -- used
    intro a x hv
    have ha : a < 5 * SIDES_OF_ELEM env s theElement := by
      by_contra c
      rw [hi a (by omega)] at hv
      exact hv rfl
    obtain ⟨hq, hr, he⟩ := hsplit a ha
    have hsome : ∃ ref, rowsNb (greenSideRows env s theElement theContext (a / 5)) (a % 5) x =
        some ref := by
      rcases (hb _ hq).blk_kind (hok _ hq) (a % 5) x hr with
        ⟨_, hv1⟩ | ⟨j, h, _, _⟩ | ⟨ref, _, _, h, _, _, _, _, _⟩
      · rw [← he] at hv1
        exact absurd hv1 hv
      · exact ⟨_, h⟩
      · exact ⟨_, h⟩
    obtain ⟨ref, href⟩ := hsome
    obtain ⟨row, hro, hs⟩ := rowsNb_some _ _ _ _ href
    have htag := (hb _ hq).blk_tag (a % 5) hr
    rw [← he, hro] at htag
    refine ⟨_, htag, ?_⟩
    rw [SIDES_OF_TAG_row env row hts hps]
    exact (symNb_some row x _ hs).2
  · -- edge_plain
    intro e he h0
    obtain ⟨q0, q1, _, ⟨j0, hj0, g0, o0⟩, ⟨j1, hj1, g1, o1⟩⟩ := hd.edge_local e he
    rw [Nat.add_comm] at h0
    constructor
    · have := ((hb _ q0).blk_slots hd hc q0 j0 hj0).1 (by rw [g0]; exact h0)
      rw [o0] at this
      exact this
    · have := ((hb _ q1).blk_slots hd hc q1 j1 hj1).1 (by rw [g1]; exact h0)
      rw [o1] at this
      exact this
  · -- edge_mid
    intro e he h0
    obtain ⟨q0, q1, _, ⟨j0, hj0, g0, o0⟩, ⟨j1, hj1, g1, o1⟩⟩ := hd.edge_local e he
    rw [Nat.add_comm] at h0
    have d7 := hd.2.2.2.2.2.2.1
    constructor
    · obtain ⟨a1, x1, a2, x2, hs, hsp⟩ :=
        ((hb _ q0).blk_slots hd hc q0 j0 hj0).2 (by rw [g0]; exact h0)
      rw [o0] at hs
      refine ⟨a1, x1, a2, x2, hs, ?_⟩
      rcases d7 _ q0 j0 hj0 with ⟨c0, c1⟩ | ⟨c0, c1⟩
      · rw [g0] at c0 c1
        rw [c0, c1]
        exact hsp
      · rw [g0] at c0 c1
        rw [c0, c1]
        exact hsp.swap
    · obtain ⟨a1, x1, a2, x2, hs, hsp⟩ :=
        ((hb _ q1).blk_slots hd hc q1 j1 hj1).2 (by rw [g1]; exact h0)
      rw [o1] at hs
      refine ⟨a1, x1, a2, x2, hs, ?_⟩
      rcases d7 _ q1 j1 hj1 with ⟨c0, c1⟩ | ⟨c0, c1⟩
      · rw [g1] at c0 c1
        rw [c0, c1]
        exact hsp
      · rw [g1] at c0 c1
        rw [c0, c1]
        exact hsp.swap

/-! ## "connect elements over edges": one edge -/

theorem greenLink_nb (sons : Nat → GREENSONDATA) (a x b y : Nat) (hab : a ≠ b) (c z : Nat) :
    (greenLink sons a x b y c).nb z =
      if c = a ∧ z = x then ((b : Nat) : Int)
      else if c = b ∧ z = y then ((a : Nat) : Int) else (sons c).nb z := by
  unfold greenLink
  by_cases hcb : c = b
  · subst hcb
    rw [upd_same]
    simp only
    rw [upd_other _ _ _ _ (Ne.symm hab), if_neg (fun h => hab h.1.symm)]
    by_cases hz : z = y
    · subst hz
      rw [upd_same]
      simp only [and_self, if_true]
    · rw [upd_other _ _ _ _ hz, if_neg (fun h => hz h.2)]
  · rw [upd_other _ _ _ _ hcb]
    by_cases hca : c = a
    · subst hca
      rw [upd_same]
      simp only
      by_cases hz : z = x
      · subst hz
        rw [upd_same]
        simp only [and_self, if_true]
      · rw [upd_other _ _ _ _ hz, if_neg (fun h => hz h.2), if_neg (fun h => hcb h.1)]
    · rw [upd_other _ _ _ _ hca, if_neg (fun h => hca h.1), if_neg (fun h => hcb h.1)]

theorem greenLink_same (sons : Nat → GREENSONDATA) (a x b y : Nat) (c : Nat) :
    (greenLink sons a x b y c).tag = (sons c).tag ∧
      (greenLink sons a x b y c).corners = (sons c).corners := by
  unfold greenLink
  by_cases hcb : c = b
  · subst hcb
    rw [upd_same]
    simp only
    by_cases hca : c = a
    · subst hca
      rw [upd_same]
      exact ⟨rfl, rfl⟩
    · rw [upd_other _ _ _ _ hca]
      exact ⟨rfl, rfl⟩
  · rw [upd_other _ _ _ _ hcb]
    by_cases hca : c = a
    · subst hca
      rw [upd_same]
      exact ⟨rfl, rfl⟩
    · rw [upd_other _ _ _ _ hca]
      exact ⟨rfl, rfl⟩

theorem searchBreak_first (p : Nat → Bool) : ∀ (n i x : Nat), i ≤ x → x < i + n → p x = true →
    (∀ y, i ≤ y → y < x → p y = false) → searchBreak p n i = x := by
  intro n
  induction n with
  | zero => intro i x h1 h2; omega
  | succ n ih =>
    intro i x h1 h2 hp hq
    unfold searchBreak
    by_cases e : i = x
    · subst e
      rw [if_pos hp]
    · rw [if_neg (by rw [hq i (Nat.le_refl _) (by omega)]; exact Bool.false_ne_true)]
      exact ih (i + 1) x (by omega) (by omega) hp (fun y a b => hq y (by omega) b)

theorem searchBreak_all (p : Nat → Bool) : ∀ (n i : Nat),
    (∀ y, i ≤ y → y < i + n → p y = false) → searchBreak p n i = i + n := by
  intro n
  induction n with
  | zero => intro i _; rfl
  | succ n ih =>
    intro i hq
    unfold searchBreak
    rw [if_neg (by rw [hq i (Nat.le_refl _) (by omega)]; exact Bool.false_ne_true),
      ih (i + 1) (fun y a b => hq y (by omega) (by omega))]
    omega

theorem searchBreak_lt (p : Nat → Bool) : ∀ (n i : Nat),
    searchBreak p n i < i + n → ∃ y, i ≤ y ∧ y < i + n ∧ p y = true := by
  intro n
  induction n with
  | zero => intro i h; unfold searchBreak at h; omega
  | succ n ih =>
    intro i h
    unfold searchBreak at h
    by_cases hp : p i = true
    · exact ⟨i, Nat.le_refl _, by omega, hp⟩
    · rw [if_neg hp] at h
      obtain ⟨y, a, b, c⟩ := ih (i + 1) (by omega)
      exact ⟨y, by omega, by omega, c⟩

theorem searchBreak_found (p : Nat → Bool) (n i y : Nat) (h1 : i ≤ y) (h2 : y < i + n)
    (hp : p y = true) : searchBreak p n i < i + n := by
  by_contra c
  have hle : ∀ (n i : Nat), i ≤ searchBreak p n i ∧ searchBreak p n i ≤ i + n ∧
      (searchBreak p n i = i + n → ∀ z, i ≤ z → z < i + n → p z = false) := by
    intro n
    induction n with
    | zero => intro i; exact ⟨Nat.le_refl _, Nat.le_refl _, fun _ z a b => by omega⟩
    | succ n ih =>
      intro i
      unfold searchBreak
      by_cases hpi : p i = true
      · rw [if_pos hpi]
        exact ⟨Nat.le_refl _, by omega, fun e => by omega⟩
      · rw [if_neg hpi]
        obtain ⟨a, b, d⟩ := ih (i + 1)
        refine ⟨by omega, by omega, fun e z hz1 hz2 => ?_⟩
        by_cases ez : z = i
        · rw [ez]; exact Bool.eq_false_iff.2 hpi
        · exact d (by omega) z (by omega) (by omega)
  obtain ⟨_, b, d⟩ := hle n i
  have := d (by omega) y h1 h2
  rw [hp] at this
  exact absurd this (by simp)

theorem greenSlot_match (sons : Nat → GREENSONDATA) (a k q1 : Nat) :
    decide ((sons a).nb k - (MAX_GREEN_SONS : Int) = (q1 : Int)) = true ↔
      (sons a).nb k = greenPh q1 := by
  rw [decide_eq_true_eq]
  unfold greenPh
  constructor
  · intro h; push_cast; omega
  · intro h; rw [h]; push_cast; omega

theorem greenSlot_found (env : Env) (sons : Nat → GREENSONDATA) (a x q1 : Nat)
    (hms : env.MAX_SIDES_OF_ELEM = 6) (hx : x < 6) (hv : (sons a).nb x = greenPh q1)
    (hu : ∀ x1, (sons a).nb x1 = greenPh q1 → x1 = x) : greenSlot env sons a q1 = x := by
  unfold greenSlot
  rw [hms]
  apply searchBreak_first _ 6 0 x (Nat.zero_le _) (by omega) ((greenSlot_match sons a x q1).2 hv)
  intro y _ hy
  apply Bool.eq_false_iff.2
  intro c
  have := hu y ((greenSlot_match sons a y q1).1 c)
  omega

theorem greenSlot_none (env : Env) (sons : Nat → GREENSONDATA) (a q1 : Nat)
    (hms : env.MAX_SIDES_OF_ELEM = 6) (hu : ∀ x1, (sons a).nb x1 ≠ greenPh q1) :
    greenSlot env sons a q1 = 6 := by
  unfold greenSlot
  rw [hms, searchBreak_all _ 6 0]
  intro y _ _
  apply Bool.eq_false_iff.2
  intro c
  exact hu y ((greenSlot_match sons a y q1).1 c)

/-- The first son of the block with an entry for `q1`, and the entry, when there is one
such entry in the block. -/
theorem GreenSlot1.search {sons : Nat → GREENSONDATA} {q q1 a x : Nat}
    (h : GreenSlot1 sons q q1 a x) (env : Env) (hms : env.MAX_SIDES_OF_ELEM = 6) :
    searchBreak (fun j => decide (greenSlot env sons j q1 < env.MAX_SIDES_OF_ELEM)) 5 (q * 5) = a ∧
      greenSlot env sons a q1 = x := by
  obtain ⟨h1, h2, hx, hv, hu⟩ := h
  have hs : greenSlot env sons a q1 = x :=
    greenSlot_found env sons a x q1 hms hx hv (fun x1 c => (hu a x1 h1 h2 c).2)
  refine ⟨?_, hs⟩
  apply searchBreak_first _ 5 (q * 5) a (by omega) (by omega)
  · rw [hs, hms]
    exact decide_eq_true hx
  · intro y hy1 hy2
    rw [greenSlot_none env sons y q1 hms
      (fun x1 c => by have := (hu y x1 (by omega) (by omega) c).1; omega), hms]
    rfl

theorem RefineElementGreen_edge_plain (env : Env) (s : Mesh) (theElement : Nat)
    (theContext : Nat → Nat) (i : Nat) (sons : Nat → GREENSONDATA) (a x b y : Nat)
    (hms : env.MAX_SIDES_OF_ELEM = 6)
    (h0 : theContext (i + CORNERS_OF_ELEM env s theElement) = 0)
    (ha : GreenSlot1 sons (SIDE_WITH_EDGE env s theElement i 0)
      (SIDE_WITH_EDGE env s theElement i 1) a x)
    (hb : GreenSlot1 sons (SIDE_WITH_EDGE env s theElement i 1)
      (SIDE_WITH_EDGE env s theElement i 0) b y) :
    RefineElementGreen_edge env s theElement theContext i sons =
      .next (greenLink sons a x b y) := by
  obtain ⟨sa, ka⟩ := ha.search env hms
  obtain ⟨sb, kb⟩ := hb.search env hms
  unfold RefineElementGreen_edge
  rw [if_pos h0]
  simp only [sa, sb, ka, kb]
  rw [if_neg (not_not.2 (by have := ha.2.1; omega)), if_neg (not_not.2 (by have := hb.2.1; omega))]
  rfl

theorem filter_range_unique (p : Nat → Bool) (x : Nat) (hx : x < 6) (hp : p x = true)
    (hu : ∀ k, p k = true → k = x) : (List.range 6).filter p = [x] := by
  have : (List.range 6).filter p = (List.range 6).filter (fun k => decide (k = x)) := by
    apply List.filter_congr
    intro k _
    by_cases e : k = x
    · rw [e, hp]; exact (decide_eq_true rfl).symm
    · rw [decide_eq_false e]
      exact Bool.eq_false_iff.2 (fun c => e (hu k c))
  rw [this]
  interval_cases x <;> rfl

theorem greenElementsOfSide_two (env : Env) (sons : Nat → GREENSONDATA) (q q1 a1 x1 a2 x2 : Nat)
    (hms : env.MAX_SIDES_OF_ELEM = 6) (h : GreenSlot2 sons q q1 a1 x1 a2 x2) :
    greenElementsOfSide env sons q q1 = [a1, a2] := by
  obtain ⟨h1, h12, h2, hx1, hx2, hv1, hv2, hu⟩ := h
  have hf : ∀ j, q * 5 ≤ j → j < q * 5 + 5 →
      ((List.range 6).filter
        (fun k => decide ((sons j).nb k - (MAX_GREEN_SONS : Int) = (q1 : Int)))).map (fun _ => j) =
      if j = a1 then [a1] else if j = a2 then [a2] else [] := by
    intro j hj1 hj2
    by_cases e1 : j = a1
    · rw [if_pos e1, e1, filter_range_unique _ x1 hx1 ((greenSlot_match sons a1 x1 q1).2 hv1)]
      · rfl
      · intro k hk
        rcases hu a1 k (by omega) (by omega) ((greenSlot_match sons a1 k q1).1 hk) with c | c
        · exact c.2
        · omega
    · rw [if_neg e1]
      by_cases e2 : j = a2
      · rw [if_pos e2, e2, filter_range_unique _ x2 hx2 ((greenSlot_match sons a2 x2 q1).2 hv2)]
        · rfl
        · intro k hk
          rcases hu a2 k (by omega) (by omega) ((greenSlot_match sons a2 k q1).1 hk) with c | c
          · omega
          · exact c.2
      · rw [if_neg e2, List.map_eq_nil_iff, List.filter_eq_nil_iff]
        intro k _ hk
        rcases hu j k (by omega) (by omega) ((greenSlot_match sons j k q1).1 hk) with c | c
        · exact e1 c.1
        · exact e2 c.1
  unfold greenElementsOfSide
  rw [hms]
  have hr : List.range' (q * 5) 5 = [q * 5, q * 5 + 1, q * 5 + 2, q * 5 + 3, q * 5 + 4] := rfl
  rw [hr]
  simp only [List.flatMap_cons, List.flatMap_nil]
  rw [hf _ (by omega) (by omega), hf _ (by omega) (by omega), hf _ (by omega) (by omega),
    hf _ (by omega) (by omega), hf _ (by omega) (by omega)]
  obtain ⟨r1, rfl⟩ : ∃ r1, a1 = q * 5 + r1 := ⟨a1 - q * 5, by omega⟩
  obtain ⟨r2, rfl⟩ : ∃ r2, a2 = q * 5 + r2 := ⟨a2 - q * 5, by omega⟩
  have hr1 : r1 < 5 := by omega
  have hr2 : r2 < 5 := by omega
  have hlt : r1 < r2 := by omega
  clear hf hu hv1 hv2 h1 h2 h12
  interval_cases r1 <;> interval_cases r2 <;> first | omega | simp

theorem greenHasCorner_iff (env : Env) (sons : Nat → GREENSONDATA) (a N : Nat)
    (hmc : env.MAX_CORNERS_OF_ELEM = 8) :
    greenHasCorner env sons a N = true ↔ greenHas sons a N := by
  unfold greenHasCorner greenHas
  rw [hmc, decide_eq_true_eq]
  constructor
  · intro h
    obtain ⟨y, _, hy, hp⟩ := searchBreak_lt (fun k => decide (N = (sons a).corners k)) 8 0
      (by omega)
    exact ⟨y, by omega, (of_decide_eq_true hp).symm⟩
  · rintro ⟨k, hk, hv⟩
    have := searchBreak_found (fun k => decide (N = (sons a).corners k)) 8 0 k (Nat.zero_le _)
      (by omega) (decide_eq_true hv.symm)
    omega

theorem greenHasCorner_congr (env : Env) (sons sons1 : Nat → GREENSONDATA) (a N : Nat)
    (h : (sons1 a).corners = (sons a).corners) :
    greenHasCorner env sons1 a N = greenHasCorner env sons a N := by
  unfold greenHasCorner
  rw [h]

theorem greenSlot_congr (env : Env) (sons sons1 : Nat → GREENSONDATA) (a q : Nat)
    (h : ∀ k, (sons1 a).nb k = (sons a).nb k) :
    greenSlot env sons1 a q = greenSlot env sons a q := by
  unfold greenSlot
  have : (fun k => decide ((sons1 a).nb k - (MAX_GREEN_SONS : Int) = (q : Int))) =
      (fun k => decide ((sons a).nb k - (MAX_GREEN_SONS : Int) = (q : Int))) := by
    funext k
    rw [h k]
  rw [this]

/-- One round of the loop over the two corners of an edge with a mid node. -/
theorem RefineElementGreen_edge_corner_link (env : Env) (s : Mesh) (theElement : Nat)
    (theContext : Nat → Nat) (i side0 side1 : Nat) (L0 L1 : Nat → Nat) (j : Nat)
    (sons : Nat → GREENSONDATA) (l m x y : Nat) (hms : env.MAX_SIDES_OF_ELEM = 6)
    (hl : searchBreak (fun l => greenHasCorner env sons (L0 l)
      (theContext (CORNER_OF_EDGE env s theElement i j))) 2 0 = l) (hl2 : l < 2)
    (hm : searchBreak (fun m => greenHasCorner env sons (L1 m)
      (theContext (CORNER_OF_EDGE env s theElement i j))) 2 0 = m) (hm2 : m < 2)
    (hk : greenSlot env sons (L0 l) side1 = x) (hx : x < 6)
    (hk1 : greenSlot env sons (L1 m) side0 = y) (hy : y < 6) (hne : L0 l ≠ L1 m) :
    RefineElementGreen_edge_corner env s theElement theContext i side0 side1 L0 L1 j sons =
      .next (greenLink sons (L0 l) x (L1 m) y) := by
  unfold RefineElementGreen_edge_corner
  simp only [hl, hm, hk]
  have hk2 : greenSlot env (upd sons (L0 l)
      { tag := (sons (L0 l)).tag, bdy := (sons (L0 l)).bdy, corners := (sons (L0 l)).corners,
        nb := upd (sons (L0 l)).nb x ((L1 m : Nat) : Int), theSon := (sons (L0 l)).theSon })
      (L1 m) side0 = y := by
    rw [greenSlot_congr env sons _ (L1 m) side0 (fun k => by rw [upd_other _ _ _ _ (Ne.symm hne)])]
    exact hk1
  rw [hk2, hms, if_neg (not_not.2 hl2), if_neg (not_not.2 hm2), if_neg (not_not.2 hx),
    if_neg (not_not.2 hy)]
  rfl

theorem GreenSplit.pick {sons : Nat → GREENSONDATA} {a1 a2 A B : Nat}
    (h : GreenSplit sons a1 a2 A B) (env : Env) (hmc : env.MAX_CORNERS_OF_ELEM = 8)
    (sons1 : Nat → GREENSONDATA) (hc : ∀ a, (sons1 a).corners = (sons a).corners) :
    ∃ lA lB, lA < 2 ∧ lB < 2 ∧ lA ≠ lB ∧
      searchBreak (fun l => greenHasCorner env sons ([a1, a2].getD l 0) A) 2 0 = lA ∧
      searchBreak (fun l => greenHasCorner env sons1 ([a1, a2].getD l 0) B) 2 0 = lB := by
  have e0 : ∀ N, greenHasCorner env sons ([a1, a2].getD 0 0) N = true ↔ greenHas sons a1 N :=
    fun N => greenHasCorner_iff env sons a1 N hmc
  have e1 : ∀ N, greenHasCorner env sons ([a1, a2].getD 1 0) N = true ↔ greenHas sons a2 N :=
    fun N => greenHasCorner_iff env sons a2 N hmc
  have f0 : ∀ N, greenHasCorner env sons1 ([a1, a2].getD 0 0) N =
      greenHasCorner env sons ([a1, a2].getD 0 0) N :=
    fun N => greenHasCorner_congr env sons sons1 _ N (hc _)
  have f1 : ∀ N, greenHasCorner env sons1 ([a1, a2].getD 1 0) N =
      greenHasCorner env sons ([a1, a2].getD 1 0) N :=
    fun N => greenHasCorner_congr env sons sons1 _ N (hc _)
  rcases h with ⟨x, y, z⟩ | ⟨x, y, z⟩
  · refine ⟨0, 1, by omega, by omega, by omega, ?_, ?_⟩
    · exact searchBreak_first _ 2 0 0 (Nat.le_refl _) (by omega) ((e0 A).2 x)
        (fun y a b => by omega)
    · apply searchBreak_first _ 2 0 1 (by omega) (by omega)
      · show greenHasCorner env sons1 ([a1, a2].getD 1 0) B = true
        rw [f1]; exact (e1 B).2 z
      · intro k _ hk
        have hk0 : k = 0 := by omega
        subst hk0
        show greenHasCorner env sons1 ([a1, a2].getD 0 0) B = false
        rw [f0]
        exact Bool.eq_false_iff.2 (fun c => y ((e0 B).1 c))
  · refine ⟨1, 0, by omega, by omega, by omega, ?_, ?_⟩
    · apply searchBreak_first _ 2 0 1 (by omega) (by omega)
      · exact (e1 A).2 y
      · intro k _ hk
        have hk0 : k = 0 := by omega
        subst hk0
        exact Bool.eq_false_iff.2 (fun c => x ((e0 A).1 c))
    · apply searchBreak_first _ 2 0 0 (Nat.le_refl _) (by omega)
      · show greenHasCorner env sons1 ([a1, a2].getD 0 0) B = true
        rw [f0]; exact (e0 B).2 z
      · intro y a b; omega

theorem GreenSlot2.slot {sons : Nat → GREENSONDATA} {q q1 a1 x1 a2 x2 : Nat}
    (h : GreenSlot2 sons q q1 a1 x1 a2 x2) (env : Env) (hms : env.MAX_SIDES_OF_ELEM = 6)
    (l : Nat) (hl : l < 2) :
    greenSlot env sons ([a1, a2].getD l 0) q1 = [x1, x2].getD l 0 ∧ [x1, x2].getD l 0 < 6 ∧
    5 * q ≤ [a1, a2].getD l 0 ∧ [a1, a2].getD l 0 < 5 * q + 5 ∧
    (sons ([a1, a2].getD l 0)).nb ([x1, x2].getD l 0) = greenPh q1 := by
  obtain ⟨h1, h12, h2, hx1, hx2, hv1, hv2, hu⟩ := h
  interval_cases l
  · refine ⟨greenSlot_found env sons a1 x1 q1 hms hx1 hv1 ?_, hx1, h1,
      (by show a1 < 5 * q + 5; omega), hv1⟩
    intro k hk
    rcases hu a1 k (by omega) (by omega) hk with c | c
    · exact c.2
    · omega
  · refine ⟨greenSlot_found env sons a2 x2 q1 hms hx2 hv2 ?_, hx2,
      (by show 5 * q ≤ a2; omega), h2, hv2⟩
    intro k hk
    rcases hu a2 k (by omega) (by omega) hk with c | c
    · omega
    · exact c.2

theorem getD_two_ne (a1 a2 : Nat) (h : a1 < a2) (l l1 : Nat) (hl : l < 2) (hl1 : l1 < 2)
    (hne : l ≠ l1) : [a1, a2].getD l 0 ≠ [a1, a2].getD l1 0 := by
  interval_cases l <;> interval_cases l1 <;> first | omega | (simp; omega)

/-- The body of "connect elements over edges" for an edge with a mid node: two pairs of sons
are linked, one pair for either corner of the edge. -/
theorem RefineElementGreen_edge_mid (env : Env) (s : Mesh) (theElement : Nat)
    (theContext : Nat → Nat) (i : Nat) (sons : Nat → GREENSONDATA)
    (a1 x1 a2 x2 b1 y1 b2 y2 : Nat)
    (hms : env.MAX_SIDES_OF_ELEM = 6) (hmc : env.MAX_CORNERS_OF_ELEM = 8)
    (h0 : theContext (i + CORNERS_OF_ELEM env s theElement) ≠ 0)
    (hq : SIDE_WITH_EDGE env s theElement i 0 ≠ SIDE_WITH_EDGE env s theElement i 1)
    (hA : GreenSlot2 sons (SIDE_WITH_EDGE env s theElement i 0)
      (SIDE_WITH_EDGE env s theElement i 1) a1 x1 a2 x2)
    (hB : GreenSlot2 sons (SIDE_WITH_EDGE env s theElement i 1)
      (SIDE_WITH_EDGE env s theElement i 0) b1 y1 b2 y2)
    (hsa : GreenSplit sons a1 a2 (theContext (CORNER_OF_EDGE env s theElement i 0))
      (theContext (CORNER_OF_EDGE env s theElement i 1)))
    (hsb : GreenSplit sons b1 b2 (theContext (CORNER_OF_EDGE env s theElement i 0))
      (theContext (CORNER_OF_EDGE env s theElement i 1))) :
    ∃ lA lB mA mB, lA < 2 ∧ lB < 2 ∧ lA ≠ lB ∧ mA < 2 ∧ mB < 2 ∧ mA ≠ mB ∧
      RefineElementGreen_edge env s theElement theContext i sons =
        .next (greenLink
          (greenLink sons ([a1, a2].getD lA 0) ([x1, x2].getD lA 0) ([b1, b2].getD mA 0)
            ([y1, y2].getD mA 0))
          ([a1, a2].getD lB 0) ([x1, x2].getD lB 0) ([b1, b2].getD mB 0)
          ([y1, y2].getD mB 0)) := by
  obtain ⟨lA, _, hlA, _, _, sA, _⟩ := hsa.pick env hmc sons (fun _ => rfl)
  obtain ⟨mA, _, hmA, _, _, tA, _⟩ := hsb.pick env hmc sons (fun _ => rfl)
  have hcs : ∀ a, (greenLink sons ([a1, a2].getD lA 0) ([x1, x2].getD lA 0)
      ([b1, b2].getD mA 0) ([y1, y2].getD mA 0) a).corners = (sons a).corners :=
    fun a => (greenLink_same sons _ _ _ _ a).2
  obtain ⟨lA1, lB, _, hlB, hlne, sA1, sB⟩ := hsa.pick env hmc _ hcs
  obtain ⟨mA1, mB, _, hmB, hmne, tA1, tB⟩ := hsb.pick env hmc _ hcs
  have el : lA1 = lA := sA1.symm.trans sA
  have em : mA1 = mA := tA1.symm.trans tA
  rw [el] at hlne
  rw [em] at hmne
  refine ⟨lA, lB, mA, mB, hlA, hlB, hlne, hmA, hmB, hmne, ?_⟩
  obtain ⟨kA, kxA, ka1, ka2, _⟩ := hA.slot env hms lA hlA
  obtain ⟨kB, kxB, kb1, kb2, _⟩ := hA.slot env hms lB hlB
  obtain ⟨jA, jxA, ja1, ja2, _⟩ := hB.slot env hms mA hmA
  obtain ⟨jB, jxB, jb1, jb2, _⟩ := hB.slot env hms mB hmB
  have nAA : [a1, a2].getD lA 0 ≠ [b1, b2].getD mA 0 := by omega
  have nBB : [a1, a2].getD lB 0 ≠ [b1, b2].getD mB 0 := by omega
  have nBA : [a1, a2].getD lB 0 ≠ [a1, a2].getD lA 0 :=
    getD_two_ne a1 a2 hA.2.1 lB lA hlB hlA (Ne.symm hlne)
  have nBbA : [a1, a2].getD lB 0 ≠ [b1, b2].getD mA 0 := by omega
  have mBA : [b1, b2].getD mB 0 ≠ [b1, b2].getD mA 0 :=
    getD_two_ne b1 b2 hB.2.1 mB mA hmB hmA (Ne.symm hmne)
  have mBaA : [b1, b2].getD mB 0 ≠ [a1, a2].getD lA 0 := by omega
  have step1 := RefineElementGreen_edge_corner_link env s theElement theContext i
    (SIDE_WITH_EDGE env s theElement i 0) (SIDE_WITH_EDGE env s theElement i 1)
    (fun l => [a1, a2].getD l 0) (fun m => [b1, b2].getD m 0) 0 sons lA mA _ _ hms sA hlA tA hmA
    kA kxA jA jxA nAA
  have kB1 : greenSlot env (greenLink sons ([a1, a2].getD lA 0) ([x1, x2].getD lA 0)
      ([b1, b2].getD mA 0) ([y1, y2].getD mA 0)) ([a1, a2].getD lB 0)
      (SIDE_WITH_EDGE env s theElement i 1) = [x1, x2].getD lB 0 := by
    rw [greenSlot_congr env sons _ _ _ (fun k => by
      rw [greenLink_nb sons _ _ _ _ nAA, if_neg (fun c => nBA c.1), if_neg (fun c => nBbA c.1)])]
    exact kB
  have jB1 : greenSlot env (greenLink sons ([a1, a2].getD lA 0) ([x1, x2].getD lA 0)
      ([b1, b2].getD mA 0) ([y1, y2].getD mA 0)) ([b1, b2].getD mB 0)
      (SIDE_WITH_EDGE env s theElement i 0) = [y1, y2].getD mB 0 := by
    rw [greenSlot_congr env sons _ _ _ (fun k => by
      rw [greenLink_nb sons _ _ _ _ nAA, if_neg (fun c => mBaA c.1), if_neg (fun c => mBA c.1)])]
    exact jB
  have step2 := RefineElementGreen_edge_corner_link env s theElement theContext i
    (SIDE_WITH_EDGE env s theElement i 0) (SIDE_WITH_EDGE env s theElement i 1)
    (fun l => [a1, a2].getD l 0) (fun m => [b1, b2].getD m 0) 1
    (greenLink sons ([a1, a2].getD lA 0) ([x1, x2].getD lA 0) ([b1, b2].getD mA 0)
      ([y1, y2].getD mA 0)) lB mB _ _ hms sB hlB tB hmB kB1 kxB jB1 jxB nBB
  unfold RefineElementGreen_edge
  rw [if_neg h0]
  simp only [greenElementsOfSide_two env sons _ _ a1 x1 a2 x2 hms hA,
    greenElementsOfSide_two env sons _ _ b1 y1 b2 y2 hms hB]
  rw [if_neg (by simp), if_neg (by simp)]
  show forLoop _ 2 0 sons = _
  unfold forLoop
  rw [step1]
  simp only
  unfold forLoop
  rw [step2]
  rfl

/-! ## "connect elements over edges": the loop -/

theorem GreenInv.start (env : Env) (s : Mesh) (theElement : Nat) (sons0 : Nat → GREENSONDATA) :
    GreenInv env s theElement sons0 sons0 0 :=
  ⟨fun _ => ⟨rfl, rfl⟩, fun _ _ _ => rfl, fun e he _ => absurd he (Nat.not_lt_zero e),
    fun _ _ _ => ⟨fun _ _ _ _ h => h, fun _ _ _ _ h => h⟩⟩

/-- While an edge waits for its turn, the entries that stand for its sides are those of the
table the loop started from. -/
theorem GreenInv.current {env : Env} {s : Mesh} {theElement : Nat} {theContext : Nat → Nat}
    {sons0 sons : Nat → GREENSONDATA} {m : Nat}
    (hinv : GreenInv env s theElement sons0 sons m)
    (hspec : GreenTableSpec env s theElement theContext sons0)
    (hd : GreenDesc env s theElement) (e : Nat) (hme : m ≤ e)
    (he : e < EDGES_OF_ELEM env s theElement) (q q1 : Nat)
    (ho : (q = SIDE_WITH_EDGE env s theElement e 0 ∧ q1 = SIDE_WITH_EDGE env s theElement e 1) ∨
      (q = SIDE_WITH_EDGE env s theElement e 1 ∧ q1 = SIDE_WITH_EDGE env s theElement e 0))
    (a x : Nat) (h1 : 5 * q ≤ a) (h2 : a < 5 * q + 5) :
    (sons a).nb x = greenPh q1 ↔ (sons0 a).nb x = greenPh q1 := by
  have hS := hd.1
  have hph := greenPh_bounds q1
  constructor
  · intro hv
    rcases hspec.nb_kind a x with h | ⟨b, _, _, hb, hb32, _, _, _⟩ | ⟨e1, he1, hor⟩
    · have := hinv.low a x (by rw [h]; decide)
      rw [h, hv] at this
      omega
    · unfold MAX_GREEN_SONS at hb32
      have := hinv.low a x (by rw [hb]; omega)
      rw [hb, hv] at this
      omega
    · obtain ⟨s0, s1, _, _, _⟩ := hd.edge_local e1 he1
      by_cases hlt : e1 < m
      · obtain ⟨l0, l1⟩ := hinv.linked e1 hlt he1
        rcases hor with ⟨c1, c2, c3⟩ | ⟨c1, c2, c3⟩
        · obtain ⟨b, y, _, hb2, _, hb4, _⟩ := l0 a x c1 c2 c3
          rw [hv] at hb4
          omega
        · obtain ⟨b, y, _, hb2, _, hb4, _⟩ := l1 a x c1 c2 c3
          rw [hv] at hb4
          omega
      · obtain ⟨p0, p1⟩ := hinv.pending e1 (by omega) he1
        rcases hor with ⟨c1, c2, c3⟩ | ⟨c1, c2, c3⟩
        · have := p0 a x c1 c2 c3
          rw [hv] at this
          rw [c3, this]
        · have := p1 a x c1 c2 c3
          rw [hv] at this
          rw [c3, this]
  · intro hv
    obtain ⟨p0, p1⟩ := hinv.pending e hme he
    rcases ho with ⟨rfl, rfl⟩ | ⟨rfl, rfl⟩
    · exact p0 a x h1 h2 hv
    · exact p1 a x h1 h2 hv

theorem GreenInv.slot1 {env : Env} {s : Mesh} {theElement : Nat} {theContext : Nat → Nat}
    {sons0 sons : Nat → GREENSONDATA} {m : Nat}
    (hinv : GreenInv env s theElement sons0 sons m)
    (hspec : GreenTableSpec env s theElement theContext sons0)
    (hd : GreenDesc env s theElement) (e : Nat) (hme : m ≤ e)
    (he : e < EDGES_OF_ELEM env s theElement) (q q1 : Nat)
    (ho : (q = SIDE_WITH_EDGE env s theElement e 0 ∧ q1 = SIDE_WITH_EDGE env s theElement e 1) ∨
      (q = SIDE_WITH_EDGE env s theElement e 1 ∧ q1 = SIDE_WITH_EDGE env s theElement e 0))
    (a x : Nat) (h : GreenSlot1 sons0 q q1 a x) : GreenSlot1 sons q q1 a x := by
  have hc := hinv.current hspec hd e hme he q q1 ho
  obtain ⟨h1, h2, hx, hv, hu⟩ := h
  exact ⟨h1, h2, hx, (hc a x h1 h2).2 hv,
    fun a1 x1 g1 g2 gv => hu a1 x1 g1 g2 ((hc a1 x1 g1 g2).1 gv)⟩

theorem GreenInv.slot2 {env : Env} {s : Mesh} {theElement : Nat} {theContext : Nat → Nat}
    {sons0 sons : Nat → GREENSONDATA} {m : Nat}
    (hinv : GreenInv env s theElement sons0 sons m)
    (hspec : GreenTableSpec env s theElement theContext sons0)
    (hd : GreenDesc env s theElement) (e : Nat) (hme : m ≤ e)
    (he : e < EDGES_OF_ELEM env s theElement) (q q1 : Nat)
    (ho : (q = SIDE_WITH_EDGE env s theElement e 0 ∧ q1 = SIDE_WITH_EDGE env s theElement e 1) ∨
      (q = SIDE_WITH_EDGE env s theElement e 1 ∧ q1 = SIDE_WITH_EDGE env s theElement e 0))
    (a1 x1 a2 x2 : Nat) (h : GreenSlot2 sons0 q q1 a1 x1 a2 x2) :
    GreenSlot2 sons q q1 a1 x1 a2 x2 := by
  have hc := hinv.current hspec hd e hme he q q1 ho
  obtain ⟨h1, h12, h2, hx1, hx2, hv1, hv2, hu⟩ := h
  exact ⟨h1, h12, h2, hx1, hx2, (hc a1 x1 h1 (by omega)).2 hv1, (hc a2 x2 (by omega) h2).2 hv2,
    fun a x g1 g2 gv => hu a x g1 g2 ((hc a x g1 g2).1 gv)⟩

theorem GreenInv.split {env : Env} {s : Mesh} {theElement : Nat}
    {sons0 sons : Nat → GREENSONDATA} {m : Nat}
    (hinv : GreenInv env s theElement sons0 sons m) (a1 a2 A B : Nat)
    (h : GreenSplit sons0 a1 a2 A B) : GreenSplit sons a1 a2 A B := by
  have hh : ∀ a N, greenHas sons a N ↔ greenHas sons0 a N := by
    intro a N
    unfold greenHas
    rw [(hinv.same a).2]
  unfold GreenSplit
  rw [hh, hh, hh, hh]
  exact h

/-- An entry that stands for a side of another edge is not among the entries of edge `m`. -/
theorem GreenDesc.other_edge {env : Env} {s : Mesh} {theElement : Nat}
    (hd : GreenDesc env s theElement) (m e : Nat) (hm : m < EDGES_OF_ELEM env s theElement)
    (he : e < EDGES_OF_ELEM env s theElement) (hne : e ≠ m) (sons0 : Nat → GREENSONDATA)
    (q q1 a x : Nat)
    (ho : (q = SIDE_WITH_EDGE env s theElement e 0 ∧ q1 = SIDE_WITH_EDGE env s theElement e 1) ∨
      (q = SIDE_WITH_EDGE env s theElement e 1 ∧ q1 = SIDE_WITH_EDGE env s theElement e 0))
    (h1 : 5 * q ≤ a) (h2 : a < 5 * q + 5) (hv : (sons0 a).nb x = greenPh q1) :
    ¬ ((5 * SIDE_WITH_EDGE env s theElement m 0 ≤ a ∧
        a < 5 * SIDE_WITH_EDGE env s theElement m 0 + 5 ∧
        (sons0 a).nb x = greenPh (SIDE_WITH_EDGE env s theElement m 1)) ∨
      (5 * SIDE_WITH_EDGE env s theElement m 1 ≤ a ∧
        a < 5 * SIDE_WITH_EDGE env s theElement m 1 + 5 ∧
        (sons0 a).nb x = greenPh (SIDE_WITH_EDGE env s theElement m 0))) := by
  have d6 := hd.2.2.2.2.2.1
  intro c
  apply hne
  apply d6 e he m hm
  rcases c with ⟨c1, c2, c3⟩ | ⟨c1, c2, c3⟩
  · have eq : q = SIDE_WITH_EDGE env s theElement m 0 := by omega
    have eq1 : q1 = SIDE_WITH_EDGE env s theElement m 1 := greenPh_inj _ _ (hv.symm.trans c3)
    rcases ho with ⟨o1, o2⟩ | ⟨o1, o2⟩
    · exact Or.inl ⟨o1.symm.trans eq, o2.symm.trans eq1⟩
    · exact Or.inr ⟨o2.symm.trans eq1, o1.symm.trans eq⟩
  · have eq : q = SIDE_WITH_EDGE env s theElement m 1 := by omega
    have eq1 : q1 = SIDE_WITH_EDGE env s theElement m 0 := greenPh_inj _ _ (hv.symm.trans c3)
    rcases ho with ⟨o1, o2⟩ | ⟨o1, o2⟩
    · exact Or.inr ⟨o1.symm.trans eq, o2.symm.trans eq1⟩
    · exact Or.inl ⟨o2.symm.trans eq1, o1.symm.trans eq⟩

theorem GreenLinks.lk_keep {env : Env} {s : Mesh} {theElement : Nat}
    {sons0 sons sons1 : Nat → GREENSONDATA} {m e q q1 : Nat}
    (hl : GreenLinks sons0 sons q q1)
    (hd : GreenDesc env s theElement) (hm : m < EDGES_OF_ELEM env s theElement)
    (he : e < EDGES_OF_ELEM env s theElement) (hne : e ≠ m)
    (ho : (q = SIDE_WITH_EDGE env s theElement e 0 ∧ q1 = SIDE_WITH_EDGE env s theElement e 1) ∨
      (q = SIDE_WITH_EDGE env s theElement e 1 ∧ q1 = SIDE_WITH_EDGE env s theElement e 0))
    (hst : GreenStage sons0 sons sons1 (SIDE_WITH_EDGE env s theElement m 0)
      (SIDE_WITH_EDGE env s theElement m 1)) :
    GreenLinks sons0 sons1 q q1 := by
  intro a x h1 h2 hv
  obtain ⟨b, y, b1, b2, bv, l1, l2⟩ := hl a x h1 h2 hv
  refine ⟨b, y, b1, b2, bv, ?_, ?_⟩
  · rw [hst.frame a x (hd.other_edge m e hm he hne sons0 q q1 a x ho h1 h2 hv)]
    exact l1
  · rw [hst.frame b y (hd.other_edge m e hm he hne sons0 q1 q b y
      (ho.symm.imp (fun c => ⟨c.2, c.1⟩) (fun c => ⟨c.2, c.1⟩)) b1 b2 bv)]
    exact l2

theorem GreenPending.pd_keep {env : Env} {s : Mesh} {theElement : Nat}
    {sons0 sons sons1 : Nat → GREENSONDATA} {m e q q1 : Nat}
    (hp : GreenPending sons0 sons q q1)
    (hd : GreenDesc env s theElement) (hm : m < EDGES_OF_ELEM env s theElement)
    (he : e < EDGES_OF_ELEM env s theElement) (hne : e ≠ m)
    (ho : (q = SIDE_WITH_EDGE env s theElement e 0 ∧ q1 = SIDE_WITH_EDGE env s theElement e 1) ∨
      (q = SIDE_WITH_EDGE env s theElement e 1 ∧ q1 = SIDE_WITH_EDGE env s theElement e 0))
    (hst : GreenStage sons0 sons sons1 (SIDE_WITH_EDGE env s theElement m 0)
      (SIDE_WITH_EDGE env s theElement m 1)) :
    GreenPending sons0 sons1 q q1 := by
  intro a x h1 h2 hv
  rw [hst.frame a x (hd.other_edge m e hm he hne sons0 q q1 a x ho h1 h2 hv)]
  exact hp a x h1 h2 hv

/-- The body for edge `m` takes the table from the state before edge `m` to the state
before edge `m+1`. -/
theorem GreenInv.step {env : Env} {s : Mesh} {theElement : Nat}
    {sons0 sons sons1 : Nat → GREENSONDATA} {m : Nat}
    (hinv : GreenInv env s theElement sons0 sons m) (hd : GreenDesc env s theElement)
    (hm : m < EDGES_OF_ELEM env s theElement)
    (hst : GreenStage sons0 sons sons1 (SIDE_WITH_EDGE env s theElement m 0)
      (SIDE_WITH_EDGE env s theElement m 1)) :
    GreenInv env s theElement sons0 sons1 (m + 1) := by
  constructor
  · intro a
    exact ⟨(hst.same a).1.trans (hinv.same a).1, (hst.same a).2.trans (hinv.same a).2⟩
  · intro a x hv
    rw [hst.frame a x, hinv.low a x hv]
    intro c
    have p0 := greenPh_bounds (SIDE_WITH_EDGE env s theElement m 0)
    have p1 := greenPh_bounds (SIDE_WITH_EDGE env s theElement m 1)
    rcases c with ⟨_, _, c⟩ | ⟨_, _, c⟩ <;> omega
  · intro e he1 he
    by_cases e1 : e = m
    · rw [e1]
      exact hst.links
    · obtain ⟨l0, l1⟩ := hinv.linked e (by omega) he
      exact ⟨l0.lk_keep hd hm he e1 (Or.inl ⟨rfl, rfl⟩) hst,
        l1.lk_keep hd hm he e1 (Or.inr ⟨rfl, rfl⟩) hst⟩
  · intro e he1 he
    obtain ⟨p0, p1⟩ := hinv.pending e (by omega) he
    exact ⟨p0.pd_keep hd hm he (by omega) (Or.inl ⟨rfl, rfl⟩) hst,
      p1.pd_keep hd hm he (by omega) (Or.inr ⟨rfl, rfl⟩) hst⟩

/-- Linking the one place of either side is what the body has to do for an edge without
mid node. -/
theorem GreenStage.of_link {sons0 sons : Nat → GREENSONDATA} {q0 q1 a x b y : Nat}
    (hq : q0 ≠ q1) (ha : GreenSlot1 sons0 q0 q1 a x) (hb : GreenSlot1 sons0 q1 q0 b y) :
    GreenStage sons0 sons (greenLink sons a x b y) q0 q1 := by
  obtain ⟨a1, a2, _, av, au⟩ := ha
  obtain ⟨b1, b2, _, bv, bu⟩ := hb
  have hab : a ≠ b := by omega
  constructor
  · exact fun c => greenLink_same sons a x b y c
  · intro c z hn
    rw [greenLink_nb sons a x b y hab, if_neg, if_neg]
    · rintro ⟨rfl, rfl⟩
      exact hn (Or.inr ⟨b1, b2, bv⟩)
    · rintro ⟨rfl, rfl⟩
      exact hn (Or.inl ⟨a1, a2, av⟩)
  · constructor
    · intro c z c1 c2 cv
      obtain ⟨rfl, rfl⟩ := au c z c1 c2 cv
      refine ⟨b, y, b1, b2, bv, ?_, ?_⟩
      · rw [greenLink_nb sons c z b y hab, if_pos ⟨rfl, rfl⟩]
      · rw [greenLink_nb sons c z b y hab, if_neg (fun h => hab h.1.symm), if_pos ⟨rfl, rfl⟩]
    · intro c z c1 c2 cv
      obtain ⟨rfl, rfl⟩ := bu c z c1 c2 cv
      refine ⟨a, x, a1, a2, av, ?_, ?_⟩
      · rw [greenLink_nb sons a x c z hab, if_neg (fun h => hab h.1.symm), if_pos ⟨rfl, rfl⟩]
      · rw [greenLink_nb sons a x c z hab, if_pos ⟨rfl, rfl⟩]

theorem GreenSlot2.pair {sons : Nat → GREENSONDATA} {q q1 a1 x1 a2 x2 : Nat}
    (h : GreenSlot2 sons q q1 a1 x1 a2 x2) (l l1 : Nat) (hl : l < 2) (hl1 : l1 < 2)
    (hne : l ≠ l1) :
    GreenPair sons q q1 ([a1, a2].getD l 0) ([x1, x2].getD l 0) ([a1, a2].getD l1 0)
      ([x1, x2].getD l1 0) := by
  obtain ⟨h1, h12, h2, _, _, hv1, hv2, hu⟩ := h
  interval_cases l <;> interval_cases l1
  · exact absurd rfl hne
  · exact ⟨h1, by show a1 < 5 * q + 5; omega, by show 5 * q ≤ a2; omega, h2,
      by show a1 ≠ a2; omega, hv1, hv2, hu⟩
  · exact ⟨by show 5 * q ≤ a2; omega, h2, h1, by show a1 < 5 * q + 5; omega,
      by show a2 ≠ a1; omega, hv2, hv1, fun a x g1 g2 gv => (hu a x g1 g2 gv).symm⟩
  · exact absurd rfl hne

/-- Linking the two places of either side, pair by pair, is what the body has to do for an
edge with a mid node. -/
theorem GreenStage.of_two {sons0 sons : Nat → GREENSONDATA}
    {q0 q1 aA xA aB xB bA yA bB yB : Nat} (hq : q0 ≠ q1)
    (ha : GreenPair sons0 q0 q1 aA xA aB xB) (hb : GreenPair sons0 q1 q0 bA yA bB yB) :
    GreenStage sons0 sons (greenLink (greenLink sons aA xA bA yA) aB xB bB yB) q0 q1 := by
  obtain ⟨a1, a2, a3, a4, ane, av1, av2, au⟩ := ha
  obtain ⟨b1, b2, b3, b4, bne, bv1, bv2, bu⟩ := hb
  have nAA : aA ≠ bA := by omega
  have nBB : aB ≠ bB := by omega
  have nAB : aA ≠ bB := by omega
  have nBA : aB ≠ bA := by omega
  have hnb : ∀ c z, (greenLink (greenLink sons aA xA bA yA) aB xB bB yB c).nb z =
      if c = aB ∧ z = xB then ((bB : Nat) : Int)
      else if c = bB ∧ z = yB then ((aB : Nat) : Int)
      else if c = aA ∧ z = xA then ((bA : Nat) : Int)
      else if c = bA ∧ z = yA then ((aA : Nat) : Int) else (sons c).nb z := by
    intro c z
    rw [greenLink_nb _ aB xB bB yB nBB, greenLink_nb sons aA xA bA yA nAA]
  constructor
  · intro c
    exact ⟨(greenLink_same _ aB xB bB yB c).1.trans (greenLink_same sons aA xA bA yA c).1,
      (greenLink_same _ aB xB bB yB c).2.trans (greenLink_same sons aA xA bA yA c).2⟩
  · intro c z hn
    rw [hnb, if_neg, if_neg, if_neg, if_neg]
    · rintro ⟨rfl, rfl⟩
      exact hn (Or.inr ⟨b1, b2, bv1⟩)
    · rintro ⟨rfl, rfl⟩
      exact hn (Or.inl ⟨a1, a2, av1⟩)
    · rintro ⟨rfl, rfl⟩
      exact hn (Or.inr ⟨b3, b4, bv2⟩)
    · rintro ⟨rfl, rfl⟩
      exact hn (Or.inl ⟨a3, a4, av2⟩)
  · constructor
    · intro c z c1 c2 cv
      rcases au c z c1 c2 cv with ⟨rfl, rfl⟩ | ⟨rfl, rfl⟩
      · refine ⟨bA, yA, b1, b2, bv1, ?_, ?_⟩
        · rw [hnb, if_neg (fun h => ane h.1), if_neg (fun h => nAB h.1), if_pos ⟨rfl, rfl⟩]
        · rw [hnb, if_neg (fun h => nBA h.1.symm), if_neg (fun h => bne h.1),
            if_neg (fun h => nAA h.1.symm), if_pos ⟨rfl, rfl⟩]
      · refine ⟨bB, yB, b3, b4, bv2, ?_, ?_⟩
        · rw [hnb, if_pos ⟨rfl, rfl⟩]
        · rw [hnb, if_neg (fun h => nBB h.1.symm), if_pos ⟨rfl, rfl⟩]
    · intro c z c1 c2 cv
      rcases bu c z c1 c2 cv with ⟨rfl, rfl⟩ | ⟨rfl, rfl⟩
      · refine ⟨aA, xA, a1, a2, av1, ?_, ?_⟩
        · rw [hnb, if_neg (fun h => nBA h.1.symm), if_neg (fun h => bne h.1),
            if_neg (fun h => nAA h.1.symm), if_pos ⟨rfl, rfl⟩]
        · rw [hnb, if_neg (fun h => ane h.1), if_neg (fun h => nAB h.1), if_pos ⟨rfl, rfl⟩]
      · refine ⟨aB, xB, a3, a4, av2, ?_, ?_⟩
        · rw [hnb, if_neg (fun h => nBB h.1.symm), if_pos ⟨rfl, rfl⟩]
        · rw [hnb, if_pos ⟨rfl, rfl⟩]

/-- The loop "connect elements over edges" runs through, and links the entries of every
edge it has handled. -/
theorem RefineElementGreen_edges_loop {env : Env} {s : Mesh} {theElement : Nat}
    {theContext : Nat → Nat} {sons0 : Nat → GREENSONDATA}
    (hspec : GreenTableSpec env s theElement theContext sons0)
    (hd : GreenDesc env s theElement)
    (hms : env.MAX_SIDES_OF_ELEM = 6) (hmc : env.MAX_CORNERS_OF_ELEM = 8) :
    ∀ m, m ≤ EDGES_OF_ELEM env s theElement →
      ∃ sons, forLoop (RefineElementGreen_edge env s theElement theContext) m 0 sons0 =
          .next sons ∧ GreenInv env s theElement sons0 sons m := by
  intro m
  induction m with
  | zero => intro _; exact ⟨sons0, rfl, GreenInv.start env s theElement sons0⟩
  | succ m ih =>
    intro hm
    obtain ⟨sons, hrun, hinv⟩ := ih (by omega)
    have hlt : m < EDGES_OF_ELEM env s theElement := by omega
    have hstep := forLoop_snoc (RefineElementGreen_edge env s theElement theContext) m 0 _ sons hrun
    rw [Nat.zero_add] at hstep
    obtain ⟨_, _, hq, _, _⟩ := hd.edge_local m hlt
    by_cases h0 : theContext (m + CORNERS_OF_ELEM env s theElement) = 0
    · obtain ⟨⟨a, x, ha⟩, ⟨b, y, hb⟩⟩ := hspec.edge_plain m hlt h0
      have ha1 := hinv.slot1 hspec hd m (Nat.le_refl _) hlt _ _ (Or.inl ⟨rfl, rfl⟩) a x ha
      have hb1 := hinv.slot1 hspec hd m (Nat.le_refl _) hlt _ _ (Or.inr ⟨rfl, rfl⟩) b y hb
      rw [RefineElementGreen_edge_plain env s theElement theContext m sons a x b y hms h0 ha1 hb1]
        at hstep
      exact ⟨_, hstep, hinv.step hd hlt (GreenStage.of_link hq ha hb)⟩
    · obtain ⟨⟨a1, x1, a2, x2, hA, hsa⟩, ⟨b1, y1, b2, y2, hB, hsb⟩⟩ := hspec.edge_mid m hlt h0
      have hA1 := hinv.slot2 hspec hd m (Nat.le_refl _) hlt _ _ (Or.inl ⟨rfl, rfl⟩) a1 x1 a2 x2 hA
      have hB1 := hinv.slot2 hspec hd m (Nat.le_refl _) hlt _ _ (Or.inr ⟨rfl, rfl⟩) b1 y1 b2 y2 hB
      obtain ⟨lA, lB, mA, mB, l1, l2, l3, m1, m2, m3, hrun2⟩ :=
        RefineElementGreen_edge_mid env s theElement theContext m sons a1 x1 a2 x2 b1 y1 b2 y2
          hms hmc h0 hq hA1 hB1 (hinv.split _ _ _ _ hsa) (hinv.split _ _ _ _ hsb)
      rw [hrun2] at hstep
      exact ⟨_, hstep, hinv.step hd hlt
        (GreenStage.of_two hq (hA.pair lA lB l1 l2 l3) (hB.pair mA mB m1 m2 m3))⟩

/-- Claim C22. For an element whose descriptor is as `GreenDesc` says (the hexahedron, the
prism and the pyramid of `elements.c` are), with a context as `GreenContext` says (corner
nodes that are distinct and no mid or side nodes, a side node only on a quadrilateral side
with four mid nodes), with the index variables of a tetrahedron and a pyramid on their side 0
and the 3-D array sizes, the part of `RefineElementGreen` up to the end of "connect elements
over edges" runs through. In the table it leaves, the first entry of every side is a son;
every son has an index below `MAX_GREEN_SONS`, among its own sides exactly one neighbour
entry `-1`, and every other entry of its own sides is the index `b < MAX_GREEN_SONS` of a
son that has, among its own sides, an entry with the index of the first son. -/
theorem RefineElementGreen_table_adjacency (env : Env) (s : Mesh) (theElement : Nat)
    (theContext : Nat → Nat)
    (hd : GreenDesc env s theElement) (hc : GreenContext env s theElement theContext)
    (hix : RefineElementGreen_indices env = greenIndicesStd)
    (hts : SIDES_OF_TAG env TAG.TETRAHEDRON = 4) (hps : SIDES_OF_TAG env TAG.PYRAMID = 5)
    (hms : env.MAX_SIDES_OF_ELEM = 6) (hmc : env.MAX_CORNERS_OF_ELEM = 8) :
    ∃ sons, RefineElementGreen_table env s theElement theContext = .ok (GM_OK, sons) ∧
      (∀ q, q < SIDES_OF_ELEM env s theElement → (sons (5 * q)).tag ≠ none) ∧
      ∀ a t, (sons a).tag = some t →
        a < MAX_GREEN_SONS ∧
        (∃ x, x < SIDES_OF_TAG env t ∧ (sons a).nb x = -1 ∧
          ∀ y, y < SIDES_OF_TAG env t → (sons a).nb y = -1 → y = x) ∧
        ∀ x, x < SIDES_OF_TAG env t → (sons a).nb x ≠ -1 →
          ∃ (b : Nat) (tb : TAG) (y : Nat), (sons a).nb x = (b : Int) ∧ b < MAX_GREEN_SONS ∧
            (sons b).tag = some tb ∧ y < SIDES_OF_TAG env tb ∧ (sons b).nb y = (a : Int) := by
  have hS := hd.1
  obtain ⟨sons0, hrun0, hblocks, hinit⟩ := RefineElementGreen_sides_table env s theElement
    theContext greenIndicesStd (SIDES_OF_ELEM env s theElement) (fun q hq => hd.to_side hc q hq)
  have hspec := GreenTableSpec.of_blocks hd hc hts hps hblocks hinit
  obtain ⟨sons, hrun, hinv⟩ := RefineElementGreen_edges_loop hspec hd hms hmc
    (EDGES_OF_ELEM env s theElement) (Nat.le_refl _)
  have hlinked : ∀ a x e, e < EDGES_OF_ELEM env s theElement →
      ((5 * SIDE_WITH_EDGE env s theElement e 0 ≤ a ∧
          a < 5 * SIDE_WITH_EDGE env s theElement e 0 + 5 ∧
          (sons0 a).nb x = greenPh (SIDE_WITH_EDGE env s theElement e 1)) ∨
        (5 * SIDE_WITH_EDGE env s theElement e 1 ≤ a ∧
          a < 5 * SIDE_WITH_EDGE env s theElement e 1 + 5 ∧
          (sons0 a).nb x = greenPh (SIDE_WITH_EDGE env s theElement e 0))) →
      ∃ (b : Nat) (tb : TAG) (y : Nat), (sons a).nb x = (b : Int) ∧ b < MAX_GREEN_SONS ∧
        (sons b).tag = some tb ∧ y < SIDES_OF_TAG env tb ∧ (sons b).nb y = (a : Int) := by
    intro a x e he hor
    obtain ⟨s0, s1, _, _, _⟩ := hd.edge_local e he
    obtain ⟨l0, l1⟩ := hinv.linked e he he
    rcases hor with ⟨c1, c2, c3⟩ | ⟨c1, c2, c3⟩
    · obtain ⟨b, y, b1, b2, bv, v1, v2⟩ := l0 a x c1 c2 c3
      obtain ⟨tb, htb, hy⟩ := hspec.used b y (by
        rw [bv]
        have := greenPh_bounds (SIDE_WITH_EDGE env s theElement e 0)
        omega)
      exact ⟨b, tb, y, v1, by unfold MAX_GREEN_SONS; omega, (hinv.same b).1.trans htb, hy, v2⟩
    · obtain ⟨b, y, b1, b2, bv, v1, v2⟩ := l1 a x c1 c2 c3
      obtain ⟨tb, htb, hy⟩ := hspec.used b y (by
        rw [bv]
        have := greenPh_bounds (SIDE_WITH_EDGE env s theElement e 1)
        omega)
      exact ⟨b, tb, y, v1, by unfold MAX_GREEN_SONS; omega, (hinv.same b).1.trans htb, hy, v2⟩
  refine ⟨sons, ?_, ?_, ?_⟩
  · unfold RefineElementGreen_table
    simp only [hix, hrun0, hrun]
  · intro q hq
    rw [(hinv.same (5 * q)).1]
    have hok := greenSideRows_ok env s theElement theContext q (hd.to_side hc q hq)
    have := (hblocks q hq).blk_tag 0 (by omega)
    rw [Nat.add_zero, List.getElem?_eq_getElem (by have := hok.1; omega)] at this
    rw [this]
    exact fun c => absurd c (by simp)
  · intro a t ht
    rw [(hinv.same a).1] at ht
    obtain ⟨h32, hpos, h0, hu⟩ := hspec.own a t ht
    refine ⟨h32, ⟨0, hpos, ?_, ?_⟩, ?_⟩
    · rw [hinv.low a 0 (by rw [h0]; decide), h0]
    · intro y hy hv
      rcases hspec.nb_kind a y with h | ⟨b, _, _, hb, hb32, _, _, _⟩ | ⟨e, he, hor⟩
      · exact hu y hy h
      · unfold MAX_GREEN_SONS at hb32
        have := hinv.low a y (by rw [hb]; omega)
        rw [hb, hv] at this
        omega
      · obtain ⟨b, _, _, hb, _⟩ := hlinked a y e he hor
        rw [hv] at hb
        omega
    · intro x hx hv
      rcases hspec.nb_kind a x with h | ⟨b, tb, y, hb, hb32, htb, hy, hback⟩ | ⟨e, he, hor⟩
      · have := hinv.low a x (by rw [h]; decide)
        rw [h] at this
        exact absurd this hv
      · have hb32' := hb32
        unfold MAX_GREEN_SONS at hb32 h32
        refine ⟨b, tb, y, ?_, hb32', (hinv.same b).1.trans htb, hy, ?_⟩
        · rw [hinv.low a x (by rw [hb]; omega), hb]
        · rw [hinv.low b y (by rw [hback]; omega), hback]
      · exact hlinked a x e he hor

theorem contextTwoMid_ok : GreenContext envGreenTable meshPyramidTable 1 contextTwoMid := by
  unfold GreenContext
  refine ⟨by decide, by decide, by decide, by decide⟩

/-- Claim C22 at an example: the pyramid with the mid nodes 201 and 202 on two neighbouring
edges of its base. The table has ten tetrahedra; son 0 has the neighbours 5, 11 and 3, and
the sons 5, 11 and 3 have an entry 0 each. -/
theorem RefineElementGreen_table_adjacency_witness :
    greenNbTable (RefineElementGreen_table envGreenTable meshPyramidTable 1 contextTwoMid) 25 =
      [[-1, 5, 11, 3, -1], [-1, 15, 3, 10, -1], [-1, 20, 6, 3, -1], [-1, 2, 0, 1, -1],
        [-1, -1, -1, -1, -1],
        [-1, 11, 0, 6, -1], [-1, 20, 5, 2, -1], [-1, -1, -1, -1, -1], [-1, -1, -1, -1, -1],
        [-1, -1, -1, -1, -1],
        [-1, 15, 1, 11, -1], [-1, 5, 10, 0, -1], [-1, -1, -1, -1, -1], [-1, -1, -1, -1, -1],
        [-1, -1, -1, -1, -1],
        [-1, 20, 1, 10, -1], [-1, -1, -1, -1, -1], [-1, -1, -1, -1, -1], [-1, -1, -1, -1, -1],
        [-1, -1, -1, -1, -1],
        [-1, 6, 2, 15, -1], [-1, -1, -1, -1, -1], [-1, -1, -1, -1, -1], [-1, -1, -1, -1, -1],
        [-1, -1, -1, -1, -1]] ∧
    ∃ sons, RefineElementGreen_table envGreenTable meshPyramidTable 1 contextTwoMid =
        .ok (GM_OK, sons) ∧
      (∀ q, q < SIDES_OF_ELEM envGreenTable meshPyramidTable 1 → (sons (5 * q)).tag ≠ none) ∧
      ∀ a t, (sons a).tag = some t →
        a < MAX_GREEN_SONS ∧
        (∃ x, x < SIDES_OF_TAG envGreenTable t ∧ (sons a).nb x = -1 ∧
          ∀ y, y < SIDES_OF_TAG envGreenTable t → (sons a).nb y = -1 → y = x) ∧
        ∀ x, x < SIDES_OF_TAG envGreenTable t → (sons a).nb x ≠ -1 →
          ∃ (b : Nat) (tb : TAG) (y : Nat), (sons a).nb x = (b : Int) ∧ b < MAX_GREEN_SONS ∧
            (sons b).tag = some tb ∧ y < SIDES_OF_TAG envGreenTable tb ∧
            (sons b).nb y = (a : Int) :=
  ⟨by decide,
    RefineElementGreen_table_adjacency envGreenTable meshPyramidTable 1 contextTwoMid
      GreenDesc_pyramid contextTwoMid_ok rfl rfl rfl rfl rfl⟩

/-! ## Loops whose rounds all run through -/

/-- A loop over a linked list whose rounds all run through: with a budget below the length
of the list the budget is used up, with any other budget the loop ends, and a property that
every round carries on, from the elements handled to the elements handled and one more,
holds at the end for the whole list. -/
theorem forElements_list {σ : Type} (link : σ → Nat → Nat) (body : Nat → σ → LoopRes σ)
    (succ : Nat → Nat) (P : Nat → Prop) (I : List Nat → σ → Prop)
    (hlink : ∀ d y e, I d y → link y e = succ e)
    (hstep : ∀ d e y, I d y → P e → ∃ z, body e y = .next z ∧ I (d ++ [e]) z) :
    ∀ (l done : List Nat) (e0 : Nat) (x : σ), ListFrom succ e0 l → (∀ e, e ∈ l → P e) →
      I done x → ∀ fuel,
      (fuel < l.length → forElements link body fuel e0 x = .stop Stop.fuel) ∧
      (l.length ≤ fuel → ∃ z, forElements link body fuel e0 x = .next z ∧ I (done ++ l) z) := by
  intro l
  induction l with
  | nil =>
    intro done e0 x hl _ hI fuel
    have h0 : e0 = 0 := hl
    subst h0
    refine ⟨fun h => absurd h (by simp), fun _ => ⟨x, ?_, by simpa using hI⟩⟩
    cases fuel with
    | zero => unfold forElements; rfl
    | succ k => unfold forElements; rfl
  | cons a l ih =>
    intro done e0 x hl hP hI fuel
    obtain ⟨h1, h2, h3⟩ := hl
    subst h1
    obtain ⟨z, hb, hz⟩ := hstep done e0 x hI (hP e0 (List.mem_cons_self _ _))
    have hlk : link z e0 = succ e0 := hlink _ z e0 hz
    cases fuel with
    | zero =>
      refine ⟨fun _ => ?_, fun h => absurd h (by simp)⟩
      unfold forElements
      rw [if_neg h2]
    | succ k =>
      have hrec := ih (done ++ [e0]) (succ e0) z h3
        (fun e he => hP e (List.mem_cons_of_mem _ he)) hz k
      have hunf : forElements link body (k + 1) e0 x = forElements link body k (succ e0) z := by
        rw [forElements, if_neg h2, hb]
        show forElements link body k (link z e0) z = _
        rw [hlk]
      rw [hunf]
      refine ⟨fun h => hrec.1 (by simpa using h), fun h => ?_⟩
      obtain ⟨y, hy, hIy⟩ := hrec.2 (by simpa using h)
      exact ⟨y, hy, by simpa using hIy⟩

/-- A counted loop whose rounds all run through ends, and a property that every round
carries on holds at the end. -/
theorem forLoop_total {σ : Type} (body : Nat → σ → LoopRes σ) (I : Nat → σ → Prop) (n : Nat)
    (hstep : ∀ i x, i < n → I i x → ∃ z, body i x = .next z ∧ I (i + 1) z) :
    ∀ (k i : Nat) (x : σ), i + k ≤ n → I i x →
      ∃ z, forLoop body k i x = .next z ∧ I (i + k) z := by
  intro k
  induction k with
  | zero =>
    intro i x _ hI
    exact ⟨x, rfl, by simpa using hI⟩
  | succ k ih =>
    intro i x hik hI
    obtain ⟨z, hb, hz⟩ := hstep i x (by omega) hI
    obtain ⟨y, hy, hIy⟩ := ih (i + 1) z (by omega) hz
    refine ⟨y, ?_, by rw [show i + (k + 1) = i + 1 + k by omega]; exact hIy⟩
    rw [forLoop, hb]
    exact hy

/-! ## `CloseGrid` with FIFO in a 2-D build with a complete rule set -/

/-- Under what `CloseGrid` writes, the edges of an element stay the same. -/
theorem CloseFrame.cl_edges {s x : Mesh} (h : CloseFrame s x) (env : Env) (e : Nat) :
    EDGES_OF_ELEM env x e = EDGES_OF_ELEM env s e ∧
      ∀ j, edgeOf env x e j = edgeOf env s e j := by
  have hT : x.TAG = s.TAG := h.cl_field Mesh.TAG
  have hC : x.CORNER = s.CORNER := h.cl_field Mesh.CORNER
  have hG : x.GetEdge = s.GetEdge := h.cl_field Mesh.GetEdge
  refine ⟨?_, fun j => ?_⟩
  · unfold EDGES_OF_ELEM; rw [hT]
  · unfold edgeOf CORNER_OF_EDGE; rw [hT, hC, hG]

theorem upd_le_one (f : Nat → Nat) (k v : Nat) (hv : v ≤ 1) (ed : Nat) (h : f ed ≤ 1) :
    upd f k v ed ≤ 1 := by
  unfold upd
  split
  · exact hv
  · exact h

/-- A round of the first loop of `CloseGrid` for an element whose edges exist runs through;
it writes `PATTERN` 0 on the edges of the element. -/
theorem CloseGrid_reset_total (env : Env) (s x : Mesh) (e : Nat) (hx : CloseFrame s x)
    (he : EdgesExist env s e) :
    ∃ z, CloseGrid_reset env e x = .next z ∧ CloseFrame s z ∧
      (∀ ed, x.PATTERN ed ≤ 1 → z.PATTERN ed ≤ 1) ∧
      ∀ j, j < EDGES_OF_ELEM env s e → z.PATTERN (edgeOf env s e j) ≤ 1 := by
  have h1 : CloseFrame s { x with USED := upd x.USED e 0 } :=
    hx.cl_trans (show CloseFrame x _ from rfl)
  have hn : EDGES_OF_ELEM env { x with USED := upd x.USED e 0 } e = EDGES_OF_ELEM env s e :=
    (h1.cl_edges env e).1
  obtain ⟨z, hz, hI⟩ := forLoop_total (CloseGrid_reset_edge env e)
    (fun j y => CloseFrame s y ∧ (∀ ed, x.PATTERN ed ≤ 1 → y.PATTERN ed ≤ 1) ∧
      ∀ j', j' < j → y.PATTERN (edgeOf env s e j') ≤ 1) (EDGES_OF_ELEM env s e)
    (fun i y hi hy => by
      obtain ⟨f, b1, b2⟩ := hy
      have hed : edgeOf env y e i = edgeOf env s e i := (f.cl_edges env e).2 i
      have hne : edgeOf env y e i ≠ 0 := by rw [hed]; exact he i hi
      refine ⟨_, by unfold CloseGrid_reset_edge; dsimp only; rw [if_neg hne], ?_, ?_, ?_⟩
      · exact f.cl_trans (show CloseFrame y _ from rfl)
      · intro ed h0
        exact upd_le_one _ _ _ (by omega) ed (b1 ed h0)
      · intro j' hj'
        show upd y.PATTERN (edgeOf env y e i) 0 (edgeOf env s e j') ≤ 1
        by_cases hc : j' = i
        · subst hc
          rw [hed]
          unfold upd
          rw [if_pos rfl]
          omega
        · exact upd_le_one _ _ _ (by omega) _ (b2 j' (by omega)))
    (EDGES_OF_ELEM env s e) 0 { x with USED := upd x.USED e 0 } (by omega)
    ⟨h1, fun ed h0 => h0, fun j' hj' => absurd hj' (by omega)⟩
  refine ⟨z, ?_, hI.1, hI.2.1, fun j hj => hI.2.2 j (by omega)⟩
  unfold CloseGrid_reset
  dsimp only
  rw [hn]
  exact hz

/-- The first loop of `CloseGrid` over a well-formed list of elements whose edges exist:
with a budget below the length of the list the budget is used up, with any other budget
the loop runs through, and every edge of an element of the list has `PATTERN` 0 or 1. -/
theorem CloseGrid_reset_list (env : Env) (s : Mesh) (l : List Nat)
    (hl : ListFrom s.SUCCE s.FIRSTELEMENT l) (he : ∀ e, e ∈ l → EdgesExist env s e)
    (fuel : Nat) :
    (fuel < l.length →
      forElements (fun y => y.SUCCE) (CloseGrid_reset env) fuel s.FIRSTELEMENT s =
        .stop Stop.fuel) ∧
    (l.length ≤ fuel → ∃ s1,
      forElements (fun y => y.SUCCE) (CloseGrid_reset env) fuel s.FIRSTELEMENT s = .next s1 ∧
      CloseFrame s s1 ∧
      ∀ e, e ∈ l → ∀ j, j < EDGES_OF_ELEM env s e → s1.PATTERN (edgeOf env s e j) ≤ 1) := by
  have h := forElements_list (fun y : Mesh => y.SUCCE) (CloseGrid_reset env) s.SUCCE
    (fun e => EdgesExist env s e)
    (fun done x => CloseFrame s x ∧
      ∀ e, e ∈ done → ∀ j, j < EDGES_OF_ELEM env s e → x.PATTERN (edgeOf env s e j) ≤ 1)
    (fun d y e hy => congrFun (hy.1.cl_field Mesh.SUCCE) e)
    (fun d e y hy hP => by
      obtain ⟨z, hz, f, b1, b2⟩ := CloseGrid_reset_total env s y e hy.1 hP
      refine ⟨z, hz, f, fun e' he' j hj => ?_⟩
      rcases List.mem_append.1 he' with hm | hm
      · exact b1 _ (hy.2 e' hm j hj)
      · rw [List.mem_singleton] at hm
        subst hm
        exact b2 j hj)
    l [] s.FIRSTELEMENT s hl he ⟨CloseFrame.cl_refl s, fun e he => absurd he (by simp)⟩ fuel
  refine ⟨h.1, fun hf => ?_⟩
  obtain ⟨z, hz, f, b⟩ := h.2 hf
  exact ⟨z, hz, f, fun e he => b e (by simpa using he)⟩

/-- A round of the second loop of `CloseGrid` in a 2-D build runs through; it writes
`PATTERN` 1 only and clears the `SIDEPATTERN` of the element. -/
theorem CloseGrid_pattern_total (env : Env) (hd : env.DIM = 2) (s x : Mesh) (e : Nat)
    (hx : CloseFrame s x) :
    ∃ z, CloseGrid_pattern env e x = .next z ∧ CloseFrame s z ∧
      (∀ ed, x.PATTERN ed ≤ 1 → z.PATTERN ed ≤ 1) ∧ z.SIDEPATTERN e = 0 ∧
      ∀ e', x.SIDEPATTERN e' = 0 → z.SIDEPATTERN e' = 0 := by
  have hex : ∃ z, CloseGrid_pattern env e x = .next z ∧
      (∀ ed, x.PATTERN ed ≤ 1 → z.PATTERN ed ≤ 1) ∧ z.SIDEPATTERN e = 0 ∧
      ∀ e', x.SIDEPATTERN e' = 0 → z.SIDEPATTERN e' = 0 := by
    unfold CloseGrid_pattern
    dsimp only
    split
    · obtain ⟨z, hz, hI⟩ := forLoop_total (CloseGrid_pattern_edge env e (x.MARK e))
        (fun _ y => (∀ ed, x.PATTERN ed ≤ 1 → y.PATTERN ed ≤ 1) ∧
          y.SIDEPATTERN = x.SIDEPATTERN) (EDGES_OF_ELEM env x e)
        (fun i y _ hy => by
          unfold CloseGrid_pattern_edge
          dsimp only
          split
          · split
            · exact ⟨_, rfl, fun ed h0 => upd_le_one _ _ _ (by omega) ed (hy.1 ed h0), hy.2⟩
            · exact ⟨_, rfl, hy⟩
          · exact ⟨_, rfl, hy⟩)
        (EDGES_OF_ELEM env x e) 0 x (by omega) ⟨fun ed h0 => h0, rfl⟩
      rw [hz]
      dsimp only
      try rw [if_pos hd]
      refine ⟨_, rfl, hI.1, ?_, fun e' h0 => ?_⟩
      · show upd z.SIDEPATTERN e 0 e = 0
        unfold upd; rw [if_pos rfl]
      · show upd z.SIDEPATTERN e 0 e' = 0
        unfold upd
        split
        · rfl
        · rw [hI.2]; exact h0
    · refine ⟨_, rfl, fun ed h0 => h0, ?_, fun e' h0 => ?_⟩
      · show upd x.SIDEPATTERN e 0 e = 0
        unfold upd; rw [if_pos rfl]
      · show upd x.SIDEPATTERN e 0 e' = 0
        unfold upd
        split
        · rfl
        · exact h0
  obtain ⟨z, hz, b1, b2, b3⟩ := hex
  exact ⟨z, hz, hx.cl_trans (CloseGrid_pattern_frame env e x z hz).pt_to_close, b1, b2, b3⟩

/-- The second loop of `CloseGrid` in a 2-D build over a well-formed list: with a budget
below the length of the list the budget is used up, with any other budget the loop runs
through; the edges keep a `PATTERN` of 0 or 1 and every element of the list has
`SIDEPATTERN` 0. -/
theorem CloseGrid_pattern_list (env : Env) (hd : env.DIM = 2) (s s1 : Mesh) (l : List Nat)
    (hl : ListFrom s.SUCCE s.FIRSTELEMENT l) (h1 : CloseFrame s s1)
    (hb : ∀ e, e ∈ l → ∀ j, j < EDGES_OF_ELEM env s e → s1.PATTERN (edgeOf env s e j) ≤ 1)
    (fuel : Nat) :
    (fuel < l.length →
      forElements (fun y => y.SUCCE) (CloseGrid_pattern env) fuel s1.FIRSTELEMENT s1 =
        .stop Stop.fuel) ∧
    (l.length ≤ fuel → ∃ s2,
      forElements (fun y => y.SUCCE) (CloseGrid_pattern env) fuel s1.FIRSTELEMENT s1 =
        .next s2 ∧
      CloseFrame s s2 ∧
      (∀ e, e ∈ l → ∀ j, j < EDGES_OF_ELEM env s e → s2.PATTERN (edgeOf env s e j) ≤ 1) ∧
      ∀ e, e ∈ l → s2.SIDEPATTERN e = 0) := by
  have hF : s1.FIRSTELEMENT = s.FIRSTELEMENT := h1.cl_field Mesh.FIRSTELEMENT
  rw [hF]
  have h := forElements_list (fun y : Mesh => y.SUCCE) (CloseGrid_pattern env) s.SUCCE
    (fun _ => True)
    (fun done x => CloseFrame s x ∧
      (∀ e, e ∈ l → ∀ j, j < EDGES_OF_ELEM env s e → x.PATTERN (edgeOf env s e j) ≤ 1) ∧
      ∀ e, e ∈ done → x.SIDEPATTERN e = 0)
    (fun d y e hy => congrFun (hy.1.cl_field Mesh.SUCCE) e)
    (fun d e y hy _ => by
      obtain ⟨z, hz, f, b1, b2, b3⟩ := CloseGrid_pattern_total env hd s y e hy.1
      refine ⟨z, hz, f, fun e' he' j hj => b1 _ (hy.2.1 e' he' j hj), fun e' he' => ?_⟩
      rcases List.mem_append.1 he' with hm | hm
      · exact b3 e' (hy.2.2 e' hm)
      · rw [List.mem_singleton] at hm
        subst hm
        exact b2)
    l [] s.FIRSTELEMENT s1 hl (fun _ _ => trivial)
    ⟨h1, hb, fun e he => absurd he (by simp)⟩ fuel
  refine ⟨h.1, fun hf => ?_⟩
  obtain ⟨z, hz, f, b, c⟩ := h.2 hf
  exact ⟨z, hz, f, b, fun e he => c e (by simpa using he)⟩

/-- The edge pattern of an element whose edges exist and have `PATTERN` 0 or 1: the loop
finds it, one bit for each edge. -/
theorem MyEdgePattern_loop_total (env : Env) (x : Mesh) (e : Nat) :
    ∀ (i p m : Nat),
      (∀ j, j < i → edgeOf env x e j ≠ 0 ∧ x.PATTERN (edgeOf env x e j) ≤ 1) → p < 2 ^ m →
      ∃ q, MyEdgePattern_loop env x e i p = some q ∧ q < 2 ^ (m + i) := by
  intro i
  induction i with
  | zero =>
    intro p m _ hp
    exact ⟨p, rfl, by simpa using hp⟩
  | succ i ih =>
    intro p m h hp
    obtain ⟨h1, h2⟩ := h i (by omega)
    have hp1 : (p <<< 1) ||| x.PATTERN (edgeOf env x e i) < 2 ^ (m + 1) := by
      apply Nat.or_lt_two_pow
      · rw [Nat.shiftLeft_eq, pow_succ]
        omega
      · have : 2 ≤ 2 ^ (m + 1) := by
          rw [pow_succ]
          have := Nat.one_le_two_pow (n := m)
          omega
        omega
    obtain ⟨q, hq, hlt⟩ := ih ((p <<< 1) ||| x.PATTERN (edgeOf env x e i)) (m + 1)
      (fun j hj => h j (by omega)) hp1
    refine ⟨q, ?_, by rw [show m + (i + 1) = m + 1 + i by omega]; exact hlt⟩
    rw [MyEdgePattern_loop]
    try dsimp only
    rw [if_neg h1]
    exact hq

/-- A round of the third loop of `CloseGrid` in a 2-D build for an element whose edges
exist runs through. -/
theorem CloseGrid_sidepattern_total (env : Env) (hd : env.DIM = 2) (x : Mesh) (e : Nat)
    (h : ∀ j, j < EDGES_OF_ELEM env x e → edgeOf env x e j ≠ 0 ∧
      x.PATTERN (edgeOf env x e j) ≤ 1) :
    ∃ z, CloseGrid_sidepattern env e x = .next z := by
  obtain ⟨q, hq, _⟩ := MyEdgePattern_loop_total env { x with USED := upd x.USED e 1 } e
    (EDGES_OF_ELEM env x e) 0 0 h (by simp)
  refine ⟨{ x with USED := upd x.USED e 1 }, ?_⟩
  unfold CloseGrid_sidepattern
  dsimp only
  have hn : EDGES_OF_ELEM env { x with USED := upd x.USED e 1 } e = EDGES_OF_ELEM env x e := rfl
  rw [hn, hq]
  dsimp only
  rw [if_pos hd]

/-- With FIFO a mark that `PATTERN2MARK` has found is taken as it is. -/
theorem CloseGrid_mark_found (env : Env) (hf : env.fifoFlag ≠ 0) (s : Mesh) (e : Nat)
    (Mark : Int) (hm : Mark ≠ -1) : CloseGrid_mark env s e Mark = some (Mark, s) := by
  unfold CloseGrid_mark
  rw [if_pos hf, if_neg (fun h => hm h.1), if_neg hm]

/-- In a 2-D build the mark is not replaced by the one of `theFullRefRule`. -/
theorem CloseGrid_fullrule_2d (env : Env) (hd : env.DIM = 2) (s : Mesh) (e : Nat) (Mark : Int) :
    CloseGrid_fullrule env s e Mark = some Mark := by
  unfold CloseGrid_fullrule
  rw [if_neg (fun h => by omega)]

/-- When the pattern of the mark has the edges of the pattern of the element and no other
edge, nothing is put into the FIFO. -/
theorem CloseGrid_fifo_agree (env : Env) (hd : env.DIM = 2) (e p q : Nat) (s : Mesh)
    (h : ∀ j, j < EDGES_OF_ELEM env s e → EDGE_IN_PAT q j = EDGE_IN_PAT p j) :
    CloseGrid_fifo env e p q s = .next s := by
  unfold CloseGrid_fifo
  split
  · try rw [if_pos hd]
    obtain ⟨z, hz, hI⟩ := forLoop_total (CloseGrid_fifo_edge env e p q) (fun _ y => y = s)
      (EDGES_OF_ELEM env s e)
      (fun i y hi hy => by
        subst hy
        have hq := h i hi
        refine ⟨y, ?_, rfl⟩
        unfold CloseGrid_fifo_edge
        rw [if_neg (fun hc => hc.2 (by rw [hq]; exact hc.1)),
          if_neg (fun hc => hc.1 (by rw [← hq]; exact hc.2))])
      (EDGES_OF_ELEM env s e) 0 s (by omega) rfl
    rw [hz, hI]
  · rfl

/-- A round of the fourth loop of `CloseGrid` in a 2-D build with FIFO, for an element
with a complete rule set whose edges exist and whose `SIDEPATTERN` is 0: the round runs
through, it writes the mark of the element and nothing else, and nothing is put into the
FIFO. -/
theorem CloseGrid_rule_total (env : Env) (hd : env.DIM = 2) (hf : env.fifoFlag ≠ 0)
    (x : Mesh × Int) (e : Nat)
    (h : ∀ j, j < EDGES_OF_ELEM env x.1 e → edgeOf env x.1 e j ≠ 0 ∧
      x.1.PATTERN (edgeOf env x.1 e j) ≤ 1)
    (hs : x.1.SIDEPATTERN e = 0) (hc : CompleteRules env (x.1.TAG e)) :
    ∃ Mark : Int, CloseGrid_rule env e x =
      .next ({ x.1 with MARK := upd x.1.MARK e Mark }, if Mark ≠ 0 then x.2 + 1 else x.2) := by
  obtain ⟨q, hq, hlt⟩ := MyEdgePattern_loop_total env x.1 e (EDGES_OF_ELEM env x.1 e) 0 0 h
    (by simp)
  rw [Nat.zero_add] at hlt
  obtain ⟨c1, c2⟩ := hc q hlt
  refine ⟨env.PATTERN2MARK (x.1.TAG e) q, ?_⟩
  unfold CloseGrid_rule
  dsimp only
  rw [hq]
  dsimp only
  rw [hs, Nat.zero_shiftLeft, Nat.zero_or,
    CloseGrid_mark_found env hf x.1 e _ c1]
  dsimp only
  rw [CloseGrid_fullrule_2d env hd]
  dsimp only
  rw [CloseGrid_fifo_agree env hd e q _ x.1 (fun j hj => c2 j hj)]

/-- A round of the fifth loop of `CloseGrid` for an element whose edges exist runs
through. -/
theorem CloseGrid_addpattern_total (env : Env) (x : Mesh) (e : Nat)
    (h : ∀ j, j < EDGES_OF_ELEM env x e → edgeOf env x e j ≠ 0) :
    ∃ z, CloseGrid_addpattern env e x = .next z := by
  unfold CloseGrid_addpattern
  split
  · exact ⟨_, rfl⟩
  · obtain ⟨z, hz, _⟩ := forLoop_total (CloseGrid_addpattern_edge env e)
      (fun _ y => y.TAG = x.TAG ∧ y.CORNER = x.CORNER ∧ y.GetEdge = x.GetEdge)
      (EDGES_OF_ELEM env x e)
      (fun i y hi hy => by
        have hed : edgeOf env y e i = edgeOf env x e i := by
          unfold edgeOf CORNER_OF_EDGE
          rw [hy.1, hy.2.1, hy.2.2]
        unfold CloseGrid_addpattern_edge
        dsimp only
        split
        · exact ⟨_, rfl, hy⟩
        · rw [if_neg (by rw [hed]; exact h i hi)]
          exact ⟨_, rfl, hy⟩)
      (EDGES_OF_ELEM env x e) 0 x (by omega) ⟨rfl, rfl, rfl⟩
    exact ⟨z, hz⟩

/-- A round of the sixth loop of `CloseGrid` in a 2-D build for an element whose edges
exist runs through. -/
theorem CloseGrid_green_total (env : Env) (hd : env.DIM = 2) (x : Mesh) (e : Nat)
    (h : ∀ j, j < EDGES_OF_ELEM env x e → edgeOf env x e j ≠ 0) :
    ∃ z, CloseGrid_green env e x = .next z := by
  unfold CloseGrid_green
  dsimp only
  split
  · exact ⟨_, rfl⟩
  · obtain ⟨z, hz, _⟩ := forLoop_total (CloseGrid_green_edge env e)
      (fun _ y => y.TAG = x.TAG ∧ y.CORNER = x.CORNER ∧ y.GetEdge = x.GetEdge)
      (EDGES_OF_ELEM env x e)
      (fun i y hi hy => by
        have hed : edgeOf env y e i = edgeOf env x e i := by
          unfold edgeOf CORNER_OF_EDGE
          rw [hy.1, hy.2.1, hy.2.2]
        unfold CloseGrid_green_edge
        dsimp only
        rw [if_neg (by rw [hed]; exact h i hi)]
        split
        · rw [if_neg (fun hc => by omega)]
          exact ⟨_, rfl, hy⟩
        · split
          · exact ⟨_, rfl, hy⟩
          · exact ⟨_, rfl, hy⟩)
      (EDGES_OF_ELEM env x e) 0 { x with UPDATE_GREEN := upd x.UPDATE_GREEN e 0 } (by omega)
      ⟨rfl, rfl, rfl⟩
    have hn : EDGES_OF_ELEM env { x with UPDATE_GREEN := upd x.UPDATE_GREEN e 0 } e =
        EDGES_OF_ELEM env x e := rfl
    rw [hn, hz]
    dsimp only
    have hs : CloseGrid_green_sides env e z = .next z := by
      unfold CloseGrid_green_sides
      rw [if_neg (by omega)]
    rw [hs]
    exact ⟨_, rfl⟩

/-- A loop of `CloseGrid` over a well-formed list whose rounds run through and stay within
what `CloseGrid` writes: with a budget below the length of the list the budget is used up,
with any other budget the loop runs through. -/
theorem CloseGrid_loop_list (body : Nat → Mesh → LoopRes Mesh) (P : Nat → Prop) (b : Mesh)
    (l : List Nat) (hl : ListFrom b.SUCCE b.FIRSTELEMENT l) (hP : ∀ e, e ∈ l → P e)
    (hstep : ∀ e x, CloseFrame b x → P e → ∃ z, body e x = .next z ∧ CloseFrame b z)
    (x : Mesh) (hx : CloseFrame b x) (fuel : Nat) :
    (fuel < l.length →
      forElements (fun y => y.SUCCE) body fuel x.FIRSTELEMENT x = .stop Stop.fuel) ∧
    (l.length ≤ fuel → ∃ z,
      forElements (fun y => y.SUCCE) body fuel x.FIRSTELEMENT x = .next z ∧ CloseFrame b z) := by
  have hF : x.FIRSTELEMENT = b.FIRSTELEMENT := hx.cl_field Mesh.FIRSTELEMENT
  rw [hF]
  have h := forElements_list (fun y : Mesh => y.SUCCE) body b.SUCCE P
    (fun _ y => CloseFrame b y)
    (fun d y e hy => congrFun (hy.cl_field Mesh.SUCCE) e)
    (fun d e y hy hp => hstep e y hy hp)
    l [] b.FIRSTELEMENT x hl hP hx fuel
  exact h

/-- With FIFO the statement before the label `FIFOSTART` sets the four pointers to
`NULL`. -/
theorem CloseGrid_fifo_init_cleared (env : Env) (hf : env.fifoFlag ≠ 0) (s : Mesh) :
    CloseGrid_fifo_init env s = fifoCleared s := by
  unfold CloseGrid_fifo_init fifoCleared
  rw [if_pos hf]

/-- The part of `CloseGrid` from the label `FIFOSTART` on, in a 2-D build with FIFO on a
well-formed list of elements with a complete rule set: with a budget below the length of
the list the budget is used up; with any other budget the first sweep runs through, nothing
is put into the FIFO and the jump back to `FIFOSTART` is not taken. -/
theorem CloseGrid_sweeps_complete (env : Env) (hd : env.DIM = 2) (hf : env.fifoFlag ≠ 0)
    (s s2 : Mesh) (l : List Nat) (hl : ListFrom s.SUCCE s.FIRSTELEMENT l)
    (hne : s.FIRSTELEMENT ≠ 0) (he : ∀ e, e ∈ l → EdgesExist env s e)
    (hc : ∀ e, e ∈ l → CompleteRules env (s.TAG e)) (h2 : CloseFrame s s2)
    (hb : ∀ e, e ∈ l → ∀ j, j < EDGES_OF_ELEM env s e → s2.PATTERN (edgeOf env s e j) ≤ 1)
    (hs : ∀ e, e ∈ l → s2.SIDEPATTERN e = 0) (fuel k : Nat) :
    (fuel < l.length →
      CloseGrid_sweeps env fuel (k + 1) s2.FIRSTELEMENT (CloseGrid_fifo_init env s2) =
        .stop Stop.fuel) ∧
    (l.length ≤ fuel → ∃ x4,
      CloseGrid_sweeps env fuel (k + 1) s2.FIRSTELEMENT (CloseGrid_fifo_init env s2) =
        .next x4 ∧ FifoFrame s x4.1 ∧ 0 ≤ x4.2) := by
  have hF : s2.FIRSTELEMENT = s.FIRSTELEMENT := h2.cl_field Mesh.FIRSTELEMENT
  have hb0 : CloseFrame (fifoCleared s) (fifoCleared s2) := by
    unfold CloseFrame at h2 ⊢
    unfold fifoCleared
    rw [h2]
  have hfacts : ∀ (x : Mesh) (e : Nat), CloseFrame (fifoCleared s) x →
      x.PATTERN = s2.PATTERN → e ∈ l →
      ∀ j, j < EDGES_OF_ELEM env x e → edgeOf env x e j ≠ 0 ∧
        x.PATTERN (edgeOf env x e j) ≤ 1 := by
    intro x e hx hp hel j hj
    have hE := hx.cl_edges env e
    have hE1 : EDGES_OF_ELEM env x e = EDGES_OF_ELEM env s e := hE.1
    have hE2 : edgeOf env x e j = edgeOf env s e j := hE.2 j
    rw [hE1] at hj
    rw [hE2, hp]
    exact ⟨he e hel j hj, hb e hel j hj⟩
  have h3 := forElements_list (fun y : Mesh => y.SUCCE) (CloseGrid_sidepattern env) s.SUCCE
    (fun e => e ∈ l)
    (fun _ x => CloseFrame (fifoCleared s) x ∧ x.PATTERN = s2.PATTERN ∧
      x.SIDEPATTERN = s2.SIDEPATTERN)
    (fun d y e hy => congrFun (hy.1.cl_field Mesh.SUCCE) e)
    (fun d e x hx hel => by
      obtain ⟨z, hz⟩ := CloseGrid_sidepattern_total env hd x e (hfacts x e hx.1 hx.2.1 hel)
      obtain ⟨f, fs⟩ := CloseGrid_sidepattern_2d env hd e x z hz
      have fp : z.PATTERN = x.PATTERN := f.side_field Mesh.PATTERN
      exact ⟨z, hz, hx.1.cl_trans f.sd_to_close, fp.trans hx.2.1, fs.trans hx.2.2⟩)
    l [] s.FIRSTELEMENT (fifoCleared s2) hl (fun e h => h) ⟨hb0, rfl, rfl⟩ fuel
  rw [CloseGrid_fifo_init_cleared env hf, hF, CloseGrid_sweeps]
  refine ⟨fun hlt => by rw [h3.1 hlt], fun hge => ?_⟩
  obtain ⟨s3, hz3, f3, p3, sp3⟩ := h3.2 hge
  have h4 := forElements_list (fun y : Mesh × Int => y.1.SUCCE) (CloseGrid_rule env) s.SUCCE
    (fun e => e ∈ l)
    (fun _ x => CloseFrame (fifoCleared s) x.1 ∧ x.1.PATTERN = s2.PATTERN ∧
      x.1.SIDEPATTERN = s2.SIDEPATTERN ∧ 0 ≤ x.2)
    (fun d y e hy => congrFun (hy.1.cl_field Mesh.SUCCE) e)
    (fun d e x hx hel => by
      have hT : x.1.TAG = s.TAG := hx.1.cl_field Mesh.TAG
      obtain ⟨Mark, hM⟩ := CloseGrid_rule_total env hd hf x e
        (hfacts x.1 e hx.1 hx.2.1 hel) (by rw [hx.2.2.1]; exact hs e hel)
        (by rw [hT]; exact hc e hel)
      refine ⟨_, hM, hx.1.cl_trans (show CloseFrame x.1 _ from rfl), hx.2.1, hx.2.2.1, ?_⟩
      show 0 ≤ (if Mark ≠ 0 then x.2 + 1 else x.2)
      have := hx.2.2.2
      split <;> omega)
    l [] s.FIRSTELEMENT (s3, 0) hl (fun e h => h) ⟨f3, p3, sp3, le_refl 0⟩ fuel
  obtain ⟨x4, hz4, f4, _, _, c4⟩ := h4.2 hge
  have hlast : x4.1.fifo_last = 0 := f4.cl_field Mesh.fifo_last
  have hins : x4.1.fifo_insertfirst = 0 := f4.cl_field Mesh.fifo_insertfirst
  have hfirst : x4.1.FIRSTELEMENT = s.FIRSTELEMENT := f4.cl_field Mesh.FIRSTELEMENT
  have hpre : x4.1.PREDE = s.PREDE := f4.cl_field Mesh.PREDE
  rw [hz3]
  dsimp only
  rw [hz4]
  dsimp only
  rw [if_pos hf, hlast, forElements_null]
  dsimp only
  rw [if_neg (by rw [hfirst]; exact hne), if_neg (by rw [hins]; exact fun h => h rfl)]
  refine ⟨_, rfl, ?_, c4⟩
  unfold FifoFrame
  unfold CloseFrame at f4 ⊢
  dsimp only
  rw [hpre, hfirst]
  rw [f4]
  rfl

theorem ListFrom.lf_ne_zero {link : Nat → Nat} :
    ∀ {l : List Nat} {first : Nat}, ListFrom link first l → ∀ a, a ∈ l → a ≠ 0 := by
  intro l
  induction l with
  | nil => intro first _ a ha; exact absurd ha (by simp)
  | cons b l ih =>
    intro first h a ha
    obtain ⟨_, h2, h3⟩ := h
    rcases List.mem_cons.1 ha with hm | hm
    · rw [hm]; exact h2
    · exact ih h3 a hm

/-- `CloseGrid` in a 2-D build with FIFO on a level with at least one element, whose
element list is well-formed, whose edges exist and whose shapes have a complete rule set:
with a budget below the length of the list the budget is used up; with any other budget
`CloseGrid` returns a count that is not negative, and nothing has been put into the
FIFO. -/
theorem CloseGrid_fifo_complete (env : Env) (hd : env.DIM = 2) (hf : env.fifoFlag ≠ 0)
    (s : Mesh) (l : List Nat) (hl : ListFrom s.SUCCE s.FIRSTELEMENT l)
    (hne : s.FIRSTELEMENT ≠ 0) (he : ∀ e, e ∈ l → EdgesExist env s e)
    (hc : ∀ e, e ∈ l → CompleteRules env (s.TAG e)) (fuel : Nat) :
    (fuel < l.length → CloseGrid env fuel s = .error Stop.fuel) ∧
    (l.length ≤ fuel → ∃ cnt s', CloseGrid env fuel s = .ok (cnt, s') ∧ 0 ≤ cnt ∧
      FifoFrame s s') := by
  have hpos : 0 < l.length := by
    cases l with
    | nil => exact absurd hl hne
    | cons a l => simp
  have h1 := CloseGrid_reset_list env s l hl he fuel
  unfold CloseGrid
  refine ⟨fun hlt => by rw [h1.1 hlt], fun hge => ?_⟩
  obtain ⟨s1, hz1, f1, b1⟩ := h1.2 hge
  obtain ⟨s2, hz2, f2, b2, c2⟩ := (CloseGrid_pattern_list env hd s s1 l hl f1 b1 fuel).2 hge
  obtain ⟨k, rfl⟩ : ∃ k, fuel = k + 1 := ⟨fuel - 1, by omega⟩
  obtain ⟨x4, hz4, f4, c4⟩ :=
    (CloseGrid_sweeps_complete env hd hf s s2 l hl hne he hc f2 b2 c2 (k + 1) k).2 hge
  have hedges : ∀ (x : Mesh) (e : Nat), FifoFrame s x → e ∈ l →
      ∀ j, j < EDGES_OF_ELEM env x e → edgeOf env x e j ≠ 0 := by
    intro x e hx hel j hj
    have hE := CloseFrame.cl_edges hx env e
    have hE1 : EDGES_OF_ELEM env x e = EDGES_OF_ELEM env s e := hE.1
    have hE2 : edgeOf env x e j = edgeOf env s e j := hE.2 j
    rw [hE1] at hj
    rw [hE2]
    exact he e hel j hj
  obtain ⟨s5, hz5, f5⟩ := (CloseGrid_loop_list (CloseGrid_addpattern env) (fun e => e ∈ l)
    { fifoCleared s with PREDE := upd s.PREDE s.FIRSTELEMENT 0 } l hl (fun e h => h)
    (fun e x hx hel => by
      obtain ⟨z, hz⟩ := CloseGrid_addpattern_total env x e (hedges x e hx hel)
      exact ⟨z, hz, CloseFrame.cl_trans hx (CloseGrid_addpattern_frame env e x z hz).ad_to_close⟩)
    x4.1 f4 (k + 1)).2 hge
  obtain ⟨s6, hz6, f6⟩ := (CloseGrid_loop_list (CloseGrid_green env) (fun e => e ∈ l)
    { fifoCleared s with PREDE := upd s.PREDE s.FIRSTELEMENT 0 } l hl (fun e h => h)
    (fun e x hx hel => by
      obtain ⟨z, hz⟩ := CloseGrid_green_total env hd x e (hedges x e hx hel)
      exact ⟨z, hz, CloseFrame.cl_trans hx (CloseGrid_green_frame env e x z hz).gr_to_close⟩)
    s5 f5 (k + 1)).2 hge
  rw [hz1]
  dsimp only
  rw [hz2]
  dsimp only
  rw [hz4]
  dsimp only
  rw [hz5]
  dsimp only
  rw [hz6]
  exact ⟨x4.2, s6, rfl, c4, f6⟩

/-- `CloseGrid` with FIFO on a level without elements does not return: the statement
`PREDE(FIRSTELEMENT(theGrid)) = NULL` has no element to write to. -/
theorem CloseGrid_fifo_empty (env : Env) (hf : env.fifoFlag ≠ 0) (s : Mesh)
    (h0 : s.FIRSTELEMENT = 0) (fuel : Nat) :
    CloseGrid env fuel s = .error (if fuel = 0 then Stop.fuel else Stop.abort) := by
  have hi : (CloseGrid_fifo_init env s).fifo_last = 0 ∧
      (CloseGrid_fifo_init env s).FIRSTELEMENT = 0 := by
    rw [CloseGrid_fifo_init_cleared env hf]
    exact ⟨rfl, h0⟩
  unfold CloseGrid
  rw [h0, forElements_null]
  dsimp only
  rw [h0, forElements_null]
  dsimp only
  rw [h0]
  cases fuel with
  | zero => rw [CloseGrid_sweeps]; rfl
  | succ k =>
    rw [CloseGrid_sweeps, forElements_null]
    dsimp only
    rw [forElements_null]
    dsimp only
    rw [if_pos hf, hi.1, forElements_null]
    dsimp only
    rw [if_pos hi.2]
    rfl

/-- The element list and the pointers of the FIFO after a call of `CloseGrid` with FIFO that
has put nothing into the FIFO. -/
theorem FifoFrame.ff_fields {s s' : Mesh} (h : FifoFrame s s') :
    s'.SUCCE = s.SUCCE ∧ s'.FIRSTELEMENT = s.FIRSTELEMENT ∧
    s'.PREDE = upd s.PREDE s.FIRSTELEMENT 0 ∧
    s'.fifo_first = 0 ∧ s'.fifo_last = 0 ∧ s'.fifo_insertfirst = 0 ∧
    s'.fifo_insertlast = 0 := by
  have h' : CloseFrame { fifoCleared s with PREDE := upd s.PREDE s.FIRSTELEMENT 0 } s' := h
  exact ⟨h'.cl_field Mesh.SUCCE, h'.cl_field Mesh.FIRSTELEMENT, h'.cl_field Mesh.PREDE,
    h'.cl_field Mesh.fifo_first, h'.cl_field Mesh.fifo_last,
    h'.cl_field Mesh.fifo_insertfirst, h'.cl_field Mesh.fifo_insertlast⟩

theorem meshRing_list : DoublyLinked meshRing [1, 2, 3, 4] := by decide

theorem meshRing_edges : ∀ e, e ∈ [1, 2, 3, 4] → EdgesExist envFifoTriangles meshRing e := by
  decide

theorem meshRing_rules :
    ∀ e, e ∈ [1, 2, 3, 4] → CompleteRules envFifoTriangles (meshRing.TAG e) := by
  decide

theorem meshRing_closed : CloseGrid envFifoTriangles 4 meshRing = .ok (3, meshRingClosed) := rfl

/-- An element of the list `l` that starts at `first` is reached from `first`. -/
theorem ListFrom.on_list {link : Nat → Nat} :
    ∀ {l : List Nat} {first : Nat}, ListFrom link first l → ∀ a, a ∈ l →
      OnList link first a := by
  intro l
  induction l with
  | nil => intro first _ a ha; exact absurd ha (by simp)
  | cons b l ih =>
    intro first h a ha
    obtain ⟨h1, h2, h3⟩ := h
    rw [h1]
    rcases List.mem_cons.1 ha with hm | hm
    · rw [hm]; exact OnList.head b h2
    · exact OnList.tail b a h2 (ih h3 a hm)

/-- An element reached from `first` is in the list `l` that starts at `first`. -/
theorem ListFrom.of_on_list {link : Nat → Nat} {first a : Nat} (h : OnList link first a) :
    ∀ {l : List Nat}, ListFrom link first l → a ∈ l := by
  induction h with
  | head e h0 =>
    intro l hl
    cases l with
    | nil => exact absurd hl h0
    | cons b l => rw [hl.1]; exact List.mem_cons_self _ _
  | tail first e h0 _ ih =>
    intro l hl
    cases l with
    | nil => exact absurd hl h0
    | cons b l =>
      obtain ⟨h1, _, h3⟩ := hl
      rw [h1] at ih
      exact List.mem_cons_of_mem _ (ih h3)

/-- Without FIFO and in closure mode the tests of the fourth loop of `CloseGrid` keep a
mark that `PATTERN2MARK` has found and write at most the class. -/
theorem CloseGrid_mark_plain (env : Env) (hf : env.fifoFlag = 0) (hh : env.hFlag ≠ 0)
    (s : Mesh) (e : Nat) (Mark : Int) (hm : Mark ≠ -1) :
    ∃ c, CloseGrid_mark env s e Mark = some (Mark, { s with MARKCLASS := c }) := by
  unfold CloseGrid_mark
  rw [if_neg (fun h => h hf), if_neg (fun h => hh h.1), if_neg hm]
  split
  · exact ⟨_, rfl⟩
  · exact ⟨s.MARKCLASS, rfl⟩

/-- Without FIFO nothing is put into the FIFO. -/
theorem CloseGrid_fifo_plain (env : Env) (hf : env.fifoFlag = 0) (e p q : Nat) (s : Mesh) :
    CloseGrid_fifo env e p q s = .next s := by
  unfold CloseGrid_fifo
  rw [if_neg (fun h => h.1 hf)]

/-- The round of the fourth loop of `CloseGrid` for an element with a complete rule set, in
a 2-D build in closure mode without FIFO, runs through and writes the mark and the class
only. -/
theorem CloseGrid_rule_plain (env : Env) (hd : env.DIM = 2) (hf : env.fifoFlag = 0)
    (hh : env.hFlag ≠ 0) (x : Mesh × Int) (e : Nat)
    (h : ∀ j, j < EDGES_OF_ELEM env x.1 e → edgeOf env x.1 e j ≠ 0 ∧
      x.1.PATTERN (edgeOf env x.1 e j) ≤ 1)
    (hs : x.1.SIDEPATTERN e = 0) (hc : CompleteRules env (x.1.TAG e)) :
    ∃ (Mark : Int) (c : Nat → CLASS), CloseGrid_rule env e x =
      .next ({ x.1 with MARKCLASS := c, MARK := upd x.1.MARK e Mark },
        if Mark ≠ 0 then x.2 + 1 else x.2) := by
  obtain ⟨q, hq, hlt⟩ := MyEdgePattern_loop_total env x.1 e (EDGES_OF_ELEM env x.1 e) 0 0 h
    (by simp)
  rw [Nat.zero_add] at hlt
  obtain ⟨c1, _⟩ := hc q hlt
  obtain ⟨c, hm⟩ := CloseGrid_mark_plain env hf hh x.1 e _ c1
  refine ⟨env.PATTERN2MARK (x.1.TAG e) q, c, ?_⟩
  unfold CloseGrid_rule
  dsimp only
  rw [hq]
  dsimp only
  rw [hs, Nat.zero_shiftLeft, Nat.zero_or, hm]
  dsimp only
  rw [CloseGrid_fullrule_2d env hd]
  dsimp only
  rw [CloseGrid_fifo_plain env hf]

/-- `CloseGrid` in a 2-D build in closure mode without FIFO, on a level with at least one
element whose element list is well-formed, whose edges exist and whose shapes have a
complete rule set: with a budget of at least the length of the list `CloseGrid` returns a
count that is not negative. -/
theorem CloseGrid_plain_complete (env : Env) (hd : env.DIM = 2) (hf : env.fifoFlag = 0)
    (hh : env.hFlag ≠ 0) (s : Mesh) (l : List Nat) (hl : ListFrom s.SUCCE s.FIRSTELEMENT l)
    (hne : s.FIRSTELEMENT ≠ 0) (he : ∀ e, e ∈ l → EdgesExist env s e)
    (hc : ∀ e, e ∈ l → CompleteRules env (s.TAG e)) (fuel : Nat) (hge : l.length ≤ fuel) :
    ∃ cnt s', CloseGrid env fuel s = .ok (cnt, s') ∧ 0 ≤ cnt ∧ CloseFrame s s' := by
  have hpos : 0 < l.length := by
    cases l with
    | nil => exact absurd hl hne
    | cons a l => simp
  obtain ⟨s1, hz1, f1, b1⟩ := (CloseGrid_reset_list env s l hl he fuel).2 hge
  obtain ⟨s2, hz2, f2, b2, c2⟩ := (CloseGrid_pattern_list env hd s s1 l hl f1 b1 fuel).2 hge
  obtain ⟨k, rfl⟩ : ∃ k, fuel = k + 1 := ⟨fuel - 1, by omega⟩
  have hF : s2.FIRSTELEMENT = s.FIRSTELEMENT := f2.cl_field Mesh.FIRSTELEMENT
  have hfacts : ∀ (x : Mesh) (e : Nat), CloseFrame s x →
      x.PATTERN = s2.PATTERN → e ∈ l →
      ∀ j, j < EDGES_OF_ELEM env x e → edgeOf env x e j ≠ 0 ∧
        x.PATTERN (edgeOf env x e j) ≤ 1 := by
    intro x e hx hp hel j hj
    have hE := hx.cl_edges env e
    have hE1 : EDGES_OF_ELEM env x e = EDGES_OF_ELEM env s e := hE.1
    have hE2 : edgeOf env x e j = edgeOf env s e j := hE.2 j
    rw [hE1] at hj
    rw [hE2, hp]
    exact ⟨he e hel j hj, b2 e hel j hj⟩
  obtain ⟨s3, hz3, f3, p3, sp3⟩ := (forElements_list (fun y : Mesh => y.SUCCE)
    (CloseGrid_sidepattern env) s.SUCCE (fun e => e ∈ l)
    (fun _ x => CloseFrame s x ∧ x.PATTERN = s2.PATTERN ∧ x.SIDEPATTERN = s2.SIDEPATTERN)
    (fun d y e hy => congrFun (hy.1.cl_field Mesh.SUCCE) e)
    (fun d e x hx hel => by
      obtain ⟨z, hz⟩ := CloseGrid_sidepattern_total env hd x e (hfacts x e hx.1 hx.2.1 hel)
      obtain ⟨f, fs⟩ := CloseGrid_sidepattern_2d env hd e x z hz
      have fp : z.PATTERN = x.PATTERN := f.side_field Mesh.PATTERN
      exact ⟨z, hz, hx.1.cl_trans f.sd_to_close, fp.trans hx.2.1, fs.trans hx.2.2⟩)
    l [] s.FIRSTELEMENT s2 hl (fun e h => h) ⟨f2, rfl, rfl⟩ (k + 1)).2 hge
  obtain ⟨x4, hz4, f4, _, _, c4⟩ := (forElements_list (fun y : Mesh × Int => y.1.SUCCE)
    (CloseGrid_rule env) s.SUCCE (fun e => e ∈ l)
    (fun _ x => CloseFrame s x.1 ∧ x.1.PATTERN = s2.PATTERN ∧
      x.1.SIDEPATTERN = s2.SIDEPATTERN ∧ 0 ≤ x.2)
    (fun d y e hy => congrFun (hy.1.cl_field Mesh.SUCCE) e)
    (fun d e x hx hel => by
      have hT : x.1.TAG = s.TAG := hx.1.cl_field Mesh.TAG
      obtain ⟨Mark, c, hM⟩ := CloseGrid_rule_plain env hd hf hh x e
        (hfacts x.1 e hx.1 hx.2.1 hel) (by rw [hx.2.2.1]; exact c2 e hel)
        (by rw [hT]; exact hc e hel)
      refine ⟨_, hM, hx.1.cl_trans (show CloseFrame x.1 _ from rfl), hx.2.1, hx.2.2.1, ?_⟩
      show 0 ≤ (if Mark ≠ 0 then x.2 + 1 else x.2)
      have := hx.2.2.2
      split <;> omega)
    l [] s.FIRSTELEMENT (s3, 0) hl (fun e h => h) ⟨f3, p3, sp3, le_refl 0⟩ (k + 1)).2 hge
  have hedges : ∀ (x : Mesh) (e : Nat), CloseFrame s x → e ∈ l →
      ∀ j, j < EDGES_OF_ELEM env x e → edgeOf env x e j ≠ 0 := by
    intro x e hx hel j hj
    have hE := hx.cl_edges env e
    have hE1 : EDGES_OF_ELEM env x e = EDGES_OF_ELEM env s e := hE.1
    have hE2 : edgeOf env x e j = edgeOf env s e j := hE.2 j
    rw [hE1] at hj
    rw [hE2]
    exact he e hel j hj
  obtain ⟨s5, hz5, f5⟩ := (CloseGrid_loop_list (CloseGrid_addpattern env) (fun e => e ∈ l)
    s l hl (fun e h => h)
    (fun e x hx hel => by
      obtain ⟨z, hz⟩ := CloseGrid_addpattern_total env x e (hedges x e hx hel)
      exact ⟨z, hz, hx.cl_trans (CloseGrid_addpattern_frame env e x z hz).ad_to_close⟩)
    x4.1 f4 (k + 1)).2 hge
  obtain ⟨s6, hz6, f6⟩ := (CloseGrid_loop_list (CloseGrid_green env) (fun e => e ∈ l)
    s l hl (fun e h => h)
    (fun e x hx hel => by
      obtain ⟨z, hz⟩ := CloseGrid_green_total env hd x e (hedges x e hx hel)
      exact ⟨z, hz, hx.cl_trans (CloseGrid_green_frame env e x z hz).gr_to_close⟩)
    s5 f5 (k + 1)).2 hge
  have hinit : CloseGrid_fifo_init env s2 = s2 := by
    unfold CloseGrid_fifo_init
    rw [if_neg (fun h => h hf)]
  have hsw : CloseGrid_sweeps env (k + 1) (k + 1) s2.FIRSTELEMENT
      (CloseGrid_fifo_init env s2) = .next x4 := by
    rw [hinit, hF, CloseGrid_sweeps, hz3]
    dsimp only
    rw [hz4]
    dsimp only
    rw [if_neg (fun h => h hf)]
  unfold CloseGrid
  rw [hz1]
  dsimp only
  rw [hz2]
  dsimp only
  rw [hsw]
  dsimp only
  rw [hz5]
  dsimp only
  rw [hz6]
  exact ⟨x4.2, s6, rfl, c4, f6⟩

/-- `ComputeCopies` on a level whose element list is well-formed returns `GM_OK` with a
budget of at least the length of the list. -/
theorem ComputeCopies_total (env : Env) (s : Mesh) (l : List Nat)
    (hl : ListFrom s.SUCCE s.FIRSTELEMENT l) (fuel : Nat) (hge : l.length ≤ fuel) :
    ∃ y, ComputeCopies env fuel s = .ok (GM_OK, y) := by
  obtain ⟨x1, hz1, _⟩ := (forElements_list (fun _ : (Nat → Nat) × Int => s.SUCCE)
    (ComputeCopies_seed env s) s.SUCCE (fun _ => True) (fun _ _ => True)
    (fun _ _ _ _ => rfl)
    (fun d e x _ _ => by
      unfold ComputeCopies_seed
      split
      · exact ⟨_, rfl, trivial⟩
      · exact ⟨_, rfl, trivial⟩)
    l [] s.FIRSTELEMENT (env.ClearNextVectorClasses s, 0) hl (fun _ _ => trivial) trivial
    fuel).2 hge
  have h2 : ∃ vn, (if env.rFlag = env.GM_COPY_ALL then
        if x1.2 ≠ 0 then
          forElements (fun _ => s.SUCCE) (ComputeCopies_all env s) fuel s.FIRSTELEMENT x1.1
        else .next x1.1
      else .next (env.PropagateNextVectorClasses s x1.1)) = LoopRes.next vn := by
    split
    · split
      · obtain ⟨vn, hv, _⟩ := (forElements_list (fun _ : Nat → Nat => s.SUCCE)
          (ComputeCopies_all env s) s.SUCCE (fun _ => True) (fun _ _ => True)
          (fun _ _ _ _ => rfl)
          (fun d e x _ _ => ⟨_, rfl, trivial⟩)
          l [] s.FIRSTELEMENT x1.1 hl (fun _ _ => trivial) trivial fuel).2 hge
        exact ⟨vn, hv⟩
      · exact ⟨_, rfl⟩
    · exact ⟨_, rfl⟩
  obtain ⟨vn, hv⟩ := h2
  obtain ⟨y, hz3, _⟩ := (forElements_list (fun y : Mesh => y.SUCCE)
    (ComputeCopies_copy env vn) s.SUCCE (fun _ => True) (fun _ y => y.SUCCE = s.SUCCE)
    (fun _ y e hy => congrFun hy e)
    (fun d e x hx _ => by
      unfold ComputeCopies_copy
      split
      · exact ⟨_, rfl, hx⟩
      · exact ⟨_, rfl, hx⟩)
    l [] s.FIRSTELEMENT s hl (fun _ _ => trivial) rfl fuel).2 hge
  refine ⟨y, ?_⟩
  unfold ComputeCopies
  dsimp only
  rw [hz1]
  dsimp only
  rw [hv]
  dsimp only
  rw [hz3]
/-! ## One marked triangle: the pass `CloseGrid`, `ComputeCopies`, `RefineGrid` -/

/-- The result of a pass on a level with one marked triangle `e0` in which `CloseGrid`
returns a non-negative value, `ComputeCopies` returns and `RefineGrid` returns `GM_OK`:
`e0` has four distinct red sons, a triangle with an edge in common with `e0` is green with
green sons, and every element created for a triangle without an edge in common with `e0`
is a yellow son of it. -/
theorem RefineGrid_pass_one_marked (env : Env) (fu fuel fuel1 fuel2 : Nat)
    (s sc sy s2 : Mesh) (cnt : Int) (e0 : Nat)
    (hdim : env.DIM = 2) (hh : env.hFlag ≠ 0) (hf : env.fifoFlag = 0)
    (htab : TriangleRules env)
    (hlev : ∀ e, OnLevel s e → s.TAG e = TAG.TRIANGLE ∧ s.REFINE e = env.NO_REFINEMENT)
    (he0 : OnLevel s e0)
    (hred : s.MARKCLASS e0 = CLASS.RED_CLASS ∧ s.MARK e0 = env.T_RED)
    (hone : ∀ t, OnLevel s t → t ≠ e0 → s.MARKCLASS t ≠ CLASS.RED_CLASS)
    (hconf : ∀ t, OnLevel s t → t ≠ e0 → ∀ j j', j < 3 → j' < 3 →
      SharesEdge env s e0 t j → SharesEdge env s e0 t j' → j = j')
    (hpool : s.elemPool.Nodup ∧ ∀ e, OnLevel s e → e ∉ s.elemPool)
    (hclose : CloseGrid (withCallees env fu) fuel s = .ok (cnt, sc)) (hcnt : 0 ≤ cnt)
    (hcopy : ComputeCopies (withCallees env fu) fuel1 sc = .ok (GM_OK, sy))
    (hrun : RefineGrid (withCallees env fu) fuel2 sy = .ok (GM_OK, s2)) :
    (s2.NSONS e0 = 4 ∧ (∀ i, i < 4 → NewSon env s2 e0 CLASS.RED_CLASS (s2.SON e0 i)) ∧
      ∀ i j, i < 4 → j < 4 → s2.SON e0 i = s2.SON e0 j → i = j) ∧
    (∀ t, OnLevel s t → t ≠ e0 → (∃ j, j < 3 ∧ SharesEdge env s e0 t j) →
      s2.MARKCLASS t = CLASS.GREEN_CLASS ∧ 0 < s2.NSONS t ∧
      ∀ i, i < s2.NSONS t → NewSon env s2 t CLASS.GREEN_CLASS (s2.SON t i)) ∧
    (∀ t, OnLevel s t → (∀ j, j < 3 → ¬ SharesEdge env s e0 t j) →
      ∀ son, Event.CreateElement t son ∈ s2.trace.drop s.trace.length →
        s2.EFATHER son = t ∧ s2.ECLASS son = CLASS.YELLOW_CLASS) := by
  have hcl : CloseFrame s sc ∧
      (sc.MARKCLASS e0 = CLASS.RED_CLASS ∧ sc.MARK e0 = env.T_RED) ∧
      (∀ t, OnLevel s t → t ≠ e0 → (∃ j, j < 3 ∧ SharesEdge env s e0 t j) →
        sc.MARKCLASS t = CLASS.GREEN_CLASS ∧ sc.MARK t ≠ env.NO_REFINEMENT ∧
        0 < env.NSONS_OF_RULE TAG.TRIANGLE (sc.MARK t)) ∧
      (∀ t, OnLevel s t → (∀ j, j < 3 → ¬ SharesEdge env s e0 t j) →
        sc.MARK t = env.NO_REFINEMENT) :=
    CloseGrid_one_marked (withCallees env fu) hdim hh hf htab
      fuel s sc cnt e0 (fun e he => (hlev e he).1) he0 hred hone hconf hclose hcnt
  obtain ⟨fc, hr0, hgreen, hnone⟩ := hcl
  obtain ⟨_, fy, hcp⟩ := ComputeCopies_spec (withCallees env fu) fuel1 sc sy GM_OK hcopy
  have hkeep : ∀ t, sc.MARK t ≠ env.NO_REFINEMENT →
      sy.MARK t = sc.MARK t ∧ sy.MARKCLASS t = sc.MARKCLASS t := by
    intro t ht
    rcases hcp t with hk | hk
    · exact hk
    · exact absurd hk.1 ht
  have hP : sy.elemPool = s.elemPool :=
    (fy.rule_field Mesh.elemPool).trans (fc.cl_field Mesh.elemPool)
  have hR : sy.REFINE = s.REFINE := (fy.rule_field Mesh.REFINE).trans (fc.cl_field Mesh.REFINE)
  have hT : sy.TAG = s.TAG := (fy.rule_field Mesh.TAG).trans (fc.cl_field Mesh.TAG)
  have hTr : sy.trace = s.trace := (fy.rule_field Mesh.trace).trans (fc.cl_field Mesh.trace)
  have hL : ∀ a, OnLevel sy a ↔ OnLevel s a := by
    intro a
    unfold OnLevel
    rw [show sy.SUCCE = s.SUCCE from
        (fy.rule_field Mesh.SUCCE).trans (fc.cl_field Mesh.SUCCE),
      show sy.FIRSTELEMENT = s.FIRSTELEMENT from
        (fy.rule_field Mesh.FIRSTELEMENT).trans (fc.cl_field Mesh.FIRSTELEMENT)]
  have hI : PassInv env (OnLevel sy) sy :=
    ⟨by rw [hP]; exact hpool.1,
      fun a ha => by rw [hP]; exact hpool.2 a ((hL a).1 ha),
      fun a ha hra => absurd (by rw [hR]; exact (hlev a ((hL a).1 ha)).2) hra⟩
  have hch : ∀ t, OnLevel s t → sy.MARK t ≠ env.NO_REFINEMENT → REF_TYPE_CHANGES sy t := by
    intro t ht hm
    left
    rw [hR, (hlev t ht).2]
    exact fun hk => hm hk.symm
  refine ⟨?_, fun t ht hte hex => ?_, fun t ht hno son hson => ?_⟩
  · have hm0 : sc.MARK e0 ≠ env.NO_REFINEMENT := by rw [hr0.2]; exact htab.2.1
    obtain ⟨k1, k2⟩ := hkeep e0 hm0
    have hm : sy.MARK e0 ≠ env.NO_REFINEMENT := by rw [k1]; exact hm0
    obtain ⟨_, b2, b3, b4⟩ := RefineGrid_builds_sons env fu fuel2 hdim hh sy s2 hI hrun e0
      ((hL e0).2 he0) (hch e0 he0 hm) hm
    rw [hT, (hlev e0 he0).1, k1, hr0.2, htab.2.2.2.2.2.1] at b2
    rw [k2, hr0.1] at b3
    rw [b2] at b3 b4
    exact ⟨b2, b3, b4⟩
  · obtain ⟨g1, g2, g3⟩ := hgreen t ht hte hex
    obtain ⟨k1, k2⟩ := hkeep t g2
    have hm : sy.MARK t ≠ env.NO_REFINEMENT := by rw [k1]; exact g2
    obtain ⟨b1, b2, b3, _⟩ := RefineGrid_builds_sons env fu fuel2 hdim hh sy s2 hI hrun t
      ((hL t).2 ht) (hch t ht hm) hm
    rw [k2, g1] at b1 b3
    rw [hT, (hlev t ht).1, k1] at b2
    exact ⟨b1, by rw [b2]; exact g3, b3⟩
  · obtain ⟨ev, hev, hcls⟩ := RefineGrid_son_classes env fu fuel2 hdim hh sy s2 hI hrun t
      ((hL t).2 ht)
    rw [hev, hTr, List.drop_left] at hson
    obtain ⟨c1, c2, c3⟩ := hcls son hson
    refine ⟨c2, ?_⟩
    rw [c3]
    rcases hcp t with hk | hk
    · exact absurd (hk.1.trans (hnone t ht hno)) c1
    · exact hk.2.2

/-- A loop over an element list that has ended, with some budget, in another way than by
using up the budget ends in the same way with every budget that is not used up. -/
theorem forElements_any_budget {σ : Type} (link : σ → Nat → Nat) (body : Nat → σ → LoopRes σ) :
    ∀ (fuel e : Nat) (x : σ) (r : LoopRes σ), forElements link body fuel e x = r →
      r ≠ .stop Stop.fuel → ∀ k, forElements link body k e x = .stop Stop.fuel ∨
        forElements link body k e x = r := by
  intro fuel
  induction fuel with
  | zero =>
    intro e x r h hr k
    unfold forElements at h
    split at h
    · rename_i he
      right
      rw [he, forElements_null]
      exact h
    · exact absurd h.symm hr
  | succ fuel ih =>
    intro e x r h hr k
    unfold forElements at h
    split at h
    · rename_i he
      right
      rw [he, forElements_null]
      exact h
    · rename_i he
      cases k with
      | zero =>
        left
        unfold forElements
        rw [if_neg he]
      | succ k =>
        unfold forElements
        rw [if_neg he]
        cases hb : body e x with
        | next z =>
          rw [hb] at h
          exact ih _ _ _ h hr k
        | ret c z => rw [hb] at h; exact Or.inr h
        | stop r0 => rw [hb] at h; exact Or.inr h

/-- A call of `RefineGrid` that has returned with some budget returns the same with every
budget that is not used up. -/
theorem RefineGrid_any_budget (env : Env) (s : Mesh) (fuel : Nat) (r : Int × Mesh)
    (h : RefineGrid env fuel s = .ok r) (k : Nat) :
    RefineGrid env k s = .error Stop.fuel ∨ RefineGrid env k s = .ok r := by
  unfold RefineGrid at h ⊢
  split
  · rename_i hu
    rw [if_pos hu] at h
    exact Or.inr h
  · rename_i hu
    rw [if_neg hu] at h
    dsimp only at h ⊢
    cases hF : forElements (fun y => y.SUCCE) (RefineGrid_element env) fuel s.FIRSTELEMENT
        { s with GRID_CHANGED := false } with
    | next y =>
      rw [hF] at h
      rcases forElements_any_budget _ _ _ _ _ _ hF (by simp) k with hk | hk
      · left; rw [hk]
      · right; rw [hk]; exact h
    | ret c y =>
      rw [hF] at h
      rcases forElements_any_budget _ _ _ _ _ _ hF (by simp) k with hk | hk
      · left; rw [hk]
      · right; rw [hk]; exact h
    | stop r0 =>
      rw [hF] at h
      contradiction

/-- A call that has returned the value `c` has returned the mesh that `meshOf` reads. -/
theorem returned_value (r : Except Stop (Int × Mesh)) (d : Mesh) (c : Int) (hc : c ≠ -2)
    (h : valueOf r = c) : r = .ok (c, meshOf r d) := by
  cases r with
  | error e =>
    have h2 : (-2 : Int) = c := h
    exact absurd h2.symm hc
  | ok p =>
    have hp : p.1 = c := h
    show Except.ok p = Except.ok (c, p.2)
    rw [← hp]

theorem meshPatchFull_closed :
    CloseGrid (withCallees envTrianglePassProc 2) 5 meshPatchFull =
      .ok (3, meshPatchFullClosed) :=
  returned_value _ _ 3 (by decide) (by decide)

theorem meshPatchFull_copies :
    ComputeCopies (withCallees envTrianglePassProc 2) 5 meshPatchFullClosed =
      .ok (GM_OK, meshPatchFullCopies) :=
  returned_value _ _ GM_OK (by decide) (by decide)

theorem meshPatchFull_refined :
    RefineGrid (withCallees envTrianglePassProc 2) 5 meshPatchFullCopies =
      .ok (GM_FATAL, meshPatchFullRefined) :=
  returned_value _ _ GM_FATAL (by decide) (by decide)

theorem envTrianglePassProc_rules : TriangleRules envTrianglePassProc := by
  refine ⟨rfl, by decide, fun k hk => ?_, fun k hk => ?_, rfl, rfl, rfl, ?_⟩
  · interval_cases k <;> decide
  · interval_cases k <;> decide
  · rintro p (rfl | rfl | rfl) <;> decide

theorem meshPatch_list : ListFrom meshPatch.SUCCE meshPatch.FIRSTELEMENT [1, 2, 3, 4, 5] := by
  decide

theorem meshPatch_level (e : Nat) (he : OnLevel meshPatch e) : e ∈ [1, 2, 3, 4, 5] :=
  ListFrom.of_on_list he meshPatch_list

theorem meshPatch_edges (e : Nat) (he : e ∈ [1, 2, 3, 4, 5]) :
    EdgesExist envTrianglePassProc meshPatch e := by
  have key : ∀ e, e ∈ [1, 2, 3, 4, 5] → EdgesExist envTrianglePassProc meshPatch e := by
    decide
  exact key e he

theorem meshPatch_unrefined (e : Nat) (_ : OnLevel meshPatch e) :
    meshPatch.TAG e = TAG.TRIANGLE ∧
      meshPatch.REFINE e = envTrianglePassProc.NO_REFINEMENT :=
  ⟨rfl, rfl⟩

theorem meshPatch_one_red (t : Nat) (_ : OnLevel meshPatch t) (ht : t ≠ 1) :
    meshPatch.MARKCLASS t ≠ CLASS.RED_CLASS := by
  show (if t = 1 then CLASS.RED_CLASS else CLASS.NO_CLASS) ≠ CLASS.RED_CLASS
  rw [if_neg ht]
  decide

theorem meshPatch_conforming (t : Nat) (ht : OnLevel meshPatch t) (hne : t ≠ 1)
    (j j' : Nat) (hj : j < 3) (hj' : j' < 3)
    (h1 : SharesEdge envTrianglePassProc meshPatch 1 t j)
    (h2 : SharesEdge envTrianglePassProc meshPatch 1 t j') : j = j' := by
  have key : ∀ t, t ∈ [1, 2, 3, 4, 5] → t ≠ 1 → ∀ j, j < 3 → ∀ j', j' < 3 →
      SharesEdge envTrianglePassProc meshPatch 1 t j →
      SharesEdge envTrianglePassProc meshPatch 1 t j' → j = j' := by
    decide
  exact key t (meshPatch_level t ht) hne j hj j' hj' h1 h2

theorem meshPatch_pool :
    meshPatch.elemPool.Nodup ∧ ∀ e, OnLevel meshPatch e → e ∉ meshPatch.elemPool := by
  have key : ∀ e, e ∈ [1, 2, 3, 4, 5] → e ∉ meshPatch.elemPool := by decide
  exact ⟨by decide, fun e he => key e (meshPatch_level e he)⟩

theorem meshPatch_closed :
    CloseGrid (withCallees envTrianglePassProc 2) 5 meshPatch = .ok (3, meshPatchClosed) :=
  returned_value _ _ 3 (by decide) (by decide)

theorem meshPatch_copies :
    ComputeCopies (withCallees envTrianglePassProc 2) 5 meshPatchClosed =
      .ok (GM_OK, meshPatchCopies) :=
  returned_value _ _ GM_OK (by decide) (by decide)

theorem meshPatch_refined :
    RefineGrid (withCallees envTrianglePassProc 2) 5 meshPatchCopies =
      .ok (GM_OK, meshPatchRefined) :=
  returned_value _ _ GM_OK (by decide) (by decide)

/-- The statement `if ((r = CloseGrid(theGrid))<0) { PrintErrorMessage(...); }` for a call of
`CloseGrid` that returns a negative value: the value is stored in `r`, the message is
written, and the function goes on. -/
theorem RefineMultiGrid_CloseGrid_negative (env : Env) (fuel : Nat) (s sc : Mesh) (r : Int)
    (h : CloseGrid env fuel s = .ok (r, sc)) (hr : r < 0) :
    RefineMultiGrid_CloseGrid env fuel s = .ok (r, logCall sc Event.PrintErrorMessage) := by
  unfold RefineMultiGrid_CloseGrid
  rw [h]
  dsimp only
  rw [if_pos hr]

theorem meshTwoLevels_closed :
    CloseGrid envPyramidLevels 3 (envPyramidLevels.GRID_ON_LEVEL meshTwoLevels 1) =
      .ok (-1, meshTwoLevelsClosed) :=
  returned_value _ _ (-1) (by decide) (by decide)

theorem meshTwoLevels_restricted :
    RestrictMarks envPyramidLevels 3
      (envPyramidLevels.GRID_ON_LEVEL (logCall meshTwoLevelsClosed Event.PrintErrorMessage)
        (1 - 1)) = .ok (GM_OK, meshTwoLevelsRestricted) :=
  returned_value _ _ GM_OK (by decide) (by decide)

theorem meshTwoLevels_copies :
    ComputeCopies envPyramidLevels 3 (logCall meshTwoLevelsClosed Event.PrintErrorMessage) =
      .ok (GM_OK, meshTwoLevelsCopies) :=
  returned_value _ _ GM_OK (by decide) (by decide)

end UG
